import Mathlib

/-!
# Graph construction of `Net` (src/src/caffe/net.cpp)

A shallow embedding of `Net<Dtype>::Init` and of the helpers it calls
(`FilterNet`, `StateMeetsRule`, `AppendTop`, `AppendBottom`, `AppendParam`,
`ShareWeights`), of `ForwardFromTo`, `BackwardFromTo` and `Update`, of
`CopyTrainedLayersFrom` and `ToProto`, of the gradient checker of
include/caffe/test/test_gradient_check_util.hpp (`CheckGradientSingle`,
`GetObjAndGradient`), and of `SliceLayer` (src/caffe/layers/slice_layer.cpp:
`LayerSetUp`, `Reshape`, `Forward_cpu`, `Backward_cpu`), followed by theorems
about the wiring they perform, the calls they make and the values they
compute.

Conventions of the embedding.

* `LOG(FATAL)` and a failing `CHECK` abort the process: the functions that can
  reach one return `Except Fatal _`, one constructor of `Fatal` per message.
* A `Blob<Dtype>*` that points into `blobs_` is the index of the blob in
  `blobs_` (blobs are only ever appended, so indices are stable handles).
* `std::set<string>` is a strictly increasing list of names, `std::map<string,
  int_tp>` an association list read through `find` / `operator[]`.
* A pointer argument that may be `NULL` is an `Option`.
* `Dtype` values (loss weights, multipliers) are rationals: `Init` only tests
  them against zero and against each other.
* The process is the root solver (`Caffe::root_solver()` holds), so
  `share_from_root` is false; logging is not modelled, and neither are
  `memory_used_` and the shapes given to top blobs by `Layer::SetUp`, which
  is taken to return.
* The protobuf messages of caffe.proto and the class `Layer` (layer.hpp) are
  not among the sources: the messages are records with the fields `Init`
  reads, a layer object is the record `Layer` of the answers it gives to the
  calls `Init` makes on it.
* `int_tp` is a signed integer type of at most 64 bits and `size_t` has 64
  bits: a comparison of the two is made after conversion to `size_t`.
* `Layer::Forward`, `Layer::Backward` and `Blob::Update` are parameters of the
  functions that call them, over any type of the state they act on; so are
  `Blob::FromProto` and `Layer::ToProto` (blob.cpp and layer.hpp are not among
  the sources) for `CopyTrainedLayersFrom` and `ToProto`.
* The arrays of a blob live in a `Memory` and are exact: the gradient checker
  is modelled over the rationals, and an array is the list of its elements.
* `SliceLayer` works on blobs handed over as `Blob` records; the getters of
  `Blob` it calls and `Blob::Reshape` (blob.hpp, blob.cpp) are not among the
  sources and are modelled, `CanonicalAxisIndex` and the conversion of a
  `uint32` to `int_tp` are parameters, and the `int_tp` arithmetic of the
  offsets is exact.
-/

namespace caffe

/-! ## Containers -/

/-- Lexicographic comparison of two character sequences by code unit, the
order `std::string::operator<` induces on names. -/
def charsLt : List Char → List Char → Bool
  | _, [] => false
  | [], _ :: _ => true
  | a :: as, b :: bs =>
    if a.toNat < b.toNat then true
    else if a.toNat = b.toNat then charsLt as bs
    else false

/-- The ordering `std::set<string>` keeps its elements in. -/
def nameLt (a b : String) : Bool := charsLt a.data b.data

/-- A `std::set<string>`: its elements in iteration order. -/
abbrev StdSet := List String

/-- The call `s.insert(x)`. -/
def StdSet.insert (x : String) : StdSet → StdSet
  | [] => [x]
  | y :: ys =>
    if x = y then y :: ys
    else if nameLt x y then x :: y :: ys
    else y :: StdSet.insert x ys

/-- The call `s.erase(x)`. -/
def StdSet.erase (x : String) (s : StdSet) : StdSet :=
  s.filter (fun y => decide (y ≠ x))

/-- The test `s.find(x) != s.end()`. -/
def StdSet.contains (s : StdSet) (x : String) : Bool := decide (x ∈ s)

/-- A `std::map<string, int_tp>`: its entries, at most one per key. -/
abbrev StdMap := List (String × Nat)

/-- The lookup `m.find(k)`: the mapped value, or `none` for `m.end()`. -/
def StdMap.find : StdMap → String → Option Nat
  | [], _ => none
  | (k, v) :: m, x => if x = k then some v else StdMap.find m x

/-- The assignment `m[k] = v`. -/
def StdMap.assign : StdMap → String → Nat → StdMap
  | [], k, v => [(k, v)]
  | (k', v') :: m, k, v =>
    if k = k' then (k', v) :: m else (k', v') :: StdMap.assign m k v

/-- The read `m[k]`: `operator[]` default-constructs (to 0) the entry of a key
that is absent, so the map is returned as well. -/
def StdMap.index (m : StdMap) (k : String) : Nat × StdMap :=
  match StdMap.find m k with
  | some v => (v, m)
  | none => (0, StdMap.assign m k 0)

/-- The statement `vv[i].push_back(x)` on a vector of vectors. -/
def pushAt {α : Type} (vv : List (List α)) (i : Nat) (x : α) : List (List α) :=
  vv.set i (vv.getD i [] ++ [x])

/-- The call `v.resize(n)` on an empty vector of vectors. -/
def resized {α : Type} (n : Nat) : List (List α) := List.replicate n []

/-- A loop `for (i = 0; i < n; ++i) body(i)` whose body may abort. -/
def forRange {σ ε : Type} (n : Nat) (body : Nat → σ → Except ε σ) (s : σ) : Except ε σ :=
  match n with
  | 0 => .ok s
  | k + 1 => (forRange k body s).bind (body k)

/-- A loop `for (i = n - 1; i >= 0; --i) body(i)`. -/
def forDown {σ : Type} (n : Nat) (body : Nat → σ → σ) (s : σ) : σ :=
  match n with
  | 0 => s
  | k + 1 => forDown k body (body k s)

/-! ## Messages of caffe.proto -/

/-- The type of loss weights and multipliers. -/
abbrev Dtype := ℚ

/-- The enum `Phase`. -/
inductive Phase where
  | TRAIN
  | TEST
  deriving DecidableEq, Repr, Inhabited

/-- The message `NetState`. -/
structure NetState where
  phase : Phase
  level : Int
  stage : List String
  deriving DecidableEq, Repr, Inhabited

/-- The message `NetStateRule`; an optional field that is unset is `none`. -/
structure NetStateRule where
  phase : Option Phase
  min_level : Option Int
  max_level : Option Int
  stage : List String
  not_stage : List String
  deriving DecidableEq, Repr, Inhabited

/-- The enum `ParamSpec::DimCheckMode`. -/
inductive DimCheckMode where
  | STRICT
  | PERMISSIVE
  deriving DecidableEq, Repr, Inhabited

/-- The message `ParamSpec`; `lr_mult` and `decay_mult` are `none` when unset
(`has_lr_mult()` false), and then read as their default 1. -/
structure ParamSpec where
  name : String
  share_mode : DimCheckMode
  lr_mult : Option Dtype
  decay_mult : Option Dtype
  deriving DecidableEq, Inhabited

/-- The getter `ParamSpec::lr_mult()`. -/
def ParamSpec.lr_mult_value (p : ParamSpec) : Dtype := p.lr_mult.getD 1

/-- The getter `ParamSpec::decay_mult()`. -/
def ParamSpec.decay_mult_value (p : ParamSpec) : Dtype := p.decay_mult.getD 1

/-- A default-constructed `ParamSpec`. -/
def default_param_spec : ParamSpec :=
  { name := "", share_mode := .STRICT, lr_mult := none, decay_mult := none }

/-- The message `BlobProto`, with the fields of a saved parameter blob: the
extents of its shape and its values. -/
structure BlobProto where
  shape : List Int
  data : List Dtype
  deriving DecidableEq, Inhabited

/-- The message `LayerParameter`, with the fields `Net` reads (`include_` is
the repeated field `include`, a reserved word here); `blobs` holds the saved
parameter blobs and is empty in a specification that `ToProto` did not
write. -/
structure LayerParameter where
  name : String
  bottom : List String
  top : List String
  phase : Option Phase
  param : List ParamSpec
  include_ : List NetStateRule
  exclude : List NetStateRule
  propagate_down : List Bool
  blobs : List BlobProto := []
  deriving DecidableEq, Inhabited

/-- The message `NetParameter`, with the fields `Net` reads. -/
structure NetParameter where
  name : String
  input : List String
  input_shape : List (List Int)
  input_dim : List Int
  force_backward : Bool
  state : NetState
  debug_info : Bool
  layer : List LayerParameter
  deriving DecidableEq, Inhabited

/-! ## Blobs, layers and the net -/

/-- A `Blob<Dtype>`: its shape and the handles of its value and gradient
storage (two blobs share storage when the handles agree). -/
structure Blob where
  shape_ : List Int
  data_ : Nat
  diff_ : Nat
  deriving DecidableEq, Repr, Inhabited

/-- The getter `Blob::count()`: the product of the extents. -/
def Blob.count (b : Blob) : Int := b.shape_.prod

/-- A layer object as `Net` sees it: the answers of the virtual functions
`AutoTopBlobs`, `MinTopBlobs`, `ExactNumTopBlobs` and `AllowForceBackward`,
and what `SetUp` leaves in `loss_` and `blobs_` (the shapes of the parameter
blobs). -/
structure Layer where
  layer_param_ : LayerParameter
  AutoTopBlobs : Bool
  MinTopBlobs : Int
  ExactNumTopBlobs : Int
  allow_force_backward_ : List Bool
  loss_ : List Dtype
  blobs_ : List (List Int)
  param_propagate_down_ : List Bool
  deriving DecidableEq, Inhabited

/-- The getter `Layer::loss(top_index)`: 0 beyond the stored weights. -/
def Layer.loss (l : Layer) (top_index : Nat) : Dtype := l.loss_.getD top_index 0

/-- The virtual `Layer::AllowForceBackward(bottom_index)`, true unless the
layer overrides it. -/
def Layer.AllowForceBackward (l : Layer) (bottom_index : Nat) : Bool :=
  l.allow_force_backward_.getD bottom_index true

/-- Modelled from the spec: `Layer::set_param_propagate_down` of layer.hpp,
which is not among the sources; it records whether gradient is computed for
parameter `param_id`, growing the flag vector (with `true`) when needed. -/
def Layer.set_param_propagate_down (l : Layer) (param_id : Nat) (value : Bool) : Layer :=
  let flags := l.param_propagate_down_
  let grown := flags ++ List.replicate (param_id + 1 - flags.length) true
  { l with param_propagate_down_ := grown.set param_id value }

/-- The fatal messages `Net`, the gradient checker and `SliceLayer` can abort
with. -/
inductive Fatal where
  | unknown_bottom_blob (blob_name layer_name : String) (bottom_id : Nat)
  | produced_by_multiple_sources (blob_name : String)
  | include_and_exclude_rules
  | input_shape_and_input_dim
  | incorrect_input_dim
  | one_input_shape_per_input
  | propagate_down_size
  | too_many_params (layer_name : String)
  | share_count_mismatch (param_name : String)
  | share_shape_mismatch (param_name : String)
  | mismatched_lr_mult (param_name : String)
  | mismatched_decay_mult (param_name : String)
  | share_data_count
  | check_start_ge_0
  | check_end_lt_layers_size
  | check_end_ge_0
  | check_start_lt_layers_size
  | incompatible_number_of_blobs (source_layer_name : String)
  | cannot_copy_param (j : Nat) (source_layer_name : String)
  | shape_mismatch_reshape_not_set
  | check_eq_0_blobs_size
  | check_le_0_top_id
  | check_le_0_top_data_id
  | check_eq_top_count_bottom_count
  | check_check_bottom_lt_bottom_size
  | no_blobs_to_check
  | axis_and_slice_dim
  | slice_dim_negative
  | slice_dim_out_of_range
  | check_eq_slice_point_size_top_size
  | check_le_top_size_bottom_slice_axis
  | check_gt_slice_point_prev
  | top_blobs_should_evenly_divide
  | check_eq_count_bottom_count
  | negative_extent
  deriving DecidableEq, Repr, Inhabited

deriving instance DecidableEq for Except

/-- The data members of `Net<Dtype>` that `Init` fills. -/
structure Net where
  name_ : String
  phase_ : Phase
  layers_ : List Layer
  layer_names_ : List String
  layer_names_index_ : StdMap
  layer_need_backward_ : List Bool
  blobs_ : List Blob
  blob_names_ : List String
  blob_names_index_ : StdMap
  blob_need_backward_ : List Bool
  bottom_vecs_ : List (List Nat)
  bottom_id_vecs_ : List (List Nat)
  bottom_need_backward_ : List (List Bool)
  top_vecs_ : List (List Nat)
  top_id_vecs_ : List (List Nat)
  blob_loss_weights_ : List Dtype
  param_id_vecs_ : List (List Nat)
  param_owners_ : List Int
  param_display_names_ : List String
  param_layer_indices_ : List (Nat × Nat)
  param_names_index_ : StdMap
  net_input_blob_indices_ : List Nat
  net_output_blob_indices_ : List Nat
  net_input_blobs_ : List Nat
  net_output_blobs_ : List Nat
  params_ : List Blob
  learnable_params_ : List Nat
  learnable_param_ids_ : List Nat
  params_lr_ : List Dtype
  has_params_lr_ : List Bool
  params_weight_decay_ : List Dtype
  has_params_decay_ : List Bool
  debug_info_ : Bool
  deriving DecidableEq, Inhabited

/-- A freshly constructed `Net`: every container empty. -/
def Net.empty : Net :=
  { name_ := "", phase_ := .TEST, layers_ := [], layer_names_ := [],
    layer_names_index_ := [], layer_need_backward_ := [], blobs_ := [],
    blob_names_ := [], blob_names_index_ := [], blob_need_backward_ := [],
    bottom_vecs_ := [], bottom_id_vecs_ := [], bottom_need_backward_ := [],
    top_vecs_ := [], top_id_vecs_ := [], blob_loss_weights_ := [],
    param_id_vecs_ := [], param_owners_ := [], param_display_names_ := [],
    param_layer_indices_ := [], param_names_index_ := [],
    net_input_blob_indices_ := [], net_output_blob_indices_ := [],
    net_input_blobs_ := [], net_output_blobs_ := [], params_ := [],
    learnable_params_ := [], learnable_param_ids_ := [], params_lr_ := [],
    has_params_lr_ := [], params_weight_decay_ := [], has_params_decay_ := [],
    debug_info_ := false }

/-- The local variables `available_blobs` and `blob_name_to_idx` of `Init`,
together with the net under construction. -/
structure Wiring where
  net : Net
  available_blobs : StdSet
  blob_name_to_idx : StdMap
  deriving DecidableEq, Inhabited

/-- A loop `for (i = 0; i < n; ++i) body(i)` whose body cannot abort. -/
def forUp {σ : Type} (n : Nat) (body : Nat → σ → σ) (s : σ) : σ :=
  match n with
  | 0 => s
  | k + 1 => body k (forUp k body s)

/-! ## Filtering (net.cpp, lines 306-405) -/

/-- The inner loop of `StateMeetsRule`: whether the state's stages contain
`stage`. -/
def StateMeetsRule.has_stage (stages : List String) (stage : String) : Bool :=
  match stages with
  | [] => false
  | s :: rest => if stage = s then true else StateMeetsRule.has_stage rest stage

/-- The loop over `rule.stage`: false at the first stage the state lacks. -/
def StateMeetsRule.stages (state : NetState) : List String → Bool
  | [] => true
  | s :: rest =>
    if !(StateMeetsRule.has_stage state.stage s) then false
    else StateMeetsRule.stages state rest

/-- The loop over `rule.not_stage`: false at the first one the state has. -/
def StateMeetsRule.not_stages (state : NetState) : List String → Bool
  | [] => true
  | s :: rest =>
    if StateMeetsRule.has_stage state.stage s then false
    else StateMeetsRule.not_stages state rest

/-- The function `Net::StateMeetsRule`. -/
def StateMeetsRule (state : NetState) (rule : NetStateRule) (_layer_name : String) : Bool :=
  if rule.phase.isSome && decide (rule.phase ≠ some state.phase) then false
  else if (match rule.min_level with
      | some min_level => decide (state.level < min_level)
      | none => false) then false
  else if (match rule.max_level with
      | some max_level => decide (state.level > max_level)
      | none => false) then false
  else if !(StateMeetsRule.stages state rule.stage) then false
  else if !(StateMeetsRule.not_stages state rule.not_stage) then false
  else true

/-- The loop of `FilterNet` over the exclude rules, which runs while
`layer_included` holds. -/
def FilterNet.exclude_loop (net_state : NetState) (layer_name : String) :
    List NetStateRule → Bool → Bool
  | [], layer_included => layer_included
  | rule :: rest, layer_included =>
    if layer_included then
      FilterNet.exclude_loop net_state layer_name rest
        (if StateMeetsRule net_state rule layer_name then false else layer_included)
    else layer_included

/-- The loop of `FilterNet` over the include rules, which runs while
`layer_included` does not hold. -/
def FilterNet.include_loop (net_state : NetState) (layer_name : String) :
    List NetStateRule → Bool → Bool
  | [], layer_included => layer_included
  | rule :: rest, layer_included =>
    if !layer_included then
      FilterNet.include_loop net_state layer_name rest
        (if StateMeetsRule net_state rule layer_name then true else layer_included)
    else layer_included

/-- The value of `layer_included` after both rule loops. -/
def FilterNet.layer_included (net_state : NetState) (layer_param : LayerParameter) : Bool :=
  FilterNet.include_loop net_state layer_param.name layer_param.include_
    (FilterNet.exclude_loop net_state layer_param.name layer_param.exclude
      (decide (layer_param.include_.length = 0)))

/-- The loop of `FilterNet` over the layers of `param`. -/
def FilterNet.loop (net_state : NetState) :
    List LayerParameter → NetParameter → Except Fatal NetParameter
  | [], param_filtered => .ok param_filtered
  | layer_param :: rest, param_filtered =>
    if ¬ (layer_param.include_.length = 0 ∨ layer_param.exclude.length = 0) then
      .error .include_and_exclude_rules
    else if FilterNet.layer_included net_state layer_param then
      FilterNet.loop net_state rest
        { param_filtered with layer := param_filtered.layer ++ [layer_param] }
    else FilterNet.loop net_state rest param_filtered

/-- The function `Net::FilterNet`; the result is `*param_filtered`. -/
def FilterNet (param : NetParameter) : Except Fatal NetParameter :=
  FilterNet.loop param.state param.layer { param with layer := [] }

/-! ## Wiring helpers (net.cpp, lines 407-596) -/

/-- The local `layer_param` of `AppendTop`: a copy of the layer's parameters,
or `NULL` for a declared input (`layer_id == -1`). -/
def AppendTop.layer_param (param : NetParameter) (layer_id : Int) : Option LayerParameter :=
  if layer_id ≥ 0 then some (param.layer.getD layer_id.toNat default) else none

/-- The name `AppendTop` gives the blob: the declared top, "(automatic)" past
the declared tops, or the declared input when there is no layer. -/
def AppendTop.blob_name (param : NetParameter) (layer_param : Option LayerParameter)
    (top_id : Nat) : String :=
  match layer_param with
  | some lp => if lp.top.length > top_id then lp.top.getD top_id "" else "(automatic)"
  | none => param.input.getD top_id ""

/-- The in-place test of `AppendTop`, apart from `blob_name_to_idx` being
non-null: there is a layer, it has a bottom at position `top_id`, and that
bottom has the blob's name. -/
def AppendTop.in_place (layer_param : Option LayerParameter) (top_id : Nat)
    (blob_name : String) : Bool :=
  match layer_param with
  | some lp => decide (lp.bottom.length > top_id) && decide (blob_name = lp.bottom.getD top_id "")
  | none => false

/-- The "normal output" branch of `AppendTop`, apart from the update of
`blob_name_to_idx`: a new blob is appended to the blob table and recorded
as a net input (`layer_id == -1`) or as a top of the layer. `Reshape` only
records the declared shape. -/
def AppendTop.normal_output (net : Net) (param : NetParameter) (layer_id : Int)
    (top_id : Nat) (blob_name : String) : Net :=
  let blob_id := net.blobs_.length
  let blob_pointer : Blob := { shape_ := [], data_ := blob_id, diff_ := blob_id }
  if layer_id = -1 then
    let shape : List Int :=
      if param.input_dim.length > 0 then
        [param.input_dim.getD (top_id * 4) 0, param.input_dim.getD (top_id * 4 + 1) 0,
         param.input_dim.getD (top_id * 4 + 2) 0, param.input_dim.getD (top_id * 4 + 3) 0]
      else param.input_shape.getD top_id []
    { net with
      blobs_ := net.blobs_ ++ [{ blob_pointer with shape_ := shape }]
      blob_names_ := net.blob_names_ ++ [blob_name]
      blob_need_backward_ := net.blob_need_backward_ ++ [false]
      net_input_blob_indices_ := net.net_input_blob_indices_ ++ [blob_id]
      net_input_blobs_ := net.net_input_blobs_ ++ [blob_id] }
  else
    { net with
      blobs_ := net.blobs_ ++ [blob_pointer]
      blob_names_ := net.blob_names_ ++ [blob_name]
      blob_need_backward_ := net.blob_need_backward_ ++ [false]
      top_id_vecs_ := pushAt net.top_id_vecs_ layer_id.toNat blob_id
      top_vecs_ := pushAt net.top_vecs_ layer_id.toNat blob_id }

/-- The function `Net::AppendTop`. The result holds the net and what the call
left in `*available_blobs` and `*blob_name_to_idx` (`none` for `NULL`). -/
def AppendTop (net : Net) (param : NetParameter) (layer_id : Int) (top_id : Nat)
    (available_blobs : Option StdSet) (blob_name_to_idx : Option StdMap) :
    Except Fatal (Net × Option StdSet × Option StdMap) :=
  let layer_param := AppendTop.layer_param param layer_id
  let blob_name := AppendTop.blob_name param layer_param top_id
  match blob_name_to_idx with
  | some m =>
    if AppendTop.in_place layer_param top_id blob_name then
      let r := StdMap.index m blob_name
      .ok ({ net with
              top_vecs_ := pushAt net.top_vecs_ layer_id.toNat r.1
              top_id_vecs_ := pushAt net.top_id_vecs_ layer_id.toNat r.1 },
           available_blobs.map (StdSet.insert blob_name), some r.2)
    else if (StdMap.find m blob_name).isSome then
      .error (.produced_by_multiple_sources blob_name)
    else
      .ok (AppendTop.normal_output net param layer_id top_id blob_name,
           available_blobs.map (StdSet.insert blob_name),
           some (StdMap.assign m blob_name net.blobs_.length))
  | none =>
    .ok (AppendTop.normal_output net param layer_id top_id blob_name,
         available_blobs.map (StdSet.insert blob_name), none)

/-- The local `blob_name` of `AppendBottom`. -/
def AppendBottom.blob_name (param : NetParameter) (layer_id bottom_id : Nat) : String :=
  (param.layer.getD layer_id default).bottom.getD bottom_id ""

/-- The function `Net::AppendBottom`. The result holds the returned blob id,
the net, and what the call left in `*available_blobs` and
`*blob_name_to_idx`. -/
def AppendBottom (net : Net) (param : NetParameter) (layer_id bottom_id : Nat)
    (available_blobs : StdSet) (blob_name_to_idx : StdMap) :
    Except Fatal (Nat × Net × StdSet × StdMap) :=
  let layer_param := param.layer.getD layer_id default
  let blob_name := AppendBottom.blob_name param layer_id bottom_id
  if !(StdSet.contains available_blobs blob_name) then
    .error (.unknown_bottom_blob blob_name layer_param.name bottom_id)
  else
    let r := StdMap.index blob_name_to_idx blob_name
    let blob_id := r.1
    let propagate_down : Bool :=
      if layer_param.propagate_down.length > 0 then
        layer_param.propagate_down.getD bottom_id true
      else true
    let need_backward := net.blob_need_backward_.getD blob_id false && propagate_down
    .ok (blob_id,
         { net with
           bottom_vecs_ := pushAt net.bottom_vecs_ layer_id blob_id
           bottom_id_vecs_ := pushAt net.bottom_id_vecs_ layer_id blob_id
           bottom_need_backward_ := pushAt net.bottom_need_backward_ layer_id need_backward },
         StdSet.erase blob_name available_blobs, r.2)

/-- The local `param_name` of `AppendParam`. -/
def AppendParam.param_name (layer_param : LayerParameter) (param_id : Nat) : String :=
  if layer_param.param.length > param_id then (layer_param.param.getD param_id default).name
  else ""

/-- The local `param_spec` of `AppendParam`: the declared one, or a default
one past the declared ones. -/
def AppendParam.param_spec (layer_param : LayerParameter) (param_id : Nat) : ParamSpec :=
  if layer_param.param.length > param_id then layer_param.param.getD param_id default
  else default_param_spec

/-- The blob `layers_[layer_id]->blobs()[param_id]` as it enters `params_`:
its shape is the layer's, its storage handles are fresh (the position in
`params_`). -/
def AppendParam.this_blob (net : Net) (layer_id param_id : Nat) : Blob :=
  { shape_ := (net.layers_.getD layer_id default).blobs_.getD param_id []
    data_ := net.params_.length
    diff_ := net.params_.length }

/-- The first statements of `AppendParam` (lines 504-518): the display name,
`params_`, `param_id_vecs_` and `param_layer_indices_`. -/
def AppendParam.push (net : Net) (layer_id param_id : Nat) : Net :=
  let param_name :=
    AppendParam.param_name (net.layers_.getD layer_id default).layer_param_ param_id
  { net with
    param_display_names_ := net.param_display_names_ ++
      [if param_name.length ≠ 0 then param_name else toString param_id]
    params_ := net.params_ ++ [AppendParam.this_blob net layer_id param_id]
    param_id_vecs_ := pushAt net.param_id_vecs_ layer_id net.params_.length
    param_layer_indices_ := net.param_layer_indices_ ++ [(layer_id, param_id)] }

/-- The branch of `AppendParam` for a parameter the layer owns (lines
524-537); `net_param_id` is the position the blob got in `params_`. -/
def AppendParam.owns (net : Net) (param_name : String) (param_spec : ParamSpec)
    (net_param_id : Nat) : Net :=
  { net with
    param_owners_ := net.param_owners_ ++ [-1]
    param_names_index_ :=
      if param_name.length ≠ 0 then StdMap.assign net.param_names_index_ param_name net_param_id
      else net.param_names_index_
    learnable_params_ := net.learnable_params_ ++ [net_param_id]
    learnable_param_ids_ := net.learnable_param_ids_ ++ [net.learnable_params_.length]
    has_params_lr_ := net.has_params_lr_ ++ [param_spec.lr_mult.isSome]
    has_params_decay_ := net.has_params_decay_ ++ [param_spec.decay_mult.isSome]
    params_lr_ := net.params_lr_ ++ [param_spec.lr_mult_value]
    params_weight_decay_ := net.params_weight_decay_ ++ [param_spec.decay_mult_value] }

/-- The check of `lr_mult` against the sharing group (lines 576-584). -/
def AppendParam.share_lr (net : Net) (param_name : String) (param_spec : ParamSpec)
    (learnable_param_id : Nat) : Except Fatal Net :=
  if param_spec.lr_mult.isSome then
    if net.has_params_lr_.getD learnable_param_id false then
      if param_spec.lr_mult_value ≠ net.params_lr_.getD learnable_param_id 0 then
        .error (.mismatched_lr_mult param_name)
      else .ok net
    else
      .ok { net with
            has_params_lr_ := net.has_params_lr_.set learnable_param_id true
            params_lr_ := net.params_lr_.set learnable_param_id param_spec.lr_mult_value }
  else .ok net

/-- The check of `decay_mult` against the sharing group (lines 585-594). -/
def AppendParam.share_decay (net : Net) (param_name : String) (param_spec : ParamSpec)
    (learnable_param_id : Nat) : Except Fatal Net :=
  if param_spec.decay_mult.isSome then
    if net.has_params_decay_.getD learnable_param_id false then
      if param_spec.decay_mult_value ≠ net.params_weight_decay_.getD learnable_param_id 0 then
        .error (.mismatched_decay_mult param_name)
      else .ok net
    else
      .ok { net with
            has_params_decay_ := net.has_params_decay_.set learnable_param_id true
            params_weight_decay_ :=
              net.params_weight_decay_.set learnable_param_id param_spec.decay_mult_value }
  else .ok net

/-- The branch of `AppendParam` for a named parameter whose name was seen
before (lines 539-595); `this_blob` is the blob just pushed. -/
def AppendParam.shares (net : Net) (layer_param : LayerParameter) (param_id : Nat)
    (param_name : String) (param_spec : ParamSpec) (this_blob : Blob) : Except Fatal Net :=
  let r := StdMap.index net.param_names_index_ param_name
  let owner_net_param_id := r.1
  let owner_index := net.param_layer_indices_.getD owner_net_param_id (0, 0)
  let owner_blob : Blob :=
    { shape_ := (net.layers_.getD owner_index.1 default).blobs_.getD owner_index.2 []
      data_ := owner_net_param_id
      diff_ := owner_net_param_id }
  let permissive : Bool :=
    decide (layer_param.param.length > param_id) &&
      decide ((layer_param.param.getD param_id default).share_mode = .PERMISSIVE)
  if permissive && decide (this_blob.count ≠ owner_blob.count) then
    .error (.share_count_mismatch param_name)
  else if !permissive && decide (this_blob.shape_ ≠ owner_blob.shape_) then
    .error (.share_shape_mismatch param_name)
  else
    let learnable_param_id := net.learnable_param_ids_.getD owner_net_param_id 0
    (AppendParam.share_lr
        { net with
          param_names_index_ := r.2
          param_owners_ := net.param_owners_ ++ [(owner_net_param_id : Int)]
          learnable_param_ids_ := net.learnable_param_ids_ ++ [learnable_param_id] }
        param_name param_spec learnable_param_id).bind fun net3 =>
    AppendParam.share_decay net3 param_name param_spec learnable_param_id

/-- The function `Net::AppendParam`. A pointer into `params_` is the position
of the blob there. -/
def AppendParam (net : Net) (_param : NetParameter) (layer_id param_id : Nat) :
    Except Fatal Net :=
  let layer_param := (net.layers_.getD layer_id default).layer_param_
  let param_size := layer_param.param.length
  let param_name := AppendParam.param_name layer_param param_id
  let net_param_id := net.params_.length
  let net1 := AppendParam.push net layer_id param_id
  let param_spec := AppendParam.param_spec layer_param param_id
  if param_size = 0 ∨ param_name.length = 0 ∨
      (param_name.length ≠ 0 ∧ StdMap.find net1.param_names_index_ param_name = none) then
    .ok (AppendParam.owns net1 param_name param_spec net_param_id)
  else
    AppendParam.shares net1 layer_param param_id param_name param_spec
      (AppendParam.this_blob net layer_id param_id)

/-- Modelled from the spec: `Blob::ShareData` of blob.cpp, which is not among
the sources; it makes this blob's value alias the storage of `other`, which
must have the same element count. -/
def Blob.ShareData (this other : Blob) : Except Fatal Blob :=
  if this.count ≠ other.count then .error .share_data_count
  else .ok { this with data_ := other.data_ }

/-- Modelled from the spec: `Blob::ShareDiff` of blob.cpp, which is not among
the sources; it makes this blob's gradient alias the storage of `other`,
which must have the same element count. -/
def Blob.ShareDiff (this other : Blob) : Except Fatal Blob :=
  if this.count ≠ other.count then .error .share_data_count
  else .ok { this with diff_ := other.diff_ }

/-- The function `Net::ShareWeights`. -/
def ShareWeights (net : Net) : Except Fatal Net :=
  forRange net.params_.length
    (fun i net =>
      if net.param_owners_.getD i (-1) < 0 then .ok net
      else
        let owner := net.params_.getD (net.param_owners_.getD i (-1)).toNat default
        ((net.params_.getD i default).ShareData owner).bind fun shared =>
        (shared.ShareDiff owner).bind fun shared =>
        .ok { net with params_ := net.params_.set i shared })
    net

/-! ## `Net::Init` (net.cpp, lines 40-304) -/

/-- A call of `AppendTop` from `Init`, on Init's locals: `named` tells whether
the addresses of `available_blobs` and `blob_name_to_idx` are passed (declared
inputs and tops) or `NULL, NULL` (anonymous tops). -/
def Init.call_AppendTop (param : NetParameter) (layer_id : Int) (top_id : Nat)
    (named : Bool) (w : Wiring) : Except Fatal Wiring :=
  (AppendTop w.net param layer_id top_id
      (if named then some w.available_blobs else none)
      (if named then some w.blob_name_to_idx else none)).map
    fun r =>
      { net := r.1
        available_blobs := r.2.1.getD w.available_blobs
        blob_name_to_idx := r.2.2.getD w.blob_name_to_idx }

/-- The loop of `Init` over the declared inputs (lines 72-76). -/
def Init.inputs (param : NetParameter) (w : Wiring) : Except Fatal Wiring :=
  forRange param.input.length
    (fun input_id w => Init.call_AppendTop param (-1) input_id true w) w

/-- The loop of `Init` over the bottoms of layer `layer_id` (lines 115-121);
the Boolean is the local `need_backward`. -/
def Init.bottoms (param : NetParameter) (layer_id : Nat) (s : Wiring × Bool) :
    Except Fatal (Wiring × Bool) :=
  forRange (param.layer.getD layer_id default).bottom.length
    (fun bottom_id s =>
      (AppendBottom s.1.net param layer_id bottom_id s.1.available_blobs
          s.1.blob_name_to_idx).map
        fun r =>
          ({ net := r.2.1, available_blobs := r.2.2.1, blob_name_to_idx := r.2.2.2 },
           s.2 || r.2.1.blob_need_backward_.getD r.1 false))
    s

/-- The loop of `Init` over the declared tops of layer `layer_id` (lines
122-125). -/
def Init.tops (param : NetParameter) (layer_id : Nat) (w : Wiring) : Except Fatal Wiring :=
  forRange (param.layer.getD layer_id default).top.length
    (fun top_id w => Init.call_AppendTop param layer_id top_id true w) w

/-- The allocation of anonymous tops (lines 126-139): `num_top` runs from the
declared top count up to `needed_num_top`. -/
def Init.auto_tops (param : NetParameter) (layer_id : Nat) (w : Wiring) :
    Except Fatal Wiring :=
  let layer := w.net.layers_.getD layer_id default
  let num_top := (param.layer.getD layer_id default).top.length
  if layer.AutoTopBlobs then
    let needed_num_top : Int := max layer.MinTopBlobs layer.ExactNumTopBlobs
    forRange (needed_num_top - num_top).toNat
      (fun i w => Init.call_AppendTop param layer_id (num_top + i) false w) w
  else .ok w

/-- The loop of `Init` that records the loss weight of every top of the
layer (lines 157-172). -/
def Init.loss_weights (layer_id : Nat) (net : Net) : Net :=
  let layer := net.layers_.getD layer_id default
  forUp (net.top_vecs_.getD layer_id []).length
    (fun top_id net =>
      let idx := (net.top_id_vecs_.getD layer_id []).getD top_id 0
      let weights :=
        if net.blob_loss_weights_.length ≤ idx then
          net.blob_loss_weights_ ++
            List.replicate (idx + 1 - net.blob_loss_weights_.length) (0 : Dtype)
        else net.blob_loss_weights_
      { net with blob_loss_weights_ := weights.set idx (layer.loss top_id) })
    net

/-- The first parameter loop of `Init` (lines 182-189); the Boolean is the
local `need_backward`. -/
def Init.param_flags (param : NetParameter) (layer_id : Nat) (s : Net × Bool) : Net × Bool :=
  let layer_param := param.layer.getD layer_id default
  let param_size := layer_param.param.length
  let num_param_blobs := (s.1.layers_.getD layer_id default).blobs_.length
  forUp num_param_blobs
    (fun param_id s =>
      let param_spec : ParamSpec :=
        if param_id < param_size then layer_param.param.getD param_id default
        else default_param_spec
      let param_need_backward : Bool := decide (param_spec.lr_mult_value ≠ 0)
      ({ s.1 with
         layers_ := s.1.layers_.set layer_id
           ((s.1.layers_.getD layer_id default).set_param_propagate_down param_id
             param_need_backward) },
       s.2 || param_need_backward))
    s

/-- The second parameter loop of `Init` (lines 190-192). -/
def Init.params (param : NetParameter) (layer_id : Nat) (net : Net) : Except Fatal Net :=
  forRange (net.layers_.getD layer_id default).blobs_.length
    (fun param_id net => AppendParam net param layer_id param_id) net

/-- The end of the layer loop body (lines 193-200): the backward flag of the
layer, and of its tops when it is set. -/
def Init.set_need_backward (layer_id : Nat) (need_backward : Bool) (net : Net) : Net :=
  let net1 : Net :=
    { net with layer_need_backward_ := net.layer_need_backward_ ++ [need_backward] }
  if need_backward then
    forUp (net1.top_id_vecs_.getD layer_id []).length
      (fun top_id net =>
        { net with
          blob_need_backward_ :=
            net.blob_need_backward_.set ((net.top_id_vecs_.getD layer_id []).getD top_id 0)
              true })
      net1
  else net1

/-- The layer parameters after lines 90-93 of `Init`: a layer without a phase
inherits the phase of the net. -/
def Init.inherit_phase (declared : LayerParameter) (phase_ : Phase) : LayerParameter :=
  if declared.phase.isSome then declared else { declared with phase := some phase_ }

/-- The body of the layer loop of `Init` (lines 86-201). The phase a layer
inherits from the net is only seen by the layer factory, so it is put in the
copy handed to `CreateLayer` rather than written back into `param`. -/
def Init.layer (CreateLayer : LayerParameter → Layer) (param : NetParameter)
    (layer_id : Nat) (w : Wiring) : Except Fatal Wiring :=
  let layer_param := Init.inherit_phase (param.layer.getD layer_id default) w.net.phase_
  if layer_param.propagate_down.length > 0 ∧
      layer_param.propagate_down.length ≠ layer_param.bottom.length then
    .error .propagate_down_size
  else
    let w1 : Wiring :=
      { w with
        net :=
          { w.net with
            layers_ := w.net.layers_ ++ [CreateLayer layer_param]
            layer_names_ := w.net.layer_names_ ++ [layer_param.name] } }
    (Init.bottoms param layer_id (w1, false)).bind fun s2 =>
    (Init.tops param layer_id s2.1).bind fun w3 =>
    (Init.auto_tops param layer_id w3).bind fun w4 =>
    let net5 := Init.loss_weights layer_id w4.net
    if layer_param.param.length > (net5.layers_.getD layer_id default).blobs_.length then
      .error (.too_many_params layer_param.name)
    else
      let s6 := Init.param_flags param layer_id (net5, s2.2)
      (Init.params param layer_id s6.1).bind fun net7 =>
      .ok { w4 with net := Init.set_need_backward layer_id s6.2 net7 }

/-- The first half of `Init` after filtering and split insertion (lines
58-201): the checks on the declared inputs, the input loop, the resizing of
the per-layer vectors and the layer loop. -/
def Init.wire (CreateLayer : LayerParameter → Layer) (param : NetParameter)
    (phase_ : Phase) : Except Fatal Wiring :=
  if ¬ (param.input_dim.length = 0 ∨ param.input_shape.length = 0) then
    .error .input_shape_and_input_dim
  else if param.input_dim.length > 0 ∧ param.input.length * 4 ≠ param.input_dim.length then
    .error .incorrect_input_dim
  else if ¬ (param.input_dim.length > 0) ∧ param.input.length ≠ param.input_shape.length then
    .error .one_input_shape_per_input
  else
    let w0 : Wiring :=
      { net := { Net.empty with phase_ := phase_, name_ := param.name }
        available_blobs := []
        blob_name_to_idx := [] }
    (Init.inputs param w0).bind fun w1 =>
    let n := param.layer.length
    let w2 : Wiring :=
      { w1 with
        net :=
          { w1.net with
            bottom_vecs_ := resized n
            top_vecs_ := resized n
            bottom_id_vecs_ := resized n
            param_id_vecs_ := resized n
            top_id_vecs_ := resized n
            bottom_need_backward_ := resized n } }
    forRange n (fun layer_id w => Init.layer CreateLayer param layer_id w) w2

/-- The state of the reverse walk of `Init`: the net and the local sets
`blobs_under_loss` and `blobs_skip_backp`. -/
structure Walk where
  net : Net
  blobs_under_loss : StdSet
  blobs_skip_backp : StdSet
  deriving DecidableEq, Inhabited

/-- The loop over the tops of a layer in the reverse walk (lines 214-225),
from `top_id` on for `remaining` more tops; the Booleans are the locals
`layer_contributes_loss` and `layer_skip_propagate_down`, and the loop is
left as soon as the first holds and the second does not. -/
def Init.scan_tops (s : Walk) (layer_id : Nat) :
    (remaining top_id : Nat) → Bool × Bool → Bool × Bool
  | 0, _, flags => flags
  | remaining + 1, top_id, flags =>
    let blob_name :=
      s.net.blob_names_.getD ((s.net.top_id_vecs_.getD layer_id []).getD top_id 0) ""
    let layer_contributes_loss : Bool :=
      if decide ((s.net.layers_.getD layer_id default).loss top_id ≠ 0) ||
          StdSet.contains s.blobs_under_loss blob_name then true
      else flags.1
    let layer_skip_propagate_down : Bool :=
      if !(StdSet.contains s.blobs_skip_backp blob_name) then false else flags.2
    if layer_contributes_loss && !layer_skip_propagate_down then
      (layer_contributes_loss, layer_skip_propagate_down)
    else
      Init.scan_tops s layer_id remaining (top_id + 1)
        (layer_contributes_loss, layer_skip_propagate_down)

/-- The loop over the bottoms of a layer in the reverse walk (lines
248-262). -/
def Init.walk_bottoms (layer_id : Nat) (layer_contributes_loss : Bool) (s : Walk) : Walk :=
  forUp (s.net.bottom_vecs_.getD layer_id []).length
    (fun bottom_id s =>
      let blob_name :=
        s.net.blob_names_.getD ((s.net.bottom_id_vecs_.getD layer_id []).getD bottom_id 0) ""
      let s1 : Walk :=
        if layer_contributes_loss then
          { s with blobs_under_loss := StdSet.insert blob_name s.blobs_under_loss }
        else
          { s with
            net :=
              { s.net with
                bottom_need_backward_ :=
                  s.net.bottom_need_backward_.set layer_id
                    ((s.net.bottom_need_backward_.getD layer_id []).set bottom_id false) } }
      if !((s1.net.bottom_need_backward_.getD layer_id []).getD bottom_id false) then
        { s1 with blobs_skip_backp := StdSet.insert blob_name s1.blobs_skip_backp }
      else s1)
    s

/-- The two conditionals of the reverse walk that clear the backward flags of
a layer (lines 226-237); `flags` holds the locals `layer_contributes_loss` and
`layer_skip_propagate_down`. -/
def Init.clear_layer (layer_id : Nat) (flags : Bool × Bool) (net : Net) : Net :=
  let net1 : Net :=
    if net.layer_need_backward_.getD layer_id false && flags.2 then
      { net with
        layer_need_backward_ := net.layer_need_backward_.set layer_id false
        bottom_need_backward_ :=
          forUp (net.bottom_vecs_.getD layer_id []).length
            (fun bottom_id bnb => bnb.set layer_id ((bnb.getD layer_id []).set bottom_id false))
            net.bottom_need_backward_ }
    else net
  if !flags.1 then
    { net1 with layer_need_backward_ := net1.layer_need_backward_.set layer_id false }
  else net1

/-- The body of the reverse walk of `Init` for layer `layer_id` (lines
212-262). -/
def Init.walk_layer (layer_id : Nat) (s : Walk) : Walk :=
  let flags :=
    Init.scan_tops s layer_id (s.net.top_vecs_.getD layer_id []).length 0 (false, true)
  Init.walk_bottoms layer_id flags.1 { s with net := Init.clear_layer layer_id flags s.net }

/-- The reverse walk of `Init` (lines 209-263) once it has visited the last
`visited` layers, `layers_.size() - 1` first. -/
def Init.walk (net : Net) : (visited : Nat) → Walk
  | 0 => { net := net, blobs_under_loss := [], blobs_skip_backp := [] }
  | visited + 1 =>
    Init.walk_layer (net.layers_.length - 1 - visited) (Init.walk net visited)

/-- The handling of `force_backward` (lines 266-281), for one layer. -/
def Init.force_backward_layer (layer_id : Nat) (net : Net) : Net :=
  let net1 : Net :=
    { net with layer_need_backward_ := net.layer_need_backward_.set layer_id true }
  let net2 : Net :=
    forUp (net1.bottom_need_backward_.getD layer_id []).length
      (fun bottom_id net =>
        let flag :=
          (net.bottom_need_backward_.getD layer_id []).getD bottom_id false ||
            (net.layers_.getD layer_id default).AllowForceBackward bottom_id
        let blob_id := (net.bottom_id_vecs_.getD layer_id []).getD bottom_id 0
        { net with
          bottom_need_backward_ :=
            net.bottom_need_backward_.set layer_id
              ((net.bottom_need_backward_.getD layer_id []).set bottom_id flag)
          blob_need_backward_ :=
            net.blob_need_backward_.set blob_id
              (net.blob_need_backward_.getD blob_id false || flag) })
      net1
  forUp (net2.layers_.getD layer_id default).blobs_.length
    (fun param_id net =>
      { net with
        layers_ := net.layers_.set layer_id
          ((net.layers_.getD layer_id default).set_param_propagate_down param_id true) })
    net2

/-- The loop that makes every blob name left in `available_blobs` a net
output (lines 284-291), in the iteration order of the set. -/
def Init.outputs : StdSet → Net × StdMap → Net × StdMap
  | [], s => s
  | blob_name :: rest, s =>
    let r := StdMap.index s.2 blob_name
    Init.outputs rest
      ({ s.1 with
         net_output_blobs_ := s.1.net_output_blobs_ ++ [r.1]
         net_output_blob_indices_ := s.1.net_output_blob_indices_ ++ [r.1] }, r.2)

/-- The loops that fill `blob_names_index_` and `layer_names_index_` (lines
292-297). -/
def Init.name_indices (net : Net) : Net :=
  let net1 :=
    forUp net.blob_names_.length
      (fun blob_id net =>
        { net with
          blob_names_index_ :=
            StdMap.assign net.blob_names_index_ (net.blob_names_.getD blob_id "") blob_id })
      net
  forUp net1.layer_names_.length
    (fun layer_id net =>
      { net with
        layer_names_index_ :=
          StdMap.assign net.layer_names_index_ (net.layer_names_.getD layer_id "") layer_id })
    net1

/-- The second half of `Init` (lines 203-304): the reverse walk, the
handling of `force_backward`, the net outputs, the name indices and the
sharing of weights. -/
def Init.finish (param : NetParameter) (w : Wiring) : Except Fatal Net :=
  let net1 := (Init.walk w.net w.net.layers_.length).net
  let net2 : Net :=
    if param.force_backward then
      forUp net1.layers_.length (fun layer_id net => Init.force_backward_layer layer_id net)
        net1
    else net1
  let net3 := (Init.outputs w.available_blobs (net2, w.blob_name_to_idx)).1
  let net4 := Init.name_indices net3
  (ShareWeights net4).bind fun net5 =>
  .ok { net5 with debug_info_ := param.debug_info }

/-- The function `Net::Init`. The layer factory `LayerRegistry::CreateLayer`
(followed by the set-up of the layer) and `InsertSplits` are not among the
sources and are parameters. -/
def Init (CreateLayer : LayerParameter → Layer) (InsertSplits : NetParameter → NetParameter)
    (in_param : NetParameter) : Except Fatal Net :=
  (FilterNet in_param).bind fun filtered_param =>
  let param := InsertSplits filtered_param
  (Init.wire CreateLayer param in_param.state.phase).bind fun w =>
  Init.finish param w

/-! ## Names for the statements about `AppendBottom` and `AppendTop` -/

/-- The name `AppendTop` works with, as a function of its arguments. -/
def AppendTop.name (param : NetParameter) (layer_id : Int) (top_id : Nat) : String :=
  AppendTop.blob_name param (AppendTop.layer_param param layer_id) top_id

/-- Whether the in-place test of `AppendTop` holds for top `top_id` of layer
`layer_id`. -/
def AppendTop.is_in_place (param : NetParameter) (layer_id : Int) (top_id : Nat) : Bool :=
  AppendTop.in_place (AppendTop.layer_param param layer_id) top_id
    (AppendTop.name param layer_id top_id)

/-! ## The connections of the net under construction

`Core` keeps what the wiring reads and writes: the blob table (its length
and names), the per-layer index vectors, the net inputs, and the two locals
of `Init`. The other steps of the layer loop leave it alone. -/

/-- The connection state of a `Wiring`. -/
structure Core where
  blob_count : Nat
  blob_names_ : List String
  blob_need_backward_len : Nat
  top_id_vecs_ : List (List Nat)
  top_vecs_ : List (List Nat)
  bottom_id_vecs_ : List (List Nat)
  bottom_vecs_ : List (List Nat)
  bottom_need_backward_ : List (List Bool)
  net_input_blob_indices_ : List Nat
  net_input_blobs_ : List Nat
  available_blobs : StdSet
  blob_name_to_idx : StdMap

/-- The connection state of a net and the two locals. -/
def Net.core (net : Net) (a : StdSet) (m : StdMap) : Core :=
  { blob_count := net.blobs_.length
    blob_names_ := net.blob_names_
    blob_need_backward_len := net.blob_need_backward_.length
    top_id_vecs_ := net.top_id_vecs_
    top_vecs_ := net.top_vecs_
    bottom_id_vecs_ := net.bottom_id_vecs_
    bottom_vecs_ := net.bottom_vecs_
    bottom_need_backward_ := net.bottom_need_backward_
    net_input_blob_indices_ := net.net_input_blob_indices_
    net_input_blobs_ := net.net_input_blobs_
    available_blobs := a
    blob_name_to_idx := m }

/-- The connection state of a `Wiring`. -/
def Wiring.core (w : Wiring) : Core := w.net.core w.available_blobs w.blob_name_to_idx

/-- The tops recorded for layer `l`. -/
def Core.tops (c : Core) (l : Nat) : List Nat := c.top_id_vecs_.getD l []

/-- The bottoms recorded for layer `l`. -/
def Core.bottoms (c : Core) (l : Nat) : List Nat := c.bottom_id_vecs_.getD l []

/-- The effect of a successful `AppendBottom` on the connections, given the
flag `f` it pushes to `bottom_need_backward_`. -/
def Core.append_bottom (c : Core) (l : Nat) (blob_name : String) (f : Bool) : Core :=
  { c with
    bottom_vecs_ := pushAt c.bottom_vecs_ l (StdMap.index c.blob_name_to_idx blob_name).1
    bottom_id_vecs_ := pushAt c.bottom_id_vecs_ l (StdMap.index c.blob_name_to_idx blob_name).1
    bottom_need_backward_ := pushAt c.bottom_need_backward_ l f
    available_blobs := StdSet.erase blob_name c.available_blobs
    blob_name_to_idx := (StdMap.index c.blob_name_to_idx blob_name).2 }

/-- The effect of the in-place branch of `AppendTop` on the connections. -/
def Core.append_in_place (c : Core) (l : Nat) (blob_name : String) : Core :=
  { c with
    top_vecs_ := pushAt c.top_vecs_ l (StdMap.index c.blob_name_to_idx blob_name).1
    top_id_vecs_ := pushAt c.top_id_vecs_ l (StdMap.index c.blob_name_to_idx blob_name).1
    available_blobs := StdSet.insert blob_name c.available_blobs
    blob_name_to_idx := (StdMap.index c.blob_name_to_idx blob_name).2 }

/-- The effect of the normal-output branch of `AppendTop` on the blob table
and the index vectors, for a top of layer `l`. -/
def Core.new_top (c : Core) (l : Nat) (blob_name : String) : Core :=
  { c with
    blob_count := c.blob_count + 1
    blob_names_ := c.blob_names_ ++ [blob_name]
    blob_need_backward_len := c.blob_need_backward_len + 1
    top_vecs_ := pushAt c.top_vecs_ l c.blob_count
    top_id_vecs_ := pushAt c.top_id_vecs_ l c.blob_count }

/-- The effect of the normal-output branch of `AppendTop` on the blob table
and the net inputs, for a declared input. -/
def Core.new_input (c : Core) (blob_name : String) : Core :=
  { c with
    blob_count := c.blob_count + 1
    blob_names_ := c.blob_names_ ++ [blob_name]
    blob_need_backward_len := c.blob_need_backward_len + 1
    net_input_blob_indices_ := c.net_input_blob_indices_ ++ [c.blob_count]
    net_input_blobs_ := c.net_input_blobs_ ++ [c.blob_count] }

/-- The registration of a new named blob in the two locals of `Init`. -/
def Core.register (c : Core) (blob_name : String) (blob_id : Nat) : Core :=
  { c with
    available_blobs := StdSet.insert blob_name c.available_blobs
    blob_name_to_idx := StdMap.assign c.blob_name_to_idx blob_name blob_id }

/-- The number of declared tops of layer `l`. -/
def num_top (param : NetParameter) (l : Nat) : Nat := (param.layer.getD l default).top.length

/-- The number of declared bottoms of layer `l`. -/
def num_bottom (param : NetParameter) (l : Nat) : Nat :=
  (param.layer.getD l default).bottom.length

/-- Position `t` of layer `l` is one where `AppendTop` allocates a blob: an
anonymous top, or a declared top that fails the in-place test. -/
def allocates (param : NetParameter) (l t : Nat) : Prop :=
  num_top param l ≤ t ∨ AppendTop.is_in_place param l t = false

/-- The invariant of the wiring: how the blob table, the index vectors, the
available set and the name-to-index map relate to each other at any point of
the input loop and of the layer loop of `Init`. -/
structure Inv (param : NetParameter) (c : Core) : Prop where
  names_len : c.blob_names_.length = c.blob_count
  nb_len : c.blob_need_backward_len = c.blob_count
  ptr_top : c.top_vecs_ = c.top_id_vecs_
  ptr_bottom : c.bottom_vecs_ = c.bottom_id_vecs_
  ptr_input : c.net_input_blobs_ = c.net_input_blob_indices_
  bnb_len : ∀ l, (c.bottom_need_backward_.getD l []).length = (c.bottoms l).length
  map_sound : ∀ (n : String) (i : Nat), StdMap.find c.blob_name_to_idx n = some i →
    i < c.blob_count ∧ c.blob_names_[i]? = some n
  avail_map : ∀ n, n ∈ c.available_blobs → ∃ i, StdMap.find c.blob_name_to_idx n = some i
  top_lt : ∀ l t i : Nat, (c.tops l)[t]? = some i → i < c.blob_count
  top_named : ∀ l t i : Nat, (c.tops l)[t]? = some i → t < num_top param l →
    StdMap.find c.blob_name_to_idx (AppendTop.name param l t) = some i
  top_anon : ∀ l t i : Nat, (c.tops l)[t]? = some i → num_top param l ≤ t →
    (∀ n, StdMap.find c.blob_name_to_idx n ≠ some i) ∧
      c.blob_names_[i]? = some "(automatic)"
  bottom_named : ∀ l b i : Nat, (c.bottoms l)[b]? = some i →
    StdMap.find c.blob_name_to_idx (AppendBottom.blob_name param l b) = some i
  cover : ∀ i, i < c.blob_count →
    (∃ n, StdMap.find c.blob_name_to_idx n = some i) ∨
      ∃ l t : Nat, num_top param l ≤ t ∧ (c.tops l)[t]? = some i
  consumed_or_avail : ∀ (n : String) (i : Nat), StdMap.find c.blob_name_to_idx n = some i →
    n ∈ c.available_blobs ∨ ∃ l b : Nat, (c.bottoms l)[b]? = some i
  avail_declared : ∀ n, n ∈ c.available_blobs →
    n ∈ param.input ∨
      ∃ l t : Nat, t < (c.tops l).length ∧ t < num_top param l ∧ AppendTop.name param l t = n
  input_len : c.net_input_blob_indices_.length ≤ param.input.length
  input_named : ∀ j i : Nat, c.net_input_blob_indices_[j]? = some i →
    StdMap.find c.blob_name_to_idx (AppendTop.name param (-1) j) = some i
  origin : ∀ (n : String) (i : Nat), StdMap.find c.blob_name_to_idx n = some i →
    (∃ j : Nat, c.net_input_blob_indices_[j]? = some i) ∨
      ∃ l t : Nat, (c.tops l)[t]? = some i ∧ t < num_top param l ∧
        AppendTop.is_in_place param l t = false
  alloc_inputs : ∀ j j' i : Nat, c.net_input_blob_indices_[j]? = some i →
    c.net_input_blob_indices_[j']? = some i → j = j'
  alloc_tops : ∀ l t l' t' i : Nat, (c.tops l)[t]? = some i → (c.tops l')[t']? = some i →
    allocates param l t → allocates param l' t' → l = l' ∧ t = t'
  alloc_input_top : ∀ j l t i : Nat, c.net_input_blob_indices_[j]? = some i →
    (c.tops l)[t]? = some i → allocates param l t → False
  bottom_declared : ∀ l b i : Nat, (c.bottoms l)[b]? = some i →
    AppendBottom.blob_name param l b ∈ param.input ∨
      ∃ l' t : Nat, l' < l ∧ t < num_top param l' ∧
        AppendTop.name param l' t = AppendBottom.blob_name param l b
  topo : ∀ l b l' t i : Nat, (c.bottoms l)[b]? = some i → (c.tops l')[t]? = some i →
    allocates param l' t → l' < l

/-- Where the layer loop stands: the index vectors have one row per layer,
layer `k` has `b` bottoms and `t` tops wired, the layers before it are wired
and the layers after it untouched. -/
structure Stage (param : NetParameter) (k b t : Nat) (c : Core) : Prop where
  len_top : c.top_id_vecs_.length = param.layer.length
  len_bottom : c.bottom_id_vecs_.length = param.layer.length
  len_bnb : c.bottom_need_backward_.length = param.layer.length
  pos_bottom : (c.bottoms k).length = b
  pos_top : (c.tops k).length = t
  untouched : ∀ l, k < l → c.tops l = [] ∧ c.bottoms l = []
  done_bottom : ∀ l, l < k → (c.bottoms l).length = num_bottom param l
  done_top : ∀ l, l < k → num_top param l ≤ (c.tops l).length

/-- Where the input loop stands: `j` inputs are wired and the index vectors
are still empty. -/
structure InputStage (j : Nat) (c : Core) : Prop where
  no_tops : c.top_id_vecs_ = []
  no_top_ptrs : c.top_vecs_ = []
  no_bottoms : c.bottom_id_vecs_ = []
  no_bottom_ptrs : c.bottom_vecs_ = []
  no_bnb : c.bottom_need_backward_ = []
  pos_input : c.net_input_blob_indices_.length = j

/-- The connections before the input loop: everything is empty. -/
def Core.empty : Core :=
  { blob_count := 0, blob_names_ := [], blob_need_backward_len := 0, top_id_vecs_ := [],
    top_vecs_ := [], bottom_id_vecs_ := [], bottom_vecs_ := [], bottom_need_backward_ := [],
    net_input_blob_indices_ := [], net_input_blobs_ := [], available_blobs := [],
    blob_name_to_idx := [] }

/-- The effect of the `resize` calls between the input loop and the layer
loop on the connections. -/
def Core.resize (c : Core) (n : Nat) : Core :=
  { c with
    bottom_vecs_ := resized n
    top_vecs_ := resized n
    bottom_id_vecs_ := resized n
    top_id_vecs_ := resized n
    bottom_need_backward_ := resized n }

/-! ## Projections of the net that whole steps of `Init` leave alone -/

/-- What the wiring calls leave alone: the layer objects, the per-layer
backward flags, the phase and the net outputs. -/
def Net.aux (net : Net) : List Layer × List Bool × Phase × List Nat × List Nat :=
  (net.layers_, net.layer_need_backward_, net.phase_, net.net_output_blob_indices_,
    net.net_output_blobs_)

/-- What the virtual functions of a layer answer and what `SetUp` left in
it: the layer without its `param_propagate_down_` flags. -/
def Layer.traits (L : Layer) : Layer := { L with param_propagate_down_ := [] }

/-- The number of anonymous tops `Init` adds to a layer with `num_top`
declared tops (lines 130-139). -/
def Layer.needed_extra (L : Layer) (num_top : Nat) : Nat :=
  if L.AutoTopBlobs then (max L.MinTopBlobs L.ExactNumTopBlobs - (num_top : Int)).toNat else 0

/-- The net inputs and the rows of the index vectors for the layers other
than `k` are the same in `c` and `c'`. -/
def Core.same_rows_except (k : Nat) (c c' : Core) : Prop :=
  c'.net_input_blob_indices_ = c.net_input_blob_indices_ ∧
    ∀ l, l ≠ k → c'.tops l = c.tops l ∧ c'.bottoms l = c.bottoms l

/-- The invariant of the layer loop of `Init` when `k` layers are wired. -/
structure WInv (CreateLayer : LayerParameter → Layer) (param : NetParameter)
    (phase_ : Phase) (k : Nat) (w : Wiring) : Prop where
  inv : Inv param w.core
  stage : Stage param k 0 0 w.core
  layers_len : w.net.layers_.length = k
  lnb_len : w.net.layer_need_backward_.length = k
  phase_eq : w.net.phase_ = phase_
  traits : ∀ l, l < k → (w.net.layers_.getD l default).traits =
    (CreateLayer (Init.inherit_phase (param.layer.getD l default) phase_)).traits
  top_count : ∀ l, l < k → (w.core.tops l).length =
    num_top param l + (w.net.layers_.getD l default).needed_extra (num_top param l)
  inputs_len : w.core.net_input_blob_indices_.length = param.input.length
  no_outputs : w.net.net_output_blob_indices_ = [] ∧ w.net.net_output_blobs_ = []

/-- The connections of a net: the blob table and the index vectors. -/
def Net.graph (net : Net) :
    List Blob × List String × List (List Nat) × List (List Nat) × List (List Nat) ×
      List (List Nat) × List Nat × List Nat × List String :=
  (net.blobs_, net.blob_names_, net.top_id_vecs_, net.top_vecs_, net.bottom_id_vecs_,
    net.bottom_vecs_, net.net_input_blob_indices_, net.net_input_blobs_, net.layer_names_)

/-- The backward flags of a net, and its layer objects. -/
def Net.flags (net : Net) : List Bool × List (List Bool) × List Bool × List Layer :=
  (net.layer_need_backward_, net.bottom_need_backward_, net.blob_need_backward_, net.layers_)

/-- What the reverse walk leaves alone. -/
def Net.unwalked (net : Net) : List Layer × List Bool × List Nat × List Nat :=
  (net.layers_, net.blob_need_backward_, net.net_output_blob_indices_,
    net.net_output_blobs_)

/-! ## Example specifications -/

/-- A layer with the given name, bottoms and tops and nothing else declared. -/
def example_layer (name : String) (bottom top : List String) : LayerParameter :=
  { name := name, bottom := bottom, top := top, phase := none, param := [],
    include_ := [], exclude := [], propagate_down := [] }

/-- A specification with the given inputs (each of shape 1) and layers. -/
def example_net (input : List String) (layer : List LayerParameter) : NetParameter :=
  { name := "example", input := input, input_shape := input.map (fun _ => [1]),
    input_dim := [], force_backward := false,
    state := { phase := .TEST, level := 0, stage := [] }, debug_info := false,
    layer := layer }

/-- A layer factory: every layer has exactly its declared tops, no parameters
and no loss. -/
def plain_factory (layer_param : LayerParameter) : Layer :=
  { layer_param_ := layer_param, AutoTopBlobs := false, MinTopBlobs := -1,
    ExactNumTopBlobs := -1, allow_force_backward_ := [], loss_ := [], blobs_ := [],
    param_propagate_down_ := [] }

/-- A layer factory of loss-like layers: `AutoTopBlobs` holds and exactly one
top is required, whose loss weight is 1. -/
def loss_factory (layer_param : LayerParameter) : Layer :=
  { layer_param_ := layer_param, AutoTopBlobs := true, MinTopBlobs := -1,
    ExactNumTopBlobs := 1, allow_force_backward_ := [], loss_ := [1], blobs_ := [],
    param_propagate_down_ := [] }

/-- The rule of the specification for keeping a layer: no include rules and no
exclude rule met, or include rules of which at least one is met. -/
def spec_layer_kept (net_state : NetState) (layer_param : LayerParameter) : Bool :=
  (layer_param.include_.isEmpty &&
      layer_param.exclude.all fun r => !(StateMeetsRule net_state r layer_param.name)) ||
    (!layer_param.include_.isEmpty &&
      layer_param.include_.any fun r => StateMeetsRule net_state r layer_param.name)

/-- A rule that only names a phase. -/
def phase_rule (phase : Phase) : NetStateRule :=
  { phase := some phase, min_level := none, max_level := none, stage := [], not_stage := [] }

/-- A specification in the TEST phase with four layers: one without rules, one
excluded in TEST, one included in TRAIN only, one included in TEST. -/
def filter_example : NetParameter :=
  example_net ["a"]
    [example_layer "plain" ["a"] ["b"],
     { example_layer "no_test" ["a"] ["c"] with exclude := [phase_rule .TEST] },
     { example_layer "train" ["a"] ["d"] with include_ := [phase_rule .TRAIN] },
     { example_layer "test" ["b"] ["e"] with
       include_ := [phase_rule .TRAIN, phase_rule .TEST] }]

/-- A specification with an input "a", a layer that works in place on it, and
a layer that reads the result. -/
def in_place_example : NetParameter :=
  example_net ["a"] [example_layer "relu" ["a"] ["a"], example_layer "out" ["a"] ["b"]]

/-- A specification whose only layer declares a top "b" that has the name of
its second bottom, not of its first. -/
def crossed_example : NetParameter :=
  example_net ["a", "b"] [example_layer "l" ["a", "b"] ["b"]]

/-- One wiring call of `Init` on its locals: a call of `AppendBottom`, or a
call of `AppendTop` that passes the locals (`named`) or `NULL, NULL`. -/
inductive WireOp where
  | bottom (layer_id bottom_id : Nat)
  | top (layer_id : Int) (top_id : Nat) (named : Bool)
  deriving DecidableEq

/-- The effect of a wiring call on the net and the locals of `Init`. -/
def WireOp.run (param : NetParameter) : WireOp → Wiring → Except Fatal Wiring
  | .bottom layer_id bottom_id, w =>
    (AppendBottom w.net param layer_id bottom_id w.available_blobs w.blob_name_to_idx).map
      fun r => { net := r.2.1, available_blobs := r.2.2.1, blob_name_to_idx := r.2.2.2 }
  | .top layer_id top_id named, w => Init.call_AppendTop param layer_id top_id named w

/-- Whether a wiring call wires a top named `blob_name` (in place or new). -/
def WireOp.wires_top (param : NetParameter) (blob_name : String) : WireOp → Bool
  | .bottom _ _ => false
  | .top layer_id top_id named => named && decide (AppendTop.name param layer_id top_id = blob_name)

/-- A sequence of wiring calls, left when one aborts. -/
def WireOp.run_all (param : NetParameter) : List WireOp → Wiring → Except Fatal Wiring
  | [], w => .ok w
  | op :: ops, w => (op.run param w).bind (WireOp.run_all param ops)

/-- The net after layer 1 of `in_place_example` has consumed blob 0, in a
net with empty rows for two layers. -/
def consumed_net : Net :=
  { Net.empty with
    bottom_vecs_ := [[], [0]]
    bottom_id_vecs_ := [[], [0]]
    bottom_need_backward_ := [[], [false]]
    top_vecs_ := [[], []]
    top_id_vecs_ := [[], []] }

/-- Whether `p` holds of the value a computation returns; false when it
aborts. -/
def returns_with {ε α : Type} (x : Except ε α) (p : α → Bool) : Bool :=
  match x with
  | .ok r => p r
  | .error _ => false

/-- Blob `i` is the blob of an anonymous top: some layer records it at a top
position past its declared tops. -/
def anonymous_top (param : NetParameter) (net : Net) (i : Nat) : Prop :=
  ∃ l t : Nat, num_top param l ≤ t ∧ (net.top_id_vecs_.getD l [])[t]? = some i

/-- A specification with one loss-like layer that declares no top. -/
def loss_example : NetParameter := example_net ["a"] [example_layer "loss" ["a"] []]

/-! ## Names for the statements about the reverse walk -/

/-- The name of the blob recorded for top `t` of layer `l`. -/
def Net.top_name (net : Net) (l t : Nat) : String :=
  net.blob_names_.getD ((net.top_id_vecs_.getD l []).getD t 0) ""

/-- The name of the blob recorded for bottom `b` of layer `l`. -/
def Net.bottom_name (net : Net) (l b : Nat) : String :=
  net.blob_names_.getD ((net.bottom_id_vecs_.getD l []).getD b 0) ""

/-- The shape of the backward flags: the number of layer flags, and the rows
of bottom flags up to their contents. -/
def Net.same_flag_shape (net net' : Net) : Prop :=
  net'.layer_need_backward_.length = net.layer_need_backward_.length ∧
    net'.bottom_need_backward_.length = net.bottom_need_backward_.length ∧
    ∀ l, (net'.bottom_need_backward_.getD l []).length =
      (net.bottom_need_backward_.getD l []).length

/-- The backward flags of the layers other than `l` are the same. -/
def Net.same_flags_except (l : Nat) (net net' : Net) : Prop :=
  ∀ l', l' ≠ l →
    net'.layer_need_backward_[l']? = net.layer_need_backward_[l']? ∧
      net'.bottom_need_backward_.getD l' [] = net.bottom_need_backward_.getD l' []

/-- A layer factory: a layer named "loss" is loss-like, every other layer has
its declared tops and one parameter blob of shape 1. -/
def param_factory (layer_param : LayerParameter) : Layer :=
  if layer_param.name = "loss" then loss_factory layer_param
  else { plain_factory layer_param with blobs_ := [[1]] }

/-- A specification with a layer "side" whose top feeds nothing, followed by a
loss layer on another input. -/
def walk_example : NetParameter :=
  example_net ["a", "c"] [example_layer "side" ["c"] ["d"], example_layer "loss" ["a"] []]

/-- A declaration that can allocate a blob: a declared input, or a top
position of a layer. -/
inductive Source where
  | input (input_id : Nat)
  | top (layer_id top_id : Nat)
  deriving DecidableEq

/-- The declaration is one of the specification and allocates: a declared
input, or a declared top of a layer that fails the in-place test. -/
def Source.declared (param : NetParameter) : Source → Prop
  | .input input_id => input_id < param.input.length
  | .top layer_id top_id =>
    layer_id < param.layer.length ∧ top_id < num_top param layer_id ∧
      AppendTop.is_in_place param layer_id top_id = false

/-- The blob name of a declaration. -/
def Source.name (param : NetParameter) : Source → String
  | .input input_id => AppendTop.name param (-1) input_id
  | .top layer_id top_id => AppendTop.name param layer_id top_id

/-- The entry of the blob table recorded for a declaration. -/
def Source.blob (net : Net) : Source → Option Nat
  | .input input_id => net.net_input_blob_indices_[input_id]?
  | .top layer_id top_id => (net.top_id_vecs_.getD layer_id [])[top_id]?

/-- A specification whose first layer declares a top named "(automatic)" and
whose loss layer gets an anonymous top. -/
def automatic_example : NetParameter :=
  example_net ["a"]
    [example_layer "named" ["a"] ["(automatic)"], example_layer "loss" ["(automatic)"] []]

/-! ## The backward flags set during the layer loop -/

/-- How the backward flags stand to each other at any point of the layer loop
of `Init`: the rows of `bottom_need_backward_` are as long as the rows of
`bottom_id_vecs_`, a bottom whose flag is set reads a blob whose flag is set,
and a layer whose flag is clear has no bottom flag set. -/
structure FlagInv (net : Net) : Prop where
  outer : net.bottom_need_backward_.length = net.bottom_id_vecs_.length
  rows : ∀ l, (net.bottom_need_backward_.getD l []).length =
    (net.bottom_id_vecs_.getD l []).length
  blob : ∀ l b i : Nat, (net.bottom_id_vecs_.getD l [])[b]? = some i →
    (net.bottom_need_backward_.getD l [])[b]? = some true →
    net.blob_need_backward_[i]? = some true
  layer : ∀ l b : Nat, net.layer_need_backward_[l]? = some false →
    (net.bottom_need_backward_.getD l [])[b]? ≠ some true

/-- The step from `net` to `net'` leaves the bottoms and the flags of layers
and bottoms alone, and keeps the flags of the blobs there are. -/
def Net.need_grows (net net' : Net) : Prop :=
  net'.bottom_id_vecs_ = net.bottom_id_vecs_ ∧
    net'.bottom_need_backward_ = net.bottom_need_backward_ ∧
    net'.layer_need_backward_ = net.layer_need_backward_ ∧
    ∀ (i : Nat) (v : Bool), net.blob_need_backward_[i]? = some v →
      net'.blob_need_backward_[i]? = some v

/-- A layer factory for the examples of the reverse walk: the layers "body"
and "ip" have one parameter blob of shape 1, "body" puts a loss weight 1 on
its second top, the layer "loss" is loss-like, every other layer has its
declared tops, no parameters and no loss. -/
def walk_factory (layer_param : LayerParameter) : Layer :=
  if layer_param.name = "body" then
    { plain_factory layer_param with blobs_ := [[1]], loss_ := [0, 1] }
  else if layer_param.name = "ip" then { plain_factory layer_param with blobs_ := [[1]] }
  else if layer_param.name = "loss" then loss_factory layer_param
  else plain_factory layer_param

/-- A specification whose layer "body" works in place on the input "a" and
has a second top "b" that carries a loss weight; the layer "tail" reads "a"
afterwards and declares that it propagates nothing down. -/
def skip_example : NetParameter :=
  example_net ["a"]
    [example_layer "body" ["a"] ["a", "b"],
     { example_layer "tail" ["a"] ["c"] with propagate_down := [false] }]

/-- A specification whose layer "ip" feeds a loss layer and a layer "side"
that both declare that they propagate nothing down to their bottom. -/
def blocked_example : NetParameter :=
  example_net ["a"]
    [example_layer "ip" ["a"] ["x", "b"],
     { example_layer "loss" ["b"] [] with propagate_down := [false] },
     { example_layer "side" ["x"] ["y"] with propagate_down := [false] }]

/-- What the later steps of `Init` keep of the backward flags: the rows of
`bottom_need_backward_` are as long as the rows of `bottom_id_vecs_`, the
bottoms are blobs of the table, and a bottom whose flag is set reads a blob
whose flag is set. -/
structure NeedInv (net : Net) : Prop where
  outer : net.bottom_need_backward_.length = net.bottom_id_vecs_.length
  rows : ∀ l, (net.bottom_need_backward_.getD l []).length =
    (net.bottom_id_vecs_.getD l []).length
  blob : ∀ l b i : Nat, (net.bottom_id_vecs_.getD l [])[b]? = some i →
    (net.bottom_need_backward_.getD l [])[b]? = some true →
    net.blob_need_backward_[i]? = some true
  bound : ∀ l b i : Nat, (net.bottom_id_vecs_.getD l [])[b]? = some i →
    i < net.blob_need_backward_.length

/-- Every bottom flag that is set in `net'` is set in `net`. -/
def Net.flags_cleared (net net' : Net) : Prop :=
  ∀ l b : Nat, (net'.bottom_need_backward_.getD l [])[b]? = some true →
    (net.bottom_need_backward_.getD l [])[b]? = some true

/-- The specification `walk_example` with `force_backward` set. -/
def forced_example : NetParameter := { walk_example with force_backward := true }

/-! ## Execution (net.cpp, lines 598-683)

The calls `Layer::Forward` and `Layer::Backward` (layer.hpp) are not among
the sources and are parameters. They work on the contents of the blobs and of
the layer objects, a state of some type `μ`; a layer object is handed over as
its position in `layers_`. The type `int_tp` (definitions.hpp, not among the
sources) is a signed integer type of at most 64 bits, `size()` returns a
`size_t`, taken to have 64 bits. The debug output (`debug_info_`) only logs
and is not modelled. An abort hands back the state it happens in. -/

/-- The value an `int_tp` has once converted to `size_t`, as the comparison
of a signed index with `layers_.size()` converts it (the usual arithmetic
conversions): the value modulo 2^64. -/
def to_size_t (i : Int) : Nat := (i % 2 ^ 64).toNat

/-- The values of the type `int_tp` at its widest. -/
def is_int_tp (i : Int) : Prop := -2 ^ 63 ≤ i ∧ i < 2 ^ 63

/-- A loop `for (i = start; i <= end; ++i) body(i)` over signed indices. -/
def forFromTo {σ : Type} (i end_ : Int) (body : Int → σ → σ) (s : σ) : σ :=
  if i ≤ end_ then forFromTo (i + 1) end_ body (body i s) else s
termination_by (end_ + 1 - i).toNat
decreasing_by omega

/-- A loop `for (i = start; i >= end; --i) body(i)` over signed indices. -/
def forDownTo {σ : Type} (i end_ : Int) (body : Int → σ → σ) (s : σ) : σ :=
  if i ≥ end_ then forDownTo (i - 1) end_ body (body i s) else s
termination_by (i + 1 - end_).toNat
decreasing_by omega

/-- The function `Net::ForwardFromTo`: the returned loss and the state the
calls leave. -/
def ForwardFromTo {μ : Type} (Forward : Nat → List Nat → List Nat → μ → Dtype × μ)
    (net : Net) (start end_ : Int) (mem : μ) : Except (Fatal × μ) (Dtype × μ) :=
  if ¬ (start ≥ 0) then .error (.check_start_ge_0, mem)
  else if ¬ (to_size_t end_ < net.layers_.length) then
    .error (.check_end_lt_layers_size, mem)
  else
    .ok (forFromTo start end_
      (fun i s =>
        let r := Forward i.toNat (net.bottom_vecs_.getD i.toNat [])
          (net.top_vecs_.getD i.toNat []) s.2
        (s.1 + r.1, r.2))
      ((0 : Dtype), mem))

/-- The function `Net::BackwardFromTo`: the state the calls leave. -/
def BackwardFromTo {μ : Type}
    (Backward : Nat → List Nat → List Bool → List Nat → μ → μ)
    (net : Net) (start end_ : Int) (mem : μ) : Except (Fatal × μ) μ :=
  if ¬ (end_ ≥ 0) then .error (.check_end_ge_0, mem)
  else if ¬ (to_size_t start < net.layers_.length) then
    .error (.check_start_lt_layers_size, mem)
  else
    .ok (forDownTo start end_
      (fun i s =>
        if net.layer_need_backward_.getD i.toNat false then
          Backward i.toNat (net.top_vecs_.getD i.toNat [])
            (net.bottom_need_backward_.getD i.toNat []) (net.bottom_vecs_.getD i.toNat []) s
        else s)
      mem)

/-- One call of `Layer::Forward` or `Layer::Backward` as a run records it:
the layer and the vectors it is given. -/
structure LayerCall where
  layer : Nat
  bottom : List Nat
  top : List Nat
  propagate_down : List Bool
  deriving DecidableEq, Repr

/-- A `Layer::Forward` that records its call and returns the loss
`layer + 1`. -/
def record_Forward (layer : Nat) (bottom top : List Nat) (calls : List LayerCall) :
    Dtype × List LayerCall :=
  ((layer : Dtype) + 1,
    calls ++ [{ layer := layer, bottom := bottom, top := top, propagate_down := [] }])

/-- A `Layer::Backward` that records its call. -/
def record_Backward (layer : Nat) (top : List Nat) (propagate_down : List Bool)
    (bottom : List Nat) (calls : List LayerCall) : List LayerCall :=
  calls ++ [{ layer := layer, bottom := bottom, top := top, propagate_down := propagate_down }]

/-- A net of three layers in a row, as `Init` wires them, with the backward
flag of the middle layer clear. -/
def chain_net : Net :=
  { Net.empty with
    layers_ := [default, default, default]
    layer_need_backward_ := [true, false, true]
    bottom_vecs_ := [[0], [1], [2]]
    bottom_id_vecs_ := [[0], [1], [2]]
    bottom_need_backward_ := [[false], [false], [true]]
    top_vecs_ := [[1], [2], [3]]
    top_id_vecs_ := [[1], [2], [3]] }

/-! ## The registry of parameters

`Registry` keeps what `AppendParam` reads and writes: the parameter vectors
and, of the layer objects, what `SetUp` left in them (their `traits`). The
other steps of `Init` leave it alone, but for `ShareWeights`, which only
touches the storage handles in `params_`. -/

/-- The state of the parameter registration. -/
structure Registry where
  traits : List Layer
  params_ : List Blob
  param_owners_ : List Int
  param_layer_indices_ : List (Nat × Nat)
  param_names_index_ : StdMap
  learnable_params_ : List Nat
  learnable_param_ids_ : List Nat
  params_lr_ : List Dtype
  has_params_lr_ : List Bool
  params_weight_decay_ : List Dtype
  has_params_decay_ : List Bool

/-- The state of the parameter registration of a net. -/
def Net.registry (net : Net) : Registry :=
  { traits := net.layers_.map Layer.traits
    params_ := net.params_
    param_owners_ := net.param_owners_
    param_layer_indices_ := net.param_layer_indices_
    param_names_index_ := net.param_names_index_
    learnable_params_ := net.learnable_params_
    learnable_param_ids_ := net.learnable_param_ids_
    params_lr_ := net.params_lr_
    has_params_lr_ := net.has_params_lr_
    params_weight_decay_ := net.params_weight_decay_
    has_params_decay_ := net.has_params_decay_ }

/-- The layer and the position in the layer of parameter `i` of the net. -/
def Registry.place (r : Registry) (i : Nat) : Nat × Nat := r.param_layer_indices_.getD i (0, 0)

/-- The name parameter `i` of the net was registered with: the `param_name` of
`AppendParam` for its layer and position. -/
def Registry.name_of (r : Registry) (i : Nat) : String :=
  AppendParam.param_name (r.traits.getD (r.place i).1 default).layer_param_ (r.place i).2

/-- The `param_spec` of `AppendParam` for parameter `i` of the net. -/
def Registry.spec_of (r : Registry) (i : Nat) : ParamSpec :=
  AppendParam.param_spec (r.traits.getD (r.place i).1 default).layer_param_ (r.place i).2

/-- The shape of the blob of the layer that parameter `i` of the net is. -/
def Registry.shape_of (r : Registry) (i : Nat) : List Int :=
  (r.traits.getD (r.place i).1 default).blobs_.getD (r.place i).2 []

/-- The element count of a shape. -/
def shape_count (shape : List Int) : Int := shape.prod

/-- The invariant of the parameter registration, at any point of the layer
loop of `Init`. -/
structure RegInv (r : Registry) : Prop where
  len_owners : r.param_owners_.length = r.params_.length
  len_indices : r.param_layer_indices_.length = r.params_.length
  len_ids : r.learnable_param_ids_.length = r.params_.length
  len_lr : r.params_lr_.length = r.learnable_params_.length
  len_has_lr : r.has_params_lr_.length = r.learnable_params_.length
  len_decay : r.params_weight_decay_.length = r.learnable_params_.length
  len_has_decay : r.has_params_decay_.length = r.learnable_params_.length
  layer_lt : ∀ i : Nat, i < r.params_.length → (r.place i).1 < r.traits.length
  map_some : ∀ (n : String) (k : Nat), StdMap.find r.param_names_index_ n = some k →
    n.length ≠ 0 ∧ k < r.params_.length ∧ r.name_of k = n ∧
      ∀ j : Nat, j < k → r.name_of j ≠ n
  map_none : ∀ (n : String), StdMap.find r.param_names_index_ n = none →
    ∀ j : Nat, j < r.params_.length → r.name_of j = n → n.length = 0
  owner : ∀ i : Nat, i < r.params_.length →
    (((r.name_of i).length = 0 ∨ ∀ j : Nat, j < i → r.name_of j ≠ r.name_of i) ∧
        r.param_owners_[i]? = some (-1)) ∨
      ∃ o : Nat, (r.name_of i).length ≠ 0 ∧ o < i ∧ r.name_of o = r.name_of i ∧
        (∀ j : Nat, j < o → r.name_of j ≠ r.name_of i) ∧ r.param_owners_[i]? = some (o : Int)
  learnable : r.learnable_params_ =
    (List.range r.params_.length).filter (fun i => decide (r.param_owners_[i]? = some (-1)))
  ids_owner : ∀ i : Nat, r.param_owners_[i]? = some (-1) →
    ∃ L : Nat, r.learnable_param_ids_[i]? = some L ∧ r.learnable_params_[L]? = some i
  ids_shared : ∀ (i o : Nat), r.param_owners_[i]? = some (o : Int) →
    ∃ L : Nat, r.learnable_param_ids_[i]? = some L ∧ r.learnable_param_ids_[o]? = some L ∧
      r.learnable_params_[L]? = some o
  blob : ∀ i : Nat, i < r.params_.length →
    r.params_[i]? = some { shape_ := r.shape_of i, data_ := i, diff_ := i }
  compatible : ∀ (i o : Nat), r.param_owners_[i]? = some (o : Int) →
    ((r.spec_of i).share_mode = .PERMISSIVE →
      shape_count (r.shape_of i) = shape_count (r.shape_of o)) ∧
    ((r.spec_of i).share_mode ≠ .PERMISSIVE → r.shape_of i = r.shape_of o)
  lr : ∀ (i : Nat) (v : Dtype), i < r.params_.length → (r.spec_of i).lr_mult = some v →
    ∃ L : Nat, r.learnable_param_ids_[i]? = some L ∧ r.has_params_lr_[L]? = some true ∧
      r.params_lr_[L]? = some v
  decay : ∀ (i : Nat) (v : Dtype), i < r.params_.length → (r.spec_of i).decay_mult = some v →
    ∃ L : Nat, r.learnable_param_ids_[i]? = some L ∧ r.has_params_decay_[L]? = some true ∧
      r.params_weight_decay_[L]? = some v

/-- The blob `AppendParam` pushes to `params_` for parameter `p` of layer
`l`. -/
def Registry.this_blob (r : Registry) (l p : Nat) : Blob :=
  { shape_ := (r.traits.getD l default).blobs_.getD p []
    data_ := r.params_.length
    diff_ := r.params_.length }

/-- The effect of `AppendParam` on the registry when the layer owns the
parameter (lines 515-537). -/
def Registry.owns (r : Registry) (l p : Nat) : Registry :=
  { r with
    params_ := r.params_ ++ [r.this_blob l p]
    param_layer_indices_ := r.param_layer_indices_ ++ [(l, p)]
    param_owners_ := r.param_owners_ ++ [-1]
    param_names_index_ :=
      if (AppendParam.param_name (r.traits.getD l default).layer_param_ p).length ≠ 0 then
        StdMap.assign r.param_names_index_
          (AppendParam.param_name (r.traits.getD l default).layer_param_ p) r.params_.length
      else r.param_names_index_
    learnable_params_ := r.learnable_params_ ++ [r.params_.length]
    learnable_param_ids_ := r.learnable_param_ids_ ++ [r.learnable_params_.length]
    has_params_lr_ := r.has_params_lr_ ++
      [(AppendParam.param_spec (r.traits.getD l default).layer_param_ p).lr_mult.isSome]
    has_params_decay_ := r.has_params_decay_ ++
      [(AppendParam.param_spec (r.traits.getD l default).layer_param_ p).decay_mult.isSome]
    params_lr_ := r.params_lr_ ++
      [(AppendParam.param_spec (r.traits.getD l default).layer_param_ p).lr_mult_value]
    params_weight_decay_ := r.params_weight_decay_ ++
      [(AppendParam.param_spec (r.traits.getD l default).layer_param_ p).decay_mult_value] }

/-- The effect of `AppendParam` on the registry when the parameter shares the
blob of owner `o`, up to the checks of the multipliers (lines 515-518 and
539-575). -/
def Registry.shares (r : Registry) (l p o : Nat) : Registry :=
  { r with
    params_ := r.params_ ++ [r.this_blob l p]
    param_layer_indices_ := r.param_layer_indices_ ++ [(l, p)]
    param_owners_ := r.param_owners_ ++ [(o : Int)]
    learnable_param_ids_ := r.learnable_param_ids_ ++ [r.learnable_param_ids_.getD o 0] }

/-- The effect of a shared parameter that is first in its group to declare
`lr_mult` (lines 580-583). -/
def Registry.set_lr (r : Registry) (L : Nat) (v : Dtype) : Registry :=
  { r with
    has_params_lr_ := r.has_params_lr_.set L true
    params_lr_ := r.params_lr_.set L v }

/-- The effect of a shared parameter that is first in its group to declare
`decay_mult` (lines 590-593). -/
def Registry.set_decay (r : Registry) (L : Nat) (v : Dtype) : Registry :=
  { r with
    has_params_decay_ := r.has_params_decay_.set L true
    params_weight_decay_ := r.params_weight_decay_.set L v }

/-- The parameter whose storage parameter `i` uses once the weights are
shared: its owner, or itself when it owns its blob. -/
def Registry.root (r : Registry) (i : Nat) : Nat :=
  if r.param_owners_.getD i (-1) < 0 then i else (r.param_owners_.getD i (-1)).toNat

/-- The name parameter `i` of the net was registered with. -/
def Net.param_name (net : Net) (i : Nat) : String := net.registry.name_of i

/-- The `ParamSpec` of parameter `i` of the net: the one its layer declares at
its position, or a default one. -/
def Net.param_spec (net : Net) (i : Nat) : ParamSpec := net.registry.spec_of i

/-- The shape of the blob of the layer that parameter `i` of the net is. -/
def Net.param_shape (net : Net) (i : Nat) : List Int := net.registry.shape_of i

/-- A `ParamSpec` that names its parameter and declares nothing else but the
share mode. -/
def named_spec (name : String) (share_mode : DimCheckMode) : ParamSpec :=
  { name := name, share_mode := share_mode, lr_mult := none, decay_mult := none }

/-- A layer factory for the examples of parameter sharing: every layer has
its declared tops and one parameter blob, of shape 3 by 2 for the layer "c",
of shape 4 for the layer "d", and of shape 2 by 3 for every other layer. -/
def share_factory (layer_param : LayerParameter) : Layer :=
  { plain_factory layer_param with
    blobs_ :=
      [if layer_param.name = "c" then [3, 2]
       else if layer_param.name = "d" then [4]
       else [2, 3]] }

/-- A specification of four layers in a row: "a" names its parameter "w", "b"
shares it and declares `lr_mult` 2, "c" (whose blob has the same count in
another shape) shares it permissively and declares `lr_mult` 2 as well, and
"e" declares no `ParamSpec`. -/
def shared_example : NetParameter :=
  example_net ["x"]
    [{ example_layer "a" ["x"] ["y"] with param := [named_spec "w" .STRICT] },
     { example_layer "b" ["y"] ["z"] with
       param := [{ named_spec "w" .STRICT with lr_mult := some 2 }] },
     { example_layer "c" ["z"] ["u"] with
       param := [{ named_spec "w" .PERMISSIVE with lr_mult := some 2 }] },
     example_layer "e" ["u"] ["v"]]

/-- The net in the layer loop of `Init` at the point where the layers `first`
and `second` are set up by `share_factory` and no parameter is registered
yet. -/
def share_state (first second : LayerParameter) : Net :=
  { Net.empty with
    layers_ := [share_factory first, share_factory second]
    param_id_vecs_ := [[], []] }

/-- A layer that names its one parameter "w" and declares `param_spec` for
it. -/
def sharing_layer (name : String) (param_spec : ParamSpec) : LayerParameter :=
  { example_layer name ["x"] ["y"] with param := [param_spec] }

/-! ## Storage and the update (net.cpp, lines 1032-1037)

`Blob::Update`, like the rest of blob.cpp, is not among the sources: `Update`
takes it as a parameter, with the blob handed over as its position in
`params_` (what the pointers in `learnable_params_` stand for here). -/

/-- Modelled from the spec: the contents of the value storage and of the
gradient storage, by storage handle. -/
structure Memory where
  data : Nat → List Dtype
  diff : Nat → List Dtype

/-- Modelled from the spec: reading the value of a blob (`Blob::cpu_data` of
blob.cpp, which is not among the sources). -/
def Blob.cpu_data (b : Blob) (mem : Memory) : List Dtype := mem.data b.data_

/-- Modelled from the spec: reading the gradient of a blob (`Blob::cpu_diff`
of blob.cpp, which is not among the sources). -/
def Blob.cpu_diff (b : Blob) (mem : Memory) : List Dtype := mem.diff b.diff_

/-- Modelled from the spec: writing the value of a blob (through
`Blob::mutable_cpu_data` of blob.cpp, which is not among the sources). -/
def Blob.set_cpu_data (b : Blob) (v : List Dtype) (mem : Memory) : Memory :=
  { mem with data := fun h => if h = b.data_ then v else mem.data h }

/-- Modelled from the spec: writing the gradient of a blob (through
`Blob::mutable_cpu_diff` of blob.cpp, which is not among the sources). -/
def Blob.set_cpu_diff (b : Blob) (v : List Dtype) (mem : Memory) : Memory :=
  { mem with diff := fun h => if h = b.diff_ then v else mem.diff h }

/-- The function `Net::Update`; `Blob_Update p` is `Blob::Update` on the blob
at position `p` of `params_`. -/
def Update {μ : Type} (Blob_Update : Nat → μ → μ) (net : Net) (mem : μ) : μ :=
  forUp net.learnable_params_.length
    (fun i mem => Blob_Update (net.learnable_params_.getD i 0) mem) mem

/-- A `Blob::Update` that only records the blob it is called on. -/
def record_Update (p : Nat) (log : List Nat) : List Nat := log ++ [p]

/-! ## Saving and loading parameters (net.cpp, lines 853-889 and 959-972)

The blob `layers_[l]->blobs()[j]` is the blob `AppendParam` pushed to
`params_` (line 515) at the position it pushed to `param_id_vecs_[l]` (line
517): the blobs of a layer are read off `params_` through `param_id_vecs_`.
`Blob::FromProto` and `Layer::ToProto` are parameters of the functions that
call them; the instances below are modelled from the spec, blob.cpp and
layer.hpp not being among the sources. -/

/-- The vector `layers_[layer_id]->blobs()`. -/
def Net.layer_blobs (net : Net) (layer_id : Nat) : List Blob :=
  (net.param_id_vecs_.getD layer_id []).map (fun i => net.params_.getD i default)

/-- Modelled from the spec: `Blob::ShapeEquals` of blob.cpp, which is not
among the sources; the exact shape match loading requires. -/
def Blob.ShapeEquals (b : Blob) (other : BlobProto) : Bool := decide (b.shape_ = other.shape)

/-- The loop `while (target_layer_id != layer_names_.size() &&
layer_names_[target_layer_id] != source_layer_name) ++target_layer_id`, on
the names from `target_layer_id` on. -/
def CopyTrainedLayersFrom.search : List String → String → Nat → Nat
  | [], _, target_layer_id => target_layer_id
  | name :: rest, source_layer_name, target_layer_id =>
    if name ≠ source_layer_name then
      CopyTrainedLayersFrom.search rest source_layer_name (target_layer_id + 1)
    else target_layer_id

/-- The body of the loop of `CopyTrainedLayersFrom` over the source layers. -/
def CopyTrainedLayersFrom.copy_layer {μ : Type}
    (FromProto : Blob → BlobProto → Bool → μ → Except Fatal μ) (net : Net)
    (source_layer : LayerParameter) (mem : μ) : Except Fatal μ :=
  let source_layer_name := source_layer.name
  let target_layer_id := CopyTrainedLayersFrom.search net.layer_names_ source_layer_name 0
  if target_layer_id = net.layer_names_.length then .ok mem
  else
    let target_blobs := net.layer_blobs target_layer_id
    if target_blobs.length ≠ source_layer.blobs.length then
      .error (.incompatible_number_of_blobs source_layer_name)
    else
      forRange target_blobs.length (fun j mem =>
        if !(target_blobs.getD j default).ShapeEquals (source_layer.blobs.getD j default) then
          .error (.cannot_copy_param j source_layer_name)
        else
          FromProto (target_blobs.getD j default) (source_layer.blobs.getD j default) false mem)
        mem

/-- The function `Net::CopyTrainedLayersFrom(const NetParameter&)`. -/
def CopyTrainedLayersFrom {μ : Type}
    (FromProto : Blob → BlobProto → Bool → μ → Except Fatal μ) (net : Net)
    (param : NetParameter) (mem : μ) : Except Fatal μ :=
  forRange param.layer.length (fun i mem =>
    CopyTrainedLayersFrom.copy_layer FromProto net (param.layer.getD i default) mem) mem

/-- A `NetParameter` after `Clear()`: every field at its default. -/
def NetParameter.cleared : NetParameter :=
  { name := "", input := [], input_shape := [], input_dim := [], force_backward := false,
    state := { phase := .TEST, level := 0, stage := [] }, debug_info := false, layer := [] }

/-- The function `Net::ToProto`; `Layer_ToProto i` is `Layer::ToProto` on
`layers_[i]`. -/
def ToProto {μ : Type} (Layer_ToProto : Nat → Bool → μ → LayerParameter) (net : Net)
    (write_diff : Bool) (mem : μ) : NetParameter :=
  let param := { NetParameter.cleared with name := net.name_ }
  let param := forUp net.net_input_blob_indices_.length (fun i (p : NetParameter) =>
    { p with
      input := p.input ++ [net.blob_names_.getD (net.net_input_blob_indices_.getD i 0) ""] })
    param
  forUp net.layers_.length (fun i (p : NetParameter) =>
    { p with layer := p.layer ++ [Layer_ToProto i write_diff mem] }) param

/-- Modelled from the spec: `Blob::ToProto` of blob.cpp, which is not among
the sources; the saved blob holds the shape and the values (the spec says
nothing of saved gradients, which are left out). -/
def Blob.ToProto (b : Blob) (_write_diff : Bool) (mem : Memory) : BlobProto :=
  { shape := b.shape_, data := b.cpu_data mem }

/-- Modelled from the spec: `Blob::FromProto` of blob.cpp, which is not among
the sources; without `reshape` it requires the exact shape and then takes the
saved values (with `reshape` it would take the saved shape as well, which
`CopyTrainedLayersFrom` never asks of a blob of the net). -/
def Blob.FromProto (b : Blob) (proto : BlobProto) (reshape : Bool) (mem : Memory) :
    Except Fatal Memory :=
  if !reshape && !b.ShapeEquals proto then .error .shape_mismatch_reshape_not_set
  else .ok (b.set_cpu_data proto.data mem)

/-- Modelled from the spec: `Layer::ToProto` of layer.hpp, which is not among
the sources, on `layers_[layer_id]`; the descriptor of the layer with its
parameter blobs embedded. -/
def Layer_ToProto (net : Net) (layer_id : Nat) (write_diff : Bool) (mem : Memory) :
    LayerParameter :=
  { (net.layers_.getD layer_id default).layer_param_ with
    blobs := (net.layer_blobs layer_id).map (fun b => b.ToProto write_diff mem) }

/-! ## The gradient checker (test_gradient_check_util.hpp)

The checker works on the arrays of the blobs it is handed: a `Blob` holds the
handles of its arrays in a `Memory`, and an array is the list of its
elements. `Dtype` being the rationals, the arithmetic is exact. The layer
under check is the record of what the checker calls on it;
`Caffe::set_random_seed(seed_)` precedes every call of `Forward`, which makes
`Forward` a function of the memory. -/

/-- The data members of `GradientChecker<Dtype>`; the constructor's defaults
are those of `seed`, `kink` and `kink_range`. -/
structure GradientChecker where
  stepsize_ : Dtype
  threshold_ : Dtype
  seed_ : Nat := 1701
  kink_ : Dtype := 0
  kink_range_ : Dtype := -1

/-- The layer under check, as the checker uses it: `blobs()`, `Forward` and
`Backward` (the class `Layer` of layer.hpp is not among the sources). -/
structure CheckedLayer where
  blobs : List Blob
  Forward : List Blob → List Blob → Memory → Memory
  Backward : List Blob → List Bool → List Blob → Memory → Memory

/-- Modelled from the spec: `caffe_set(N, alpha, X)`, which math_functions.hpp
declares and whose definition is not among the sources; it sets the first `N`
elements of `X` to `alpha`. -/
def caffe_set (N : Nat) (alpha : Dtype) (X : List Dtype) : List Dtype :=
  List.replicate N alpha ++ X.drop N

/-- Modelled from the spec: `caffe_cpu_copy(N, X, Y)`, which math_functions.hpp
declares and whose definition is not among the sources; it copies the first
`N` elements of `X` to `Y`. -/
def caffe_cpu_copy (N : Nat) (X Y : List Dtype) : List Dtype := X.take N ++ Y.drop N

/-- Modelled from the spec: the test of `EXPECT_NEAR(val1, val2, abs_error)` of
gtest, which is not among the sources; the two values differ by at most
`abs_error`. -/
def EXPECT_NEAR (val1 val2 abs_error : Dtype) : Bool := decide (abs (val1 - val2) ≤ abs_error)

/-- The function `GradientChecker::GetObjAndGradient` (the layer it is handed
is not used). -/
def GetObjAndGradient (top : List Blob) (top_id top_data_id : Int) (mem : Memory) :
    Dtype × Memory :=
  if top_id < 0 then
    let r := forUp top.length (fun i (s : Dtype × Memory) =>
      let top_blob := top.getD i default
      let top_blob_data := top_blob.cpu_data s.2
      let count := top_blob.count.toNat
      let loss := forUp count
        (fun j (loss : Dtype) => loss + top_blob_data.getD j 0 * top_blob_data.getD j 0) s.1
      (loss,
        top_blob.set_cpu_diff (caffe_cpu_copy count top_blob_data (top_blob.cpu_diff s.2)) s.2))
      ((0 : Dtype), mem)
    (r.1 / 2, r.2)
  else
    let mem1 := forUp top.length (fun i (m : Memory) =>
      let top_blob := top.getD i default
      top_blob.set_cpu_diff (caffe_set top_blob.count.toNat 0 (top_blob.cpu_diff m)) m) mem
    let loss_weight : Dtype := 2
    let target := top.getD top_id.toNat default
    let loss := (target.cpu_data mem1).getD top_data_id.toNat 0 * loss_weight
    (loss, target.set_cpu_diff ((target.cpu_diff mem1).set top_data_id.toNat loss_weight) mem1)

/-- What a failing `EXPECT_NEAR` of `CheckGradientSingle` reports. -/
structure Failure where
  top_id : Int
  top_data_id : Int
  blob_id : Nat
  feat_id : Nat
  feature : Dtype
  positive_objective : Dtype
  negative_objective : Dtype
  computed_gradient : Dtype
  estimated_gradient : Dtype
  deriving DecidableEq

/-- The checks `CheckGradientSingle` makes in element-wise mode (lines
86-94). -/
def CheckGradientSingle.element_wise_checks (layer : CheckedLayer) (bottom top : List Blob)
    (top_id top_data_id : Int) : Except Fatal Unit :=
  if (0 : Nat) ≠ layer.blobs.length then .error .check_eq_0_blobs_size
  else if ¬ (0 ≤ top_id) then .error .check_le_0_top_id
  else if ¬ (0 ≤ top_data_id) then .error .check_le_0_top_data_id
  else
    let top_count := (top.getD top_id.toNat default).count
    forRange bottom.length (fun blob_id _ =>
      if top_count ≠ (bottom.getD blob_id default).count then
        .error .check_eq_top_count_bottom_count
      else .ok ()) ()

/-- The loop of `CheckGradientSingle` over the parameter blobs (lines
99-103): each has its gradient set to zero and is pushed to
`blobs_to_check`. -/
def CheckGradientSingle.params (layer : CheckedLayer) (mem : Memory) : List Blob × Memory :=
  forUp layer.blobs.length (fun i (s : List Blob × Memory) =>
    let blob := layer.blobs.getD i default
    (s.1 ++ [blob], blob.set_cpu_diff (caffe_set blob.count.toNat 0 (blob.cpu_diff s.2)) s.2))
    ([], mem)

/-- The first part of `CheckGradientSingle` (lines 97-113): the blobs to
check, the flags for `Backward`, and the gradients of the parameters set to
zero. -/
def CheckGradientSingle.setup (layer : CheckedLayer) (bottom : List Blob) (check_bottom : Int)
    (mem : Memory) : Except Fatal (List Blob × List Bool × Memory) :=
  let propagate_down := List.replicate bottom.length (decide (check_bottom = -1))
  let s := CheckGradientSingle.params layer mem
  let r : Except Fatal (List Blob × List Bool) :=
    if check_bottom = -1 then
      .ok (forUp bottom.length (fun i (v : List Blob) => v ++ [bottom.getD i default]) s.1,
        propagate_down)
    else if check_bottom ≥ 0 then
      if ¬ (to_size_t check_bottom < bottom.length) then
        .error .check_check_bottom_lt_bottom_size
      else
        .ok (s.1 ++ [bottom.getD check_bottom.toNat default],
          propagate_down.set check_bottom.toNat true)
    else .ok (s.1, propagate_down)
  r.bind fun r =>
  if ¬ (r.1.length > 0) then .error .no_blobs_to_check
  else .ok (r.1, r.2, s.2)

/-- The read `cpu_data()[i]` of an element of the values of a blob. -/
def Blob.data_at (b : Blob) (i : Nat) (mem : Memory) : Dtype := (b.cpu_data mem).getD i 0

/-- The assignment `mutable_cpu_data()[i] = v` to an element of the values of
a blob. -/
def Blob.set_data_at (b : Blob) (i : Nat) (v : Dtype) (mem : Memory) : Memory :=
  b.set_cpu_data ((b.cpu_data mem).set i v) mem

/-- The finite differencing of `CheckGradientSingle` for one element (lines
151-172): the estimated gradient, the two objectives, and the memory. -/
def CheckGradientSingle.estimate (c : GradientChecker) (layer : CheckedLayer)
    (bottom top : List Blob) (top_id top_data_id : Int) (element_wise : Bool)
    (current_blob : Blob) (feat_id : Nat) (mem : Memory) : Dtype × Dtype × Dtype × Memory :=
  if !element_wise || decide ((feat_id : Int) = top_data_id) then
    let mem := current_blob.set_data_at feat_id
      (current_blob.data_at feat_id mem + c.stepsize_) mem
    let mem := layer.Forward bottom top mem
    let r := GetObjAndGradient top top_id top_data_id mem
    let positive_objective := r.1
    let mem := current_blob.set_data_at feat_id
      (current_blob.data_at feat_id r.2 - c.stepsize_ * 2) r.2
    let mem := layer.Forward bottom top mem
    let r := GetObjAndGradient top top_id top_data_id mem
    let negative_objective := r.1
    let mem := current_blob.set_data_at feat_id
      (current_blob.data_at feat_id r.2 + c.stepsize_) r.2
    ((positive_objective - negative_objective) / c.stepsize_ / 2, positive_objective,
      negative_objective, mem)
  else (0, 0, 0, mem)

/-- The body of the loop of `CheckGradientSingle` over the elements of a
checked blob (lines 146-188); the state is the memory and the failures
reported so far. -/
def CheckGradientSingle.element (c : GradientChecker) (layer : CheckedLayer)
    (bottom top : List Blob) (top_id top_data_id : Int) (element_wise : Bool)
    (blob_id : Nat) (current_blob : Blob) (computed_gradients : List Dtype) (feat_id : Nat)
    (s : Memory × List Failure) : Memory × List Failure :=
  let r := CheckGradientSingle.estimate c layer bottom top top_id top_data_id element_wise
    current_blob feat_id s.1
  let estimated_gradient := r.1
  let positive_objective := r.2.1
  let negative_objective := r.2.2.1
  let mem := r.2.2.2
  let computed_gradient := computed_gradients.getD feat_id 0
  let feature := current_blob.data_at feat_id mem
  if c.kink_ - c.kink_range_ > abs feature ∨ abs feature > c.kink_ + c.kink_range_ then
    let scale := max (max (abs computed_gradient) (abs estimated_gradient)) 1
    if EXPECT_NEAR computed_gradient estimated_gradient (c.threshold_ * scale) then (mem, s.2)
    else
      (mem, s.2 ++
        [{ top_id := top_id, top_data_id := top_data_id, blob_id := blob_id,
           feat_id := feat_id, feature := feature, positive_objective := positive_objective,
           negative_objective := negative_objective, computed_gradient := computed_gradient,
           estimated_gradient := estimated_gradient }])
  else (mem, s.2)

/-- The copies `CheckGradientSingle` keeps of the computed gradients (lines
123-135): for every checked blob a fresh array of its count, filled from its
gradient. -/
def CheckGradientSingle.computed_gradient_blobs (blobs_to_check : List Blob) (mem : Memory) :
    List (List Dtype) :=
  forUp blobs_to_check.length (fun blob_id (v : List (List Dtype)) =>
    let current_blob := blobs_to_check.getD blob_id default
    let count := current_blob.count.toNat
    v.set blob_id (caffe_cpu_copy count (current_blob.cpu_diff mem) (List.replicate count 0)))
    (List.replicate blobs_to_check.length [])

/-- The loops of `CheckGradientSingle` over the checked blobs and their
elements (lines 139-193). -/
def CheckGradientSingle.check (c : GradientChecker) (layer : CheckedLayer)
    (bottom top : List Blob) (top_id top_data_id : Int) (element_wise : Bool)
    (blobs_to_check : List Blob) (computed_gradient_blobs : List (List Dtype))
    (s : Memory × List Failure) : Memory × List Failure :=
  forUp blobs_to_check.length (fun blob_id s =>
    let current_blob := blobs_to_check.getD blob_id default
    let computed_gradients := computed_gradient_blobs.getD blob_id []
    forUp current_blob.count.toNat (fun feat_id s =>
      CheckGradientSingle.element c layer bottom top top_id top_data_id element_wise blob_id
        current_blob computed_gradients feat_id s) s) s

/-- The function `GradientChecker::CheckGradientSingle`: it returns the
memory it leaves and the failures its `EXPECT_NEAR` reports. -/
def CheckGradientSingle (c : GradientChecker) (layer : CheckedLayer) (bottom top : List Blob)
    (check_bottom top_id top_data_id : Int) (element_wise : Bool) (mem : Memory) :
    Except Fatal (Memory × List Failure) :=
  (if element_wise then
      CheckGradientSingle.element_wise_checks layer bottom top top_id top_data_id
    else .ok ()).bind fun _ =>
  (CheckGradientSingle.setup layer bottom check_bottom mem).bind fun r =>
  let blobs_to_check := r.1
  let propagate_down := r.2.1
  let mem := layer.Forward bottom top r.2.2
  let mem := (GetObjAndGradient top top_id top_data_id mem).2
  let mem := layer.Backward top propagate_down bottom mem
  let computed_gradient_blobs := CheckGradientSingle.computed_gradient_blobs blobs_to_check mem
  .ok (CheckGradientSingle.check c layer bottom top top_id top_data_id element_wise
    blobs_to_check computed_gradient_blobs (mem, []))

/-! ## Examples for saving, loading and the gradient checker -/

/-- A specification in the TEST phase whose second layer declares both an
include rule (which the state meets) and an exclude rule (which it does not
meet). -/
def both_rules_example : NetParameter :=
  example_net ["a"]
    [example_layer "plain" ["a"] ["b"],
     { example_layer "both" ["b"] ["c"] with
       include_ := [phase_rule .TEST], exclude := [phase_rule .TRAIN] }]

/-- A specification of two layers in a row, "a" and "b"; with `share_factory`
each has one parameter blob of shape 2 by 3, which it owns. -/
def saved_example : NetParameter :=
  example_net ["x"] [example_layer "a" ["x"] ["y"], example_layer "b" ["y"] ["z"]]

/-- A memory all of whose arrays are empty. -/
def empty_memory : Memory := { data := fun _ => [], diff := fun _ => [] }

/-- A specification of two layers in a row that are both named "a"; with
`share_factory` each has one parameter blob of shape 2 by 3, which it owns. -/
def twin_example : NetParameter :=
  example_net ["x"] [example_layer "a" ["x"] ["y"], example_layer "a" ["y"] ["z"]]

/-- The specification `saved_example` with the parameters of both layers
named "w": with `share_factory` the blob of "b" shares the storage of the
blob of "a". -/
def saved_shared_example : NetParameter :=
  example_net ["x"]
    [{ example_layer "a" ["x"] ["y"] with param := [named_spec "w" .STRICT] },
     { example_layer "b" ["y"] ["z"] with param := [named_spec "w" .STRICT] }]

/-- A memory with the values 1 in the array 0 and the values 2 in every other
array of values, six to an array. -/
def two_values : Memory :=
  { data := fun h => if h = 0 then [1, 1, 1, 1, 1, 1] else [2, 2, 2, 2, 2, 2]
    diff := fun _ => [] }

/-- Modelled from the spec: the element-wise square Node of the end-to-end
property, whose class is not among the sources; `Forward` puts the squares of
the values of its bottom into its top, and `Backward`, when the flag of the
bottom is set, puts `2 * x_i * dy_i` into the gradient of the bottom. -/
def square_layer : CheckedLayer :=
  { blobs := []
    Forward := fun bottom top mem =>
      (top.getD 0 default).set_cpu_data
        (((bottom.getD 0 default).cpu_data mem).map (fun x => x * x)) mem
    Backward := fun top propagate_down bottom mem =>
      if propagate_down.getD 0 false then
        (bottom.getD 0 default).set_cpu_diff
          (List.zipWith (fun x dy => 2 * x * dy) ((bottom.getD 0 default).cpu_data mem)
            ((top.getD 0 default).cpu_diff mem)) mem
      else mem }

/-- The input of the end-to-end property: a blob of shape 1 x 1 x 2 x 2 with
the arrays 0. -/
def square_bottom : Blob := { shape_ := [1, 1, 2, 2], data_ := 0, diff_ := 0 }

/-- The output of the end-to-end property: a blob of shape 1 x 1 x 2 x 2 with
the arrays 1. -/
def square_top : Blob := { shape_ := [1, 1, 2, 2], data_ := 1, diff_ := 1 }

/-- The checker of the end-to-end property: step 1e-4, threshold 1e-2 and the
defaults of the constructor. -/
def square_checker : GradientChecker := { stepsize_ := 1 / 10000, threshold_ := 1 / 100 }

/-- A layer with the functions of `square_layer` and one parameter blob, of
two elements, with the arrays 2. -/
def param_layer : CheckedLayer :=
  { square_layer with blobs := [{ shape_ := [2], data_ := 2, diff_ := 2 }] }

/-- A memory with the values 1, 2, 3, 4 in the array of values 1, the
gradients 7, 8, 9 in the array of gradients 2, and empty arrays otherwise. -/
def checker_memory : Memory :=
  { data := fun h => if h = 1 then [1, 2, 3, 4] else []
    diff := fun h => if h = 2 then [7, 8, 9] else [] }

/-- A checker with step 1/10, threshold 1/100 and the kink band from 1/2 to
3/2. -/
def kink_checker : GradientChecker :=
  { stepsize_ := 1 / 10, threshold_ := 1 / 100, kink_ := 1, kink_range_ := 1 / 2 }

/-- A memory with the given values in the array of values 0 (the values of
`square_bottom`) and empty arrays otherwise. -/
def square_memory (x : List Dtype) : Memory :=
  { data := fun h => if h = 0 then x else [], diff := fun _ => [] }

/-! ## The layer loop of `Init` stopped early, and further views and examples -/

/-- The local `propagate_down` of `AppendBottom` (lines 492-494): the declared
flag of the bottom, or true when the layer declares none. -/
def AppendBottom.propagate_down (param : NetParameter) (layer_id bottom_id : Nat) : Bool :=
  if (param.layer.getD layer_id default).propagate_down.length > 0 then
    (param.layer.getD layer_id default).propagate_down.getD bottom_id true
  else true

/-- The first half of `Init` with the layer loop left after `k` iterations:
the state in which layer `k` is wired (`Init.wire` is the case of
`k = param.layer.length`). -/
def Init.wire_until (CreateLayer : LayerParameter → Layer) (param : NetParameter)
    (phase_ : Phase) (k : Nat) : Except Fatal Wiring :=
  if ¬ (param.input_dim.length = 0 ∨ param.input_shape.length = 0) then
    .error .input_shape_and_input_dim
  else if param.input_dim.length > 0 ∧ param.input.length * 4 ≠ param.input_dim.length then
    .error .incorrect_input_dim
  else if ¬ (param.input_dim.length > 0) ∧ param.input.length ≠ param.input_shape.length then
    .error .one_input_shape_per_input
  else
    let w0 : Wiring :=
      { net := { Net.empty with phase_ := phase_, name_ := param.name }
        available_blobs := []
        blob_name_to_idx := [] }
    (Init.inputs param w0).bind fun w1 =>
    let n := param.layer.length
    let w2 : Wiring :=
      { w1 with
        net :=
          { w1.net with
            bottom_vecs_ := resized n
            top_vecs_ := resized n
            bottom_id_vecs_ := resized n
            param_id_vecs_ := resized n
            top_id_vecs_ := resized n
            bottom_need_backward_ := resized n } }
    forRange k (fun layer_id w => Init.layer CreateLayer param layer_id w) w2

/-- The local `need_backward` of the layer loop of `Init` as layer `layer_id`
ends (lines 112-121 and 181-189), read off the blob flags `blob_need_backward`
in which the layer is wired and the blobs `bottom_ids` its bottoms read: some
bottom reads a blob whose flag is set, or some parameter blob of the layer
has a nonzero `lr_mult`. -/
def Init.need_backward (CreateLayer : LayerParameter → Layer) (param : NetParameter)
    (phase_ : Phase) (layer_id : Nat) (blob_need_backward : List Bool)
    (bottom_ids : List Nat) : Prop :=
  (∃ b, b < num_bottom param layer_id ∧
    blob_need_backward.getD (bottom_ids.getD b 0) false = true) ∨
  ∃ param_id,
    param_id < (CreateLayer (Init.inherit_phase (param.layer.getD layer_id default)
      phase_)).blobs_.length ∧
    (AppendParam.param_spec (param.layer.getD layer_id default) param_id).lr_mult_value ≠ 0

/-- The number of display names and the number of blobs of the parameters of
a net. -/
def Net.shown (net : Net) : Nat × Nat := (net.param_display_names_.length, net.params_.length)

/-- The elements of a `std::set<string>` come in strictly ascending order. -/
def StdSet.ordered (s : StdSet) : Prop := s.Pairwise (fun a b => nameLt a b = true)

/-- A specification with the inputs "b" and "a", declared in this order, and
no layer. -/
def two_inputs_example : NetParameter := example_net ["b", "a"] []

/-- A rule with no field set. -/
def empty_rule : NetStateRule :=
  { phase := none, min_level := none, max_level := none, stage := [], not_stage := [] }

/-- A rule with every field set: phase TEST, levels from 1 to 3, the stage
"deploy" required and the stage "debug" forbidden. -/
def full_rule : NetStateRule :=
  { phase := some .TEST, min_level := some 1, max_level := some 3, stage := ["deploy"],
    not_stage := ["debug"] }

/-! ## `SliceLayer` (src/src/caffe/layers/slice_layer.cpp)

A blob is handed over as a `Blob` (its shape and the handles of its arrays);
`Reshape` returns the layer and the top blobs as it leaves them, `Forward_cpu`
and `Backward_cpu` the memory. The getters of `Blob` the layer calls
(blob.hpp) are not among the sources. -/

/-- The message `SliceParameter`: `slice_dim` is `none` when unset
(`has_slice_dim()` false). -/
structure SliceParameter where
  axis : Int := 1
  has_axis : Bool := false
  slice_point : List Nat := []
  slice_dim : Option Nat := none
  deriving DecidableEq, Inhabited

/-- The data members of `SliceLayer<Dtype>`. -/
structure SliceLayer where
  slice_param : SliceParameter
  slice_point_ : List Int
  slice_axis_ : Int
  num_slices_ : Int
  slice_size_ : Int
  deriving DecidableEq, Inhabited

/-- Modelled from the spec: `Blob::num_axes` of blob.hpp, which is not among
the sources; the number of extents of the shape. -/
def Blob.num_axes (b : Blob) : Int := b.shape_.length

/-- Modelled from the spec: `Blob::shape(index)` of blob.hpp, which is not
among the sources, for an index from 0 on; the extent at the index. -/
def Blob.shape_at (b : Blob) (index : Int) : Int := b.shape_.getD index.toNat 0

/-- Modelled from the spec: `Blob::count(start_axis, end_axis)` of blob.hpp,
which is not among the sources; the product of the extents from `start_axis`
up to, not including, `end_axis`. -/
def Blob.count_range (b : Blob) (start_axis end_axis : Int) : Int :=
  ((b.shape_.take end_axis.toNat).drop start_axis.toNat).prod

/-- Modelled from the spec: `Blob::count(start_axis)` of blob.hpp, which is
not among the sources; the product of the extents from `start_axis` on. -/
def Blob.count_from (b : Blob) (start_axis : Int) : Int :=
  (b.shape_.drop start_axis.toNat).prod

/-- Modelled from the spec: `Blob::Reshape` of blob.cpp, which is not among
the sources; it updates the logical shape, a sequence of non-negative extents
(a negative extent is refused). -/
def Blob.Reshape (b : Blob) (shape : List Int) : Except Fatal Blob :=
  if shape.any (fun extent => decide (extent < 0)) then .error .negative_extent
  else .ok { b with shape_ := shape }

/-- The function `SliceLayer::LayerSetUp`; `cast_int_tp` is the conversion of
a `uint32` to `int_tp` that `std::copy` makes. -/
def SliceLayer.LayerSetUp (cast_int_tp : Nat → Int) (layer : SliceLayer) :
    Except Fatal SliceLayer :=
  if layer.slice_param.has_axis && layer.slice_param.slice_dim.isSome then
    .error .axis_and_slice_dim
  else .ok { layer with slice_point_ := layer.slice_param.slice_point.map cast_int_tp }

/-- The slice axis `Reshape` works with (lines 25-35); `CanonicalAxisIndex`
(blob.hpp) is not among the sources and is a parameter, and so is the
`static_cast<int_tp>` of a `uint32`. -/
def SliceLayer.Reshape.axis (CanonicalAxisIndex : Blob → Int → Except Fatal Int)
    (cast_int_tp : Nat → Int) (layer : SliceLayer) (bottom0 : Blob) : Except Fatal Int :=
  match layer.slice_param.slice_dim with
  | some slice_dim =>
    let slice_axis_ := cast_int_tp slice_dim
    if ¬ (slice_axis_ ≥ 0) then .error .slice_dim_negative
    else if ¬ (slice_axis_ < bottom0.num_axes) then .error .slice_dim_out_of_range
    else .ok slice_axis_
  | none => CanonicalAxisIndex bottom0 layer.slice_param.axis

/-- The loop of `Reshape` over the slice points (lines 45-51): the local
`prev` and the vector `slices`, to which the last slice is pushed after the
loop. -/
def SliceLayer.Reshape.slices (slice_point_ : List Int) (bottom_slice_axis : Int) :
    Except Fatal (List Int) :=
  (forRange slice_point_.length
    (fun i (s : Int × List Int) =>
      if ¬ (slice_point_.getD i 0 > s.1) then .error .check_gt_slice_point_prev
      else .ok (slice_point_.getD i 0, s.2 ++ [slice_point_.getD i 0 - s.1]))
    (0, [])).bind fun s =>
  .ok (s.2 ++ [bottom_slice_axis - s.1])

/-- The loops of `Reshape` over the tops (lines 52-56 and 63-66): top `i` is
reshaped to the shape of the bottom with the extent `extent i` at the slice
axis, and the local `count` adds up the counts. -/
def SliceLayer.Reshape.tops (top_shape : List Int) (slice_axis_ : Int) (extent : Nat → Int)
    (top : List Blob) : Except Fatal (List Blob × Int) :=
  forRange top.length
    (fun i (s : List Blob × Int) =>
      ((s.1.getD i default).Reshape (top_shape.set slice_axis_.toNat (extent i))).bind fun b =>
      .ok (s.1.set i b, s.2 + b.count))
    (top, 0)

/-- The function `SliceLayer::Reshape`. The comparisons and the division of
the `int_tp` `bottom_slice_axis` with `top.size()` are made in `size_t`; a
layer has at least one top. -/
def SliceLayer.Reshape (CanonicalAxisIndex : Blob → Int → Except Fatal Int)
    (cast_int_tp : Nat → Int) (layer : SliceLayer) (bottom top : List Blob) :
    Except Fatal (SliceLayer × List Blob) :=
  let bottom0 := bottom.getD 0 default
  (SliceLayer.Reshape.axis CanonicalAxisIndex cast_int_tp layer bottom0).bind fun slice_axis_ =>
  let top_shape := bottom0.shape_
  let bottom_slice_axis := bottom0.shape_at slice_axis_
  let layer1 : SliceLayer :=
    { layer with
      slice_axis_ := slice_axis_
      num_slices_ := bottom0.count_range 0 slice_axis_
      slice_size_ := bottom0.count_from (slice_axis_ + 1) }
  (if layer.slice_point_.length ≠ 0 then
    if layer.slice_point_.length ≠ to_size_t ((top.length : Int) - 1) then
      .error .check_eq_slice_point_size_top_size
    else if ¬ (top.length ≤ to_size_t bottom_slice_axis) then
      .error .check_le_top_size_bottom_slice_axis
    else
      (SliceLayer.Reshape.slices layer.slice_point_ bottom_slice_axis).bind fun slices =>
      SliceLayer.Reshape.tops top_shape slice_axis_ (fun i => slices.getD i 0) top
  else
    if to_size_t bottom_slice_axis % top.length ≠ 0 then
      .error .top_blobs_should_evenly_divide
    else
      SliceLayer.Reshape.tops top_shape slice_axis_
        (fun _ => ((to_size_t bottom_slice_axis / top.length : Nat) : Int)) top).bind fun r =>
  if r.2 ≠ bottom0.count then .error .check_eq_count_bottom_count
  else if top.length = 1 then
    ((r.1.getD 0 default).ShareData bottom0).bind fun shared =>
    (shared.ShareDiff bottom0).bind fun shared =>
    .ok (layer1, r.1.set 0 shared)
  else .ok (layer1, r.1)

/-- The call `caffe_cpu_copy(N, X + x_offset, Y + y_offset)`: the array `Y`
after `N` elements of `X` from `x_offset` on are copied to it from `y_offset`
on. -/
def caffe_cpu_copy_at (N : Nat) (X : List Dtype) (x_offset : Nat) (Y : List Dtype)
    (y_offset : Nat) : List Dtype :=
  Y.take y_offset ++ caffe_cpu_copy N (X.drop x_offset) (Y.drop y_offset)

/-- The function `SliceLayer::Forward_cpu`; the state of the loop over the
tops is the local `offset_slice_axis` and the memory. -/
def SliceLayer.Forward_cpu (layer : SliceLayer) (bottom top : List Blob) (mem : Memory) :
    Memory :=
  if top.length = 1 then mem
  else
    let bottom0 := bottom.getD 0 default
    let bottom_slice_axis := bottom0.shape_at layer.slice_axis_
    (forUp top.length
      (fun i (s : Int × Memory) =>
        let offset_slice_axis := s.1
        let top_i := top.getD i default
        let top_slice_axis := top_i.shape_at layer.slice_axis_
        let mem := forUp layer.num_slices_.toNat
          (fun n mem =>
            let top_offset := (n : Int) * top_slice_axis * layer.slice_size_
            let bottom_offset :=
              ((n : Int) * bottom_slice_axis + offset_slice_axis) * layer.slice_size_
            top_i.set_cpu_data
              (caffe_cpu_copy_at (top_slice_axis * layer.slice_size_).toNat
                (bottom0.cpu_data mem) bottom_offset.toNat (top_i.cpu_data mem)
                top_offset.toNat) mem)
          s.2
        (offset_slice_axis + top_slice_axis, mem))
      (0, mem)).2

/-- The function `SliceLayer::Backward_cpu`. -/
def SliceLayer.Backward_cpu (layer : SliceLayer) (top : List Blob)
    (propagate_down : List Bool) (bottom : List Blob) (mem : Memory) : Memory :=
  if !(propagate_down.getD 0 false) || decide (top.length = 1) then mem
  else
    let bottom0 := bottom.getD 0 default
    let bottom_slice_axis := bottom0.shape_at layer.slice_axis_
    (forUp top.length
      (fun i (s : Int × Memory) =>
        let offset_slice_axis := s.1
        let top_i := top.getD i default
        let top_slice_axis := top_i.shape_at layer.slice_axis_
        let mem := forUp layer.num_slices_.toNat
          (fun n mem =>
            let top_offset := (n : Int) * top_slice_axis * layer.slice_size_
            let bottom_offset :=
              ((n : Int) * bottom_slice_axis + offset_slice_axis) * layer.slice_size_
            bottom0.set_cpu_diff
              (caffe_cpu_copy_at (top_slice_axis * layer.slice_size_).toNat
                (top_i.cpu_diff mem) top_offset.toNat (bottom0.cpu_diff mem)
                bottom_offset.toNat) mem)
          s.2
        (offset_slice_axis + top_slice_axis, mem))
      (0, mem)).2

/-! ## Examples for `SliceLayer` -/

/-- Modelled from the spec: `Blob::CanonicalAxisIndex` of blob.hpp, which is
not among the sources, for the examples; an index from `-num_axes` up to
`num_axes`, counted from the end when negative. -/
def example_CanonicalAxisIndex (b : Blob) (axis_index : Int) : Except Fatal Int :=
  if ¬ (axis_index ≥ -b.num_axes) then .error .slice_dim_out_of_range
  else if ¬ (axis_index < b.num_axes) then .error .slice_dim_out_of_range
  else if axis_index < 0 then .ok (axis_index + b.num_axes)
  else .ok axis_index

/-- A slice layer along axis 1 with the slice points 1 and 3, after
`LayerSetUp`. -/
def slice_example : SliceLayer :=
  { slice_param := { slice_point := [1, 3] }, slice_point_ := [1, 3], slice_axis_ := 0,
    num_slices_ := 0, slice_size_ := 0 }

/-- A bottom of shape 2 x 6 x 1 with the arrays 0. -/
def slice_bottom : Blob := { shape_ := [2, 6, 1], data_ := 0, diff_ := 0 }

/-- Three tops, with the arrays 1, 2 and 3. -/
def slice_tops : List Blob :=
  [{ shape_ := [], data_ := 1, diff_ := 1 }, { shape_ := [], data_ := 2, diff_ := 2 },
    { shape_ := [], data_ := 3, diff_ := 3 }]

/-! ## The shape rule and the offsets of the specification of `SliceLayer` -/

/-- The slice-axis extent the shape rule of the specification gives top `i`
of `T` tops of a bottom of extent `B`: with slice points `p_1, ..., p_k` the
differences `p_1, p_2 - p_1, ..., B - p_k`, with none `B / T`. -/
def SliceLayer.spec_extent (slice_point_ : List Int) (B T : Nat) (i : Nat) : Int :=
  if slice_point_ = [] then ((B / T : Nat) : Int)
  else (slice_point_ ++ [(B : Int)]).getD i 0 - ((0 : Int) :: slice_point_).getD i 0

/-- What the shape rule of the specification requires of `T` tops of a
bottom of extent `B`: with slice points, one less than tops, at most `B`
tops, and every slice point above the one before it, the first above 0;
with none, that `T` divides `B`. -/
def SliceLayer.spec_requires (slice_point_ : List Int) (B T : Nat) : Prop :=
  if slice_point_ = [] then B % T = 0
  else slice_point_.length = T - 1 ∧ T ≤ B ∧
    ∀ i, i < slice_point_.length → ((0 : Int) :: slice_point_).getD i 0 < slice_point_.getD i 0

/-- The offset `off_i = T_0 + ... + T_(i-1)` of top `i` along the slice axis,
for the slice-axis extents `T` of the tops. -/
def SliceLayer.offset (T : Nat → Nat) (i : Nat) : Nat := ((List.range i).map T).sum

/-! ## Examples for `SliceLayer` after `Reshape` -/

/-- The layer `slice_example` as `Reshape` leaves it on `slice_bottom`: the
slice axis 1, 2 slices of size 1. -/
def slice_ready : SliceLayer :=
  { slice_example with slice_axis_ := 1, num_slices_ := 2, slice_size_ := 1 }

/-- The tops `slice_tops` as `Reshape` leaves them on `slice_bottom`, with the
extents 1, 2 and 3 along the slice axis. -/
def slice_ready_tops : List Blob :=
  [{ shape_ := [2, 1, 1], data_ := 1, diff_ := 1 }, { shape_ := [2, 2, 1], data_ := 2, diff_ := 2 },
    { shape_ := [2, 3, 1], data_ := 3, diff_ := 3 }]

/-- The slice-axis extents of `slice_ready_tops`. -/
def slice_extents (i : Nat) : Nat := ([1, 2, 3] : List Nat).getD i 0

/-- A memory for `slice_bottom` and `slice_ready_tops`: the values 10 to 21
in the bottom, zeros in the tops and in the gradient of the bottom, and the
gradients `g1`, `g2`, `g3` in the tops. -/
def slice_memory (g1 g2 g3 : List Dtype) : Memory :=
  { data := fun h =>
      if h = 0 then [10, 11, 12, 13, 14, 15, 16, 17, 18, 19, 20, 21]
      else if h = 1 then [0, 0]
      else if h = 2 then [0, 0, 0, 0]
      else if h = 3 then [0, 0, 0, 0, 0, 0]
      else []
    diff := fun h =>
      if h = 0 then [0, 0, 0, 0, 0, 0, 0, 0, 0, 0, 0, 0]
      else if h = 1 then g1
      else if h = 2 then g2
      else if h = 3 then g3
      else [] }

/-! ## Names for the statement of the end-to-end property -/

/-- The memory in which the loops of `CheckGradientSingle` over the elements
start on the square layer with the target element `top_data_id`: the one
`Forward`, `GetObjAndGradient` and `Backward` leave (lines 115-121). -/
def square_start (top_data_id : Int) (mem : Memory) : Memory :=
  square_layer.Backward [square_top] [true] [square_bottom]
    (GetObjAndGradient [square_top] 0 top_data_id
      (square_layer.Forward [square_bottom] [square_top] mem)).2

/-- The analytic gradients `CheckGradientSingle` keeps for the input of the
square layer: its copy of the gradient of the bottom that `Backward` computed
(lines 123-135). -/
def square_computed (top_data_id : Int) (mem : Memory) : List Dtype :=
  (CheckGradientSingle.computed_gradient_blobs [square_bottom]
    (square_start top_data_id mem)).getD 0 []

/-- The state of the loop of `CheckGradientSingle` over the elements of the
input of the square layer when it reaches element `feat_id`: the memory and
the failures reported so far. -/
def square_state (top_data_id : Int) (element_wise : Bool) (mem : Memory) (feat_id : Nat) :
    Memory × List Failure :=
  forUp feat_id
    (fun feat_id s =>
      CheckGradientSingle.element square_checker square_layer [square_bottom] [square_top] 0
        top_data_id element_wise 0 square_bottom (square_computed top_data_id mem) feat_id s)
    (square_start top_data_id mem, [])

/-! # Theorems

## Lemmas on the containers and the loops -/

theorem StdSet.mem_insert (x a : String) (s : StdSet) :
    a ∈ StdSet.insert x s ↔ a = x ∨ a ∈ s := by
  induction s with
  | nil => simp [StdSet.insert]
  | cons y ys ih =>
    unfold StdSet.insert
    by_cases hxy : x = y
    · subst hxy
      simp
    · by_cases hlt : nameLt x y = true
      · simp [hxy, hlt]
      · have hlt' : nameLt x y = false := by simpa using hlt
        simp only [hxy, hlt', if_false, Bool.false_eq_true, List.mem_cons, ih]
        tauto

theorem StdSet.mem_erase (x a : String) (s : StdSet) :
    a ∈ StdSet.erase x s ↔ a ∈ s ∧ a ≠ x := by
  simp [StdSet.erase, List.mem_filter]

theorem StdSet.contains_iff (s : StdSet) (x : String) :
    StdSet.contains s x = true ↔ x ∈ s := by
  simp [StdSet.contains]

theorem StdMap.find_assign (m : StdMap) (k x : String) (v : Nat) :
    StdMap.find (StdMap.assign m k v) x = if x = k then some v else StdMap.find m x := by
  induction m with
  | nil => simp [StdMap.assign, StdMap.find]
  | cons e m ih =>
    obtain ⟨k', v'⟩ := e
    unfold StdMap.assign
    by_cases hk : k = k'
    · subst hk
      by_cases hx : x = k <;> simp [StdMap.find, hx]
    · by_cases hx : x = k'
      · subst hx
        have hne : ¬ x = k := fun h => hk h.symm
        simp [StdMap.find, hk, hne]
      · simp [StdMap.find, hk, hx, ih]

theorem StdMap.index_of_find {m : StdMap} {k : String} {v : Nat}
    (h : StdMap.find m k = some v) : StdMap.index m k = (v, m) := by
  simp [StdMap.index, h]

theorem StdMap.index_of_not_find {m : StdMap} {k : String}
    (h : StdMap.find m k = none) : StdMap.index m k = (0, StdMap.assign m k 0) := by
  simp [StdMap.index, h]

/-- Reading `m[k]` leaves every entry that was there in place. -/
theorem StdMap.find_index_of_find (m : StdMap) (k x : String) (v : Nat)
    (h : StdMap.find m x = some v) : StdMap.find (StdMap.index m k).2 x = some v := by
  unfold StdMap.index
  cases hk : StdMap.find m k with
  | some u => simpa using h
  | none =>
    have hne : x ≠ k := by
      rintro rfl
      rw [hk] at h
      cases h
    simp [StdMap.find_assign, hne, h]

theorem length_pushAt {α : Type} (vv : List (List α)) (i : Nat) (x : α) :
    (pushAt vv i x).length = vv.length := by
  simp [pushAt]

theorem getD_pushAt {α : Type} (vv : List (List α)) (i j : Nat) (x : α) (hi : i < vv.length) :
    (pushAt vv i x).getD j [] = if j = i then vv.getD i [] ++ [x] else vv.getD j [] := by
  unfold pushAt
  simp only [List.getD_eq_getElem?_getD, List.getElem?_set]
  by_cases hji : j = i
  · subst hji
    simp [hi]
  · have hij : ¬ i = j := fun h => hji h.symm
    simp [hji, hij]

theorem forRange_succ {σ ε : Type} (n : Nat) (body : Nat → σ → Except ε σ) (s : σ) :
    forRange (n + 1) body s = (forRange n body s).bind (body n) := rfl

/-- Loop invariants for a loop that may abort: what holds before the loop and
is kept by every iteration that returns holds when the loop returns. -/
theorem forRange_induction {σ ε : Type} (I : Nat → σ → Prop) (n : Nat)
    (body : Nat → σ → Except ε σ) (s s' : σ) (h0 : I 0 s)
    (hstep : ∀ i t t', i < n → I i t → body i t = .ok t' → I (i + 1) t')
    (h : forRange n body s = .ok s') : I n s' := by
  induction n generalizing s' with
  | zero =>
    simp only [forRange] at h
    cases h
    exact h0
  | succ k ih =>
    rw [forRange_succ] at h
    cases hk : forRange k body s with
    | error e => simp [hk, Except.bind] at h
    | ok t =>
      rw [hk] at h
      have hI := ih t (fun i u u' hi => hstep i u u' (Nat.lt_succ_of_lt hi)) hk
      exact hstep k t s' (Nat.lt_succ_self k) hI h

/-- Loop invariants for a loop that cannot abort. -/
theorem forUp_induction {σ : Type} (I : Nat → σ → Prop) (n : Nat) (body : Nat → σ → σ)
    (s : σ) (h0 : I 0 s) (hstep : ∀ i t, i < n → I i t → I (i + 1) (body i t)) :
    I n (forUp n body s) := by
  induction n with
  | zero => exact h0
  | succ k ih =>
    exact hstep k _ (Nat.lt_succ_self k) (ih (fun i t hi => hstep i t (Nat.lt_succ_of_lt hi)))

/-! ## What one call of `AppendBottom` or `AppendTop` does -/

theorem AppendBottom_error (net : Net) (param : NetParameter) (layer_id bottom_id : Nat)
    (a : StdSet) (m : StdMap) (h : AppendBottom.blob_name param layer_id bottom_id ∉ a) :
    AppendBottom net param layer_id bottom_id a m =
      .error (.unknown_bottom_blob (AppendBottom.blob_name param layer_id bottom_id)
        (param.layer.getD layer_id default).name bottom_id) := by
  have hc : StdSet.contains a (AppendBottom.blob_name param layer_id bottom_id) = false := by
    cases hb : StdSet.contains a (AppendBottom.blob_name param layer_id bottom_id) with
    | false => rfl
    | true => exact absurd ((StdSet.contains_iff _ _).1 hb) h
  simp [AppendBottom, hc]

theorem AppendBottom_ok (net : Net) (param : NetParameter) (layer_id bottom_id : Nat)
    (a : StdSet) (m : StdMap) (h : AppendBottom.blob_name param layer_id bottom_id ∈ a) :
    AppendBottom net param layer_id bottom_id a m =
      .ok ((StdMap.index m (AppendBottom.blob_name param layer_id bottom_id)).1,
        { net with
          bottom_vecs_ := pushAt net.bottom_vecs_ layer_id
            (StdMap.index m (AppendBottom.blob_name param layer_id bottom_id)).1
          bottom_id_vecs_ := pushAt net.bottom_id_vecs_ layer_id
            (StdMap.index m (AppendBottom.blob_name param layer_id bottom_id)).1
          bottom_need_backward_ := pushAt net.bottom_need_backward_ layer_id
            (net.blob_need_backward_.getD
                (StdMap.index m (AppendBottom.blob_name param layer_id bottom_id)).1 false &&
              (if (param.layer.getD layer_id default).propagate_down.length > 0 then
                (param.layer.getD layer_id default).propagate_down.getD bottom_id true
              else true)) },
        StdSet.erase (AppendBottom.blob_name param layer_id bottom_id) a,
        (StdMap.index m (AppendBottom.blob_name param layer_id bottom_id)).2) := by
  have hc : StdSet.contains a (AppendBottom.blob_name param layer_id bottom_id) = true :=
    (StdSet.contains_iff _ _).2 h
  simp [AppendBottom, hc]

theorem AppendTop_in_place (net : Net) (param : NetParameter) (layer_id : Int) (top_id : Nat)
    (a : Option StdSet) (m : StdMap) (h : AppendTop.is_in_place param layer_id top_id = true) :
    AppendTop net param layer_id top_id a (some m) =
      .ok ({ net with
             top_vecs_ := pushAt net.top_vecs_ layer_id.toNat
               (StdMap.index m (AppendTop.name param layer_id top_id)).1
             top_id_vecs_ := pushAt net.top_id_vecs_ layer_id.toNat
               (StdMap.index m (AppendTop.name param layer_id top_id)).1 },
        a.map (StdSet.insert (AppendTop.name param layer_id top_id)),
        some (StdMap.index m (AppendTop.name param layer_id top_id)).2) := by
  unfold AppendTop.is_in_place AppendTop.name at h
  simp [AppendTop, AppendTop.name, h]

theorem AppendTop_multiple (net : Net) (param : NetParameter) (layer_id : Int) (top_id : Nat)
    (a : Option StdSet) (m : StdMap) (h : AppendTop.is_in_place param layer_id top_id = false)
    (hm : (StdMap.find m (AppendTop.name param layer_id top_id)).isSome = true) :
    AppendTop net param layer_id top_id a (some m) =
      .error (.produced_by_multiple_sources (AppendTop.name param layer_id top_id)) := by
  unfold AppendTop.is_in_place AppendTop.name at h
  unfold AppendTop.name at hm
  simp [AppendTop, AppendTop.name, h, hm]

theorem AppendTop_new (net : Net) (param : NetParameter) (layer_id : Int) (top_id : Nat)
    (a : Option StdSet) (m : StdMap) (h : AppendTop.is_in_place param layer_id top_id = false)
    (hm : StdMap.find m (AppendTop.name param layer_id top_id) = none) :
    AppendTop net param layer_id top_id a (some m) =
      .ok (AppendTop.normal_output net param layer_id top_id
            (AppendTop.name param layer_id top_id),
        a.map (StdSet.insert (AppendTop.name param layer_id top_id)),
        some (StdMap.assign m (AppendTop.name param layer_id top_id) net.blobs_.length)) := by
  unfold AppendTop.is_in_place AppendTop.name at h
  unfold AppendTop.name at hm
  simp [AppendTop, AppendTop.name, h, hm]

theorem AppendTop_anonymous (net : Net) (param : NetParameter) (layer_id : Int)
    (top_id : Nat) (a : Option StdSet) :
    AppendTop net param layer_id top_id a none =
      .ok (AppendTop.normal_output net param layer_id top_id
            (AppendTop.name param layer_id top_id),
        a.map (StdSet.insert (AppendTop.name param layer_id top_id)), none) := by
  simp [AppendTop, AppendTop.name]

theorem normal_output_blobs_length (net : Net) (param : NetParameter) (layer_id : Int)
    (top_id : Nat) (blob_name : String) :
    (AppendTop.normal_output net param layer_id top_id blob_name).blobs_.length =
      net.blobs_.length + 1 := by
  unfold AppendTop.normal_output
  by_cases h : layer_id = -1 <;> simp [h]

theorem normal_output_blob_names (net : Net) (param : NetParameter) (layer_id : Int)
    (top_id : Nat) (blob_name : String) :
    (AppendTop.normal_output net param layer_id top_id blob_name).blob_names_ =
      net.blob_names_ ++ [blob_name] := by
  unfold AppendTop.normal_output
  by_cases h : layer_id = -1 <;> simp [h]

theorem normal_output_blob_need_backward (net : Net) (param : NetParameter) (layer_id : Int)
    (top_id : Nat) (blob_name : String) :
    (AppendTop.normal_output net param layer_id top_id blob_name).blob_need_backward_ =
      net.blob_need_backward_ ++ [false] := by
  unfold AppendTop.normal_output
  by_cases h : layer_id = -1 <;> simp [h]

theorem normal_output_top_id_vecs (net : Net) (param : NetParameter) (layer_id : Int)
    (top_id : Nat) (blob_name : String) :
    (AppendTop.normal_output net param layer_id top_id blob_name).top_id_vecs_ =
      if layer_id = -1 then net.top_id_vecs_
      else pushAt net.top_id_vecs_ layer_id.toNat net.blobs_.length := by
  unfold AppendTop.normal_output
  by_cases h : layer_id = -1 <;> simp [h]

theorem normal_output_top_vecs (net : Net) (param : NetParameter) (layer_id : Int)
    (top_id : Nat) (blob_name : String) :
    (AppendTop.normal_output net param layer_id top_id blob_name).top_vecs_ =
      if layer_id = -1 then net.top_vecs_
      else pushAt net.top_vecs_ layer_id.toNat net.blobs_.length := by
  unfold AppendTop.normal_output
  by_cases h : layer_id = -1 <;> simp [h]

theorem normal_output_net_input_blob_indices (net : Net) (param : NetParameter)
    (layer_id : Int) (top_id : Nat) (blob_name : String) :
    (AppendTop.normal_output net param layer_id top_id blob_name).net_input_blob_indices_ =
      if layer_id = -1 then net.net_input_blob_indices_ ++ [net.blobs_.length]
      else net.net_input_blob_indices_ := by
  unfold AppendTop.normal_output
  by_cases h : layer_id = -1 <;> simp [h]

theorem core_AppendBottom (param : NetParameter) (l b : Nat) (w : Wiring)
    (r : Nat × Net × StdSet × StdMap)
    (h : AppendBottom w.net param l b w.available_blobs w.blob_name_to_idx = .ok r) :
    AppendBottom.blob_name param l b ∈ w.available_blobs ∧
    r.1 = (StdMap.index w.blob_name_to_idx (AppendBottom.blob_name param l b)).1 ∧
    ∃ f, r.2.1.core r.2.2.1 r.2.2.2 =
      w.core.append_bottom l (AppendBottom.blob_name param l b) f := by
  by_cases hmem : AppendBottom.blob_name param l b ∈ w.available_blobs
  · rw [AppendBottom_ok _ _ _ _ _ _ hmem] at h
    injection h with h
    subst h
    exact ⟨hmem, rfl, _, rfl⟩
  · rw [AppendBottom_error _ _ _ _ _ _ hmem] at h
    cases h

/-- A call of `AppendTop` for a declared input either aborts because the name
is already mapped, or allocates and registers a new input blob. -/
theorem core_input (param : NetParameter) (j : Nat) (w w' : Wiring)
    (h : Init.call_AppendTop param (-1) j true w = .ok w') :
    StdMap.find w.blob_name_to_idx (AppendTop.name param (-1) j) = none ∧
    w'.core = (w.core.new_input (AppendTop.name param (-1) j)).register
      (AppendTop.name param (-1) j) w.core.blob_count := by
  have hip : AppendTop.is_in_place param (-1) j = false := by
    simp [AppendTop.is_in_place, AppendTop.layer_param, AppendTop.in_place]
  unfold Init.call_AppendTop at h
  simp only [if_true] at h
  cases hf : StdMap.find w.blob_name_to_idx (AppendTop.name param (-1) j) with
  | some v =>
    rw [AppendTop_multiple _ _ _ _ _ _ hip (by simp [hf])] at h
    cases h
  | none =>
    rw [AppendTop_new _ _ _ _ _ _ hip hf] at h
    simp only [Except.map] at h
    injection h with h
    subst h
    refine ⟨rfl, ?_⟩
    simp [Wiring.core, Net.core, Core.new_input, Core.register, AppendTop.normal_output]

/-- A call of `AppendTop` for a declared top of layer `l` either takes the
in-place branch, or aborts because the name is already mapped, or allocates
and registers a new blob. -/
theorem core_top (param : NetParameter) (l t : Nat) (w w' : Wiring)
    (h : Init.call_AppendTop param (l : Int) t true w = .ok w') :
    (AppendTop.is_in_place param l t = true ∧
      w'.core = w.core.append_in_place l (AppendTop.name param l t)) ∨
    (AppendTop.is_in_place param l t = false ∧
      StdMap.find w.blob_name_to_idx (AppendTop.name param l t) = none ∧
      w'.core = (w.core.new_top l (AppendTop.name param l t)).register
        (AppendTop.name param l t) w.core.blob_count) := by
  unfold Init.call_AppendTop at h
  simp only [if_true] at h
  cases hip : AppendTop.is_in_place param l t with
  | true =>
    rw [AppendTop_in_place _ _ _ _ _ _ hip] at h
    simp only [Except.map] at h
    injection h with h
    subst h
    left
    refine ⟨rfl, ?_⟩
    simp [Wiring.core, Net.core, Core.append_in_place]
  | false =>
    right
    cases hf : StdMap.find w.blob_name_to_idx (AppendTop.name param l t) with
    | some v =>
      rw [AppendTop_multiple _ _ _ _ _ _ hip (by simp [hf])] at h
      cases h
    | none =>
      rw [AppendTop_new _ _ _ _ _ _ hip hf] at h
      simp only [Except.map] at h
      injection h with h
      subst h
      refine ⟨rfl, rfl, ?_⟩
      have hne : ¬ ((l : Int) = -1) := by omega
      simp [Wiring.core, Net.core, Core.new_top, Core.register, AppendTop.normal_output, hne]

/-- A call of `AppendTop` with `NULL, NULL` always returns, and allocates a
blob that it registers nowhere. -/
theorem call_AppendTop_anonymous (param : NetParameter) (l t : Nat) (w : Wiring) :
    ∃ w', Init.call_AppendTop param (l : Int) t false w = .ok w' ∧
      w'.available_blobs = w.available_blobs ∧
      w'.blob_name_to_idx = w.blob_name_to_idx ∧
      w'.net = AppendTop.normal_output w.net param l t (AppendTop.name param l t) ∧
      w'.core = w.core.new_top l (AppendTop.name param l t) := by
  unfold Init.call_AppendTop
  simp only [Bool.false_eq_true, if_false]
  rw [AppendTop_anonymous]
  refine ⟨_, rfl, rfl, rfl, rfl, ?_⟩
  have hne : ¬ ((l : Int) = -1) := by omega
  simp [Wiring.core, Net.core, Core.new_top, AppendTop.normal_output, hne, Except.map]

/-- Reading position `t` of row `l` after `vv[k].push_back(x)`. -/
theorem getElem?_pushAt {α : Type} (vv : List (List α)) (k : Nat) (x : α)
    (hk : k < vv.length) (l t : Nat) (i : α) :
    ((pushAt vv k x).getD l [])[t]? = some i ↔
      (vv.getD l [])[t]? = some i ∨ (l = k ∧ t = (vv.getD k []).length ∧ i = x) := by
  rw [getD_pushAt vv k l x hk]
  by_cases hlk : l = k
  · subst hlk
    simp only [if_true, true_and]
    by_cases ht : t < (vv.getD l []).length
    · rw [List.getElem?_append_left ht]
      constructor
      · intro h
        exact Or.inl h
      · rintro (h | ⟨h, _⟩)
        · exact h
        · omega
    · rw [List.getElem?_append_right (by omega)]
      have hnone : (vv.getD l [])[t]? = none := List.getElem?_eq_none (by omega)
      rw [hnone]
      by_cases hte : t = (vv.getD l []).length
      · subst hte
        simp [eq_comm]
      · have hn : [x][t - (vv.getD l []).length]? = none :=
          List.getElem?_eq_none (by simp only [List.length_singleton]; omega)
        rw [hn]
        constructor
        · intro h
          cases h
        · rintro (h | ⟨h, _⟩)
          · cases h
          · exact absurd h hte
  · simp [hlk]

theorem length_getD_pushAt {α : Type} (vv : List (List α)) (k : Nat) (x : α)
    (hk : k < vv.length) (l : Nat) :
    ((pushAt vv k x).getD l []).length =
      if l = k then (vv.getD k []).length + 1 else (vv.getD l []).length := by
  rw [getD_pushAt vv k l x hk]
  by_cases hlk : l = k <;> simp [hlk]

/-! ## Every wiring step keeps the invariant -/

theorem Inv.append_bottom {param : NetParameter} {c : Core} {k b : Nat} (f : Bool)
    (hI : Inv param c) (hS : Stage param k b 0 c) (hk : k < param.layer.length)
    (hmem : AppendBottom.blob_name param k b ∈ c.available_blobs) :
    Inv param (c.append_bottom k (AppendBottom.blob_name param k b) f) ∧
      Stage param k (b + 1) 0 (c.append_bottom k (AppendBottom.blob_name param k b) f) := by
  obtain ⟨i, hi⟩ := hI.avail_map _ hmem
  have hkb : k < c.bottom_id_vecs_.length := by rw [hS.len_bottom]; exact hk
  have hkn : k < c.bottom_need_backward_.length := by rw [hS.len_bnb]; exact hk
  have hc : c.append_bottom k (AppendBottom.blob_name param k b) f =
      { c with
        bottom_vecs_ := pushAt c.bottom_vecs_ k i
        bottom_id_vecs_ := pushAt c.bottom_id_vecs_ k i
        bottom_need_backward_ := pushAt c.bottom_need_backward_ k f
        available_blobs := StdSet.erase (AppendBottom.blob_name param k b) c.available_blobs } := by
    simp [Core.append_bottom, StdMap.index_of_find hi]
  rw [hc]
  have hbot : ∀ l b' i', ((pushAt c.bottom_id_vecs_ k i).getD l [])[b']? = some i' ↔
      (c.bottoms l)[b']? = some i' ∨ (l = k ∧ b' = b ∧ i' = i) := by
    intro l b' i'
    rw [getElem?_pushAt _ _ _ hkb]
    have := hS.pos_bottom
    unfold Core.bottoms at this ⊢
    rw [this]
  constructor
  · refine
      { names_len := hI.names_len, nb_len := hI.nb_len, ptr_top := hI.ptr_top,
        ptr_bottom := ?_, ptr_input := hI.ptr_input, bnb_len := ?_,
        map_sound := hI.map_sound, avail_map := ?_, top_lt := hI.top_lt,
        top_named := hI.top_named, top_anon := hI.top_anon, bottom_named := ?_,
        cover := hI.cover, consumed_or_avail := ?_, avail_declared := ?_,
        input_len := hI.input_len, input_named := hI.input_named, origin := hI.origin,
        alloc_inputs := hI.alloc_inputs, alloc_tops := hI.alloc_tops,
        alloc_input_top := hI.alloc_input_top, bottom_declared := ?_, topo := ?_ }
    · show pushAt c.bottom_vecs_ k i = pushAt c.bottom_id_vecs_ k i
      rw [hI.ptr_bottom]
    · intro l
      show ((pushAt c.bottom_need_backward_ k f).getD l []).length =
        ((pushAt c.bottom_id_vecs_ k i).getD l []).length
      rw [length_getD_pushAt _ _ _ hkn, length_getD_pushAt _ _ _ hkb]
      have h1 := hI.bnb_len l
      have h2 := hI.bnb_len k
      unfold Core.bottoms at h1 h2
      by_cases hlk : l = k
      · rw [if_pos hlk, if_pos hlk, h2]
      · rw [if_neg hlk, if_neg hlk, h1]
    · intro n hn
      exact hI.avail_map n ((StdSet.mem_erase _ _ _).1 hn).1
    · intro l b' i' h
      rcases (hbot l b' i').1 h with h | ⟨rfl, rfl, rfl⟩
      · exact hI.bottom_named l b' i' h
      · exact hi
    · intro n i' h
      by_cases hn : n = AppendBottom.blob_name param k b
      · right
        subst hn
        rw [hi] at h
        injection h with h
        subst h
        exact ⟨k, b, (hbot k b i).2 (Or.inr ⟨rfl, rfl, rfl⟩)⟩
      · rcases hI.consumed_or_avail n i' h with h | ⟨l, b', h⟩
        · left
          exact (StdSet.mem_erase _ _ _).2 ⟨h, hn⟩
        · right
          exact ⟨l, b', (hbot l b' i').2 (Or.inl h)⟩
    · intro n hn
      exact hI.avail_declared n ((StdSet.mem_erase _ _ _).1 hn).1
    · intro l b' i' h
      rcases (hbot l b' i').1 h with h | ⟨rfl, rfl, rfl⟩
      · exact hI.bottom_declared l b' i' h
      · rcases hI.avail_declared _ hmem with h | ⟨l', t, h1, h2, h3⟩
        · exact Or.inl h
        · right
          refine ⟨l', t, ?_, h2, h3⟩
          by_contra hge
          have hl' : l' = l ∨ l < l' := by omega
          rcases hl' with rfl | hl'
          · rw [hS.pos_top] at h1
            omega
          · rw [(hS.untouched l' hl').1] at h1
            exact absurd h1 (Nat.not_lt_zero _)
    · intro l b' l' t i' h h' ha
      rcases (hbot l b' i').1 h with h | ⟨e1, e2, e3⟩
      · exact hI.topo l b' l' t i' h h' ha
      · have h'' : (c.tops l')[t]? = some i' := h'
        have hlt : t < (c.tops l').length := by
          by_contra hn
          rw [List.getElem?_eq_none (by omega)] at h''
          cases h''
        rw [e1]
        by_contra hge
        have hl' : l' = k ∨ k < l' := by omega
        rcases hl' with rfl | hl'
        · rw [hS.pos_top] at hlt
          omega
        · rw [(hS.untouched l' hl').1] at hlt
          exact absurd hlt (Nat.not_lt_zero _)
  · refine
      { len_top := hS.len_top, len_bottom := ?_, len_bnb := ?_, pos_bottom := ?_,
        pos_top := hS.pos_top, untouched := ?_, done_bottom := ?_, done_top := hS.done_top }
    · show (pushAt c.bottom_id_vecs_ k i).length = _
      rw [length_pushAt]
      exact hS.len_bottom
    · show (pushAt c.bottom_need_backward_ k f).length = _
      rw [length_pushAt]
      exact hS.len_bnb
    · show ((pushAt c.bottom_id_vecs_ k i).getD k []).length = b + 1
      rw [length_getD_pushAt _ _ _ hkb]
      have := hS.pos_bottom
      unfold Core.bottoms at this
      rw [if_pos rfl, this]
    · intro l hl
      refine ⟨(hS.untouched l hl).1, ?_⟩
      show (pushAt c.bottom_id_vecs_ k i).getD l [] = []
      rw [getD_pushAt _ _ _ _ hkb]
      have hne : l ≠ k := by omega
      simp only [hne, if_false]
      exact (hS.untouched l hl).2
    · intro l hl
      show ((pushAt c.bottom_id_vecs_ k i).getD l []).length = _
      rw [length_getD_pushAt _ _ _ hkb]
      have hne : l ≠ k := by omega
      simp only [hne, if_false]
      exact hS.done_bottom l hl

theorem AppendTop.layer_param_nat (param : NetParameter) (l : Nat) :
    AppendTop.layer_param param (l : Int) = some (param.layer.getD l default) := by
  simp [AppendTop.layer_param]

theorem AppendTop.name_of_lt {param : NetParameter} {l t : Nat} (h : t < num_top param l) :
    AppendTop.name param (l : Int) t = (param.layer.getD l default).top.getD t "" := by
  unfold num_top at h
  simp only [AppendTop.name, AppendTop.layer_param_nat, AppendTop.blob_name]
  rw [if_pos h]

theorem AppendTop.name_of_ge {param : NetParameter} {l t : Nat} (h : num_top param l ≤ t) :
    AppendTop.name param (l : Int) t = "(automatic)" := by
  unfold num_top at h
  simp only [AppendTop.name, AppendTop.layer_param_nat, AppendTop.blob_name]
  rw [if_neg (by omega)]

theorem AppendTop.name_input (param : NetParameter) (j : Nat) :
    AppendTop.name param (-1) j = param.input.getD j "" := by
  simp [AppendTop.name, AppendTop.layer_param, AppendTop.blob_name]

/-- The in-place test holds for top `t` of layer `l` exactly when the layer
has a bottom at position `t` whose name is the name of the top. -/
theorem is_in_place_iff (param : NetParameter) (l t : Nat) :
    AppendTop.is_in_place param (l : Int) t = true ↔
      t < num_bottom param l ∧
        AppendTop.name param (l : Int) t = AppendBottom.blob_name param l t := by
  simp [AppendTop.is_in_place, AppendTop.layer_param_nat, AppendTop.in_place, num_bottom,
    AppendBottom.blob_name]

theorem Inv.append_in_place {param : NetParameter} {c : Core} {k t : Nat}
    (hI : Inv param c) (hS : Stage param k (num_bottom param k) t c)
    (hk : k < param.layer.length) (ht : t < num_top param k)
    (hip : AppendTop.is_in_place param (k : Int) t = true) :
    Inv param (c.append_in_place k (AppendTop.name param k t)) ∧
      Stage param k (num_bottom param k) (t + 1)
        (c.append_in_place k (AppendTop.name param k t)) := by
  obtain ⟨htb, hname⟩ := (is_in_place_iff param k t).1 hip
  have hkt : k < c.top_id_vecs_.length := by rw [hS.len_top]; exact hk
  have hpos : t < (c.bottoms k).length := by rw [hS.pos_bottom]; exact htb
  obtain ⟨i, hbi⟩ : ∃ i, (c.bottoms k)[t]? = some i := ⟨_, List.getElem?_eq_getElem hpos⟩
  have hi : StdMap.find c.blob_name_to_idx (AppendTop.name param k t) = some i := by
    rw [hname]
    exact hI.bottom_named k t i hbi
  have hc : c.append_in_place k (AppendTop.name param k t) =
      { c with
        top_vecs_ := pushAt c.top_vecs_ k i
        top_id_vecs_ := pushAt c.top_id_vecs_ k i
        available_blobs := StdSet.insert (AppendTop.name param k t) c.available_blobs } := by
    simp [Core.append_in_place, StdMap.index_of_find hi]
  rw [hc]
  have htop : ∀ l t' i', ((pushAt c.top_id_vecs_ k i).getD l [])[t']? = some i' ↔
      (c.tops l)[t']? = some i' ∨ (l = k ∧ t' = t ∧ i' = i) := by
    intro l t' i'
    rw [getElem?_pushAt _ _ _ hkt]
    have := hS.pos_top
    unfold Core.tops at this ⊢
    rw [this]
  have hlen : ∀ l, (c.tops l).length ≤ ((pushAt c.top_id_vecs_ k i).getD l []).length := by
    intro l
    rw [length_getD_pushAt _ _ _ hkt]
    unfold Core.tops
    by_cases hlk : l = k
    · rw [if_pos hlk, hlk]
      omega
    · rw [if_neg hlk]
  have hnot : ¬ allocates param k t := by
    rintro (h | h)
    · omega
    · rw [hip] at h
      cases h
  constructor
  · refine
      { names_len := hI.names_len, nb_len := hI.nb_len, ptr_top := ?_,
        ptr_bottom := hI.ptr_bottom, ptr_input := hI.ptr_input, bnb_len := hI.bnb_len,
        map_sound := hI.map_sound, avail_map := ?_, top_lt := ?_,
        top_named := ?_, top_anon := ?_, bottom_named := hI.bottom_named,
        cover := ?_, consumed_or_avail := ?_, avail_declared := ?_,
        input_len := hI.input_len, input_named := hI.input_named, origin := ?_,
        alloc_inputs := hI.alloc_inputs, alloc_tops := ?_,
        alloc_input_top := ?_, bottom_declared := hI.bottom_declared, topo := ?_ }
    · show pushAt c.top_vecs_ k i = pushAt c.top_id_vecs_ k i
      rw [hI.ptr_top]
    · intro n hn
      rcases (StdSet.mem_insert _ _ _).1 hn with rfl | hn
      · exact ⟨i, hi⟩
      · exact hI.avail_map n hn
    · intro l t' i' h
      rcases (htop l t' i').1 h with h | ⟨rfl, rfl, rfl⟩
      · exact hI.top_lt l t' i' h
      · exact (hI.map_sound _ _ hi).1
    · intro l t' i' h hlt
      rcases (htop l t' i').1 h with h | ⟨rfl, rfl, rfl⟩
      · exact hI.top_named l t' i' h hlt
      · exact hi
    · intro l t' i' h hge
      rcases (htop l t' i').1 h with h | ⟨rfl, rfl, rfl⟩
      · exact hI.top_anon l t' i' h hge
      · omega
    · intro i' hi'
      rcases hI.cover i' hi' with h | ⟨l, t', hge, h⟩
      · exact Or.inl h
      · exact Or.inr ⟨l, t', hge, (htop l t' i').2 (Or.inl h)⟩
    · intro n i' h
      rcases hI.consumed_or_avail n i' h with h | h
      · exact Or.inl ((StdSet.mem_insert _ _ _).2 (Or.inr h))
      · exact Or.inr h
    · intro n hn
      rcases (StdSet.mem_insert _ _ _).1 hn with rfl | hn
      · right
        refine ⟨k, t, ?_, ht, rfl⟩
        show t < ((pushAt c.top_id_vecs_ k i).getD k []).length
        rw [length_getD_pushAt _ _ _ hkt, if_pos rfl]
        have := hS.pos_top
        unfold Core.tops at this
        omega
      · rcases hI.avail_declared n hn with h | ⟨l, t', h1, h2, h3⟩
        · exact Or.inl h
        · exact Or.inr ⟨l, t', lt_of_lt_of_le h1 (hlen l), h2, h3⟩
    · intro n i' h
      rcases hI.origin n i' h with h | ⟨l, t', h1, h2, h3⟩
      · exact Or.inl h
      · exact Or.inr ⟨l, t', (htop l t' i').2 (Or.inl h1), h2, h3⟩
    · intro l t1 l' t1' i' h h' ha ha'
      rcases (htop l t1 i').1 h with h | ⟨rfl, rfl, rfl⟩
      · rcases (htop l' t1' i').1 h' with h' | ⟨rfl, rfl, rfl⟩
        · exact hI.alloc_tops l t1 l' t1' i' h h' ha ha'
        · exact absurd ha' hnot
      · exact absurd ha hnot
    · intro j l t' i' hj h ha
      rcases (htop l t' i').1 h with h | ⟨rfl, rfl, rfl⟩
      · exact hI.alloc_input_top j l t' i' hj h ha
      · exact absurd ha hnot
    · intro l b' l' t' i' h h' ha
      rcases (htop l' t' i').1 h' with h' | ⟨rfl, rfl, rfl⟩
      · exact hI.topo l b' l' t' i' h h' ha
      · exact absurd ha hnot
  · refine
      { len_top := ?_, len_bottom := hS.len_bottom, len_bnb := hS.len_bnb,
        pos_bottom := hS.pos_bottom, pos_top := ?_, untouched := ?_,
        done_bottom := hS.done_bottom, done_top := ?_ }
    · show (pushAt c.top_id_vecs_ k i).length = _
      rw [length_pushAt]
      exact hS.len_top
    · show ((pushAt c.top_id_vecs_ k i).getD k []).length = t + 1
      rw [length_getD_pushAt _ _ _ hkt, if_pos rfl]
      have := hS.pos_top
      unfold Core.tops at this
      rw [this]
    · intro l hl
      refine ⟨?_, (hS.untouched l hl).2⟩
      show (pushAt c.top_id_vecs_ k i).getD l [] = []
      rw [getD_pushAt _ _ _ _ hkt]
      have hne : l ≠ k := by omega
      simp only [hne, if_false]
      exact (hS.untouched l hl).1
    · intro l hl
      exact le_trans (hS.done_top l hl) (hlen l)

theorem getElem?_append_of_lt {α : Type} (xs : List α) (x : α) (i : Nat) (v : α)
    (h : xs[i]? = some v) : (xs ++ [x])[i]? = some v := by
  have hi : i < xs.length := by
    by_contra hn
    rw [List.getElem?_eq_none (by omega)] at h
    cases h
  rw [List.getElem?_append_left hi]
  exact h

theorem getElem?_append_length {α : Type} (xs : List α) (x : α) :
    (xs ++ [x])[xs.length]? = some x := by
  simp

theorem Inv.new_top_anon {param : NetParameter} {c : Core} {k b t : Nat}
    (hI : Inv param c) (hS : Stage param k b t c)
    (hk : k < param.layer.length) (ht : num_top param k ≤ t) :
    Inv param (c.new_top k (AppendTop.name param k t)) ∧
      Stage param k b (t + 1) (c.new_top k (AppendTop.name param k t)) := by
  have hkt : k < c.top_id_vecs_.length := by rw [hS.len_top]; exact hk
  rw [AppendTop.name_of_ge ht]
  have htop : ∀ l t' i', ((pushAt c.top_id_vecs_ k c.blob_count).getD l [])[t']? = some i' ↔
      (c.tops l)[t']? = some i' ∨ (l = k ∧ t' = t ∧ i' = c.blob_count) := by
    intro l t' i'
    rw [getElem?_pushAt _ _ _ hkt]
    have := hS.pos_top
    unfold Core.tops at this ⊢
    rw [this]
  have hlen : ∀ l, (c.tops l).length ≤
      ((pushAt c.top_id_vecs_ k c.blob_count).getD l []).length := by
    intro l
    rw [length_getD_pushAt _ _ _ hkt]
    unfold Core.tops
    by_cases hlk : l = k
    · rw [if_pos hlk, hlk]
      omega
    · rw [if_neg hlk]
  constructor
  · refine
      { names_len := ?_, nb_len := ?_, ptr_top := ?_,
        ptr_bottom := hI.ptr_bottom, ptr_input := hI.ptr_input, bnb_len := hI.bnb_len,
        map_sound := ?_, avail_map := hI.avail_map, top_lt := ?_,
        top_named := ?_, top_anon := ?_, bottom_named := hI.bottom_named,
        cover := ?_, consumed_or_avail := hI.consumed_or_avail, avail_declared := ?_,
        input_len := hI.input_len, input_named := hI.input_named, origin := ?_,
        alloc_inputs := hI.alloc_inputs, alloc_tops := ?_,
        alloc_input_top := ?_, bottom_declared := hI.bottom_declared, topo := ?_ }
    · show (c.blob_names_ ++ ["(automatic)"]).length = c.blob_count + 1
      rw [List.length_append, hI.names_len]
      rfl
    · show c.blob_need_backward_len + 1 = c.blob_count + 1
      rw [hI.nb_len]
    · show pushAt c.top_vecs_ k c.blob_count = pushAt c.top_id_vecs_ k c.blob_count
      rw [hI.ptr_top]
    · intro n i h
      obtain ⟨h1, h2⟩ := hI.map_sound n i h
      exact ⟨Nat.lt_succ_of_lt h1, getElem?_append_of_lt _ _ _ _ h2⟩
    · intro l t' i' h
      rcases (htop l t' i').1 h with h | ⟨rfl, rfl, rfl⟩
      · exact Nat.lt_succ_of_lt (hI.top_lt l t' i' h)
      · exact Nat.lt_succ_self _
    · intro l t' i' h hlt
      rcases (htop l t' i').1 h with h | ⟨rfl, rfl, rfl⟩
      · exact hI.top_named l t' i' h hlt
      · omega
    · intro l t' i' h hge
      rcases (htop l t' i').1 h with h | ⟨rfl, rfl, rfl⟩
      · obtain ⟨h1, h2⟩ := hI.top_anon l t' i' h hge
        exact ⟨h1, getElem?_append_of_lt _ _ _ _ h2⟩
      · refine ⟨?_, ?_⟩
        · intro n hn
          have := (hI.map_sound n _ hn).1
          omega
        · show (c.blob_names_ ++ ["(automatic)"])[c.blob_count]? = some "(automatic)"
          rw [← hI.names_len]
          exact getElem?_append_length _ _
    · intro i' hi'
      by_cases hlt : i' < c.blob_count
      · rcases hI.cover i' hlt with h | ⟨l, t', hge, h⟩
        · exact Or.inl h
        · exact Or.inr ⟨l, t', hge, (htop l t' i').2 (Or.inl h)⟩
      · have heq : i' = c.blob_count := by
          have : i' < c.blob_count + 1 := hi'
          omega
        exact Or.inr ⟨k, t, ht, (htop k t i').2 (Or.inr ⟨rfl, rfl, heq⟩)⟩
    · intro n hn
      rcases hI.avail_declared n hn with h | ⟨l, t', h1, h2, h3⟩
      · exact Or.inl h
      · exact Or.inr ⟨l, t', lt_of_lt_of_le h1 (hlen l), h2, h3⟩
    · intro n i' h
      rcases hI.origin n i' h with h | ⟨l, t', h1, h2, h3⟩
      · exact Or.inl h
      · exact Or.inr ⟨l, t', (htop l t' i').2 (Or.inl h1), h2, h3⟩
    · intro l t1 l' t1' i' h h' ha ha'
      rcases (htop l t1 i').1 h with ho | ⟨e1, e2, e3⟩
      · rcases (htop l' t1' i').1 h' with ho' | ⟨e1', e2', e3'⟩
        · exact hI.alloc_tops l t1 l' t1' i' ho ho' ha ha'
        · have := hI.top_lt l t1 i' ho
          omega
      · rcases (htop l' t1' i').1 h' with ho' | ⟨e1', e2', e3'⟩
        · have := hI.top_lt l' t1' i' ho'
          omega
        · exact ⟨e1.trans e1'.symm, e2.trans e2'.symm⟩
    · intro j l t' i' hj h ha
      rcases (htop l t' i').1 h with h | ⟨rfl, rfl, rfl⟩
      · exact hI.alloc_input_top j l t' i' hj h ha
      · have := (hI.map_sound _ _ (hI.input_named j _ hj)).1
        omega
    · intro l b' l' t' i' h h' ha
      rcases (htop l' t' i').1 h' with h' | ⟨_, _, e3⟩
      · exact hI.topo l b' l' t' i' h h' ha
      · have := (hI.map_sound _ _ (hI.bottom_named l b' i' h)).1
        omega
  · refine
      { len_top := ?_, len_bottom := hS.len_bottom, len_bnb := hS.len_bnb,
        pos_bottom := hS.pos_bottom, pos_top := ?_, untouched := ?_,
        done_bottom := hS.done_bottom, done_top := ?_ }
    · show (pushAt c.top_id_vecs_ k c.blob_count).length = _
      rw [length_pushAt]
      exact hS.len_top
    · show ((pushAt c.top_id_vecs_ k c.blob_count).getD k []).length = t + 1
      rw [length_getD_pushAt _ _ _ hkt, if_pos rfl]
      have := hS.pos_top
      unfold Core.tops at this
      rw [this]
    · intro l hl
      refine ⟨?_, (hS.untouched l hl).2⟩
      show (pushAt c.top_id_vecs_ k c.blob_count).getD l [] = []
      rw [getD_pushAt _ _ _ _ hkt]
      have hne : l ≠ k := by omega
      simp only [hne, if_false]
      exact (hS.untouched l hl).1
    · intro l hl
      exact le_trans (hS.done_top l hl) (hlen l)

/-- Registering a name that was not mapped keeps every entry of the map. -/
theorem StdMap.find_assign_of_find {m : StdMap} {k x : String} {v u : Nat}
    (hk : StdMap.find m k = none) (hx : StdMap.find m x = some u) :
    StdMap.find (StdMap.assign m k v) x = some u := by
  rw [StdMap.find_assign]
  have hne : x ≠ k := by
    rintro rfl
    rw [hk] at hx
    cases hx
  rw [if_neg hne]
  exact hx

theorem Inv.new_top_named {param : NetParameter} {c : Core} {k b t : Nat}
    (hI : Inv param c) (hS : Stage param k b t c)
    (hk : k < param.layer.length) (ht : t < num_top param k)
    (hip : AppendTop.is_in_place param (k : Int) t = false)
    (hfind : StdMap.find c.blob_name_to_idx (AppendTop.name param k t) = none) :
    Inv param ((c.new_top k (AppendTop.name param k t)).register
        (AppendTop.name param k t) c.blob_count) ∧
      Stage param k b (t + 1) ((c.new_top k (AppendTop.name param k t)).register
        (AppendTop.name param k t) c.blob_count) := by
  have hkt : k < c.top_id_vecs_.length := by rw [hS.len_top]; exact hk
  generalize hname : AppendTop.name param k t = name at hfind ⊢
  have htop : ∀ l t' i', ((pushAt c.top_id_vecs_ k c.blob_count).getD l [])[t']? = some i' ↔
      (c.tops l)[t']? = some i' ∨ (l = k ∧ t' = t ∧ i' = c.blob_count) := by
    intro l t' i'
    rw [getElem?_pushAt _ _ _ hkt]
    have := hS.pos_top
    unfold Core.tops at this ⊢
    rw [this]
  have hlen : ∀ l, (c.tops l).length ≤
      ((pushAt c.top_id_vecs_ k c.blob_count).getD l []).length := by
    intro l
    rw [length_getD_pushAt _ _ _ hkt]
    unfold Core.tops
    by_cases hlk : l = k
    · rw [if_pos hlk, hlk]
      omega
    · rw [if_neg hlk]
  have hmono : ∀ x u, StdMap.find c.blob_name_to_idx x = some u →
      StdMap.find (StdMap.assign c.blob_name_to_idx name c.blob_count) x = some u :=
    fun x u hx => StdMap.find_assign_of_find hfind hx
  have hnew : StdMap.find (StdMap.assign c.blob_name_to_idx name c.blob_count) name =
      some c.blob_count := by
    rw [StdMap.find_assign, if_pos rfl]
  have hinv : ∀ x u, StdMap.find (StdMap.assign c.blob_name_to_idx name c.blob_count) x =
      some u → (x = name ∧ u = c.blob_count) ∨ StdMap.find c.blob_name_to_idx x = some u := by
    intro x u hx
    rw [StdMap.find_assign] at hx
    by_cases hxn : x = name
    · rw [if_pos hxn] at hx
      injection hx with hx
      exact Or.inl ⟨hxn, hx.symm⟩
    · rw [if_neg hxn] at hx
      exact Or.inr hx
  constructor
  · refine
      { names_len := ?_, nb_len := ?_, ptr_top := ?_,
        ptr_bottom := hI.ptr_bottom, ptr_input := hI.ptr_input, bnb_len := hI.bnb_len,
        map_sound := ?_, avail_map := ?_, top_lt := ?_,
        top_named := ?_, top_anon := ?_, bottom_named := ?_,
        cover := ?_, consumed_or_avail := ?_, avail_declared := ?_,
        input_len := hI.input_len, input_named := ?_, origin := ?_,
        alloc_inputs := hI.alloc_inputs, alloc_tops := ?_,
        alloc_input_top := ?_, bottom_declared := hI.bottom_declared, topo := ?_ }
    · show (c.blob_names_ ++ [name]).length = c.blob_count + 1
      rw [List.length_append, hI.names_len]
      rfl
    · show c.blob_need_backward_len + 1 = c.blob_count + 1
      rw [hI.nb_len]
    · show pushAt c.top_vecs_ k c.blob_count = pushAt c.top_id_vecs_ k c.blob_count
      rw [hI.ptr_top]
    · intro n i h
      show i < c.blob_count + 1 ∧ (c.blob_names_ ++ [name])[i]? = some n
      rcases hinv n i h with ⟨rfl, rfl⟩ | h
      · refine ⟨Nat.lt_succ_self _, ?_⟩
        rw [← hI.names_len]
        exact getElem?_append_length _ _
      · obtain ⟨h1, h2⟩ := hI.map_sound n i h
        exact ⟨Nat.lt_succ_of_lt h1, getElem?_append_of_lt _ _ _ _ h2⟩
    · intro n hn
      rcases (StdSet.mem_insert _ _ _).1 hn with rfl | hn
      · exact ⟨_, hnew⟩
      · obtain ⟨i, hi⟩ := hI.avail_map n hn
        exact ⟨i, hmono n i hi⟩
    · intro l t' i' h
      rcases (htop l t' i').1 h with h | ⟨rfl, rfl, rfl⟩
      · exact Nat.lt_succ_of_lt (hI.top_lt l t' i' h)
      · exact Nat.lt_succ_self _
    · intro l t' i' h hlt
      rcases (htop l t' i').1 h with h | ⟨rfl, rfl, rfl⟩
      · exact hmono _ _ (hI.top_named l t' i' h hlt)
      · rw [hname]
        exact hnew
    · intro l t' i' h hge
      rcases (htop l t' i').1 h with h | ⟨rfl, rfl, rfl⟩
      · obtain ⟨h1, h2⟩ := hI.top_anon l t' i' h hge
        refine ⟨?_, getElem?_append_of_lt _ _ _ _ h2⟩
        intro n hn
        rcases hinv n i' hn with ⟨_, e⟩ | hn
        · have := hI.top_lt l t' i' h
          omega
        · exact h1 n hn
      · omega
    · intro l b' i' h
      exact hmono _ _ (hI.bottom_named l b' i' h)
    · intro i' hi'
      by_cases hlt : i' < c.blob_count
      · rcases hI.cover i' hlt with ⟨n, h⟩ | ⟨l, t', hge, h⟩
        · exact Or.inl ⟨n, hmono n i' h⟩
        · exact Or.inr ⟨l, t', hge, (htop l t' i').2 (Or.inl h)⟩
      · have heq : i' = c.blob_count := by
          have : i' < c.blob_count + 1 := hi'
          omega
        rw [heq]
        exact Or.inl ⟨name, hnew⟩
    · intro n i' h
      rcases hinv n i' h with ⟨rfl, _⟩ | h
      · exact Or.inl ((StdSet.mem_insert _ _ _).2 (Or.inl rfl))
      · rcases hI.consumed_or_avail n i' h with h | h
        · exact Or.inl ((StdSet.mem_insert _ _ _).2 (Or.inr h))
        · exact Or.inr h
    · intro n hn
      rcases (StdSet.mem_insert _ _ _).1 hn with rfl | hn
      · right
        refine ⟨k, t, ?_, ht, hname⟩
        show t < ((pushAt c.top_id_vecs_ k c.blob_count).getD k []).length
        rw [length_getD_pushAt _ _ _ hkt, if_pos rfl]
        have := hS.pos_top
        unfold Core.tops at this
        omega
      · rcases hI.avail_declared n hn with h | ⟨l, t', h1, h2, h3⟩
        · exact Or.inl h
        · exact Or.inr ⟨l, t', lt_of_lt_of_le h1 (hlen l), h2, h3⟩
    · intro j i' h
      exact hmono _ _ (hI.input_named j i' h)
    · intro n i' h
      rcases hinv n i' h with ⟨_, e⟩ | h
      · exact Or.inr ⟨k, t, (htop k t i').2 (Or.inr ⟨rfl, rfl, e⟩), ht, hip⟩
      · rcases hI.origin n i' h with h | ⟨l, t', h1, h2, h3⟩
        · exact Or.inl h
        · exact Or.inr ⟨l, t', (htop l t' i').2 (Or.inl h1), h2, h3⟩
    · intro l t1 l' t1' i' h h' ha ha'
      rcases (htop l t1 i').1 h with ho | ⟨e1, e2, e3⟩
      · rcases (htop l' t1' i').1 h' with ho' | ⟨e1', e2', e3'⟩
        · exact hI.alloc_tops l t1 l' t1' i' ho ho' ha ha'
        · have := hI.top_lt l t1 i' ho
          omega
      · rcases (htop l' t1' i').1 h' with ho' | ⟨e1', e2', e3'⟩
        · have := hI.top_lt l' t1' i' ho'
          omega
        · exact ⟨e1.trans e1'.symm, e2.trans e2'.symm⟩
    · intro j l t' i' hj h ha
      rcases (htop l t' i').1 h with h | ⟨rfl, rfl, rfl⟩
      · exact hI.alloc_input_top j l t' i' hj h ha
      · have := (hI.map_sound _ _ (hI.input_named j _ hj)).1
        omega
    · intro l b' l' t' i' h h' ha
      rcases (htop l' t' i').1 h' with h' | ⟨_, _, e3⟩
      · exact hI.topo l b' l' t' i' h h' ha
      · have := (hI.map_sound _ _ (hI.bottom_named l b' i' h)).1
        omega
  · refine
      { len_top := ?_, len_bottom := hS.len_bottom, len_bnb := hS.len_bnb,
        pos_bottom := hS.pos_bottom, pos_top := ?_, untouched := ?_,
        done_bottom := hS.done_bottom, done_top := ?_ }
    · show (pushAt c.top_id_vecs_ k c.blob_count).length = _
      rw [length_pushAt]
      exact hS.len_top
    · show ((pushAt c.top_id_vecs_ k c.blob_count).getD k []).length = t + 1
      rw [length_getD_pushAt _ _ _ hkt, if_pos rfl]
      have := hS.pos_top
      unfold Core.tops at this
      rw [this]
    · intro l hl
      refine ⟨?_, (hS.untouched l hl).2⟩
      show (pushAt c.top_id_vecs_ k c.blob_count).getD l [] = []
      rw [getD_pushAt _ _ _ _ hkt]
      have hne : l ≠ k := by omega
      simp only [hne, if_false]
      exact (hS.untouched l hl).1
    · intro l hl
      exact le_trans (hS.done_top l hl) (hlen l)

theorem getElem?_append_singleton {α : Type} (xs : List α) (x v : α) (i : Nat) :
    (xs ++ [x])[i]? = some v ↔ xs[i]? = some v ∨ (i = xs.length ∧ v = x) := by
  by_cases hi : i < xs.length
  · rw [List.getElem?_append_left hi]
    constructor
    · intro h
      exact Or.inl h
    · rintro (h | ⟨h, _⟩)
      · exact h
      · omega
  · rw [List.getElem?_append_right (by omega)]
    have hnone : xs[i]? = none := List.getElem?_eq_none (by omega)
    rw [hnone]
    by_cases hie : i = xs.length
    · subst hie
      simp [eq_comm]
    · have hn : [x][i - xs.length]? = none :=
        List.getElem?_eq_none (by simp only [List.length_singleton]; omega)
      rw [hn]
      constructor
      · intro h
        cases h
      · rintro (h | ⟨h, _⟩)
        · cases h
        · exact absurd h hie

theorem Inv.new_input {param : NetParameter} {c : Core} {j : Nat}
    (hI : Inv param c) (hS : InputStage j c) (hj : j < param.input.length)
    (hfind : StdMap.find c.blob_name_to_idx (AppendTop.name param (-1) j) = none) :
    Inv param ((c.new_input (AppendTop.name param (-1) j)).register
        (AppendTop.name param (-1) j) c.blob_count) ∧
      InputStage (j + 1) ((c.new_input (AppendTop.name param (-1) j)).register
        (AppendTop.name param (-1) j) c.blob_count) := by
  have hmem : AppendTop.name param (-1) j ∈ param.input := by
    rw [AppendTop.name_input, List.getD_eq_getElem _ _ hj]
    exact List.getElem_mem _
  generalize hname : AppendTop.name param (-1) j = name at hfind hmem ⊢
  have hin : ∀ j' i', (c.net_input_blob_indices_ ++ [c.blob_count])[j']? = some i' ↔
      c.net_input_blob_indices_[j']? = some i' ∨ (j' = j ∧ i' = c.blob_count) := by
    intro j' i'
    rw [getElem?_append_singleton, hS.pos_input]
  have hmono : ∀ x u, StdMap.find c.blob_name_to_idx x = some u →
      StdMap.find (StdMap.assign c.blob_name_to_idx name c.blob_count) x = some u :=
    fun x u hx => StdMap.find_assign_of_find hfind hx
  have hnew : StdMap.find (StdMap.assign c.blob_name_to_idx name c.blob_count) name =
      some c.blob_count := by
    rw [StdMap.find_assign, if_pos rfl]
  have hinv : ∀ x u, StdMap.find (StdMap.assign c.blob_name_to_idx name c.blob_count) x =
      some u → (x = name ∧ u = c.blob_count) ∨ StdMap.find c.blob_name_to_idx x = some u := by
    intro x u hx
    rw [StdMap.find_assign] at hx
    by_cases hxn : x = name
    · rw [if_pos hxn] at hx
      injection hx with hx
      exact Or.inl ⟨hxn, hx.symm⟩
    · rw [if_neg hxn] at hx
      exact Or.inr hx
  have hinlt : ∀ j' i', c.net_input_blob_indices_[j']? = some i' → i' < c.blob_count :=
    fun j' i' h => (hI.map_sound _ _ (hI.input_named j' i' h)).1
  constructor
  · refine
      { names_len := ?_, nb_len := ?_, ptr_top := hI.ptr_top,
        ptr_bottom := hI.ptr_bottom, ptr_input := ?_, bnb_len := hI.bnb_len,
        map_sound := ?_, avail_map := ?_, top_lt := ?_,
        top_named := ?_, top_anon := ?_, bottom_named := ?_,
        cover := ?_, consumed_or_avail := ?_, avail_declared := ?_,
        input_len := ?_, input_named := ?_, origin := ?_,
        alloc_inputs := ?_, alloc_tops := hI.alloc_tops,
        alloc_input_top := ?_, bottom_declared := hI.bottom_declared, topo := hI.topo }
    · show (c.blob_names_ ++ [name]).length = c.blob_count + 1
      rw [List.length_append, hI.names_len]
      rfl
    · show c.blob_need_backward_len + 1 = c.blob_count + 1
      rw [hI.nb_len]
    · show c.net_input_blobs_ ++ [c.blob_count] = c.net_input_blob_indices_ ++ [c.blob_count]
      rw [hI.ptr_input]
    · intro n i h
      show i < c.blob_count + 1 ∧ (c.blob_names_ ++ [name])[i]? = some n
      rcases hinv n i h with ⟨rfl, rfl⟩ | h
      · refine ⟨Nat.lt_succ_self _, ?_⟩
        rw [← hI.names_len]
        exact getElem?_append_length _ _
      · obtain ⟨h1, h2⟩ := hI.map_sound n i h
        exact ⟨Nat.lt_succ_of_lt h1, getElem?_append_of_lt _ _ _ _ h2⟩
    · intro n hn
      rcases (StdSet.mem_insert _ _ _).1 hn with rfl | hn
      · exact ⟨_, hnew⟩
      · obtain ⟨i, hi⟩ := hI.avail_map n hn
        exact ⟨i, hmono n i hi⟩
    · intro l t' i' h
      exact Nat.lt_succ_of_lt (hI.top_lt l t' i' h)
    · intro l t' i' h hlt
      exact hmono _ _ (hI.top_named l t' i' h hlt)
    · intro l t' i' h hge
      obtain ⟨h1, h2⟩ := hI.top_anon l t' i' h hge
      refine ⟨?_, getElem?_append_of_lt _ _ _ _ h2⟩
      intro n hn
      rcases hinv n i' hn with ⟨_, e⟩ | hn
      · have := hI.top_lt l t' i' h
        omega
      · exact h1 n hn
    · intro l b' i' h
      exact hmono _ _ (hI.bottom_named l b' i' h)
    · intro i' hi'
      by_cases hlt : i' < c.blob_count
      · rcases hI.cover i' hlt with ⟨n, h⟩ | h
        · exact Or.inl ⟨n, hmono n i' h⟩
        · exact Or.inr h
      · have heq : i' = c.blob_count := by
          have : i' < c.blob_count + 1 := hi'
          omega
        rw [heq]
        exact Or.inl ⟨name, hnew⟩
    · intro n i' h
      rcases hinv n i' h with ⟨rfl, _⟩ | h
      · exact Or.inl ((StdSet.mem_insert _ _ _).2 (Or.inl rfl))
      · rcases hI.consumed_or_avail n i' h with h | h
        · exact Or.inl ((StdSet.mem_insert _ _ _).2 (Or.inr h))
        · exact Or.inr h
    · intro n hn
      rcases (StdSet.mem_insert _ _ _).1 hn with rfl | hn
      · exact Or.inl hmem
      · exact hI.avail_declared n hn
    · show (c.net_input_blob_indices_ ++ [c.blob_count]).length ≤ param.input.length
      rw [List.length_append, hS.pos_input]
      exact hj
    · intro j' i' h
      rcases (hin j' i').1 h with h | ⟨rfl, rfl⟩
      · exact hmono _ _ (hI.input_named j' i' h)
      · rw [hname]
        exact hnew
    · intro n i' h
      rcases hinv n i' h with ⟨_, e⟩ | h
      · exact Or.inl ⟨j, (hin j i').2 (Or.inr ⟨rfl, e⟩)⟩
      · rcases hI.origin n i' h with ⟨j', h⟩ | h
        · exact Or.inl ⟨j', (hin j' i').2 (Or.inl h)⟩
        · exact Or.inr h
    · intro j1 j2 i' h1 h2
      rcases (hin j1 i').1 h1 with o1 | ⟨e1, e1'⟩
      · rcases (hin j2 i').1 h2 with o2 | ⟨e2, e2'⟩
        · exact hI.alloc_inputs j1 j2 i' o1 o2
        · have := hinlt j1 i' o1
          omega
      · rcases (hin j2 i').1 h2 with o2 | ⟨e2, e2'⟩
        · have := hinlt j2 i' o2
          omega
        · omega
    · intro j' l t' i' hj' h ha
      rcases (hin j' i').1 hj' with o | ⟨_, e⟩
      · exact hI.alloc_input_top j' l t' i' o h ha
      · have := hI.top_lt l t' i' h
        omega
  · exact
      { no_tops := hS.no_tops, no_top_ptrs := hS.no_top_ptrs, no_bottoms := hS.no_bottoms,
        no_bottom_ptrs := hS.no_bottom_ptrs, no_bnb := hS.no_bnb,
        pos_input := by
          show (c.net_input_blob_indices_ ++ [c.blob_count]).length = j + 1
          rw [List.length_append, hS.pos_input]
          rfl }

theorem Inv.empty (param : NetParameter) : Inv param Core.empty ∧ InputStage 0 Core.empty := by
  constructor
  · refine
      { names_len := rfl, nb_len := rfl, ptr_top := rfl, ptr_bottom := rfl, ptr_input := rfl,
        bnb_len := ?_, map_sound := ?_, avail_map := ?_, top_lt := ?_, top_named := ?_,
        top_anon := ?_, bottom_named := ?_, cover := ?_, consumed_or_avail := ?_,
        avail_declared := ?_, input_len := ?_, input_named := ?_, origin := ?_,
        alloc_inputs := ?_, alloc_tops := ?_, alloc_input_top := ?_,
        bottom_declared := ?_, topo := ?_ } <;>
      simp [Core.empty, Core.tops, Core.bottoms, StdMap.find]
  · exact
      { no_tops := rfl, no_top_ptrs := rfl, no_bottoms := rfl, no_bottom_ptrs := rfl,
        no_bnb := rfl, pos_input := rfl }

theorem getD_resized {α : Type} (n l : Nat) : (resized n : List (List α)).getD l [] = [] := by
  unfold resized
  by_cases hl : l < n
  · rw [List.getD_eq_getElem _ _ (by simpa using hl)]
    simp
  · rw [List.getD_eq_default _ _ (by simpa using hl)]

theorem Inv.resize {param : NetParameter} {c : Core} {j : Nat}
    (hI : Inv param c) (hS : InputStage j c) :
    Inv param (c.resize param.layer.length) ∧
      Stage param 0 0 0 (c.resize param.layer.length) := by
  have htops : ∀ l, (c.resize param.layer.length).tops l = c.tops l := by
    intro l
    show (resized param.layer.length).getD l [] = c.top_id_vecs_.getD l []
    rw [getD_resized, hS.no_tops]
    rfl
  have hbots : ∀ l, (c.resize param.layer.length).bottoms l = c.bottoms l := by
    intro l
    show (resized param.layer.length).getD l [] = c.bottom_id_vecs_.getD l []
    rw [getD_resized, hS.no_bottoms]
    rfl
  have hte : ∀ l, (c.resize param.layer.length).tops l = [] := by
    intro l
    show (resized param.layer.length).getD l [] = []
    exact getD_resized _ _
  have hbe : ∀ l, (c.resize param.layer.length).bottoms l = [] := by
    intro l
    show (resized param.layer.length).getD l [] = []
    exact getD_resized _ _
  constructor
  · refine
      { names_len := hI.names_len, nb_len := hI.nb_len, ptr_top := rfl,
        ptr_bottom := rfl, ptr_input := hI.ptr_input, bnb_len := ?_,
        map_sound := hI.map_sound, avail_map := hI.avail_map, top_lt := ?_,
        top_named := ?_, top_anon := ?_, bottom_named := ?_,
        cover := ?_, consumed_or_avail := ?_, avail_declared := ?_,
        input_len := hI.input_len, input_named := hI.input_named, origin := ?_,
        alloc_inputs := hI.alloc_inputs, alloc_tops := ?_,
        alloc_input_top := ?_, bottom_declared := ?_, topo := ?_ }
    · intro l
      rw [hbe]
      show ((resized param.layer.length).getD l []).length = 0
      rw [getD_resized]
      rfl
    · intro l t i h
      rw [htops] at h
      exact hI.top_lt l t i h
    · intro l t i h
      rw [htops] at h
      exact hI.top_named l t i h
    · intro l t i h
      rw [htops] at h
      exact hI.top_anon l t i h
    · intro l b i h
      rw [hbots] at h
      exact hI.bottom_named l b i h
    · intro i hi
      rcases hI.cover i hi with h | ⟨l, t, hge, h⟩
      · exact Or.inl h
      · rw [← htops] at h
        exact Or.inr ⟨l, t, hge, h⟩
    · intro n i h
      rcases hI.consumed_or_avail n i h with h | ⟨l, b, h⟩
      · exact Or.inl h
      · rw [← hbots] at h
        exact Or.inr ⟨l, b, h⟩
    · intro n hn
      rcases hI.avail_declared n hn with h | ⟨l, t, h1, h2, h3⟩
      · exact Or.inl h
      · rw [← htops] at h1
        exact Or.inr ⟨l, t, h1, h2, h3⟩
    · intro n i h
      rcases hI.origin n i h with h | ⟨l, t, h1, h2, h3⟩
      · exact Or.inl h
      · rw [← htops] at h1
        exact Or.inr ⟨l, t, h1, h2, h3⟩
    · intro l t l' t' i h h'
      rw [htops] at h h'
      exact hI.alloc_tops l t l' t' i h h'
    · intro j' l t i hj h
      rw [htops] at h
      exact hI.alloc_input_top j' l t i hj h
    · intro l b i h
      rw [hbots] at h
      exact hI.bottom_declared l b i h
    · intro l b l' t i h h'
      rw [hbots] at h
      rw [htops] at h'
      exact hI.topo l b l' t i h h'
  · refine
      { len_top := ?_, len_bottom := ?_, len_bnb := ?_, pos_bottom := ?_, pos_top := ?_,
        untouched := ?_, done_bottom := ?_, done_top := ?_ }
    · show (resized param.layer.length : List (List Nat)).length = _
      simp [resized]
    · show (resized param.layer.length : List (List Nat)).length = _
      simp [resized]
    · show (resized param.layer.length : List (List Bool)).length = _
      simp [resized]
    · rw [hbe]
      rfl
    · rw [hte]
      rfl
    · intro l _
      exact ⟨hte l, hbe l⟩
    · intro l hl
      omega
    · intro l hl
      omega

/-! ## The steps of the layer loop that leave the connections alone -/

theorem frame_loss_weights (l : Nat) (net : Net) (a : StdSet) (m : StdMap) :
    (Init.loss_weights l net).core a m = net.core a m ∧
      (Init.loss_weights l net).aux = net.aux := by
  unfold Init.loss_weights
  exact forUp_induction
    (fun (_ : Nat) (s : Net) => s.core a m = net.core a m ∧ s.aux = net.aux) _ _ _
    ⟨rfl, rfl⟩ (fun i t _ h => ⟨h.1, h.2⟩)

theorem frame_share_lr (net net' : Net) (n : String) (ps : ParamSpec) (i : Nat)
    (a : StdSet) (m : StdMap) (h : AppendParam.share_lr net n ps i = .ok net') :
    net'.core a m = net.core a m ∧ net'.aux = net.aux := by
  unfold AppendParam.share_lr at h
  split at h
  · split at h
    · split at h
      · cases h
      · injection h with h
        subst h
        exact ⟨rfl, rfl⟩
    · injection h with h
      subst h
      exact ⟨rfl, rfl⟩
  · injection h with h
    subst h
    exact ⟨rfl, rfl⟩

theorem frame_share_decay (net net' : Net) (n : String) (ps : ParamSpec) (i : Nat)
    (a : StdSet) (m : StdMap) (h : AppendParam.share_decay net n ps i = .ok net') :
    net'.core a m = net.core a m ∧ net'.aux = net.aux := by
  unfold AppendParam.share_decay at h
  split at h
  · split at h
    · split at h
      · cases h
      · injection h with h
        subst h
        exact ⟨rfl, rfl⟩
    · injection h with h
      subst h
      exact ⟨rfl, rfl⟩
  · injection h with h
    subst h
    exact ⟨rfl, rfl⟩

theorem frame_shares (net net' : Net) (lp : LayerParameter) (p : Nat) (n : String)
    (ps : ParamSpec) (b : Blob) (a : StdSet) (m : StdMap)
    (h : AppendParam.shares net lp p n ps b = .ok net') :
    net'.core a m = net.core a m ∧ net'.aux = net.aux := by
  unfold AppendParam.shares at h
  dsimp only at h
  split at h
  · cases h
  · split at h
    · cases h
    · cases h3 : AppendParam.share_lr
          { net with
            param_names_index_ := (StdMap.index net.param_names_index_ n).2
            param_owners_ := net.param_owners_ ++
              [((StdMap.index net.param_names_index_ n).1 : Int)]
            learnable_param_ids_ := net.learnable_param_ids_ ++
              [net.learnable_param_ids_.getD (StdMap.index net.param_names_index_ n).1 0] }
          n ps (net.learnable_param_ids_.getD (StdMap.index net.param_names_index_ n).1 0) with
      | error e =>
        rw [h3] at h
        cases h
      | ok net3 =>
        rw [h3] at h
        obtain ⟨h1, h2⟩ := frame_share_lr _ _ _ _ _ a m h3
        obtain ⟨h1', h2'⟩ := frame_share_decay _ _ _ _ _ a m h
        exact ⟨h1'.trans h1, h2'.trans h2⟩

theorem frame_AppendParam (net net' : Net) (param : NetParameter) (l p : Nat)
    (a : StdSet) (m : StdMap) (h : AppendParam net param l p = .ok net') :
    net'.core a m = net.core a m ∧ net'.aux = net.aux := by
  unfold AppendParam at h
  dsimp only at h
  split at h
  · injection h with h
    subst h
    exact ⟨rfl, rfl⟩
  · obtain ⟨h1, h2⟩ := frame_shares _ _ _ _ _ _ _ a m h
    exact ⟨h1, h2⟩

theorem frame_params (param : NetParameter) (l : Nat) (net net' : Net)
    (a : StdSet) (m : StdMap) (h : Init.params param l net = .ok net') :
    net'.core a m = net.core a m ∧ net'.aux = net.aux := by
  unfold Init.params at h
  refine forRange_induction
    (fun (_ : Nat) (s : Net) => s.core a m = net.core a m ∧ s.aux = net.aux)
    _ _ _ _ ⟨rfl, rfl⟩ ?_ h
  intro i t t' _ ht hstep
  obtain ⟨h1, h2⟩ := frame_AppendParam _ _ _ _ _ a m hstep
  exact ⟨h1.trans ht.1, h2.trans ht.2⟩

theorem Layer.needed_extra_traits (L L' : Layer) (n : Nat) (h : L.traits = L'.traits) :
    L.needed_extra n = L'.needed_extra n := by
  have h1 : L.traits.AutoTopBlobs = L'.traits.AutoTopBlobs := by rw [h]
  have h2 : L.traits.MinTopBlobs = L'.traits.MinTopBlobs := by rw [h]
  have h3 : L.traits.ExactNumTopBlobs = L'.traits.ExactNumTopBlobs := by rw [h]
  simp only [Layer.traits] at h1 h2 h3
  simp only [Layer.needed_extra, h1, h2, h3]

theorem traits_set_param_propagate_down (L : Layer) (p : Nat) (v : Bool) :
    (L.set_param_propagate_down p v).traits = L.traits := rfl

theorem map_traits_set (ls : List Layer) (l p : Nat) (v : Bool) :
    (ls.set l ((ls.getD l default).set_param_propagate_down p v)).map Layer.traits =
      ls.map Layer.traits := by
  apply List.ext_getElem?
  intro i
  rw [List.getElem?_map, List.getElem?_map, List.getElem?_set]
  by_cases hli : l = i
  · subst hli
    by_cases hl : l < ls.length
    · rw [if_pos rfl, if_pos hl, List.getD_eq_getElem _ _ hl, List.getElem?_eq_getElem hl]
      rfl
    · rw [if_pos rfl, if_neg hl, List.getElem?_eq_none (by omega)]
  · rw [if_neg hli]

theorem frame_param_flags (param : NetParameter) (l : Nat) (s : Net × Bool)
    (a : StdSet) (m : StdMap) :
    (Init.param_flags param l s).1.core a m = s.1.core a m ∧
      (Init.param_flags param l s).1.layers_.map Layer.traits = s.1.layers_.map Layer.traits ∧
      (Init.param_flags param l s).1.layer_need_backward_ = s.1.layer_need_backward_ ∧
      (Init.param_flags param l s).1.phase_ = s.1.phase_ ∧
      (Init.param_flags param l s).1.net_output_blob_indices_ =
        s.1.net_output_blob_indices_ ∧
      (Init.param_flags param l s).1.net_output_blobs_ = s.1.net_output_blobs_ := by
  unfold Init.param_flags
  refine forUp_induction
    (fun (_ : Nat) (t : Net × Bool) => t.1.core a m = s.1.core a m ∧
      t.1.layers_.map Layer.traits = s.1.layers_.map Layer.traits ∧
      t.1.layer_need_backward_ = s.1.layer_need_backward_ ∧ t.1.phase_ = s.1.phase_ ∧
      t.1.net_output_blob_indices_ = s.1.net_output_blob_indices_ ∧
      t.1.net_output_blobs_ = s.1.net_output_blobs_)
    _ _ _ ⟨rfl, rfl, rfl, rfl, rfl, rfl⟩ ?_
  intro i t _ h
  refine ⟨h.1, ?_, h.2.2.1, h.2.2.2⟩
  show (t.1.layers_.set l _).map Layer.traits = _
  rw [map_traits_set]
  exact h.2.1

theorem frame_set_need_backward (l : Nat) (nb : Bool) (net : Net) (a : StdSet) (m : StdMap) :
    (Init.set_need_backward l nb net).core a m = net.core a m ∧
      (Init.set_need_backward l nb net).layers_ = net.layers_ ∧
      (Init.set_need_backward l nb net).layer_need_backward_ =
        net.layer_need_backward_ ++ [nb] ∧
      (Init.set_need_backward l nb net).phase_ = net.phase_ ∧
      (Init.set_need_backward l nb net).net_output_blob_indices_ =
        net.net_output_blob_indices_ ∧
      (Init.set_need_backward l nb net).net_output_blobs_ = net.net_output_blobs_ := by
  unfold Init.set_need_backward
  dsimp only
  split
  · refine forUp_induction
      (fun (_ : Nat) (t : Net) => t.core a m = net.core a m ∧ t.layers_ = net.layers_ ∧
        t.layer_need_backward_ = net.layer_need_backward_ ++ [nb] ∧ t.phase_ = net.phase_ ∧
        t.net_output_blob_indices_ = net.net_output_blob_indices_ ∧
        t.net_output_blobs_ = net.net_output_blobs_)
      _ _ _ ⟨rfl, rfl, rfl, rfl, rfl, rfl⟩ ?_
    intro i t _ h
    refine ⟨?_, h.2.1, h.2.2.1, h.2.2.2⟩
    rw [← h.1]
    simp [Net.core]
  · exact ⟨rfl, rfl, rfl, rfl, rfl, rfl⟩

theorem aux_normal_output (net : Net) (param : NetParameter) (layer_id : Int) (top_id : Nat)
    (blob_name : String) :
    (AppendTop.normal_output net param layer_id top_id blob_name).aux = net.aux := by
  unfold AppendTop.normal_output
  dsimp only
  split <;> rfl

theorem aux_AppendTop (net : Net) (param : NetParameter) (layer_id : Int) (top_id : Nat)
    (a : Option StdSet) (m : Option StdMap) (r : Net × Option StdSet × Option StdMap)
    (h : AppendTop net param layer_id top_id a m = .ok r) : r.1.aux = net.aux := by
  unfold AppendTop at h
  dsimp only at h
  split at h
  · split at h
    · injection h with h
      subst h
      rfl
    · split at h
      · cases h
      · injection h with h
        subst h
        exact aux_normal_output _ _ _ _ _
  · injection h with h
    subst h
    exact aux_normal_output _ _ _ _ _

theorem aux_call_AppendTop (param : NetParameter) (layer_id : Int) (top_id : Nat)
    (named : Bool) (w w' : Wiring)
    (h : Init.call_AppendTop param layer_id top_id named w = .ok w') :
    w'.net.aux = w.net.aux := by
  unfold Init.call_AppendTop at h
  cases hr : AppendTop w.net param layer_id top_id
      (if named then some w.available_blobs else none)
      (if named then some w.blob_name_to_idx else none) with
  | error e =>
    rw [hr] at h
    cases h
  | ok r =>
    rw [hr] at h
    simp only [Except.map] at h
    injection h with h
    subst h
    exact aux_AppendTop _ _ _ _ _ _ _ hr

theorem aux_AppendBottom (net : Net) (param : NetParameter) (l b : Nat) (a : StdSet)
    (m : StdMap) (r : Nat × Net × StdSet × StdMap)
    (h : AppendBottom net param l b a m = .ok r) : r.2.1.aux = net.aux := by
  by_cases hmem : AppendBottom.blob_name param l b ∈ a
  · rw [AppendBottom_ok _ _ _ _ _ _ hmem] at h
    injection h with h
    subst h
    rfl
  · rw [AppendBottom_error _ _ _ _ _ _ hmem] at h
    cases h

/-! ## The invariant along the loops of `Init` -/

theorem Except.map_eq_ok {ε α β : Type} {x : Except ε α} {f : α → β} {y : β}
    (h : x.map f = .ok y) : ∃ r, x = .ok r ∧ y = f r := by
  cases x with
  | error e => cases h
  | ok r =>
    simp only [Except.map] at h
    injection h with h
    exact ⟨r, rfl, h.symm⟩

theorem Except.bind_eq_ok {ε α β : Type} {x : Except ε α} {f : α → Except ε β} {y : β}
    (h : x.bind f = .ok y) : ∃ r, x = .ok r ∧ f r = .ok y := by
  cases x with
  | error e => cases h
  | ok r => exact ⟨r, rfl, h⟩

theorem inputs_inv (param : NetParameter) (w w' : Wiring) (hI : Inv param w.core)
    (hS : InputStage 0 w.core) (h : Init.inputs param w = .ok w') :
    Inv param w'.core ∧ InputStage param.input.length w'.core ∧ w'.net.aux = w.net.aux := by
  unfold Init.inputs at h
  refine forRange_induction
    (fun (j : Nat) (s : Wiring) =>
      Inv param s.core ∧ InputStage j s.core ∧ s.net.aux = w.net.aux)
    _ _ _ _ ⟨hI, hS, rfl⟩ ?_ h
  intro j t t' hj ht hstep
  obtain ⟨hfind, hcore⟩ := core_input param j t t' hstep
  obtain ⟨h1, h2⟩ := Inv.new_input ht.1 ht.2.1 hj hfind
  rw [hcore]
  exact ⟨h1, h2, (aux_call_AppendTop _ _ _ _ _ _ hstep).trans ht.2.2⟩

theorem Core.same_rows_except_refl (k : Nat) (c : Core) : Core.same_rows_except k c c :=
  ⟨rfl, fun _ _ => ⟨rfl, rfl⟩⟩

theorem Core.same_rows_except_trans {k : Nat} {c c' c'' : Core}
    (h : Core.same_rows_except k c c') (h' : Core.same_rows_except k c' c'') :
    Core.same_rows_except k c c'' :=
  ⟨h'.1.trans h.1,
    fun l hl => ⟨(h'.2 l hl).1.trans (h.2 l hl).1, (h'.2 l hl).2.trans (h.2 l hl).2⟩⟩

theorem Core.append_bottom_rows (c : Core) (k : Nat) (n : String) (f : Bool)
    (hk : k < c.bottom_id_vecs_.length) :
    Core.same_rows_except k c (c.append_bottom k n f) := by
  refine ⟨rfl, ?_⟩
  intro l hl
  refine ⟨rfl, ?_⟩
  show (pushAt c.bottom_id_vecs_ k _).getD l [] = c.bottom_id_vecs_.getD l []
  rw [getD_pushAt _ _ _ _ hk, if_neg hl]

theorem Core.append_in_place_rows (c : Core) (k : Nat) (n : String)
    (hk : k < c.top_id_vecs_.length) :
    Core.same_rows_except k c (c.append_in_place k n) := by
  refine ⟨rfl, ?_⟩
  intro l hl
  refine ⟨?_, rfl⟩
  show (pushAt c.top_id_vecs_ k _).getD l [] = c.top_id_vecs_.getD l []
  rw [getD_pushAt _ _ _ _ hk, if_neg hl]

theorem Core.new_top_rows (c : Core) (k : Nat) (n : String)
    (hk : k < c.top_id_vecs_.length) :
    Core.same_rows_except k c (c.new_top k n) := by
  refine ⟨rfl, ?_⟩
  intro l hl
  refine ⟨?_, rfl⟩
  show (pushAt c.top_id_vecs_ k _).getD l [] = c.top_id_vecs_.getD l []
  rw [getD_pushAt _ _ _ _ hk, if_neg hl]

theorem Core.register_rows (c : Core) (k : Nat) (n : String) (x : Nat) :
    Core.same_rows_except k c (c.register n x) :=
  ⟨rfl, fun _ _ => ⟨rfl, rfl⟩⟩

theorem bottoms_inv (param : NetParameter) (k : Nat) (s s' : Wiring × Bool)
    (hI : Inv param s.1.core) (hS : Stage param k 0 0 s.1.core)
    (hk : k < param.layer.length) (h : Init.bottoms param k s = .ok s') :
    Inv param s'.1.core ∧ Stage param k (num_bottom param k) 0 s'.1.core ∧
      s'.1.net.aux = s.1.net.aux ∧ Core.same_rows_except k s.1.core s'.1.core := by
  unfold Init.bottoms at h
  refine forRange_induction
    (fun (b : Nat) (t : Wiring × Bool) =>
      Inv param t.1.core ∧ Stage param k b 0 t.1.core ∧ t.1.net.aux = s.1.net.aux ∧
        Core.same_rows_except k s.1.core t.1.core)
    _ _ _ _ ⟨hI, hS, rfl, Core.same_rows_except_refl _ _⟩ ?_ h
  intro b t t' hb ht hstep
  obtain ⟨r, hr, ht'⟩ := Except.map_eq_ok hstep
  obtain ⟨hmem, _, f, hcore⟩ := core_AppendBottom param k b t.1 r hr
  obtain ⟨h1, h2⟩ := Inv.append_bottom f ht.1 ht.2.1 hk hmem
  have hrows := Core.append_bottom_rows t.1.core k (AppendBottom.blob_name param k b) f
    (by rw [ht.2.1.len_bottom]; exact hk)
  subst ht'
  refine ⟨?_, ?_, ?_, ?_⟩
  · show Inv param (r.2.1.core r.2.2.1 r.2.2.2)
    rw [hcore]
    exact h1
  · show Stage param k (b + 1) 0 (r.2.1.core r.2.2.1 r.2.2.2)
    rw [hcore]
    exact h2
  · exact (aux_AppendBottom _ _ _ _ _ _ _ hr).trans ht.2.2.1
  · show Core.same_rows_except k s.1.core (r.2.1.core r.2.2.1 r.2.2.2)
    rw [hcore]
    exact Core.same_rows_except_trans ht.2.2.2 hrows

theorem tops_inv (param : NetParameter) (k : Nat) (w w' : Wiring)
    (hI : Inv param w.core) (hS : Stage param k (num_bottom param k) 0 w.core)
    (hk : k < param.layer.length) (h : Init.tops param k w = .ok w') :
    Inv param w'.core ∧ Stage param k (num_bottom param k) (num_top param k) w'.core ∧
      w'.net.aux = w.net.aux ∧ Core.same_rows_except k w.core w'.core := by
  unfold Init.tops at h
  refine forRange_induction
    (fun (t : Nat) (s : Wiring) =>
      Inv param s.core ∧ Stage param k (num_bottom param k) t s.core ∧
        s.net.aux = w.net.aux ∧ Core.same_rows_except k w.core s.core)
    _ _ _ _ ⟨hI, hS, rfl, Core.same_rows_except_refl _ _⟩ ?_ h
  intro t s s' ht hs hstep
  have haux := (aux_call_AppendTop _ _ _ _ _ _ hstep).trans hs.2.2.1
  have hkt : k < s.core.top_id_vecs_.length := by rw [hs.2.1.len_top]; exact hk
  rcases core_top param k t s s' hstep with ⟨hip, hcore⟩ | ⟨hip, hfind, hcore⟩
  · obtain ⟨h1, h2⟩ := Inv.append_in_place hs.1 hs.2.1 hk ht hip
    rw [hcore]
    exact ⟨h1, h2, haux,
      Core.same_rows_except_trans hs.2.2.2 (Core.append_in_place_rows _ _ _ hkt)⟩
  · obtain ⟨h1, h2⟩ := Inv.new_top_named hs.1 hs.2.1 hk ht hip hfind
    rw [hcore]
    exact ⟨h1, h2, haux,
      Core.same_rows_except_trans hs.2.2.2
        (Core.same_rows_except_trans (Core.new_top_rows _ _ _ hkt)
          (Core.register_rows _ _ _ _))⟩

/-- The loop that adds anonymous tops: it always returns, adds as many tops as
the layer still needs, and leaves the available set and the name-to-index map
as they were. -/
theorem auto_tops_inv (param : NetParameter) (k b : Nat) (w : Wiring)
    (hI : Inv param w.core) (hS : Stage param k b (num_top param k) w.core)
    (hk : k < param.layer.length) :
    ∃ w', Init.auto_tops param k w = .ok w' ∧
      Inv param w'.core ∧
      Stage param k b
        (num_top param k + (w.net.layers_.getD k default).needed_extra (num_top param k))
        w'.core ∧
      w'.net.aux = w.net.aux ∧ w'.available_blobs = w.available_blobs ∧
      w'.blob_name_to_idx = w.blob_name_to_idx ∧
      w'.net.blobs_.length = w.net.blobs_.length +
        (w.net.layers_.getD k default).needed_extra (num_top param k) ∧
      Core.same_rows_except k w.core w'.core := by
  have hloop : ∀ n, ∃ w', forRange n
      (fun i w => Init.call_AppendTop param (k : Int) (num_top param k + i) false w) w =
        .ok w' ∧
      Inv param w'.core ∧ Stage param k b (num_top param k + n) w'.core ∧
      w'.net.aux = w.net.aux ∧ w'.available_blobs = w.available_blobs ∧
      w'.blob_name_to_idx = w.blob_name_to_idx ∧
      w'.net.blobs_.length = w.net.blobs_.length + n ∧
      Core.same_rows_except k w.core w'.core := by
    intro n
    induction n with
    | zero => exact ⟨w, rfl, hI, hS, rfl, rfl, rfl, rfl, Core.same_rows_except_refl _ _⟩
    | succ n ih =>
      obtain ⟨w1, h1, hI1, hS1, ha1, hav1, hm1, hl1, hr1⟩ := ih
      obtain ⟨w2, h2, hav2, hm2, hnet2, hcore2⟩ :=
        call_AppendTop_anonymous param k (num_top param k + n) w1
      obtain ⟨hI2, hS2⟩ := Inv.new_top_anon hI1 hS1 hk (Nat.le_add_right _ _)
      have hkt : k < w1.core.top_id_vecs_.length := by rw [hS1.len_top]; exact hk
      refine ⟨w2, ?_, ?_, ?_, ?_, hav2.trans hav1, hm2.trans hm1, ?_, ?_⟩
      · rw [forRange_succ, h1]
        exact h2
      · rw [hcore2]
        exact hI2
      · rw [hcore2]
        exact hS2
      · exact (aux_call_AppendTop _ _ _ _ _ _ h2).trans ha1
      · rw [hnet2, normal_output_blobs_length, hl1]
        omega
      · rw [hcore2]
        exact Core.same_rows_except_trans hr1 (Core.new_top_rows _ _ _ hkt)
  unfold Init.auto_tops
  dsimp only
  unfold num_top at hloop hS ⊢
  unfold Layer.needed_extra
  split
  · exact hloop _
  · exact ⟨w, rfl, hI, hS, rfl, rfl, rfl, rfl, Core.same_rows_except_refl _ _⟩

theorem Stage.next {param : NetParameter} {k T : Nat} {c : Core}
    (hS : Stage param k (num_bottom param k) T c) (hT : num_top param k ≤ T) :
    Stage param (k + 1) 0 0 c := by
  refine
    { len_top := hS.len_top, len_bottom := hS.len_bottom, len_bnb := hS.len_bnb,
      pos_bottom := ?_, pos_top := ?_, untouched := ?_, done_bottom := ?_, done_top := ?_ }
  · rw [(hS.untouched (k + 1) (Nat.lt_succ_self k)).2]
    rfl
  · rw [(hS.untouched (k + 1) (Nat.lt_succ_self k)).1]
    rfl
  · intro l hl
    exact hS.untouched l (by omega)
  · intro l hl
    by_cases hlk : l = k
    · subst hlk
      exact hS.pos_bottom
    · exact hS.done_bottom l (by omega)
  · intro l hl
    by_cases hlk : l = k
    · subst hlk
      rw [hS.pos_top]
      exact hT
    · exact hS.done_top l (by omega)

theorem getD_traits (ls : List Layer) (l : Nat) :
    (ls.getD l default).traits = (ls.map Layer.traits).getD l (default : Layer).traits := by
  by_cases hl : l < ls.length
  · rw [List.getD_eq_getElem _ _ hl, List.getD_eq_getElem _ _ (by simpa using hl)]
    simp
  · rw [List.getD_eq_default _ _ (by omega), List.getD_eq_default _ _ (by simp; omega)]

theorem getD_append_left' {α : Type} (xs ys : List α) (d : α) (l : Nat) (h : l < xs.length) :
    (xs ++ ys).getD l d = xs.getD l d := by
  rw [List.getD_eq_getElem _ _ (by simp; omega), List.getD_eq_getElem _ _ h]
  exact List.getElem_append_left h

theorem getD_append_length {α : Type} (xs : List α) (y d : α) :
    (xs ++ [y]).getD xs.length d = y := by
  rw [List.getD_eq_getElem _ _ (by simp)]
  simp

theorem layer_inv (CreateLayer : LayerParameter → Layer) (param : NetParameter)
    (phase_ : Phase) (k : Nat) (w w' : Wiring) (hk : k < param.layer.length)
    (hW : WInv CreateLayer param phase_ k w)
    (h : Init.layer CreateLayer param k w = .ok w') :
    WInv CreateLayer param phase_ (k + 1) w' := by
  unfold Init.layer at h
  dsimp only at h
  split at h
  · cases h
  · obtain ⟨s2, hs2, h⟩ := Except.bind_eq_ok h
    obtain ⟨w3, hw3, h⟩ := Except.bind_eq_ok h
    obtain ⟨w4, hw4, h⟩ := Except.bind_eq_ok h
    split at h
    · cases h
    · obtain ⟨net7, hnet7, h⟩ := Except.bind_eq_ok h
      injection h with h
      -- the wiring of the layer
      obtain ⟨hI2, hS2, ha2, hr2⟩ := bottoms_inv param k _ s2 hW.inv hW.stage hk hs2
      obtain ⟨hI3, hS3, ha3, hr3⟩ := tops_inv param k _ w3 hI2 hS2 hk hw3
      obtain ⟨w4', hw4', hI4, hS4, ha4, _, _, _, hr4⟩ :=
        auto_tops_inv param k (num_bottom param k) w3 hI3 hS3 hk
      rw [hw4'] at hw4
      injection hw4 with hw4
      subst hw4
      -- the steps that leave the connections alone
      obtain ⟨hc5, ha5⟩ :=
        frame_loss_weights k w4'.net w4'.available_blobs w4'.blob_name_to_idx
      obtain ⟨hc6, hl6, hn6, hp6, ho6, ho6'⟩ :=
        frame_param_flags param k (Init.loss_weights k w4'.net, s2.2)
          w4'.available_blobs w4'.blob_name_to_idx
      obtain ⟨hc7, ha7⟩ :=
        frame_params param k _ net7 w4'.available_blobs w4'.blob_name_to_idx hnet7
      obtain ⟨hc8, hl8, hn8, hp8, ho8, ho8'⟩ :=
        frame_set_need_backward k
          (Init.param_flags param k (Init.loss_weights k w4'.net, s2.2)).2 net7
          w4'.available_blobs w4'.blob_name_to_idx
      have hcore : w'.core = w4'.core := by
        rw [← h]
        show (Init.set_need_backward k _ net7).core _ _ = _
        rw [hc8, hc7, hc6, hc5]
        rfl
      have haux4 : w4'.net.aux =
          (w.net.layers_ ++ [CreateLayer (Init.inherit_phase (param.layer.getD k default)
            w.net.phase_)], w.net.layer_need_backward_, w.net.phase_,
            w.net.net_output_blob_indices_, w.net.net_output_blobs_) := by
        rw [ha4, ha3, ha2]
        rfl
      have hlay4 : w4'.net.layers_ = w.net.layers_ ++
          [CreateLayer (Init.inherit_phase (param.layer.getD k default) w.net.phase_)] :=
        congrArg (fun x => x.1) haux4
      have hlnb4 : w4'.net.layer_need_backward_ = w.net.layer_need_backward_ :=
        congrArg (fun x => x.2.1) haux4
      have hph4 : w4'.net.phase_ = w.net.phase_ := congrArg (fun x => x.2.2.1) haux4
      have hout4 : w4'.net.net_output_blob_indices_ = w.net.net_output_blob_indices_ :=
        congrArg (fun x => x.2.2.2.1) haux4
      have hout4' : w4'.net.net_output_blobs_ = w.net.net_output_blobs_ :=
        congrArg (fun x => x.2.2.2.2) haux4
      have hlay3 : w3.net.layers_ = w.net.layers_ ++
          [CreateLayer (Init.inherit_phase (param.layer.getD k default) w.net.phase_)] := by
        have : w3.net.aux = _ := ha3.trans ha2
        exact congrArg (fun x => x.1) this
      have haux7 : net7.aux =
          ((Init.param_flags param k (Init.loss_weights k w4'.net, s2.2)).1.layers_,
            w.net.layer_need_backward_, w.net.phase_, w.net.net_output_blob_indices_,
            w.net.net_output_blobs_) := by
        rw [ha7]
        show (_, _, _, _, _) = _
        rw [hn6, hp6, ho6, ho6']
        have h5l : (Init.loss_weights k w4'.net).layer_need_backward_ =
            w4'.net.layer_need_backward_ := congrArg (fun x => x.2.1) ha5
        have h5p : (Init.loss_weights k w4'.net).phase_ = w4'.net.phase_ :=
          congrArg (fun x => x.2.2.1) ha5
        have h5o : (Init.loss_weights k w4'.net).net_output_blob_indices_ =
            w4'.net.net_output_blob_indices_ := congrArg (fun x => x.2.2.2.1) ha5
        have h5o' : (Init.loss_weights k w4'.net).net_output_blobs_ =
            w4'.net.net_output_blobs_ := congrArg (fun x => x.2.2.2.2) ha5
        rw [h5l, h5p, h5o, h5o', hlnb4, hph4, hout4, hout4']
      have hlay7 : net7.layers_.map Layer.traits = (w.net.layers_ ++
          [CreateLayer (Init.inherit_phase (param.layer.getD k default)
            w.net.phase_)]).map Layer.traits := by
        have h7 : net7.layers_ =
            (Init.param_flags param k (Init.loss_weights k w4'.net, s2.2)).1.layers_ :=
          congrArg (fun x => x.1) haux7
        rw [h7, hl6]
        have h5 : (Init.loss_weights k w4'.net).layers_ = w4'.net.layers_ :=
          congrArg (fun x => x.1) ha5
        show (Init.loss_weights k w4'.net).layers_.map Layer.traits = _
        rw [h5, hlay4]
      have hlayers' : w'.net.layers_ = net7.layers_ := by
        rw [← h]
        exact hl8
      have htr : ∀ l, (w'.net.layers_.getD l default).traits =
          ((w.net.layers_ ++ [CreateLayer (Init.inherit_phase (param.layer.getD k default)
            w.net.phase_)]).getD l default).traits := by
        intro l
        rw [hlayers', getD_traits, hlay7, ← getD_traits]
      have htrl : ∀ l, l < k → (w'.net.layers_.getD l default).traits =
          (w.net.layers_.getD l default).traits := by
        intro l hl
        rw [htr, getD_append_left' _ _ _ _ (by rw [hW.layers_len]; exact hl)]
      have htrk : (w'.net.layers_.getD k default).traits =
          (CreateLayer (Init.inherit_phase (param.layer.getD k default) phase_)).traits := by
        rw [htr]
        have := getD_append_length w.net.layers_
          (CreateLayer (Init.inherit_phase (param.layer.getD k default) w.net.phase_)) default
        rw [hW.layers_len] at this
        rw [this, hW.phase_eq]
      have hL3 : w3.net.layers_.getD k default =
          CreateLayer (Init.inherit_phase (param.layer.getD k default) phase_) := by
        rw [hlay3]
        have := getD_append_length w.net.layers_
          (CreateLayer (Init.inherit_phase (param.layer.getD k default) w.net.phase_)) default
        rw [hW.layers_len] at this
        rw [this, hW.phase_eq]
      refine
        { inv := ?_, stage := ?_, layers_len := ?_, lnb_len := ?_, phase_eq := ?_,
          traits := ?_, top_count := ?_, inputs_len := ?_, no_outputs := ?_ }
      · rw [hcore]
        exact hI4
      · rw [hcore]
        exact Stage.next hS4 (Nat.le_add_right _ _)
      · have := congrArg List.length hlay7
        rw [hlayers']
        simpa [hW.layers_len] using this
      · rw [← h]
        show (Init.set_need_backward k _ net7).layer_need_backward_.length = k + 1
        rw [hn8]
        have h7 : net7.layer_need_backward_ = w.net.layer_need_backward_ :=
          congrArg (fun x => x.2.1) haux7
        rw [h7, List.length_append, hW.lnb_len]
        rfl
      · rw [← h]
        show (Init.set_need_backward k _ net7).phase_ = phase_
        rw [hp8]
        have h7 : net7.phase_ = w.net.phase_ := congrArg (fun x => x.2.2.1) haux7
        rw [h7, hW.phase_eq]
      · intro l hl
        by_cases hlk : l = k
        · subst hlk
          exact htrk
        · rw [htrl l (by omega)]
          exact hW.traits l (by omega)
      · intro l hl
        rw [hcore]
        by_cases hlk : l = k
        · subst hlk
          rw [hS4.pos_top, hL3]
          rw [Layer.needed_extra_traits _ _ _ htrk]
        · have hl' : l < k := by omega
          have e4 := (hr4.2 l hlk).1
          have e3 := (hr3.2 l hlk).1
          have e2 := (hr2.2 l hlk).1
          rw [e4, e3, e2]
          have := hW.top_count l hl'
          rw [Layer.needed_extra_traits _ _ _ (htrl l hl')]
          exact this
      · rw [hcore, hr4.1, hr3.1, hr2.1]
        exact hW.inputs_len
      · rw [← h]
        show (Init.set_need_backward k _ net7).net_output_blob_indices_ = [] ∧
          (Init.set_need_backward k _ net7).net_output_blobs_ = []
        rw [ho8, ho8']
        have h7 : net7.net_output_blob_indices_ = w.net.net_output_blob_indices_ :=
          congrArg (fun x => x.2.2.2.1) haux7
        have h7' : net7.net_output_blobs_ = w.net.net_output_blobs_ :=
          congrArg (fun x => x.2.2.2.2) haux7
        rw [h7, h7']
        exact hW.no_outputs

theorem wire_inv (CreateLayer : LayerParameter → Layer) (param : NetParameter)
    (phase_ : Phase) (w : Wiring) (h : Init.wire CreateLayer param phase_ = .ok w) :
    WInv CreateLayer param phase_ param.layer.length w := by
  unfold Init.wire at h
  split at h
  · cases h
  · split at h
    · cases h
    · split at h
      · cases h
      · dsimp only at h
        obtain ⟨w1, hw1, h⟩ := Except.bind_eq_ok h
        have he : ({ net := { Net.empty with phase_ := phase_, name_ := param.name }
                     available_blobs := []
                     blob_name_to_idx := [] } : Wiring).core = Core.empty := rfl
        obtain ⟨hI1, hS1, ha1⟩ :=
          inputs_inv param _ w1 (he ▸ (Inv.empty param).1) (he ▸ (Inv.empty param).2) hw1
        obtain ⟨hI2, hS2⟩ := Inv.resize hI1 hS1
        refine forRange_induction
          (fun (k : Nat) (s : Wiring) => WInv CreateLayer param phase_ k s)
          _ _ _ _ ?_ ?_ h
        · have hl : w1.net.layers_ = [] := congrArg (fun x => x.1) ha1
          have hn : w1.net.layer_need_backward_ = [] := congrArg (fun x => x.2.1) ha1
          have hp : w1.net.phase_ = phase_ := congrArg (fun x => x.2.2.1) ha1
          have ho : w1.net.net_output_blob_indices_ = [] :=
            congrArg (fun x => x.2.2.2.1) ha1
          have ho' : w1.net.net_output_blobs_ = [] := congrArg (fun x => x.2.2.2.2) ha1
          refine
            { inv := hI2, stage := hS2, layers_len := ?_, lnb_len := ?_, phase_eq := hp,
              traits := ?_, top_count := ?_, inputs_len := hS1.pos_input,
              no_outputs := ⟨ho, ho'⟩ }
          · show w1.net.layers_.length = 0
            rw [hl]
            rfl
          · show w1.net.layer_need_backward_.length = 0
            rw [hn]
            rfl
          · intro l hl
            omega
          · intro l hl
            omega
        · intro k t t' hk ht hstep
          exact layer_inv CreateLayer param phase_ k t t' hk ht hstep

/-! ## The second half of `Init` leaves the connections alone -/

theorem graph_walk_bottoms (l : Nat) (c : Bool) (s : Walk) :
    (Init.walk_bottoms l c s).net.graph = s.net.graph ∧
      (Init.walk_bottoms l c s).net.unwalked = s.net.unwalked := by
  unfold Init.walk_bottoms
  refine forUp_induction
    (fun (_ : Nat) (t : Walk) => t.net.graph = s.net.graph ∧ t.net.unwalked = s.net.unwalked)
    _ _ _ ⟨rfl, rfl⟩ ?_
  intro i t _ h
  dsimp only
  split <;> split <;> exact h

theorem graph_clear_layer (l : Nat) (flags : Bool × Bool) (net : Net) :
    (Init.clear_layer l flags net).graph = net.graph ∧
      (Init.clear_layer l flags net).unwalked = net.unwalked := by
  unfold Init.clear_layer
  dsimp only
  split <;> split <;> exact ⟨rfl, rfl⟩

theorem graph_walk_layer (l : Nat) (s : Walk) :
    (Init.walk_layer l s).net.graph = s.net.graph ∧
      (Init.walk_layer l s).net.unwalked = s.net.unwalked := by
  unfold Init.walk_layer
  dsimp only
  obtain ⟨h1, h2⟩ := graph_walk_bottoms l
    (Init.scan_tops s l (s.net.top_vecs_.getD l []).length 0 (false, true)).1
    { s with
      net := Init.clear_layer l
        (Init.scan_tops s l (s.net.top_vecs_.getD l []).length 0 (false, true)) s.net }
  obtain ⟨h3, h4⟩ := graph_clear_layer l
    (Init.scan_tops s l (s.net.top_vecs_.getD l []).length 0 (false, true)) s.net
  exact ⟨h1.trans h3, h2.trans h4⟩

theorem graph_walk (net : Net) (visited : Nat) :
    (Init.walk net visited).net.graph = net.graph ∧
      (Init.walk net visited).net.unwalked = net.unwalked := by
  induction visited with
  | zero => exact ⟨rfl, rfl⟩
  | succ v ih =>
    obtain ⟨h1, h2⟩ := graph_walk_layer (net.layers_.length - 1 - v) (Init.walk net v)
    exact ⟨h1.trans ih.1, h2.trans ih.2⟩

theorem graph_force_backward_layer (l : Nat) (net : Net) :
    (Init.force_backward_layer l net).graph = net.graph ∧
      (Init.force_backward_layer l net).layers_.map Layer.traits =
        net.layers_.map Layer.traits ∧
      (Init.force_backward_layer l net).net_output_blob_indices_ =
        net.net_output_blob_indices_ ∧
      (Init.force_backward_layer l net).net_output_blobs_ = net.net_output_blobs_ := by
  unfold Init.force_backward_layer
  dsimp only
  refine forUp_induction
    (fun (_ : Nat) (t : Net) => t.graph = net.graph ∧
      t.layers_.map Layer.traits = net.layers_.map Layer.traits ∧
      t.net_output_blob_indices_ = net.net_output_blob_indices_ ∧
      t.net_output_blobs_ = net.net_output_blobs_)
    _ _ _ ?_ ?_
  · exact forUp_induction
      (fun (_ : Nat) (t : Net) => t.graph = net.graph ∧
        t.layers_.map Layer.traits = net.layers_.map Layer.traits ∧
        t.net_output_blob_indices_ = net.net_output_blob_indices_ ∧
        t.net_output_blobs_ = net.net_output_blobs_)
      _ _ _ ⟨rfl, rfl, rfl, rfl⟩ (fun i t _ h => ⟨h.1, h.2.1, h.2.2.1, h.2.2.2⟩)
  · intro i t _ h
    refine ⟨h.1, ?_, h.2.2⟩
    show (t.layers_.set l _).map Layer.traits = _
    rw [map_traits_set]
    exact h.2.1

theorem graph_force_backward (net : Net) :
    (forUp net.layers_.length (fun layer_id net => Init.force_backward_layer layer_id net)
        net).graph = net.graph ∧
      (forUp net.layers_.length (fun layer_id net => Init.force_backward_layer layer_id net)
        net).layers_.map Layer.traits = net.layers_.map Layer.traits ∧
      (forUp net.layers_.length (fun layer_id net => Init.force_backward_layer layer_id net)
        net).net_output_blob_indices_ = net.net_output_blob_indices_ ∧
      (forUp net.layers_.length (fun layer_id net => Init.force_backward_layer layer_id net)
        net).net_output_blobs_ = net.net_output_blobs_ := by
  refine forUp_induction
    (fun (_ : Nat) (t : Net) => t.graph = net.graph ∧
      t.layers_.map Layer.traits = net.layers_.map Layer.traits ∧
      t.net_output_blob_indices_ = net.net_output_blob_indices_ ∧
      t.net_output_blobs_ = net.net_output_blobs_)
    _ _ _ ⟨rfl, rfl, rfl, rfl⟩ ?_
  intro i t _ h
  obtain ⟨h1, h2, h3, h4⟩ := graph_force_backward_layer i t
  exact ⟨h1.trans h.1, h2.trans h.2.1, h3.trans h.2.2.1, h4.trans h.2.2.2⟩

/-- The output loop, when every name of the set is mapped: the mapped indices
are appended in the order of the set, the map is not changed. -/
theorem outputs_eq (a : StdSet) (net : Net) (m : StdMap)
    (h : ∀ n, n ∈ a → ∃ i, StdMap.find m n = some i) :
    (Init.outputs a (net, m)).1.graph = net.graph ∧
      (Init.outputs a (net, m)).1.flags = net.flags ∧
      (Init.outputs a (net, m)).1.net_output_blob_indices_ =
        net.net_output_blob_indices_ ++ a.map (fun n => (StdMap.find m n).getD 0) ∧
      (Init.outputs a (net, m)).1.net_output_blobs_ =
        net.net_output_blobs_ ++ a.map (fun n => (StdMap.find m n).getD 0) := by
  induction a generalizing net with
  | nil => simp [Init.outputs]
  | cons n rest ih =>
    obtain ⟨i, hi⟩ := h n (List.mem_cons_self _ _)
    unfold Init.outputs
    dsimp only
    rw [StdMap.index_of_find hi]
    obtain ⟨h1, h2, h3, h4⟩ := ih
      { net with
        net_output_blobs_ := net.net_output_blobs_ ++ [i]
        net_output_blob_indices_ := net.net_output_blob_indices_ ++ [i] }
      (fun x hx => h x (List.mem_cons_of_mem _ hx))
    refine ⟨h1, h2, ?_, ?_⟩
    · rw [h3]
      simp [hi]
    · rw [h4]
      simp [hi]

theorem graph_name_indices (net : Net) :
    (Init.name_indices net).graph = net.graph ∧
      (Init.name_indices net).flags = net.flags ∧
      (Init.name_indices net).net_output_blob_indices_ = net.net_output_blob_indices_ ∧
      (Init.name_indices net).net_output_blobs_ = net.net_output_blobs_ := by
  unfold Init.name_indices
  dsimp only
  refine forUp_induction
    (fun (_ : Nat) (t : Net) => t.graph = net.graph ∧ t.flags = net.flags ∧
      t.net_output_blob_indices_ = net.net_output_blob_indices_ ∧
      t.net_output_blobs_ = net.net_output_blobs_)
    _ _ _ ?_ (fun i t _ h => ⟨h.1, h.2.1, h.2.2.1, h.2.2.2⟩)
  exact forUp_induction
    (fun (_ : Nat) (t : Net) => t.graph = net.graph ∧ t.flags = net.flags ∧
      t.net_output_blob_indices_ = net.net_output_blob_indices_ ∧
      t.net_output_blobs_ = net.net_output_blobs_)
    _ _ _ ⟨rfl, rfl, rfl, rfl⟩ (fun i t _ h => ⟨h.1, h.2.1, h.2.2.1, h.2.2.2⟩)

theorem graph_ShareWeights (net net' : Net) (h : ShareWeights net = .ok net') :
    net'.graph = net.graph ∧ net'.flags = net.flags ∧
      net'.net_output_blob_indices_ = net.net_output_blob_indices_ ∧
      net'.net_output_blobs_ = net.net_output_blobs_ := by
  unfold ShareWeights at h
  refine forRange_induction
    (fun (_ : Nat) (t : Net) => t.graph = net.graph ∧ t.flags = net.flags ∧
      t.net_output_blob_indices_ = net.net_output_blob_indices_ ∧
      t.net_output_blobs_ = net.net_output_blobs_)
    _ _ _ _ ⟨rfl, rfl, rfl, rfl⟩ ?_ h
  intro i t t' _ ht hstep
  dsimp only at hstep
  split at hstep
  · injection hstep with hstep
    subst hstep
    exact ht
  · obtain ⟨b1, _, hstep⟩ := Except.bind_eq_ok hstep
    obtain ⟨b2, _, hstep⟩ := Except.bind_eq_ok hstep
    injection hstep with hstep
    subst hstep
    exact ht

/-- A successful `Init` went through its three parts: the filter, the wiring
and the second half. -/
theorem Init_ok (CreateLayer : LayerParameter → Layer)
    (InsertSplits : NetParameter → NetParameter) (in_param : NetParameter) (net : Net)
    (h : Init CreateLayer InsertSplits in_param = .ok net) :
    ∃ filtered w, FilterNet in_param = .ok filtered ∧
      Init.wire CreateLayer (InsertSplits filtered) in_param.state.phase = .ok w ∧
      Init.finish (InsertSplits filtered) w = .ok net := by
  unfold Init at h
  obtain ⟨f, hf, h⟩ := Except.bind_eq_ok h
  dsimp only at h
  obtain ⟨w, hw, h⟩ := Except.bind_eq_ok h
  exact ⟨f, w, hf, hw, h⟩

/-- What the second half of `Init` does to a wired net: the connections stay,
the net outputs are the indices mapped to the names left in the available set,
in the order of the set, and without `force_backward` the backward flags are
those the reverse walk leaves. -/
theorem finish_summary (param : NetParameter) (w : Wiring) (net : Net)
    (havail : ∀ n, n ∈ w.available_blobs → ∃ i, StdMap.find w.blob_name_to_idx n = some i)
    (hout : w.net.net_output_blob_indices_ = [] ∧ w.net.net_output_blobs_ = [])
    (h : Init.finish param w = .ok net) :
    net.graph = w.net.graph ∧
      net.layers_.map Layer.traits = w.net.layers_.map Layer.traits ∧
      net.net_output_blob_indices_ =
        w.available_blobs.map (fun n => (StdMap.find w.blob_name_to_idx n).getD 0) ∧
      net.net_output_blobs_ =
        w.available_blobs.map (fun n => (StdMap.find w.blob_name_to_idx n).getD 0) ∧
      (param.force_backward = false →
        net.flags = (Init.walk w.net w.net.layers_.length).net.flags) := by
  unfold Init.finish at h
  dsimp only at h
  obtain ⟨net5, h5, h⟩ := Except.bind_eq_ok h
  injection h with h
  obtain ⟨g5, f5, o5, o5'⟩ := graph_ShareWeights _ _ h5
  obtain ⟨g4, f4, o4, o4'⟩ := graph_name_indices
    (Init.outputs w.available_blobs
      (if param.force_backward = true then
        forUp (Init.walk w.net w.net.layers_.length).net.layers_.length
          (fun layer_id net => Init.force_backward_layer layer_id net)
          (Init.walk w.net w.net.layers_.length).net
      else (Init.walk w.net w.net.layers_.length).net, w.blob_name_to_idx)).1
  obtain ⟨g3, f3, o3, o3'⟩ := outputs_eq w.available_blobs
    (if param.force_backward = true then
      forUp (Init.walk w.net w.net.layers_.length).net.layers_.length
        (fun layer_id net => Init.force_backward_layer layer_id net)
        (Init.walk w.net w.net.layers_.length).net
    else (Init.walk w.net w.net.layers_.length).net) w.blob_name_to_idx havail
  obtain ⟨g1, u1⟩ := graph_walk w.net w.net.layers_.length
  have hl1 : (Init.walk w.net w.net.layers_.length).net.layers_ = w.net.layers_ :=
    congrArg (fun x => x.1) u1
  have ho1 : (Init.walk w.net w.net.layers_.length).net.net_output_blob_indices_ =
      w.net.net_output_blob_indices_ := congrArg (fun x => x.2.2.1) u1
  have ho1' : (Init.walk w.net w.net.layers_.length).net.net_output_blobs_ =
      w.net.net_output_blobs_ := congrArg (fun x => x.2.2.2) u1
  -- the net after the handling of force_backward
  have h2 : (if param.force_backward = true then
        forUp (Init.walk w.net w.net.layers_.length).net.layers_.length
          (fun layer_id net => Init.force_backward_layer layer_id net)
          (Init.walk w.net w.net.layers_.length).net
      else (Init.walk w.net w.net.layers_.length).net).graph = w.net.graph ∧
      (if param.force_backward = true then
        forUp (Init.walk w.net w.net.layers_.length).net.layers_.length
          (fun layer_id net => Init.force_backward_layer layer_id net)
          (Init.walk w.net w.net.layers_.length).net
      else (Init.walk w.net w.net.layers_.length).net).layers_.map Layer.traits =
        w.net.layers_.map Layer.traits ∧
      (if param.force_backward = true then
        forUp (Init.walk w.net w.net.layers_.length).net.layers_.length
          (fun layer_id net => Init.force_backward_layer layer_id net)
          (Init.walk w.net w.net.layers_.length).net
      else (Init.walk w.net w.net.layers_.length).net).net_output_blob_indices_ = [] ∧
      (if param.force_backward = true then
        forUp (Init.walk w.net w.net.layers_.length).net.layers_.length
          (fun layer_id net => Init.force_backward_layer layer_id net)
          (Init.walk w.net w.net.layers_.length).net
      else (Init.walk w.net w.net.layers_.length).net).net_output_blobs_ = [] := by
    split
    · obtain ⟨a, b, c, d⟩ := graph_force_backward (Init.walk w.net w.net.layers_.length).net
      exact ⟨a.trans g1, b.trans (by rw [hl1]), c.trans (ho1.trans hout.1),
        d.trans (ho1'.trans hout.2)⟩
    · exact ⟨g1, by rw [hl1], ho1.trans hout.1, ho1'.trans hout.2⟩
  have hflags5 : net.flags = net5.flags := by
    rw [← h]
    rfl
  have hgraph5 : net.graph = net5.graph := by
    rw [← h]
    rfl
  refine ⟨?_, ?_, ?_, ?_, ?_⟩
  · rw [hgraph5, g5, g4, g3]
    exact h2.1
  · have hl : net.layers_ = _ := congrArg (fun x => x.2.2.2) (hflags5.trans (f5.trans (f4.trans f3)))
    rw [hl]
    exact h2.2.1
  · have : net.net_output_blob_indices_ = net5.net_output_blob_indices_ := by
      rw [← h]
    rw [this, o5, o4, o3, h2.2.2.1]
    rfl
  · have : net.net_output_blobs_ = net5.net_output_blobs_ := by
      rw [← h]
    rw [this, o5', o4', o3', h2.2.2.2]
    rfl
  · intro hfb
    rw [hflags5, f5, f4, f3]
    simp only [hfb, Bool.false_eq_true, if_false]

/-! ## The claims -/

/-- C1: a bottom whose name is not in the available set makes `AppendBottom`
abort with the fatal "Unknown bottom blob" message; and `Init` does not return
a net when some bottom of some layer names neither a declared input nor a top
of an earlier layer. -/
theorem C1_unknown_bottom_is_fatal (CreateLayer : LayerParameter → Layer)
    (InsertSplits : NetParameter → NetParameter) (in_param filtered : NetParameter)
    (net : Net) (param : NetParameter) (layer_id bottom_id : Nat)
    (available_blobs : StdSet) (blob_name_to_idx : StdMap) :
    (AppendBottom.blob_name param layer_id bottom_id ∉ available_blobs →
      AppendBottom net param layer_id bottom_id available_blobs blob_name_to_idx =
        .error (.unknown_bottom_blob (AppendBottom.blob_name param layer_id bottom_id)
          (param.layer.getD layer_id default).name bottom_id)) ∧
    (FilterNet in_param = .ok filtered →
      layer_id < (InsertSplits filtered).layer.length →
      bottom_id < ((InsertSplits filtered).layer.getD layer_id default).bottom.length →
      AppendBottom.blob_name (InsertSplits filtered) layer_id bottom_id ∉
        (InsertSplits filtered).input →
      (∀ l, l < layer_id →
        AppendBottom.blob_name (InsertSplits filtered) layer_id bottom_id ∉
          ((InsertSplits filtered).layer.getD l default).top) →
      ∃ e, Init CreateLayer InsertSplits in_param = .error e) := by
  refine ⟨AppendBottom_error _ _ _ _ _ _, ?_⟩
  intro hf hl hb hin htop
  cases hinit : Init CreateLayer InsertSplits in_param with
  | error e => exact ⟨e, rfl⟩
  | ok net' =>
    exfalso
    obtain ⟨f, w, hf', hw, _⟩ := Init_ok _ _ _ _ hinit
    rw [hf] at hf'
    injection hf' with hf'
    subst hf'
    have hW := wire_inv _ _ _ _ hw
    have hlen : bottom_id < (w.core.bottoms layer_id).length := by
      have := hW.stage.done_bottom layer_id hl
      rw [this]
      exact hb
    rcases hW.inv.bottom_declared layer_id bottom_id _ (List.getElem?_eq_getElem hlen) with
      h | ⟨l', t, h1, h2, h3⟩
    · exact hin h
    · apply htop l' h1
      rw [← h3, AppendTop.name_of_lt h2]
      unfold num_top at h2
      rw [List.getD_eq_getElem _ _ h2]
      exact List.getElem_mem _

/-- C1 at a layer whose only bottom "b" is neither an input nor a top. -/
theorem C1_witness :
    AppendBottom Net.empty (example_net ["a"] [example_layer "l" ["b"] ["c"]]) 0 0 ["a"]
        [("a", 0)] = .error (.unknown_bottom_blob "b" "l" 0) ∧
      ∃ e, Init plain_factory id (example_net ["a"] [example_layer "l" ["b"] ["c"]]) =
        .error e :=
  ⟨(C1_unknown_bottom_is_fatal plain_factory id
      (example_net ["a"] [example_layer "l" ["b"] ["c"]])
      (example_net ["a"] [example_layer "l" ["b"] ["c"]]) Net.empty
      (example_net ["a"] [example_layer "l" ["b"] ["c"]]) 0 0 ["a"] [("a", 0)]).1
      (by decide),
    (C1_unknown_bottom_is_fatal plain_factory id
      (example_net ["a"] [example_layer "l" ["b"] ["c"]])
      (example_net ["a"] [example_layer "l" ["b"] ["c"]]) Net.empty
      (example_net ["a"] [example_layer "l" ["b"] ["c"]]) 0 0 [] []).2
      (by decide) (by decide) (by decide) (by decide) (by decide)⟩

theorem exclude_loop_eq (net_state : NetState) (name : String) (rules : List NetStateRule)
    (inc : Bool) :
    FilterNet.exclude_loop net_state name rules inc =
      (inc && !(rules.any fun r => StateMeetsRule net_state r name)) := by
  induction rules generalizing inc with
  | nil => simp [FilterNet.exclude_loop]
  | cons r rest ih =>
    unfold FilterNet.exclude_loop
    cases inc with
    | false => simp
    | true =>
      rw [if_pos rfl, ih]
      cases hr : StateMeetsRule net_state r name <;> simp [hr]

theorem include_loop_eq (net_state : NetState) (name : String) (rules : List NetStateRule)
    (inc : Bool) :
    FilterNet.include_loop net_state name rules inc =
      (inc || rules.any fun r => StateMeetsRule net_state r name) := by
  induction rules generalizing inc with
  | nil => simp [FilterNet.include_loop]
  | cons r rest ih =>
    unfold FilterNet.include_loop
    cases inc with
    | true => simp
    | false =>
      simp only [Bool.not_false, if_true, Bool.false_eq_true, if_false]
      rw [ih]
      cases hr : StateMeetsRule net_state r name <;> simp [hr]

theorem layer_included_eq_spec (net_state : NetState) (lp : LayerParameter)
    (h : lp.include_.length = 0 ∨ lp.exclude.length = 0) :
    FilterNet.layer_included net_state lp = spec_layer_kept net_state lp := by
  unfold FilterNet.layer_included spec_layer_kept
  rw [include_loop_eq, exclude_loop_eq]
  rcases h with h | h
  · have hnil : lp.include_ = [] := List.length_eq_zero.1 h
    simp [hnil, List.all_eq_not_any_not]
  · have hnil : lp.exclude = [] := List.length_eq_zero.1 h
    cases hi : lp.include_ with
    | nil => simp [hnil]
    | cons r rest => simp [hnil]

theorem FilterNet.loop_ok (net_state : NetState) (rest : List LayerParameter)
    (pf : NetParameter)
    (h : ∀ lp, lp ∈ rest → lp.include_.length = 0 ∨ lp.exclude.length = 0) :
    FilterNet.loop net_state rest pf =
      .ok { pf with layer := pf.layer ++ rest.filter (spec_layer_kept net_state) } := by
  induction rest generalizing pf with
  | nil => simp [FilterNet.loop]
  | cons lp rest ih =>
    have hlp := h lp (List.mem_cons_self _ _)
    unfold FilterNet.loop
    rw [if_neg (not_not.2 hlp), layer_included_eq_spec _ _ hlp]
    cases hk : spec_layer_kept net_state lp with
    | true =>
      rw [if_pos rfl, ih _ (fun x hx => h x (List.mem_cons_of_mem _ hx))]
      simp [List.filter_cons, hk]
    | false =>
      simp only [Bool.false_eq_true, if_false]
      rw [ih _ (fun x hx => h x (List.mem_cons_of_mem _ hx))]
      simp [List.filter_cons, hk]

theorem FilterNet.loop_returns (net_state : NetState) (rest : List LayerParameter)
    (pf out : NetParameter) (h : FilterNet.loop net_state rest pf = .ok out) :
    ∀ lp, lp ∈ rest → lp.include_.length = 0 ∨ lp.exclude.length = 0 := by
  induction rest generalizing pf with
  | nil =>
    intro lp hlp
    cases hlp
  | cons lp rest ih =>
    unfold FilterNet.loop at h
    split at h
    · cases h
    · rename_i hlp
      have hlp' := not_not.1 hlp
      intro x hx
      rcases List.mem_cons.1 hx with rfl | hx
      · exact hlp'
      · split at h
        · exact ih _ h x hx
        · exact ih _ h x hx

/-- C2: when no layer declares both include and exclude rules, `FilterNet`
returns the specification with exactly the layers the rule of the
specification keeps, unchanged and in their order; and whenever `FilterNet`
returns, that is what it returns. -/
theorem C2_FilterNet_keeps_by_rules (param filtered : NetParameter) :
    ((∀ lp, lp ∈ param.layer → lp.include_ = [] ∨ lp.exclude = []) →
      FilterNet param =
        .ok { param with layer := param.layer.filter (spec_layer_kept param.state) }) ∧
    (FilterNet param = .ok filtered →
      filtered = { param with layer := param.layer.filter (spec_layer_kept param.state) }) := by
  have key : (∀ lp, lp ∈ param.layer → lp.include_.length = 0 ∨ lp.exclude.length = 0) →
      FilterNet param =
        .ok { param with layer := param.layer.filter (spec_layer_kept param.state) } := by
    intro h
    unfold FilterNet
    rw [FilterNet.loop_ok _ _ _ h]
    simp
  constructor
  · intro h
    apply key
    intro lp hlp
    rcases h lp hlp with h | h
    · exact Or.inl (by rw [h]; rfl)
    · exact Or.inr (by rw [h]; rfl)
  · intro h
    have hall := FilterNet.loop_returns _ _ _ _ h
    rw [key hall] at h
    injection h with h
    exact h.symm

/-- C2 on `filter_example`: no layer declares both kinds of rules, and the
layers the rule of the specification keeps are returned. -/
theorem C2_witness :
    (∀ lp, lp ∈ filter_example.layer → lp.include_ = [] ∨ lp.exclude = []) ∧
      FilterNet filter_example =
        .ok { filter_example with
              layer := filter_example.layer.filter (spec_layer_kept filter_example.state) } :=
  ⟨by decide, (C2_FilterNet_keeps_by_rules filter_example filter_example).1 (by decide)⟩

theorem graph_fields {net net' : Net} (h : net'.graph = net.graph) :
    net'.blobs_ = net.blobs_ ∧ net'.blob_names_ = net.blob_names_ ∧
      net'.top_id_vecs_ = net.top_id_vecs_ ∧ net'.top_vecs_ = net.top_vecs_ ∧
      net'.bottom_id_vecs_ = net.bottom_id_vecs_ ∧ net'.bottom_vecs_ = net.bottom_vecs_ ∧
      net'.net_input_blob_indices_ = net.net_input_blob_indices_ ∧
      net'.net_input_blobs_ = net.net_input_blobs_ ∧
      net'.layer_names_ = net.layer_names_ :=
  ⟨congrArg (fun x => x.1) h, congrArg (fun x => x.2.1) h, congrArg (fun x => x.2.2.1) h,
    congrArg (fun x => x.2.2.2.1) h, congrArg (fun x => x.2.2.2.2.1) h,
    congrArg (fun x => x.2.2.2.2.2.1) h, congrArg (fun x => x.2.2.2.2.2.2.1) h,
    congrArg (fun x => x.2.2.2.2.2.2.2.1) h, congrArg (fun x => x.2.2.2.2.2.2.2.2) h⟩

/-- A net returned by `Init` is the wired net of its first half, with the
connections unchanged by the second half. -/
theorem Init_wired (CreateLayer : LayerParameter → Layer)
    (InsertSplits : NetParameter → NetParameter) (in_param filtered : NetParameter)
    (net : Net) (hf : FilterNet in_param = .ok filtered)
    (h : Init CreateLayer InsertSplits in_param = .ok net) :
    ∃ w, Init.wire CreateLayer (InsertSplits filtered) in_param.state.phase = .ok w ∧
      Init.finish (InsertSplits filtered) w = .ok net ∧
      WInv CreateLayer (InsertSplits filtered) in_param.state.phase
        (InsertSplits filtered).layer.length w ∧
      net.graph = w.net.graph ∧
      net.layers_.map Layer.traits = w.net.layers_.map Layer.traits ∧
      net.net_output_blob_indices_ =
        w.available_blobs.map (fun n => (StdMap.find w.blob_name_to_idx n).getD 0) ∧
      net.net_output_blobs_ =
        w.available_blobs.map (fun n => (StdMap.find w.blob_name_to_idx n).getD 0) ∧
      ((InsertSplits filtered).force_backward = false →
        net.flags = (Init.walk w.net w.net.layers_.length).net.flags) := by
  obtain ⟨f, w, hf', hw, hfin⟩ := Init_ok _ _ _ _ h
  rw [hf] at hf'
  injection hf' with hf'
  subst hf'
  have hW := wire_inv _ _ _ _ hw
  obtain ⟨h1, h2, h3, h4, h5⟩ :=
    finish_summary _ w net hW.inv.avail_map hW.no_outputs hfin
  exact ⟨w, hw, hfin, hW, h1, h2, h3, h4, h5⟩

theorem Except.ok_of_toBool {ε α : Type} (x : Except ε α) (h : x.toBool = true) :
    ∃ r, x = .ok r := by
  cases x with
  | error e => cases h
  | ok r => exact ⟨r, rfl⟩

/-- C3: a top that has the name of the bottom at its own position is wired in
place. The call of `AppendTop` returns, leaves `blobs_` and `blob_names_` as
they are, records for the top the index the map holds for the name, and puts
the name into the available set; and in every net `Init` returns, the index
recorded for such a top is the index recorded for that bottom. -/
theorem C3_in_place_top_allocates_nothing (CreateLayer : LayerParameter → Layer)
    (InsertSplits : NetParameter → NetParameter) (in_param filtered : NetParameter)
    (result net : Net) (param : NetParameter) (layer_id top_id : Nat)
    (available_blobs : StdSet) (blob_name_to_idx : StdMap) :
    (top_id < num_top param layer_id → top_id < num_bottom param layer_id →
      (param.layer.getD layer_id default).top.getD top_id "" =
        (param.layer.getD layer_id default).bottom.getD top_id "" →
      ∃ net', AppendTop net param layer_id top_id (some available_blobs)
          (some blob_name_to_idx) =
          .ok (net',
            some (StdSet.insert ((param.layer.getD layer_id default).top.getD top_id "")
              available_blobs),
            some (StdMap.index blob_name_to_idx
              ((param.layer.getD layer_id default).top.getD top_id "")).2) ∧
        net'.blobs_ = net.blobs_ ∧ net'.blob_names_ = net.blob_names_ ∧
        net'.top_id_vecs_ = pushAt net.top_id_vecs_ layer_id
          (StdMap.index blob_name_to_idx
            ((param.layer.getD layer_id default).top.getD top_id "")).1 ∧
        (param.layer.getD layer_id default).top.getD top_id "" ∈
          StdSet.insert ((param.layer.getD layer_id default).top.getD top_id "")
            available_blobs) ∧
    (FilterNet in_param = .ok filtered →
      Init CreateLayer InsertSplits in_param = .ok result →
      layer_id < (InsertSplits filtered).layer.length →
      top_id < num_top (InsertSplits filtered) layer_id →
      top_id < num_bottom (InsertSplits filtered) layer_id →
      ((InsertSplits filtered).layer.getD layer_id default).top.getD top_id "" =
        ((InsertSplits filtered).layer.getD layer_id default).bottom.getD top_id "" →
      ∃ i, (result.top_id_vecs_.getD layer_id [])[top_id]? = some i ∧
        (result.bottom_id_vecs_.getD layer_id [])[top_id]? = some i ∧
        i < result.blobs_.length) := by
  constructor
  · intro ht hb hname
    have hn : AppendTop.name param (layer_id : Int) top_id =
        (param.layer.getD layer_id default).top.getD top_id "" := AppendTop.name_of_lt ht
    have hip : AppendTop.is_in_place param (layer_id : Int) top_id = true := by
      rw [is_in_place_iff]
      exact ⟨hb, by rw [hn, hname]; rfl⟩
    refine ⟨{ net with
              top_vecs_ := pushAt net.top_vecs_ layer_id
                (StdMap.index blob_name_to_idx
                  ((param.layer.getD layer_id default).top.getD top_id "")).1
              top_id_vecs_ := pushAt net.top_id_vecs_ layer_id
                (StdMap.index blob_name_to_idx
                  ((param.layer.getD layer_id default).top.getD top_id "")).1 },
      ?_, rfl, rfl, rfl, ?_⟩
    · rw [AppendTop_in_place _ _ _ _ _ _ hip, hn]
      rfl
    · exact (StdSet.mem_insert _ _ _).2 (Or.inl rfl)
  · intro hf hinit hl ht hb hname
    obtain ⟨w, _, _, hW, hg, _⟩ := Init_wired _ _ _ _ _ hf hinit
    obtain ⟨g1, _, g3, _, g5, _⟩ := graph_fields hg
    have hlt : top_id < (w.core.tops layer_id).length :=
      lt_of_lt_of_le ht (hW.stage.done_top layer_id hl)
    have hlb : top_id < (w.core.bottoms layer_id).length := by
      rw [hW.stage.done_bottom layer_id hl]
      exact hb
    have h1 := hW.inv.top_named layer_id top_id _ (List.getElem?_eq_getElem hlt) ht
    have h2 := hW.inv.bottom_named layer_id top_id _ (List.getElem?_eq_getElem hlb)
    have hn : AppendTop.name (InsertSplits filtered) (layer_id : Int) top_id =
        AppendBottom.blob_name (InsertSplits filtered) layer_id top_id := by
      rw [AppendTop.name_of_lt ht, hname]
      rfl
    rw [hn, h2] at h1
    injection h1 with h1
    refine ⟨(w.core.tops layer_id)[top_id], ?_, ?_, ?_⟩
    · rw [g3]
      exact List.getElem?_eq_getElem hlt
    · rw [g5, ← h1]
      exact List.getElem?_eq_getElem hlb
    · rw [g1]
      exact hW.inv.top_lt layer_id top_id _ (List.getElem?_eq_getElem hlt)

/-- C3 on `in_place_example`: the in-place top of layer 0 is wired without a
new blob, and `Init` records blob 0 for both its top and its bottom. -/
theorem C3_witness :
    (∃ net', AppendTop (Net.empty) in_place_example 0 0 (some []) (some [("a", 0)]) =
        .ok (net', some (StdSet.insert "a" []), some [("a", 0)]) ∧
      net'.blobs_ = Net.empty.blobs_) ∧
    ∃ result, Init plain_factory id in_place_example = .ok result ∧
      ∃ i, (result.top_id_vecs_.getD 0 [])[0]? = some i ∧
        (result.bottom_id_vecs_.getD 0 [])[0]? = some i ∧ i < result.blobs_.length := by
  constructor
  · obtain ⟨net', h1, h2, _⟩ :=
      (C3_in_place_top_allocates_nothing plain_factory id in_place_example in_place_example
        Net.empty Net.empty in_place_example 0 0 [] [("a", 0)]).1
        (by decide) (by decide) (by decide)
    exact ⟨net', h1, h2⟩
  · obtain ⟨result, h⟩ := Except.ok_of_toBool (Init plain_factory id in_place_example)
      (by decide)
    exact ⟨result, h,
      (C3_in_place_top_allocates_nothing plain_factory id in_place_example in_place_example
        result Net.empty in_place_example 0 0 [] []).2
        (by decide) h (by decide) (by decide) (by decide) (by decide)⟩

/-- C4 fails as stated: the top "b" of the layer of `crossed_example` has the
name of one of the layer's own bottoms, and construction aborts. -/
theorem C4_counterexample :
    ((crossed_example.layer.getD 0 default).top.getD 0 "" ∈
        (crossed_example.layer.getD 0 default).bottom) ∧
      Init plain_factory id crossed_example =
        .error (.produced_by_multiple_sources "b") := by
  decide

/-- C4, amended: a top that has the name of the bottom at its own position is
wired in place, on the blob the name is mapped to, without a new blob and
without aborting; when a declared top fails the in-place test but has the name
of another bottom of its layer, `Init` does not return a net. -/
theorem C4_in_place_only_at_own_position (CreateLayer : LayerParameter → Layer)
    (InsertSplits : NetParameter → NetParameter) (in_param filtered : NetParameter)
    (net : Net) (param : NetParameter) (layer_id top_id bottom_id i : Nat)
    (available_blobs : StdSet) (blob_name_to_idx : StdMap) :
    (top_id < num_top param layer_id → top_id < num_bottom param layer_id →
      (param.layer.getD layer_id default).top.getD top_id "" =
        (param.layer.getD layer_id default).bottom.getD top_id "" →
      StdMap.find blob_name_to_idx
        ((param.layer.getD layer_id default).top.getD top_id "") = some i →
      AppendTop net param layer_id top_id (some available_blobs) (some blob_name_to_idx) =
        .ok ({ net with
               top_vecs_ := pushAt net.top_vecs_ layer_id i
               top_id_vecs_ := pushAt net.top_id_vecs_ layer_id i },
          some (StdSet.insert ((param.layer.getD layer_id default).top.getD top_id "")
            available_blobs),
          some blob_name_to_idx)) ∧
    (FilterNet in_param = .ok filtered →
      layer_id < (InsertSplits filtered).layer.length →
      top_id < num_top (InsertSplits filtered) layer_id →
      AppendTop.is_in_place (InsertSplits filtered) layer_id top_id = false →
      bottom_id < num_bottom (InsertSplits filtered) layer_id →
      ((InsertSplits filtered).layer.getD layer_id default).top.getD top_id "" =
        ((InsertSplits filtered).layer.getD layer_id default).bottom.getD bottom_id "" →
      ∃ e, Init CreateLayer InsertSplits in_param = .error e) := by
  constructor
  · intro ht hb hname hfind
    have hn : AppendTop.name param (layer_id : Int) top_id =
        (param.layer.getD layer_id default).top.getD top_id "" := AppendTop.name_of_lt ht
    have hip : AppendTop.is_in_place param (layer_id : Int) top_id = true := by
      rw [is_in_place_iff]
      exact ⟨hb, by rw [hn, hname]; rfl⟩
    rw [AppendTop_in_place _ _ _ _ _ _ hip, hn, StdMap.index_of_find hfind]
    rfl
  · intro hf hl ht hip hb hname
    cases hinit : Init CreateLayer InsertSplits in_param with
    | error e => exact ⟨e, rfl⟩
    | ok result =>
      exfalso
      obtain ⟨w, _, _, hW, _⟩ := Init_wired _ _ _ _ _ hf hinit
      have hlt : top_id < (w.core.tops layer_id).length :=
        lt_of_lt_of_le ht (hW.stage.done_top layer_id hl)
      have hlb : bottom_id < (w.core.bottoms layer_id).length := by
        rw [hW.stage.done_bottom layer_id hl]
        exact hb
      have h1 := hW.inv.top_named layer_id top_id _ (List.getElem?_eq_getElem hlt) ht
      have h2 := hW.inv.bottom_named layer_id bottom_id _ (List.getElem?_eq_getElem hlb)
      have hn : AppendTop.name (InsertSplits filtered) (layer_id : Int) top_id =
          AppendBottom.blob_name (InsertSplits filtered) layer_id bottom_id := by
        rw [AppendTop.name_of_lt ht, hname]
        rfl
      rw [hn, h2] at h1
      injection h1 with h1
      have hb' : (w.core.bottoms layer_id)[bottom_id]? =
          some (w.core.tops layer_id)[top_id] := by
        rw [← h1]
        exact List.getElem?_eq_getElem hlb
      have := hW.inv.topo layer_id bottom_id layer_id top_id _ hb'
        (List.getElem?_eq_getElem hlt) (Or.inr hip)
      exact absurd this (lt_irrefl _)

/-- C4, amended, on `in_place_example` (a top in place on blob 0) and on
`crossed_example` (a top with the name of the other bottom). -/
theorem C4_witness :
    AppendTop Net.empty in_place_example 0 0 (some []) (some [("a", 0)]) =
        .ok ({ Net.empty with
               top_vecs_ := pushAt Net.empty.top_vecs_ 0 0
               top_id_vecs_ := pushAt Net.empty.top_id_vecs_ 0 0 },
          some (StdSet.insert "a" []), some [("a", 0)]) ∧
      ∃ e, Init plain_factory id crossed_example = .error e :=
  ⟨(C4_in_place_only_at_own_position plain_factory id in_place_example in_place_example
      Net.empty in_place_example 0 0 0 0 [] [("a", 0)]).1
      (by decide) (by decide) (by decide) (by decide),
    (C4_in_place_only_at_own_position plain_factory id crossed_example crossed_example
      Net.empty crossed_example 0 0 1 0 [] []).2
      (by decide) (by decide) (by decide) (by decide) (by decide) (by decide)⟩

/-- C5: for a top or input that fails the in-place test, `AppendTop` aborts
with "produced by multiple sources" when the name already has an entry in the
name-to-index map; otherwise it appends exactly one blob, with that name,
records it as a net input or as a top of the layer, maps the name to the new
index (keeping every other entry) and puts the name into the available set. -/
theorem C5_named_top_new_or_fatal (net : Net) (param : NetParameter) (layer_id : Int)
    (top_id : Nat) (available_blobs : StdSet) (blob_name_to_idx : StdMap)
    (hnot : AppendTop.is_in_place param layer_id top_id = false) :
    ((StdMap.find blob_name_to_idx (AppendTop.name param layer_id top_id)).isSome = true →
      AppendTop net param layer_id top_id (some available_blobs) (some blob_name_to_idx) =
        .error (.produced_by_multiple_sources (AppendTop.name param layer_id top_id))) ∧
    (StdMap.find blob_name_to_idx (AppendTop.name param layer_id top_id) = none →
      ∃ net', AppendTop net param layer_id top_id (some available_blobs)
          (some blob_name_to_idx) =
          .ok (net',
            some (StdSet.insert (AppendTop.name param layer_id top_id) available_blobs),
            some (StdMap.assign blob_name_to_idx (AppendTop.name param layer_id top_id)
              net.blobs_.length)) ∧
        net'.blobs_.length = net.blobs_.length + 1 ∧
        net'.blob_names_ = net.blob_names_ ++ [AppendTop.name param layer_id top_id] ∧
        net'.net_input_blob_indices_ =
          (if layer_id = -1 then net.net_input_blob_indices_ ++ [net.blobs_.length]
           else net.net_input_blob_indices_) ∧
        net'.top_id_vecs_ =
          (if layer_id = -1 then net.top_id_vecs_
           else pushAt net.top_id_vecs_ layer_id.toNat net.blobs_.length) ∧
        StdMap.find
          (StdMap.assign blob_name_to_idx (AppendTop.name param layer_id top_id)
            net.blobs_.length)
          (AppendTop.name param layer_id top_id) = some net.blobs_.length ∧
        (∀ x v, StdMap.find blob_name_to_idx x = some v →
          StdMap.find
            (StdMap.assign blob_name_to_idx (AppendTop.name param layer_id top_id)
              net.blobs_.length) x = some v) ∧
        AppendTop.name param layer_id top_id ∈
          StdSet.insert (AppendTop.name param layer_id top_id) available_blobs) := by
  constructor
  · intro hm
    exact AppendTop_multiple _ _ _ _ _ _ hnot hm
  · intro hm
    refine ⟨_, AppendTop_new _ _ _ _ _ _ hnot hm, normal_output_blobs_length _ _ _ _ _,
      normal_output_blob_names _ _ _ _ _, normal_output_net_input_blob_indices _ _ _ _ _,
      normal_output_top_id_vecs _ _ _ _ _, ?_, ?_, ?_⟩
    · rw [StdMap.find_assign, if_pos rfl]
    · intro x v hx
      exact StdMap.find_assign_of_find hm hx
    · exact (StdSet.mem_insert _ _ _).2 (Or.inl rfl)

/-- C5 on the declared input "b" of `crossed_example` (new) and on the top "b"
of its layer once "b" is mapped (fatal). -/
theorem C5_witness :
    AppendTop Net.empty crossed_example 0 0 (some []) (some [("a", 0), ("b", 1)]) =
        .error (.produced_by_multiple_sources "b") ∧
      ∃ net', AppendTop Net.empty crossed_example (-1) 1 (some ["a"]) (some [("a", 0)]) =
          .ok (net', some (StdSet.insert "b" ["a"]), some (StdMap.assign [("a", 0)] "b" 0)) ∧
        net'.blobs_.length = 1 := by
  constructor
  · exact (C5_named_top_new_or_fatal Net.empty crossed_example 0 0 [] [("a", 0), ("b", 1)]
      (by decide)).1 (by decide)
  · obtain ⟨net', h1, h2, _⟩ :=
      (C5_named_top_new_or_fatal Net.empty crossed_example (-1) 1 ["a"] [("a", 0)]
        (by decide)).2 (by decide)
    exact ⟨net', h1, h2⟩

theorem call_AppendTop_available (param : NetParameter) (layer_id : Int) (top_id : Nat)
    (named : Bool) (w w' : Wiring)
    (h : Init.call_AppendTop param layer_id top_id named w = .ok w') :
    w'.available_blobs =
      if named then StdSet.insert (AppendTop.name param layer_id top_id) w.available_blobs
      else w.available_blobs := by
  unfold Init.call_AppendTop at h
  obtain ⟨r, hr, hw'⟩ := Except.map_eq_ok h
  subst hw'
  cases named with
  | false =>
    simp only [Bool.false_eq_true, if_false] at hr ⊢
    rw [AppendTop_anonymous] at hr
    injection hr with hr
    subst hr
    rfl
  | true =>
    simp only [if_true] at hr ⊢
    cases hip : AppendTop.is_in_place param layer_id top_id with
    | true =>
      rw [AppendTop_in_place _ _ _ _ _ _ hip] at hr
      injection hr with hr
      subst hr
      rfl
    | false =>
      cases hf : StdMap.find w.blob_name_to_idx (AppendTop.name param layer_id top_id) with
      | some v =>
        rw [AppendTop_multiple _ _ _ _ _ _ hip (by simp [hf])] at hr
        cases hr
      | none =>
        rw [AppendTop_new _ _ _ _ _ _ hip hf] at hr
        injection hr with hr
        subst hr
        rfl

theorem WireOp.run_keeps_unavailable (param : NetParameter) (n : String) (op : WireOp)
    (w w' : Wiring) (hop : op.wires_top param n = false) (hn : n ∉ w.available_blobs)
    (h : op.run param w = .ok w') : n ∉ w'.available_blobs := by
  cases op with
  | bottom l b =>
    obtain ⟨r, hr, hw'⟩ := Except.map_eq_ok h
    subst hw'
    by_cases hmem : AppendBottom.blob_name param l b ∈ w.available_blobs
    · rw [AppendBottom_ok _ _ _ _ _ _ hmem] at hr
      injection hr with hr
      subst hr
      intro hc
      exact hn ((StdSet.mem_erase _ _ _).1 hc).1
    · rw [AppendBottom_error _ _ _ _ _ _ hmem] at hr
      cases hr
  | top l t named =>
    have hav := call_AppendTop_available param l t named w w' h
    rw [hav]
    cases named with
    | false => exact hn
    | true =>
      simp only [if_true]
      intro hc
      rcases (StdSet.mem_insert _ _ _).1 hc with hc | hc
      · simp [WireOp.wires_top] at hop
        exact hop hc.symm
      · exact hn hc

theorem WireOp.run_all_keeps_unavailable (param : NetParameter) (n : String)
    (ops : List WireOp) (w w' : Wiring)
    (hops : ∀ op, op ∈ ops → op.wires_top param n = false) (hn : n ∉ w.available_blobs)
    (h : WireOp.run_all param ops w = .ok w') : n ∉ w'.available_blobs := by
  induction ops generalizing w with
  | nil =>
    simp only [WireOp.run_all] at h
    injection h with h
    subst h
    exact hn
  | cons op ops ih =>
    simp only [WireOp.run_all] at h
    obtain ⟨w1, h1, h2⟩ := Except.bind_eq_ok h
    exact ih w1 (fun o ho => hops o (List.mem_cons_of_mem _ ho))
      (WireOp.run_keeps_unavailable param n op w w1 (hops op (List.mem_cons_self _ _)) hn h1)
      h2

/-- C7: a successful `AppendBottom` for a name takes the name out of the
available set and leaves the blob table and every entry of the name-to-index
map in place; after any further wiring calls none of which wires a top of that
name, the name is still unavailable and every `AppendBottom` that asks for it
aborts with the unknown-bottom fatal. -/
theorem C7_consumed_blob_leaves_frontier (net : Net) (param : NetParameter)
    (layer_id bottom_id : Nat) (available_blobs : StdSet) (blob_name_to_idx : StdMap)
    (r : Nat × Net × StdSet × StdMap)
    (h : AppendBottom net param layer_id bottom_id available_blobs blob_name_to_idx = .ok r) :
    AppendBottom.blob_name param layer_id bottom_id ∉ r.2.2.1 ∧
      r.2.1.blobs_ = net.blobs_ ∧ r.2.1.blob_names_ = net.blob_names_ ∧
      (∀ x v, StdMap.find blob_name_to_idx x = some v → StdMap.find r.2.2.2 x = some v) ∧
      ∀ (ops : List WireOp) (w' : Wiring),
        (∀ op, op ∈ ops →
          op.wires_top param (AppendBottom.blob_name param layer_id bottom_id) = false) →
        WireOp.run_all param ops
          { net := r.2.1, available_blobs := r.2.2.1, blob_name_to_idx := r.2.2.2 } =
            .ok w' →
        AppendBottom.blob_name param layer_id bottom_id ∉ w'.available_blobs ∧
          ∀ l b, AppendBottom.blob_name param l b =
              AppendBottom.blob_name param layer_id bottom_id →
            AppendBottom w'.net param l b w'.available_blobs w'.blob_name_to_idx =
              .error (.unknown_bottom_blob (AppendBottom.blob_name param layer_id bottom_id)
                (param.layer.getD l default).name b) := by
  by_cases hmem : AppendBottom.blob_name param layer_id bottom_id ∈ available_blobs
  · rw [AppendBottom_ok _ _ _ _ _ _ hmem] at h
    injection h with h
    subst h
    have hout : AppendBottom.blob_name param layer_id bottom_id ∉
        StdSet.erase (AppendBottom.blob_name param layer_id bottom_id) available_blobs := by
      intro hc
      exact ((StdSet.mem_erase _ _ _).1 hc).2 rfl
    refine ⟨hout, rfl, rfl, ?_, ?_⟩
    · intro x v hx
      exact StdMap.find_index_of_find _ _ _ _ hx
    · intro ops w' hops hrun
      have hn := WireOp.run_all_keeps_unavailable param _ ops _ w' hops hout hrun
      refine ⟨hn, ?_⟩
      intro l b hlb
      have := AppendBottom_error w'.net param l b w'.available_blobs w'.blob_name_to_idx
        (by rw [hlb]; exact hn)
      rw [hlb] at this
      exact this
  · rw [AppendBottom_error _ _ _ _ _ _ hmem] at h
    cases h

/-- C7 on `in_place_example`: once layer 1 has consumed "a", and its top "b"
is wired, a further bottom reference to "a" is fatal. -/
theorem C7_witness :
    AppendBottom
        { Net.empty with
          bottom_vecs_ := [[], []]
          bottom_id_vecs_ := [[], []]
          bottom_need_backward_ := [[], []]
          top_vecs_ := [[], []]
          top_id_vecs_ := [[], []] }
        in_place_example 1 0 ["a"] [("a", 0)] =
        .ok (0, consumed_net, [], [("a", 0)]) ∧
      ∃ w', WireOp.run_all in_place_example [WireOp.top 1 0 true]
          { net := consumed_net, available_blobs := [], blob_name_to_idx := [("a", 0)] } =
            .ok w' ∧
        AppendBottom w'.net in_place_example 0 0 w'.available_blobs w'.blob_name_to_idx =
          .error (.unknown_bottom_blob "a" "relu" 0) := by
  have hb : AppendBottom
      { Net.empty with
        bottom_vecs_ := [[], []]
        bottom_id_vecs_ := [[], []]
        bottom_need_backward_ := [[], []]
        top_vecs_ := [[], []]
        top_id_vecs_ := [[], []] }
      in_place_example 1 0 ["a"] [("a", 0)] = .ok (0, consumed_net, [], [("a", 0)]) := by
    decide
  refine ⟨hb, ?_⟩
  obtain ⟨w', hrun⟩ := Except.ok_of_toBool
    (WireOp.run_all in_place_example [WireOp.top 1 0 true]
      { net := consumed_net, available_blobs := [], blob_name_to_idx := [("a", 0)] })
    (by decide)
  refine ⟨w', hrun, ?_⟩
  exact ((C7_consumed_blob_leaves_frontier _ in_place_example 1 0 ["a"] [("a", 0)]
    (0, consumed_net, [], [("a", 0)]) hb).2.2.2.2 [WireOp.top 1 0 true] w' (by decide)
      hrun).2 0 0 (by decide)

theorem of_returns_with {ε α : Type} (x : Except ε α) (p : α → Bool)
    (h : returns_with x p = true) : ∃ r, x = .ok r ∧ p r = true := by
  cases x with
  | error e => cases h
  | ok r => exact ⟨r, rfl, h⟩

theorem traits_getD_of_map {ls ls' : List Layer}
    (h : ls.map Layer.traits = ls'.map Layer.traits) (l : Nat) :
    (ls.getD l default).traits = (ls'.getD l default).traits := by
  rw [getD_traits, h, ← getD_traits]

theorem mem_row_of_getElem? {vv : List (List Nat)} {l b i : Nat}
    (h : (vv.getD l [])[b]? = some i) : ∃ row, row ∈ vv ∧ i ∈ row := by
  by_cases hl : l < vv.length
  · refine ⟨vv[l], List.getElem_mem _, ?_⟩
    rw [List.getD_eq_getElem _ _ hl] at h
    exact List.getElem?_mem h
  · rw [List.getD_eq_default _ _ (by omega)] at h
    simp at h

/-- C8: a call of `AppendTop` with `NULL, NULL` always returns, allocates one
blob and hands back no set and no map; and in every net `Init` returns, a
layer with `AutoTopBlobs` whose declared top count is below
`max(MinTopBlobs, ExactNumTopBlobs)` has exactly that many tops, and a blob
recorded past the declared tops of a layer is named "(automatic)", is the
bottom of no layer and is not a net output. -/
theorem C8_anonymous_tops (CreateLayer : LayerParameter → Layer)
    (InsertSplits : NetParameter → NetParameter) (in_param filtered : NetParameter)
    (result net : Net) (param : NetParameter) (layer_id top_id i : Nat) :
    (∃ net', AppendTop net param layer_id top_id none none = .ok (net', none, none) ∧
      net'.blobs_.length = net.blobs_.length + 1) ∧
    (FilterNet in_param = .ok filtered →
      Init CreateLayer InsertSplits in_param = .ok result →
      layer_id < (InsertSplits filtered).layer.length →
      ((result.layers_.getD layer_id default).AutoTopBlobs = true →
        (num_top (InsertSplits filtered) layer_id : Int) <
          max (result.layers_.getD layer_id default).MinTopBlobs
            (result.layers_.getD layer_id default).ExactNumTopBlobs →
        ((result.top_id_vecs_.getD layer_id []).length : Int) =
          max (result.layers_.getD layer_id default).MinTopBlobs
            (result.layers_.getD layer_id default).ExactNumTopBlobs) ∧
      (num_top (InsertSplits filtered) layer_id ≤ top_id →
        (result.top_id_vecs_.getD layer_id [])[top_id]? = some i →
        result.blob_names_[i]? = some "(automatic)" ∧
          i ∉ result.net_output_blob_indices_ ∧
          ∀ row, row ∈ result.bottom_id_vecs_ → i ∉ row)) := by
  constructor
  · exact ⟨_, AppendTop_anonymous _ _ _ _ _, normal_output_blobs_length _ _ _ _ _⟩
  · intro hf hinit hl
    obtain ⟨w, _, _, hW, hg, htr, hout, _⟩ := Init_wired _ _ _ _ _ hf hinit
    obtain ⟨_, g2, g3, _, g5, _⟩ := graph_fields hg
    constructor
    · intro hauto hlt
      have hc := hW.top_count layer_id hl
      have ht := traits_getD_of_map htr layer_id
      rw [← Layer.needed_extra_traits _ _ _ ht] at hc
      rw [g3]
      have hc' : (w.net.top_id_vecs_.getD layer_id []).length = _ := hc
      rw [hc']
      unfold Layer.needed_extra
      rw [if_pos hauto]
      push_cast
      omega
    · intro hge hi
      rw [g3] at hi
      obtain ⟨h1, h2⟩ := hW.inv.top_anon layer_id top_id i hi hge
      refine ⟨?_, ?_, ?_⟩
      · rw [g2]
        exact h2
      · rw [hout]
        intro hmem
        obtain ⟨n, hn, hni⟩ := List.mem_map.1 hmem
        obtain ⟨i', hi'⟩ := hW.inv.avail_map n hn
        have hi'' : StdMap.find w.blob_name_to_idx n = some i' := hi'
        rw [hi''] at hni
        exact h1 n (hi'.trans (congrArg some hni))
      · intro row hrow hmem
        rw [g5] at hrow
        obtain ⟨l', hl', hrl⟩ := List.getElem_of_mem hrow
        obtain ⟨b, hb, hbi⟩ := List.getElem_of_mem hmem
        have : (w.core.bottoms l')[b]? = some i := by
          show (w.net.bottom_id_vecs_.getD l' [])[b]? = some i
          rw [List.getD_eq_getElem _ _ hl', hrl]
          rw [List.getElem?_eq_getElem hb, hbi]
        exact h1 _ (hW.inv.bottom_named l' b i this)

/-- C8 on `loss_example`: the layer needs one top and declares none; `Init`
gives it one anonymous top, blob 1, which is neither consumed nor a net
output. -/
theorem C8_witness :
    ∃ result, Init loss_factory id loss_example = .ok result ∧
      ((result.top_id_vecs_.getD 0 []).length : Int) = 1 ∧
      (result.top_id_vecs_.getD 0 [])[0]? = some 1 ∧
      result.blob_names_[1]? = some "(automatic)" ∧
      1 ∉ result.net_output_blob_indices_ ∧
      ∀ row, row ∈ result.bottom_id_vecs_ → 1 ∉ row := by
  obtain ⟨result, h, hp⟩ := of_returns_with (Init loss_factory id loss_example)
    (fun r => decide ((r.layers_.getD 0 default).AutoTopBlobs = true ∧
      (r.layers_.getD 0 default).MinTopBlobs = -1 ∧
      (r.layers_.getD 0 default).ExactNumTopBlobs = 1 ∧
      (r.top_id_vecs_.getD 0 [])[0]? = some 1)) (by decide)
  obtain ⟨ha, hmin, hex, htop⟩ := of_decide_eq_true hp
  have hC := (C8_anonymous_tops loss_factory id loss_example loss_example result Net.empty
    loss_example 0 0 1).2 (by decide) h (by decide)
  have hlen := hC.1 ha (by rw [hmin, hex]; decide)
  rw [hmin, hex] at hlen
  obtain ⟨h1, h2, h3⟩ := hC.2 (by decide) htop
  exact ⟨result, h, hlen, htop, h1, h2, h3⟩

/-- C9 fails as stated: in the net `Init` builds from `loss_example`, blob 1
(the anonymous top of the loss layer) is in the blob table, no layer has it as
a bottom, and it is not a net output. -/
theorem C9_counterexample :
    ∃ result, Init loss_factory id loss_example = .ok result ∧
      1 < result.blobs_.length ∧ (∀ row, row ∈ result.bottom_id_vecs_ → 1 ∉ row) ∧
      1 ∉ result.net_output_blob_indices_ := by
  obtain ⟨result, h, hp⟩ := of_returns_with (Init loss_factory id loss_example)
    (fun r => decide (1 < r.blobs_.length ∧ (∀ row, row ∈ r.bottom_id_vecs_ → 1 ∉ row) ∧
      1 ∉ r.net_output_blob_indices_)) (by decide)
  exact ⟨result, h, of_decide_eq_true hp⟩

/-- C9, amended: in every net `Init` returns, a blob of the blob table that is
not the blob of an anonymous top and that no layer has as a bottom is a net
output: its index is in `net_output_blob_indices_` and its blob in
`net_output_blobs_`. -/
theorem C9_unconsumed_named_blob_is_output (CreateLayer : LayerParameter → Layer)
    (InsertSplits : NetParameter → NetParameter) (in_param filtered : NetParameter)
    (result : Net) (i : Nat) (hf : FilterNet in_param = .ok filtered)
    (hinit : Init CreateLayer InsertSplits in_param = .ok result)
    (hi : i < result.blobs_.length)
    (hnamed : ¬ anonymous_top (InsertSplits filtered) result i)
    (hfree : ∀ row, row ∈ result.bottom_id_vecs_ → i ∉ row) :
    i ∈ result.net_output_blob_indices_ ∧ i ∈ result.net_output_blobs_ := by
  obtain ⟨w, _, _, hW, hg, _, hout, hout', _⟩ := Init_wired _ _ _ _ _ hf hinit
  obtain ⟨g1, _, g3, _, g5, _⟩ := graph_fields hg
  have hi' : i < w.core.blob_count := by
    show i < w.net.blobs_.length
    rw [← g1]
    exact hi
  rcases hW.inv.cover i hi' with ⟨n, hn⟩ | ⟨l, t, hge, ht⟩
  · rcases hW.inv.consumed_or_avail n i hn with hav | ⟨l, b, hb⟩
    · have hmem : i ∈ w.available_blobs.map
          (fun n => (StdMap.find w.blob_name_to_idx n).getD 0) := by
        refine List.mem_map.2 ⟨n, hav, ?_⟩
        have hn' : StdMap.find w.blob_name_to_idx n = some i := hn
        rw [hn']
        rfl
      rw [hout, hout']
      exact ⟨hmem, hmem⟩
    · exfalso
      have hb' : (w.net.bottom_id_vecs_.getD l [])[b]? = some i := hb
      rw [← g5] at hb'
      obtain ⟨row, hrow, hmem⟩ := mem_row_of_getElem? hb'
      exact hfree row hrow hmem
  · exfalso
    apply hnamed
    refine ⟨l, t, hge, ?_⟩
    rw [g3]
    exact ht

/-- C9, amended, on `loss_example` with a layer factory without anonymous
tops: the top "b" of the only layer is blob 1, nothing consumes it, and it is
a net output. -/
theorem C9_witness :
    ∃ result,
      Init plain_factory id (example_net ["a"] [example_layer "l" ["a"] ["b"]]) =
        .ok result ∧
      1 ∈ result.net_output_blob_indices_ ∧ 1 ∈ result.net_output_blobs_ := by
  obtain ⟨result, h, hp⟩ := of_returns_with
    (Init plain_factory id (example_net ["a"] [example_layer "l" ["a"] ["b"]]))
    (fun r => decide (1 < r.blobs_.length ∧ (∀ row, row ∈ r.bottom_id_vecs_ → 1 ∉ row) ∧
      r.top_id_vecs_ = [[1]])) (by decide)
  obtain ⟨h1, h2, h3⟩ := of_decide_eq_true hp
  refine ⟨result, h, C9_unconsumed_named_blob_is_output plain_factory id
    (example_net ["a"] [example_layer "l" ["a"] ["b"]])
    (example_net ["a"] [example_layer "l" ["a"] ["b"]]) result 1 (by decide) h h1 ?_ h2⟩
  rintro ⟨l, t, hge, ht⟩
  rw [h3] at ht
  match l, t with
  | 0, 0 => exact absurd hge (by decide)
  | 0, t + 1 => simp at ht
  | l + 1, t => simp at ht

/-! ## The reverse walk -/

theorem getD_set_row {α : Type} (vv : List (List α)) (l l' : Nat) (row : List α) :
    (vv.set l row).getD l' [] = if l' = l ∧ l < vv.length then row else vv.getD l' [] := by
  simp only [List.getD_eq_getElem?_getD, List.getElem?_set]
  by_cases h : l = l'
  · subst h
    by_cases hl : l < vv.length
    · simp [hl]
    · have hn : vv[l]? = none := List.getElem?_eq_none (by omega)
      simp [hl, hn]
  · have h' : ¬ l' = l := fun e => h e.symm
    simp [h, h']

/-- The top loop of the reverse walk finds no loss contribution when no top
of the layer has a loss weight or a name in `blobs_under_loss`. -/
theorem scan_tops_no_loss (s : Walk) (l : Nat) (remaining top_id : Nat) (flags : Bool × Bool)
    (hflags : flags.1 = false)
    (h : ∀ t, top_id ≤ t → t < top_id + remaining →
      (s.net.layers_.getD l default).loss t = 0 ∧ s.net.top_name l t ∉ s.blobs_under_loss) :
    (Init.scan_tops s l remaining top_id flags).1 = false := by
  induction remaining generalizing top_id flags with
  | zero => exact hflags
  | succ r ih =>
    obtain ⟨h0, hn⟩ := h top_id (Nat.le_refl _) (by omega)
    have hc : StdSet.contains s.blobs_under_loss
        (s.net.blob_names_.getD ((s.net.top_id_vecs_.getD l []).getD top_id 0) "") = false := by
      cases hb : StdSet.contains s.blobs_under_loss
          (s.net.blob_names_.getD ((s.net.top_id_vecs_.getD l []).getD top_id 0) "") with
      | false => rfl
      | true => exact absurd ((StdSet.contains_iff _ _).1 hb) hn
    unfold Init.scan_tops
    simp only [h0, hc, hflags, ne_eq, not_true_eq_false, decide_False, Bool.or_self,
      Bool.false_eq_true, if_false, Bool.false_and]
    exact ih (top_id + 1) _ rfl (fun t ht1 ht2 => h t (by omega) (by omega))

/-- What the two conditionals that clear flags do when the layer contributes
no loss: the flag of the layer is cleared, the rows of the other layers and
the shape of the flag vectors stay. -/
theorem clear_layer_no_loss (l : Nat) (f2 : Bool) (net : Net)
    (hl : l < net.layer_need_backward_.length) :
    (Init.clear_layer l (false, f2) net).layer_need_backward_[l]? = some false ∧
      (Init.clear_layer l (false, f2) net).layer_need_backward_.length =
        net.layer_need_backward_.length ∧
      (Init.clear_layer l (false, f2) net).bottom_need_backward_.length =
        net.bottom_need_backward_.length ∧
      ((Init.clear_layer l (false, f2) net).bottom_need_backward_.getD l []).length =
        (net.bottom_need_backward_.getD l []).length := by
  have hrows : (forUp (net.bottom_vecs_.getD l []).length
      (fun bottom_id bnb => bnb.set l ((bnb.getD l []).set bottom_id false))
      net.bottom_need_backward_).length = net.bottom_need_backward_.length ∧
      ((forUp (net.bottom_vecs_.getD l []).length
        (fun bottom_id bnb => bnb.set l ((bnb.getD l []).set bottom_id false))
        net.bottom_need_backward_).getD l []).length =
        (net.bottom_need_backward_.getD l []).length := by
    refine forUp_induction
      (fun (_ : Nat) (bnb : List (List Bool)) =>
        bnb.length = net.bottom_need_backward_.length ∧
          (bnb.getD l []).length = (net.bottom_need_backward_.getD l []).length)
      _ _ _ ⟨rfl, rfl⟩ ?_
    intro i bnb _ h
    refine ⟨by rw [List.length_set]; exact h.1, ?_⟩
    rw [getD_set_row]
    split
    · rw [List.length_set]
      exact h.2
    · exact h.2
  unfold Init.clear_layer
  dsimp only
  simp only [Bool.not_false, if_true]
  split
  · refine ⟨?_, ?_, hrows.1, hrows.2⟩
    · rw [List.getElem?_set]
      simp [hl]
    · simp
  · refine ⟨?_, ?_, rfl, rfl⟩
    · rw [List.getElem?_set]
      simp [hl]
    · simp

theorem Net.same_flag_shape_trans {a b c : Net} (h : a.same_flag_shape b)
    (h' : b.same_flag_shape c) : a.same_flag_shape c :=
  ⟨h'.1.trans h.1, h'.2.1.trans h.2.1, fun l => (h'.2.2 l).trans (h.2.2 l)⟩

theorem Net.same_flags_except_trans {l : Nat} {a b c : Net} (h : a.same_flags_except l b)
    (h' : b.same_flags_except l c) : a.same_flags_except l c :=
  fun l' hl' => ⟨(h' l' hl').1.trans (h l' hl').1, (h' l' hl').2.trans (h l' hl').2⟩

theorem set_row_shape (bnb : List (List Bool)) (l b : Nat) (v : Bool) :
    (bnb.set l ((bnb.getD l []).set b v)).length = bnb.length ∧
      (∀ l', ((bnb.set l ((bnb.getD l []).set b v)).getD l' []).length =
        (bnb.getD l' []).length) ∧
      ∀ l', l' ≠ l → (bnb.set l ((bnb.getD l []).set b v)).getD l' [] = bnb.getD l' [] := by
  refine ⟨List.length_set _ _ _, ?_, ?_⟩
  · intro l'
    rw [getD_set_row]
    split
    · rename_i h
      rw [List.length_set, h.1]
    · rfl
  · intro l' hl'
    rw [getD_set_row]
    rw [if_neg (fun h => hl' h.1)]

theorem clear_rows_shape (l n : Nat) (bnb0 : List (List Bool)) :
    (forUp n (fun bottom_id bnb => bnb.set l ((bnb.getD l []).set bottom_id false))
        bnb0).length = bnb0.length ∧
      (∀ l', ((forUp n (fun bottom_id bnb => bnb.set l ((bnb.getD l []).set bottom_id false))
        bnb0).getD l' []).length = (bnb0.getD l' []).length) ∧
      ∀ l', l' ≠ l →
        (forUp n (fun bottom_id bnb => bnb.set l ((bnb.getD l []).set bottom_id false))
          bnb0).getD l' [] = bnb0.getD l' [] := by
  refine forUp_induction
    (fun (_ : Nat) (bnb : List (List Bool)) => bnb.length = bnb0.length ∧
      (∀ l', (bnb.getD l' []).length = (bnb0.getD l' []).length) ∧
      ∀ l', l' ≠ l → bnb.getD l' [] = bnb0.getD l' [])
    _ _ _ ⟨rfl, fun _ => rfl, fun _ _ => rfl⟩ ?_
  intro i bnb _ h
  obtain ⟨h1, h2, h3⟩ := set_row_shape bnb l i false
  exact ⟨h1.trans h.1, fun l' => (h2 l').trans (h.2.1 l'),
    fun l' hl' => (h3 l' hl').trans (h.2.2 l' hl')⟩

theorem clear_layer_frame (l : Nat) (flags : Bool × Bool) (net : Net) :
    net.same_flag_shape (Init.clear_layer l flags net) ∧
      net.same_flags_except l (Init.clear_layer l flags net) := by
  obtain ⟨r1, r2, r3⟩ := clear_rows_shape l (net.bottom_vecs_.getD l []).length
    net.bottom_need_backward_
  have hset : ∀ (xs : List Bool) l', l' ≠ l → (xs.set l false)[l']? = xs[l']? := by
    intro xs l' hl'
    rw [List.getElem?_set, if_neg (fun h => hl' h.symm)]
  unfold Init.clear_layer
  dsimp only
  split <;> split
  · refine ⟨⟨by simp, r1, r2⟩, fun l' hl' => ⟨?_, r3 l' hl'⟩⟩
    show ((net.layer_need_backward_.set l false).set l false)[l']? = _
    rw [hset _ l' hl', hset _ l' hl']
  · refine ⟨⟨by simp, rfl, fun _ => rfl⟩, fun l' hl' => ⟨?_, rfl⟩⟩
    show (net.layer_need_backward_.set l false)[l']? = _
    rw [hset _ l' hl']
  · refine ⟨⟨by simp, r1, r2⟩, fun l' hl' => ⟨?_, r3 l' hl'⟩⟩
    show (net.layer_need_backward_.set l false)[l']? = _
    rw [hset _ l' hl']
  · exact ⟨⟨rfl, rfl, fun _ => rfl⟩, fun l' hl' => ⟨rfl, rfl⟩⟩

theorem walk_bottoms_frame (l : Nat) (c : Bool) (s : Walk) :
    (Init.walk_bottoms l c s).net.layer_need_backward_ = s.net.layer_need_backward_ ∧
      s.net.same_flag_shape (Init.walk_bottoms l c s).net ∧
      s.net.same_flags_except l (Init.walk_bottoms l c s).net ∧
      (∀ x, x ∈ s.blobs_skip_backp → x ∈ (Init.walk_bottoms l c s).blobs_skip_backp) ∧
      (∀ x, x ∈ s.blobs_under_loss → x ∈ (Init.walk_bottoms l c s).blobs_under_loss) ∧
      (c = false → (Init.walk_bottoms l c s).blobs_under_loss = s.blobs_under_loss) := by
  unfold Init.walk_bottoms
  refine forUp_induction
    (fun (_ : Nat) (t : Walk) =>
      t.net.layer_need_backward_ = s.net.layer_need_backward_ ∧
      s.net.same_flag_shape t.net ∧ s.net.same_flags_except l t.net ∧
      (∀ x, x ∈ s.blobs_skip_backp → x ∈ t.blobs_skip_backp) ∧
      (∀ x, x ∈ s.blobs_under_loss → x ∈ t.blobs_under_loss) ∧
      (c = false → t.blobs_under_loss = s.blobs_under_loss))
    _ _ _
    ⟨rfl, ⟨rfl, rfl, fun _ => rfl⟩, fun _ _ => ⟨rfl, rfl⟩, fun _ h => h, fun _ h => h,
      fun _ => rfl⟩ ?_
  intro i t _ h
  obtain ⟨h1, h2, h3, h4, h5, h6⟩ := h
  obtain ⟨q1, q2, q3⟩ := set_row_shape t.net.bottom_need_backward_ l i false
  dsimp only
  cases c with
  | true =>
    simp only [if_true]
    split
    · exact ⟨h1, h2, h3, fun x hx => (StdSet.mem_insert _ _ _).2 (Or.inr (h4 x hx)),
        fun x hx => (StdSet.mem_insert _ _ _).2 (Or.inr (h5 x hx)), fun hc => by cases hc⟩
    · exact ⟨h1, h2, h3, h4,
        fun x hx => (StdSet.mem_insert _ _ _).2 (Or.inr (h5 x hx)), fun hc => by cases hc⟩
  | false =>
    simp only [Bool.false_eq_true, if_false]
    have hshape : s.net.same_flag_shape
        { t.net with
          bottom_need_backward_ :=
            t.net.bottom_need_backward_.set l
              ((t.net.bottom_need_backward_.getD l []).set i false) } :=
      ⟨h2.1, q1.trans h2.2.1, fun l' => (q2 l').trans (h2.2.2 l')⟩
    have hexc : s.net.same_flags_except l
        { t.net with
          bottom_need_backward_ :=
            t.net.bottom_need_backward_.set l
              ((t.net.bottom_need_backward_.getD l []).set i false) } :=
      fun l' hl' => ⟨(h3 l' hl').1, (q3 l' hl').trans (h3 l' hl').2⟩
    split
    · exact ⟨h1, hshape, hexc, fun x hx => (StdSet.mem_insert _ _ _).2 (Or.inr (h4 x hx)),
        h5, fun _ => h6 rfl⟩
    · exact ⟨h1, hshape, hexc, h4, h5, fun _ => h6 rfl⟩

theorem walk_layer_frame (l : Nat) (s : Walk) :
    s.net.same_flag_shape (Init.walk_layer l s).net ∧
      s.net.same_flags_except l (Init.walk_layer l s).net ∧
      (∀ x, x ∈ s.blobs_skip_backp → x ∈ (Init.walk_layer l s).blobs_skip_backp) ∧
      (∀ x, x ∈ s.blobs_under_loss → x ∈ (Init.walk_layer l s).blobs_under_loss) := by
  unfold Init.walk_layer
  dsimp only
  obtain ⟨c1, c2⟩ := clear_layer_frame l
    (Init.scan_tops s l (s.net.top_vecs_.getD l []).length 0 (false, true)) s.net
  obtain ⟨_, b2, b3, b4, b5, _⟩ := walk_bottoms_frame l
    (Init.scan_tops s l (s.net.top_vecs_.getD l []).length 0 (false, true)).1
    { s with
      net := Init.clear_layer l
        (Init.scan_tops s l (s.net.top_vecs_.getD l []).length 0 (false, true)) s.net }
  exact ⟨Net.same_flag_shape_trans c1 b2, Net.same_flags_except_trans c2 b3, b4, b5⟩

/-- The bottom loop of the reverse walk, for a layer that contributes no loss:
every bottom flag of the layer is cleared and every bottom name is put into
`blobs_skip_backp`. -/
theorem walk_bottoms_no_loss (l : Nat) (s : Walk) (hl : l < s.net.bottom_need_backward_.length) :
    ∀ b, b < (s.net.bottom_vecs_.getD l []).length →
      (b < (s.net.bottom_need_backward_.getD l []).length →
        ((Init.walk_bottoms l false s).net.bottom_need_backward_.getD l [])[b]? =
          some false) ∧
      s.net.bottom_name l b ∈ (Init.walk_bottoms l false s).blobs_skip_backp := by
  unfold Init.walk_bottoms
  have key := forUp_induction
    (fun (i : Nat) (t : Walk) =>
      t.net.graph = s.net.graph ∧
      t.net.bottom_need_backward_.length = s.net.bottom_need_backward_.length ∧
      (t.net.bottom_need_backward_.getD l []).length =
        (s.net.bottom_need_backward_.getD l []).length ∧
      ∀ b, b < i →
        (b < (s.net.bottom_need_backward_.getD l []).length →
          (t.net.bottom_need_backward_.getD l [])[b]? = some false) ∧
        s.net.bottom_name l b ∈ t.blobs_skip_backp)
    (s.net.bottom_vecs_.getD l []).length
    (fun bottom_id s =>
      let blob_name :=
        s.net.blob_names_.getD ((s.net.bottom_id_vecs_.getD l []).getD bottom_id 0) ""
      let s1 : Walk :=
        if false = true then
          { s with blobs_under_loss := StdSet.insert blob_name s.blobs_under_loss }
        else
          { s with
            net :=
              { s.net with
                bottom_need_backward_ :=
                  s.net.bottom_need_backward_.set l
                    ((s.net.bottom_need_backward_.getD l []).set bottom_id false) } }
      if !((s1.net.bottom_need_backward_.getD l []).getD bottom_id false) then
        { s1 with blobs_skip_backp := StdSet.insert blob_name s1.blobs_skip_backp }
      else s1)
    s ⟨rfl, rfl, rfl, fun b hb => absurd hb (Nat.not_lt_zero _)⟩ ?_
  · intro b hb
    exact key.2.2.2 b hb
  · intro i t _ h
    obtain ⟨hg, hlen, hrow, hprev⟩ := h
    have hlt : l < t.net.bottom_need_backward_.length := by rw [hlen]; exact hl
    have hrow' : (t.net.bottom_need_backward_.set l
        ((t.net.bottom_need_backward_.getD l []).set i false)).getD l [] =
        (t.net.bottom_need_backward_.getD l []).set i false := by
      rw [getD_set_row, if_pos ⟨rfl, hlt⟩]
    have hcond : (!((t.net.bottom_need_backward_.set l
        ((t.net.bottom_need_backward_.getD l []).set i false)).getD l []).getD i false) =
        true := by
      rw [hrow']
      by_cases hi : i < (t.net.bottom_need_backward_.getD l []).length
      · rw [List.getD_eq_getElem _ _ (by rw [List.length_set]; exact hi)]
        simp
      · rw [List.getD_eq_default _ _ (by rw [List.length_set]; omega)]
        rfl
    have hname : t.net.blob_names_.getD ((t.net.bottom_id_vecs_.getD l []).getD i 0) "" =
        s.net.bottom_name l i := by
      obtain ⟨_, g2, _, _, g5, _⟩ := graph_fields hg
      unfold Net.bottom_name
      rw [g2, g5]
    dsimp only
    simp only [Bool.false_eq_true, if_false]
    rw [if_pos hcond]
    refine ⟨hg, ?_, ?_, ?_⟩
    · show (t.net.bottom_need_backward_.set l _).length = _
      rw [List.length_set]
      exact hlen
    · show ((t.net.bottom_need_backward_.set l _).getD l []).length = _
      rw [hrow', List.length_set]
      exact hrow
    · intro b hb
      have hb' : b < i ∨ b = i := by omega
      constructor
      · intro hbl
        show ((t.net.bottom_need_backward_.set l _).getD l [])[b]? = some false
        rw [hrow', List.getElem?_set]
        rcases hb' with hb' | hb'
        · rw [if_neg (by omega)]
          exact (hprev b hb').1 hbl
        · rw [if_pos hb'.symm, if_pos (by rw [hrow]; omega)]
      · show s.net.bottom_name l b ∈ StdSet.insert _ t.blobs_skip_backp
        rcases hb' with hb' | hb'
        · exact (StdSet.mem_insert _ _ _).2 (Or.inr (hprev b hb').2)
        · rw [hname, hb']
          exact (StdSet.mem_insert _ _ _).2 (Or.inl rfl)

/-- The body of the reverse walk for a layer none of whose tops has a loss
weight or a name in `blobs_under_loss`. -/
theorem walk_layer_no_loss (l : Nat) (s : Walk)
    (hl1 : l < s.net.layer_need_backward_.length)
    (hl2 : l < s.net.bottom_need_backward_.length)
    (hrow : (s.net.bottom_need_backward_.getD l []).length =
      (s.net.bottom_vecs_.getD l []).length)
    (hno : ∀ t, t < (s.net.top_vecs_.getD l []).length →
      (s.net.layers_.getD l default).loss t = 0 ∧ s.net.top_name l t ∉ s.blobs_under_loss) :
    (Init.walk_layer l s).net.layer_need_backward_[l]? = some false ∧
      (∀ b, b < (s.net.bottom_vecs_.getD l []).length →
        ((Init.walk_layer l s).net.bottom_need_backward_.getD l [])[b]? = some false ∧
        s.net.bottom_name l b ∈ (Init.walk_layer l s).blobs_skip_backp) := by
  have hscan : (Init.scan_tops s l (s.net.top_vecs_.getD l []).length 0 (false, true)).1 =
      false :=
    scan_tops_no_loss s l _ 0 (false, true) rfl (fun t _ ht => hno t (by omega))
  have hflags : Init.scan_tops s l (s.net.top_vecs_.getD l []).length 0 (false, true) =
      (false, (Init.scan_tops s l (s.net.top_vecs_.getD l []).length 0 (false, true)).2) :=
    Prod.ext hscan rfl
  obtain ⟨c1, c2, c3, c4⟩ := clear_layer_no_loss l
    (Init.scan_tops s l (s.net.top_vecs_.getD l []).length 0 (false, true)).2 s.net hl1
  obtain ⟨cg, _⟩ := graph_clear_layer l
    (false, (Init.scan_tops s l (s.net.top_vecs_.getD l []).length 0 (false, true)).2) s.net
  obtain ⟨_, _, _, _, g5, g6, _⟩ := graph_fields cg
  unfold Init.walk_layer
  dsimp only
  rw [hflags]
  dsimp only
  obtain ⟨b1, _⟩ := walk_bottoms_frame l false
    { s with
      net := Init.clear_layer l
        (false, (Init.scan_tops s l (s.net.top_vecs_.getD l []).length 0 (false, true)).2)
        s.net }
  have hb := walk_bottoms_no_loss l
    { s with
      net := Init.clear_layer l
        (false, (Init.scan_tops s l (s.net.top_vecs_.getD l []).length 0 (false, true)).2)
        s.net }
    (by rw [c3]; exact hl2)
  constructor
  · rw [b1]
    exact c1
  · intro b hbl
    have := hb b (by show b < ((Init.clear_layer l _ s.net).bottom_vecs_.getD l []).length
                     rw [g6]; exact hbl)
    refine ⟨this.1 (by rw [c4, hrow]; exact hbl), ?_⟩
    have hn : (Init.clear_layer l
        (false, (Init.scan_tops s l (s.net.top_vecs_.getD l []).length 0 (false, true)).2)
        s.net).bottom_name l b = s.net.bottom_name l b := by
      obtain ⟨_, g2, _, _, g5', _⟩ := graph_fields cg
      unfold Net.bottom_name
      rw [g2, g5']
    rw [← hn]
    exact this.2

theorem walk_shape (net : Net) (visited : Nat) :
    net.same_flag_shape (Init.walk net visited).net := by
  induction visited with
  | zero => exact ⟨rfl, rfl, fun _ => rfl⟩
  | succ v ih =>
    exact Net.same_flag_shape_trans ih
      (walk_layer_frame (net.layers_.length - 1 - v) (Init.walk net v)).1

/-- Once the reverse walk has visited a layer none of whose tops has a loss
weight or a name in `blobs_under_loss`, the flags of the layer are clear and
the names of its bottoms are in `blobs_skip_backp`, and they stay so for the
rest of the walk. -/
theorem walk_after_no_loss (net : Net) (l : Nat) (hl : l < net.layers_.length)
    (hlnb : net.layer_need_backward_.length = net.layers_.length)
    (hbnb : net.bottom_need_backward_.length = net.layers_.length)
    (hrow : (net.bottom_need_backward_.getD l []).length = (net.bottom_vecs_.getD l []).length)
    (hno : ∀ t, t < (net.top_vecs_.getD l []).length →
      (net.layers_.getD l default).loss t = 0 ∧
        net.top_name l t ∉ (Init.walk net (net.layers_.length - 1 - l)).blobs_under_loss)
    (visited : Nat) (hv : net.layers_.length - 1 - l < visited)
    (hvn : visited ≤ net.layers_.length) :
    (Init.walk net visited).net.layer_need_backward_[l]? = some false ∧
      ∀ b, b < (net.bottom_vecs_.getD l []).length →
        ((Init.walk net visited).net.bottom_need_backward_.getD l [])[b]? = some false ∧
        net.bottom_name l b ∈ (Init.walk net visited).blobs_skip_backp := by
  induction visited with
  | zero => omega
  | succ v ih =>
    by_cases hvl : v = net.layers_.length - 1 - l
    · -- the step that visits layer `l`
      have hlayer : net.layers_.length - 1 - v = l := by omega
      obtain ⟨g, u⟩ := graph_walk net v
      obtain ⟨_, g2, g3, g4, g5, g6, _⟩ := graph_fields g
      have hlay : (Init.walk net v).net.layers_ = net.layers_ := congrArg (fun x => x.1) u
      obtain ⟨s1, s2, s3⟩ := walk_shape net v
      show (Init.walk_layer (net.layers_.length - 1 - v) (Init.walk net v)).net.layer_need_backward_[l]? =
          some false ∧ ∀ b, b < (net.bottom_vecs_.getD l []).length →
        ((Init.walk_layer (net.layers_.length - 1 - v)
          (Init.walk net v)).net.bottom_need_backward_.getD l [])[b]? = some false ∧
        net.bottom_name l b ∈
          (Init.walk_layer (net.layers_.length - 1 - v) (Init.walk net v)).blobs_skip_backp
      rw [hlayer]
      have hname : ∀ b, (Init.walk net v).net.bottom_name l b = net.bottom_name l b := by
        intro b
        unfold Net.bottom_name
        rw [g2, g5]
      have htname : ∀ t, (Init.walk net v).net.top_name l t = net.top_name l t := by
        intro t
        unfold Net.top_name
        rw [g2, g3]
      obtain ⟨r1, r2⟩ := walk_layer_no_loss l (Init.walk net v)
        (by rw [s1, hlnb]; exact hl) (by rw [s2, hbnb]; exact hl)
        (by rw [s3 l, hrow, g6])
        (by
          intro t ht
          rw [g4] at ht
          rw [hlay, htname, hvl]
          exact hno t ht)
      refine ⟨r1, ?_⟩
      intro b hb
      have := r2 b (by rw [g6]; exact hb)
      rw [hname] at this
      exact this
    · -- a later step, on another layer
      have hne : l ≠ net.layers_.length - 1 - v := by omega
      obtain ⟨ih1, ih2⟩ := ih (by omega) (by omega)
      obtain ⟨_, f2, f3, _⟩ :=
        walk_layer_frame (net.layers_.length - 1 - v) (Init.walk net v)
      obtain ⟨e1, e2⟩ := f2 l hne
      refine ⟨?_, ?_⟩
      · show (Init.walk_layer _ (Init.walk net v)).net.layer_need_backward_[l]? = some false
        rw [e1]
        exact ih1
      · intro b hb
        obtain ⟨i1, i2⟩ := ih2 b hb
        constructor
        · show ((Init.walk_layer _ (Init.walk net v)).net.bottom_need_backward_.getD l [])[b]? =
            some false
          rw [e2]
          exact i1
        · exact f3 _ i2

theorem Init_of_parts (CreateLayer : LayerParameter → Layer)
    (InsertSplits : NetParameter → NetParameter) (in_param filtered : NetParameter)
    (w : Wiring) (net : Net) (hf : FilterNet in_param = .ok filtered)
    (hw : Init.wire CreateLayer (InsertSplits filtered) in_param.state.phase = .ok w)
    (hfin : Init.finish (InsertSplits filtered) w = .ok net) :
    Init CreateLayer InsertSplits in_param = .ok net := by
  unfold Init
  rw [hf]
  show (Init.wire CreateLayer (InsertSplits filtered) in_param.state.phase).bind _ = _
  rw [hw]
  exact hfin

/-- C10: without `force_backward`, a layer none of whose tops has a nonzero
loss weight or a name that is in `blobs_under_loss` when the reverse walk
visits the layer ends `Init` with `layer_need_backward_` false and with every
entry of its row of `bottom_need_backward_` false, and the names of its
bottoms are in `blobs_skip_backp` from that visit on, for every layer the walk
visits afterwards. -/
theorem C10_no_loss_layer_skips_backward (CreateLayer : LayerParameter → Layer)
    (InsertSplits : NetParameter → NetParameter) (in_param filtered : NetParameter)
    (w : Wiring) (result : Net) (layer_id : Nat)
    (hf : FilterNet in_param = .ok filtered)
    (hw : Init.wire CreateLayer (InsertSplits filtered) in_param.state.phase = .ok w)
    (hinit : Init CreateLayer InsertSplits in_param = .ok result)
    (hfb : (InsertSplits filtered).force_backward = false)
    (hl : layer_id < (InsertSplits filtered).layer.length)
    (hno : ∀ t, t < (result.top_id_vecs_.getD layer_id []).length →
      (result.layers_.getD layer_id default).loss t = 0 ∧
        result.top_name layer_id t ∉
          (Init.walk w.net
            ((InsertSplits filtered).layer.length - 1 - layer_id)).blobs_under_loss) :
    result.layer_need_backward_[layer_id]? = some false ∧
      (result.bottom_need_backward_.getD layer_id []).length =
        num_bottom (InsertSplits filtered) layer_id ∧
      (∀ b, b < num_bottom (InsertSplits filtered) layer_id →
        (result.bottom_need_backward_.getD layer_id [])[b]? = some false) ∧
      ∀ visited, (InsertSplits filtered).layer.length - 1 - layer_id < visited →
        visited ≤ (InsertSplits filtered).layer.length →
        ∀ b, b < num_bottom (InsertSplits filtered) layer_id →
          result.bottom_name layer_id b ∈ (Init.walk w.net visited).blobs_skip_backp := by
  obtain ⟨w', hw', _, hW, hg, _, _, _, hflags⟩ := Init_wired _ _ _ _ _ hf hinit
  rw [hw] at hw'
  injection hw' with hw'
  subst hw'
  obtain ⟨_, g2, g3, _, g5, _⟩ := graph_fields hg
  have hfl := hflags hfb
  have hn : w.net.layers_.length = (InsertSplits filtered).layer.length := hW.layers_len
  have f1 : result.layer_need_backward_ =
      (Init.walk w.net w.net.layers_.length).net.layer_need_backward_ :=
    congrArg (fun x => x.1) hfl
  have f2 : result.bottom_need_backward_ =
      (Init.walk w.net w.net.layers_.length).net.bottom_need_backward_ :=
    congrArg (fun x => x.2.1) hfl
  have f4 : result.layers_ = (Init.walk w.net w.net.layers_.length).net.layers_ :=
    congrArg (fun x => x.2.2.2) hfl
  have hlay : result.layers_ = w.net.layers_ :=
    f4.trans (congrArg (fun x => x.1) (graph_walk w.net w.net.layers_.length).2)
  have hbv : w.net.bottom_vecs_.getD layer_id [] = w.core.bottoms layer_id := by
    show w.net.bottom_vecs_.getD layer_id [] = w.net.bottom_id_vecs_.getD layer_id []
    have : w.net.bottom_vecs_ = w.net.bottom_id_vecs_ := hW.inv.ptr_bottom
    rw [this]
  have htv : w.net.top_vecs_ = w.net.top_id_vecs_ := hW.inv.ptr_top
  have hblen : (w.net.bottom_vecs_.getD layer_id []).length =
      num_bottom (InsertSplits filtered) layer_id := by
    rw [hbv]
    exact hW.stage.done_bottom layer_id hl
  have hrow : (w.net.bottom_need_backward_.getD layer_id []).length =
      (w.net.bottom_vecs_.getD layer_id []).length := by
    rw [hbv]
    exact hW.inv.bnb_len layer_id
  have hname : ∀ b, result.bottom_name layer_id b = w.net.bottom_name layer_id b := by
    intro b
    unfold Net.bottom_name
    rw [g2, g5]
  have key := walk_after_no_loss w.net layer_id (by rw [hn]; exact hl)
    (by rw [hW.lnb_len, hn]) (by rw [hn]; exact hW.stage.len_bnb) hrow
    (by
      intro t ht
      rw [htv, ← g3] at ht
      have := hno t ht
      rw [hlay] at this
      have hn' : result.top_name layer_id t = w.net.top_name layer_id t := by
        unfold Net.top_name
        rw [g2, g3]
      rw [hn', ← hn] at this
      exact this)
  have hfinal := key w.net.layers_.length (by omega) (Nat.le_refl _)
  refine ⟨?_, ?_, ?_, ?_⟩
  · rw [f1]
    exact hfinal.1
  · rw [f2, (walk_shape w.net w.net.layers_.length).2.2 layer_id, hrow, hblen]
  · intro b hb
    rw [f2]
    exact (hfinal.2 b (by rw [hblen]; exact hb)).1
  · intro visited hv hvn b hb
    rw [hname]
    exact ((key visited (by rw [hn]; exact hv) (by rw [hn]; exact hvn)).2 b
      (by rw [hblen]; exact hb)).2

/-- C10 on `walk_example`: the layer "side" needs backward after the wiring
(it has a parameter), its top "d" reaches no loss, and `Init` ends with its
flags cleared and its bottom "c" in `blobs_skip_backp`. -/
theorem C10_witness :
    ∃ w result, Init.wire param_factory walk_example .TEST = .ok w ∧
      Init param_factory id walk_example = .ok result ∧
      w.net.layer_need_backward_[0]? = some true ∧
      result.layer_need_backward_[0]? = some false ∧
      (result.bottom_need_backward_.getD 0 [])[0]? = some false ∧
      result.bottom_name 0 0 ∈ (Init.walk w.net 2).blobs_skip_backp := by
  obtain ⟨w, hw, hp⟩ := of_returns_with (Init.wire param_factory walk_example .TEST)
    (fun w => decide (w.net.layer_need_backward_[0]? = some true) &&
      returns_with (Init.finish walk_example w)
        (fun r => decide (∀ t, t < (r.top_id_vecs_.getD 0 []).length →
          (r.layers_.getD 0 default).loss t = 0 ∧
            r.top_name 0 t ∉ (Init.walk w.net (2 - 1 - 0)).blobs_under_loss)))
    (by decide)
  obtain ⟨hp1, hp2⟩ := Bool.and_eq_true_iff.1 hp
  obtain ⟨result, hfin, hq⟩ := of_returns_with _ _ hp2
  have hinit : Init param_factory id walk_example = .ok result :=
    Init_of_parts param_factory id walk_example walk_example w result (by decide) hw hfin
  obtain ⟨h1, _, h3, h4⟩ := C10_no_loss_layer_skips_backward param_factory id walk_example
    walk_example w result 0 (by decide) hw hinit (by decide) (by decide)
    (of_decide_eq_true hq)
  exact ⟨w, result, hw, hinit, of_decide_eq_true hp1, h1, h3 0 (by decide),
    h4 2 (by decide) (by decide) 0 (by decide)⟩

/-- C6 fails as stated: in the net `Init` builds from `automatic_example` the
declared top name "(automatic)" is the name of two entries of the blob
table. -/
theorem C6_counterexample :
    "(automatic)" ∈ (automatic_example.layer.getD 0 default).top ∧
      ∃ result, Init param_factory id automatic_example = .ok result ∧
        result.blob_names_ = ["a", "(automatic)", "(automatic)"] ∧
        result.blob_names_.count "(automatic)" = 2 := by
  refine ⟨by decide, ?_⟩
  obtain ⟨result, h, hp⟩ := of_returns_with (Init param_factory id automatic_example)
    (fun r => decide (r.blob_names_ = ["a", "(automatic)", "(automatic)"] ∧
      r.blob_names_.count "(automatic)" = 2)) (by decide)
  exact ⟨result, h, of_decide_eq_true hp⟩

/-- C6, amended: in every net `Init` returns, a declared blob name (a declared
input or a declared top of a layer) is the name of exactly one allocating
declaration (a declared input, or a declared top that is not in place); the
entry of the blob table recorded for that declaration bears the name, no
other allocating declaration has that entry, and every other entry of the
blob table that bears the name is the blob of an anonymous top. -/
theorem C6_one_source_per_declared_name (CreateLayer : LayerParameter → Layer)
    (InsertSplits : NetParameter → NetParameter) (in_param filtered : NetParameter)
    (result : Net) (n : String) (hf : FilterNet in_param = .ok filtered)
    (hinit : Init CreateLayer InsertSplits in_param = .ok result)
    (hdecl : n ∈ (InsertSplits filtered).input ∨
      ∃ l, l < (InsertSplits filtered).layer.length ∧
        n ∈ ((InsertSplits filtered).layer.getD l default).top) :
    ∃ (src : Source) (i : Nat),
      src.declared (InsertSplits filtered) ∧ src.name (InsertSplits filtered) = n ∧
      src.blob result = some i ∧ i < result.blobs_.length ∧
      result.blob_names_[i]? = some n ∧
      (∀ src' : Source, src'.declared (InsertSplits filtered) →
        src'.name (InsertSplits filtered) = n → src' = src) ∧
      (∀ src' : Source, src'.declared (InsertSplits filtered) →
        src'.blob result = some i → src' = src) ∧
      ∀ j, result.blob_names_[j]? = some n → j ≠ i →
        anonymous_top (InsertSplits filtered) result j := by
  obtain ⟨w, _, _, hW, hg, _⟩ := Init_wired _ _ _ _ _ hf hinit
  obtain ⟨g1, g2, g3, _, _, _, g7, _⟩ := graph_fields hg
  have hI := hW.inv
  have hS := hW.stage
  -- every declaration of the specification has a recorded entry, mapped to its name
  have hin : ∀ k, k < (InsertSplits filtered).input.length →
      ∃ i, w.core.net_input_blob_indices_[k]? = some i ∧
        StdMap.find w.core.blob_name_to_idx (AppendTop.name (InsertSplits filtered) (-1) k) =
          some i := by
    intro k hk
    have hk' : k < w.core.net_input_blob_indices_.length := by
      rw [hW.inputs_len]
      exact hk
    exact ⟨_, List.getElem?_eq_getElem hk', hI.input_named k _ (List.getElem?_eq_getElem hk')⟩
  have htop : ∀ l t, l < (InsertSplits filtered).layer.length →
      t < num_top (InsertSplits filtered) l →
      ∃ i, (w.core.tops l)[t]? = some i ∧
        StdMap.find w.core.blob_name_to_idx (AppendTop.name (InsertSplits filtered) l t) =
          some i := by
    intro l t hl ht
    have ht' : t < (w.core.tops l).length := lt_of_lt_of_le ht (hS.done_top l hl)
    exact ⟨_, List.getElem?_eq_getElem ht',
      hI.top_named l t _ (List.getElem?_eq_getElem ht') ht⟩
  -- the name is mapped
  obtain ⟨i, hi⟩ : ∃ i, StdMap.find w.core.blob_name_to_idx n = some i := by
    rcases hdecl with h | ⟨l, hl, h⟩
    · obtain ⟨k, hk, hkn⟩ := List.getElem_of_mem h
      obtain ⟨i, _, h2⟩ := hin k hk
      refine ⟨i, ?_⟩
      rw [AppendTop.name_input, List.getD_eq_getElem _ _ hk, hkn] at h2
      exact h2
    · obtain ⟨t, ht, htn⟩ := List.getElem_of_mem h
      obtain ⟨i, _, h2⟩ := htop l t hl ht
      refine ⟨i, ?_⟩
      rw [AppendTop.name_of_lt ht, List.getD_eq_getElem _ _ ht, htn] at h2
      exact h2
  obtain ⟨hilt, hiname⟩ := hI.map_sound n i hi
  -- a declaration with the name n, or with the entry i, has both
  have hsame : ∀ src' : Source, src'.declared (InsertSplits filtered) →
      (src'.name (InsertSplits filtered) = n ∨ src'.blob result = some i) →
      src'.blob result = some i ∧ src'.name (InsertSplits filtered) = n := by
    intro src' hd hor
    cases src' with
    | input k =>
      obtain ⟨i', h1, h2⟩ := hin k hd
      rcases hor with hname | hblob
      · have hname' : AppendTop.name (InsertSplits filtered) (-1) k = n := hname
        rw [hname', hi] at h2
        injection h2 with h2
        subst h2
        refine ⟨?_, hname⟩
        show result.net_input_blob_indices_[k]? = some i
        rw [g7]
        exact h1
      · have hblob' : result.net_input_blob_indices_[k]? = some i := hblob
        rw [g7] at hblob'
        have hb'' : w.core.net_input_blob_indices_[k]? = some i := hblob'
        rw [h1] at hb''
        injection hb'' with hb''
        subst hb''
        refine ⟨hblob, ?_⟩
        have := (hI.map_sound _ _ h2).2
        rw [hiname] at this
        injection this with this
        exact this.symm
    | top l t =>
      obtain ⟨hl, ht, _⟩ := hd
      obtain ⟨i', h1, h2⟩ := htop l t hl ht
      rcases hor with hname | hblob
      · have hname' : AppendTop.name (InsertSplits filtered) l t = n := hname
        rw [hname', hi] at h2
        injection h2 with h2
        subst h2
        refine ⟨?_, hname⟩
        show (result.top_id_vecs_.getD l [])[t]? = some i
        rw [g3]
        exact h1
      · have hblob' : (result.top_id_vecs_.getD l [])[t]? = some i := hblob
        rw [g3] at hblob'
        have hb'' : (w.core.tops l)[t]? = some i := hblob'
        rw [h1] at hb''
        injection hb'' with hb''
        subst hb''
        refine ⟨hblob, ?_⟩
        have := (hI.map_sound _ _ h2).2
        rw [hiname] at this
        injection this with this
        exact this.symm
  -- two allocating declarations with the same entry are the same
  have hinj : ∀ src src' : Source, src.declared (InsertSplits filtered) →
      src'.declared (InsertSplits filtered) → src.blob result = some i →
      src'.blob result = some i → src' = src := by
    intro src src' hd hd' hb hb'
    cases src with
    | input k =>
      have hb1 : w.core.net_input_blob_indices_[k]? = some i := by
        have : result.net_input_blob_indices_[k]? = some i := hb
        rw [g7] at this
        exact this
      cases src' with
      | input k' =>
        have hb2 : w.core.net_input_blob_indices_[k']? = some i := by
          have : result.net_input_blob_indices_[k']? = some i := hb'
          rw [g7] at this
          exact this
        rw [hI.alloc_inputs k' k i hb2 hb1]
      | top l' t' =>
        have hb2 : (w.core.tops l')[t']? = some i := by
          have : (result.top_id_vecs_.getD l' [])[t']? = some i := hb'
          rw [g3] at this
          exact this
        exact absurd (Or.inr hd'.2.2) (fun ha => hI.alloc_input_top k l' t' i hb1 hb2 ha)
    | top l t =>
      have hb1 : (w.core.tops l)[t]? = some i := by
        have : (result.top_id_vecs_.getD l [])[t]? = some i := hb
        rw [g3] at this
        exact this
      cases src' with
      | input k' =>
        have hb2 : w.core.net_input_blob_indices_[k']? = some i := by
          have : result.net_input_blob_indices_[k']? = some i := hb'
          rw [g7] at this
          exact this
        exact absurd (Or.inr hd.2.2) (fun ha => hI.alloc_input_top k' l t i hb2 hb1 ha)
      | top l' t' =>
        have hb2 : (w.core.tops l')[t']? = some i := by
          have : (result.top_id_vecs_.getD l' [])[t']? = some i := hb'
          rw [g3] at this
          exact this
        obtain ⟨e1, e2⟩ := hI.alloc_tops l' t' l t i hb2 hb1 (Or.inr hd'.2.2) (Or.inr hd.2.2)
        rw [e1, e2]
  -- the declaration the entry comes from
  obtain ⟨src, hsd, hsb⟩ : ∃ src : Source, src.declared (InsertSplits filtered) ∧
      src.blob result = some i := by
    rcases hI.origin n i hi with ⟨k, hk⟩ | ⟨l, t, h1, h2, h3⟩
    · refine ⟨.input k, ?_, ?_⟩
      · have hk' : k < w.core.net_input_blob_indices_.length := by
          by_contra hn
          rw [List.getElem?_eq_none (by omega)] at hk
          cases hk
        show k < (InsertSplits filtered).input.length
        exact lt_of_lt_of_le hk' hI.input_len
      · show result.net_input_blob_indices_[k]? = some i
        rw [g7]
        exact hk
    · refine ⟨.top l t, ⟨?_, h2, h3⟩, ?_⟩
      · by_contra hn
        have hnil : w.core.tops l = [] := by
          show w.core.top_id_vecs_.getD l [] = []
          rw [List.getD_eq_default _ _ (by rw [hS.len_top]; omega)]
        rw [hnil] at h1
        simp at h1
      · show (result.top_id_vecs_.getD l [])[t]? = some i
        rw [g3]
        exact h1
  refine ⟨src, i, hsd, (hsame src hsd (Or.inr hsb)).2, hsb, ?_, ?_, ?_, ?_, ?_⟩
  · rw [g1]
    exact hilt
  · rw [g2]
    exact hiname
  · intro src' hd' hn'
    exact hinj src src' hsd hd' hsb (hsame src' hd' (Or.inl hn')).1
  · intro src' hd' hb'
    exact hinj src src' hsd hd' hsb hb'
  · intro j hj hji
    rw [g2] at hj
    have hjlt : j < w.core.blob_count := by
      by_contra hn
      have : w.core.blob_names_[j]? = none :=
        List.getElem?_eq_none (by rw [hI.names_len]; omega)
      have hj' : w.core.blob_names_[j]? = some n := hj
      rw [this] at hj'
      cases hj'
    rcases hI.cover j hjlt with ⟨n', hn'⟩ | ⟨l, t, hge, ht⟩
    · exfalso
      have h1 := (hI.map_sound n' j hn').2
      have hj' : w.core.blob_names_[j]? = some n := hj
      rw [hj'] at h1
      injection h1 with h1
      rw [← h1, hi] at hn'
      injection hn' with hn'
      exact hji hn'.symm
    · refine ⟨l, t, hge, ?_⟩
      rw [g3]
      exact ht

/-- C6, amended, on `automatic_example`: the declared top name "(automatic)"
comes from the top of layer 0 alone, which has entry 1 of the blob table. -/
theorem C6_witness :
    ∃ result, Init param_factory id automatic_example = .ok result ∧
      ∃ (src : Source) (i : Nat),
        src.declared automatic_example ∧ src.name automatic_example = "(automatic)" ∧
        src.blob result = some i ∧ i < result.blobs_.length ∧
        result.blob_names_[i]? = some "(automatic)" ∧
        (∀ src' : Source, src'.declared automatic_example →
          src'.name automatic_example = "(automatic)" → src' = src) ∧
        (∀ src' : Source, src'.declared automatic_example →
          src'.blob result = some i → src' = src) ∧
        ∀ j, result.blob_names_[j]? = some "(automatic)" → j ≠ i →
          anonymous_top automatic_example result j := by
  obtain ⟨result, h⟩ := Except.ok_of_toBool (Init param_factory id automatic_example)
    (by decide)
  exact ⟨result, h,
    C6_one_source_per_declared_name param_factory id automatic_example automatic_example
      result "(automatic)" (by decide) h (Or.inr ⟨0, by decide, by decide⟩)⟩

/-! ## The backward flags the layer loop sets -/

theorem Net.need_grows_refl (net : Net) : net.need_grows net :=
  ⟨rfl, rfl, rfl, fun _ _ h => h⟩

theorem Net.need_grows_trans {a b c : Net} (h : a.need_grows b) (h' : b.need_grows c) :
    a.need_grows c :=
  ⟨h'.1.trans h.1, h'.2.1.trans h.2.1, h'.2.2.1.trans h.2.2.1,
    fun i v hv => h'.2.2.2 i v (h.2.2.2 i v hv)⟩

theorem FlagInv.of_need_grows {net net' : Net} (hI : FlagInv net) (h : net.need_grows net') :
    FlagInv net' := by
  obtain ⟨h1, h2, h3, h4⟩ := h
  refine ⟨?_, ?_, ?_, ?_⟩
  · rw [h1, h2]; exact hI.outer
  · intro l; rw [h1, h2]; exact hI.rows l
  · intro l b i hi hb
    rw [h1] at hi
    rw [h2] at hb
    exact h4 i true (hI.blob l b i hi hb)
  · intro l b hl
    rw [h3] at hl
    rw [h2]
    exact hI.layer l b hl

theorem need_normal_output (net : Net) (param : NetParameter) (layer_id : Int) (top_id : Nat)
    (blob_name : String) :
    net.need_grows (AppendTop.normal_output net param layer_id top_id blob_name) := by
  have hb := normal_output_blob_need_backward net param layer_id top_id blob_name
  refine ⟨?_, ?_, ?_, ?_⟩
  · unfold AppendTop.normal_output
    dsimp only
    split <;> rfl
  · unfold AppendTop.normal_output
    dsimp only
    split <;> rfl
  · unfold AppendTop.normal_output
    dsimp only
    split <;> rfl
  · intro i v hv
    rw [hb]
    exact getElem?_append_of_lt _ _ _ _ hv

theorem need_AppendTop (net : Net) (param : NetParameter) (layer_id : Int) (top_id : Nat)
    (a : Option StdSet) (m : Option StdMap) (r : Net × Option StdSet × Option StdMap)
    (h : AppendTop net param layer_id top_id a m = .ok r) : net.need_grows r.1 := by
  unfold AppendTop at h
  dsimp only at h
  split at h
  · split at h
    · injection h with h
      subst h
      exact ⟨rfl, rfl, rfl, fun _ _ h => h⟩
    · split at h
      · cases h
      · injection h with h
        subst h
        exact need_normal_output _ _ _ _ _
  · injection h with h
    subst h
    exact need_normal_output _ _ _ _ _

theorem need_call_AppendTop (param : NetParameter) (layer_id : Int) (top_id : Nat)
    (named : Bool) (w w' : Wiring)
    (h : Init.call_AppendTop param layer_id top_id named w = .ok w') :
    w.net.need_grows w'.net := by
  unfold Init.call_AppendTop at h
  obtain ⟨r, hr, rfl⟩ := Except.map_eq_ok h
  exact need_AppendTop _ _ _ _ _ _ _ hr

theorem need_tops (param : NetParameter) (k : Nat) (w w' : Wiring)
    (h : Init.tops param k w = .ok w') : w.net.need_grows w'.net := by
  unfold Init.tops at h
  refine forRange_induction (fun (_ : Nat) (t : Wiring) => w.net.need_grows t.net)
    _ _ _ _ (Net.need_grows_refl _) ?_ h
  intro i t t' _ ht hstep
  exact Net.need_grows_trans ht (need_call_AppendTop _ _ _ _ _ _ hstep)

theorem need_auto_tops (param : NetParameter) (k : Nat) (w w' : Wiring)
    (h : Init.auto_tops param k w = .ok w') : w.net.need_grows w'.net := by
  unfold Init.auto_tops at h
  dsimp only at h
  split at h
  · refine forRange_induction (fun (_ : Nat) (t : Wiring) => w.net.need_grows t.net)
      _ _ _ _ (Net.need_grows_refl _) ?_ h
    intro i t t' _ ht hstep
    exact Net.need_grows_trans ht (need_call_AppendTop _ _ _ _ _ _ hstep)
  · injection h with h
    subst h
    exact Net.need_grows_refl _

theorem need_loss_weights (l : Nat) (net : Net) : net.need_grows (Init.loss_weights l net) := by
  unfold Init.loss_weights
  exact forUp_induction (fun (_ : Nat) (s : Net) => net.need_grows s) _ _ _
    (Net.need_grows_refl _) (fun i t _ h => ⟨h.1, h.2.1, h.2.2.1, h.2.2.2⟩)

theorem need_param_flags (param : NetParameter) (l : Nat) (s : Net × Bool) :
    s.1.need_grows (Init.param_flags param l s).1 := by
  unfold Init.param_flags
  exact forUp_induction (fun (_ : Nat) (t : Net × Bool) => s.1.need_grows t.1) _ _ _
    (Net.need_grows_refl _) (fun i t _ h => ⟨h.1, h.2.1, h.2.2.1, h.2.2.2⟩)

theorem need_share_lr (net net' : Net) (n : String) (ps : ParamSpec) (i : Nat)
    (h : AppendParam.share_lr net n ps i = .ok net') : net.need_grows net' := by
  unfold AppendParam.share_lr at h
  split at h
  · split at h
    · split at h
      · cases h
      · injection h with h
        subst h
        exact Net.need_grows_refl _
    · injection h with h
      subst h
      exact ⟨rfl, rfl, rfl, fun _ _ h => h⟩
  · injection h with h
    subst h
    exact Net.need_grows_refl _

theorem need_share_decay (net net' : Net) (n : String) (ps : ParamSpec) (i : Nat)
    (h : AppendParam.share_decay net n ps i = .ok net') : net.need_grows net' := by
  unfold AppendParam.share_decay at h
  split at h
  · split at h
    · split at h
      · cases h
      · injection h with h
        subst h
        exact Net.need_grows_refl _
    · injection h with h
      subst h
      exact ⟨rfl, rfl, rfl, fun _ _ h => h⟩
  · injection h with h
    subst h
    exact Net.need_grows_refl _

theorem need_shares (net net' : Net) (lp : LayerParameter) (p : Nat) (n : String)
    (ps : ParamSpec) (b : Blob) (h : AppendParam.shares net lp p n ps b = .ok net') :
    net.need_grows net' := by
  unfold AppendParam.shares at h
  dsimp only at h
  split at h
  · cases h
  · split at h
    · cases h
    · obtain ⟨net3, h3, h4⟩ := Except.bind_eq_ok h
      have e3 := need_share_lr _ _ _ _ _ h3
      have e4 := need_share_decay _ _ _ _ _ h4
      exact Net.need_grows_trans ⟨e3.1, e3.2.1, e3.2.2.1, e3.2.2.2⟩ e4

theorem need_AppendParam (net net' : Net) (param : NetParameter) (l p : Nat)
    (h : AppendParam net param l p = .ok net') : net.need_grows net' := by
  unfold AppendParam at h
  dsimp only at h
  split at h
  · injection h with h
    subst h
    exact ⟨rfl, rfl, rfl, fun _ _ h => h⟩
  · have e := need_shares _ _ _ _ _ _ _ h
    exact ⟨e.1, e.2.1, e.2.2.1, e.2.2.2⟩

theorem need_params (param : NetParameter) (l : Nat) (net net' : Net)
    (h : Init.params param l net = .ok net') : net.need_grows net' := by
  unfold Init.params at h
  refine forRange_induction (fun (_ : Nat) (s : Net) => net.need_grows s)
    _ _ _ _ (Net.need_grows_refl _) ?_ h
  intro i t t' _ ht hstep
  exact Net.need_grows_trans ht (need_AppendParam _ _ _ _ _ hstep)

theorem getElem?_set_true (xs : List Bool) (i j : Nat) (h : xs[i]? = some true) :
    (xs.set j true)[i]? = some true := by
  rw [List.getElem?_set]
  split
  · rename_i hji
    subst hji
    split
    · rfl
    · rename_i hlt
      rw [List.getElem?_eq_none (by omega)] at h
      cases h
  · exact h

/-- The bottom loop of a layer keeps the invariant of the flags; when the
local `need_backward` is still false, no bottom flag of the layer is set. -/
theorem bottoms_flags (param : NetParameter) (k : Nat) (s s' : Wiring × Bool)
    (hk : k < s.1.net.bottom_id_vecs_.length)
    (hlen : s.1.net.layer_need_backward_.length ≤ k)
    (hI : FlagInv s.1.net)
    (hloc : s.2 = false → ∀ b : Nat, (s.1.net.bottom_need_backward_.getD k [])[b]? ≠ some true)
    (h : Init.bottoms param k s = .ok s') :
    FlagInv s'.1.net ∧
      s'.1.net.bottom_id_vecs_.length = s.1.net.bottom_id_vecs_.length ∧
      s'.1.net.layer_need_backward_ = s.1.net.layer_need_backward_ ∧
      (s'.2 = false →
        ∀ b : Nat, (s'.1.net.bottom_need_backward_.getD k [])[b]? ≠ some true) ∧
      ∀ l, l ≠ k → s'.1.net.bottom_id_vecs_.getD l [] = s.1.net.bottom_id_vecs_.getD l [] := by
  unfold Init.bottoms at h
  refine forRange_induction
    (fun (_ : Nat) (t : Wiring × Bool) => FlagInv t.1.net ∧
      t.1.net.bottom_id_vecs_.length = s.1.net.bottom_id_vecs_.length ∧
      t.1.net.layer_need_backward_ = s.1.net.layer_need_backward_ ∧
      (t.2 = false → ∀ b : Nat, (t.1.net.bottom_need_backward_.getD k [])[b]? ≠ some true) ∧
      ∀ l, l ≠ k → t.1.net.bottom_id_vecs_.getD l [] = s.1.net.bottom_id_vecs_.getD l [])
    _ _ _ _ ⟨hI, rfl, rfl, hloc, fun _ _ => rfl⟩ ?_ h
  intro b t t' _ ht hstep
  obtain ⟨tI, tlen, tlnb, tloc, trow⟩ := ht
  obtain ⟨r, hr, rfl⟩ := Except.map_eq_ok hstep
  by_cases hmem : AppendBottom.blob_name param k b ∈ t.1.available_blobs
  · rw [AppendBottom_ok _ _ _ _ _ _ hmem] at hr
    injection hr with hr
    subst hr
    dsimp only
    have hk1 : k < t.1.net.bottom_id_vecs_.length := by rw [tlen]; exact hk
    have hk2 : k < t.1.net.bottom_need_backward_.length := by rw [tI.outer]; exact hk1
    generalize (StdMap.index t.1.blob_name_to_idx (AppendBottom.blob_name param k b)).1 = i
    generalize (if (param.layer.getD k default).propagate_down.length > 0 then
      (param.layer.getD k default).propagate_down.getD b true else true) = pd
    refine ⟨⟨?_, ?_, ?_, ?_⟩, ?_, tlnb, ?_, ?_⟩
    · show (pushAt _ _ _).length = (pushAt _ _ _).length
      rw [length_pushAt, length_pushAt]
      exact tI.outer
    · intro l
      show ((pushAt _ _ _).getD l []).length = ((pushAt _ _ _).getD l []).length
      rw [length_getD_pushAt _ _ _ hk1, length_getD_pushAt _ _ _ hk2, tI.rows l, tI.rows k]
    · intro l b' j hj hb'
      show t.1.net.blob_need_backward_[j]? = some true
      have hj' := (getElem?_pushAt _ _ _ hk1 l b' j).1 hj
      have hb'' := (getElem?_pushAt _ _ _ hk2 l b' true).1 hb'
      rcases hj' with hj' | ⟨e1, e2, e3⟩
      · rcases hb'' with hb'' | ⟨f1, f2, f3⟩
        · exact tI.blob l b' j hj' hb''
        · subst f1
          have := (List.getElem?_eq_some_iff.1 hj').1
          rw [f2, tI.rows l] at this
          omega
      · subst e1
        rcases hb'' with hb'' | ⟨f1, f2, f3⟩
        · have := (List.getElem?_eq_some_iff.1 hb'').1
          rw [e2, tI.rows l] at this
          omega
        · subst e3
          have hg : t.1.net.blob_need_backward_.getD j false = true := by
            cases hg : t.1.net.blob_need_backward_.getD j false with
            | true => rfl
            | false => rw [hg] at f3; simp at f3
          rw [List.getD_eq_getElem?_getD] at hg
          cases hq : t.1.net.blob_need_backward_[j]? with
          | none => rw [hq] at hg; simp at hg
          | some v =>
            rw [hq] at hg
            simp only [Option.getD_some] at hg
            rw [hg]
    · intro l b' hl
      show ((pushAt _ _ _).getD l [])[b']? ≠ some true
      intro hb'
      have hb'' := (getElem?_pushAt _ _ _ hk2 l b' true).1 hb'
      rcases hb'' with hb'' | ⟨f1, f2, f3⟩
      · exact tI.layer l b' hl hb''
      · subst f1
        have hl' : l < t.1.net.layer_need_backward_.length :=
          (List.getElem?_eq_some_iff.1 hl).1
        rw [tlnb] at hl'
        omega
    · show (pushAt _ _ _).length = _
      rw [length_pushAt]
      exact tlen
    · intro hfalse b' hb'
      have hfalse' : (t.2 || t.1.net.blob_need_backward_.getD i false) = false := hfalse
      rw [Bool.or_eq_false_iff] at hfalse'
      have hb'' := (getElem?_pushAt _ _ _ hk2 k b' true).1 hb'
      rcases hb'' with hb'' | ⟨_, _, f3⟩
      · exact tloc hfalse'.1 b' hb''
      · rw [hfalse'.2] at f3
        simp at f3
    · intro l hl
      show (pushAt _ _ _).getD l [] = _
      rw [getD_pushAt _ _ _ _ hk1, if_neg hl]
      exact trow l hl
  · rw [AppendBottom_error _ _ _ _ _ _ hmem] at hr
    cases hr

theorem param_flags_local (param : NetParameter) (l : Nat) (s : Net × Bool)
    (h : (Init.param_flags param l s).2 = false) : s.2 = false := by
  revert h
  unfold Init.param_flags
  exact forUp_induction (fun (_ : Nat) (t : Net × Bool) => t.2 = false → s.2 = false) _ _ _
    (fun h => h) (fun i t _ ih h => ih (by
      have h' : (t.2 || _) = false := h
      rw [Bool.or_eq_false_iff] at h'
      exact h'.1))

/-- The end of the layer loop body on the flags: the flag of the layer is
appended, the bottoms are left alone, and a blob flag that is set stays
set. -/
theorem set_need_backward_flags (l : Nat) (nb : Bool) (net : Net) :
    (Init.set_need_backward l nb net).bottom_id_vecs_ = net.bottom_id_vecs_ ∧
      (Init.set_need_backward l nb net).bottom_need_backward_ = net.bottom_need_backward_ ∧
      (Init.set_need_backward l nb net).layer_need_backward_ =
        net.layer_need_backward_ ++ [nb] ∧
      (Init.set_need_backward l nb net).blob_need_backward_.length =
        net.blob_need_backward_.length ∧
      ∀ i : Nat, net.blob_need_backward_[i]? = some true →
        (Init.set_need_backward l nb net).blob_need_backward_[i]? = some true := by
  unfold Init.set_need_backward
  dsimp only
  split
  · refine forUp_induction
      (fun (_ : Nat) (t : Net) => t.bottom_id_vecs_ = net.bottom_id_vecs_ ∧
        t.bottom_need_backward_ = net.bottom_need_backward_ ∧
        t.layer_need_backward_ = net.layer_need_backward_ ++ [nb] ∧
        t.blob_need_backward_.length = net.blob_need_backward_.length ∧
        ∀ i : Nat, net.blob_need_backward_[i]? = some true →
          t.blob_need_backward_[i]? = some true)
      _ _ _ ⟨rfl, rfl, rfl, rfl, fun _ h => h⟩ ?_
    intro i t _ h
    refine ⟨h.1, h.2.1, h.2.2.1, ?_, ?_⟩
    · show (t.blob_need_backward_.set _ true).length = _
      rw [List.length_set]
      exact h.2.2.2.1
    · intro j hj
      exact getElem?_set_true _ _ _ (h.2.2.2.2 j hj)
  · exact ⟨rfl, rfl, rfl, rfl, fun _ h => h⟩

/-- The body of the layer loop keeps the invariant of the flags. -/
theorem layer_flags (CreateLayer : LayerParameter → Layer) (param : NetParameter)
    (k : Nat) (w w' : Wiring) (hk : k < w.net.bottom_id_vecs_.length)
    (hlen : w.net.layer_need_backward_.length = k) (hI : FlagInv w.net)
    (hrest : ∀ l, k ≤ l → w.net.bottom_id_vecs_.getD l [] = [])
    (h : Init.layer CreateLayer param k w = .ok w') :
    FlagInv w'.net ∧ w'.net.bottom_id_vecs_.length = w.net.bottom_id_vecs_.length ∧
      w'.net.layer_need_backward_.length = k + 1 ∧
      ∀ l, k + 1 ≤ l → w'.net.bottom_id_vecs_.getD l [] = [] := by
  unfold Init.layer at h
  dsimp only at h
  split at h
  · cases h
  · obtain ⟨s2, h2, h⟩ := Except.bind_eq_ok h
    obtain ⟨w3, h3, h⟩ := Except.bind_eq_ok h
    obtain ⟨w4, h4, h⟩ := Except.bind_eq_ok h
    split at h
    · cases h
    · obtain ⟨net7, h7, h⟩ := Except.bind_eq_ok h
      injection h with h
      subst h
      have hI1 : FlagInv
          { w.net with
            layers_ := w.net.layers_ ++
              [CreateLayer (Init.inherit_phase (param.layer.getD k default) w.net.phase_)]
            layer_names_ := w.net.layer_names_ ++
              [(Init.inherit_phase (param.layer.getD k default) w.net.phase_).name] } :=
        ⟨hI.outer, hI.rows, hI.blob, hI.layer⟩
      have hempty : ∀ b : Nat, (w.net.bottom_need_backward_.getD k [])[b]? ≠ some true := by
        intro b hb
        have hlt := (List.getElem?_eq_some_iff.1 hb).1
        rw [hI.rows k, hrest k (Nat.le_refl _)] at hlt
        exact absurd hlt (Nat.not_lt_zero _)
      obtain ⟨b1, b2, b3, b4, b5⟩ := bottoms_flags param k _ s2 hk (Nat.le_of_eq hlen) hI1
        (fun _ => hempty) h2
      have g3 := need_tops _ _ _ _ h3
      have g4 := need_auto_tops _ _ _ _ h4
      have g5 := need_loss_weights k w4.net
      have g6 := need_param_flags param k (Init.loss_weights k w4.net, s2.2)
      have g7 := need_params _ _ _ _ h7
      have g := Net.need_grows_trans (Net.need_grows_trans (Net.need_grows_trans
        (Net.need_grows_trans g3 g4) g5) g6) g7
      have hI7 := b1.of_need_grows g
      obtain ⟨q1, q2, q3, q4, q5⟩ := set_need_backward_flags k
        (Init.param_flags param k (Init.loss_weights k w4.net, s2.2)).2 net7
      have hlen7 : net7.layer_need_backward_.length = k := by
        rw [g.2.2.1, b3]
        exact hlen
      refine ⟨⟨?_, ?_, ?_, ?_⟩, ?_, ?_, ?_⟩
      · show (Init.set_need_backward _ _ _).bottom_need_backward_.length =
          (Init.set_need_backward _ _ _).bottom_id_vecs_.length
        rw [q1, q2]
        exact hI7.outer
      · intro l
        show ((Init.set_need_backward _ _ _).bottom_need_backward_.getD l []).length =
          ((Init.set_need_backward _ _ _).bottom_id_vecs_.getD l []).length
        rw [q1, q2]
        exact hI7.rows l
      · intro l b i hi hb
        show (Init.set_need_backward _ _ _).blob_need_backward_[i]? = some true
        have hi' : (net7.bottom_id_vecs_.getD l [])[b]? = some i := by rw [← q1]; exact hi
        have hb' : (net7.bottom_need_backward_.getD l [])[b]? = some true := by
          rw [← q2]; exact hb
        exact q5 i (hI7.blob l b i hi' hb')
      · intro l b hl
        show ((Init.set_need_backward _ _ _).bottom_need_backward_.getD l [])[b]? ≠ some true
        have hl' : (net7.layer_need_backward_ ++
            [(Init.param_flags param k (Init.loss_weights k w4.net, s2.2)).2])[l]? =
            some false := by rw [← q3]; exact hl
        rw [q2]
        rcases (getElem?_append_singleton _ _ _ _).1 hl' with hl' | ⟨e1, e2⟩
        · exact hI7.layer l b hl'
        · rw [hlen7] at e1
          subst e1
          rw [g.2.1]
          exact b4 (param_flags_local _ _ _ e2.symm) b
      · show (Init.set_need_backward _ _ _).bottom_id_vecs_.length = _
        rw [q1, g.1]
        exact b2
      · show (Init.set_need_backward _ _ _).layer_need_backward_.length = _
        rw [q3, List.length_append, hlen7]
        rfl
      · intro l hl
        show (Init.set_need_backward _ _ _).bottom_id_vecs_.getD l [] = []
        rw [q1, g.1, b5 l (by omega)]
        exact hrest l (by omega)

theorem need_inputs (param : NetParameter) (w w' : Wiring)
    (h : Init.inputs param w = .ok w') : w.net.need_grows w'.net := by
  unfold Init.inputs at h
  refine forRange_induction (fun (_ : Nat) (t : Wiring) => w.net.need_grows t.net)
    _ _ _ _ (Net.need_grows_refl _) ?_ h
  intro i t t' _ ht hstep
  exact Net.need_grows_trans ht (need_call_AppendTop _ _ _ _ _ _ hstep)

/-- The wiring ends with the flags in their invariant. -/
theorem wire_flags (CreateLayer : LayerParameter → Layer) (param : NetParameter)
    (phase_ : Phase) (w : Wiring) (h : Init.wire CreateLayer param phase_ = .ok w) :
    FlagInv w.net := by
  unfold Init.wire at h
  split at h
  · cases h
  · split at h
    · cases h
    · split at h
      · cases h
      · dsimp only at h
        obtain ⟨w1, h1, h⟩ := Except.bind_eq_ok h
        have g1 := need_inputs _ _ _ h1
        have hl1 : w1.net.layer_need_backward_ = [] := g1.2.2.1
        have key := forRange_induction
          (fun (k : Nat) (t : Wiring) => FlagInv t.net ∧
            t.net.bottom_id_vecs_.length = param.layer.length ∧
            t.net.layer_need_backward_.length = k ∧
            ∀ l, k ≤ l → t.net.bottom_id_vecs_.getD l [] = [])
          _ _ _ _ ?_ ?_ h
        · exact key.1
        · refine ⟨⟨?_, ?_, ?_, ?_⟩, ?_, ?_, ?_⟩
          · show (resized _ : List (List Bool)).length = (resized _ : List (List Nat)).length
            simp [resized]
          · intro l
            show ((resized _ : List (List Bool)).getD l []).length =
              ((resized _ : List (List Nat)).getD l []).length
            rw [getD_resized, getD_resized]
            rfl
          · intro l b i hi
            have hi' : ((resized param.layer.length : List (List Nat)).getD l [])[b]? =
                some i := hi
            rw [getD_resized] at hi'
            cases hi'
          · intro l b hl
            have hl' : w1.net.layer_need_backward_[l]? = some false := hl
            rw [hl1] at hl'
            cases hl'
          · show (resized _ : List (List Nat)).length = _
            simp [resized]
          · show w1.net.layer_need_backward_.length = 0
            rw [hl1]
            rfl
          · intro l _
            show (resized _ : List (List Nat)).getD l [] = []
            exact getD_resized _ _
        · intro k t t' hk ht hstep
          obtain ⟨t1, t2, t3, t4⟩ := ht
          obtain ⟨r1, r2, r3, r4⟩ := layer_flags CreateLayer param k t t'
            (by rw [t2]; exact hk) t3 t1 t4 hstep
          exact ⟨r1, r2.trans t2, r3, r4⟩

/-! ## The reverse walk, layer by layer -/

/-- The top loop of the reverse walk leaves `layer_skip_propagate_down` true
when the name of every top of the layer is in `blobs_skip_backp`. -/
theorem scan_tops_all_skip (s : Walk) (l : Nat) (remaining top_id : Nat) (flags : Bool × Bool)
    (hflags : flags.2 = true)
    (h : ∀ t, top_id ≤ t → t < top_id + remaining →
      s.net.top_name l t ∈ s.blobs_skip_backp) :
    (Init.scan_tops s l remaining top_id flags).2 = true := by
  induction remaining generalizing top_id flags with
  | zero => exact hflags
  | succ r ih =>
    have hn := h top_id (Nat.le_refl _) (by omega)
    have hc : StdSet.contains s.blobs_skip_backp
        (s.net.blob_names_.getD ((s.net.top_id_vecs_.getD l []).getD top_id 0) "") = true :=
      (StdSet.contains_iff _ _).2 hn
    unfold Init.scan_tops
    simp only [hc, hflags, Bool.not_true, Bool.false_eq_true, if_false, Bool.and_false]
    exact ih (top_id + 1) _ rfl (fun t ht1 ht2 => h t (by omega) (by omega))

theorem getD_false_of_getElem? (xs : List Bool) (b : Nat) (h : xs[b]? ≠ some true) :
    xs.getD b false = false := by
  rw [List.getD_eq_getElem?_getD]
  cases hx : xs[b]? with
  | none => rfl
  | some v =>
    cases v with
    | false => rfl
    | true => exact absurd hx h

theorem getElem?_of_getD_false (xs : List Bool) (b : Nat) (hb : b < xs.length)
    (h : xs.getD b false = false) : xs[b]? = some false := by
  rw [List.getD_eq_getElem _ _ hb] at h
  rw [List.getElem?_eq_getElem hb, h]

/-- The loop that clears the bottom flags of a layer (lines 229-232) leaves
no flag set among the first `n`. -/
theorem clear_rows_false (l n : Nat) (bnb0 : List (List Bool)) (hl : l < bnb0.length) :
    ∀ b, b < n →
      ((forUp n (fun bottom_id bnb => bnb.set l ((bnb.getD l []).set bottom_id false))
        bnb0).getD l []).getD b false = false := by
  have key := forUp_induction
    (fun (i : Nat) (bnb : List (List Bool)) => bnb.length = bnb0.length ∧
      ∀ b, b < i → (bnb.getD l []).getD b false = false)
    n (fun bottom_id bnb => bnb.set l ((bnb.getD l []).set bottom_id false)) bnb0
    ⟨rfl, fun b hb => absurd hb (Nat.not_lt_zero _)⟩ ?_
  · exact key.2
  · intro i bnb _ h
    refine ⟨by rw [List.length_set]; exact h.1, ?_⟩
    intro b hb
    rw [getD_set_row, if_pos ⟨rfl, by rw [h.1]; exact hl⟩]
    rw [List.getD_eq_getElem?_getD, List.getElem?_set]
    by_cases hbi : i = b
    · rw [if_pos hbi]
      split <;> rfl
    · rw [if_neg hbi, ← List.getD_eq_getElem?_getD]
      exact h.2 b (by omega)

/-- The bottom loop of the reverse walk, for a layer that contributes to the
loss and has no bottom flag set: the net is left as it is and every bottom
name is put into `blobs_skip_backp`. -/
theorem walk_bottoms_all_false (l : Nat) (s : Walk)
    (hrow : ∀ b, (s.net.bottom_need_backward_.getD l []).getD b false = false) :
    (Init.walk_bottoms l true s).net = s.net ∧
      ∀ b, b < (s.net.bottom_vecs_.getD l []).length →
        s.net.bottom_name l b ∈ (Init.walk_bottoms l true s).blobs_skip_backp := by
  unfold Init.walk_bottoms
  refine forUp_induction
    (fun (i : Nat) (t : Walk) => t.net = s.net ∧
      ∀ b, b < i → s.net.bottom_name l b ∈ t.blobs_skip_backp)
    _ _ _ ⟨rfl, fun b hb => absurd hb (Nat.not_lt_zero _)⟩ ?_
  intro i t _ h
  obtain ⟨hnet, hprev⟩ := h
  have hcond : (!((t.net.bottom_need_backward_.getD l []).getD i false)) = true := by
    rw [hnet, hrow i]
    rfl
  have hname : t.net.blob_names_.getD ((t.net.bottom_id_vecs_.getD l []).getD i 0) "" =
      s.net.bottom_name l i := by
    rw [hnet]
    rfl
  dsimp only
  simp only [if_true]
  rw [if_pos hcond, hname]
  refine ⟨hnet, ?_⟩
  intro b hb
  have hb' : b < i ∨ b = i := by omega
  rcases hb' with hb' | hb'
  · exact (StdSet.mem_insert _ _ _).2 (Or.inr (hprev b hb'))
  · subst hb'
    exact (StdSet.mem_insert _ _ _).2 (Or.inl rfl)

/-- The bottom loop of the reverse walk when the top loop found no loss
contribution, read off the outcome of the top loop. -/
theorem walk_bottoms_cleared (l : Nat) (s : Walk) (hl : l < s.net.bottom_need_backward_.length)
    (hrow : (s.net.bottom_need_backward_.getD l []).length =
      (s.net.bottom_vecs_.getD l []).length) :
    ∀ b, b < (s.net.bottom_vecs_.getD l []).length →
      ((Init.walk_bottoms l false s).net.bottom_need_backward_.getD l [])[b]? = some false ∧
      s.net.bottom_name l b ∈ (Init.walk_bottoms l false s).blobs_skip_backp := by
  intro b hb
  obtain ⟨h1, h2⟩ := walk_bottoms_no_loss l s hl b hb
  exact ⟨h1 (by rw [hrow]; exact hb), h2⟩

/-- The body of the reverse walk for layer `l`, when it leaves the flag of
the layer clear: every bottom flag of the layer is clear and the name of
every bottom is in `blobs_skip_backp`. The hypothesis `hinv` is what the
wiring guarantees of a layer whose flag was clear before the walk. -/
theorem walk_layer_skipped (l : Nat) (s : Walk)
    (hl2 : l < s.net.bottom_need_backward_.length)
    (hrow : (s.net.bottom_need_backward_.getD l []).length =
      (s.net.bottom_vecs_.getD l []).length)
    (hinv : s.net.layer_need_backward_[l]? = some false →
      ∀ b : Nat, (s.net.bottom_need_backward_.getD l [])[b]? ≠ some true)
    (hres : (Init.walk_layer l s).net.layer_need_backward_[l]? = some false) :
    ∀ b, b < (s.net.bottom_vecs_.getD l []).length →
      ((Init.walk_layer l s).net.bottom_need_backward_.getD l [])[b]? = some false ∧
      s.net.bottom_name l b ∈ (Init.walk_layer l s).blobs_skip_backp := by
  revert hres
  unfold Init.walk_layer
  dsimp only
  generalize hf : Init.scan_tops s l (s.net.top_vecs_.getD l []).length 0 (false, true) = f
  obtain ⟨f1, f2⟩ := f
  obtain ⟨cg, _⟩ := graph_clear_layer l (f1, f2) s.net
  obtain ⟨_, g2, _, _, g5, g6, _⟩ := graph_fields cg
  obtain ⟨⟨c1, c2, c3⟩, _⟩ := clear_layer_frame l (f1, f2) s.net
  have hn : ∀ b, (Init.clear_layer l (f1, f2) s.net).bottom_name l b =
      s.net.bottom_name l b := by
    intro b
    unfold Net.bottom_name
    rw [g2, g5]
  cases f1 with
  | false =>
    intro _ b hb
    have := walk_bottoms_cleared l { s with net := Init.clear_layer l (false, f2) s.net }
      (by rw [c2]; exact hl2) (by rw [c3 l, hrow, g6]) b
      (by show b < ((Init.clear_layer l _ s.net).bottom_vecs_.getD l []).length
          rw [g6]; exact hb)
    rw [hn] at this
    exact this
  | true =>
    intro hres b hb
    have hall : ∀ b, ((Init.clear_layer l (true, f2) s.net).bottom_need_backward_.getD l
        []).getD b false = false := by
      have hlnb := (walk_bottoms_frame l true
        { s with net := Init.clear_layer l (true, f2) s.net }).1
      rw [hlnb] at hres
      revert hres
      unfold Init.clear_layer
      dsimp only
      simp only [Bool.not_true, Bool.false_eq_true, if_false]
      split
      · intro _ b
        by_cases hbn : b < (s.net.bottom_vecs_.getD l []).length
        · exact clear_rows_false l _ _ hl2 b hbn
        · rw [List.getD_eq_default]
          rw [(clear_rows_shape l _ _).2.1 l, hrow]
          omega
      · intro hres b
        exact getD_false_of_getElem? _ _ (hinv hres b)
    obtain ⟨w1, w2⟩ := walk_bottoms_all_false l
      { s with net := Init.clear_layer l (true, f2) s.net } hall
    constructor
    · rw [w1]
      exact getElem?_of_getD_false _ _ (by rw [c3 l, hrow]; exact hb) (hall b)
    · have := w2 b (by show b < ((Init.clear_layer l _ s.net).bottom_vecs_.getD l []).length
                       rw [g6]; exact hb)
      rw [hn] at this
      exact this

/-- The body of the reverse walk for layer `l`, when the name of every top of
the layer is in `blobs_skip_backp`: the flag of the layer is clear
afterwards, whatever the loss weights. -/
theorem walk_layer_all_skip (l : Nat) (s : Walk)
    (hl1 : l < s.net.layer_need_backward_.length)
    (hskip : ∀ t, t < (s.net.top_vecs_.getD l []).length →
      s.net.top_name l t ∈ s.blobs_skip_backp) :
    (Init.walk_layer l s).net.layer_need_backward_[l]? = some false := by
  have hscan : (Init.scan_tops s l (s.net.top_vecs_.getD l []).length 0 (false, true)).2 =
      true :=
    scan_tops_all_skip s l _ 0 (false, true) rfl (fun t _ ht => hskip t (by omega))
  unfold Init.walk_layer
  dsimp only
  rw [(walk_bottoms_frame l _ _).1]
  generalize Init.scan_tops s l (s.net.top_vecs_.getD l []).length 0 (false, true) = f at hscan
  obtain ⟨f1, f2⟩ := f
  simp only at hscan
  subst hscan
  show (Init.clear_layer l (f1, true) s.net).layer_need_backward_[l]? = some false
  unfold Init.clear_layer
  dsimp only
  simp only [Bool.and_true]
  have hset : (s.net.layer_need_backward_.set l false)[l]? = some false := by
    rw [List.getElem?_set]
    simp [hl1]
  cases hq : s.net.layer_need_backward_.getD l false with
  | true =>
    simp only [if_true]
    split
    · show ((s.net.layer_need_backward_.set l false).set l false)[l]? = some false
      rw [List.getElem?_set]
      simp [hl1]
    · exact hset
  | false =>
    simp only [Bool.false_eq_true, if_false]
    split
    · exact hset
    · exact getElem?_of_getD_false _ _ hl1 hq

/-- The reverse walk leaves the flags of a layer alone until it visits it. -/
theorem walk_row_before (net : Net) (l : Nat) (hl : l < net.layers_.length) (v : Nat)
    (hv : v ≤ net.layers_.length - 1 - l) :
    (Init.walk net v).net.layer_need_backward_[l]? = net.layer_need_backward_[l]? ∧
      (Init.walk net v).net.bottom_need_backward_.getD l [] =
        net.bottom_need_backward_.getD l [] := by
  induction v with
  | zero => exact ⟨rfl, rfl⟩
  | succ v ih =>
    obtain ⟨i1, i2⟩ := ih (by omega)
    obtain ⟨e1, e2⟩ := (walk_layer_frame (net.layers_.length - 1 - v) (Init.walk net v)).2.1 l
      (by omega)
    exact ⟨e1.trans i1, e2.trans i2⟩

/-- The reverse walk leaves the flags of a layer alone once it has visited
it. -/
theorem walk_row_after (net : Net) (l : Nat) (hl : l < net.layers_.length) (v : Nat)
    (hv : net.layers_.length - l ≤ v) (hvn : v ≤ net.layers_.length) :
    (Init.walk net v).net.layer_need_backward_[l]? =
        (Init.walk net (net.layers_.length - l)).net.layer_need_backward_[l]? ∧
      (Init.walk net v).net.bottom_need_backward_.getD l [] =
        (Init.walk net (net.layers_.length - l)).net.bottom_need_backward_.getD l [] ∧
      ∀ x, x ∈ (Init.walk net (net.layers_.length - l)).blobs_skip_backp →
        x ∈ (Init.walk net v).blobs_skip_backp := by
  induction v with
  | zero =>
    have : net.layers_.length - l = 0 := by omega
    rw [this]
    exact ⟨rfl, rfl, fun _ h => h⟩
  | succ v ih =>
    by_cases hvl : v + 1 = net.layers_.length - l
    · rw [← hvl]
      exact ⟨rfl, rfl, fun _ h => h⟩
    · obtain ⟨i1, i2, i3⟩ := ih (by omega) (by omega)
      obtain ⟨_, f2, f3, _⟩ := walk_layer_frame (net.layers_.length - 1 - v) (Init.walk net v)
      obtain ⟨e1, e2⟩ := f2 l (by omega)
      exact ⟨e1.trans i1, e2.trans i2, fun x hx => f3 x (i3 x hx)⟩

theorem walk_succ (net : Net) (v : Nat) :
    Init.walk net (v + 1) = Init.walk_layer (net.layers_.length - 1 - v) (Init.walk net v) :=
  rfl

/-- C11 fails as stated: in the net `Init` builds from `skip_example` the
only bottom "a" of layer 0 has its flag in `bottom_need_backward_` clear and
its name in `blobs_skip_backp` when the reverse walk reaches the layer (and
ever after), but `layer_need_backward_` stays true for the layer: its top
"b", which carries a loss weight, is not in `blobs_skip_backp`. -/
theorem C11_counterexample :
    skip_example.force_backward = false ∧
    ∃ w result, Init.wire walk_factory skip_example .TEST = .ok w ∧
      Init walk_factory id skip_example = .ok result ∧
      result.bottom_id_vecs_.getD 0 [] = [0] ∧
      result.bottom_need_backward_.getD 0 [] = [false] ∧
      result.bottom_name 0 0 ∈ (Init.walk w.net 1).blobs_skip_backp ∧
      result.bottom_name 0 0 ∈ (Init.walk w.net 2).blobs_skip_backp ∧
      result.layer_need_backward_[0]? = some true := by
  refine ⟨rfl, ?_⟩
  obtain ⟨w, hw, hp⟩ := of_returns_with (Init.wire walk_factory skip_example .TEST)
    (fun w => returns_with (Init.finish skip_example w)
      (fun r => decide (r.bottom_id_vecs_.getD 0 [] = [0] ∧
        r.bottom_need_backward_.getD 0 [] = [false] ∧
        r.bottom_name 0 0 ∈ (Init.walk w.net 1).blobs_skip_backp ∧
        r.bottom_name 0 0 ∈ (Init.walk w.net 2).blobs_skip_backp ∧
        r.layer_need_backward_[0]? = some true)))
    (by decide)
  obtain ⟨result, hfin, hq⟩ := of_returns_with _ _ hp
  have hinit : Init walk_factory id skip_example = .ok result :=
    Init_of_parts walk_factory id skip_example skip_example w result (by decide) hw hfin
  exact ⟨w, result, hw, hinit, of_decide_eq_true hq⟩

/-- C11, amended: without `force_backward`, a layer the names of all of whose
tops (not bottoms) are in `blobs_skip_backp` when the reverse walk visits the
layer ends `Init` with `layer_need_backward_` false, whatever its loss
weights and `blobs_under_loss`; and a layer that ends `Init` with
`layer_need_backward_` false has every entry of its row of
`bottom_need_backward_` false and the names of all its bottoms in
`blobs_skip_backp` from its visit on. -/
theorem C11_skipped_when_tops_skippable (CreateLayer : LayerParameter → Layer)
    (InsertSplits : NetParameter → NetParameter) (in_param filtered : NetParameter)
    (w : Wiring) (result : Net) (layer_id : Nat)
    (hf : FilterNet in_param = .ok filtered)
    (hw : Init.wire CreateLayer (InsertSplits filtered) in_param.state.phase = .ok w)
    (hinit : Init CreateLayer InsertSplits in_param = .ok result)
    (hfb : (InsertSplits filtered).force_backward = false)
    (hl : layer_id < (InsertSplits filtered).layer.length) :
    ((∀ t, t < (result.top_id_vecs_.getD layer_id []).length →
        result.top_name layer_id t ∈
          (Init.walk w.net
            ((InsertSplits filtered).layer.length - 1 - layer_id)).blobs_skip_backp) →
      result.layer_need_backward_[layer_id]? = some false) ∧
    (result.layer_need_backward_[layer_id]? = some false →
      ∀ b, b < num_bottom (InsertSplits filtered) layer_id →
        (result.bottom_need_backward_.getD layer_id [])[b]? = some false ∧
        ∀ visited, (InsertSplits filtered).layer.length - 1 - layer_id < visited →
          visited ≤ (InsertSplits filtered).layer.length →
          result.bottom_name layer_id b ∈ (Init.walk w.net visited).blobs_skip_backp) := by
  obtain ⟨w', hw', _, hW, hg, _, _, _, hflags⟩ := Init_wired _ _ _ _ _ hf hinit
  rw [hw] at hw'
  injection hw' with hw'
  subst hw'
  obtain ⟨_, g2, g3, _, g5, _⟩ := graph_fields hg
  have hfl := hflags hfb
  have hF := wire_flags _ _ _ _ hw
  have hn : w.net.layers_.length = (InsertSplits filtered).layer.length := hW.layers_len
  have hln : layer_id < w.net.layers_.length := by rw [hn]; exact hl
  have f1 : result.layer_need_backward_ =
      (Init.walk w.net w.net.layers_.length).net.layer_need_backward_ :=
    congrArg (fun x => x.1) hfl
  have f2 : result.bottom_need_backward_ =
      (Init.walk w.net w.net.layers_.length).net.bottom_need_backward_ :=
    congrArg (fun x => x.2.1) hfl
  have hbv : w.net.bottom_vecs_ = w.net.bottom_id_vecs_ := hW.inv.ptr_bottom
  have htv : w.net.top_vecs_ = w.net.top_id_vecs_ := hW.inv.ptr_top
  have hblen : (w.net.bottom_vecs_.getD layer_id []).length =
      num_bottom (InsertSplits filtered) layer_id := by
    rw [hbv]
    exact hW.stage.done_bottom layer_id hl
  have hrow : (w.net.bottom_need_backward_.getD layer_id []).length =
      (w.net.bottom_vecs_.getD layer_id []).length := by
    rw [hbv]
    exact hF.rows layer_id
  -- the state in which the walk visits the layer
  have hvis : w.net.layers_.length - layer_id = (w.net.layers_.length - 1 - layer_id) + 1 := by
    omega
  obtain ⟨pg, _⟩ := graph_walk w.net (w.net.layers_.length - 1 - layer_id)
  obtain ⟨_, p2, p3, p4, p5, p6, _⟩ := graph_fields pg
  obtain ⟨s1, s2, s3⟩ := walk_shape w.net (w.net.layers_.length - 1 - layer_id)
  obtain ⟨b1, b2⟩ := walk_row_before w.net layer_id hln (w.net.layers_.length - 1 - layer_id)
    (Nat.le_refl _)
  obtain ⟨a1, a2, _⟩ := walk_row_after w.net layer_id hln w.net.layers_.length (by omega)
    (Nat.le_refl _)
  have hstep : Init.walk w.net (w.net.layers_.length - layer_id) =
      Init.walk_layer layer_id (Init.walk w.net (w.net.layers_.length - 1 - layer_id)) := by
    rw [hvis, walk_succ]
    have : w.net.layers_.length - 1 - (w.net.layers_.length - 1 - layer_id) = layer_id := by
      omega
    rw [this]
  have hl1 : layer_id <
      (Init.walk w.net (w.net.layers_.length - 1 - layer_id)).net.layer_need_backward_.length := by
    rw [s1, hW.lnb_len]
    exact hl
  constructor
  · intro hskip
    rw [f1, a1, hstep]
    refine walk_layer_all_skip layer_id _ hl1 ?_
    intro t ht
    rw [p4, htv, ← g3] at ht
    have := hskip t ht
    rw [← hn] at this
    have hn' : result.top_name layer_id t =
        (Init.walk w.net (w.net.layers_.length - 1 - layer_id)).net.top_name layer_id t := by
      unfold Net.top_name
      rw [g2, g3, p2, p3]
    rw [hn'] at this
    exact this
  · intro hres b hb
    rw [f1, a1, hstep] at hres
    have key := walk_layer_skipped layer_id
      (Init.walk w.net (w.net.layers_.length - 1 - layer_id))
      (by rw [s2, hF.outer]
          have : w.net.bottom_id_vecs_.length = (InsertSplits filtered).layer.length :=
            hW.stage.len_bottom
          rw [this]
          exact hl)
      (by rw [s3 layer_id, hrow, p6])
      (by
        intro h0 b'
        rw [b1] at h0
        rw [b2]
        exact hF.layer layer_id b' h0)
      hres b (by rw [p6, hblen]; exact hb)
    have hname : result.bottom_name layer_id b =
        (Init.walk w.net (w.net.layers_.length - 1 - layer_id)).net.bottom_name layer_id b := by
      unfold Net.bottom_name
      rw [g2, g5, p2, p5]
    constructor
    · rw [f2, a2, hstep]
      exact key.1
    · intro visited hv hvn
      rw [hname]
      obtain ⟨_, _, a3⟩ := walk_row_after w.net layer_id hln visited (by omega)
        (by rw [hn]; exact hvn)
      apply a3
      rw [hstep]
      exact key.2

/-- C11 on `blocked_example`: the tops "x" and "b" of layer 0 are read by
layers that propagate nothing down, so both names are in `blobs_skip_backp`
when the walk reaches layer 0; the layer, which has a parameter and whose
top "b" feeds the loss, ends with its flag clear and its bottom "a" in
`blobs_skip_backp`. -/
theorem C11_witness :
    ∃ w result, Init.wire walk_factory blocked_example .TEST = .ok w ∧
      Init walk_factory id blocked_example = .ok result ∧
      w.net.layer_need_backward_[0]? = some true ∧
      "b" ∈ (Init.walk w.net 2).blobs_under_loss ∧
      result.layer_need_backward_[0]? = some false ∧
      (result.bottom_need_backward_.getD 0 [])[0]? = some false ∧
      result.bottom_name 0 0 ∈ (Init.walk w.net 3).blobs_skip_backp := by
  obtain ⟨w, hw, hp⟩ := of_returns_with (Init.wire walk_factory blocked_example .TEST)
    (fun w => decide (w.net.layer_need_backward_[0]? = some true ∧
        "b" ∈ (Init.walk w.net 2).blobs_under_loss) &&
      returns_with (Init.finish blocked_example w)
        (fun r => decide (∀ t, t < (r.top_id_vecs_.getD 0 []).length →
          r.top_name 0 t ∈ (Init.walk w.net (3 - 1 - 0)).blobs_skip_backp)))
    (by decide)
  obtain ⟨hp1, hp2⟩ := Bool.and_eq_true_iff.1 hp
  obtain ⟨result, hfin, hq⟩ := of_returns_with _ _ hp2
  have hinit : Init walk_factory id blocked_example = .ok result :=
    Init_of_parts walk_factory id blocked_example blocked_example w result (by decide) hw hfin
  obtain ⟨h1, h2⟩ := C11_skipped_when_tops_skippable walk_factory id blocked_example
    blocked_example w result 0 (by decide) hw hinit (by decide) (by decide)
  have hres := h1 (of_decide_eq_true hq)
  obtain ⟨h3, h4⟩ := h2 hres 0 (by decide)
  exact ⟨w, result, hw, hinit, (of_decide_eq_true hp1).1, (of_decide_eq_true hp1).2, hres, h3,
    h4 3 (by decide) (by decide)⟩

/-! ## The backward flags after `Init` -/

theorem set_false_cleared (bnb : List (List Bool)) (l b : Nat) (l' b' : Nat)
    (h : ((bnb.set l ((bnb.getD l []).set b false)).getD l' [])[b']? = some true) :
    (bnb.getD l' [])[b']? = some true := by
  rw [getD_set_row] at h
  split at h
  · rename_i hc
    rw [List.getElem?_set] at h
    split at h
    · split at h <;> cases h
    · rw [hc.1]
      exact h
  · exact h

theorem Net.flags_cleared_refl (net : Net) : net.flags_cleared net := fun _ _ h => h

theorem Net.flags_cleared_trans {a b c : Net} (h : a.flags_cleared b) (h' : b.flags_cleared c) :
    a.flags_cleared c := fun l b hb => h l b (h' l b hb)

theorem clear_rows_cleared (l n : Nat) (bnb0 : List (List Bool)) (l' b' : Nat)
    (h : ((forUp n (fun bottom_id bnb => bnb.set l ((bnb.getD l []).set bottom_id false))
      bnb0).getD l' [])[b']? = some true) : (bnb0.getD l' [])[b']? = some true := by
  revert h
  exact forUp_induction
    (fun (_ : Nat) (bnb : List (List Bool)) =>
      (bnb.getD l' [])[b']? = some true → (bnb0.getD l' [])[b']? = some true)
    _ _ _ (fun h => h) (fun i bnb _ ih h => ih (set_false_cleared _ _ _ _ _ h))

theorem clear_layer_cleared (l : Nat) (flags : Bool × Bool) (net : Net) :
    net.flags_cleared (Init.clear_layer l flags net) := by
  intro l' b'
  unfold Init.clear_layer
  dsimp only
  split <;> split
  · exact clear_rows_cleared _ _ _ _ _
  · exact fun h => h
  · exact clear_rows_cleared _ _ _ _ _
  · exact fun h => h

theorem walk_bottoms_cleared_only (l : Nat) (c : Bool) (s : Walk) :
    s.net.flags_cleared (Init.walk_bottoms l c s).net := by
  unfold Init.walk_bottoms
  refine forUp_induction (fun (_ : Nat) (t : Walk) => s.net.flags_cleared t.net) _ _ _
    (Net.flags_cleared_refl _) ?_
  intro i t _ h
  dsimp only
  cases c with
  | true =>
    simp only [if_true]
    split
    · exact h
    · exact h
  | false =>
    simp only [Bool.false_eq_true, if_false]
    have : s.net.flags_cleared
        { t.net with
          bottom_need_backward_ :=
            t.net.bottom_need_backward_.set l
              ((t.net.bottom_need_backward_.getD l []).set i false) } :=
      fun l' b' hb => h l' b' (set_false_cleared _ _ _ _ _ hb)
    split
    · exact this
    · exact this

theorem walk_layer_cleared (l : Nat) (s : Walk) :
    s.net.flags_cleared (Init.walk_layer l s).net := by
  unfold Init.walk_layer
  dsimp only
  exact Net.flags_cleared_trans (clear_layer_cleared l _ s.net)
    (walk_bottoms_cleared_only l _ _)

/-- The reverse walk only clears bottom flags. -/
theorem walk_cleared (net : Net) (visited : Nat) :
    net.flags_cleared (Init.walk net visited).net := by
  induction visited with
  | zero => exact Net.flags_cleared_refl _
  | succ v ih => exact Net.flags_cleared_trans ih (walk_layer_cleared _ _)

/-- The reverse walk keeps what the later steps need of the flags. -/
theorem walk_need (net : Net) (visited : Nat) (hI : NeedInv net) :
    NeedInv (Init.walk net visited).net := by
  obtain ⟨g, u⟩ := graph_walk net visited
  obtain ⟨_, _, _, _, g5, _⟩ := graph_fields g
  have hb : (Init.walk net visited).net.blob_need_backward_ = net.blob_need_backward_ :=
    congrArg (fun x => x.2.1) u
  obtain ⟨_, s2, s3⟩ := walk_shape net visited
  have hc := walk_cleared net visited
  refine ⟨?_, ?_, ?_, ?_⟩
  · rw [s2, g5]; exact hI.outer
  · intro l; rw [s3 l, g5]; exact hI.rows l
  · intro l b i hi hb'
    rw [g5] at hi
    rw [hb]
    exact hI.blob l b i hi (hc l b hb')
  · intro l b i hi
    rw [g5] at hi
    rw [hb]
    exact hI.bound l b i hi

theorem getElem?_set_or (xs : List Bool) (i j : Nat) (f : Bool) (h : xs[i]? = some true) :
    (xs.set j (xs.getD j false || f))[i]? = some true := by
  rw [List.getElem?_set]
  split
  · rename_i hji
    subst hji
    have hlt := (List.getElem?_eq_some_iff.1 h).1
    rw [if_pos hlt, List.getD_eq_getElem?_getD, h]
    rfl
  · exact h

/-- The bottom loop of the handling of `force_backward` for layer `l` (lines
269-276), run for the first `n` bottoms: flags are only set, the flag of a
bottom the layer allows to force is set, and a bottom whose flag is set
reads a blob whose flag is set. -/
theorem force_bottoms_need (l n : Nat) (net : Net) (hI : NeedInv net)
    (hl : l < net.bottom_need_backward_.length)
    (hn : n ≤ (net.bottom_need_backward_.getD l []).length) :
    NeedInv (forUp n
      (fun bottom_id net =>
        let flag :=
          (net.bottom_need_backward_.getD l []).getD bottom_id false ||
            (net.layers_.getD l default).AllowForceBackward bottom_id
        let blob_id := (net.bottom_id_vecs_.getD l []).getD bottom_id 0
        { net with
          bottom_need_backward_ :=
            net.bottom_need_backward_.set l
              ((net.bottom_need_backward_.getD l []).set bottom_id flag)
          blob_need_backward_ :=
            net.blob_need_backward_.set blob_id
              (net.blob_need_backward_.getD blob_id false || flag) })
      net) ∧
    ∃ bnb bl, forUp n
      (fun bottom_id net =>
        let flag :=
          (net.bottom_need_backward_.getD l []).getD bottom_id false ||
            (net.layers_.getD l default).AllowForceBackward bottom_id
        let blob_id := (net.bottom_id_vecs_.getD l []).getD bottom_id 0
        { net with
          bottom_need_backward_ :=
            net.bottom_need_backward_.set l
              ((net.bottom_need_backward_.getD l []).set bottom_id flag)
          blob_need_backward_ :=
            net.blob_need_backward_.set blob_id
              (net.blob_need_backward_.getD blob_id false || flag) })
      net = { net with bottom_need_backward_ := bnb, blob_need_backward_ := bl } ∧
      bnb.length = net.bottom_need_backward_.length ∧
      (∀ l', (bnb.getD l' []).length = (net.bottom_need_backward_.getD l' []).length) ∧
      bl.length = net.blob_need_backward_.length ∧
      (∀ l' b' : Nat, (net.bottom_need_backward_.getD l' [])[b']? = some true →
        (bnb.getD l' [])[b']? = some true) ∧
      (∀ i : Nat, net.blob_need_backward_[i]? = some true → bl[i]? = some true) ∧
      ∀ b, b < n → (net.layers_.getD l default).AllowForceBackward b = true →
        (bnb.getD l [])[b]? = some true := by
  refine forUp_induction
    (fun (k : Nat) (t : Net) => NeedInv t ∧
      ∃ bnb bl, t = { net with bottom_need_backward_ := bnb, blob_need_backward_ := bl } ∧
        bnb.length = net.bottom_need_backward_.length ∧
        (∀ l', (bnb.getD l' []).length = (net.bottom_need_backward_.getD l' []).length) ∧
        bl.length = net.blob_need_backward_.length ∧
        (∀ l' b' : Nat, (net.bottom_need_backward_.getD l' [])[b']? = some true →
          (bnb.getD l' [])[b']? = some true) ∧
        (∀ i : Nat, net.blob_need_backward_[i]? = some true → bl[i]? = some true) ∧
        ∀ b, b < k → (net.layers_.getD l default).AllowForceBackward b = true →
          (bnb.getD l [])[b]? = some true)
    n _ net
    ⟨hI, net.bottom_need_backward_, net.blob_need_backward_, rfl, rfl, fun _ => rfl, rfl,
      fun _ _ h => h, fun _ h => h, fun b hb => absurd hb (Nat.not_lt_zero _)⟩ ?_
  intro i t hi ht
  obtain ⟨tI, bnb, bl, rfl, e1, e2, e3, e4, e5, e6⟩ := ht
  have hlt : l < bnb.length := by rw [e1]; exact hl
  have hirow : i < (bnb.getD l []).length := by rw [e2 l]; omega
  have hiid : i < (net.bottom_id_vecs_.getD l []).length := by
    have := tI.rows l
    simp only at this
    omega
  have hid : (net.bottom_id_vecs_.getD l [])[i]? =
      some ((net.bottom_id_vecs_.getD l []).getD i 0) := by
    rw [List.getD_eq_getElem _ _ hiid, List.getElem?_eq_getElem hiid]
  have hjlt : (net.bottom_id_vecs_.getD l []).getD i 0 < bl.length := tI.bound l i _ hid
  generalize (net.bottom_id_vecs_.getD l []).getD i 0 = j at hid hjlt
  dsimp only
  generalize hflag : ((bnb.getD l []).getD i false ||
    (net.layers_.getD l default).AllowForceBackward i) = flag
  have hrow : ∀ l' b' : Nat, ((bnb.set l ((bnb.getD l []).set i flag)).getD l' [])[b']? =
      if l' = l ∧ b' = i then some flag else (bnb.getD l' [])[b']? := by
    intro l' b'
    rw [getD_set_row]
    by_cases hll : l' = l
    · subst hll
      rw [if_pos ⟨rfl, hlt⟩, List.getElem?_set]
      by_cases hbi : i = b'
      · subst hbi
        rw [if_pos rfl, if_pos hirow, if_pos ⟨rfl, rfl⟩]
      · rw [if_neg hbi, if_neg (fun h => hbi h.2.symm)]
    · rw [if_neg (fun h => hll h.1), if_neg (fun h => hll h.1)]
  refine ⟨⟨?_, ?_, ?_, ?_⟩, _, _, rfl, ?_, ?_, ?_, ?_, ?_, ?_⟩
  · show (bnb.set l _).length = net.bottom_id_vecs_.length
    rw [List.length_set]
    exact tI.outer
  · intro l'
    show ((bnb.set l _).getD l' []).length = (net.bottom_id_vecs_.getD l' []).length
    rw [getD_set_row]
    split
    · rename_i hc
      rw [List.length_set, hc.1]
      exact tI.rows l
    · exact tI.rows l'
  · intro l' b' i' hi' hb'
    show (bl.set j (bl.getD j false || flag))[i']? = some true
    have hi'' : (net.bottom_id_vecs_.getD l' [])[b']? = some i' := hi'
    have hb'' : ((bnb.set l ((bnb.getD l []).set i flag)).getD l' [])[b']? = some true := hb'
    rw [hrow] at hb''
    split at hb''
    · rename_i hc
      obtain ⟨rfl, rfl⟩ := hc
      rw [hid] at hi''
      injection hi'' with hi''
      subst hi''
      injection hb'' with hb''
      subst hb''
      rw [List.getElem?_set, if_pos rfl, if_pos hjlt, Bool.or_true]
    · exact getElem?_set_or _ _ _ _ (tI.blob l' b' i' hi'' hb'')
  · intro l' b' i' hi'
    show i' < (bl.set j _).length
    rw [List.length_set]
    exact tI.bound l' b' i' hi'
  · rw [List.length_set]
    exact e1
  · intro l'
    rw [getD_set_row]
    split
    · rename_i hc
      rw [List.length_set, hc.1]
      exact e2 l
    · exact e2 l'
  · rw [List.length_set]
    exact e3
  · intro l' b' h
    rw [hrow]
    split
    · rename_i hc
      obtain ⟨rfl, rfl⟩ := hc
      have := e4 _ _ h
      rw [← hflag, List.getD_eq_getElem?_getD, this]
      rfl
    · exact e4 _ _ h
  · intro i' h
    exact getElem?_set_or _ _ _ _ (e5 i' h)
  · intro b hb hallow
    rw [hrow]
    split
    · rename_i hc
      have hallow' : (net.layers_.getD l default).AllowForceBackward i = true := by
        rw [← hc.2]; exact hallow
      rw [← hflag, hallow', Bool.or_true]
    · rename_i hc
      exact e6 b (by
        have : b ≠ i := fun h => hc ⟨rfl, h⟩
        omega) hallow

theorem set_param_propagate_down_true (L : Layer) (p : Nat) :
    (L.set_param_propagate_down p true).param_propagate_down_[p]? = some true ∧
      (L.set_param_propagate_down p true).traits = L.traits := by
  refine ⟨?_, rfl⟩
  unfold Layer.set_param_propagate_down
  dsimp only
  rw [List.getElem?_set, if_pos rfl, if_pos]
  rw [List.length_append, List.length_replicate]
  omega

theorem set_param_propagate_down_keeps (L : Layer) (p q : Nat)
    (h : L.param_propagate_down_[q]? = some true) :
    (L.set_param_propagate_down p true).param_propagate_down_[q]? = some true := by
  unfold Layer.set_param_propagate_down
  dsimp only
  apply getElem?_set_true
  rw [List.getElem?_append_left (List.getElem?_eq_some_iff.1 h).1]
  exact h

theorem getD_set_layer (ls : List Layer) (l l' : Nat) (L : Layer) :
    (ls.set l L).getD l' default = if l' = l ∧ l < ls.length then L else ls.getD l' default := by
  simp only [List.getD_eq_getElem?_getD, List.getElem?_set]
  by_cases h : l = l'
  · subst h
    by_cases hl : l < ls.length
    · simp [hl]
    · have hn : ls[l]? = none := List.getElem?_eq_none (by omega)
      simp [hl, hn]
  · have h' : ¬ l' = l := fun e => h e.symm
    simp [h, h']

/-- The parameter loop of the handling of `force_backward` for layer `l`
(lines 277-280), run for the first `n` parameters: only the layer object `l`
changes, and only in its `param_propagate_down_` flags, the first `n` of
which are set. -/
theorem force_params_spec (l n : Nat) (net : Net) (hl : l < net.layers_.length) :
    ∃ ls, forUp n
        (fun param_id net =>
          { net with
            layers_ := net.layers_.set l
              ((net.layers_.getD l default).set_param_propagate_down param_id true) })
        net = { net with layers_ := ls } ∧
      ls.length = net.layers_.length ∧
      (∀ l', (ls.getD l' default).traits = (net.layers_.getD l' default).traits) ∧
      (∀ l', l' ≠ l → ls.getD l' default = net.layers_.getD l' default) ∧
      ∀ p : Nat, p < n → (ls.getD l default).param_propagate_down_[p]? = some true := by
  refine forUp_induction
    (fun (k : Nat) (t : Net) => ∃ ls, t = { net with layers_ := ls } ∧
      ls.length = net.layers_.length ∧
      (∀ l', (ls.getD l' default).traits = (net.layers_.getD l' default).traits) ∧
      (∀ l', l' ≠ l → ls.getD l' default = net.layers_.getD l' default) ∧
      ∀ p : Nat, p < k → (ls.getD l default).param_propagate_down_[p]? = some true)
    n _ net ⟨net.layers_, rfl, rfl, fun _ => rfl, fun _ _ => rfl,
      fun p hp => absurd hp (Nat.not_lt_zero _)⟩ ?_
  intro i t _ ht
  obtain ⟨ls, rfl, e1, e2, e3, e4⟩ := ht
  have hlt : l < ls.length := by rw [e1]; exact hl
  refine ⟨_, rfl, ?_, ?_, ?_, ?_⟩
  · rw [List.length_set]
    exact e1
  · intro l'
    rw [getD_set_layer]
    split
    · rename_i hc
      rw [(set_param_propagate_down_true _ _).2, hc.1]
      exact e2 l
    · exact e2 l'
  · intro l' hl'
    rw [getD_set_layer, if_neg (fun h => hl' h.1)]
    exact e3 l' hl'
  · intro p hp
    rw [getD_set_layer, if_pos ⟨rfl, hlt⟩]
    by_cases hpi : p = i
    · subst hpi
      exact (set_param_propagate_down_true _ _).1
    · exact set_param_propagate_down_keeps _ _ _ (e4 p (by omega))

/-- The handling of `force_backward` for layer `l` (lines 267-281). -/
theorem force_backward_layer_spec (l : Nat) (net : Net) (hI : NeedInv net)
    (hl : l < net.bottom_need_backward_.length) (hll : l < net.layers_.length) :
    NeedInv (Init.force_backward_layer l net) ∧
      (Init.force_backward_layer l net).layer_need_backward_ =
        net.layer_need_backward_.set l true ∧
      (Init.force_backward_layer l net).bottom_id_vecs_ = net.bottom_id_vecs_ ∧
      (Init.force_backward_layer l net).bottom_need_backward_.length =
        net.bottom_need_backward_.length ∧
      (∀ l', ((Init.force_backward_layer l net).bottom_need_backward_.getD l' []).length =
        (net.bottom_need_backward_.getD l' []).length) ∧
      (∀ l' b' : Nat, (net.bottom_need_backward_.getD l' [])[b']? = some true →
        ((Init.force_backward_layer l net).bottom_need_backward_.getD l' [])[b']? =
          some true) ∧
      (∀ b, b < (net.bottom_need_backward_.getD l []).length →
        (net.layers_.getD l default).AllowForceBackward b = true →
        ((Init.force_backward_layer l net).bottom_need_backward_.getD l [])[b]? =
          some true) ∧
      (Init.force_backward_layer l net).layers_.length = net.layers_.length ∧
      (∀ l', ((Init.force_backward_layer l net).layers_.getD l' default).traits =
        (net.layers_.getD l' default).traits) ∧
      (∀ l', l' ≠ l → (Init.force_backward_layer l net).layers_.getD l' default =
        net.layers_.getD l' default) ∧
      ∀ p : Nat, p < (net.layers_.getD l default).blobs_.length →
        ((Init.force_backward_layer l net).layers_.getD l default).param_propagate_down_[p]? =
          some true := by
  have hI1 : NeedInv { net with layer_need_backward_ := net.layer_need_backward_.set l true } :=
    ⟨hI.outer, hI.rows, hI.blob, hI.bound⟩
  obtain ⟨n1, bnb, bl, h2, e1, e2, e3, e4, e5, e6⟩ := force_bottoms_need l
    (net.bottom_need_backward_.getD l []).length
    { net with layer_need_backward_ := net.layer_need_backward_.set l true } hI1 hl
    (Nat.le_refl _)
  unfold Init.force_backward_layer
  dsimp only
  dsimp only at h2 n1
  rw [h2]
  rw [h2] at n1
  dsimp only
  obtain ⟨ls, h3, q1, q2, q3, q4⟩ := force_params_spec l (net.layers_.getD l default).blobs_.length
    { net with
      layer_need_backward_ := net.layer_need_backward_.set l true
      bottom_need_backward_ := bnb
      blob_need_backward_ := bl } hll
  dsimp only at h3
  rw [h3]
  exact ⟨⟨n1.outer, n1.rows, n1.blob, n1.bound⟩, rfl, rfl, e1, e2, e4, e6, q1, q2, q3, q4⟩

theorem traits_answers {L L' : Layer} (h : L.traits = L'.traits) :
    (∀ b, L.AllowForceBackward b = L'.AllowForceBackward b) ∧ L.blobs_ = L'.blobs_ ∧
      L.layer_param_ = L'.layer_param_ := by
  have h1 : L.traits.allow_force_backward_ = L'.traits.allow_force_backward_ := by rw [h]
  have h2 : L.traits.blobs_ = L'.traits.blobs_ := by rw [h]
  have h3 : L.traits.layer_param_ = L'.traits.layer_param_ := by rw [h]
  simp only [Layer.traits] at h1 h2 h3
  refine ⟨fun b => ?_, h2, h3⟩
  unfold Layer.AllowForceBackward
  rw [h1]

/-- The handling of `force_backward` (lines 265-282) on a net whose flag
vectors have one entry per layer: every layer flag is set, every bottom flag
the layer allows to force is set, every parameter flag is set, and a bottom
whose flag is set reads a blob whose flag is set. -/
theorem force_backward_spec (net : Net) (hI : NeedInv net)
    (hbnb : net.bottom_need_backward_.length = net.layers_.length)
    (hlnb : net.layer_need_backward_.length = net.layers_.length) :
    NeedInv (forUp net.layers_.length
        (fun layer_id net => Init.force_backward_layer layer_id net) net) ∧
      (forUp net.layers_.length (fun layer_id net => Init.force_backward_layer layer_id net)
        net).bottom_id_vecs_ = net.bottom_id_vecs_ ∧
      (∀ l', ((forUp net.layers_.length
        (fun layer_id net => Init.force_backward_layer layer_id net)
          net).layers_.getD l' default).traits = (net.layers_.getD l' default).traits) ∧
      ∀ l, l < net.layers_.length →
        (forUp net.layers_.length (fun layer_id net => Init.force_backward_layer layer_id net)
          net).layer_need_backward_[l]? = some true ∧
        (∀ b, b < (net.bottom_need_backward_.getD l []).length →
          (net.layers_.getD l default).AllowForceBackward b = true →
          ((forUp net.layers_.length
            (fun layer_id net => Init.force_backward_layer layer_id net)
              net).bottom_need_backward_.getD l [])[b]? = some true) ∧
        ∀ p : Nat, p < (net.layers_.getD l default).blobs_.length →
          ((forUp net.layers_.length
            (fun layer_id net => Init.force_backward_layer layer_id net)
              net).layers_.getD l default).param_propagate_down_[p]? = some true := by
  have key := forUp_induction
    (fun (k : Nat) (t : Net) => NeedInv t ∧ t.bottom_id_vecs_ = net.bottom_id_vecs_ ∧
      t.layer_need_backward_.length = net.layer_need_backward_.length ∧
      t.bottom_need_backward_.length = net.bottom_need_backward_.length ∧
      (∀ l', (t.bottom_need_backward_.getD l' []).length =
        (net.bottom_need_backward_.getD l' []).length) ∧
      t.layers_.length = net.layers_.length ∧
      (∀ l', (t.layers_.getD l' default).traits = (net.layers_.getD l' default).traits) ∧
      ∀ l, l < k →
        t.layer_need_backward_[l]? = some true ∧
        (∀ b, b < (net.bottom_need_backward_.getD l []).length →
          (net.layers_.getD l default).AllowForceBackward b = true →
          (t.bottom_need_backward_.getD l [])[b]? = some true) ∧
        ∀ p : Nat, p < (net.layers_.getD l default).blobs_.length →
          (t.layers_.getD l default).param_propagate_down_[p]? = some true)
    net.layers_.length (fun layer_id net => Init.force_backward_layer layer_id net) net
    ⟨hI, rfl, rfl, rfl, fun _ => rfl, rfl, fun _ => rfl,
      fun l hl => absurd hl (Nat.not_lt_zero _)⟩ ?_
  · exact ⟨key.1, key.2.1, key.2.2.2.2.2.2.1, key.2.2.2.2.2.2.2⟩
  · intro k t hk ht
    obtain ⟨tI, t1, t2, t3, t4, t5, t6, t7⟩ := ht
    obtain ⟨r1, r2, r3, r4, r5, r6, r7, r8, r9, r10, r11⟩ := force_backward_layer_spec k t tI
      (by rw [t3, hbnb]; exact hk) (by rw [t5]; exact hk)
    obtain ⟨a1, a2, _⟩ := traits_answers (t6 k)
    refine ⟨r1, r3.trans t1, ?_, r4.trans t3, fun l' => (r5 l').trans (t4 l'), r8.trans t5,
      fun l' => (r9 l').trans (t6 l'), ?_⟩
    · rw [r2, List.length_set]
      exact t2
    · intro l hl
      by_cases hlk : l = k
      · subst hlk
        refine ⟨?_, ?_, ?_⟩
        · rw [r2, List.getElem?_set, if_pos rfl, if_pos (by rw [t2, hlnb]; exact hk)]
        · intro b hb hallow
          exact r7 b (by rw [t4 l]; exact hb) (by rw [a1 b]; exact hallow)
        · intro p hp
          exact r11 p (by rw [a2]; exact hp)
      · obtain ⟨u1, u2, u3⟩ := t7 l (by omega)
        refine ⟨?_, ?_, ?_⟩
        · rw [r2]
          exact getElem?_set_true _ _ _ u1
        · intro b hb hallow
          exact r6 l b (u2 b hb hallow)
        · intro p hp
          rw [r10 l hlk]
          exact u3 p hp

/-- The backward flags and the layer objects `Init.finish` returns are those
left by the reverse walk and the handling of `force_backward`. -/
theorem finish_flags (param : NetParameter) (w : Wiring) (net : Net)
    (havail : ∀ n, n ∈ w.available_blobs → ∃ i, StdMap.find w.blob_name_to_idx n = some i)
    (h : Init.finish param w = .ok net) :
    net.flags =
      (if param.force_backward = true then
        forUp (Init.walk w.net w.net.layers_.length).net.layers_.length
          (fun layer_id net => Init.force_backward_layer layer_id net)
          (Init.walk w.net w.net.layers_.length).net
      else (Init.walk w.net w.net.layers_.length).net).flags := by
  unfold Init.finish at h
  dsimp only at h
  obtain ⟨net5, h5, h⟩ := Except.bind_eq_ok h
  injection h with h
  obtain ⟨_, f5, _, _⟩ := graph_ShareWeights _ _ h5
  obtain ⟨_, f4, _, _⟩ := graph_name_indices
    (Init.outputs w.available_blobs
      (if param.force_backward = true then
        forUp (Init.walk w.net w.net.layers_.length).net.layers_.length
          (fun layer_id net => Init.force_backward_layer layer_id net)
          (Init.walk w.net w.net.layers_.length).net
      else (Init.walk w.net w.net.layers_.length).net, w.blob_name_to_idx)).1
  obtain ⟨_, f3, _, _⟩ := outputs_eq w.available_blobs
    (if param.force_backward = true then
      forUp (Init.walk w.net w.net.layers_.length).net.layers_.length
        (fun layer_id net => Init.force_backward_layer layer_id net)
        (Init.walk w.net w.net.layers_.length).net
    else (Init.walk w.net w.net.layers_.length).net) w.blob_name_to_idx havail
  have hflags5 : net.flags = net5.flags := by
    rw [← h]
    rfl
  rw [hflags5, f5, f4, f3]

/-- The wiring ends with the flags as the later steps need them. -/
theorem wire_need (CreateLayer : LayerParameter → Layer) (param : NetParameter)
    (phase_ : Phase) (w : Wiring) (h : Init.wire CreateLayer param phase_ = .ok w) :
    NeedInv w.net := by
  have hF := wire_flags _ _ _ _ h
  have hW := wire_inv _ _ _ _ h
  refine ⟨hF.outer, hF.rows, hF.blob, ?_⟩
  intro l b i hi
  have h1 := hW.inv.bottom_named l b i hi
  have h2 := (hW.inv.map_sound _ _ h1).1
  have h3 : w.net.blob_need_backward_.length = w.net.blobs_.length := hW.inv.nb_len
  rw [h3]
  exact h2

/-- The backward flags of the net `Init` returns: what the later steps keep
of them, and where they come from. -/
theorem Init_need (CreateLayer : LayerParameter → Layer)
    (InsertSplits : NetParameter → NetParameter) (in_param filtered : NetParameter)
    (result : Net) (hf : FilterNet in_param = .ok filtered)
    (hinit : Init CreateLayer InsertSplits in_param = .ok result) :
    NeedInv result ∧
      ∃ w, Init.wire CreateLayer (InsertSplits filtered) in_param.state.phase = .ok w ∧
        WInv CreateLayer (InsertSplits filtered) in_param.state.phase
          (InsertSplits filtered).layer.length w ∧
        result.graph = w.net.graph ∧
        result.flags =
          (if (InsertSplits filtered).force_backward = true then
            forUp (Init.walk w.net w.net.layers_.length).net.layers_.length
              (fun layer_id net => Init.force_backward_layer layer_id net)
              (Init.walk w.net w.net.layers_.length).net
          else (Init.walk w.net w.net.layers_.length).net).flags ∧
        NeedInv (Init.walk w.net w.net.layers_.length).net := by
  obtain ⟨w, hw, hfin, hW, hg, _⟩ := Init_wired _ _ _ _ _ hf hinit
  have hfl := finish_flags _ _ _ hW.inv.avail_map hfin
  have hN := walk_need w.net w.net.layers_.length (wire_need _ _ _ _ hw)
  obtain ⟨_, _, _, _, g5, _⟩ := graph_fields hg
  obtain ⟨wg, wu⟩ := graph_walk w.net w.net.layers_.length
  obtain ⟨_, _, _, _, w5, _⟩ := graph_fields wg
  obtain ⟨s1, s2, _⟩ := walk_shape w.net w.net.layers_.length
  have hlay : (Init.walk w.net w.net.layers_.length).net.layers_ = w.net.layers_ :=
    congrArg (fun x => x.1) wu
  refine ⟨?_, w, hw, hW, hg, hfl, hN⟩
  have hN2 : NeedInv
      (if (InsertSplits filtered).force_backward = true then
        forUp (Init.walk w.net w.net.layers_.length).net.layers_.length
          (fun layer_id net => Init.force_backward_layer layer_id net)
          (Init.walk w.net w.net.layers_.length).net
      else (Init.walk w.net w.net.layers_.length).net) ∧
      (if (InsertSplits filtered).force_backward = true then
        forUp (Init.walk w.net w.net.layers_.length).net.layers_.length
          (fun layer_id net => Init.force_backward_layer layer_id net)
          (Init.walk w.net w.net.layers_.length).net
      else (Init.walk w.net w.net.layers_.length).net).bottom_id_vecs_ =
        w.net.bottom_id_vecs_ := by
    split
    · obtain ⟨a, b, _⟩ := force_backward_spec _ hN
        (by rw [s2, hlay, hW.layers_len]; exact hW.stage.len_bnb)
        (by rw [s1, hlay, hW.layers_len]; exact hW.lnb_len)
      exact ⟨a, b.trans w5⟩
    · exact ⟨hN, w5⟩
  obtain ⟨hN2, hid⟩ := hN2
  have e2 : result.bottom_need_backward_ = _ := congrArg (fun x => x.2.1) hfl
  have e3 : result.blob_need_backward_ = _ := congrArg (fun x => x.2.2.1) hfl
  refine ⟨?_, ?_, ?_, ?_⟩
  · rw [e2, g5, ← hid]
    exact hN2.outer
  · intro l
    rw [e2, g5, ← hid]
    exact hN2.rows l
  · intro l b i hi hb
    rw [g5, ← hid] at hi
    rw [e2] at hb
    rw [e3]
    exact hN2.blob l b i hi hb
  · intro l b i hi
    rw [g5, ← hid] at hi
    rw [e3]
    exact hN2.bound l b i hi

/-- C12: when the specification sets `force_backward`, in the net `Init`
returns every layer has `layer_need_backward_` true, every bottom for which
the layer answers `AllowForceBackward` has its entry of
`bottom_need_backward_` true and reads a blob whose entry of
`blob_need_backward_` is true, and every parameter of every layer has its
`param_propagate_down_` flag true. -/
theorem C12_force_backward_sets_flags (CreateLayer : LayerParameter → Layer)
    (InsertSplits : NetParameter → NetParameter) (in_param filtered : NetParameter)
    (result : Net) (layer_id : Nat) (hf : FilterNet in_param = .ok filtered)
    (hinit : Init CreateLayer InsertSplits in_param = .ok result)
    (hfb : (InsertSplits filtered).force_backward = true)
    (hl : layer_id < (InsertSplits filtered).layer.length) :
    result.layer_need_backward_[layer_id]? = some true ∧
      (∀ b, b < num_bottom (InsertSplits filtered) layer_id →
        (result.layers_.getD layer_id default).AllowForceBackward b = true →
        (result.bottom_need_backward_.getD layer_id [])[b]? = some true ∧
          ∃ i, (result.bottom_id_vecs_.getD layer_id [])[b]? = some i ∧
            result.blob_need_backward_[i]? = some true) ∧
      ∀ p : Nat, p < (result.layers_.getD layer_id default).blobs_.length →
        (result.layers_.getD layer_id default).param_propagate_down_[p]? = some true := by
  obtain ⟨hR, w, hw, hW, hg, hfl, hN⟩ := Init_need _ _ _ _ _ hf hinit
  rw [if_pos hfb] at hfl
  obtain ⟨_, _, _, _, g5, _⟩ := graph_fields hg
  obtain ⟨wg, wu⟩ := graph_walk w.net w.net.layers_.length
  obtain ⟨s1, s2, s3⟩ := walk_shape w.net w.net.layers_.length
  have hlay : (Init.walk w.net w.net.layers_.length).net.layers_ = w.net.layers_ :=
    congrArg (fun x => x.1) wu
  have hn : w.net.layers_.length = (InsertSplits filtered).layer.length := hW.layers_len
  obtain ⟨_, _, ft, fs⟩ := force_backward_spec _ hN
    (by rw [s2, hlay, hn]; exact hW.stage.len_bnb)
    (by rw [s1, hlay, hn]; exact hW.lnb_len)
  obtain ⟨c1, c2, c3⟩ := fs layer_id (by rw [hlay, hn]; exact hl)
  have e1 : result.layer_need_backward_ = Net.layer_need_backward_ (forUp _ _ _) :=
    congrArg (fun x => x.1) hfl
  have e2 : result.bottom_need_backward_ = Net.bottom_need_backward_ (forUp _ _ _) :=
    congrArg (fun x => x.2.1) hfl
  have e4 : result.layers_ = Net.layers_ (forUp _ _ _) := congrArg (fun x => x.2.2.2) hfl
  obtain ⟨a1, a2, _⟩ := traits_answers (ft layer_id)
  have hrowlen : (w.net.bottom_id_vecs_.getD layer_id []).length =
      num_bottom (InsertSplits filtered) layer_id := hW.stage.done_bottom layer_id hl
  have hbnblen : ((Init.walk w.net w.net.layers_.length).net.bottom_need_backward_.getD
      layer_id []).length = num_bottom (InsertSplits filtered) layer_id := by
    rw [s3 layer_id]
    have : (w.net.bottom_need_backward_.getD layer_id []).length =
        (w.net.bottom_id_vecs_.getD layer_id []).length := hW.inv.bnb_len layer_id
    rw [this, hrowlen]
  refine ⟨by rw [e1]; exact c1, ?_, ?_⟩
  · intro b hb hallow
    have hb1 : (result.bottom_need_backward_.getD layer_id [])[b]? = some true := by
      rw [e2]
      refine c2 b (by rw [hbnblen]; exact hb) ?_
      rw [← a1 b, ← e4]
      exact hallow
    have hblt : b < (result.bottom_id_vecs_.getD layer_id []).length := by
      rw [g5, hrowlen]
      exact hb
    refine ⟨hb1, (result.bottom_id_vecs_.getD layer_id [])[b], List.getElem?_eq_getElem hblt,
      ?_⟩
    exact hR.blob layer_id b _ (List.getElem?_eq_getElem hblt) hb1
  · intro p hp
    rw [e4]
    refine c3 p ?_
    rw [← a2, ← e4]
    exact hp

/-- C12 on `forced_example`: the layer "side", whose flags the reverse walk
clears (its top reaches no loss), ends `Init` with all its flags set. -/
theorem C12_witness :
    ∃ result, Init param_factory id forced_example = .ok result ∧
      result.layer_need_backward_[0]? = some true ∧
      (result.bottom_need_backward_.getD 0 [])[0]? = some true ∧
      (result.bottom_id_vecs_.getD 0 [])[0]? = some 1 ∧
      result.blob_need_backward_[1]? = some true ∧
      (result.layers_.getD 0 default).param_propagate_down_[0]? = some true := by
  obtain ⟨result, hinit, hp⟩ := of_returns_with (Init param_factory id forced_example)
    (fun r => decide ((r.layers_.getD 0 default).AllowForceBackward 0 = true ∧
      (r.bottom_id_vecs_.getD 0 [])[0]? = some 1 ∧
      0 < (r.layers_.getD 0 default).blobs_.length))
    (by decide)
  obtain ⟨q1, q2, q3⟩ := of_decide_eq_true hp
  obtain ⟨h1, h2, h3⟩ := C12_force_backward_sets_flags param_factory id forced_example
    forced_example result 0 (by decide) hinit (by decide) (by decide)
  obtain ⟨h4, i, h5, h6⟩ := h2 0 (by decide) q1
  rw [q2] at h5
  injection h5 with h5
  subst h5
  exact ⟨result, hinit, h1, h4, q2, h6, h3 0 q3⟩

/-- C13 fails as stated: in the net `Init` builds from `walk_example` the
blob "d" (entry 2 of the blob table), the top of a layer with a parameter,
has `blob_need_backward_` true but is the bottom of no layer. -/
theorem C13_counterexample :
    walk_example.force_backward = false ∧
    ∃ result, Init param_factory id walk_example = .ok result ∧
      result.blob_names_[2]? = some "d" ∧
      result.blob_need_backward_[2]? = some true ∧
      ∀ row, row ∈ result.bottom_id_vecs_ → 2 ∉ row := by
  refine ⟨rfl, ?_⟩
  obtain ⟨result, h, hp⟩ := of_returns_with (Init param_factory id walk_example)
    (fun r => decide (r.blob_names_[2]? = some "d" ∧
      r.blob_need_backward_[2]? = some true ∧
      ∀ row, row ∈ r.bottom_id_vecs_ → 2 ∉ row)) (by decide)
  exact ⟨result, h, of_decide_eq_true hp⟩

/-! ## Execution -/

theorem forFromTo_eq {σ : Type} (i end_ : Int) (body : Int → σ → σ) (s : σ) :
    forFromTo i end_ body s =
      if i ≤ end_ then forFromTo (i + 1) end_ body (body i s) else s := by
  rw [forFromTo]

theorem forDownTo_eq {σ : Type} (i end_ : Int) (body : Int → σ → σ) (s : σ) :
    forDownTo i end_ body s =
      if i ≥ end_ then forDownTo (i - 1) end_ body (body i s) else s := by
  rw [forDownTo]

/-- An upward loop over signed indices runs its body on `start`, `start + 1`,
..., `end`, in this order. -/
theorem forFromTo_eq_foldl {σ : Type} (n : Nat) (start end_ : Int) (body : Int → σ → σ)
    (s : σ) (hn : n = (end_ + 1 - start).toNat) :
    forFromTo start end_ body s =
      (List.range n).foldl (fun s (k : Nat) => body (start + (k : Int)) s) s := by
  induction n generalizing start s with
  | zero =>
    rw [forFromTo_eq, if_neg (by omega)]
    rfl
  | succ m ih =>
    rw [forFromTo_eq, if_pos (by omega), ih (start + 1) (body start s) (by omega)]
    rw [List.range_succ_eq_map, List.foldl_cons, List.foldl_map]
    simp only [Nat.cast_zero, add_zero, Nat.cast_succ]
    congr 1
    funext s k
    congr 1
    omega

/-- A downward loop over signed indices runs its body on `start`,
`start - 1`, ..., `end`, in this order. -/
theorem forDownTo_eq_foldl {σ : Type} (n : Nat) (start end_ : Int) (body : Int → σ → σ)
    (s : σ) (hn : n = (start + 1 - end_).toNat) :
    forDownTo start end_ body s =
      (List.range n).foldl (fun s (k : Nat) => body (start - (k : Int)) s) s := by
  induction n generalizing start s with
  | zero =>
    rw [forDownTo_eq, if_neg (by omega)]
    rfl
  | succ m ih =>
    rw [forDownTo_eq, if_pos (by omega), ih (start - 1) (body start s) (by omega)]
    rw [List.range_succ_eq_map, List.foldl_cons, List.foldl_map]
    simp only [Nat.cast_zero, sub_zero, Nat.cast_succ]
    congr 1
    funext s k
    congr 1
    omega

theorem to_size_t_of_nonneg (i : Int) (n : Nat) (h0 : 0 ≤ i) (h : i < n) : to_size_t i < n := by
  unfold to_size_t
  omega

theorem range'_eq_map_add (s n : Nat) : List.range' s n = (List.range n).map (fun k => s + k) := by
  rw [List.range'_eq_map_range]

theorem reverse_range'_eq_map_sub (e n s : Nat) (h : s + 1 = e + n) :
    (List.range' e n).reverse = (List.range n).map (fun k => s - k) := by
  apply List.ext_getElem
  · simp
  · intro i h1 h2
    simp only [List.length_reverse, List.length_range'] at h1
    simp only [List.getElem_reverse, List.getElem_range', List.length_range', List.getElem_map,
      List.getElem_range]
    omega

/-- C14 fails as stated: `ForwardFromTo(0, -1)` on a net of three layers
has `0 <= start`, `end` below the number of layers and `start > end`, but
the comparison of `end` with `layers_.size()` is made in `size_t`, where -1
is 2^64 - 1, so the call fails the check instead of returning 0. -/
theorem C14_counterexample :
    (0 : Int) ≤ 0 ∧ (-1 : Int) < chain_net.layers_.length ∧ (0 : Int) > -1 ∧
      to_size_t (-1) = 2 ^ 64 - 1 ∧
      ForwardFromTo record_Forward chain_net 0 (-1) [] =
        .error (.check_end_lt_layers_size, []) := by
  refine ⟨by decide, by decide, by decide, by decide, by decide⟩

/-- C14, amended: with `0 <= start` and `0 <= end < layers_.size()`,
`ForwardFromTo(start, end)` calls `Forward` on the layers `start`,
`start + 1`, ..., `end`, once each and in this order, each with its own row
of `bottom_vecs_` and `top_vecs_`, and returns the sum of the losses the
calls return, added up from 0 in this order; with `start > end` this is no
call and the result 0. With `start < 0`, and with `end < 0` or
`end >= layers_.size()`, the call fails a check before any layer has run. -/
theorem C14_ForwardFromTo_runs_range {μ : Type}
    (Forward : Nat → List Nat → List Nat → μ → Dtype × μ) (net : Net) (start end_ : Int)
    (mem : μ) :
    (0 ≤ start → 0 ≤ end_ → end_ < net.layers_.length →
      ForwardFromTo Forward net start end_ mem =
        .ok ((List.range' start.toNat (end_ + 1 - start).toNat).foldl
          (fun s i =>
            (s.1 + (Forward i (net.bottom_vecs_.getD i []) (net.top_vecs_.getD i []) s.2).1,
              (Forward i (net.bottom_vecs_.getD i []) (net.top_vecs_.getD i []) s.2).2))
          ((0 : Dtype), mem))) ∧
    (0 ≤ start → 0 ≤ end_ → end_ < net.layers_.length → end_ < start →
      ForwardFromTo Forward net start end_ mem = .ok (0, mem)) ∧
    (start < 0 → ForwardFromTo Forward net start end_ mem = .error (.check_start_ge_0, mem)) ∧
    (0 ≤ start → is_int_tp end_ → net.layers_.length < 2 ^ 63 →
      end_ < 0 ∨ (net.layers_.length : Int) ≤ end_ →
      ForwardFromTo Forward net start end_ mem = .error (.check_end_lt_layers_size, mem)) := by
  have main : 0 ≤ start → 0 ≤ end_ → end_ < net.layers_.length →
      ForwardFromTo Forward net start end_ mem =
        .ok ((List.range' start.toNat (end_ + 1 - start).toNat).foldl
          (fun s i =>
            (s.1 + (Forward i (net.bottom_vecs_.getD i []) (net.top_vecs_.getD i []) s.2).1,
              (Forward i (net.bottom_vecs_.getD i []) (net.top_vecs_.getD i []) s.2).2))
          ((0 : Dtype), mem)) := by
    intro h0 h1 h2
    unfold ForwardFromTo
    rw [if_neg (by omega), if_neg (not_not.2 (to_size_t_of_nonneg _ _ h1 h2))]
    rw [forFromTo_eq_foldl (end_ + 1 - start).toNat start end_ _ _ rfl,
      range'_eq_map_add, List.foldl_map]
    congr 2
    funext s k
    have : (start + (k : Int)).toNat = start.toNat + k := by omega
    rw [this]
  refine ⟨main, ?_, ?_, ?_⟩
  · intro h0 h1 h2 h3
    rw [main h0 h1 h2]
    have : (end_ + 1 - start).toNat = 0 := by omega
    rw [this]
    rfl
  · intro h
    unfold ForwardFromTo
    rw [if_pos (by omega)]
  · intro h0 h1 h2 h3
    unfold ForwardFromTo
    rw [if_neg (by omega), if_pos]
    unfold to_size_t
    unfold is_int_tp at h1
    omega

/-- C14 on `chain_net` with a `Forward` that records its calls: layers 0, 1
and 2 run in this order on their own vectors and the losses 1, 2 and 3 add
up to 6; from 2 to 1 nothing runs; a negative `start` and an `end` of 3 are
fatal. -/
theorem C14_witness :
    ForwardFromTo record_Forward chain_net 0 2 [] =
        .ok (6, [{ layer := 0, bottom := [0], top := [1], propagate_down := [] },
          { layer := 1, bottom := [1], top := [2], propagate_down := [] },
          { layer := 2, bottom := [2], top := [3], propagate_down := [] }]) ∧
      ForwardFromTo record_Forward chain_net 2 1 [] = .ok (0, []) ∧
      ForwardFromTo record_Forward chain_net (-1) 2 [] = .error (.check_start_ge_0, []) ∧
      ForwardFromTo record_Forward chain_net 0 3 [] =
        .error (.check_end_lt_layers_size, []) := by
  refine ⟨?_, ?_, ?_, ?_⟩
  · rw [(C14_ForwardFromTo_runs_range record_Forward chain_net 0 2 []).1 (by decide)
      (by decide) (by decide)]
    norm_num [List.range', List.foldl, record_Forward, chain_net, Net.empty]
  · exact (C14_ForwardFromTo_runs_range record_Forward chain_net 2 1 []).2.1 (by decide)
      (by decide) (by decide) (by decide)
  · exact (C14_ForwardFromTo_runs_range record_Forward chain_net (-1) 2 []).2.2.1 (by decide)
  · exact (C14_ForwardFromTo_runs_range record_Forward chain_net 0 3 []).2.2.2 (by decide)
      (by unfold is_int_tp; decide) (by decide) (by decide)

theorem foldl_filter_eq {α β : Type} (p : α → Bool) (f : β → α → β) (l : List α) (s : β) :
    (l.filter p).foldl f s = l.foldl (fun s x => if p x then f s x else s) s := by
  induction l generalizing s with
  | nil => rfl
  | cons x xs ih =>
    rw [List.filter_cons]
    cases hp : p x with
    | true =>
      simp only [if_true, List.foldl_cons, hp]
      exact ih _
    | false =>
      simp only [Bool.false_eq_true, if_false, List.foldl_cons, hp]
      exact ih _

/-- C15: with `0 <= end` and `0 <= start < layers_.size()`,
`BackwardFromTo(start, end)` calls `Backward` on those of the layers `start`,
`start - 1`, ..., `end` whose `layer_need_backward_` is true, once each and
in this order, each with its own rows of `top_vecs_`,
`bottom_need_backward_` and `bottom_vecs_`; a layer whose flag is false
causes no call, its step leaves the state as it is. A negative `start`
(with `0 <= end`) fails the check on `start` before any layer has run, so
no layer is called then either. -/
theorem C15_BackwardFromTo_runs_flagged {μ : Type}
    (Backward : Nat → List Nat → List Bool → List Nat → μ → μ) (net : Net)
    (start end_ : Int) (mem : μ) :
    (0 ≤ end_ → 0 ≤ start → start < net.layers_.length →
      BackwardFromTo Backward net start end_ mem =
        .ok ((((List.range' end_.toNat (start + 1 - end_).toNat).reverse).filter
            (fun i => net.layer_need_backward_.getD i false)).foldl
          (fun s i =>
            Backward i (net.top_vecs_.getD i []) (net.bottom_need_backward_.getD i [])
              (net.bottom_vecs_.getD i []) s)
          mem) ∧
      BackwardFromTo Backward net start end_ mem =
        .ok (((List.range' end_.toNat (start + 1 - end_).toNat).reverse).foldl
          (fun s i =>
            if net.layer_need_backward_.getD i false then
              Backward i (net.top_vecs_.getD i []) (net.bottom_need_backward_.getD i [])
                (net.bottom_vecs_.getD i []) s
            else s)
          mem)) ∧
    (0 ≤ end_ → is_int_tp start → net.layers_.length < 2 ^ 63 → start < 0 →
      BackwardFromTo Backward net start end_ mem =
        .error (.check_start_lt_layers_size, mem)) := by
  constructor
  · intro h0 h1 h2
    have main : BackwardFromTo Backward net start end_ mem =
        .ok (((List.range' end_.toNat (start + 1 - end_).toNat).reverse).foldl
          (fun s i =>
            if net.layer_need_backward_.getD i false then
              Backward i (net.top_vecs_.getD i []) (net.bottom_need_backward_.getD i [])
                (net.bottom_vecs_.getD i []) s
            else s)
          mem) := by
      unfold BackwardFromTo
      rw [if_neg (by omega), if_neg (not_not.2 (to_size_t_of_nonneg _ _ h1 h2))]
      rw [forDownTo_eq_foldl (start + 1 - end_).toNat start end_ _ _ rfl]
      by_cases hse : end_ ≤ start + 1
      · rw [reverse_range'_eq_map_sub end_.toNat (start + 1 - end_).toNat start.toNat
          (by omega), List.foldl_map]
        congr 1
        apply List.foldl_ext
        intro s k hk
        have hk' : k < (start + 1 - end_).toNat := List.mem_range.1 hk
        have : (start - (k : Int)).toNat = start.toNat - k := by omega
        rw [this]
      · have : (start + 1 - end_).toNat = 0 := by omega
        rw [this]
        rfl
    refine ⟨?_, main⟩
    rw [main, foldl_filter_eq]
  · intro h0 h1 h2 h3
    unfold BackwardFromTo
    rw [if_neg (by omega), if_pos]
    unfold to_size_t
    unfold is_int_tp at h1
    omega

/-- C15 on `chain_net` with a `Backward` that records its calls: from 2 down
to 0, layers 2 and 0 run in this order, each with its own flags, and layer
1, whose flag is clear, does not; a negative `start` is fatal. -/
theorem C15_witness :
    BackwardFromTo record_Backward chain_net 2 0 [] =
        .ok [{ layer := 2, bottom := [2], top := [3], propagate_down := [true] },
          { layer := 0, bottom := [0], top := [1], propagate_down := [false] }] ∧
      BackwardFromTo record_Backward chain_net 1 1 [] = .ok [] ∧
      BackwardFromTo record_Backward chain_net (-1) 0 [] =
        .error (.check_start_lt_layers_size, []) := by
  refine ⟨?_, ?_, ?_⟩
  · rw [((C15_BackwardFromTo_runs_flagged record_Backward chain_net 2 0 []).1 (by decide)
      (by decide) (by decide)).1]
    decide
  · rw [((C15_BackwardFromTo_runs_flagged record_Backward chain_net 1 1 []).1 (by decide)
      (by decide) (by decide)).1]
    decide
  · exact (C15_BackwardFromTo_runs_flagged record_Backward chain_net (-1) 0 []).2 (by decide)
      (by unfold is_int_tp; decide) (by decide) (by decide)

/-! ## The registry of parameters along `Init` -/

theorem getD_append_lt {α : Type} (xs ys : List α) (d : α) (l : Nat) (h : l < xs.length) :
    (xs ++ ys).getD l d = xs.getD l d := by
  rw [List.getD_eq_getElem?_getD, List.getD_eq_getElem?_getD, List.getElem?_append_left h]

theorem getD_append_len {α : Type} (xs : List α) (y d : α) (n : Nat) (h : xs.length = n) :
    (xs ++ [y]).getD n d = y := by
  subst h
  exact getD_append_length xs y d

theorem getElem?_append_lt {α : Type} (xs ys : List α) (i : Nat) (h : i < xs.length) :
    (xs ++ ys)[i]? = xs[i]? := List.getElem?_append_left h

theorem getElem?_append_len {α : Type} (xs : List α) (y : α) (n : Nat) (h : xs.length = n) :
    (xs ++ [y])[n]? = some y := by
  subst h
  exact getElem?_append_length xs y

theorem filter_range_succ (n : Nat) (q : Nat → Bool) :
    (List.range (n + 1)).filter q =
      (List.range n).filter q ++ (if q n then [n] else []) := by
  rw [List.range_succ, List.filter_append]
  congr 1
  cases h : q n <;> simp [h]

theorem filter_range_congr (n : Nat) (q q' : Nat → Bool) (h : ∀ i, i < n → q i = q' i) :
    (List.range n).filter q = (List.range n).filter q' :=
  List.filter_congr (fun i hi => h i (List.mem_range.1 hi))

/-- Registering a parameter the layer owns keeps the invariant of the
registry. -/
theorem RegInv.owns {r : Registry} (hI : RegInv r) (l p : Nat) (hl : l < r.traits.length)
    (howns : (AppendParam.param_name (r.traits.getD l default).layer_param_ p).length = 0 ∨
      StdMap.find r.param_names_index_
        (AppendParam.param_name (r.traits.getD l default).layer_param_ p) = none) :
    RegInv (r.owns l p) := by
  have hplace : ∀ j, j < r.params_.length → (r.owns l p).place j = r.place j := by
    intro j hj
    show (r.param_layer_indices_ ++ [(l, p)]).getD j (0, 0) = _
    rw [getD_append_lt _ _ _ _ (by rw [hI.len_indices]; exact hj)]
    rfl
  have hplace_n : (r.owns l p).place r.params_.length = (l, p) := by
    show (r.param_layer_indices_ ++ [(l, p)]).getD r.params_.length (0, 0) = _
    exact getD_append_len _ _ _ _ hI.len_indices
  have hname : ∀ j, j < r.params_.length → (r.owns l p).name_of j = r.name_of j := by
    intro j hj
    unfold Registry.name_of
    rw [hplace j hj]
    rfl
  have hname_n : (r.owns l p).name_of r.params_.length =
      AppendParam.param_name (r.traits.getD l default).layer_param_ p := by
    unfold Registry.name_of
    rw [hplace_n]
    rfl
  have hspec : ∀ j, j < r.params_.length → (r.owns l p).spec_of j = r.spec_of j := by
    intro j hj
    unfold Registry.spec_of
    rw [hplace j hj]
    rfl
  have hspec_n : (r.owns l p).spec_of r.params_.length =
      AppendParam.param_spec (r.traits.getD l default).layer_param_ p := by
    unfold Registry.spec_of
    rw [hplace_n]
    rfl
  have hshape : ∀ j, j < r.params_.length → (r.owns l p).shape_of j = r.shape_of j := by
    intro j hj
    unfold Registry.shape_of
    rw [hplace j hj]
    rfl
  have hshape_n : (r.owns l p).shape_of r.params_.length =
      (r.traits.getD l default).blobs_.getD p [] := by
    unfold Registry.shape_of
    rw [hplace_n]
    rfl
  have hlen : (r.owns l p).params_.length = r.params_.length + 1 := by
    show (r.params_ ++ [_]).length = _
    rw [List.length_append]
    rfl
  have hown_lt : ∀ j : Nat, j < r.params_.length →
      (r.owns l p).param_owners_[j]? = r.param_owners_[j]? := by
    intro j hj
    exact getElem?_append_lt _ _ _ (by rw [hI.len_owners]; exact hj)
  have hown_n : (r.owns l p).param_owners_[r.params_.length]? = some (-1) :=
    getElem?_append_len _ _ _ hI.len_owners
  have hown_some : ∀ (j : Nat) (x : Int), r.param_owners_[j]? = some x →
      (r.owns l p).param_owners_[j]? = some x := by
    intro j x hx
    rw [hown_lt j (by rw [← hI.len_owners]; exact (List.getElem?_eq_some_iff.1 hx).1)]
    exact hx
  have hown_inv : ∀ (j : Nat) (o : Nat), (r.owns l p).param_owners_[j]? = some (o : Int) →
      j < r.params_.length ∧ r.param_owners_[j]? = some (o : Int) := by
    intro j o ho
    have hj : j < r.params_.length + 1 := by
      have := (List.getElem?_eq_some_iff.1 ho).1
      have e : (r.owns l p).param_owners_.length = r.params_.length + 1 := by
        show (r.param_owners_ ++ [_]).length = _
        rw [List.length_append, hI.len_owners]
        rfl
      omega
    by_cases hjn : j = r.params_.length
    · subst hjn
      rw [hown_n] at ho
      injection ho with ho
      omega
    · have hj' : j < r.params_.length := by omega
      rw [hown_lt j hj'] at ho
      exact ⟨hj', ho⟩
  generalize hnm : AppendParam.param_name (r.traits.getD l default).layer_param_ p = name
    at howns hname_n
  refine
    { len_owners := ?_, len_indices := ?_, len_ids := ?_, len_lr := ?_, len_has_lr := ?_,
      len_decay := ?_, len_has_decay := ?_, layer_lt := ?_, map_some := ?_, map_none := ?_,
      owner := ?_, learnable := ?_, ids_owner := ?_, ids_shared := ?_, blob := ?_,
      compatible := ?_, lr := ?_, decay := ?_ }
  · show (r.param_owners_ ++ [_]).length = (r.params_ ++ [_]).length
    simp only [List.length_append, List.length_singleton, hI.len_owners]
  · show (r.param_layer_indices_ ++ [_]).length = (r.params_ ++ [_]).length
    simp only [List.length_append, List.length_singleton, hI.len_indices]
  · show (r.learnable_param_ids_ ++ [_]).length = (r.params_ ++ [_]).length
    simp only [List.length_append, List.length_singleton, hI.len_ids]
  · show (r.params_lr_ ++ [_]).length = (r.learnable_params_ ++ [_]).length
    simp only [List.length_append, List.length_singleton, hI.len_lr]
  · show (r.has_params_lr_ ++ [_]).length = (r.learnable_params_ ++ [_]).length
    simp only [List.length_append, List.length_singleton, hI.len_has_lr]
  · show (r.params_weight_decay_ ++ [_]).length = (r.learnable_params_ ++ [_]).length
    simp only [List.length_append, List.length_singleton, hI.len_decay]
  · show (r.has_params_decay_ ++ [_]).length = (r.learnable_params_ ++ [_]).length
    simp only [List.length_append, List.length_singleton, hI.len_has_decay]
  · intro i hi
    rw [hlen] at hi
    by_cases hin : i = r.params_.length
    · subst hin
      rw [hplace_n]
      exact hl
    · rw [hplace i (by omega)]
      exact hI.layer_lt i (by omega)
  · -- map_some
    intro n k hk
    have hk' : StdMap.find
        (if name.length ≠ 0 then StdMap.assign r.param_names_index_ name r.params_.length
         else r.param_names_index_) n = some k := by
      rw [← hnm]
      exact hk
    have hold : StdMap.find r.param_names_index_ n = some k →
        n.length ≠ 0 ∧ k < (r.owns l p).params_.length ∧ (r.owns l p).name_of k = n ∧
          ∀ j : Nat, j < k → (r.owns l p).name_of j ≠ n := by
      intro h
      obtain ⟨a, b, c, d⟩ := hI.map_some n k h
      refine ⟨a, by rw [hlen]; omega, by rw [hname k b]; exact c, ?_⟩
      intro j hj
      rw [hname j (by omega)]
      exact d j hj
    split at hk'
    · rename_i hne
      rw [StdMap.find_assign] at hk'
      split at hk'
      · rename_i hn
        subst hn
        injection hk' with hk'
        subst hk'
        refine ⟨hne, by rw [hlen]; omega, hname_n, ?_⟩
        intro j hj hj'
        rw [hname j hj] at hj'
        rcases howns with h0 | hnone
        · exact hne h0
        · exact hne (hI.map_none n hnone j hj hj')
      · exact hold hk'
    · exact hold hk'
  · -- map_none
    intro n hn j hj hjn
    have hn' : StdMap.find
        (if name.length ≠ 0 then StdMap.assign r.param_names_index_ name r.params_.length
         else r.param_names_index_) n = none := by
      rw [← hnm]
      exact hn
    rw [hlen] at hj
    by_cases hjl : j = r.params_.length
    · subst hjl
      rw [hname_n] at hjn
      subst hjn
      by_cases h0 : name.length = 0
      · exact h0
      · rw [if_pos h0, StdMap.find_assign, if_pos rfl] at hn'
        cases hn'
    · have hj' : j < r.params_.length := by omega
      rw [hname j hj'] at hjn
      split at hn'
      · rw [StdMap.find_assign] at hn'
        split at hn'
        · cases hn'
        · exact hI.map_none n hn' j hj' hjn
      · exact hI.map_none n hn' j hj' hjn
  · -- owner
    intro i hi
    rw [hlen] at hi
    by_cases hin : i = r.params_.length
    · subst hin
      left
      refine ⟨?_, hown_n⟩
      rw [hname_n]
      rcases howns with h0 | hnone
      · exact Or.inl h0
      · by_cases h0 : name.length = 0
        · exact Or.inl h0
        · right
          intro j hj hj'
          rw [hname j hj] at hj'
          exact h0 (hI.map_none name hnone j hj hj')
    · have hi' : i < r.params_.length := by omega
      rw [hname i hi', hown_lt i hi']
      rcases hI.owner i hi' with ⟨h1, h2⟩ | ⟨o, h1, h2, h3, h4, h5⟩
      · left
        refine ⟨?_, h2⟩
        rcases h1 with h1 | h1
        · exact Or.inl h1
        · right
          intro j hj
          rw [hname j (by omega)]
          exact h1 j hj
      · right
        refine ⟨o, h1, h2, ?_, ?_, h5⟩
        · rw [hname o (by omega)]
          exact h3
        · intro j hj
          rw [hname j (by omega)]
          exact h4 j hj
  · -- learnable
    show r.learnable_params_ ++ [r.params_.length] = _
    rw [hlen, filter_range_succ, hown_n]
    simp only [decide_True, if_true]
    congr 1
    rw [hI.learnable]
    apply filter_range_congr
    intro i hi
    rw [hown_lt i hi]
  · -- ids_owner
    intro i hi
    have hi' : i < r.params_.length + 1 := by
      have := (List.getElem?_eq_some_iff.1 hi).1
      have e : (r.owns l p).param_owners_.length = r.params_.length + 1 := by
        show (r.param_owners_ ++ [_]).length = _
        rw [List.length_append, hI.len_owners]
        rfl
      omega
    by_cases hin : i = r.params_.length
    · subst hin
      refine ⟨r.learnable_params_.length, ?_, ?_⟩
      · exact getElem?_append_len _ _ _ hI.len_ids
      · exact getElem?_append_len _ _ _ rfl
    · have hi'' : i < r.params_.length := by omega
      rw [hown_lt i hi''] at hi
      obtain ⟨L, h1, h2⟩ := hI.ids_owner i hi
      refine ⟨L, ?_, ?_⟩
      · show (r.learnable_param_ids_ ++ [_])[i]? = some L
        rw [getElem?_append_lt _ _ _ (by rw [hI.len_ids]; exact hi'')]
        exact h1
      · exact getElem?_append_of_lt _ _ _ _ h2
  · -- ids_shared
    intro i o ho
    obtain ⟨hi, ho'⟩ := hown_inv i o ho
    obtain ⟨L, h1, h2, h3⟩ := hI.ids_shared i o ho'
    exact ⟨L, getElem?_append_of_lt _ _ _ _ h1, getElem?_append_of_lt _ _ _ _ h2,
      getElem?_append_of_lt _ _ _ _ h3⟩
  · -- blob
    intro i hi
    rw [hlen] at hi
    by_cases hin : i = r.params_.length
    · subst hin
      rw [hshape_n]
      exact getElem?_append_len _ _ _ rfl
    · have hi' : i < r.params_.length := by omega
      rw [hshape i hi']
      exact getElem?_append_of_lt _ _ _ _ (hI.blob i hi')
  · -- compatible
    intro i o ho
    obtain ⟨hi, ho'⟩ := hown_inv i o ho
    have hoi : o < i := by
      rcases hI.owner i hi with ⟨_, h2⟩ | ⟨o', _, h2, _, _, h5⟩
      · rw [h2] at ho'
        injection ho' with ho'
        omega
      · rw [h5] at ho'
        injection ho' with ho'
        omega
    rw [hspec i hi, hshape i hi, hshape o (by omega)]
    exact hI.compatible i o ho'
  · -- lr
    intro i v hi hv
    rw [hlen] at hi
    by_cases hin : i = r.params_.length
    · subst hin
      rw [hspec_n] at hv
      refine ⟨r.learnable_params_.length, getElem?_append_len _ _ _ hI.len_ids, ?_, ?_⟩
      · show (r.has_params_lr_ ++ [_])[r.learnable_params_.length]? = some true
        rw [getElem?_append_len _ _ _ hI.len_has_lr, hv]
        rfl
      · show (r.params_lr_ ++ [_])[r.learnable_params_.length]? = some v
        rw [getElem?_append_len _ _ _ hI.len_lr]
        unfold ParamSpec.lr_mult_value
        rw [hv]
        rfl
    · have hi' : i < r.params_.length := by omega
      rw [hspec i hi'] at hv
      obtain ⟨L, h1, h2, h3⟩ := hI.lr i v hi' hv
      exact ⟨L, getElem?_append_of_lt _ _ _ _ h1, getElem?_append_of_lt _ _ _ _ h2,
        getElem?_append_of_lt _ _ _ _ h3⟩
  · -- decay
    intro i v hi hv
    rw [hlen] at hi
    by_cases hin : i = r.params_.length
    · subst hin
      rw [hspec_n] at hv
      refine ⟨r.learnable_params_.length, getElem?_append_len _ _ _ hI.len_ids, ?_, ?_⟩
      · show (r.has_params_decay_ ++ [_])[r.learnable_params_.length]? = some true
        rw [getElem?_append_len _ _ _ hI.len_has_decay, hv]
        rfl
      · show (r.params_weight_decay_ ++ [_])[r.learnable_params_.length]? = some v
        rw [getElem?_append_len _ _ _ hI.len_decay]
        unfold ParamSpec.decay_mult_value
        rw [hv]
        rfl
    · have hi' : i < r.params_.length := by omega
      rw [hspec i hi'] at hv
      obtain ⟨L, h1, h2, h3⟩ := hI.decay i v hi' hv
      exact ⟨L, getElem?_append_of_lt _ _ _ _ h1, getElem?_append_of_lt _ _ _ _ h2,
        getElem?_append_of_lt _ _ _ _ h3⟩

/-- What is known of the parameters once one more is appended: the places,
names, specifications and shapes of the earlier ones are as before, those of
the new one are read from its layer. -/
theorem appended_views (r r' : Registry) (l p : Nat) (ht : r'.traits = r.traits)
    (hp : r'.param_layer_indices_ = r.param_layer_indices_ ++ [(l, p)]) :
    (∀ j, j < r.param_layer_indices_.length →
      r'.place j = r.place j ∧ r'.name_of j = r.name_of j ∧ r'.spec_of j = r.spec_of j ∧
        r'.shape_of j = r.shape_of j) ∧
      r'.place r.param_layer_indices_.length = (l, p) ∧
      r'.name_of r.param_layer_indices_.length =
        AppendParam.param_name (r.traits.getD l default).layer_param_ p ∧
      r'.spec_of r.param_layer_indices_.length =
        AppendParam.param_spec (r.traits.getD l default).layer_param_ p ∧
      r'.shape_of r.param_layer_indices_.length = (r.traits.getD l default).blobs_.getD p [] := by
  have hplace : ∀ j, j < r.param_layer_indices_.length → r'.place j = r.place j := by
    intro j hj
    unfold Registry.place
    rw [hp, getD_append_lt _ _ _ _ hj]
  have hplace_n : r'.place r.param_layer_indices_.length = (l, p) := by
    unfold Registry.place
    rw [hp]
    exact getD_append_len _ _ _ _ rfl
  refine ⟨fun j hj => ⟨hplace j hj, ?_, ?_, ?_⟩, hplace_n, ?_, ?_, ?_⟩
  · unfold Registry.name_of
    rw [hplace j hj, ht]
  · unfold Registry.spec_of
    rw [hplace j hj, ht]
  · unfold Registry.shape_of
    rw [hplace j hj, ht]
  · unfold Registry.name_of
    rw [hplace_n, ht]
  · unfold Registry.spec_of
    rw [hplace_n, ht]
  · unfold Registry.shape_of
    rw [hplace_n, ht]

/-- The owner a name is mapped to owns its blob, and its entry of
`learnable_param_ids_` is the position of the blob in `learnable_params_`. -/
theorem RegInv.owner_of_name {r : Registry} (hI : RegInv r) (n : String) (o : Nat)
    (h : StdMap.find r.param_names_index_ n = some o) :
    r.param_owners_[o]? = some (-1) ∧
      ∃ L : Nat, r.learnable_param_ids_[o]? = some L ∧ r.learnable_params_[L]? = some o := by
  obtain ⟨a, b, c, d⟩ := hI.map_some n o h
  have hown : r.param_owners_[o]? = some (-1) := by
    rcases hI.owner o b with ⟨_, h2⟩ | ⟨o', _, h2, h3, _, _⟩
    · exact h2
    · exact absurd (h3.trans c) (d o' h2)
  exact ⟨hown, hI.ids_owner o hown⟩

/-- Registering a parameter that shares the blob of the owner of its name
keeps the invariant of the registry, when the shapes pass the check of the
share mode and the multipliers it declares are those of the group. -/
theorem RegInv.shares {r : Registry} (hI : RegInv r) (l p o : Nat) (hl : l < r.traits.length)
    (hfind : StdMap.find r.param_names_index_
      (AppendParam.param_name (r.traits.getD l default).layer_param_ p) = some o)
    (hcompat :
      ((AppendParam.param_spec (r.traits.getD l default).layer_param_ p).share_mode =
          .PERMISSIVE →
        shape_count ((r.traits.getD l default).blobs_.getD p []) =
          shape_count (r.shape_of o)) ∧
      ((AppendParam.param_spec (r.traits.getD l default).layer_param_ p).share_mode ≠
          .PERMISSIVE →
        (r.traits.getD l default).blobs_.getD p [] = r.shape_of o))
    (hlr : ∀ v, (AppendParam.param_spec (r.traits.getD l default).layer_param_ p).lr_mult =
        some v →
      r.has_params_lr_[r.learnable_param_ids_.getD o 0]? = some true ∧
        r.params_lr_[r.learnable_param_ids_.getD o 0]? = some v)
    (hdecay : ∀ v,
      (AppendParam.param_spec (r.traits.getD l default).layer_param_ p).decay_mult = some v →
      r.has_params_decay_[r.learnable_param_ids_.getD o 0]? = some true ∧
        r.params_weight_decay_[r.learnable_param_ids_.getD o 0]? = some v) :
    RegInv (r.shares l p o) := by
  obtain ⟨hold, hplace_n, hname_n, hspec_n, hshape_n⟩ :=
    appended_views r (r.shares l p o) l p rfl rfl
  rw [hI.len_indices] at hold hplace_n hname_n hspec_n hshape_n
  obtain ⟨m1, m2, m3, m4⟩ := hI.map_some _ _ hfind
  obtain ⟨oo, L, oL1, oL2⟩ := hI.owner_of_name _ _ hfind
  have hLid : r.learnable_param_ids_.getD o 0 = L := by
    rw [List.getD_eq_getElem?_getD, oL1]
    rfl
  rw [hLid] at hlr hdecay
  generalize hnm : AppendParam.param_name (r.traits.getD l default).layer_param_ p = name
    at hfind hname_n m1 m3 m4
  have hlen : (r.shares l p o).params_.length = r.params_.length + 1 := by
    show (r.params_ ++ [_]).length = _
    simp only [List.length_append, List.length_singleton]
  have hown_len : (r.shares l p o).param_owners_.length = r.params_.length + 1 := by
    show (r.param_owners_ ++ [_]).length = _
    simp only [List.length_append, List.length_singleton, hI.len_owners]
  have hown_lt : ∀ j : Nat, j < r.params_.length →
      (r.shares l p o).param_owners_[j]? = r.param_owners_[j]? := by
    intro j hj
    exact getElem?_append_lt _ _ _ (by rw [hI.len_owners]; exact hj)
  have hown_n : (r.shares l p o).param_owners_[r.params_.length]? = some (o : Int) :=
    getElem?_append_len _ _ _ hI.len_owners
  have hids_n : (r.shares l p o).learnable_param_ids_[r.params_.length]? = some L := by
    show (r.learnable_param_ids_ ++ [_])[r.params_.length]? = some L
    rw [getElem?_append_len _ _ _ hI.len_ids, hLid]
  refine
    { len_owners := ?_, len_indices := ?_, len_ids := ?_, len_lr := hI.len_lr,
      len_has_lr := hI.len_has_lr, len_decay := hI.len_decay,
      len_has_decay := hI.len_has_decay, layer_lt := ?_, map_some := ?_, map_none := ?_,
      owner := ?_, learnable := ?_, ids_owner := ?_, ids_shared := ?_, blob := ?_,
      compatible := ?_, lr := ?_, decay := ?_ }
  · rw [hown_len, hlen]
  · show (r.param_layer_indices_ ++ [_]).length = (r.params_ ++ [_]).length
    simp only [List.length_append, List.length_singleton, hI.len_indices]
  · show (r.learnable_param_ids_ ++ [_]).length = (r.params_ ++ [_]).length
    simp only [List.length_append, List.length_singleton, hI.len_ids]
  · intro i hi
    rw [hlen] at hi
    by_cases hin : i = r.params_.length
    · subst hin
      rw [hplace_n]
      exact hl
    · rw [(hold i (by omega)).1]
      exact hI.layer_lt i (by omega)
  · -- map_some
    intro n k hk
    obtain ⟨a, b, c, d⟩ := hI.map_some n k hk
    refine ⟨a, by rw [hlen]; omega, by rw [(hold k b).2.1]; exact c, ?_⟩
    intro j hj
    rw [(hold j (by omega)).2.1]
    exact d j hj
  · -- map_none
    intro n hn j hj hjn
    have hn' : StdMap.find r.param_names_index_ n = none := hn
    rw [hlen] at hj
    by_cases hjl : j = r.params_.length
    · subst hjl
      rw [hname_n] at hjn
      subst hjn
      rw [hfind] at hn'
      cases hn'
    · have hj' : j < r.params_.length := by omega
      rw [(hold j hj').2.1] at hjn
      exact hI.map_none n hn' j hj' hjn
  · -- owner
    intro i hi
    rw [hlen] at hi
    by_cases hin : i = r.params_.length
    · subst hin
      right
      refine ⟨o, ?_, m2, ?_, ?_, hown_n⟩
      · rw [hname_n]
        exact m1
      · rw [hname_n, (hold o m2).2.1]
        exact m3
      · intro j hj
        rw [hname_n, (hold j (by omega)).2.1]
        exact m4 j hj
    · have hi' : i < r.params_.length := by omega
      rw [(hold i hi').2.1, hown_lt i hi']
      rcases hI.owner i hi' with ⟨h1, h2⟩ | ⟨o', h1, h2, h3, h4, h5⟩
      · left
        refine ⟨?_, h2⟩
        rcases h1 with h1 | h1
        · exact Or.inl h1
        · right
          intro j hj
          rw [(hold j (by omega)).2.1]
          exact h1 j hj
      · right
        refine ⟨o', h1, h2, ?_, ?_, h5⟩
        · rw [(hold o' (by omega)).2.1]
          exact h3
        · intro j hj
          rw [(hold j (by omega)).2.1]
          exact h4 j hj
  · -- learnable
    show r.learnable_params_ = _
    rw [hlen, filter_range_succ, hown_n]
    have hne : decide (some (o : Int) = some (-1)) = false := by
      apply decide_eq_false
      intro h
      injection h with h
      omega
    rw [hne]
    simp only [Bool.false_eq_true, if_false, List.append_nil]
    rw [hI.learnable]
    apply filter_range_congr
    intro i hi
    rw [hown_lt i hi]
  · -- ids_owner
    intro i hi
    have hi' : i < r.params_.length + 1 := by
      have := (List.getElem?_eq_some_iff.1 hi).1
      omega
    by_cases hin : i = r.params_.length
    · subst hin
      rw [hown_n] at hi
      injection hi with hi
      omega
    · have hi'' : i < r.params_.length := by omega
      rw [hown_lt i hi''] at hi
      obtain ⟨L', h1, h2⟩ := hI.ids_owner i hi
      exact ⟨L', getElem?_append_of_lt _ _ _ _ h1, h2⟩
  · -- ids_shared
    intro i o' ho
    have hi' : i < r.params_.length + 1 := by
      have := (List.getElem?_eq_some_iff.1 ho).1
      omega
    by_cases hin : i = r.params_.length
    · subst hin
      rw [hown_n] at ho
      injection ho with ho
      have ho' : o = o' := by omega
      subst ho'
      exact ⟨L, hids_n, getElem?_append_of_lt _ _ _ _ oL1, oL2⟩
    · have hi'' : i < r.params_.length := by omega
      rw [hown_lt i hi''] at ho
      obtain ⟨L', h1, h2, h3⟩ := hI.ids_shared i o' ho
      exact ⟨L', getElem?_append_of_lt _ _ _ _ h1, getElem?_append_of_lt _ _ _ _ h2, h3⟩
  · -- blob
    intro i hi
    rw [hlen] at hi
    by_cases hin : i = r.params_.length
    · subst hin
      rw [hshape_n]
      exact getElem?_append_len _ _ _ rfl
    · have hi' : i < r.params_.length := by omega
      rw [(hold i hi').2.2.2]
      exact getElem?_append_of_lt _ _ _ _ (hI.blob i hi')
  · -- compatible
    intro i o' ho
    have hi' : i < r.params_.length + 1 := by
      have := (List.getElem?_eq_some_iff.1 ho).1
      omega
    by_cases hin : i = r.params_.length
    · subst hin
      rw [hown_n] at ho
      injection ho with ho
      have ho' : o = o' := by omega
      subst ho'
      rw [hspec_n, hshape_n, (hold o m2).2.2.2]
      exact hcompat
    · have hi'' : i < r.params_.length := by omega
      rw [hown_lt i hi''] at ho
      have hoi : o' < i := by
        rcases hI.owner i hi'' with ⟨_, h2⟩ | ⟨o'', _, h2, _, _, h5⟩
        · rw [h2] at ho
          injection ho with ho
          omega
        · rw [h5] at ho
          injection ho with ho
          omega
      rw [(hold i hi'').2.2.1, (hold i hi'').2.2.2, (hold o' (by omega)).2.2.2]
      exact hI.compatible i o' ho
  · -- lr
    intro i v hi hv
    rw [hlen] at hi
    by_cases hin : i = r.params_.length
    · subst hin
      rw [hspec_n] at hv
      exact ⟨L, hids_n, (hlr v hv).1, (hlr v hv).2⟩
    · have hi' : i < r.params_.length := by omega
      rw [(hold i hi').2.2.1] at hv
      obtain ⟨L', h1, h2, h3⟩ := hI.lr i v hi' hv
      exact ⟨L', getElem?_append_of_lt _ _ _ _ h1, h2, h3⟩
  · -- decay
    intro i v hi hv
    rw [hlen] at hi
    by_cases hin : i = r.params_.length
    · subst hin
      rw [hspec_n] at hv
      exact ⟨L, hids_n, (hdecay v hv).1, (hdecay v hv).2⟩
    · have hi' : i < r.params_.length := by omega
      rw [(hold i hi').2.2.1] at hv
      obtain ⟨L', h1, h2, h3⟩ := hI.decay i v hi' hv
      exact ⟨L', getElem?_append_of_lt _ _ _ _ h1, h2, h3⟩

/-- The first declaration of `lr_mult` in a sharing group keeps the invariant
of the registry. -/
theorem RegInv.set_lr {r : Registry} (hI : RegInv r) (L : Nat) (v : Dtype)
    (hno : r.has_params_lr_.getD L false = false) : RegInv (r.set_lr L v) := by
  refine
    { len_owners := hI.len_owners, len_indices := hI.len_indices, len_ids := hI.len_ids,
      len_lr := ?_, len_has_lr := ?_, len_decay := hI.len_decay,
      len_has_decay := hI.len_has_decay, layer_lt := hI.layer_lt, map_some := hI.map_some,
      map_none := hI.map_none, owner := hI.owner, learnable := hI.learnable,
      ids_owner := hI.ids_owner, ids_shared := hI.ids_shared, blob := hI.blob,
      compatible := hI.compatible, lr := ?_, decay := hI.decay }
  · show (r.params_lr_.set L v).length = _
    rw [List.length_set]
    exact hI.len_lr
  · show (r.has_params_lr_.set L true).length = _
    rw [List.length_set]
    exact hI.len_has_lr
  · intro i v' hi hv
    obtain ⟨L', h1, h2, h3⟩ := hI.lr i v' hi hv
    have hne : L ≠ L' := by
      intro e
      subst e
      rw [List.getD_eq_getElem?_getD, h2] at hno
      cases hno
    refine ⟨L', h1, ?_, ?_⟩
    · show (r.has_params_lr_.set L true)[L']? = some true
      rw [List.getElem?_set, if_neg hne]
      exact h2
    · show (r.params_lr_.set L v)[L']? = some v'
      rw [List.getElem?_set, if_neg hne]
      exact h3

/-- The first declaration of `decay_mult` in a sharing group keeps the
invariant of the registry. -/
theorem RegInv.set_decay {r : Registry} (hI : RegInv r) (L : Nat) (v : Dtype)
    (hno : r.has_params_decay_.getD L false = false) : RegInv (r.set_decay L v) := by
  refine
    { len_owners := hI.len_owners, len_indices := hI.len_indices, len_ids := hI.len_ids,
      len_lr := hI.len_lr, len_has_lr := hI.len_has_lr, len_decay := ?_,
      len_has_decay := ?_, layer_lt := hI.layer_lt, map_some := hI.map_some,
      map_none := hI.map_none, owner := hI.owner, learnable := hI.learnable,
      ids_owner := hI.ids_owner, ids_shared := hI.ids_shared, blob := hI.blob,
      compatible := hI.compatible, lr := hI.lr, decay := ?_ }
  · show (r.params_weight_decay_.set L v).length = _
    rw [List.length_set]
    exact hI.len_decay
  · show (r.has_params_decay_.set L true).length = _
    rw [List.length_set]
    exact hI.len_has_decay
  · intro i v' hi hv
    obtain ⟨L', h1, h2, h3⟩ := hI.decay i v' hi hv
    have hne : L ≠ L' := by
      intro e
      subst e
      rw [List.getD_eq_getElem?_getD, h2] at hno
      cases hno
    refine ⟨L', h1, ?_, ?_⟩
    · show (r.has_params_decay_.set L true)[L']? = some true
      rw [List.getElem?_set, if_neg hne]
      exact h2
    · show (r.params_weight_decay_.set L v)[L']? = some v'
      rw [List.getElem?_set, if_neg hne]
      exact h3

/-- Pushing a layer object keeps the invariant of the registry. -/
theorem RegInv.add_layer {r : Registry} (hI : RegInv r) (T : Layer) :
    RegInv { r with traits := r.traits ++ [T] } := by
  have hview : ∀ j, j < r.params_.length →
      ({ r with traits := r.traits ++ [T] } : Registry).name_of j = r.name_of j ∧
      ({ r with traits := r.traits ++ [T] } : Registry).spec_of j = r.spec_of j ∧
      ({ r with traits := r.traits ++ [T] } : Registry).shape_of j = r.shape_of j := by
    intro j hj
    have hlt := hI.layer_lt j hj
    have e : (r.traits ++ [T]).getD (r.place j).1 default = r.traits.getD (r.place j).1 default :=
      getD_append_lt _ _ _ _ hlt
    refine ⟨?_, ?_, ?_⟩
    · show AppendParam.param_name ((r.traits ++ [T]).getD (r.place j).1 default).layer_param_ _ = _
      rw [e]
      rfl
    · show AppendParam.param_spec ((r.traits ++ [T]).getD (r.place j).1 default).layer_param_ _ = _
      rw [e]
      rfl
    · show ((r.traits ++ [T]).getD (r.place j).1 default).blobs_.getD _ [] = _
      rw [e]
      rfl
  have hown_lt : ∀ (i : Nat) (x : Int), r.param_owners_[i]? = some x → i < r.params_.length := by
    intro i x hx
    rw [← hI.len_owners]
    exact (List.getElem?_eq_some_iff.1 hx).1
  have hshare_lt : ∀ (i o : Nat), r.param_owners_[i]? = some (o : Int) → o < i := by
    intro i o ho
    rcases hI.owner i (hown_lt i _ ho) with ⟨_, h2⟩ | ⟨o', _, h2, _, _, h5⟩
    · rw [h2] at ho
      injection ho with ho
      omega
    · rw [h5] at ho
      injection ho with ho
      omega
  refine
    { len_owners := hI.len_owners, len_indices := hI.len_indices, len_ids := hI.len_ids,
      len_lr := hI.len_lr, len_has_lr := hI.len_has_lr, len_decay := hI.len_decay,
      len_has_decay := hI.len_has_decay, layer_lt := ?_, map_some := ?_, map_none := ?_,
      owner := ?_, learnable := hI.learnable, ids_owner := hI.ids_owner,
      ids_shared := hI.ids_shared, blob := ?_, compatible := ?_, lr := ?_, decay := ?_ }
  · intro i hi
    have := hI.layer_lt i hi
    show (r.place i).1 < (r.traits ++ [T]).length
    rw [List.length_append]
    omega
  · intro n k hk
    obtain ⟨a, b, c, d⟩ := hI.map_some n k hk
    refine ⟨a, b, by rw [(hview k b).1]; exact c, ?_⟩
    intro j hj
    rw [(hview j (by omega)).1]
    exact d j hj
  · intro n hn j hj hjn
    rw [(hview j hj).1] at hjn
    exact hI.map_none n hn j hj hjn
  · intro i hi0
    have hi : i < r.params_.length := hi0
    rw [(hview i hi).1]
    rcases hI.owner i hi with ⟨h1, h2⟩ | ⟨o, h1, h2, h3, h4, h5⟩
    · left
      refine ⟨?_, h2⟩
      rcases h1 with h1 | h1
      · exact Or.inl h1
      · right
        intro j hj
        rw [(hview j (by omega)).1]
        exact h1 j hj
    · right
      refine ⟨o, h1, h2, ?_, ?_, h5⟩
      · rw [(hview o (by omega)).1]
        exact h3
      · intro j hj
        rw [(hview j (by omega)).1]
        exact h4 j hj
  · intro i hi
    rw [(hview i hi).2.2]
    exact hI.blob i hi
  · intro i o ho
    have hi := hown_lt i _ ho
    have hoi := hshare_lt i o ho
    rw [(hview i hi).2.1, (hview i hi).2.2, (hview o (by omega)).2.2]
    exact hI.compatible i o ho
  · intro i v hi hv
    rw [(hview i hi).2.1] at hv
    exact hI.lr i v hi hv
  · intro i v hi hv
    rw [(hview i hi).2.1] at hv
    exact hI.decay i v hi hv

/-- The registry before the first layer is wired. -/
theorem RegInv.of_empty (r : Registry) (h1 : r.params_ = []) (h2 : r.param_owners_ = [])
    (h3 : r.param_layer_indices_ = []) (h4 : r.param_names_index_ = [])
    (h5 : r.learnable_params_ = []) (h6 : r.learnable_param_ids_ = [])
    (h7 : r.params_lr_ = []) (h8 : r.has_params_lr_ = [])
    (h9 : r.params_weight_decay_ = []) (h10 : r.has_params_decay_ = []) : RegInv r := by
  refine
    { len_owners := by rw [h1, h2]; rfl, len_indices := by rw [h1, h3]; rfl,
      len_ids := by rw [h1, h6]; rfl, len_lr := by rw [h5, h7]; rfl,
      len_has_lr := by rw [h5, h8]; rfl, len_decay := by rw [h5, h9]; rfl,
      len_has_decay := by rw [h5, h10]; rfl, layer_lt := ?_, map_some := ?_, map_none := ?_,
      owner := ?_, learnable := by rw [h1, h5]; rfl, ids_owner := ?_, ids_shared := ?_,
      blob := ?_, compatible := ?_, lr := ?_, decay := ?_ }
  · intro i hi
    rw [h1] at hi
    cases hi
  · intro n k hk
    rw [h4] at hk
    cases hk
  · intro n _ j hj
    rw [h1] at hj
    cases hj
  · intro i hi
    rw [h1] at hi
    cases hi
  · intro i hi
    rw [h2] at hi
    cases hi
  · intro i o ho
    rw [h2] at ho
    cases ho
  · intro i hi
    rw [h1] at hi
    cases hi
  · intro i o ho
    rw [h2] at ho
    cases ho
  · intro i v hi
    rw [h1] at hi
    cases hi
  · intro i v hi
    rw [h1] at hi
    cases hi

theorem traits_getD_layer (ls : List Layer) (l : Nat) :
    (ls.map Layer.traits).getD l default = (ls.getD l default).traits := by
  rw [List.getD_eq_getElem?_getD, List.getD_eq_getElem?_getD, List.getElem?_map]
  cases ls[l]? with
  | none => rfl
  | some L => rfl

theorem registry_layer_param (net : Net) (l : Nat) :
    (net.registry.traits.getD l default).layer_param_ =
      (net.layers_.getD l default).layer_param_ ∧
    (net.registry.traits.getD l default).blobs_ = (net.layers_.getD l default).blobs_ := by
  have : net.registry.traits.getD l default = (net.layers_.getD l default).traits :=
    traits_getD_layer _ _
  rw [this]
  exact ⟨rfl, rfl⟩

theorem param_name_length (lp : LayerParameter) (p : Nat)
    (h : (AppendParam.param_name lp p).length ≠ 0) : lp.param.length > p := by
  unfold AppendParam.param_name at h
  split at h
  · assumption
  · exact absurd rfl h

/-- What a successful check of `lr_mult` does to the registry: nothing, and
then a declared value is the value of the group, or the group had none and
gets the declared one. -/
theorem reg_share_lr (net net' : Net) (n : String) (ps : ParamSpec) (L : Nat)
    (h : AppendParam.share_lr net n ps L = .ok net') :
    (net'.registry = net.registry ∧
      ∀ v, ps.lr_mult = some v →
        net.has_params_lr_.getD L false = true ∧ net.params_lr_.getD L 0 = v) ∨
    (∃ v, ps.lr_mult = some v ∧ net.has_params_lr_.getD L false = false ∧
      net'.registry = net.registry.set_lr L v) := by
  unfold AppendParam.share_lr at h
  split at h
  · rename_i hsome
    obtain ⟨v, hv⟩ := Option.isSome_iff_exists.1 hsome
    split at h
    · rename_i hhas
      split at h
      · cases h
      · rename_i heq
        injection h with h
        subst h
        left
        refine ⟨rfl, ?_⟩
        intro v' hv'
        refine ⟨hhas, ?_⟩
        have : ps.lr_mult_value = v' := by
          unfold ParamSpec.lr_mult_value
          rw [hv']
          rfl
        rw [← this]
        exact (not_not.1 heq).symm
    · rename_i hhas
      injection h with h
      subst h
      right
      refine ⟨v, hv, by simpa using hhas, ?_⟩
      have : ps.lr_mult_value = v := by
        unfold ParamSpec.lr_mult_value
        rw [hv]
        rfl
      rw [← this]
      rfl
  · rename_i hnone
    injection h with h
    subst h
    left
    refine ⟨rfl, ?_⟩
    intro v hv
    rw [hv] at hnone
    exact absurd rfl hnone

/-- What a successful check of `decay_mult` does to the registry. -/
theorem reg_share_decay (net net' : Net) (n : String) (ps : ParamSpec) (L : Nat)
    (h : AppendParam.share_decay net n ps L = .ok net') :
    (net'.registry = net.registry ∧
      ∀ v, ps.decay_mult = some v →
        net.has_params_decay_.getD L false = true ∧
          net.params_weight_decay_.getD L 0 = v) ∨
    (∃ v, ps.decay_mult = some v ∧ net.has_params_decay_.getD L false = false ∧
      net'.registry = net.registry.set_decay L v) := by
  unfold AppendParam.share_decay at h
  split at h
  · rename_i hsome
    obtain ⟨v, hv⟩ := Option.isSome_iff_exists.1 hsome
    split at h
    · rename_i hhas
      split at h
      · cases h
      · rename_i heq
        injection h with h
        subst h
        left
        refine ⟨rfl, ?_⟩
        intro v' hv'
        refine ⟨hhas, ?_⟩
        have : ps.decay_mult_value = v' := by
          unfold ParamSpec.decay_mult_value
          rw [hv']
          rfl
        rw [← this]
        exact (not_not.1 heq).symm
    · rename_i hhas
      injection h with h
      subst h
      right
      refine ⟨v, hv, by simpa using hhas, ?_⟩
      have : ps.decay_mult_value = v := by
        unfold ParamSpec.decay_mult_value
        rw [hv]
        rfl
      rw [← this]
      rfl
  · rename_i hnone
    injection h with h
    subst h
    left
    refine ⟨rfl, ?_⟩
    intro v hv
    rw [hv] at hnone
    exact absurd rfl hnone

theorem registry_owns (net : Net) (l p : Nat) :
    (AppendParam.owns (AppendParam.push net l p)
      (AppendParam.param_name (net.layers_.getD l default).layer_param_ p)
      (AppendParam.param_spec (net.layers_.getD l default).layer_param_ p)
      net.params_.length).registry = net.registry.owns l p := by
  obtain ⟨h1, h2⟩ := registry_layer_param net l
  unfold Registry.owns Registry.this_blob
  rw [h1, h2]
  rfl

theorem registry_shares_start (net : Net) (l p o : Nat) (m : StdMap)
    (hm : m = net.param_names_index_) :
    ({ AppendParam.push net l p with
        param_names_index_ := m
        param_owners_ := (AppendParam.push net l p).param_owners_ ++ [(o : Int)]
        learnable_param_ids_ := (AppendParam.push net l p).learnable_param_ids_ ++
          [(AppendParam.push net l p).learnable_param_ids_.getD o 0] } : Net).registry =
      net.registry.shares l p o := by
  obtain ⟨h1, h2⟩ := registry_layer_param net l
  unfold Registry.shares Registry.this_blob
  rw [h2, hm]
  rfl

/-- `AppendParam` keeps the invariant of the registry. -/
theorem reg_AppendParam (net net' : Net) (param : NetParameter) (l p : Nat)
    (hI : RegInv net.registry) (hl : l < net.layers_.length)
    (h : AppendParam net param l p = .ok net') :
    RegInv net'.registry ∧ net'.registry.traits = net.registry.traits := by
  obtain ⟨hlp1, hlp2⟩ := registry_layer_param net l
  have hl' : l < net.registry.traits.length := by
    show l < (net.layers_.map Layer.traits).length
    rw [List.length_map]
    exact hl
  unfold AppendParam at h
  dsimp only at h
  split at h
  · rename_i htest
    injection h with h
    subst h
    rw [registry_owns]
    refine ⟨RegInv.owns hI l p hl' ?_, rfl⟩
    rw [hlp1]
    rcases htest with h0 | h0 | ⟨_, h0⟩
    · left
      unfold AppendParam.param_name
      rw [if_neg (by omega)]
      rfl
    · exact Or.inl h0
    · exact Or.inr h0
  · rename_i htest
    have hname : (AppendParam.param_name (net.layers_.getD l default).layer_param_ p).length ≠
        0 := fun h0 => htest (Or.inr (Or.inl h0))
    have hsize := param_name_length _ _ hname
    have hfound : ∃ o, StdMap.find net.param_names_index_
        (AppendParam.param_name (net.layers_.getD l default).layer_param_ p) = some o := by
      cases hq : StdMap.find net.param_names_index_
          (AppendParam.param_name (net.layers_.getD l default).layer_param_ p) with
      | none => exact absurd (Or.inr (Or.inr ⟨hname, hq⟩)) htest
      | some o => exact ⟨o, rfl⟩
    obtain ⟨o, ho⟩ := hfound
    have hidx : StdMap.index (AppendParam.push net l p).param_names_index_
        (AppendParam.param_name (net.layers_.getD l default).layer_param_ p) =
        (o, net.param_names_index_) := StdMap.index_of_find ho
    have ho' : StdMap.find net.registry.param_names_index_
        (AppendParam.param_name (net.registry.traits.getD l default).layer_param_ p) =
        some o := by
      rw [hlp1]
      exact ho
    obtain ⟨m1, m2, m3, m4⟩ := hI.map_some _ _ ho'
    obtain ⟨oo, L, oL1, oL2⟩ := hI.owner_of_name _ _ ho'
    have hLid : net.learnable_param_ids_.getD o 0 = L := by
      rw [List.getD_eq_getElem?_getD]
      have : net.learnable_param_ids_[o]? = some L := oL1
      rw [this]
      rfl
    have hLlt : L < net.learnable_params_.length := (List.getElem?_eq_some_iff.1 oL2).1
    have hspec : AppendParam.param_spec (net.layers_.getD l default).layer_param_ p =
        (net.layers_.getD l default).layer_param_.param.getD p default := by
      unfold AppendParam.param_spec
      rw [if_pos hsize]
    have hshape_o : ((AppendParam.push net l p).layers_.getD
        ((AppendParam.push net l p).param_layer_indices_.getD o (0, 0)).1 default).blobs_.getD
        ((AppendParam.push net l p).param_layer_indices_.getD o (0, 0)).2 [] =
        net.registry.shape_of o := by
      have e : (AppendParam.push net l p).param_layer_indices_.getD o (0, 0) =
          net.registry.place o := by
        show (net.param_layer_indices_ ++ [(l, p)]).getD o (0, 0) = _
        rw [getD_append_lt _ _ _ _ (by
          have : net.param_layer_indices_.length = net.params_.length := hI.len_indices
          rw [this]
          exact m2)]
        rfl
      rw [e]
      unfold Registry.shape_of
      rw [(registry_layer_param net _).2]
      rfl
    unfold AppendParam.shares at h
    dsimp only at h
    rw [hidx] at h
    dsimp only at h
    rw [hshape_o] at h
    split at h
    · cases h
    · rename_i hc1
      split at h
      · cases h
      · rename_i hc2
        have hcompat :
            ((AppendParam.param_spec (net.registry.traits.getD l default).layer_param_
                p).share_mode = .PERMISSIVE →
              shape_count ((net.registry.traits.getD l default).blobs_.getD p []) =
                shape_count (net.registry.shape_of o)) ∧
            ((AppendParam.param_spec (net.registry.traits.getD l default).layer_param_
                p).share_mode ≠ .PERMISSIVE →
              (net.registry.traits.getD l default).blobs_.getD p [] =
                net.registry.shape_of o) := by
          rw [hlp1, hlp2, hspec]
          constructor
          · intro hperm
            by_contra hne
            apply hc1
            rw [Bool.and_eq_true, Bool.and_eq_true]
            exact ⟨⟨decide_eq_true hsize, decide_eq_true hperm⟩, decide_eq_true hne⟩
          · intro hperm
            by_contra hne
            apply hc2
            rw [Bool.and_eq_true]
            refine ⟨?_, decide_eq_true hne⟩
            rw [Bool.not_eq_true', Bool.and_eq_false_iff]
            exact Or.inr (decide_eq_false hperm)
        have hLid' : (AppendParam.push net l p).learnable_param_ids_.getD o 0 = L := hLid
        rw [hLid'] at h
        obtain ⟨net3, h3, h4⟩ := Except.bind_eq_ok h
        have hreg2 := registry_shares_start net l p o net.param_names_index_ rfl
        rw [hLid'] at hreg2
        -- the check of lr_mult
        have step1 : ∃ r1 : Registry, RegInv r1 ∧ net3.registry = r1.shares l p o ∧
            r1.traits = net.registry.traits ∧
            r1.param_names_index_ = net.registry.param_names_index_ ∧
            r1.learnable_param_ids_ = net.registry.learnable_param_ids_ ∧
            r1.param_layer_indices_ = net.registry.param_layer_indices_ ∧
            r1.has_params_decay_ = net.registry.has_params_decay_ ∧
            r1.params_weight_decay_ = net.registry.params_weight_decay_ ∧
            ∀ v, (AppendParam.param_spec (net.layers_.getD l default).layer_param_
                p).lr_mult = some v →
              r1.has_params_lr_[L]? = some true ∧ r1.params_lr_[L]? = some v := by
          rcases reg_share_lr _ _ _ _ _ h3 with ⟨e, hc⟩ | ⟨v, hv, hno, e⟩
          · refine ⟨net.registry, hI, e.trans hreg2, rfl, rfl, rfl, rfl, rfl, rfl, ?_⟩
            intro v hv
            obtain ⟨c1, c2⟩ := hc v hv
            have c1' : net.has_params_lr_.getD L false = true := c1
            have c2' : net.params_lr_.getD L 0 = v := c2
            have hlt : L < net.has_params_lr_.length := by
              have : net.has_params_lr_.length = net.learnable_params_.length := hI.len_has_lr
              omega
            have hlt2 : L < net.params_lr_.length := by
              have : net.params_lr_.length = net.learnable_params_.length := hI.len_lr
              omega
            constructor
            · show net.has_params_lr_[L]? = some true
              rw [List.getD_eq_getElem _ _ hlt] at c1'
              rw [List.getElem?_eq_getElem hlt, c1']
            · show net.params_lr_[L]? = some v
              rw [List.getD_eq_getElem _ _ hlt2] at c2'
              rw [List.getElem?_eq_getElem hlt2, c2']
          · refine ⟨net.registry.set_lr L v, RegInv.set_lr hI L v hno, ?_, rfl, rfl, rfl, rfl,
              rfl, rfl, ?_⟩
            · rw [e, hreg2]
              rfl
            · intro v' hv'
              rw [hv] at hv'
              injection hv' with hv'
              subst hv'
              have hlt : L < net.has_params_lr_.length := by
                have : net.has_params_lr_.length = net.learnable_params_.length :=
                  hI.len_has_lr
                omega
              have hlt2 : L < net.params_lr_.length := by
                have : net.params_lr_.length = net.learnable_params_.length := hI.len_lr
                omega
              constructor
              · show (net.has_params_lr_.set L true)[L]? = some true
                rw [List.getElem?_set, if_pos rfl, if_pos hlt]
              · show (net.params_lr_.set L v)[L]? = some v
                rw [List.getElem?_set, if_pos rfl, if_pos hlt2]
        obtain ⟨r1, hI1, e1, t1, t2, t3, t4, t5, t6, hlr1⟩ := step1
        -- the check of decay_mult
        have hlen1 : r1.has_params_decay_.length = net.learnable_params_.length := by
          rw [t5]
          exact hI.len_has_decay
        have hlen2 : r1.params_weight_decay_.length = net.learnable_params_.length := by
          rw [t6]
          exact hI.len_decay
        have d1 : net3.has_params_decay_ = r1.has_params_decay_ :=
          congrArg Registry.has_params_decay_ e1
        have d2 : net3.params_weight_decay_ = r1.params_weight_decay_ :=
          congrArg Registry.params_weight_decay_ e1
        have step2 : ∃ r2 : Registry, RegInv r2 ∧ net'.registry = r2.shares l p o ∧
            r2.traits = net.registry.traits ∧
            r2.param_names_index_ = net.registry.param_names_index_ ∧
            r2.learnable_param_ids_ = net.registry.learnable_param_ids_ ∧
            r2.param_layer_indices_ = net.registry.param_layer_indices_ ∧
            (∀ v, (AppendParam.param_spec (net.layers_.getD l default).layer_param_
                p).lr_mult = some v →
              r2.has_params_lr_[L]? = some true ∧ r2.params_lr_[L]? = some v) ∧
            ∀ v, (AppendParam.param_spec (net.layers_.getD l default).layer_param_
                p).decay_mult = some v →
              r2.has_params_decay_[L]? = some true ∧
                r2.params_weight_decay_[L]? = some v := by
          rcases reg_share_decay _ _ _ _ _ h4 with ⟨e, hc⟩ | ⟨v, hv, hno, e⟩
          · refine ⟨r1, hI1, e.trans e1, t1, t2, t3, t4, hlr1, ?_⟩
            intro v hv
            obtain ⟨c1, c2⟩ := hc v hv
            rw [d1] at c1
            rw [d2] at c2
            constructor
            · rw [List.getD_eq_getElem _ _ (by omega)] at c1
              rw [List.getElem?_eq_getElem (by omega), c1]
            · rw [List.getD_eq_getElem _ _ (by omega)] at c2
              rw [List.getElem?_eq_getElem (by omega), c2]
          · rw [d1] at hno
            refine ⟨r1.set_decay L v, RegInv.set_decay hI1 L v hno, ?_, t1, t2, t3, t4, hlr1,
              ?_⟩
            · rw [e, e1]
              rfl
            · intro v' hv'
              rw [hv] at hv'
              injection hv' with hv'
              subst hv'
              constructor
              · show (r1.has_params_decay_.set L true)[L]? = some true
                rw [List.getElem?_set, if_pos rfl, if_pos (by omega)]
              · show (r1.params_weight_decay_.set L v)[L]? = some v
                rw [List.getElem?_set, if_pos rfl, if_pos (by omega)]
        obtain ⟨r2, hI2, e2, u1, u2, u3, u4, hlr2, hdecay2⟩ := step2
        have hshape2 : r2.shape_of o = net.registry.shape_of o := by
          unfold Registry.shape_of Registry.place
          rw [u1, u4]
        have hL2 : r2.learnable_param_ids_.getD o 0 = L := by
          rw [u3]
          exact hLid
        rw [e2]
        refine ⟨RegInv.shares hI2 l p o (by rw [u1]; exact hl') ?_ ?_ ?_ ?_, ?_⟩
        · rw [u1, u2]
          exact ho'
        · rw [u1, hshape2]
          exact hcompat
        · rw [u1, hlp1, hL2]
          exact hlr2
        · rw [u1, hlp1, hL2]
          exact hdecay2
        · exact u1

theorem reg_normal_output (net : Net) (param : NetParameter) (layer_id : Int) (top_id : Nat)
    (blob_name : String) :
    (AppendTop.normal_output net param layer_id top_id blob_name).registry = net.registry := by
  unfold AppendTop.normal_output
  dsimp only
  split <;> rfl

theorem reg_AppendTop (net : Net) (param : NetParameter) (layer_id : Int) (top_id : Nat)
    (a : Option StdSet) (m : Option StdMap) (r : Net × Option StdSet × Option StdMap)
    (h : AppendTop net param layer_id top_id a m = .ok r) : r.1.registry = net.registry := by
  unfold AppendTop at h
  dsimp only at h
  split at h
  · split at h
    · injection h with h
      subst h
      rfl
    · split at h
      · cases h
      · injection h with h
        subst h
        exact reg_normal_output _ _ _ _ _
  · injection h with h
    subst h
    exact reg_normal_output _ _ _ _ _

theorem reg_call_AppendTop (param : NetParameter) (layer_id : Int) (top_id : Nat)
    (named : Bool) (w w' : Wiring)
    (h : Init.call_AppendTop param layer_id top_id named w = .ok w') :
    w'.net.registry = w.net.registry := by
  unfold Init.call_AppendTop at h
  obtain ⟨r, hr, rfl⟩ := Except.map_eq_ok h
  exact reg_AppendTop _ _ _ _ _ _ _ hr

theorem reg_AppendBottom (net : Net) (param : NetParameter) (l b : Nat) (a : StdSet)
    (m : StdMap) (r : Nat × Net × StdSet × StdMap)
    (h : AppendBottom net param l b a m = .ok r) : r.2.1.registry = net.registry := by
  by_cases hmem : AppendBottom.blob_name param l b ∈ a
  · rw [AppendBottom_ok _ _ _ _ _ _ hmem] at h
    injection h with h
    subst h
    rfl
  · rw [AppendBottom_error _ _ _ _ _ _ hmem] at h
    cases h

theorem reg_inputs (param : NetParameter) (w w' : Wiring)
    (h : Init.inputs param w = .ok w') : w'.net.registry = w.net.registry := by
  unfold Init.inputs at h
  refine forRange_induction (fun (_ : Nat) (t : Wiring) => t.net.registry = w.net.registry)
    _ _ _ _ rfl ?_ h
  intro i t t' _ ht hstep
  exact (reg_call_AppendTop _ _ _ _ _ _ hstep).trans ht

theorem reg_bottoms (param : NetParameter) (k : Nat) (s s' : Wiring × Bool)
    (h : Init.bottoms param k s = .ok s') : s'.1.net.registry = s.1.net.registry := by
  unfold Init.bottoms at h
  refine forRange_induction
    (fun (_ : Nat) (t : Wiring × Bool) => t.1.net.registry = s.1.net.registry)
    _ _ _ _ rfl ?_ h
  intro i t t' _ ht hstep
  obtain ⟨r, hr, rfl⟩ := Except.map_eq_ok hstep
  exact (reg_AppendBottom _ _ _ _ _ _ _ hr).trans ht

theorem reg_tops (param : NetParameter) (k : Nat) (w w' : Wiring)
    (h : Init.tops param k w = .ok w') : w'.net.registry = w.net.registry := by
  unfold Init.tops at h
  refine forRange_induction (fun (_ : Nat) (t : Wiring) => t.net.registry = w.net.registry)
    _ _ _ _ rfl ?_ h
  intro i t t' _ ht hstep
  exact (reg_call_AppendTop _ _ _ _ _ _ hstep).trans ht

theorem reg_auto_tops (param : NetParameter) (k : Nat) (w w' : Wiring)
    (h : Init.auto_tops param k w = .ok w') : w'.net.registry = w.net.registry := by
  unfold Init.auto_tops at h
  dsimp only at h
  split at h
  · refine forRange_induction (fun (_ : Nat) (t : Wiring) => t.net.registry = w.net.registry)
      _ _ _ _ rfl ?_ h
    intro i t t' _ ht hstep
    exact (reg_call_AppendTop _ _ _ _ _ _ hstep).trans ht
  · injection h with h
    subst h
    rfl

theorem reg_loss_weights (l : Nat) (net : Net) :
    (Init.loss_weights l net).registry = net.registry := by
  unfold Init.loss_weights
  exact forUp_induction (fun (_ : Nat) (s : Net) => s.registry = net.registry) _ _ _
    rfl (fun i t _ h => h)

theorem registry_set_layer (net : Net) (l p : Nat) (v : Bool) :
    ({ net with
        layers_ := net.layers_.set l
          ((net.layers_.getD l default).set_param_propagate_down p v) } : Net).registry =
      net.registry := by
  unfold Net.registry
  dsimp only
  rw [map_traits_set]

theorem reg_param_flags (param : NetParameter) (l : Nat) (s : Net × Bool) :
    (Init.param_flags param l s).1.registry = s.1.registry := by
  unfold Init.param_flags
  refine forUp_induction (fun (_ : Nat) (t : Net × Bool) => t.1.registry = s.1.registry) _ _ _
    rfl ?_
  intro i t _ h
  exact (registry_set_layer t.1 l i _).trans h

theorem reg_set_need_backward (l : Nat) (nb : Bool) (net : Net) :
    (Init.set_need_backward l nb net).registry = net.registry := by
  unfold Init.set_need_backward
  dsimp only
  split
  · exact forUp_induction (fun (_ : Nat) (t : Net) => t.registry = net.registry) _ _ _
      rfl (fun i t _ h => h)
  · rfl

/-- The parameter loop of a layer keeps the invariant of the registry. -/
theorem reg_params (param : NetParameter) (l : Nat) (net net' : Net)
    (hI : RegInv net.registry) (hl : l < net.registry.traits.length)
    (h : Init.params param l net = .ok net') :
    RegInv net'.registry ∧ net'.registry.traits = net.registry.traits := by
  unfold Init.params at h
  refine forRange_induction
    (fun (_ : Nat) (t : Net) => RegInv t.registry ∧ t.registry.traits = net.registry.traits)
    _ _ _ _ ⟨hI, rfl⟩ ?_ h
  intro i t t' _ ht hstep
  obtain ⟨h1, h2⟩ := reg_AppendParam t t' param l i ht.1 (by
    have : l < t.registry.traits.length := by rw [ht.2]; exact hl
    have e : t.registry.traits.length = t.layers_.length := List.length_map _ _
    omega) hstep
  exact ⟨h1, h2.trans ht.2⟩

/-- The body of the layer loop keeps the invariant of the registry. -/
theorem reg_layer (CreateLayer : LayerParameter → Layer) (param : NetParameter)
    (k : Nat) (w w' : Wiring) (hI : RegInv w.net.registry)
    (hlen : w.net.registry.traits.length = k)
    (h : Init.layer CreateLayer param k w = .ok w') :
    RegInv w'.net.registry ∧ w'.net.registry.traits.length = k + 1 := by
  unfold Init.layer at h
  dsimp only at h
  split at h
  · cases h
  · obtain ⟨s2, h2, h⟩ := Except.bind_eq_ok h
    obtain ⟨w3, h3, h⟩ := Except.bind_eq_ok h
    obtain ⟨w4, h4, h⟩ := Except.bind_eq_ok h
    split at h
    · cases h
    · obtain ⟨net7, h7, h⟩ := Except.bind_eq_ok h
      injection h with h
      subst h
      have e1 : ({ w.net with
            layers_ := w.net.layers_ ++
              [CreateLayer (Init.inherit_phase (param.layer.getD k default) w.net.phase_)]
            layer_names_ := w.net.layer_names_ ++
              [(Init.inherit_phase (param.layer.getD k default) w.net.phase_).name] } :
            Net).registry =
          { w.net.registry with
            traits := w.net.registry.traits ++
              [(CreateLayer (Init.inherit_phase (param.layer.getD k default)
                w.net.phase_)).traits] } := by
        unfold Net.registry
        dsimp only
        rw [List.map_append]
        rfl
      have e2 := reg_bottoms _ _ _ _ h2
      have e3 := reg_tops _ _ _ _ h3
      have e4 := reg_auto_tops _ _ _ _ h4
      have e5 := reg_loss_weights k w4.net
      have e6 := reg_param_flags param k (Init.loss_weights k w4.net, s2.2)
      have e : (Init.param_flags param k (Init.loss_weights k w4.net, s2.2)).1.registry =
          { w.net.registry with
            traits := w.net.registry.traits ++
              [(CreateLayer (Init.inherit_phase (param.layer.getD k default)
                w.net.phase_)).traits] } := by
        rw [e6, e5, e4, e3, e2]
        exact e1
      have hI6 : RegInv (Init.param_flags param k (Init.loss_weights k w4.net, s2.2)).1.registry := by
        rw [e]
        exact RegInv.add_layer hI _
      have hlen6 : (Init.param_flags param k
          (Init.loss_weights k w4.net, s2.2)).1.registry.traits.length = k + 1 := by
        rw [e]
        show (w.net.registry.traits ++ [_]).length = k + 1
        rw [List.length_append, hlen]
        rfl
      obtain ⟨r1, r2⟩ := reg_params _ _ _ _ hI6 (by rw [hlen6]; omega) h7
      have e8 := reg_set_need_backward k
        (Init.param_flags param k (Init.loss_weights k w4.net, s2.2)).2 net7
      constructor
      · show RegInv (Init.set_need_backward _ _ _).registry
        rw [e8]
        exact r1
      · show (Init.set_need_backward _ _ _).registry.traits.length = k + 1
        rw [e8, r2]
        exact hlen6

/-- The wiring ends with the registry in its invariant. -/
theorem wire_registry (CreateLayer : LayerParameter → Layer) (param : NetParameter)
    (phase_ : Phase) (w : Wiring) (h : Init.wire CreateLayer param phase_ = .ok w) :
    RegInv w.net.registry := by
  unfold Init.wire at h
  split at h
  · cases h
  · split at h
    · cases h
    · split at h
      · cases h
      · dsimp only at h
        obtain ⟨w1, h1, h⟩ := Except.bind_eq_ok h
        have g1 := reg_inputs _ _ _ h1
        have key := forRange_induction
          (fun (k : Nat) (t : Wiring) => RegInv t.net.registry ∧
            t.net.registry.traits.length = k)
          _ _ _ _ ?_ ?_ h
        · exact key.1
        · have e : ({ w1.net with
              bottom_vecs_ := resized param.layer.length
              top_vecs_ := resized param.layer.length
              bottom_id_vecs_ := resized param.layer.length
              param_id_vecs_ := resized param.layer.length
              top_id_vecs_ := resized param.layer.length
              bottom_need_backward_ := resized param.layer.length } : Net).registry =
              w1.net.registry := rfl
          constructor
          · show RegInv ({ w1.net with
              bottom_vecs_ := resized param.layer.length
              top_vecs_ := resized param.layer.length
              bottom_id_vecs_ := resized param.layer.length
              param_id_vecs_ := resized param.layer.length
              top_id_vecs_ := resized param.layer.length
              bottom_need_backward_ := resized param.layer.length } : Net).registry
            rw [e, g1]
            exact RegInv.of_empty _ rfl rfl rfl rfl rfl rfl rfl rfl rfl rfl
          · show ({ w1.net with
              bottom_vecs_ := resized param.layer.length
              top_vecs_ := resized param.layer.length
              bottom_id_vecs_ := resized param.layer.length
              param_id_vecs_ := resized param.layer.length
              top_id_vecs_ := resized param.layer.length
              bottom_need_backward_ := resized param.layer.length } :
                Net).registry.traits.length = 0
            rw [e, g1]
            rfl
        · intro k t t' hk ht hstep
          exact reg_layer CreateLayer param k t t' ht.1 ht.2 hstep

theorem reg_clear_layer (l : Nat) (flags : Bool × Bool) (net : Net) :
    (Init.clear_layer l flags net).registry = net.registry := by
  unfold Init.clear_layer
  dsimp only
  split <;> split <;> rfl

theorem reg_walk_bottoms (l : Nat) (c : Bool) (s : Walk) :
    (Init.walk_bottoms l c s).net.registry = s.net.registry := by
  unfold Init.walk_bottoms
  refine forUp_induction (fun (_ : Nat) (t : Walk) => t.net.registry = s.net.registry) _ _ _
    rfl ?_
  intro i t _ h
  dsimp only
  split <;> split <;> exact h

theorem reg_walk_layer (l : Nat) (s : Walk) :
    (Init.walk_layer l s).net.registry = s.net.registry := by
  unfold Init.walk_layer
  dsimp only
  rw [reg_walk_bottoms]
  exact reg_clear_layer _ _ _

theorem reg_walk (net : Net) (visited : Nat) :
    (Init.walk net visited).net.registry = net.registry := by
  induction visited with
  | zero => rfl
  | succ v ih => exact (reg_walk_layer _ _).trans ih

theorem reg_force_backward_layer (l : Nat) (net : Net) :
    (Init.force_backward_layer l net).registry = net.registry := by
  unfold Init.force_backward_layer
  dsimp only
  refine forUp_induction (fun (_ : Nat) (t : Net) => t.registry = net.registry) _ _ _ ?_ ?_
  · exact forUp_induction (fun (_ : Nat) (t : Net) => t.registry = net.registry) _ _ _
      rfl (fun i t _ h => h)
  · intro i t _ h
    exact (registry_set_layer t l i true).trans h

theorem reg_force_backward (net : Net) (n : Nat) :
    (forUp n (fun layer_id net => Init.force_backward_layer layer_id net) net).registry =
      net.registry :=
  forUp_induction (fun (_ : Nat) (t : Net) => t.registry = net.registry) _ _ _ rfl
    (fun i t _ h => (reg_force_backward_layer i t).trans h)

theorem reg_outputs (a : StdSet) (s : Net × StdMap) :
    (Init.outputs a s).1.registry = s.1.registry := by
  induction a generalizing s with
  | nil => rfl
  | cons x xs ih =>
    unfold Init.outputs
    dsimp only
    rw [ih]
    rfl

theorem reg_name_indices (net : Net) : (Init.name_indices net).registry = net.registry := by
  unfold Init.name_indices
  dsimp only
  refine forUp_induction (fun (_ : Nat) (t : Net) => t.registry = net.registry) _ _ _ ?_
    (fun i t _ h => h)
  exact forUp_induction (fun (_ : Nat) (t : Net) => t.registry = net.registry) _ _ _ rfl
    (fun i t _ h => h)

/-- The net `Init.finish` hands to `ShareWeights` has the registry of the
wiring, and the net it returns has the registry `ShareWeights` leaves. -/
theorem finish_registry (param : NetParameter) (w : Wiring) (net : Net)
    (h : Init.finish param w = .ok net) :
    ∃ net4 net5, net4.registry = w.net.registry ∧ ShareWeights net4 = .ok net5 ∧
      net.registry = net5.registry := by
  unfold Init.finish at h
  dsimp only at h
  obtain ⟨net5, h5, h⟩ := Except.bind_eq_ok h
  injection h with h
  refine ⟨_, net5, ?_, h5, by rw [← h]; rfl⟩
  rw [reg_name_indices, reg_outputs]
  split
  · rw [reg_force_backward]
    exact reg_walk _ _
  · exact reg_walk _ _

theorem root_of_owner {r : Registry} {i : Nat} (h : r.param_owners_[i]? = some (-1)) :
    r.root i = i := by
  unfold Registry.root
  rw [List.getD_eq_getElem?_getD, h]
  rfl

theorem root_of_shared {r : Registry} {i o : Nat} (h : r.param_owners_[i]? = some (o : Int)) :
    r.root i = o := by
  unfold Registry.root
  rw [List.getD_eq_getElem?_getD, h]
  simp

/-- What `ShareWeights` does to a net whose registry is in its invariant:
only `params_` changes, and there every parameter keeps its shape and gets
the storage handles of its owner. -/
theorem ShareWeights_spec (net net' : Net) (hI : RegInv net.registry)
    (h : ShareWeights net = .ok net') :
    ∃ ps, net' = { net with params_ := ps } ∧ ps.length = net.params_.length ∧
      ∀ i, i < net.params_.length →
        ps[i]? = some { shape_ := net.registry.shape_of i, data_ := net.registry.root i,
                        diff_ := net.registry.root i } := by
  unfold ShareWeights at h
  have key := forRange_induction
    (fun (k : Nat) (t : Net) => ∃ ps, t = { net with params_ := ps } ∧
      ps.length = net.params_.length ∧
      ∀ i, i < net.params_.length →
        ps[i]? = some
          (if i < k then
            { shape_ := net.registry.shape_of i, data_ := net.registry.root i,
              diff_ := net.registry.root i }
          else { shape_ := net.registry.shape_of i, data_ := i, diff_ := i }))
    net.params_.length _ net net' ⟨net.params_, rfl, rfl, ?_⟩ ?_ h
  · obtain ⟨ps, e1, e2, e3⟩ := key
    refine ⟨ps, e1, e2, ?_⟩
    intro i hi
    rw [e3 i hi, if_pos hi]
  · intro i hi
    rw [if_neg (Nat.not_lt_zero _)]
    exact hI.blob i hi
  · intro k t t' hk ht hstep
    obtain ⟨ps, rfl, e2, e3⟩ := ht
    dsimp only at hstep
    have hown : ∀ x : Int, net.param_owners_[k]? = some x → net.param_owners_.getD k (-1) = x := by
      intro x hx
      rw [List.getD_eq_getElem?_getD, hx]
      rfl
    rcases hI.owner k hk with ⟨_, h2⟩ | ⟨o, _, h2, h3, h4, h5⟩
    · have h2' : net.param_owners_[k]? = some (-1) := h2
      rw [hown _ h2', if_pos (by omega)] at hstep
      injection hstep with hstep
      subst hstep
      refine ⟨ps, rfl, e2, ?_⟩
      intro i hi
      rw [e3 i hi]
      by_cases hik : i = k
      · subst hik
        rw [if_neg (Nat.lt_irrefl _), if_pos (Nat.lt_succ_self _), root_of_owner h2]
      · by_cases hlt : i < k
        · rw [if_pos hlt, if_pos (by omega)]
        · rw [if_neg hlt, if_neg (by omega)]
    · have h5' : net.param_owners_[k]? = some (o : Int) := h5
      rw [hown _ h5', if_neg (by omega)] at hstep
      have hoo : net.registry.param_owners_[o]? = some (-1) := by
        rcases hI.owner o (Nat.lt_trans h2 hk) with ⟨_, q2⟩ | ⟨o', _, q2, q3, _, _⟩
        · exact q2
        · exact absurd (q3.trans h3) (h4 o' q2)
      have hpo : ps.getD (o : Int).toNat default =
          { shape_ := net.registry.shape_of o, data_ := o, diff_ := o } := by
        rw [Int.toNat_ofNat, List.getD_eq_getElem?_getD, e3 o (Nat.lt_trans h2 hk), if_pos h2,
          root_of_owner hoo]
        rfl
      have hpk : ps.getD k default =
          { shape_ := net.registry.shape_of k, data_ := k, diff_ := k } := by
        rw [List.getD_eq_getElem?_getD, e3 k hk, if_neg (Nat.lt_irrefl _)]
        rfl
      rw [hpo, hpk] at hstep
      obtain ⟨s1, hs1, hstep⟩ := Except.bind_eq_ok hstep
      obtain ⟨s2, hs2, hstep⟩ := Except.bind_eq_ok hstep
      injection hstep with hstep
      subst hstep
      unfold Blob.ShareData at hs1
      split at hs1
      · cases hs1
      · injection hs1 with hs1
        subst hs1
        unfold Blob.ShareDiff at hs2
        split at hs2
        · cases hs2
        · injection hs2 with hs2
          subst hs2
          refine ⟨_, rfl, ?_, ?_⟩
          · rw [List.length_set]
            exact e2
          · intro i hi
            rw [List.getElem?_set]
            by_cases hik : k = i
            · subst hik
              rw [if_pos rfl, if_pos (by rw [e2]; exact hi), if_pos (Nat.lt_succ_self _),
                root_of_shared h5]
            · rw [if_neg hik, e3 i hi]
              by_cases hlt : i < k
              · rw [if_pos hlt, if_pos (by omega)]
              · rw [if_neg hlt, if_neg (by omega)]

/-- The registry of a net `Init` returns: the registry the wiring built, in
its invariant, with the storage handles in `params_` those of the owners. -/
theorem Init_registry (CreateLayer : LayerParameter → Layer)
    (InsertSplits : NetParameter → NetParameter) (in_param : NetParameter) (result : Net)
    (hinit : Init CreateLayer InsertSplits in_param = .ok result) :
    ∃ (r : Registry) (ps : List Blob), RegInv r ∧ result.registry = { r with params_ := ps } ∧
      ps.length = r.params_.length ∧
      ∀ i, i < r.params_.length →
        ps[i]? = some { shape_ := r.shape_of i, data_ := r.root i, diff_ := r.root i } := by
  obtain ⟨filtered, w, _, hw, hfin⟩ := Init_ok _ _ _ _ hinit
  have hI := wire_registry _ _ _ _ hw
  obtain ⟨net4, net5, e4, h5, e5⟩ := finish_registry _ _ _ hfin
  rw [← e4] at hI
  obtain ⟨ps, rfl, p1, p2⟩ := ShareWeights_spec _ _ hI h5
  exact ⟨net4.registry, ps, hI, e5, p1, p2⟩

/-- C16: in every net `Init` returns, parameter `i` is registered as an owner
(`param_owners_[i]` is -1) exactly when its name is empty or no earlier
parameter was registered with its name; otherwise `param_owners_[i]` is the
index of the first parameter that was registered with that name. -/
theorem C16_owner_iff_name_is_new (CreateLayer : LayerParameter → Layer)
    (InsertSplits : NetParameter → NetParameter) (in_param : NetParameter) (result : Net)
    (i : Nat) (hinit : Init CreateLayer InsertSplits in_param = .ok result)
    (hi : i < result.params_.length) :
    result.param_owners_.length = result.params_.length ∧
    (result.param_owners_[i]? = some (-1) ↔
      (result.param_name i).length = 0 ∨
        ∀ j, j < i → result.param_name j ≠ result.param_name i) ∧
    (¬ ((result.param_name i).length = 0 ∨
        ∀ j, j < i → result.param_name j ≠ result.param_name i) →
      ∃ o : Nat, result.param_owners_[i]? = some (o : Int) ∧ o < i ∧
        result.param_name o = result.param_name i ∧
        ∀ j, j < o → result.param_name j ≠ result.param_name i) := by
  obtain ⟨r, ps, hI, e, p1, _⟩ := Init_registry _ _ _ _ hinit
  have hown : result.param_owners_ = r.param_owners_ := congrArg Registry.param_owners_ e
  have hps : result.params_ = ps := congrArg Registry.params_ e
  have hname : ∀ j, result.param_name j = r.name_of j := by
    intro j
    unfold Net.param_name
    rw [e]
    rfl
  have hi' : i < r.params_.length := by
    rw [← p1, ← hps]
    exact hi
  simp only [hname, hown]
  refine ⟨by rw [hps, p1]; exact hI.len_owners, ?_, ?_⟩
  · constructor
    · intro h
      rcases hI.owner i hi' with ⟨h1, _⟩ | ⟨o, _, _, _, _, h5⟩
      · exact h1
      · rw [h5] at h
        injection h with h
        omega
    · intro h
      rcases hI.owner i hi' with ⟨_, h2⟩ | ⟨o, h1, h2, h3, _, _⟩
      · exact h2
      · rcases h with h | h
        · exact absurd h h1
        · exact absurd h3 (h o h2)
  · intro h
    rcases hI.owner i hi' with ⟨h1, _⟩ | ⟨o, _, h2, h3, h4, h5⟩
    · exact absurd h1 h
    · exact ⟨o, h5, h2, h3, h4⟩

/-- C16 on `shared_example`: the parameters of "a" and "e" are owners, those
of "b" and "c" have the parameter of "a", the first named "w", as owner. -/
theorem C16_witness :
    ∃ result, Init share_factory id shared_example = .ok result ∧
      result.param_owners_ = [-1, 0, 0, -1] ∧
      (result.param_owners_[0]? = some (-1) ↔
        (result.param_name 0).length = 0 ∨
          ∀ j, j < 0 → result.param_name j ≠ result.param_name 0) ∧
      ∃ o : Nat, result.param_owners_[2]? = some (o : Int) ∧ o < 2 ∧
        result.param_name o = result.param_name 2 := by
  obtain ⟨result, hinit, hp⟩ := of_returns_with (Init share_factory id shared_example)
    (fun r => decide (r.param_owners_ = [-1, 0, 0, -1] ∧ 2 < r.params_.length ∧
      r.param_name 2 = "w" ∧ r.param_name 0 = "w" ∧ r.param_name 1 = "w"))
    (by decide)
  obtain ⟨q1, q2, q3, q4, q5⟩ := of_decide_eq_true hp
  obtain ⟨_, h0, _⟩ := C16_owner_iff_name_is_new share_factory id shared_example result 0 hinit
    (by omega)
  obtain ⟨_, _, h2⟩ := C16_owner_iff_name_is_new share_factory id shared_example result 2 hinit
    q2
  obtain ⟨o, a, b, c, _⟩ := h2 (by
    intro h
    rcases h with h | h
    · rw [q3] at h
      exact absurd h (by decide)
    · exact h 0 (by omega) (by rw [q3, q4]))
  exact ⟨result, hinit, q1, h0, o, a, b, c⟩

/-! ## The sharing branch of `AppendParam` -/

/-- The owner branch of `AppendParam`: taken when the name is empty or was
not seen, and it cannot abort. -/
theorem AppendParam_owned (net : Net) (param : NetParameter) (l p : Nat)
    (h : (AppendParam.param_name (net.layers_.getD l default).layer_param_ p).length = 0 ∨
      StdMap.find net.param_names_index_
        (AppendParam.param_name (net.layers_.getD l default).layer_param_ p) = none) :
    AppendParam net param l p =
      .ok (AppendParam.owns (AppendParam.push net l p)
        (AppendParam.param_name (net.layers_.getD l default).layer_param_ p)
        (AppendParam.param_spec (net.layers_.getD l default).layer_param_ p)
        net.params_.length) := by
  unfold AppendParam
  dsimp only
  rw [if_pos]
  by_cases h0 : (AppendParam.param_name (net.layers_.getD l default).layer_param_ p).length = 0
  · exact Or.inr (Or.inl h0)
  · rcases h with h | h
    · exact absurd h h0
    · exact Or.inr (Or.inr ⟨h0, h⟩)

/-- The sharing branch of `AppendParam`, taken when the name is not empty and
was seen: the two checks of the shapes, then the checks of the multipliers
against those of the group. -/
theorem AppendParam_shared (net : Net) (param : NetParameter) (l p o : Nat)
    (hname : (AppendParam.param_name (net.layers_.getD l default).layer_param_ p).length ≠ 0)
    (hfind : StdMap.find net.param_names_index_
      (AppendParam.param_name (net.layers_.getD l default).layer_param_ p) = some o)
    (ho : o < net.param_layer_indices_.length) :
    AppendParam net param l p =
      if (AppendParam.param_spec (net.layers_.getD l default).layer_param_ p).share_mode =
            .PERMISSIVE ∧
          shape_count ((net.layers_.getD l default).blobs_.getD p []) ≠
            shape_count (net.param_shape o) then
        .error (.share_count_mismatch
          (AppendParam.param_name (net.layers_.getD l default).layer_param_ p))
      else if (AppendParam.param_spec (net.layers_.getD l default).layer_param_ p).share_mode ≠
            .PERMISSIVE ∧
          (net.layers_.getD l default).blobs_.getD p [] ≠ net.param_shape o then
        .error (.share_shape_mismatch
          (AppendParam.param_name (net.layers_.getD l default).layer_param_ p))
      else
        (AppendParam.share_lr
            { AppendParam.push net l p with
              param_names_index_ := net.param_names_index_
              param_owners_ := net.param_owners_ ++ [(o : Int)]
              learnable_param_ids_ := net.learnable_param_ids_ ++
                [net.learnable_param_ids_.getD o 0] }
            (AppendParam.param_name (net.layers_.getD l default).layer_param_ p)
            (AppendParam.param_spec (net.layers_.getD l default).layer_param_ p)
            (net.learnable_param_ids_.getD o 0)).bind fun net3 =>
          AppendParam.share_decay net3
            (AppendParam.param_name (net.layers_.getD l default).layer_param_ p)
            (AppendParam.param_spec (net.layers_.getD l default).layer_param_ p)
            (net.learnable_param_ids_.getD o 0) := by
  have hsize := param_name_length _ _ hname
  have hspec : AppendParam.param_spec (net.layers_.getD l default).layer_param_ p =
      (net.layers_.getD l default).layer_param_.param.getD p default := by
    unfold AppendParam.param_spec
    rw [if_pos hsize]
  have hidx : StdMap.index (AppendParam.push net l p).param_names_index_
      (AppendParam.param_name (net.layers_.getD l default).layer_param_ p) =
      (o, net.param_names_index_) := StdMap.index_of_find hfind
  have hshape_o : ((AppendParam.push net l p).layers_.getD
      ((AppendParam.push net l p).param_layer_indices_.getD o (0, 0)).1 default).blobs_.getD
      ((AppendParam.push net l p).param_layer_indices_.getD o (0, 0)).2 [] =
      net.param_shape o := by
    have e : (AppendParam.push net l p).param_layer_indices_.getD o (0, 0) =
        net.registry.place o := by
      show (net.param_layer_indices_ ++ [(l, p)]).getD o (0, 0) = _
      rw [getD_append_lt _ _ _ _ ho]
      rfl
    rw [e]
    unfold Net.param_shape Registry.shape_of
    rw [(registry_layer_param net _).2]
    rfl
  unfold AppendParam
  dsimp only
  rw [if_neg (by
    intro h
    rcases h with h | h | ⟨_, h⟩
    · omega
    · exact hname h
    · rw [show (AppendParam.push net l p).param_names_index_ = net.param_names_index_ from rfl,
        hfind] at h
      cases h)]
  unfold AppendParam.shares
  dsimp only
  rw [hidx]
  dsimp only
  rw [hshape_o, hspec]
  have hthis : (AppendParam.this_blob net l p).shape_ =
      (net.layers_.getD l default).blobs_.getD p [] := rfl
  have hcount : (AppendParam.this_blob net l p).count =
      shape_count ((net.layers_.getD l default).blobs_.getD p []) := rfl
  have hcount_o : ∀ a b : Nat,
      Blob.count { shape_ := net.param_shape o, data_ := a, diff_ := b } =
      shape_count (net.param_shape o) := fun _ _ => rfl
  rw [hthis, hcount, hcount_o]
  generalize ((net.layers_.getD l default).layer_param_.param.getD p default).share_mode = mode
  generalize shape_count ((net.layers_.getD l default).blobs_.getD p []) = c1
  generalize shape_count (net.param_shape o) = c2
  generalize (net.layers_.getD l default).blobs_.getD p [] = s1
  generalize net.param_shape o = s2
  rw [decide_eq_true hsize, Bool.true_and]
  by_cases hperm : mode = .PERMISSIVE
  · rw [decide_eq_true hperm]
    by_cases hc : c1 = c2
    · rw [if_neg (by rw [decide_eq_false (not_not_intro hc)]; decide), if_neg (by simp),
        if_neg (fun h => h.2 hc), if_neg (fun h => h.1 hperm)]
      rfl
    · rw [if_pos (by rw [decide_eq_true hc]; decide), if_pos ⟨hperm, hc⟩]
  · rw [decide_eq_false hperm]
    by_cases hc : s1 = s2
    · rw [if_neg (by simp), if_neg (by rw [decide_eq_false (not_not_intro hc)]; decide),
        if_neg (fun h => hperm h.1), if_neg (fun h => h.2 hc)]
      rfl
    · rw [if_neg (by simp), if_pos (by rw [decide_eq_true hc]; decide),
        if_neg (fun h => hperm h.1), if_pos ⟨hperm, hc⟩]

/-- C17: a parameter whose name was registered for parameter `o` passes
`AppendParam` only with a compatible shape. Under its PERMISSIVE share mode an
element count other than the owner's aborts with the fatal check of the
counts, and an equal count is enough (with no multiplier declared the call
returns); under any other share mode a shape other than the owner's aborts
with the fatal check of the shapes, and an equal shape is enough. So in every
net `Init` returns each shared parameter has the count (PERMISSIVE) or the
shape (otherwise) of its owner. -/
theorem C17_sharing_checks_shapes (net : Net) (param : NetParameter)
    (layer_id param_id o : Nat)
    (hname : (AppendParam.param_name (net.layers_.getD layer_id default).layer_param_
      param_id).length ≠ 0)
    (hfind : StdMap.find net.param_names_index_
      (AppendParam.param_name (net.layers_.getD layer_id default).layer_param_ param_id) =
        some o)
    (ho : o < net.param_layer_indices_.length) :
    ((AppendParam.param_spec (net.layers_.getD layer_id default).layer_param_
        param_id).share_mode = .PERMISSIVE →
      (shape_count ((net.layers_.getD layer_id default).blobs_.getD param_id []) ≠
          shape_count (net.param_shape o) →
        AppendParam net param layer_id param_id =
          .error (.share_count_mismatch
            (AppendParam.param_name (net.layers_.getD layer_id default).layer_param_
              param_id))) ∧
      (shape_count ((net.layers_.getD layer_id default).blobs_.getD param_id []) =
          shape_count (net.param_shape o) →
        (AppendParam.param_spec (net.layers_.getD layer_id default).layer_param_
          param_id).lr_mult = none →
        (AppendParam.param_spec (net.layers_.getD layer_id default).layer_param_
          param_id).decay_mult = none →
        ∃ net', AppendParam net param layer_id param_id = .ok net' ∧
          net'.param_owners_ = net.param_owners_ ++ [(o : Int)])) ∧
    ((AppendParam.param_spec (net.layers_.getD layer_id default).layer_param_
        param_id).share_mode ≠ .PERMISSIVE →
      ((net.layers_.getD layer_id default).blobs_.getD param_id [] ≠ net.param_shape o →
        AppendParam net param layer_id param_id =
          .error (.share_shape_mismatch
            (AppendParam.param_name (net.layers_.getD layer_id default).layer_param_
              param_id))) ∧
      ((net.layers_.getD layer_id default).blobs_.getD param_id [] = net.param_shape o →
        (AppendParam.param_spec (net.layers_.getD layer_id default).layer_param_
          param_id).lr_mult = none →
        (AppendParam.param_spec (net.layers_.getD layer_id default).layer_param_
          param_id).decay_mult = none →
        ∃ net', AppendParam net param layer_id param_id = .ok net' ∧
          net'.param_owners_ = net.param_owners_ ++ [(o : Int)])) ∧
    (∀ net', AppendParam net param layer_id param_id = .ok net' →
      ((AppendParam.param_spec (net.layers_.getD layer_id default).layer_param_
          param_id).share_mode = .PERMISSIVE →
        shape_count ((net.layers_.getD layer_id default).blobs_.getD param_id []) =
          shape_count (net.param_shape o)) ∧
      ((AppendParam.param_spec (net.layers_.getD layer_id default).layer_param_
          param_id).share_mode ≠ .PERMISSIVE →
        (net.layers_.getD layer_id default).blobs_.getD param_id [] = net.param_shape o)) ∧
    (∀ (CreateLayer : LayerParameter → Layer) (InsertSplits : NetParameter → NetParameter)
        (in_param : NetParameter) (result : Net),
      Init CreateLayer InsertSplits in_param = .ok result →
      ∀ i owner : Nat, result.param_owners_[i]? = some (owner : Int) →
        ((result.param_spec i).share_mode = .PERMISSIVE →
          shape_count (result.param_shape i) = shape_count (result.param_shape owner)) ∧
        ((result.param_spec i).share_mode ≠ .PERMISSIVE →
          result.param_shape i = result.param_shape owner)) := by
  have hcases := AppendParam_shared net param layer_id param_id o hname hfind ho
  have hfree : (AppendParam.param_spec (net.layers_.getD layer_id default).layer_param_
        param_id).lr_mult = none →
      (AppendParam.param_spec (net.layers_.getD layer_id default).layer_param_
        param_id).decay_mult = none →
      ¬ ((AppendParam.param_spec (net.layers_.getD layer_id default).layer_param_
            param_id).share_mode = .PERMISSIVE ∧
          shape_count ((net.layers_.getD layer_id default).blobs_.getD param_id []) ≠
            shape_count (net.param_shape o)) →
      ¬ ((AppendParam.param_spec (net.layers_.getD layer_id default).layer_param_
            param_id).share_mode ≠ .PERMISSIVE ∧
          (net.layers_.getD layer_id default).blobs_.getD param_id [] ≠ net.param_shape o) →
      ∃ net', AppendParam net param layer_id param_id = .ok net' ∧
        net'.param_owners_ = net.param_owners_ ++ [(o : Int)] := by
    intro hlr hdecay h1 h2
    rw [hcases, if_neg h1, if_neg h2]
    unfold AppendParam.share_lr
    rw [hlr]
    unfold AppendParam.share_decay
    rw [hdecay]
    exact ⟨_, rfl, rfl⟩
  refine ⟨?_, ?_, ?_, ?_⟩
  · intro hperm
    constructor
    · intro hc
      rw [hcases, if_pos ⟨hperm, hc⟩]
    · intro hc hlr hdecay
      exact hfree hlr hdecay (fun h => h.2 hc) (fun h => h.1 hperm)
  · intro hperm
    constructor
    · intro hc
      rw [hcases, if_neg (fun h => hperm h.1), if_pos ⟨hperm, hc⟩]
    · intro hc hlr hdecay
      exact hfree hlr hdecay (fun h => hperm h.1) (fun h => h.2 hc)
  · intro net' h
    rw [hcases] at h
    split at h
    · cases h
    · rename_i h1
      split at h
      · cases h
      · rename_i h2
        constructor
        · intro hperm
          by_contra hc
          exact h1 ⟨hperm, hc⟩
        · intro hperm
          by_contra hc
          exact h2 ⟨hperm, hc⟩
  · intro CreateLayer InsertSplits in_param result hinit i owner hio
    obtain ⟨r, ps, hI, e, _, _⟩ := Init_registry _ _ _ _ hinit
    have hown : result.param_owners_ = r.param_owners_ := congrArg Registry.param_owners_ e
    rw [hown] at hio
    have hspec : ∀ j, result.param_spec j = r.spec_of j := by
      intro j
      unfold Net.param_spec
      rw [e]
      rfl
    have hshape : ∀ j, result.param_shape j = r.shape_of j := by
      intro j
      unfold Net.param_shape
      rw [e]
      rfl
    rw [hspec, hshape, hshape]
    exact hI.compatible i owner hio

/-- C17 on two layers that name their parameter "w": after the first, of
shape 2 by 3, is registered, the second, of shape 4 and in STRICT mode, aborts
the sharing with the check of the shapes. -/
theorem C17_witness :
    ∃ s1, AppendParam (share_state (sharing_layer "a" (named_spec "w" .STRICT))
        (sharing_layer "d" (named_spec "w" .STRICT))) default 0 0 = .ok s1 ∧
      StdMap.find s1.param_names_index_ "w" = some 0 ∧
      (s1.layers_.getD 1 default).blobs_.getD 0 [] = [4] ∧ s1.param_shape 0 = [2, 3] ∧
      AppendParam s1 default 1 0 = .error (.share_shape_mismatch "w") := by
  obtain ⟨s1, h1, hp⟩ := of_returns_with
    (AppendParam (share_state (sharing_layer "a" (named_spec "w" .STRICT))
      (sharing_layer "d" (named_spec "w" .STRICT))) default 0 0)
    (fun s => decide (AppendParam.param_name (s.layers_.getD 1 default).layer_param_ 0 = "w" ∧
      StdMap.find s.param_names_index_ "w" = some 0 ∧ 0 < s.param_layer_indices_.length ∧
      (AppendParam.param_spec (s.layers_.getD 1 default).layer_param_ 0).share_mode ≠
        .PERMISSIVE ∧
      (s.layers_.getD 1 default).blobs_.getD 0 [] = [4] ∧ s.param_shape 0 = [2, 3]))
    (by decide)
  obtain ⟨q1, q2, q3, q4, q5, q6⟩ := of_decide_eq_true hp
  have h := ((C17_sharing_checks_shapes s1 default 1 0 0 (by rw [q1]; decide)
    (by rw [q1]; exact q2) q3).2.1 q4).1 (by rw [q5, q6]; decide)
  rw [q1] at h
  exact ⟨s1, h1, q2, q5, q6, h⟩

/-- The sharing branch of `AppendParam` once the shapes passed: the checks of
the multipliers. -/
theorem AppendParam_shared_compatible (net : Net) (param : NetParameter) (l p o : Nat)
    (hname : (AppendParam.param_name (net.layers_.getD l default).layer_param_ p).length ≠ 0)
    (hfind : StdMap.find net.param_names_index_
      (AppendParam.param_name (net.layers_.getD l default).layer_param_ p) = some o)
    (ho : o < net.param_layer_indices_.length)
    (hcompat :
      if (AppendParam.param_spec (net.layers_.getD l default).layer_param_ p).share_mode =
          .PERMISSIVE then
        shape_count ((net.layers_.getD l default).blobs_.getD p []) =
          shape_count (net.param_shape o)
      else (net.layers_.getD l default).blobs_.getD p [] = net.param_shape o) :
    AppendParam net param l p =
      (AppendParam.share_lr
          { AppendParam.push net l p with
            param_names_index_ := net.param_names_index_
            param_owners_ := net.param_owners_ ++ [(o : Int)]
            learnable_param_ids_ := net.learnable_param_ids_ ++
              [net.learnable_param_ids_.getD o 0] }
          (AppendParam.param_name (net.layers_.getD l default).layer_param_ p)
          (AppendParam.param_spec (net.layers_.getD l default).layer_param_ p)
          (net.learnable_param_ids_.getD o 0)).bind fun net3 =>
        AppendParam.share_decay net3
          (AppendParam.param_name (net.layers_.getD l default).layer_param_ p)
          (AppendParam.param_spec (net.layers_.getD l default).layer_param_ p)
          (net.learnable_param_ids_.getD o 0) := by
  rw [AppendParam_shared net param l p o hname hfind ho]
  split at hcompat
  · rename_i hperm
    rw [if_neg (fun h => h.2 hcompat), if_neg (fun h => h.1 hperm)]
  · rename_i hperm
    rw [if_neg (fun h => hperm h.1), if_neg (fun h => h.2 hcompat)]

/-- What the check of `lr_mult` returns: the net as it is when the parameter
declares none or the group has a value (which then is the declared one), and
the net with the declared value for the group otherwise. -/
theorem share_lr_ok (net net' : Net) (n : String) (ps : ParamSpec) (L : Nat)
    (h : AppendParam.share_lr net n ps L = .ok net') :
    (net' = net ∧ (ps.lr_mult = none ∨
      (net.has_params_lr_.getD L false = true ∧
        ps.lr_mult = some (net.params_lr_.getD L 0)))) ∨
    (∃ v, ps.lr_mult = some v ∧ net.has_params_lr_.getD L false = false ∧
      net' = { net with
        has_params_lr_ := net.has_params_lr_.set L true
        params_lr_ := net.params_lr_.set L v }) := by
  unfold AppendParam.share_lr at h
  cases hv : ps.lr_mult with
  | none =>
    rw [hv] at h
    injection h with h
    exact Or.inl ⟨h.symm, Or.inl rfl⟩
  | some v =>
    have hval : ps.lr_mult_value = v := by
      unfold ParamSpec.lr_mult_value
      rw [hv]
      rfl
    rw [hv, hval] at h
    rw [if_pos (show (some v).isSome = true from rfl)] at h
    split at h
    · rename_i hhas
      split at h
      · cases h
      · rename_i heq
        injection h with h
        exact Or.inl ⟨h.symm, Or.inr ⟨hhas, by rw [not_not.1 heq]⟩⟩
    · rename_i hhas
      injection h with h
      exact Or.inr ⟨v, rfl, by simpa using hhas, h.symm⟩

/-- What the check of `decay_mult` returns, as `share_lr_ok`. -/
theorem share_decay_ok (net net' : Net) (n : String) (ps : ParamSpec) (L : Nat)
    (h : AppendParam.share_decay net n ps L = .ok net') :
    (net' = net ∧ (ps.decay_mult = none ∨
      (net.has_params_decay_.getD L false = true ∧
        ps.decay_mult = some (net.params_weight_decay_.getD L 0)))) ∨
    (∃ v, ps.decay_mult = some v ∧ net.has_params_decay_.getD L false = false ∧
      net' = { net with
        has_params_decay_ := net.has_params_decay_.set L true
        params_weight_decay_ := net.params_weight_decay_.set L v }) := by
  unfold AppendParam.share_decay at h
  cases hv : ps.decay_mult with
  | none =>
    rw [hv] at h
    injection h with h
    exact Or.inl ⟨h.symm, Or.inl rfl⟩
  | some v =>
    have hval : ps.decay_mult_value = v := by
      unfold ParamSpec.decay_mult_value
      rw [hv]
      rfl
    rw [hv, hval] at h
    rw [if_pos (show (some v).isSome = true from rfl)] at h
    split at h
    · rename_i hhas
      split at h
      · cases h
      · rename_i heq
        injection h with h
        exact Or.inl ⟨h.symm, Or.inr ⟨hhas, by rw [not_not.1 heq]⟩⟩
    · rename_i hhas
      injection h with h
      exact Or.inr ⟨v, rfl, by simpa using hhas, h.symm⟩

/-- The check of `lr_mult` aborts on a declared value other than the one the
group has. -/
theorem share_lr_mismatch (net : Net) (n : String) (ps : ParamSpec) (L : Nat) (v : Dtype)
    (hv : ps.lr_mult = some v) (hhas : net.has_params_lr_.getD L false = true)
    (hne : net.params_lr_.getD L 0 ≠ v) :
    AppendParam.share_lr net n ps L = .error (.mismatched_lr_mult n) := by
  unfold AppendParam.share_lr
  have hval : ps.lr_mult_value = v := by
    unfold ParamSpec.lr_mult_value
    rw [hv]
    rfl
  rw [hv, hval, if_pos (show (some v).isSome = true from rfl), if_pos hhas,
    if_pos (fun h => hne h.symm)]

/-- The check of `decay_mult` aborts on a declared value other than the one
the group has. -/
theorem share_decay_mismatch (net : Net) (n : String) (ps : ParamSpec) (L : Nat) (v : Dtype)
    (hv : ps.decay_mult = some v) (hhas : net.has_params_decay_.getD L false = true)
    (hne : net.params_weight_decay_.getD L 0 ≠ v) :
    AppendParam.share_decay net n ps L = .error (.mismatched_decay_mult n) := by
  unfold AppendParam.share_decay
  have hval : ps.decay_mult_value = v := by
    unfold ParamSpec.decay_mult_value
    rw [hv]
    rfl
  rw [hv, hval, if_pos (show (some v).isSome = true from rfl), if_pos hhas,
    if_pos (fun h => hne h.symm)]

/-- The check of `lr_mult` passes when the parameter declares none, the group
has none, or the declared value is the one of the group; it leaves the decay
multipliers alone. -/
theorem share_lr_pass (net : Net) (n : String) (ps : ParamSpec) (L : Nat)
    (hlr : ps.lr_mult = none ∨ net.has_params_lr_.getD L false = false ∨
      ps.lr_mult = some (net.params_lr_.getD L 0)) :
    ∃ net3, AppendParam.share_lr net n ps L = .ok net3 ∧
      net3.has_params_decay_ = net.has_params_decay_ ∧
      net3.params_weight_decay_ = net.params_weight_decay_ := by
  unfold AppendParam.share_lr
  rcases hlr with h | h | h
  · rw [h]
    exact ⟨_, rfl, rfl, rfl⟩
  · split
    · rw [h]
      exact ⟨_, rfl, rfl, rfl⟩
    · exact ⟨_, rfl, rfl, rfl⟩
  · have hval : ps.lr_mult_value = net.params_lr_.getD L 0 := by
      unfold ParamSpec.lr_mult_value
      rw [h]
      rfl
    rw [hval]
    split
    · split
      · rw [if_neg (fun hh => hh rfl)]
        exact ⟨_, rfl, rfl, rfl⟩
      · exact ⟨_, rfl, rfl, rfl⟩
    · exact ⟨_, rfl, rfl, rfl⟩

/-- C18: in every net `Init` returns, a parameter that declares `lr_mult` (or
`decay_mult`) finds its value as the multiplier of its group, the entry of
`params_lr_` (or `params_weight_decay_`) at the `learnable_param_ids_` entry it
has in common with its owner: the multiplier of the group is the first value
declared and every later declaration equals it. In `AppendParam`, a sharing
parameter whose shape passed and that declares a value other than the one its
group has aborts with the check "mismatched lr_mult" (or, the check of
`lr_mult` passed, "mismatched decay_mult"); when the call returns, a group
that had a value, or a parameter that declares none, leaves the vectors of the
multiplier as they were, and a first declaration is written to the group. -/
theorem C18_group_multipliers_agree (CreateLayer : LayerParameter → Layer)
    (InsertSplits : NetParameter → NetParameter) (in_param : NetParameter) (result : Net)
    (hinit : Init CreateLayer InsertSplits in_param = .ok result) :
    (∀ (i : Nat) (v : Dtype), i < result.params_.length →
      (result.param_spec i).lr_mult = some v →
      ∃ L : Nat, result.learnable_param_ids_[i]? = some L ∧
        result.has_params_lr_[L]? = some true ∧ result.params_lr_[L]? = some v) ∧
    (∀ (i : Nat) (v : Dtype), i < result.params_.length →
      (result.param_spec i).decay_mult = some v →
      ∃ L : Nat, result.learnable_param_ids_[i]? = some L ∧
        result.has_params_decay_[L]? = some true ∧
        result.params_weight_decay_[L]? = some v) ∧
    (∀ i o : Nat, result.param_owners_[i]? = some (o : Int) →
      ∃ L : Nat, result.learnable_param_ids_[i]? = some L ∧
        result.learnable_param_ids_[o]? = some L) ∧
    (∀ (net : Net) (param : NetParameter) (layer_id param_id o : Nat),
      (AppendParam.param_name (net.layers_.getD layer_id default).layer_param_
        param_id).length ≠ 0 →
      StdMap.find net.param_names_index_
        (AppendParam.param_name (net.layers_.getD layer_id default).layer_param_ param_id) =
          some o →
      o < net.param_layer_indices_.length →
      (if (AppendParam.param_spec (net.layers_.getD layer_id default).layer_param_
          param_id).share_mode = .PERMISSIVE then
        shape_count ((net.layers_.getD layer_id default).blobs_.getD param_id []) =
          shape_count (net.param_shape o)
      else (net.layers_.getD layer_id default).blobs_.getD param_id [] = net.param_shape o) →
      (∀ v : Dtype,
        (AppendParam.param_spec (net.layers_.getD layer_id default).layer_param_
          param_id).lr_mult = some v →
        net.has_params_lr_.getD (net.learnable_param_ids_.getD o 0) false = true →
        net.params_lr_.getD (net.learnable_param_ids_.getD o 0) 0 ≠ v →
        AppendParam net param layer_id param_id =
          .error (.mismatched_lr_mult
            (AppendParam.param_name (net.layers_.getD layer_id default).layer_param_
              param_id))) ∧
      (∀ v : Dtype,
        ((AppendParam.param_spec (net.layers_.getD layer_id default).layer_param_
            param_id).lr_mult = none ∨
          net.has_params_lr_.getD (net.learnable_param_ids_.getD o 0) false = false ∨
          (AppendParam.param_spec (net.layers_.getD layer_id default).layer_param_
            param_id).lr_mult =
              some (net.params_lr_.getD (net.learnable_param_ids_.getD o 0) 0)) →
        (AppendParam.param_spec (net.layers_.getD layer_id default).layer_param_
          param_id).decay_mult = some v →
        net.has_params_decay_.getD (net.learnable_param_ids_.getD o 0) false = true →
        net.params_weight_decay_.getD (net.learnable_param_ids_.getD o 0) 0 ≠ v →
        AppendParam net param layer_id param_id =
          .error (.mismatched_decay_mult
            (AppendParam.param_name (net.layers_.getD layer_id default).layer_param_
              param_id))) ∧
      (∀ net', AppendParam net param layer_id param_id = .ok net' →
        ((net.has_params_lr_.getD (net.learnable_param_ids_.getD o 0) false = true ∨
            (AppendParam.param_spec (net.layers_.getD layer_id default).layer_param_
              param_id).lr_mult = none) →
          net'.params_lr_ = net.params_lr_ ∧ net'.has_params_lr_ = net.has_params_lr_) ∧
        (∀ v : Dtype,
          net.has_params_lr_.getD (net.learnable_param_ids_.getD o 0) false = false →
          (AppendParam.param_spec (net.layers_.getD layer_id default).layer_param_
            param_id).lr_mult = some v →
          net'.params_lr_ = net.params_lr_.set (net.learnable_param_ids_.getD o 0) v ∧
            net'.has_params_lr_ =
              net.has_params_lr_.set (net.learnable_param_ids_.getD o 0) true) ∧
        ((net.has_params_decay_.getD (net.learnable_param_ids_.getD o 0) false = true ∨
            (AppendParam.param_spec (net.layers_.getD layer_id default).layer_param_
              param_id).decay_mult = none) →
          net'.params_weight_decay_ = net.params_weight_decay_ ∧
            net'.has_params_decay_ = net.has_params_decay_) ∧
        (∀ v : Dtype,
          net.has_params_decay_.getD (net.learnable_param_ids_.getD o 0) false = false →
          (AppendParam.param_spec (net.layers_.getD layer_id default).layer_param_
            param_id).decay_mult = some v →
          net'.params_weight_decay_ =
              net.params_weight_decay_.set (net.learnable_param_ids_.getD o 0) v ∧
            net'.has_params_decay_ =
              net.has_params_decay_.set (net.learnable_param_ids_.getD o 0) true))) := by
  obtain ⟨r, ps, hI, e, p1, _⟩ := Init_registry _ _ _ _ hinit
  have hps : result.params_ = ps := congrArg Registry.params_ e
  have hspec : ∀ j, result.param_spec j = r.spec_of j := by
    intro j
    unfold Net.param_spec
    rw [e]
    rfl
  have e1 : result.learnable_param_ids_ = r.learnable_param_ids_ :=
    congrArg Registry.learnable_param_ids_ e
  have e2 : result.has_params_lr_ = r.has_params_lr_ := congrArg Registry.has_params_lr_ e
  have e3 : result.params_lr_ = r.params_lr_ := congrArg Registry.params_lr_ e
  have e4 : result.has_params_decay_ = r.has_params_decay_ :=
    congrArg Registry.has_params_decay_ e
  have e5 : result.params_weight_decay_ = r.params_weight_decay_ :=
    congrArg Registry.params_weight_decay_ e
  have e6 : result.param_owners_ = r.param_owners_ := congrArg Registry.param_owners_ e
  refine ⟨?_, ?_, ?_, ?_⟩
  · intro i v hi hv
    rw [e1, e2, e3]
    rw [hspec] at hv
    exact hI.lr i v (by rw [← p1, ← hps]; exact hi) hv
  · intro i v hi hv
    rw [e1, e4, e5]
    rw [hspec] at hv
    exact hI.decay i v (by rw [← p1, ← hps]; exact hi) hv
  · intro i o hio
    rw [e6] at hio
    rw [e1]
    obtain ⟨L, h1, h2, _⟩ := hI.ids_shared i o hio
    exact ⟨L, h1, h2⟩
  · intro net param layer_id param_id o hname hfind ho hcompat
    have hrun := AppendParam_shared_compatible net param layer_id param_id o hname hfind ho
      hcompat
    refine ⟨?_, ?_, ?_⟩
    · intro v hv hhas hne
      rw [hrun, share_lr_mismatch
        { AppendParam.push net layer_id param_id with
          param_names_index_ := net.param_names_index_
          param_owners_ := net.param_owners_ ++ [(o : Int)]
          learnable_param_ids_ := net.learnable_param_ids_ ++
            [net.learnable_param_ids_.getD o 0] } _ _ _ v hv hhas hne]
      rfl
    · intro v hlr hv hhas hne
      rw [hrun]
      obtain ⟨net3, h3, d1, d2⟩ := share_lr_pass
        { AppendParam.push net layer_id param_id with
          param_names_index_ := net.param_names_index_
          param_owners_ := net.param_owners_ ++ [(o : Int)]
          learnable_param_ids_ := net.learnable_param_ids_ ++
            [net.learnable_param_ids_.getD o 0] }
        (AppendParam.param_name (net.layers_.getD layer_id default).layer_param_ param_id)
        (AppendParam.param_spec (net.layers_.getD layer_id default).layer_param_ param_id)
        (net.learnable_param_ids_.getD o 0) hlr
      rw [h3]
      show AppendParam.share_decay net3 _ _ _ = _
      exact share_decay_mismatch _ _ _ _ v hv (by rw [d1]; exact hhas) (by rw [d2]; exact hne)
    · intro net' h
      rw [hrun] at h
      obtain ⟨net3, h3, h4⟩ := Except.bind_eq_ok h
      have hlr := share_lr_ok _ _ _ _ _ h3
      have hdecay := share_decay_ok _ _ _ _ _ h4
      have f1 : net'.params_lr_ = net3.params_lr_ ∧ net'.has_params_lr_ = net3.has_params_lr_ := by
        rcases hdecay with ⟨hd, _⟩ | ⟨_, _, _, hd⟩ <;> rw [hd] <;> exact ⟨rfl, rfl⟩
      have f2 : net3.params_weight_decay_ = net.params_weight_decay_ ∧
          net3.has_params_decay_ = net.has_params_decay_ := by
        rcases hlr with ⟨hd, _⟩ | ⟨_, _, _, hd⟩ <;> rw [hd] <;> exact ⟨rfl, rfl⟩
      refine ⟨?_, ?_, ?_, ?_⟩
      · intro hcase
        rw [f1.1, f1.2]
        rcases hlr with ⟨hd, _⟩ | ⟨v, hv, hno, _⟩
        · rw [hd]
          exact ⟨rfl, rfl⟩
        · rcases hcase with hc | hc
          · have hno' : net.has_params_lr_.getD (net.learnable_param_ids_.getD o 0) false =
                false := hno
            rw [hc] at hno'
            cases hno'
          · rw [hc] at hv
            cases hv
      · intro v hno hv
        rw [f1.1, f1.2]
        rcases hlr with ⟨_, hd | ⟨hd, _⟩⟩ | ⟨v', hv', _, hd⟩
        · rw [hv] at hd
          cases hd
        · have hd' : net.has_params_lr_.getD (net.learnable_param_ids_.getD o 0) false =
              true := hd
          rw [hno] at hd'
          cases hd'
        · rw [hv] at hv'
          injection hv' with hv'
          subst hv'
          rw [hd]
          exact ⟨rfl, rfl⟩
      · intro hcase
        rw [← f2.1, ← f2.2]
        rcases hdecay with ⟨hd, _⟩ | ⟨v, hv, hno, _⟩
        · rw [hd]
          exact ⟨rfl, rfl⟩
        · rcases hcase with hc | hc
          · rw [f2.2, hc] at hno
            cases hno
          · rw [hc] at hv
            cases hv
      · intro v hno hv
        rw [← f2.1, ← f2.2]
        rcases hdecay with ⟨_, hd | ⟨hd, _⟩⟩ | ⟨v', hv', _, hd⟩
        · rw [hv] at hd
          cases hd
        · rw [f2.2, hno] at hd
          cases hd
        · rw [hv] at hv'
          injection hv' with hv'
          subst hv'
          rw [hd]
          exact ⟨rfl, rfl⟩

/-- C18 on `shared_example`, where the owner "a" declares no `lr_mult` and the
sharing "b" and "c" declare 2: the multiplier of their group is 2. And on two
layers sharing "w" that declare 2 and 3: the second aborts. -/
theorem C18_witness :
    (∃ result, Init share_factory id shared_example = .ok result ∧
      result.learnable_param_ids_ = [0, 0, 0, 1] ∧ result.params_lr_ = [2, 1] ∧
      ∃ L : Nat, result.learnable_param_ids_[2]? = some L ∧
        result.has_params_lr_[L]? = some true ∧ result.params_lr_[L]? = some 2) ∧
    ∃ s1, AppendParam (share_state
        (sharing_layer "a" { named_spec "w" .STRICT with lr_mult := some 2 })
        (sharing_layer "b" { named_spec "w" .STRICT with lr_mult := some 3 }))
        default 0 0 = .ok s1 ∧
      AppendParam s1 default 1 0 = .error (.mismatched_lr_mult "w") := by
  obtain ⟨result, hinit, hp⟩ := of_returns_with (Init share_factory id shared_example)
    (fun r => decide (r.learnable_param_ids_ = [0, 0, 0, 1] ∧ r.params_lr_ = [2, 1] ∧
      2 < r.params_.length ∧ (r.param_spec 2).lr_mult = some 2))
    (by decide)
  obtain ⟨q1, q2, q3, q4⟩ := of_decide_eq_true hp
  obtain ⟨s1, h1, hs⟩ := of_returns_with
    (AppendParam (share_state
      (sharing_layer "a" { named_spec "w" .STRICT with lr_mult := some 2 })
      (sharing_layer "b" { named_spec "w" .STRICT with lr_mult := some 3 })) default 0 0)
    (fun s => decide (AppendParam.param_name (s.layers_.getD 1 default).layer_param_ 0 = "w" ∧
      StdMap.find s.param_names_index_ "w" = some 0 ∧ 0 < s.param_layer_indices_.length ∧
      (AppendParam.param_spec (s.layers_.getD 1 default).layer_param_ 0).share_mode =
        .STRICT ∧
      (s.layers_.getD 1 default).blobs_.getD 0 [] = s.param_shape 0 ∧
      (AppendParam.param_spec (s.layers_.getD 1 default).layer_param_ 0).lr_mult = some 3 ∧
      s.has_params_lr_.getD (s.learnable_param_ids_.getD 0 0) false = true ∧
      s.params_lr_.getD (s.learnable_param_ids_.getD 0 0) 0 = 2))
    (by decide)
  obtain ⟨r1, r2, r3, r4, r5, r6, r7, r8⟩ := of_decide_eq_true hs
  obtain ⟨c1, _, _, c4⟩ := C18_group_multipliers_agree share_factory id shared_example result
    hinit
  have h := (c4 s1 default 1 0 0 (by rw [r1]; decide) (by rw [r1]; exact r2) r3
    (by rw [r4, if_neg (by decide)]; exact r5)).1 3 r6 r7 (by rw [r8]; norm_num)
  rw [r1] at h
  exact ⟨⟨result, hinit, q1, q2, c1 2 2 q3 q4⟩, s1, h1, h⟩

/-! ## Shared storage and the update -/

/-- A loop over the positions of a list that only reads the element at the
position is a fold of the list. -/
theorem forUp_getD_eq_foldl {α σ : Type} (l : List α) (d : α) (g : α → σ → σ) (s : σ) :
    forUp l.length (fun i t => g (l.getD i d) t) s = l.foldl (fun t x => g x t) s := by
  have key := forUp_induction
    (fun (k : Nat) (t : σ) => t = (l.take k).foldl (fun t x => g x t) s)
    l.length (fun i t => g (l.getD i d) t) s rfl (by
      intro i t hi ht
      show g (l.getD i d) t = _
      rw [List.take_succ, List.foldl_append, ← ht, List.getElem?_eq_getElem hi,
        List.getD_eq_getElem _ _ hi]
      rfl)
  rw [key, List.take_length]

/-- In a registry in its invariant the owner of a shared parameter owns its
blob. -/
theorem RegInv.owner_owns {r : Registry} (hI : RegInv r) (i o : Nat)
    (h : r.param_owners_[i]? = some (o : Int)) :
    i < r.params_.length ∧ o < i ∧ r.param_owners_[o]? = some (-1) ∧
      (r.name_of i).length ≠ 0 ∧ r.name_of o = r.name_of i := by
  have hi : i < r.params_.length := by
    rw [← hI.len_owners]
    exact (List.getElem?_eq_some_iff.1 h).1
  rcases hI.owner i hi with ⟨_, h2⟩ | ⟨o', h1, h2, h3, h4, h5⟩
  · rw [h2] at h
    injection h with h
    omega
  · rw [h5] at h
    injection h with h
    have ho : o' = o := by omega
    subst ho
    refine ⟨hi, h2, ?_, h1, h3⟩
    rcases hI.owner o' (Nat.lt_trans h2 hi) with ⟨_, g2⟩ | ⟨o2, _, g2, g3, _, _⟩
    · exact g2
    · exact absurd (g3.trans h3) (h4 o2 g2)

/-- In a registry in its invariant two parameters of one name, not empty, use
the storage of one parameter. -/
theorem RegInv.root_of_name {r : Registry} (hI : RegInv r) (i j : Nat)
    (hi : i < r.params_.length) (hj : j < r.params_.length)
    (hname : r.name_of i = r.name_of j) (hne : (r.name_of i).length ≠ 0) :
    r.root i = r.root j := by
  have first : ∀ (a b : Nat), a < r.params_.length → r.name_of a = r.name_of b →
      (r.name_of a).length ≠ 0 →
      ∃ f : Nat, r.root a = f ∧ r.name_of f = r.name_of a ∧
        ∀ k : Nat, k < f → r.name_of k ≠ r.name_of a := by
    intro a b ha _ hna
    rcases hI.owner a ha with ⟨h1, h2⟩ | ⟨o, _, _, h3, h4, h5⟩
    · refine ⟨a, root_of_owner h2, rfl, ?_⟩
      rcases h1 with h1 | h1
      · exact absurd h1 hna
      · exact h1
    · exact ⟨o, root_of_shared h5, h3, h4⟩
  obtain ⟨f, f1, f2, f3⟩ := first i j hi hname hne
  obtain ⟨g, g1, g2, g3⟩ := first j i hj hname.symm (by rw [← hname]; exact hne)
  rw [f1, g1]
  rcases Nat.lt_trichotomy f g with h | h | h
  · exact absurd (f2.trans hname) (g3 f h)
  · exact h
  · exact absurd (g2.trans hname.symm) (f3 g h)

/-- The views of the registry that the net `Init` returns shares with the
registry of the wiring. -/
theorem Init_registry_views (CreateLayer : LayerParameter → Layer)
    (InsertSplits : NetParameter → NetParameter) (in_param : NetParameter) (result : Net)
    (hinit : Init CreateLayer InsertSplits in_param = .ok result) :
    ∃ r : Registry, RegInv r ∧ r.params_.length = result.params_.length ∧
      result.param_owners_ = r.param_owners_ ∧
      result.learnable_params_ = r.learnable_params_ ∧
      result.learnable_param_ids_ = r.learnable_param_ids_ ∧
      (∀ i, result.param_name i = r.name_of i) ∧
      (∀ i, result.param_shape i = r.shape_of i) ∧
      ∀ i, i < result.params_.length →
        result.params_[i]? =
          some { shape_ := r.shape_of i, data_ := r.root i, diff_ := r.root i } := by
  obtain ⟨r, ps, hI, e, p1, p2⟩ := Init_registry _ _ _ _ hinit
  have hps : result.params_ = ps := congrArg Registry.params_ e
  refine ⟨r, hI, by rw [hps, p1], congrArg Registry.param_owners_ e,
    congrArg Registry.learnable_params_ e, congrArg Registry.learnable_param_ids_ e, ?_, ?_, ?_⟩
  · intro i
    unfold Net.param_name
    rw [e]
    rfl
  · intro i
    unfold Net.param_shape
    rw [e]
    rfl
  · intro i hi
    rw [hps]
    exact p2 i (by rw [← p1, ← hps]; exact hi)

/-- C19: in every net `Init` returns, a parameter `i` whose `param_owners_`
entry is `o`, not negative, has the value storage and the gradient storage of
parameter `o` (and keeps its own shape), so what is written through one of the
two blobs is what is read through the other; two parameters registered with
one name, not empty, use one storage in the same way; and two parameters that
own their blob use different storage. -/
theorem C19_shared_parameter_aliases_owner (CreateLayer : LayerParameter → Layer)
    (InsertSplits : NetParameter → NetParameter) (in_param : NetParameter) (result : Net)
    (hinit : Init CreateLayer InsertSplits in_param = .ok result) :
    (∀ i o : Nat, result.param_owners_[i]? = some (o : Int) →
      ∃ bi bo : Blob, result.params_[i]? = some bi ∧ result.params_[o]? = some bo ∧
        bi.data_ = bo.data_ ∧ bi.diff_ = bo.diff_ ∧ bi.shape_ = result.param_shape i ∧
        ∀ (mem : Memory) (v : List Dtype),
          bo.cpu_data (bi.set_cpu_data v mem) = v ∧ bi.cpu_data (bo.set_cpu_data v mem) = v ∧
          bo.cpu_diff (bi.set_cpu_diff v mem) = v ∧ bi.cpu_diff (bo.set_cpu_diff v mem) = v) ∧
    (∀ i j : Nat, i < result.params_.length → j < result.params_.length →
      result.param_name i = result.param_name j → (result.param_name i).length ≠ 0 →
      ∃ bi bj : Blob, result.params_[i]? = some bi ∧ result.params_[j]? = some bj ∧
        bi.data_ = bj.data_ ∧ bi.diff_ = bj.diff_ ∧
        ∀ (mem : Memory) (v : List Dtype),
          bj.cpu_data (bi.set_cpu_data v mem) = v ∧
          bj.cpu_diff (bi.set_cpu_diff v mem) = v) ∧
    (∀ i j : Nat, result.param_owners_[i]? = some (-1) →
      result.param_owners_[j]? = some (-1) → i ≠ j →
      ∃ bi bj : Blob, result.params_[i]? = some bi ∧ result.params_[j]? = some bj ∧
        bi.data_ ≠ bj.data_ ∧ bi.diff_ ≠ bj.diff_) := by
  obtain ⟨r, hI, hlen, hown, _, _, hname, hshape, hblob⟩ :=
    Init_registry_views _ _ _ _ hinit
  have halias : ∀ (a b : Blob) (mem : Memory) (v : List Dtype), a.data_ = b.data_ →
      b.cpu_data (a.set_cpu_data v mem) = v := by
    intro a b mem v h
    unfold Blob.cpu_data Blob.set_cpu_data
    show (if b.data_ = a.data_ then v else mem.data b.data_) = v
    rw [if_pos h.symm]
  have halias2 : ∀ (a b : Blob) (mem : Memory) (v : List Dtype), a.diff_ = b.diff_ →
      b.cpu_diff (a.set_cpu_diff v mem) = v := by
    intro a b mem v h
    unfold Blob.cpu_diff Blob.set_cpu_diff
    show (if b.diff_ = a.diff_ then v else mem.diff b.diff_) = v
    rw [if_pos h.symm]
  refine ⟨?_, ?_, ?_⟩
  · intro i o hio
    rw [hown] at hio
    obtain ⟨hi, hoi, hoo, _, _⟩ := hI.owner_owns i o hio
    rw [hlen] at hi
    have hri : r.root i = o := root_of_shared hio
    have hro : r.root o = o := root_of_owner hoo
    refine ⟨_, _, hblob i hi, hblob o (Nat.lt_trans hoi hi), ?_, ?_, (hshape i).symm, ?_⟩
    · show r.root i = r.root o
      rw [hri, hro]
    · show r.root i = r.root o
      rw [hri, hro]
    · intro mem v
      have e : r.root i = r.root o := by rw [hri, hro]
      exact ⟨halias _ _ mem v e, halias _ _ mem v e.symm, halias2 _ _ mem v e,
        halias2 _ _ mem v e.symm⟩
  · intro i j hi hj hn hne
    rw [hname, hname] at hn
    rw [hname] at hne
    have e : r.root i = r.root j :=
      hI.root_of_name i j (by rw [hlen]; exact hi) (by rw [hlen]; exact hj) hn hne
    refine ⟨_, _, hblob i hi, hblob j hj, e, e, ?_⟩
    intro mem v
    exact ⟨halias _ _ mem v e, halias2 _ _ mem v e⟩
  · intro i j hi hj hij
    rw [hown] at hi hj
    have hil : i < result.params_.length := by
      rw [← hlen, ← hI.len_owners]
      exact (List.getElem?_eq_some_iff.1 hi).1
    have hjl : j < result.params_.length := by
      rw [← hlen, ← hI.len_owners]
      exact (List.getElem?_eq_some_iff.1 hj).1
    refine ⟨_, _, hblob i hil, hblob j hjl, ?_, ?_⟩
    · show r.root i ≠ r.root j
      rw [root_of_owner hi, root_of_owner hj]
      exact hij
    · show r.root i ≠ r.root j
      rw [root_of_owner hi, root_of_owner hj]
      exact hij

/-- C19 on `shared_example`: the parameter of "b" has "a" as owner, and what
is written to the blob of "b" is read from the blob of "a". -/
theorem C19_witness :
    ∃ result, Init share_factory id shared_example = .ok result ∧
      result.param_owners_[1]? = some 0 ∧
      ∃ bi bo : Blob, result.params_[1]? = some bi ∧ result.params_[0]? = some bo ∧
        bi.data_ = bo.data_ ∧ bi.diff_ = bo.diff_ ∧
        ∀ (mem : Memory) (v : List Dtype), bo.cpu_data (bi.set_cpu_data v mem) = v := by
  obtain ⟨result, hinit, hp⟩ := of_returns_with (Init share_factory id shared_example)
    (fun r => decide (r.param_owners_[1]? = some ((0 : Nat) : Int)))
    (by decide)
  have q := of_decide_eq_true hp
  obtain ⟨bi, bo, h1, h2, h3, h4, _, h6⟩ :=
    (C19_shared_parameter_aliases_owner share_factory id shared_example result hinit).1 1 0 q
  exact ⟨result, hinit, q, bi, bo, h1, h2, h3, h4, fun mem v => (h6 mem v).1⟩

/-- C20: in every net `Init` returns, `learnable_params_` is the list of the
parameters whose `param_owners_` entry is -1, in the order of registration and
each once; every parameter is such an owner or has an earlier parameter as
owner, and then it is not in `learnable_params_` and its
`learnable_param_ids_` entry is the one of its owner, the position of the
owner in `learnable_params_`. So `Net::Update` calls `Blob::Update` on the
owners, in that order, once each, and on no shared parameter. -/
theorem C20_learnable_params_are_owners (CreateLayer : LayerParameter → Layer)
    (InsertSplits : NetParameter → NetParameter) (in_param : NetParameter) (result : Net)
    (hinit : Init CreateLayer InsertSplits in_param = .ok result) :
    result.learnable_params_ =
      (List.range result.params_.length).filter
        (fun i => decide (result.param_owners_[i]? = some (-1))) ∧
    result.learnable_params_.Nodup ∧
    result.learnable_params_.Pairwise (fun a b => a < b) ∧
    (∀ i : Nat, i ∈ result.learnable_params_ ↔ result.param_owners_[i]? = some (-1)) ∧
    (∀ i : Nat, i < result.params_.length →
      result.param_owners_[i]? = some (-1) ∨
        ∃ o : Nat, o < i ∧ result.param_owners_[i]? = some (o : Int)) ∧
    (∀ i : Nat, result.param_owners_[i]? = some (-1) →
      ∃ L : Nat, result.learnable_param_ids_[i]? = some L ∧
        result.learnable_params_[L]? = some i) ∧
    (∀ i o : Nat, result.param_owners_[i]? = some (o : Int) →
      i ∉ result.learnable_params_ ∧ result.param_owners_[o]? = some (-1) ∧
      ∃ L : Nat, result.learnable_param_ids_[i]? = some L ∧
        result.learnable_param_ids_[o]? = some L ∧ result.learnable_params_[L]? = some o) ∧
    (∀ (μ : Type) (Blob_Update : Nat → μ → μ) (mem : μ),
      Update Blob_Update result mem =
        ((List.range result.params_.length).filter
          (fun i => decide (result.param_owners_[i]? = some (-1)))).foldl
          (fun m p => Blob_Update p m) mem) ∧
    Update record_Update result [] =
      (List.range result.params_.length).filter
        (fun i => decide (result.param_owners_[i]? = some (-1))) := by
  obtain ⟨r, hI, hlen, hown, hlearn, hids, _, _, _⟩ := Init_registry_views _ _ _ _ hinit
  have hlist : result.learnable_params_ =
      (List.range result.params_.length).filter
        (fun i => decide (result.param_owners_[i]? = some (-1))) := by
    rw [hlearn, hown, ← hlen]
    exact hI.learnable
  have hmem : ∀ i : Nat, i ∈ result.learnable_params_ ↔
      result.param_owners_[i]? = some (-1) := by
    intro i
    rw [hlist, List.mem_filter, List.mem_range, decide_eq_true_iff]
    constructor
    · exact fun h => h.2
    · intro h
      refine ⟨?_, h⟩
      rw [← hlen, ← hI.len_owners, ← hown]
      exact (List.getElem?_eq_some_iff.1 h).1
  have hupdate : ∀ (μ : Type) (Blob_Update : Nat → μ → μ) (mem : μ),
      Update Blob_Update result mem =
        result.learnable_params_.foldl (fun m p => Blob_Update p m) mem := by
    intro μ Blob_Update mem
    unfold Update
    exact forUp_getD_eq_foldl result.learnable_params_ 0 Blob_Update mem
  refine ⟨hlist, ?_, ?_, hmem, ?_, ?_, ?_, ?_, ?_⟩
  · rw [hlist]
    exact (List.nodup_range _).filter _
  · rw [hlist]
    exact List.Pairwise.filter _ (List.pairwise_lt_range _)
  · intro i hi
    rw [hown]
    rcases hI.owner i (by rw [hlen]; exact hi) with ⟨_, h2⟩ | ⟨o, _, h2, _, _, h5⟩
    · exact Or.inl h2
    · exact Or.inr ⟨o, h2, h5⟩
  · intro i hi
    rw [hids, hlearn]
    rw [hown] at hi
    exact hI.ids_owner i hi
  · intro i o hio
    have hio' := hio
    rw [hown] at hio'
    obtain ⟨_, _, hoo, _, _⟩ := hI.owner_owns i o hio'
    refine ⟨?_, by rw [hown]; exact hoo, ?_⟩
    · intro hin
      rw [(hmem i).1 hin] at hio
      injection hio with hio
      omega
    · rw [hids, hlearn]
      exact hI.ids_shared i o hio'
  · intro μ Blob_Update mem
    rw [hupdate, hlist]
  · rw [hupdate, ← hlist]
    generalize result.learnable_params_ = l
    have : ∀ (l acc : List Nat), l.foldl (fun m p => record_Update p m) acc = acc ++ l := by
      intro l
      induction l with
      | nil => intro acc; simp
      | cons x xs ih =>
        intro acc
        rw [List.foldl_cons, ih]
        unfold record_Update
        simp
    rw [this]
    rfl

/-- C20 on `shared_example`: of its four parameters the first and the last
own their blob, and `Update` calls `Blob::Update` on these two. -/
theorem C20_witness :
    ∃ result, Init share_factory id shared_example = .ok result ∧
      result.param_owners_ = [-1, 0, 0, -1] ∧ result.learnable_params_ = [0, 3] ∧
      result.learnable_param_ids_ = [0, 0, 0, 1] ∧
      Update record_Update result [] = [0, 3] := by
  obtain ⟨result, hinit, hp⟩ := of_returns_with (Init share_factory id shared_example)
    (fun r => decide (r.param_owners_ = [-1, 0, 0, -1] ∧ r.params_.length = 4 ∧
      r.learnable_param_ids_ = [0, 0, 0, 1]))
    (by decide)
  obtain ⟨q1, q2, q3⟩ := of_decide_eq_true hp
  obtain ⟨c1, _, _, _, _, _, _, _, c9⟩ :=
    C20_learnable_params_are_owners share_factory id shared_example result hinit
  rw [q1, q2] at c1 c9
  exact ⟨result, hinit, q1, c1.trans (by decide), q3, c9.trans (by decide)⟩

/-! ## A layer with include and exclude rules -/

/-- The layer loop of `FilterNet` aborts when one of the layers left declares
both include and exclude rules, whatever was filtered so far. -/
theorem FilterNet.loop_aborts (net_state : NetState) (rest : List LayerParameter)
    (pf : NetParameter)
    (h : ∃ lp, lp ∈ rest ∧ lp.include_.length ≠ 0 ∧ lp.exclude.length ≠ 0) :
    FilterNet.loop net_state rest pf = .error .include_and_exclude_rules := by
  induction rest generalizing pf with
  | nil =>
    obtain ⟨lp, hlp, _⟩ := h
    cases hlp
  | cons x rest ih =>
    unfold FilterNet.loop
    by_cases hx : x.include_.length = 0 ∨ x.exclude.length = 0
    · rw [if_neg (not_not.2 hx)]
      have hrest : ∃ lp, lp ∈ rest ∧ lp.include_.length ≠ 0 ∧ lp.exclude.length ≠ 0 := by
        obtain ⟨lp, hlp, h1, h2⟩ := h
        rcases List.mem_cons.1 hlp with rfl | hlp
        · rcases hx with hx | hx
          · exact absurd hx h1
          · exact absurd hx h2
        · exact ⟨lp, hlp, h1, h2⟩
      split
      · exact ih _ hrest
      · exact ih _ hrest
    · rw [if_pos hx]

/-- C21: `FilterNet` aborts with the check "Specify either include rules or
exclude rules; not both." on every specification one of whose layers declares
at least one include rule and at least one exclude rule, whatever the state
of the net and the contents of the rules (and of the other layers); `Init`,
which filters first, aborts with it, whatever the layer factory. -/
theorem C21_include_and_exclude_is_fatal (param : NetParameter) (layer_param : LayerParameter)
    (hlayer : layer_param ∈ param.layer) (hinclude : layer_param.include_ ≠ [])
    (hexclude : layer_param.exclude ≠ []) :
    FilterNet param = .error .include_and_exclude_rules ∧
    ∀ (CreateLayer : LayerParameter → Layer) (InsertSplits : NetParameter → NetParameter),
      Init CreateLayer InsertSplits param = .error .include_and_exclude_rules := by
  have h : FilterNet param = .error .include_and_exclude_rules := by
    unfold FilterNet
    rw [FilterNet.loop_aborts _ _ _ ⟨layer_param, hlayer,
      fun h0 => hinclude (List.length_eq_zero.1 h0),
      fun h0 => hexclude (List.length_eq_zero.1 h0)⟩]
  refine ⟨h, ?_⟩
  intro CreateLayer InsertSplits
  unfold Init
  rw [h]
  rfl

/-- C21 on `both_rules_example`, whose second layer declares an include rule
that the state meets and an exclude rule that it does not. -/
theorem C21_witness :
    FilterNet both_rules_example = .error .include_and_exclude_rules ∧
      Init plain_factory id both_rules_example = .error .include_and_exclude_rules :=
  ⟨(C21_include_and_exclude_is_fatal both_rules_example
      { example_layer "both" ["b"] ["c"] with
        include_ := [phase_rule .TEST], exclude := [phase_rule .TRAIN] }
      (by decide) (by decide) (by decide)).1,
    (C21_include_and_exclude_is_fatal both_rules_example
      { example_layer "both" ["b"] ["c"] with
        include_ := [phase_rule .TEST], exclude := [phase_rule .TRAIN] }
      (by decide) (by decide) (by decide)).2 plain_factory id⟩

/-! ## Loading saved parameters by layer name -/

/-- The search of `CopyTrainedLayersFrom` stops at the first position that
holds the source name. -/
theorem search_found (names : List String) (source_layer_name : String) (k t : Nat)
    (ht : names[t]? = some source_layer_name)
    (hfirst : ∀ i : Nat, i < t → names[i]? ≠ some source_layer_name) :
    CopyTrainedLayersFrom.search names source_layer_name k = k + t := by
  induction names generalizing k t with
  | nil => simp at ht
  | cons x rest ih =>
    unfold CopyTrainedLayersFrom.search
    cases t with
    | zero =>
      have hx : x = source_layer_name := by simpa using ht
      rw [if_neg (not_not.2 hx)]
      rfl
    | succ t =>
      have hx : x ≠ source_layer_name := by
        intro hx
        exact hfirst 0 (Nat.succ_pos t) (by simp [hx])
      rw [if_pos hx, ih (k + 1) t (by simpa using ht) (fun i hi => by
        have := hfirst (i + 1) (by omega)
        simpa using this)]
      omega

/-- Two loop bodies that agree below the bound give one loop. -/
theorem forRange_congr {σ ε : Type} (n : Nat) (body body' : Nat → σ → Except ε σ) (s : σ)
    (h : ∀ i t, i < n → body i t = body' i t) : forRange n body s = forRange n body' s := by
  induction n with
  | zero => rfl
  | succ k ih =>
    rw [forRange_succ, forRange_succ, ih (fun i t hi => h i t (Nat.lt_succ_of_lt hi))]
    cases forRange k body' s with
    | error e => rfl
    | ok t => exact h k t (Nat.lt_succ_self k)

/-- A loop one of whose iterations aborts in every state aborts. -/
theorem forRange_aborts {σ ε : Type} (n j : Nat) (body : Nat → σ → Except ε σ) (s : σ)
    (hj : j < n) (h : ∀ t, ∃ e, body j t = .error e) : ∃ e, forRange n body s = .error e := by
  induction n with
  | zero => omega
  | succ k ih =>
    rw [forRange_succ]
    by_cases hjk : j = k
    · subst hjk
      cases forRange j body s with
      | error e => exact ⟨e, rfl⟩
      | ok t => exact h t
    · obtain ⟨e, he⟩ := ih (by omega)
      rw [he]
      exact ⟨e, rfl⟩

/-- The loop of `copy_layer` over the blobs of the target layer, the source
name being found at `t`. -/
theorem copy_layer_found {μ : Type} (FromProto : Blob → BlobProto → Bool → μ → Except Fatal μ)
    (net : Net) (source_layer : LayerParameter) (mem : μ) (t : Nat)
    (ht : net.layer_names_[t]? = some source_layer.name)
    (hfirst : ∀ i : Nat, i < t → net.layer_names_[i]? ≠ some source_layer.name) :
    CopyTrainedLayersFrom.copy_layer FromProto net source_layer mem =
      if (net.layer_blobs t).length ≠ source_layer.blobs.length then
        .error (.incompatible_number_of_blobs source_layer.name)
      else
        forRange (net.layer_blobs t).length (fun j mem =>
          if !((net.layer_blobs t).getD j default).ShapeEquals
              (source_layer.blobs.getD j default) then
            .error (.cannot_copy_param j source_layer.name)
          else
            FromProto ((net.layer_blobs t).getD j default) (source_layer.blobs.getD j default)
              false mem)
          mem := by
  have hlt : t < net.layer_names_.length := (List.getElem?_eq_some_iff.1 ht).1
  unfold CopyTrainedLayersFrom.copy_layer
  dsimp only
  rw [search_found _ _ 0 t ht hfirst, Nat.zero_add, if_neg (by omega)]

/-- A loop that appends one layer per iteration appends the layers in order
and leaves the other fields alone. -/
theorem forUp_add_layer (n : Nat) (f : Nat → LayerParameter) (p : NetParameter) :
    forUp n (fun i (q : NetParameter) => { q with layer := q.layer ++ [f i] }) p =
      { p with layer := p.layer ++ (List.range n).map f } := by
  induction n with
  | zero => simp [forUp]
  | succ k ih =>
    show ({ (forUp k _ p) with layer := (forUp k _ p).layer ++ [f k] } : NetParameter) = _
    rw [ih, List.range_succ, List.map_append, List.map_singleton, List.append_assoc]

/-- The layers `ToProto` writes: one per layer of the net, in order. -/
theorem ToProto_layer {μ : Type} (Layer_ToProto : Nat → Bool → μ → LayerParameter) (net : Net)
    (write_diff : Bool) (mem : μ) :
    (ToProto Layer_ToProto net write_diff mem).layer =
      (List.range net.layers_.length).map (fun i => Layer_ToProto i write_diff mem) := by
  unfold ToProto
  dsimp only
  rw [forUp_add_layer]
  have hin : ∀ (k : Nat) (p : NetParameter),
      (forUp k (fun i (q : NetParameter) =>
        { q with
          input := q.input ++
            [net.blob_names_.getD (net.net_input_blob_indices_.getD i 0) ""] }) p).layer =
        p.layer := by
    intro k p
    induction k with
    | zero => rfl
    | succ k ih => exact ih
  show NetParameter.layer (forUp _ _ _) ++ _ = _
  rw [hin]
  rfl

/-- In a list without duplicates every position is the first to hold its
element. -/
theorem nodup_first (names : List String) (h : names.Nodup) (t : Nat) (n : String)
    (ht : names[t]? = some n) : ∀ i : Nat, i < t → names[i]? ≠ some n := by
  intro i hi hin
  obtain ⟨ht1, ht2⟩ := List.getElem?_eq_some_iff.1 ht
  obtain ⟨hi1, hi2⟩ := List.getElem?_eq_some_iff.1 hin
  have := (List.Nodup.getElem_inj_iff h).1 (hi2.trans ht2.symm)
  omega

/-- Loading the blobs of layer `k` of `G` into layer `k` of `G'`, one blob
after the other: the blobs that had the values of `G` keep them, and the
blobs loaded get them. -/
theorem load_layer_round_trip (G G' : Net) (memG : Memory) (write_diff : Bool) (n k : Nat)
    (hk : k < n)
    (hshapes : ∀ l : Nat, l < n →
      (G'.layer_blobs l).map Blob.shape_ = (G.layer_blobs l).map Blob.shape_)
    (halias : ∀ l j l' j' : Nat, l < n → l' < n → j < (G'.layer_blobs l).length →
      j' < (G'.layer_blobs l').length →
      ((G'.layer_blobs l).getD j default).data_ = ((G'.layer_blobs l').getD j' default).data_ →
      ((G.layer_blobs l).getD j default).cpu_data memG =
        ((G.layer_blobs l').getD j' default).cpu_data memG)
    (S : Nat → Nat → Prop) (m : Memory)
    (hdone : ∀ l j : Nat, S l j → l < n → j < (G'.layer_blobs l).length →
      ((G'.layer_blobs l).getD j default).cpu_data m =
        ((G.layer_blobs l).getD j default).cpu_data memG)
    (jj : Nat) (hjj : jj ≤ (G'.layer_blobs k).length) :
    ∃ m', forRange jj (fun j m =>
        Blob.FromProto ((G'.layer_blobs k).getD j default)
          ((Layer_ToProto G k write_diff memG).blobs.getD j default) false m) m = .ok m' ∧
      m'.diff = m.diff ∧
      ∀ l j : Nat, S l j ∨ (l = k ∧ j < jj) → l < n → j < (G'.layer_blobs l).length →
        ((G'.layer_blobs l).getD j default).cpu_data m' =
          ((G.layer_blobs l).getD j default).cpu_data memG := by
  have hlen : (G'.layer_blobs k).length = (G.layer_blobs k).length := by
    have := congrArg List.length (hshapes k hk)
    simpa using this
  have hsrc : ∀ j : Nat, j < (G.layer_blobs k).length →
      (Layer_ToProto G k write_diff memG).blobs.getD j default =
        ((G.layer_blobs k).getD j default).ToProto write_diff memG := by
    intro j hj
    unfold Layer_ToProto
    show ((G.layer_blobs k).map _).getD j default = _
    rw [List.getD_eq_getElem?_getD, List.getElem?_map, List.getElem?_eq_getElem hj,
      List.getD_eq_getElem _ _ hj]
    rfl
  have hshape : ∀ j : Nat, j < (G'.layer_blobs k).length →
      ((G'.layer_blobs k).getD j default).shape_ = ((G.layer_blobs k).getD j default).shape_ := by
    intro j hj
    have h1 := congrArg (fun l => l[j]?) (hshapes k hk)
    simp only [List.getElem?_map] at h1
    rw [List.getElem?_eq_getElem hj, List.getElem?_eq_getElem (by omega)] at h1
    rw [List.getD_eq_getElem _ _ hj, List.getD_eq_getElem _ _ (by omega)]
    simpa using h1
  induction jj with
  | zero =>
    refine ⟨m, rfl, rfl, ?_⟩
    intro l j hS hl hj
    rcases hS with hS | ⟨_, h0⟩
    · exact hdone l j hS hl hj
    · exact absurd h0 (Nat.not_lt_zero j)
  | succ i ih =>
    obtain ⟨m1, h1, h2, h3⟩ := ih (by omega)
    have hi : i < (G'.layer_blobs k).length := by omega
    rw [forRange_succ, h1]
    refine ⟨((G'.layer_blobs k).getD i default).set_cpu_data
      (((G.layer_blobs k).getD i default).cpu_data memG) m1, ?_, h2, ?_⟩
    · show Blob.FromProto _ _ false m1 = _
      rw [hsrc i (by omega)]
      unfold Blob.FromProto Blob.ShapeEquals Blob.ToProto
      rw [decide_eq_true (hshape i hi)]
      rfl
    · intro l j hS hl hj
      unfold Blob.cpu_data Blob.set_cpu_data
      show (if ((G'.layer_blobs l).getD j default).data_ =
          ((G'.layer_blobs k).getD i default).data_ then _ else _) = _
      by_cases hsame : ((G'.layer_blobs l).getD j default).data_ =
          ((G'.layer_blobs k).getD i default).data_
      · rw [if_pos hsame]
        exact (halias l j k i hl hk hj hi hsame).symm
      · rw [if_neg hsame]
        have hS' : S l j ∨ (l = k ∧ j < i) := by
          rcases hS with hS | ⟨e1, e2⟩
          · exact Or.inl hS
          · by_cases hji : j = i
            · subst hji
              subst e1
              exact absurd rfl hsame
            · exact Or.inr ⟨e1, by omega⟩
        exact h3 l j hS' hl hj

/-- A source layer found at `t` whose blobs match the blobs of layer `t` in
number and shape is loaded blob by blob. -/
theorem copy_layer_matching {μ : Type}
    (FromProto : Blob → BlobProto → Bool → μ → Except Fatal μ)
    (net : Net) (source_layer : LayerParameter) (mem : μ) (t : Nat)
    (ht : net.layer_names_[t]? = some source_layer.name)
    (hfirst : ∀ i : Nat, i < t → net.layer_names_[i]? ≠ some source_layer.name)
    (hlen : (net.layer_blobs t).length = source_layer.blobs.length)
    (hshape : ∀ j : Nat, j < (net.layer_blobs t).length →
      ((net.layer_blobs t).getD j default).shape_ = (source_layer.blobs.getD j default).shape) :
    CopyTrainedLayersFrom.copy_layer FromProto net source_layer mem =
      forRange (net.layer_blobs t).length (fun j m =>
        FromProto ((net.layer_blobs t).getD j default)
          (source_layer.blobs.getD j default) false m) mem := by
  rw [copy_layer_found FromProto net source_layer mem t ht hfirst, if_neg (not_not.2 hlen)]
  apply forRange_congr
  intro i u hi
  unfold Blob.ShapeEquals
  rw [decide_eq_true (hshape i hi)]
  rfl

/-- C23, amended: for nets `G` and `G'` with the same layer names, pairwise
distinct, and identical parameter shapes, such that blobs sharing their value
storage in `G'` have equal values in `G` (as when `G'` is built from the
specification of `G`), loading into `G'` what `ToProto` writes of `G` succeeds
and leaves every parameter blob of `G'` with the values of the blob at its
place in `G` (and the gradients as they were). `hG` says that the layer
objects of `G` carry the layer names. -/
theorem C23_round_trip_with_distinct_names (G G' : Net) (memG memG' : Memory) (write_diff : Bool)
    (hG : G.layer_names_ = G.layers_.map (fun l => l.layer_param_.name))
    (hnames : G'.layer_names_ = G.layer_names_)
    (hnodup : G.layer_names_.Nodup)
    (hshapes : ∀ l : Nat, l < G.layers_.length →
      (G'.layer_blobs l).map Blob.shape_ = (G.layer_blobs l).map Blob.shape_)
    (halias : ∀ l j l' j' : Nat, l < G.layers_.length → l' < G.layers_.length →
      j < (G'.layer_blobs l).length → j' < (G'.layer_blobs l').length →
      ((G'.layer_blobs l).getD j default).data_ = ((G'.layer_blobs l').getD j' default).data_ →
      ((G.layer_blobs l).getD j default).cpu_data memG =
        ((G.layer_blobs l').getD j' default).cpu_data memG) :
    ∃ mem', CopyTrainedLayersFrom Blob.FromProto G'
        (ToProto (Layer_ToProto G) G write_diff memG) memG' = .ok mem' ∧
      mem'.diff = memG'.diff ∧
      ∀ l j : Nat, l < G.layers_.length → j < (G'.layer_blobs l).length →
        ((G'.layer_blobs l).getD j default).cpu_data mem' =
          ((G.layer_blobs l).getD j default).cpu_data memG := by
  have hlayers := ToProto_layer (Layer_ToProto G) G write_diff memG
  have hcount : (ToProto (Layer_ToProto G) G write_diff memG).layer.length =
      G.layers_.length := by
    rw [hlayers, List.length_map, List.length_range]
  have hsource : ∀ k : Nat, k < G.layers_.length →
      (ToProto (Layer_ToProto G) G write_diff memG).layer.getD k default =
        Layer_ToProto G k write_diff memG := by
    intro k hk
    rw [hlayers, List.getD_eq_getElem?_getD, List.getElem?_map,
      List.getElem?_eq_getElem (by rw [List.length_range]; exact hk), List.getElem_range]
    rfl
  have hname : ∀ k : Nat, k < G.layers_.length →
      G'.layer_names_[k]? = some (Layer_ToProto G k write_diff memG).name := by
    intro k hk
    rw [hnames, hG, List.getElem?_map, List.getElem?_eq_getElem hk]
    unfold Layer_ToProto
    rw [List.getD_eq_getElem _ _ hk]
    rfl
  have hall : ∀ k : Nat, k ≤ G.layers_.length →
      ∃ m, forRange k (fun i m =>
          CopyTrainedLayersFrom.copy_layer Blob.FromProto G'
            ((ToProto (Layer_ToProto G) G write_diff memG).layer.getD i default) m) memG' =
          .ok m ∧
        m.diff = memG'.diff ∧
        ∀ l j : Nat, l < k → l < G.layers_.length → j < (G'.layer_blobs l).length →
          ((G'.layer_blobs l).getD j default).cpu_data m =
            ((G.layer_blobs l).getD j default).cpu_data memG := by
    intro k hk
    induction k with
    | zero => exact ⟨memG', rfl, rfl, fun l j h => absurd h (Nat.not_lt_zero l)⟩
    | succ k ih =>
      obtain ⟨m, h1, h2, h3⟩ := ih (by omega)
      have hk' : k < G.layers_.length := by omega
      have hlen : (G'.layer_blobs k).length = (G.layer_blobs k).length := by
        have := congrArg List.length (hshapes k hk')
        simpa using this
      obtain ⟨m', g1, g2, g3⟩ := load_layer_round_trip G G' memG write_diff G.layers_.length k
        hk' hshapes halias (fun l _ => l < k) m h3 (G'.layer_blobs k).length (Nat.le_refl _)
      rw [forRange_succ, h1]
      refine ⟨m', ?_, g2.trans h2, ?_⟩
      · show CopyTrainedLayersFrom.copy_layer Blob.FromProto G' _ m = _
        rw [hsource k hk', copy_layer_matching Blob.FromProto G' _ m k (hname k hk')
          (nodup_first _ (by rw [hnames]; exact hnodup) k _ (hname k hk')) ?_ ?_]
        · exact g1
        · rw [hlen]
          unfold Layer_ToProto
          show _ = ((G.layer_blobs k).map _).length
          rw [List.length_map]
        · intro j hj
          have hjG : j < (G.layer_blobs k).length := by omega
          have h1' := congrArg (fun l => l[j]?) (hshapes k hk')
          simp only [List.getElem?_map] at h1'
          rw [List.getElem?_eq_getElem hj, List.getElem?_eq_getElem hjG] at h1'
          rw [List.getD_eq_getElem _ _ hj]
          unfold Layer_ToProto
          show _ = BlobProto.shape (((G.layer_blobs k).map _).getD j default)
          rw [List.getD_eq_getElem?_getD, List.getElem?_map, List.getElem?_eq_getElem hjG]
          simpa using h1'
      · intro l j hl hln hj
        apply g3 l j ?_ hln hj
        by_cases hlk : l = k
        · subst hlk
          exact Or.inr ⟨rfl, hj⟩
        · exact Or.inl (by omega)
  obtain ⟨m, h1, h2, h3⟩ := hall G.layers_.length (Nat.le_refl _)
  refine ⟨m, ?_, h2, fun l j hl hj => h3 l j hl hl hj⟩
  unfold CopyTrainedLayersFrom
  rw [hcount]
  exact h1

/-- C23 fails as stated. In the net of `twin_example` both layers are named
"a": what `ToProto` writes of it (with the values 1 in the blob of layer 0 and
2 in the blob of layer 1), loaded into the same net with empty arrays, puts
the values of layer 1 into the blob of layer 0 and nothing into the blob of
layer 1. And the net of `saved_shared_example` has the layer names and the
parameter shapes of the net of `saved_example`, but its two blobs share their
storage: after loading, the blob of "a" holds the values of "b". -/
theorem C23_counterexample :
    (∃ G mem', Init share_factory id twin_example = .ok G ∧
      CopyTrainedLayersFrom Blob.FromProto G (ToProto (Layer_ToProto G) G false two_values)
        empty_memory = .ok mem' ∧
      ((G.layer_blobs 0).getD 0 default).cpu_data two_values = [1, 1, 1, 1, 1, 1] ∧
      ((G.layer_blobs 0).getD 0 default).cpu_data mem' = [2, 2, 2, 2, 2, 2] ∧
      ((G.layer_blobs 1).getD 0 default).cpu_data two_values = [2, 2, 2, 2, 2, 2] ∧
      ((G.layer_blobs 1).getD 0 default).cpu_data mem' = []) ∧
    ∃ G G' mem', Init share_factory id saved_example = .ok G ∧
      Init share_factory id saved_shared_example = .ok G' ∧
      G'.layer_names_ = G.layer_names_ ∧
      (∀ l : Nat, l < G.layers_.length →
        (G'.layer_blobs l).map Blob.shape_ = (G.layer_blobs l).map Blob.shape_) ∧
      CopyTrainedLayersFrom Blob.FromProto G' (ToProto (Layer_ToProto G) G false two_values)
        empty_memory = .ok mem' ∧
      ((G.layer_blobs 0).getD 0 default).cpu_data two_values = [1, 1, 1, 1, 1, 1] ∧
      ((G'.layer_blobs 0).getD 0 default).cpu_data mem' = [2, 2, 2, 2, 2, 2] := by
  constructor
  · obtain ⟨G, hG, hp⟩ := of_returns_with (Init share_factory id twin_example)
      (fun G => returns_with
        (CopyTrainedLayersFrom Blob.FromProto G (ToProto (Layer_ToProto G) G false two_values)
          empty_memory)
        (fun mem' => decide (
          ((G.layer_blobs 0).getD 0 default).cpu_data two_values = [1, 1, 1, 1, 1, 1] ∧
          ((G.layer_blobs 0).getD 0 default).cpu_data mem' = [2, 2, 2, 2, 2, 2] ∧
          ((G.layer_blobs 1).getD 0 default).cpu_data two_values = [2, 2, 2, 2, 2, 2] ∧
          ((G.layer_blobs 1).getD 0 default).cpu_data mem' = [])))
      (by decide)
    obtain ⟨mem', hm, hq⟩ := of_returns_with _ _ hp
    exact ⟨G, mem', hG, hm, of_decide_eq_true hq⟩
  · obtain ⟨G, hG, hp⟩ := of_returns_with (Init share_factory id saved_example)
      (fun G => returns_with (Init share_factory id saved_shared_example)
        (fun G' => decide (G'.layer_names_ = G.layer_names_ ∧
            ∀ l : Nat, l < G.layers_.length →
              (G'.layer_blobs l).map Blob.shape_ = (G.layer_blobs l).map Blob.shape_) &&
          returns_with
            (CopyTrainedLayersFrom Blob.FromProto G'
              (ToProto (Layer_ToProto G) G false two_values) empty_memory)
            (fun mem' => decide (
              ((G.layer_blobs 0).getD 0 default).cpu_data two_values = [1, 1, 1, 1, 1, 1] ∧
              ((G'.layer_blobs 0).getD 0 default).cpu_data mem' = [2, 2, 2, 2, 2, 2]))))
      (by decide)
    obtain ⟨G', hG', hq⟩ := of_returns_with _ _ hp
    rw [Bool.and_eq_true] at hq
    obtain ⟨q1, q2⟩ := hq
    obtain ⟨mem', hm, q3⟩ := of_returns_with _ _ q2
    obtain ⟨a1, a2⟩ := of_decide_eq_true q1
    obtain ⟨b1, b2⟩ := of_decide_eq_true q3
    exact ⟨G, G', mem', hG, hG', a1, a2, hm, b1, b2⟩

/-- C23 on the net of `saved_shared_example`, saved with the values of
`two_values` and loaded into the same net with empty arrays: the blobs of "a"
and "b", which share their storage, hold the saved values. -/
theorem C23_witness :
    ∃ G mem', Init share_factory id saved_shared_example = .ok G ∧
      G.layer_names_ = ["a", "b"] ∧
      CopyTrainedLayersFrom Blob.FromProto G (ToProto (Layer_ToProto G) G false two_values)
        empty_memory = .ok mem' ∧
      ((G.layer_blobs 0).getD 0 default).cpu_data mem' = [1, 1, 1, 1, 1, 1] ∧
      ((G.layer_blobs 1).getD 0 default).cpu_data mem' = [1, 1, 1, 1, 1, 1] := by
  obtain ⟨G, hG, hp⟩ := of_returns_with (Init share_factory id saved_shared_example)
    (fun G => decide (G.layer_names_ = ["a", "b"] ∧
      G.layer_names_ = G.layers_.map (fun l => l.layer_param_.name) ∧
      G.layers_.length = 2 ∧ (G.layer_blobs 0).length = 1 ∧ (G.layer_blobs 1).length = 1 ∧
      ((G.layer_blobs 0).getD 0 default).cpu_data two_values = [1, 1, 1, 1, 1, 1] ∧
      ((G.layer_blobs 1).getD 0 default).cpu_data two_values = [1, 1, 1, 1, 1, 1]))
    (by decide)
  obtain ⟨q1, q2, q3, q4, q5, q6, q7⟩ := of_decide_eq_true hp
  obtain ⟨mem', h1, _, h3⟩ := C23_round_trip_with_distinct_names G G two_values empty_memory
    false q2 rfl (by rw [q1]; decide) (fun _ _ => rfl) (by
      intro l j l' j' _ _ _ _ h
      unfold Blob.cpu_data
      rw [h])
  exact ⟨G, mem', hG, q1, h1, (h3 0 0 (by omega) (by omega)).trans q6,
    (h3 1 0 (by omega) (by omega)).trans q7⟩

/-! ## The blobs the gradient checker checks -/

/-- A loop that pushes the elements of a vector, one per iteration, appends
the vector. -/
theorem forUp_push_all {α : Type} (xs : List α) (d : α) (v : List α) (n : Nat)
    (hn : n ≤ xs.length) :
    forUp n (fun i (v : List α) => v ++ [xs.getD i d]) v = v ++ xs.take n := by
  induction n with
  | zero => simp [forUp]
  | succ k ih =>
    show forUp k _ v ++ [xs.getD k d] = _
    rw [ih (by omega), List.take_succ, List.getElem?_eq_getElem (by omega),
      List.getD_eq_getElem _ _ (by omega), List.append_assoc]
    rfl

/-- The entries of an array after `caffe_set`: the value below `N`, the old
entry from `N` on. -/
theorem getD_caffe_set (N : Nat) (alpha : Dtype) (X : List Dtype) (j : Nat) :
    (caffe_set N alpha X).getD j 0 = if j < N then alpha else X.getD j 0 := by
  unfold caffe_set
  rw [List.getD_eq_getElem?_getD, List.getD_eq_getElem?_getD]
  by_cases hj : j < N
  · rw [if_pos hj, List.getElem?_append_left (by rw [List.length_replicate]; exact hj),
      List.getElem?_replicate, if_pos hj]
    rfl
  · rw [if_neg hj, List.getElem?_append_right (by rw [List.length_replicate]; omega),
      List.length_replicate, List.getElem?_drop]
    congr 2
    omega

/-- The array `caffe_set` leaves has at least `N` elements. -/
theorem length_caffe_set (N : Nat) (alpha : Dtype) (X : List Dtype) :
    N ≤ (caffe_set N alpha X).length := by
  unfold caffe_set
  rw [List.length_append, List.length_replicate]
  omega

/-- The loop of `CheckGradientSingle` over the parameter blobs: the blobs are
collected in order, the values are left alone, every entry of a gradient
array is zero when it is below the count of a parameter blob with this array
and as it was otherwise, and the arrays of the parameter blobs are as long as
the counts. -/
theorem params_loop (blobs : List Blob) (mem : Memory)
    (body : Nat → List Blob × Memory → List Blob × Memory)
    (hbody : ∀ i s, body i s =
      (s.1 ++ [blobs.getD i default],
        (blobs.getD i default).set_cpu_diff
          (caffe_set (blobs.getD i default).count.toNat 0
            ((blobs.getD i default).cpu_diff s.2)) s.2))
    (n : Nat) (hn : n ≤ blobs.length) :
    (forUp n body ([], mem)).1 = blobs.take n ∧
    (forUp n body ([], mem)).2.data = mem.data ∧
    (∀ (h j : Nat), ((forUp n body ([], mem)).2.diff h).getD j 0 =
        if ∃ i : Nat, i < n ∧ (blobs.getD i default).diff_ = h ∧
            j < (blobs.getD i default).count.toNat then 0
        else (mem.diff h).getD j 0) ∧
    (∀ i : Nat, i < n →
      (blobs.getD i default).count.toNat ≤
        ((blobs.getD i default).cpu_diff (forUp n body ([], mem)).2).length) ∧
    (∀ h : Nat, (∀ i : Nat, i < n → (blobs.getD i default).diff_ ≠ h) →
      (forUp n body ([], mem)).2.diff h = mem.diff h) := by
  induction n with
  | zero =>
    refine ⟨rfl, rfl, ?_, fun i hi => absurd hi (Nat.not_lt_zero i), fun _ _ => rfl⟩
    intro h j
    rw [if_neg (fun ⟨i, hi, _⟩ => Nat.not_lt_zero i hi)]
    rfl
  | succ k ih =>
    obtain ⟨h1, h2, h3, h4, h5⟩ := ih (by omega)
    have hstep : forUp (k + 1) body ([], mem) = body k (forUp k body ([], mem)) := rfl
    rw [hstep, hbody]
    generalize forUp k body ([], mem) = s at h1 h2 h3 h4 h5
    have hdiff : ∀ h : Nat,
        ((blobs.getD k default).set_cpu_diff
          (caffe_set (blobs.getD k default).count.toNat 0
            ((blobs.getD k default).cpu_diff s.2)) s.2).diff h =
        if h = (blobs.getD k default).diff_ then
          caffe_set (blobs.getD k default).count.toNat 0 (s.2.diff (blobs.getD k default).diff_)
        else s.2.diff h := fun _ => rfl
    refine ⟨?_, h2, ?_, ?_, ?_⟩
    · show s.1 ++ _ = _
      rw [h1, List.take_succ, List.getElem?_eq_getElem (by omega),
        List.getD_eq_getElem _ _ (by omega)]
      rfl
    · intro h j
      show (((blobs.getD k default).set_cpu_diff _ s.2).diff h).getD j 0 = _
      rw [hdiff]
      by_cases hh : h = (blobs.getD k default).diff_
      · rw [if_pos hh, getD_caffe_set]
        by_cases hj : j < (blobs.getD k default).count.toNat
        · rw [if_pos hj, if_pos ⟨k, Nat.lt_succ_self k, hh.symm, hj⟩]
        · rw [if_neg hj, ← hh, h3]
          by_cases hex : ∃ i : Nat, i < k ∧ (blobs.getD i default).diff_ = h ∧
              j < (blobs.getD i default).count.toNat
          · obtain ⟨i, a, b, c⟩ := hex
            rw [if_pos ⟨i, a, b, c⟩, if_pos ⟨i, by omega, b, c⟩]
          · rw [if_neg hex, if_neg]
            rintro ⟨i, a, b, c⟩
            by_cases hik : i = k
            · subst hik
              exact hj c
            · exact hex ⟨i, by omega, b, c⟩
      · rw [if_neg hh, h3]
        by_cases hex : ∃ i : Nat, i < k ∧ (blobs.getD i default).diff_ = h ∧
            j < (blobs.getD i default).count.toNat
        · obtain ⟨i, a, b, c⟩ := hex
          rw [if_pos ⟨i, a, b, c⟩, if_pos ⟨i, by omega, b, c⟩]
        · rw [if_neg hex, if_neg]
          rintro ⟨i, a, b, c⟩
          by_cases hik : i = k
          · subst hik
            exact hh b.symm
          · exact hex ⟨i, by omega, b, c⟩
    · intro i hi
      show _ ≤ (((blobs.getD k default).set_cpu_diff _ s.2).diff _).length
      rw [hdiff]
      by_cases hh : (blobs.getD i default).diff_ = (blobs.getD k default).diff_
      · rw [if_pos hh]
        by_cases hik : i = k
        · subst hik
          exact length_caffe_set _ _ _
        · have := h4 i (by omega)
          unfold caffe_set
          rw [List.length_append, List.length_replicate, List.length_drop]
          have e : (blobs.getD i default).cpu_diff s.2 =
              s.2.diff (blobs.getD k default).diff_ := by
            unfold Blob.cpu_diff
            rw [hh]
          rw [e] at this
          omega
      · rw [if_neg hh]
        by_cases hik : i = k
        · subst hik
          exact absurd rfl hh
        · exact h4 i (by omega)
    · intro h hh
      show ((blobs.getD k default).set_cpu_diff _ s.2).diff h = _
      rw [hdiff, if_neg (fun e => hh k (Nat.lt_succ_self k) e.symm)]
      exact h5 h (fun i hi => hh i (by omega))

/-- C24: `CheckGradientSingle` sets the gradient of every parameter blob of
the layer to zero on its count (the values and the other gradient arrays stay
as they are) before it runs the layer, and the blobs it checks are the
parameter blobs, in order, followed by all bottoms when `check_bottom` is -1
(every flag for `Backward` is true then), by `bottom[check_bottom]` alone when
`0 <= check_bottom < bottom.size()` (the one flag at `check_bottom` is true),
and by no bottom when `check_bottom < -1` (no flag is true); `check_bottom`
from `bottom.size()` on is fatal, and so is an empty list of blobs. The last
part says that the memory with the zeroed gradients is what `Forward` gets,
the flags are what `Backward` gets, and the blobs are those the loops go
through. -/
theorem C24_blobs_to_check (layer : CheckedLayer) (bottom : List Blob) (check_bottom : Int)
    (mem : Memory) :
    (CheckGradientSingle.params layer mem).1 = layer.blobs ∧
    (CheckGradientSingle.params layer mem).2.data = mem.data ∧
    (∀ b, b ∈ layer.blobs →
      b.count.toNat ≤ (b.cpu_diff (CheckGradientSingle.params layer mem).2).length ∧
      ∀ j : Nat, j < b.count.toNat →
        (b.cpu_diff (CheckGradientSingle.params layer mem).2)[j]? = some 0) ∧
    (∀ h : Nat, (∀ b, b ∈ layer.blobs → b.diff_ ≠ h) →
      (CheckGradientSingle.params layer mem).2.diff h = mem.diff h) ∧
    (check_bottom = -1 →
      CheckGradientSingle.setup layer bottom check_bottom mem =
        if layer.blobs ++ bottom = [] then .error .no_blobs_to_check
        else .ok (layer.blobs ++ bottom, List.replicate bottom.length true,
          (CheckGradientSingle.params layer mem).2)) ∧
    (0 ≤ check_bottom → check_bottom < bottom.length →
      CheckGradientSingle.setup layer bottom check_bottom mem =
        .ok (layer.blobs ++ [bottom.getD check_bottom.toNat default],
          (List.replicate bottom.length false).set check_bottom.toNat true,
          (CheckGradientSingle.params layer mem).2)) ∧
    (0 ≤ check_bottom → (bottom.length : Int) ≤ check_bottom → is_int_tp check_bottom →
      CheckGradientSingle.setup layer bottom check_bottom mem =
        .error .check_check_bottom_lt_bottom_size) ∧
    (check_bottom < -1 →
      CheckGradientSingle.setup layer bottom check_bottom mem =
        if layer.blobs = [] then .error .no_blobs_to_check
        else .ok (layer.blobs, List.replicate bottom.length false,
          (CheckGradientSingle.params layer mem).2)) ∧
    (∀ (c : GradientChecker) (top : List Blob) (top_id top_data_id : Int),
      CheckGradientSingle c layer bottom top check_bottom top_id top_data_id false mem =
        (CheckGradientSingle.setup layer bottom check_bottom mem).bind fun r =>
          .ok (CheckGradientSingle.check c layer bottom top top_id top_data_id false r.1
            (CheckGradientSingle.computed_gradient_blobs r.1
              (layer.Backward top r.2.1 bottom
                (GetObjAndGradient top top_id top_data_id
                  (layer.Forward bottom top r.2.2)).2))
            (layer.Backward top r.2.1 bottom
              (GetObjAndGradient top top_id top_data_id (layer.Forward bottom top r.2.2)).2,
              []))) := by
  obtain ⟨p1, p2, p3, p4, p5⟩ := params_loop layer.blobs mem _ (fun _ _ => rfl)
    layer.blobs.length (Nat.le_refl _)
  rw [List.take_length] at p1
  have q1 : (CheckGradientSingle.params layer mem).1 = layer.blobs := p1
  have hcheck : ∀ (v : List Blob) (pd : List Bool),
      ((Except.ok (v, pd) : Except Fatal (List Blob × List Bool)).bind fun r =>
        if ¬ (r.1.length > 0) then
          (Except.error .no_blobs_to_check : Except Fatal (List Blob × List Bool × Memory))
        else .ok (r.1, r.2, (CheckGradientSingle.params layer mem).2)) =
        if v = [] then .error .no_blobs_to_check
        else .ok (v, pd, (CheckGradientSingle.params layer mem).2) := by
    intro v pd
    show (if ¬ (v.length > 0) then _ else _) = _
    cases v with
    | nil => rfl
    | cons x xs =>
      rw [if_neg (by simp), if_neg (by simp)]
  refine ⟨q1, p2, ?_, ?_, ?_, ?_, ?_, ?_, ?_⟩
  · intro b hb
    obtain ⟨i, hi, rfl⟩ := List.getElem_of_mem hb
    have e : layer.blobs[i] = layer.blobs.getD i default :=
      (List.getD_eq_getElem _ _ hi).symm
    rw [e]
    have hlen := p4 i hi
    refine ⟨hlen, ?_⟩
    intro j hj
    have h3 := p3 (layer.blobs.getD i default).diff_ j
    rw [if_pos ⟨i, hi, rfl, hj⟩] at h3
    have hj' : j < ((layer.blobs.getD i default).cpu_diff
        (CheckGradientSingle.params layer mem).2).length := Nat.lt_of_lt_of_le hj hlen
    rw [List.getElem?_eq_getElem hj']
    have h3' : ((layer.blobs.getD i default).cpu_diff
        (CheckGradientSingle.params layer mem).2).getD j 0 = 0 := h3
    rw [List.getD_eq_getElem _ _ hj'] at h3'
    rw [h3']
  · intro h hh
    apply p5
    intro i hi
    apply hh
    rw [List.getD_eq_getElem _ _ hi]
    exact List.getElem_mem _
  · intro hcb
    unfold CheckGradientSingle.setup
    dsimp only
    rw [if_pos hcb, q1, forUp_push_all bottom default layer.blobs bottom.length (Nat.le_refl _),
      List.take_length, decide_eq_true hcb]
    exact hcheck _ _
  · intro h0 hlt
    unfold CheckGradientSingle.setup
    dsimp only
    rw [if_neg (by omega), if_pos (by omega), q1, if_neg (by
      rw [not_not]
      unfold to_size_t
      omega), decide_eq_false (by omega)]
    rw [hcheck, if_neg (by simp)]
  · intro h0 hge hint
    unfold CheckGradientSingle.setup
    dsimp only
    rw [if_neg (by omega), if_pos (by omega), if_pos (by
      unfold to_size_t
      unfold is_int_tp at hint
      omega)]
    rfl
  · intro hlt
    unfold CheckGradientSingle.setup
    dsimp only
    rw [if_neg (by omega), if_neg (by omega), q1, decide_eq_false (by omega)]
    exact hcheck _ _
  · intro c top top_id top_data_id
    rfl

/-- C24 on `param_layer` with the one bottom `square_bottom`: checking bottom
0 checks the parameter blob and the bottom, with the flag of the bottom set,
and the gradient of the parameter blob is zero on its two elements; checking
bottom 1 is fatal. -/
theorem C24_witness :
    CheckGradientSingle.setup param_layer [square_bottom] 0 checker_memory =
      .ok ([{ shape_ := [2], data_ := 2, diff_ := 2 }, square_bottom], [true],
        (CheckGradientSingle.params param_layer checker_memory).2) ∧
    (CheckGradientSingle.params param_layer checker_memory).2.diff 2 = [0, 0, 9] ∧
    CheckGradientSingle.setup param_layer [square_bottom] 1 checker_memory =
      .error .check_check_bottom_lt_bottom_size :=
  ⟨(C24_blobs_to_check param_layer [square_bottom] 0 checker_memory).2.2.2.2.2.1
      (by decide) (by decide),
    by decide,
    (C24_blobs_to_check param_layer [square_bottom] 1 checker_memory).2.2.2.2.2.2.1
      (by decide) (by decide) (by unfold is_int_tp; decide)⟩

/-! ## The objective of the gradient checker -/

/-- A loop that adds one term per iteration adds the sum of the terms. -/
theorem forUp_add (n : Nat) (f : Nat → Dtype) (a : Dtype) :
    forUp n (fun j (loss : Dtype) => loss + f j) a = a + ((List.range n).map f).sum := by
  induction n with
  | zero => simp [forUp]
  | succ k ih =>
    show forUp k _ a + f k = _
    rw [ih, List.range_succ, List.map_append, List.sum_append, List.map_singleton,
      List.sum_singleton, add_assoc]

/-- The entries of an array after `caffe_cpu_copy`, below the number of
elements copied. -/
theorem getD_caffe_cpu_copy (N : Nat) (X Y : List Dtype) (j : Nat) (hj : j < N)
    (hX : N ≤ X.length) : (caffe_cpu_copy N X Y).getD j 0 = X.getD j 0 := by
  unfold caffe_cpu_copy
  rw [List.getD_eq_getElem?_getD, List.getD_eq_getElem?_getD,
    List.getElem?_append_left (by rw [List.length_take]; omega), List.getElem?_take_of_lt hj]

/-- The loop of `GetObjAndGradient` over the top blobs when no element is
targeted: the values stay, and the loss is the sum of the squares. -/
theorem objective_loop (top : List Blob) (mem : Memory)
    (body : Nat → Dtype × Memory → Dtype × Memory)
    (hbody : ∀ i s, body i s =
      (forUp (top.getD i default).count.toNat
        (fun j (loss : Dtype) =>
          loss + ((top.getD i default).cpu_data s.2).getD j 0 *
            ((top.getD i default).cpu_data s.2).getD j 0) s.1,
        (top.getD i default).set_cpu_diff
          (caffe_cpu_copy (top.getD i default).count.toNat ((top.getD i default).cpu_data s.2)
            ((top.getD i default).cpu_diff s.2)) s.2))
    (n : Nat) :
    (forUp n body (0, mem)).2.data = mem.data ∧
    (forUp n body (0, mem)).1 =
      ((List.range n).map (fun i =>
        ((List.range (top.getD i default).count.toNat).map (fun j =>
          ((top.getD i default).cpu_data mem).getD j 0 *
            ((top.getD i default).cpu_data mem).getD j 0)).sum)).sum := by
  induction n with
  | zero => exact ⟨rfl, rfl⟩
  | succ k ih =>
    obtain ⟨h1, h2⟩ := ih
    have hstep : forUp (k + 1) body (0, mem) = body k (forUp k body (0, mem)) := rfl
    rw [hstep, hbody]
    generalize forUp k body (0, mem) = s at h1 h2
    have hdata : (top.getD k default).cpu_data s.2 = (top.getD k default).cpu_data mem := by
      unfold Blob.cpu_data
      rw [h1]
    refine ⟨h1, ?_⟩
    show forUp _ _ s.1 = _
    rw [forUp_add, h2, hdata, List.range_succ, List.map_append, List.sum_append,
      List.map_singleton, List.sum_singleton]

/-- In the loop of `GetObjAndGradient` over the top blobs, a gradient array
that no blob from `i + 1` on uses is, after its blob `i`, the copy made for
that blob. -/
theorem objective_loop_diff (top : List Blob) (mem : Memory)
    (body : Nat → Dtype × Memory → Dtype × Memory)
    (hbody : ∀ i s, body i s =
      (forUp (top.getD i default).count.toNat
        (fun j (loss : Dtype) =>
          loss + ((top.getD i default).cpu_data s.2).getD j 0 *
            ((top.getD i default).cpu_data s.2).getD j 0) s.1,
        (top.getD i default).set_cpu_diff
          (caffe_cpu_copy (top.getD i default).count.toNat ((top.getD i default).cpu_data s.2)
            ((top.getD i default).cpu_diff s.2)) s.2))
    (i : Nat)
    (m : Nat)
    (hlater : ∀ k : Nat, i < k → k < i + 1 + m →
      (top.getD k default).diff_ ≠ (top.getD i default).diff_) :
    (forUp (i + 1 + m) body (0, mem)).2.diff (top.getD i default).diff_ =
      caffe_cpu_copy (top.getD i default).count.toNat ((top.getD i default).cpu_data mem)
        ((top.getD i default).cpu_diff (forUp i body (0, mem)).2) := by
  induction m with
  | zero =>
    have hstep : forUp (i + 1) body (0, mem) = body i (forUp i body (0, mem)) := rfl
    rw [Nat.add_zero, hstep, hbody]
    have h1 := (objective_loop top mem body hbody i).1
    generalize forUp i body (0, mem) = s at h1
    show (if (top.getD i default).diff_ = (top.getD i default).diff_ then _ else _) = _
    rw [if_pos rfl]
    unfold Blob.cpu_data
    rw [h1]
  | succ m ih =>
    have hstep : forUp (i + 1 + (m + 1)) body (0, mem) =
        body (i + 1 + m) (forUp (i + 1 + m) body (0, mem)) := rfl
    rw [hstep, hbody]
    have := ih (fun k h1 h2 => hlater k h1 (by omega))
    generalize forUp (i + 1 + m) body (0, mem) = s at this
    show (if (top.getD i default).diff_ = (top.getD (i + 1 + m) default).diff_ then _
      else s.2.diff _) = _
    rw [if_neg (fun e => hlater (i + 1 + m) (by omega) (by omega) e.symm)]
    exact this

/-- C25: with `top_id < 0`, `GetObjAndGradient` returns one half of the sum,
over the top blobs and the elements of each below its count, of the squares
of the values; it leaves the values as they are; and the gradient array of a
top blob whose gradient storage no later top blob uses (so of every top blob,
when the top blobs have pairwise distinct gradient storage) is, on its
count, the value array of the blob. The arrays hold at least as many
elements as the count. -/
theorem C25_objective_without_target (top : List Blob) (top_id top_data_id : Int)
    (mem : Memory) (htop : top_id < 0) :
    (GetObjAndGradient top top_id top_data_id mem).1 =
      ((List.range top.length).map (fun i =>
        ((List.range (top.getD i default).count.toNat).map (fun j =>
          ((top.getD i default).cpu_data mem).getD j 0 *
            ((top.getD i default).cpu_data mem).getD j 0)).sum)).sum / 2 ∧
    (GetObjAndGradient top top_id top_data_id mem).2.data = mem.data ∧
    (∀ i : Nat, i < top.length →
      (∀ k : Nat, i < k → k < top.length →
        (top.getD k default).diff_ ≠ (top.getD i default).diff_) →
      (top.getD i default).count.toNat ≤ ((top.getD i default).cpu_data mem).length →
      ((top.getD i default).cpu_diff (GetObjAndGradient top top_id top_data_id mem).2).take
          (top.getD i default).count.toNat =
        ((top.getD i default).cpu_data mem).take (top.getD i default).count.toNat) ∧
    (top.Pairwise (fun a b => a.diff_ ≠ b.diff_) →
      ∀ b, b ∈ top → b.count.toNat ≤ (b.cpu_data mem).length →
        (b.cpu_diff (GetObjAndGradient top top_id top_data_id mem).2).take b.count.toNat =
          (b.cpu_data mem).take b.count.toNat) := by
  have hrun : GetObjAndGradient top top_id top_data_id mem =
      ((forUp top.length (fun i (s : Dtype × Memory) =>
        (forUp (top.getD i default).count.toNat
          (fun j (loss : Dtype) =>
            loss + ((top.getD i default).cpu_data s.2).getD j 0 *
              ((top.getD i default).cpu_data s.2).getD j 0) s.1,
          (top.getD i default).set_cpu_diff
            (caffe_cpu_copy (top.getD i default).count.toNat
              ((top.getD i default).cpu_data s.2)
              ((top.getD i default).cpu_diff s.2)) s.2)) ((0 : Dtype), mem)).1 / 2,
        (forUp top.length (fun i (s : Dtype × Memory) =>
        (forUp (top.getD i default).count.toNat
          (fun j (loss : Dtype) =>
            loss + ((top.getD i default).cpu_data s.2).getD j 0 *
              ((top.getD i default).cpu_data s.2).getD j 0) s.1,
          (top.getD i default).set_cpu_diff
            (caffe_cpu_copy (top.getD i default).count.toNat
              ((top.getD i default).cpu_data s.2)
              ((top.getD i default).cpu_diff s.2)) s.2)) ((0 : Dtype), mem)).2) := by
    unfold GetObjAndGradient
    rw [if_pos htop]
  obtain ⟨h1, h2⟩ := objective_loop top mem _ (fun _ _ => rfl) top.length
  have hblob : ∀ i : Nat, i < top.length →
      (∀ k : Nat, i < k → k < top.length →
        (top.getD k default).diff_ ≠ (top.getD i default).diff_) →
      (top.getD i default).count.toNat ≤ ((top.getD i default).cpu_data mem).length →
      ((top.getD i default).cpu_diff (GetObjAndGradient top top_id top_data_id mem).2).take
          (top.getD i default).count.toNat =
        ((top.getD i default).cpu_data mem).take (top.getD i default).count.toNat := by
    intro i hi hlater hlen
    have hd := objective_loop_diff top mem _ (fun _ _ => rfl) i (top.length - (i + 1))
      (fun k a b => hlater k a (by omega))
    rw [show i + 1 + (top.length - (i + 1)) = top.length by omega] at hd
    rw [hrun]
    show (Memory.diff _ (top.getD i default).diff_).take _ = _
    rw [hd]
    unfold caffe_cpu_copy
    rw [List.take_append_of_le_length (by rw [List.length_take]; omega), List.take_take,
      Nat.min_self]
  refine ⟨by rw [hrun]; exact congrArg (fun x => x / 2) h2, by rw [hrun]; exact h1, hblob, ?_⟩
  intro hdistinct b hb hlen
  obtain ⟨i, hi, rfl⟩ := List.getElem_of_mem hb
  have e : top[i] = top.getD i default := (List.getD_eq_getElem _ _ hi).symm
  rw [e] at hlen ⊢
  apply hblob i hi ?_ hlen
  intro k hik hk
  rw [List.getD_eq_getElem _ _ hk, List.getD_eq_getElem _ _ hi]
  exact (List.pairwise_iff_getElem.1 hdistinct i k hi hk hik).symm

/-- C25 on the one top `square_top` with the values 1, 2, 3, 4: the objective
is 15 and the gradient array is the value array. -/
theorem C25_witness :
    (GetObjAndGradient [square_top] (-1) (-1) checker_memory).1 = 15 ∧
    (square_top.cpu_diff (GetObjAndGradient [square_top] (-1) (-1) checker_memory).2).take 4 =
      [1, 2, 3, 4] := by
  obtain ⟨h1, _, _, h4⟩ :=
    C25_objective_without_target [square_top] (-1) (-1) checker_memory (by decide)
  refine ⟨?_, ?_⟩
  · rw [h1]
    norm_num [List.range, List.range.loop, square_top, checker_memory, Blob.count,
      Blob.cpu_data]
  · exact h4 (List.pairwise_singleton _ _) square_top (List.mem_singleton.2 rfl) (by decide)

/-- The second component of a loop on pairs whose second component does not
depend on the first is the loop on the second component. -/
theorem forUp_pair_snd {α σ : Type} (n : Nat) (g : Nat → α × σ → α) (f : Nat → σ → σ)
    (a : α) (m : σ) :
    (forUp n (fun i (s : α × σ) => (g i s, f i s.2)) (a, m)).2 = forUp n f m := by
  induction n with
  | zero => rfl
  | succ k ih =>
    show f k (forUp k _ (a, m)).2 = f k (forUp k f m)
    rw [ih]

/-- C26: with `0 <= top_id < top.size()` and `0 <= top_data_id` below the
count of `top[top_id]`, `GetObjAndGradient` returns twice the element
`top_data_id` of the values of `top[top_id]`, leaves the values as they are,
and leaves every element below its count of the gradient array of every top
blob at 0, but for the element `top_data_id` of the gradient storage of
`top[top_id]`, which is 2 (so, when the top blobs have pairwise distinct
gradient storage, but for the one element `top_data_id` of `top[top_id]`). -/
theorem C26_objective_with_target (top : List Blob) (top_id top_data_id : Int) (mem : Memory)
    (htop : 0 ≤ top_id) (hid : top_id < top.length) (hdata : 0 ≤ top_data_id)
    (hvalid : top_data_id < (top.getD top_id.toNat default).count) :
    (GetObjAndGradient top top_id top_data_id mem).1 =
      2 * ((top.getD top_id.toNat default).cpu_data mem).getD top_data_id.toNat 0 ∧
    (GetObjAndGradient top top_id top_data_id mem).2.data = mem.data ∧
    (∀ i j : Nat, i < top.length → j < (top.getD i default).count.toNat →
      ((top.getD i default).cpu_diff (GetObjAndGradient top top_id top_data_id mem).2)[j]? =
        some (if (top.getD i default).diff_ = (top.getD top_id.toNat default).diff_ ∧
          j = top_data_id.toNat then 2 else 0)) ∧
    (top.Pairwise (fun a b => a.diff_ ≠ b.diff_) →
      ∀ i j : Nat, i < top.length → j < (top.getD i default).count.toNat →
        ((top.getD i default).cpu_diff (GetObjAndGradient top top_id top_data_id mem).2)[j]? =
          some (if i = top_id.toNat ∧ j = top_data_id.toNat then 2 else 0)) := by
  obtain ⟨_, p2, p3, p4, _⟩ := params_loop top mem
    (fun i (s : List Blob × Memory) =>
      (s.1 ++ [top.getD i default],
        (top.getD i default).set_cpu_diff
          (caffe_set (top.getD i default).count.toNat 0
            ((top.getD i default).cpu_diff s.2)) s.2))
    (fun _ _ => rfl) top.length (Nat.le_refl _)
  rw [forUp_pair_snd top.length (fun i (s : List Blob × Memory) => s.1 ++ [top.getD i default])
    (fun i (m : Memory) => (top.getD i default).set_cpu_diff
      (caffe_set (top.getD i default).count.toNat 0 ((top.getD i default).cpu_diff m)) m)]
    at p2 p3 p4
  have hrun : GetObjAndGradient top top_id top_data_id mem =
      (((top.getD top_id.toNat default).cpu_data
          (forUp top.length (fun i (m : Memory) => (top.getD i default).set_cpu_diff
            (caffe_set (top.getD i default).count.toNat 0
              ((top.getD i default).cpu_diff m)) m) mem)).getD top_data_id.toNat 0 * 2,
        (top.getD top_id.toNat default).set_cpu_diff
          (((top.getD top_id.toNat default).cpu_diff
            (forUp top.length (fun i (m : Memory) => (top.getD i default).set_cpu_diff
              (caffe_set (top.getD i default).count.toNat 0
                ((top.getD i default).cpu_diff m)) m) mem)).set top_data_id.toNat 2)
          (forUp top.length (fun i (m : Memory) => (top.getD i default).set_cpu_diff
            (caffe_set (top.getD i default).count.toNat 0
              ((top.getD i default).cpu_diff m)) m) mem)) := by
    unfold GetObjAndGradient
    rw [if_neg (by omega)]
  generalize forUp top.length (fun i (m : Memory) => (top.getD i default).set_cpu_diff
    (caffe_set (top.getD i default).count.toNat 0 ((top.getD i default).cpu_diff m)) m) mem =
    mem1 at hrun p2 p3 p4
  have hT : top_id.toNat < top.length := by omega
  have htdi : top_data_id.toNat < (top.getD top_id.toNat default).count.toNat := by omega
  have hlenT := p4 top_id.toNat hT
  have hentry : ∀ i j : Nat, i < top.length → j < (top.getD i default).count.toNat →
      ((top.getD i default).cpu_diff (GetObjAndGradient top top_id top_data_id mem).2)[j]? =
        some (if (top.getD i default).diff_ = (top.getD top_id.toNat default).diff_ ∧
          j = top_data_id.toNat then 2 else 0) := by
    intro i j hi hj
    rw [hrun]
    have hz : ((top.getD i default).cpu_diff mem1).getD j 0 = 0 := by
      have := p3 (top.getD i default).diff_ j
      rw [if_pos ⟨i, hi, rfl, hj⟩] at this
      exact this
    have hlen := p4 i hi
    have hj' : j < ((top.getD i default).cpu_diff mem1).length := Nat.lt_of_lt_of_le hj hlen
    rw [List.getD_eq_getElem _ _ hj'] at hz
    show (if (top.getD i default).diff_ = (top.getD top_id.toNat default).diff_ then
      ((top.getD top_id.toNat default).cpu_diff mem1).set top_data_id.toNat 2
      else mem1.diff (top.getD i default).diff_)[j]? = _
    by_cases hsame : (top.getD i default).diff_ = (top.getD top_id.toNat default).diff_
    · have harr : (top.getD top_id.toNat default).cpu_diff mem1 =
          (top.getD i default).cpu_diff mem1 := by
        unfold Blob.cpu_diff
        rw [hsame]
      rw [if_pos hsame, harr, List.getElem?_set]
      by_cases hjt : top_data_id.toNat = j
      · rw [if_pos hjt, if_pos (by rw [hjt]; exact hj'), if_pos ⟨hsame, hjt.symm⟩]
      · rw [if_neg hjt, if_neg (fun h => hjt h.2.symm), List.getElem?_eq_getElem hj', hz]
    · rw [if_neg hsame, if_neg (fun h => hsame h.1)]
      show ((top.getD i default).cpu_diff mem1)[j]? = _
      rw [List.getElem?_eq_getElem hj', hz]
  refine ⟨?_, ?_, hentry, ?_⟩
  · rw [hrun]
    show ((top.getD top_id.toNat default).cpu_data mem1).getD top_data_id.toNat 0 * 2 = _
    unfold Blob.cpu_data
    rw [p2, mul_comm]
  · rw [hrun]
    exact p2
  · intro hdistinct i j hi hj
    rw [hentry i j hi hj]
    congr 1
    by_cases hiT : i = top_id.toNat
    · subst hiT
      simp
    · have hne : (top.getD i default).diff_ ≠ (top.getD top_id.toNat default).diff_ := by
        rw [List.getD_eq_getElem _ _ hi, List.getD_eq_getElem _ _ hT]
        rcases Nat.lt_or_gt_of_ne hiT with h | h
        · exact List.pairwise_iff_getElem.1 hdistinct i top_id.toNat hi hT h
        · exact (List.pairwise_iff_getElem.1 hdistinct top_id.toNat i hT hi h).symm
      rw [if_neg (fun h => hne h.1), if_neg (fun h => hiT h.1)]

/-- C26 on the one top `square_top` with the values 1, 2, 3, 4 and the target
element 2: the objective is 6, and the gradient is 2 at element 2 and 0 at
element 3. -/
theorem C26_witness :
    (GetObjAndGradient [square_top] 0 2 checker_memory).1 = 6 ∧
    (square_top.cpu_diff (GetObjAndGradient [square_top] 0 2 checker_memory).2)[2]? = some 2 ∧
    (square_top.cpu_diff (GetObjAndGradient [square_top] 0 2 checker_memory).2)[3]? =
      some 0 := by
  obtain ⟨h1, _, h3, _⟩ := C26_objective_with_target [square_top] 0 2 checker_memory
    (by decide) (by decide) (by decide) (by decide)
  refine ⟨?_, ?_, ?_⟩
  · rw [h1, show (2 : Int).toNat = 2 from rfl]
    norm_num [square_top, checker_memory, Blob.cpu_data]
  · exact h3 0 2 (by decide) (by decide)
  · exact h3 0 3 (by decide) (by decide)

/-! ## The comparison of one element -/

/-- C28: the element step of `CheckGradientSingle`, with feature `f` (the
element as it is read after the differencing), computed gradient `a` and
estimated gradient `e`, reports a failure exactly when `f` is outside the
band, `|f| < kink - kink_range` or `|f| > kink + kink_range`, and
`|a - e| <= threshold * max(|a|, |e|, 1)` does not hold; with `|f|` in the
closed band it reports nothing. -/
theorem C28_compared_outside_kink_band (c : GradientChecker) (layer : CheckedLayer)
    (bottom top : List Blob) (top_id top_data_id : Int) (element_wise : Bool)
    (blob_id : Nat) (current_blob : Blob) (computed_gradients : List Dtype) (feat_id : Nat)
    (s : Memory × List Failure) :
    (CheckGradientSingle.element c layer bottom top top_id top_data_id element_wise blob_id
        current_blob computed_gradients feat_id s).1 =
      (CheckGradientSingle.estimate c layer bottom top top_id top_data_id element_wise
        current_blob feat_id s.1).2.2.2 ∧
    (CheckGradientSingle.element c layer bottom top top_id top_data_id element_wise blob_id
        current_blob computed_gradients feat_id s).2 =
      (if (abs (current_blob.data_at feat_id
              (CheckGradientSingle.estimate c layer bottom top top_id top_data_id element_wise
                current_blob feat_id s.1).2.2.2) < c.kink_ - c.kink_range_ ∨
            abs (current_blob.data_at feat_id
              (CheckGradientSingle.estimate c layer bottom top top_id top_data_id element_wise
                current_blob feat_id s.1).2.2.2) > c.kink_ + c.kink_range_) ∧
          ¬ (abs (computed_gradients.getD feat_id 0 -
              (CheckGradientSingle.estimate c layer bottom top top_id top_data_id element_wise
                current_blob feat_id s.1).1) ≤
            c.threshold_ *
              max (max (abs (computed_gradients.getD feat_id 0))
                (abs (CheckGradientSingle.estimate c layer bottom top top_id top_data_id
                  element_wise current_blob feat_id s.1).1)) 1) then
        s.2 ++
          [{ top_id := top_id, top_data_id := top_data_id, blob_id := blob_id,
             feat_id := feat_id,
             feature := current_blob.data_at feat_id
               (CheckGradientSingle.estimate c layer bottom top top_id top_data_id element_wise
                 current_blob feat_id s.1).2.2.2,
             positive_objective :=
               (CheckGradientSingle.estimate c layer bottom top top_id top_data_id element_wise
                 current_blob feat_id s.1).2.1,
             negative_objective :=
               (CheckGradientSingle.estimate c layer bottom top top_id top_data_id element_wise
                 current_blob feat_id s.1).2.2.1,
             computed_gradient := computed_gradients.getD feat_id 0,
             estimated_gradient :=
               (CheckGradientSingle.estimate c layer bottom top top_id top_data_id element_wise
                 current_blob feat_id s.1).1 }]
      else s.2) ∧
    (c.kink_ - c.kink_range_ ≤
        abs (current_blob.data_at feat_id
          (CheckGradientSingle.estimate c layer bottom top top_id top_data_id element_wise
            current_blob feat_id s.1).2.2.2) →
      abs (current_blob.data_at feat_id
          (CheckGradientSingle.estimate c layer bottom top top_id top_data_id element_wise
            current_blob feat_id s.1).2.2.2) ≤ c.kink_ + c.kink_range_ →
      (CheckGradientSingle.element c layer bottom top top_id top_data_id element_wise blob_id
        current_blob computed_gradients feat_id s).2 = s.2) := by
  generalize hr : CheckGradientSingle.estimate c layer bottom top top_id top_data_id
    element_wise current_blob feat_id s.1 = r
  have hel : CheckGradientSingle.element c layer bottom top top_id top_data_id element_wise
      blob_id current_blob computed_gradients feat_id s =
      if c.kink_ - c.kink_range_ > abs (current_blob.data_at feat_id r.2.2.2) ∨
          abs (current_blob.data_at feat_id r.2.2.2) > c.kink_ + c.kink_range_ then
        if EXPECT_NEAR (computed_gradients.getD feat_id 0) r.1
            (c.threshold_ * max (max (abs (computed_gradients.getD feat_id 0)) (abs r.1)) 1) then
          (r.2.2.2, s.2)
        else
          (r.2.2.2, s.2 ++
            [{ top_id := top_id, top_data_id := top_data_id, blob_id := blob_id,
               feat_id := feat_id, feature := current_blob.data_at feat_id r.2.2.2,
               positive_objective := r.2.1, negative_objective := r.2.2.1,
               computed_gradient := computed_gradients.getD feat_id 0,
               estimated_gradient := r.1 }])
      else (r.2.2.2, s.2) := by
    unfold CheckGradientSingle.element
    rw [hr]
  rw [hel]
  unfold EXPECT_NEAR
  by_cases hband : c.kink_ - c.kink_range_ > abs (current_blob.data_at feat_id r.2.2.2) ∨
      abs (current_blob.data_at feat_id r.2.2.2) > c.kink_ + c.kink_range_
  · rw [if_pos hband]
    by_cases hnear : abs (computed_gradients.getD feat_id 0 - r.1) ≤
        c.threshold_ * max (max (abs (computed_gradients.getD feat_id 0)) (abs r.1)) 1
    · rw [decide_eq_true hnear, if_pos rfl, if_neg (fun h => h.2 hnear)]
      refine ⟨rfl, rfl, fun _ _ => rfl⟩
    · rw [decide_eq_false hnear, if_neg (by simp), if_pos ⟨hband, hnear⟩]
      refine ⟨rfl, rfl, ?_⟩
      intro h1 h2
      rcases hband with h | h
      · exact absurd h1 (not_le.2 h)
      · exact absurd h2 (not_le.2 h)
  · rw [if_neg hband, if_neg (fun h => hband h.1)]
    exact ⟨rfl, rfl, fun _ _ => rfl⟩

/-- C28 on `kink_checker`: the element 0 of `square_top`, of value 1, is in
the band, and the step reports nothing although the computed gradient 5 is
far from the estimate 0. -/
theorem C28_witness :
    (CheckGradientSingle.element kink_checker square_layer [square_bottom] [square_top] 0 1
      true 0 square_top [5] 0 (checker_memory, [])).2 = [] := by
  have hest : CheckGradientSingle.estimate kink_checker square_layer [square_bottom]
      [square_top] 0 1 true square_top 0 checker_memory = (0, 0, 0, checker_memory) := by
    unfold CheckGradientSingle.estimate
    rw [if_neg (by decide)]
  have hfeat : square_top.data_at 0 checker_memory = 1 := rfl
  refine (C28_compared_outside_kink_band kink_checker square_layer [square_bottom]
    [square_top] 0 1 true 0 square_top [5] 0 (checker_memory, [])).2.2 ?_ ?_
  · rw [hest, hfeat]
    norm_num [kink_checker]
  · rw [hest, hfeat]
    norm_num [kink_checker]

/-- C29: in element-wise mode the step for an element whose index is not
`top_data_id` makes no estimate (whatever the layer: nothing is perturbed, no
`Forward` runs, the memory stays as it is) and compares the computed gradient
`a` with 0: outside the kink band it reports a failure exactly when
`|a| <= threshold * max(|a|, 1)` does not hold, which for a threshold below 1
is when `|a| <= threshold` does not hold. The element whose index is
`top_data_id` is differenced as without the mode. -/
theorem C29_element_wise_skips_other_elements (c : GradientChecker) (layer : CheckedLayer)
    (bottom top : List Blob) (top_id top_data_id : Int) (blob_id : Nat) (current_blob : Blob)
    (computed_gradients : List Dtype) (feat_id : Nat) (s : Memory × List Failure)
    (hne : (feat_id : Int) ≠ top_data_id) :
    (∀ mem, CheckGradientSingle.estimate c layer bottom top top_id top_data_id true
      current_blob feat_id mem = (0, 0, 0, mem)) ∧
    (CheckGradientSingle.element c layer bottom top top_id top_data_id true blob_id
        current_blob computed_gradients feat_id s).1 = s.1 ∧
    (CheckGradientSingle.element c layer bottom top top_id top_data_id true blob_id
        current_blob computed_gradients feat_id s).2 =
      (if (abs (current_blob.data_at feat_id s.1) < c.kink_ - c.kink_range_ ∨
            abs (current_blob.data_at feat_id s.1) > c.kink_ + c.kink_range_) ∧
          ¬ (abs (computed_gradients.getD feat_id 0) ≤
            c.threshold_ * max (abs (computed_gradients.getD feat_id 0)) 1) then
        s.2 ++
          [{ top_id := top_id, top_data_id := top_data_id, blob_id := blob_id,
             feat_id := feat_id, feature := current_blob.data_at feat_id s.1,
             positive_objective := 0, negative_objective := 0,
             computed_gradient := computed_gradients.getD feat_id 0,
             estimated_gradient := 0 }]
      else s.2) ∧
    (c.threshold_ < 1 →
      (abs (computed_gradients.getD feat_id 0) ≤
          c.threshold_ * max (abs (computed_gradients.getD feat_id 0)) 1 ↔
        abs (computed_gradients.getD feat_id 0) ≤ c.threshold_)) ∧
    (∀ (feat : Nat) (mem : Memory), (feat : Int) = top_data_id →
      CheckGradientSingle.estimate c layer bottom top top_id top_data_id true
        current_blob feat mem =
      CheckGradientSingle.estimate c layer bottom top top_id top_data_id false
        current_blob feat mem) := by
  have hest : ∀ mem, CheckGradientSingle.estimate c layer bottom top top_id top_data_id true
      current_blob feat_id mem = (0, 0, 0, mem) := by
    intro mem
    unfold CheckGradientSingle.estimate
    rw [if_neg (by rw [decide_eq_false hne]; decide)]
  refine ⟨hest, ?_, ?_, ?_, ?_⟩
  · unfold CheckGradientSingle.element
    rw [hest]
    dsimp only
    split
    · split <;> rfl
    · rfl
  · unfold CheckGradientSingle.element EXPECT_NEAR
    rw [hest]
    dsimp only
    rw [sub_zero, abs_zero,
      max_eq_left (abs_nonneg (computed_gradients.getD feat_id 0))]
    by_cases hband : c.kink_ - c.kink_range_ > abs (current_blob.data_at feat_id s.1) ∨
        abs (current_blob.data_at feat_id s.1) > c.kink_ + c.kink_range_
    · rw [if_pos hband]
      by_cases hnear : abs (computed_gradients.getD feat_id 0) ≤
          c.threshold_ * max (abs (computed_gradients.getD feat_id 0)) 1
      · rw [decide_eq_true hnear, if_pos rfl, if_neg (fun h => h.2 hnear)]
      · rw [decide_eq_false hnear, if_neg (by simp), if_pos ⟨hband, hnear⟩]
    · rw [if_neg hband, if_neg (fun h => hband h.1)]
  · intro hthr
    generalize abs (computed_gradients.getD feat_id 0) = a
    constructor
    · intro h
      rcases le_total a 1 with h1 | h1
      · rw [max_eq_right h1, mul_one] at h
        exact h
      · rw [max_eq_left h1] at h
        nlinarith
    · intro h
      rcases le_total a 1 with h1 | h1
      · rw [max_eq_right h1, mul_one]
        exact h
      · linarith
  · intro feat mem hfeat
    unfold CheckGradientSingle.estimate
    rw [if_pos (by rw [decide_eq_true hfeat]; decide), if_pos (by simp)]

/-- C29 on `square_checker` in element-wise mode with target element 1: the
step for element 0 leaves the memory as it is, and with a threshold of 1/100
the comparison of a computed gradient 5 with 0 is `|5| <= 1/100`. -/
theorem C29_witness :
    (CheckGradientSingle.element square_checker square_layer [square_bottom] [square_top] 0 1
      true 0 square_bottom [5] 0 (checker_memory, [])).1 = checker_memory ∧
    (abs ((5 : Dtype)) ≤ square_checker.threshold_ * max (abs (5 : Dtype)) 1 ↔
      abs ((5 : Dtype)) ≤ square_checker.threshold_) :=
  ⟨(C29_element_wise_skips_other_elements square_checker square_layer [square_bottom]
      [square_top] 0 1 0 square_bottom [5] 0 (checker_memory, []) (by decide)).2.1,
    (C29_element_wise_skips_other_elements square_checker square_layer [square_bottom]
      [square_top] 0 1 0 square_bottom [5] 0 (checker_memory, []) (by decide)).2.2.2.1
      (by norm_num [square_checker])⟩

/-! ## The central difference -/

/-- The function `GetObjAndGradient` leaves the values as they are. -/
theorem GetObjAndGradient_data (top : List Blob) (top_id top_data_id : Int) (mem : Memory) :
    (GetObjAndGradient top top_id top_data_id mem).2.data = mem.data := by
  unfold GetObjAndGradient
  by_cases htop : top_id < 0
  · rw [if_pos htop]
    exact (objective_loop top mem _ (fun _ _ => rfl) top.length).1
  · rw [if_neg htop]
    have p2 := (params_loop top mem
      (fun i (s : List Blob × Memory) =>
        (s.1 ++ [top.getD i default],
          (top.getD i default).set_cpu_diff
            (caffe_set (top.getD i default).count.toNat 0
              ((top.getD i default).cpu_diff s.2)) s.2))
      (fun _ _ => rfl) top.length (Nat.le_refl _)).2.1
    rw [forUp_pair_snd top.length
      (fun i (s : List Blob × Memory) => s.1 ++ [top.getD i default])
      (fun i (m : Memory) => (top.getD i default).set_cpu_diff
        (caffe_set (top.getD i default).count.toNat 0 ((top.getD i default).cpu_diff m)) m)]
      at p2
    exact p2

/-- The values after the assignment to an element of a blob. -/
theorem set_data_at_data (b : Blob) (i : Nat) (v : Dtype) (mem : Memory) (h : Nat) :
    (b.set_data_at i v mem).data h =
      if h = b.data_ then (mem.data b.data_).set i v else mem.data h := rfl

/-- Adding the step, subtracting it twice and adding it again gives the array
back. -/
theorem restore_array (A : List Dtype) (f : Nat) (step : Dtype) :
    ((A.set f (A.getD f 0 + step)).set f
        ((A.set f (A.getD f 0 + step)).getD f 0 - step * 2)).set f
      (((A.set f (A.getD f 0 + step)).set f
        ((A.set f (A.getD f 0 + step)).getD f 0 - step * 2)).getD f 0 + step) = A := by
  by_cases hf : f < A.length
  · have g1 : ∀ (B : List Dtype) (v : Dtype), f < B.length → (B.set f v).getD f 0 = v := by
      intro B v hB
      rw [List.getD_eq_getElem?_getD, List.getElem?_set, if_pos rfl, if_pos hB]
      rfl
    have e1 : (A.set f (A.getD f 0 + step)).getD f 0 = A.getD f 0 + step := g1 A _ hf
    rw [e1]
    have e2 : ((A.set f (A.getD f 0 + step)).set f (A.getD f 0 + step - step * 2)).getD f 0 =
        A.getD f 0 + step - step * 2 := g1 _ _ (by rw [List.length_set]; exact hf)
    rw [e2, List.set_set, List.set_set]
    have : A.getD f 0 + step - step * 2 + step = A.getD f 0 := by ring
    rw [this, List.getD_eq_getElem _ _ hf]
    apply List.ext_getElem?
    intro i
    rw [List.getElem?_set]
    split
    · rename_i hi
      subst hi
      rw [List.getElem?_eq_getElem hf]
    · rfl
  · rw [List.set_eq_of_length_le (by rw [List.length_set, List.length_set]; omega),
      List.set_eq_of_length_le (by rw [List.length_set]; omega),
      List.set_eq_of_length_le (by omega)]

/-- The finite differencing leaves the values in every array that `Forward`
leaves alone as they were. -/
theorem estimate_data (c : GradientChecker) (layer : CheckedLayer) (bottom top : List Blob)
    (top_id top_data_id : Int) (element_wise : Bool) (current_blob : Blob) (feat_id : Nat)
    (mem : Memory) (h : Nat)
    (hF : ∀ m, (layer.Forward bottom top m).data h = m.data h) :
    (CheckGradientSingle.estimate c layer bottom top top_id top_data_id element_wise
      current_blob feat_id mem).2.2.2.data h = mem.data h := by
  unfold CheckGradientSingle.estimate
  split
  · dsimp only
    by_cases hh : h = current_blob.data_
    · subst hh
      have step : ∀ (m : Memory) (v : Dtype),
          (GetObjAndGradient top top_id top_data_id
            (layer.Forward bottom top (current_blob.set_data_at feat_id v m))).2.data
              current_blob.data_ = (m.data current_blob.data_).set feat_id v := by
        intro m v
        rw [GetObjAndGradient_data, hF, set_data_at_data, if_pos rfl]
      have dat : ∀ m : Memory, current_blob.data_at feat_id m =
          (m.data current_blob.data_).getD feat_id 0 := fun _ => rfl
      rw [set_data_at_data, if_pos rfl]
      simp only [dat, step]
      exact restore_array _ _ _
    · rw [set_data_at_data, if_neg hh, GetObjAndGradient_data, hF, set_data_at_data, if_neg hh,
        GetObjAndGradient_data, hF, set_data_at_data, if_neg hh]
  · rfl

/-- The element step leaves the values in every array that `Forward` leaves
alone as they were. -/
theorem element_data (c : GradientChecker) (layer : CheckedLayer) (bottom top : List Blob)
    (top_id top_data_id : Int) (element_wise : Bool) (blob_id : Nat) (current_blob : Blob)
    (computed_gradients : List Dtype) (feat_id : Nat) (s : Memory × List Failure) (h : Nat)
    (hF : ∀ m, (layer.Forward bottom top m).data h = m.data h) :
    (CheckGradientSingle.element c layer bottom top top_id top_data_id element_wise blob_id
      current_blob computed_gradients feat_id s).1.data h = s.1.data h := by
  have hmem : (CheckGradientSingle.element c layer bottom top top_id top_data_id element_wise
      blob_id current_blob computed_gradients feat_id s).1 =
      (CheckGradientSingle.estimate c layer bottom top top_id top_data_id element_wise
        current_blob feat_id s.1).2.2.2 := by
    unfold CheckGradientSingle.element
    dsimp only
    split
    · split <;> rfl
    · rfl
  rw [hmem]
  exact estimate_data c layer bottom top top_id top_data_id element_wise current_blob feat_id
    s.1 h hF

/-- What `Forward` of `square_layer` does on the blobs of the end-to-end
property: the squares of the array of values 0 go to the array of values
1. -/
theorem square_Forward (m : Memory) :
    square_layer.Forward [square_bottom] [square_top] m =
      { m with data := fun h => if h = 1 then (m.data 0).map (fun x => x * x) else m.data h } :=
  rfl

/-- What `Backward` of `square_layer` does on the blobs of the end-to-end
property when the flag of the bottom is set. -/
theorem square_Backward (m : Memory) :
    square_layer.Backward [square_top] [true] [square_bottom] m =
      { m with
        diff := fun h =>
          if h = 0 then List.zipWith (fun x dy => 2 * x * dy) (m.data 0) (m.diff 1)
          else m.diff h } :=
  rfl

/-- The objective on the top of the end-to-end property with the target
element `k`. -/
theorem square_objective (k : Nat) (m : Memory) :
    GetObjAndGradient [square_top] 0 (k : Int) m =
      ((m.data 1).getD k 0 * 2,
        { m with
          diff := fun h => if h = 1 then (caffe_set 4 0 (m.diff 1)).set k 2 else m.diff h }) := by
  have hcount : square_top.count.toNat = 4 := by decide
  unfold GetObjAndGradient
  rw [if_neg (by decide)]
  dsimp only
  rw [Int.toNat_ofNat]
  show ((square_top.cpu_data (square_top.set_cpu_diff
      (caffe_set square_top.count.toNat 0 (square_top.cpu_diff m)) m)).getD k 0 * 2,
    square_top.set_cpu_diff ((square_top.cpu_diff (square_top.set_cpu_diff
      (caffe_set square_top.count.toNat 0 (square_top.cpu_diff m)) m)).set k 2)
      (square_top.set_cpu_diff
        (caffe_set square_top.count.toNat 0 (square_top.cpu_diff m)) m)) = _
  rw [hcount]
  unfold Blob.set_cpu_diff Blob.cpu_diff Blob.cpu_data
  refine Prod.ext rfl ?_
  show ({ data := m.data, diff := _ } : Memory) = { data := m.data, diff := _ }
  congr 1
  funext h
  by_cases hh : h = 1
  · subst hh
    rfl
  · show (if h = 1 then _ else if h = 1 then _ else m.diff h) = if h = 1 then _ else m.diff h
    rw [if_neg hh, if_neg hh, if_neg hh]

/-- One evaluation of the objective of the end-to-end property: twice the
square of the element `k` of the input, and the input stays. -/
theorem square_pass (k : Nat) (m : Memory) (hk : k < (m.data 0).length) :
    (GetObjAndGradient [square_top] 0 (k : Int)
      (square_layer.Forward [square_bottom] [square_top] m)).1 =
        (m.data 0).getD k 0 * (m.data 0).getD k 0 * 2 ∧
    (GetObjAndGradient [square_top] 0 (k : Int)
      (square_layer.Forward [square_bottom] [square_top] m)).2.data 0 = m.data 0 := by
  rw [square_objective, square_Forward]
  refine ⟨?_, rfl⟩
  show ((m.data 0).map (fun x => x * x)).getD k 0 * 2 = _
  rw [List.getD_eq_getElem?_getD, List.getElem?_map, List.getElem?_eq_getElem hk,
    List.getD_eq_getElem _ _ hk]
  rfl

/-- The element `k` of an array one of whose elements was set. -/
theorem getD_set_at (X : List Dtype) (f k : Nat) (v : Dtype) (hf : f < X.length) :
    (X.set f v).getD k 0 = if f = k then v else X.getD k 0 := by
  rw [List.getD_eq_getElem?_getD, List.getElem?_set]
  by_cases hfk : f = k
  · subst hfk
    rw [if_pos rfl, if_pos rfl, if_pos hf]
    rfl
  · rw [if_neg hfk, if_neg hfk, List.getD_eq_getElem?_getD]

/-- The estimate of the end-to-end property for the element `feat` of the
input and the target element `k`: four times the input at `k` for the element
`k`, and 0 for another element; the input stays. -/
theorem square_estimate (k feat : Nat) (element_wise : Bool) (m : Memory)
    (hk : k < (m.data 0).length) (hfeat : feat < (m.data 0).length) :
    (CheckGradientSingle.estimate square_checker square_layer [square_bottom] [square_top]
      0 (k : Int) element_wise square_bottom feat m).1 =
        (if feat = k then 4 * (m.data 0).getD k 0 else 0) ∧
    (CheckGradientSingle.estimate square_checker square_layer [square_bottom] [square_top]
      0 (k : Int) element_wise square_bottom feat m).2.2.2.data 0 = m.data 0 := by
  refine ⟨?_, estimate_data _ _ _ _ _ _ _ _ _ _ 0 (fun _ => rfl)⟩
  unfold CheckGradientSingle.estimate
  split
  · dsimp only
    have hset : ∀ (v : Dtype) (u : Memory), (square_bottom.set_data_at feat v u).data 0 =
        (u.data 0).set feat v := fun _ _ => rfl
    have hread : ∀ u : Memory, square_bottom.data_at feat u = (u.data 0).getD feat 0 :=
      fun _ => rfl
    simp only [hread]
    have h1 := square_pass k
      (square_bottom.set_data_at feat ((m.data 0).getD feat 0 + square_checker.stepsize_) m)
      (by rw [hset, List.length_set]; exact hk)
    rw [hset] at h1
    obtain ⟨p1, p2⟩ := h1
    rw [p1, p2]
    have h2 := square_pass k
      (square_bottom.set_data_at feat
        (((m.data 0).set feat ((m.data 0).getD feat 0 + square_checker.stepsize_)).getD feat 0 -
          square_checker.stepsize_ * 2)
        (GetObjAndGradient [square_top] 0 (k : Int)
          (square_layer.Forward [square_bottom] [square_top]
            (square_bottom.set_data_at feat
              ((m.data 0).getD feat 0 + square_checker.stepsize_) m))).2)
      (by rw [hset, List.length_set, p2, List.length_set]; exact hk)
    rw [hset, p2] at h2
    rw [h2.1, List.set_set]
    rw [getD_set_at _ _ _ _ hfeat, getD_set_at _ _ _ _ hfeat, getD_set_at _ _ _ _ hfeat,
      if_pos rfl]
    have hstep : square_checker.stepsize_ = 1 / 10000 := rfl
    rw [hstep]
    by_cases hfk : feat = k
    · subst hfk
      rw [if_pos rfl, if_pos rfl, if_pos rfl]
      field_simp
      ring
    · rw [if_neg hfk, if_neg hfk, if_neg hfk]
      simp
  · rename_i hskip
    have hne : feat ≠ k := by
      intro h
      apply hskip
      rw [h]
      simp
    rw [if_neg hne]

/-- The gradient `Backward` computes in the end-to-end property, as the
checker copies it: four times the input at the target element `k`, and 0 at
every other element. -/
theorem square_gradient (k feat : Nat) (m : Memory) (hlen : (m.data 0).length = 4)
    (hk : k < 4) (hfeat : feat < 4) :
    (caffe_cpu_copy 4
      ((square_layer.Backward [square_top] [true] [square_bottom]
        (GetObjAndGradient [square_top] 0 (k : Int)
          (square_layer.Forward [square_bottom] [square_top] m)).2).diff 0)
      (List.replicate 4 0)).getD feat 0 =
      if feat = k then 4 * (m.data 0).getD k 0 else 0 := by
  rw [square_Backward, square_objective, square_Forward]
  show (caffe_cpu_copy 4
    (List.zipWith (fun x dy => 2 * x * dy) (m.data 0) ((caffe_set 4 0 (m.diff 1)).set k 2))
    (List.replicate 4 0)).getD feat 0 = _
  have hD : 4 ≤ ((caffe_set 4 0 (m.diff 1)).set k 2).length := by
    rw [List.length_set]
    exact length_caffe_set _ _ _
  have hZ : (List.zipWith (fun x dy => 2 * x * dy) (m.data 0)
      ((caffe_set 4 0 (m.diff 1)).set k 2)).length = 4 := by
    rw [List.length_zipWith, hlen]
    omega
  rw [getD_caffe_cpu_copy 4 _ _ feat hfeat (by omega), List.getD_eq_getElem _ _ (by omega),
    List.getElem_zipWith]
  have hentry : ((caffe_set 4 0 (m.diff 1)).set k 2).getD feat 0 = if k = feat then 2 else 0 := by
    rw [getD_set_at _ _ _ _ (Nat.lt_of_lt_of_le hk (length_caffe_set _ _ _)), getD_caffe_set,
      if_pos hfeat]
  rw [List.getD_eq_getElem _ _ (by omega)] at hentry
  rw [hentry]
  by_cases hfk : feat = k
  · subst hfk
    rw [if_pos rfl, if_pos rfl, List.getD_eq_getElem _ _ (by omega)]
    ring
  · rw [if_neg (fun h => hfk h.symm), if_neg hfk]
    ring

/-- The element step of the end-to-end property reports nothing and leaves
the input as it is, when the computed gradients are those of
`square_gradient`. -/
theorem square_element (k feat blob_id : Nat) (element_wise : Bool) (G : List Dtype)
    (s : Memory × List Failure) (hk : k < (s.1.data 0).length)
    (hfeat : feat < (s.1.data 0).length)
    (hG : G.getD feat 0 = if feat = k then 4 * (s.1.data 0).getD k 0 else 0) :
    (CheckGradientSingle.element square_checker square_layer [square_bottom] [square_top]
      0 (k : Int) element_wise blob_id square_bottom G feat s).2 = s.2 ∧
    (CheckGradientSingle.element square_checker square_layer [square_bottom] [square_top]
      0 (k : Int) element_wise blob_id square_bottom G feat s).1.data 0 = s.1.data 0 := by
  refine ⟨?_, element_data _ _ _ _ _ _ _ _ _ _ _ _ 0 (fun _ => rfl)⟩
  obtain ⟨e1, _⟩ := square_estimate k feat element_wise s.1 hk hfeat
  unfold CheckGradientSingle.element
  dsimp only
  rw [e1, hG]
  have hnear : ∀ a : Dtype,
      EXPECT_NEAR a a (square_checker.threshold_ * max (max (abs a) (abs a)) 1) = true := by
    intro a
    unfold EXPECT_NEAR
    rw [decide_eq_true_eq, sub_self, abs_zero]
    have h1 : (0 : Dtype) < square_checker.threshold_ := by
      show (0 : Dtype) < 1 / 100
      norm_num
    have h2 : (0 : Dtype) < max (max (abs a) (abs a)) 1 :=
      lt_of_lt_of_le one_pos (le_max_right _ _)
    exact le_of_lt (mul_pos h1 h2)
  rw [hnear]
  split <;> rfl

/-- The loops of the end-to-end property over the four elements of the input
report nothing and leave the input as it is. -/
theorem square_check (k : Nat) (element_wise : Bool) (m : Memory)
    (hlen : (m.data 0).length = 4) (hk : k < 4) (G : List Dtype)
    (hG : ∀ feat : Nat, feat < 4 →
      G.getD feat 0 = if feat = k then 4 * (m.data 0).getD k 0 else 0) :
    (CheckGradientSingle.check square_checker square_layer [square_bottom] [square_top]
      0 (k : Int) element_wise [square_bottom] [G] (m, [])).2 = [] ∧
    (CheckGradientSingle.check square_checker square_layer [square_bottom] [square_top]
      0 (k : Int) element_wise [square_bottom] [G] (m, [])).1.data 0 = m.data 0 := by
  have hcount : square_bottom.count.toNat = 4 := by decide
  have hrun : CheckGradientSingle.check square_checker square_layer [square_bottom]
      [square_top] 0 (k : Int) element_wise [square_bottom] [G] (m, []) =
      forUp 4 (fun feat_id s =>
        CheckGradientSingle.element square_checker square_layer [square_bottom] [square_top]
          0 (k : Int) element_wise 0 square_bottom G feat_id s) (m, []) := by
    unfold CheckGradientSingle.check
    show forUp square_bottom.count.toNat
      (fun feat_id s =>
        CheckGradientSingle.element square_checker square_layer [square_bottom] [square_top]
          0 (k : Int) element_wise 0 square_bottom G feat_id s) (m, []) = _
    rw [hcount]
  rw [hrun]
  exact forUp_induction
    (fun (_ : Nat) (t : Memory × List Failure) => t.2 = [] ∧ t.1.data 0 = m.data 0)
    4 _ (m, []) ⟨rfl, rfl⟩ (by
      intro feat t hfeat ht
      obtain ⟨t1, t2⟩ := ht
      obtain ⟨e1, e2⟩ := square_element k feat 0 element_wise G t
        (by rw [t2, hlen]; exact hk) (by rw [t2, hlen]; exact hfeat)
        (by rw [t2]; exact hG feat hfeat)
      exact ⟨e1.trans t1, e2.trans t2⟩)

/-- The analytic gradient the checker keeps for the element `feat` of the
input of the square layer, with the target element `k`: four times the input
at `k` for the element `k`, and 0 for another element. -/
theorem square_computed_eq (k feat : Nat) (mem : Memory) (hlen : (mem.data 0).length = 4)
    (hk : k < 4) (hfeat : feat < 4) :
    (square_computed (k : Int) mem).getD feat 0 =
      if feat = k then 4 * (mem.data 0).getD k 0 else 0 :=
  square_gradient k feat mem hlen hk hfeat

/-- The memory in which the loops start holds the input as it was. -/
theorem square_start_data (k : Nat) (mem : Memory) :
    (square_start (k : Int) mem).data 0 = mem.data 0 := by
  unfold square_start
  rw [square_Backward, square_objective, square_Forward]
  rfl

/-- Every state of the loop over the elements of the input of the square
layer has no failure and holds the input as it was. -/
theorem square_states (k : Nat) (element_wise : Bool) (mem : Memory)
    (hlen : (mem.data 0).length = 4) (hk : k < 4) (n : Nat) (hn : n ≤ 4) :
    (square_state (k : Int) element_wise mem n).2 = [] ∧
    (square_state (k : Int) element_wise mem n).1.data 0 = mem.data 0 := by
  unfold square_state
  have key := forUp_induction
    (fun (m : Nat) (t : Memory × List Failure) => m ≤ 4 → (t.2 = [] ∧ t.1.data 0 = mem.data 0))
    n
    (fun feat_id s =>
      CheckGradientSingle.element square_checker square_layer [square_bottom] [square_top] 0
        (k : Int) element_wise 0 square_bottom (square_computed (k : Int) mem) feat_id s)
    (square_start (k : Int) mem, [])
    (fun _ => ⟨rfl, square_start_data k mem⟩) (by
      intro feat t _ ht hle
      obtain ⟨t1, t2⟩ := ht (by omega)
      obtain ⟨e1, e2⟩ := square_element k feat 0 element_wise (square_computed (k : Int) mem) t
        (by rw [t2, hlen]; exact hk) (by rw [t2, hlen]; omega)
        (by rw [t2]; exact square_computed_eq k feat mem hlen hk (by omega))
      exact ⟨e1.trans t1, e2.trans t2⟩)
  exact key hn

/-- What `CheckGradientSingle` returns on the square layer is the state its
loop over the four elements of the input ends in. -/
theorem square_run (k : Nat) (mem : Memory) (check_bottom : Int) (element_wise : Bool)
    (hk : k < 4) (hcb : check_bottom = -1 ∨ check_bottom = 0) :
    CheckGradientSingle square_checker square_layer [square_bottom] [square_top]
      check_bottom 0 (k : Int) element_wise mem =
      .ok (square_state (k : Int) element_wise mem 4) := by
  have hchecks : (if element_wise then
      CheckGradientSingle.element_wise_checks square_layer [square_bottom] [square_top] 0
        (k : Int)
      else .ok ()) = .ok () := by
    cases element_wise with
    | false => rfl
    | true =>
      show CheckGradientSingle.element_wise_checks square_layer [square_bottom] [square_top] 0
        (k : Int) = .ok ()
      unfold CheckGradientSingle.element_wise_checks
      rw [if_neg (by decide), if_neg (by decide), if_neg (by omega)]
      rfl
  have hsetup : CheckGradientSingle.setup square_layer [square_bottom] check_bottom mem =
      .ok ([square_bottom], [true], mem) := by
    rcases hcb with h | h <;> subst h <;> rfl
  unfold CheckGradientSingle
  rw [hchecks, hsetup]
  rfl

/-- C30: the end-to-end check of the element-wise square layer on one input
of shape 1 x 1 x 2 x 2, with step 1e-4, threshold 1e-2 and the default kink
settings, for every contents of the input, every target element of the
output, in element-wise mode or not, and checking all bottoms or bottom 0.
`CheckGradientSingle` returns the state its loop over the four elements of the
input ends in, with no failure reported and the input as it was. For every
element of the input, in the state in which the loop reaches it: the input
is as it was; the analytic gradient the checker holds is four times the
input at the target element for that element and 0 for another one; the
finite-difference estimate the checker computes is the same number; the two
differ by at most `threshold * max(|analytic|, |estimated|, 1)`, so
`EXPECT_NEAR` passes; the element is outside the kink band, so the comparison
is made; and no failure is reported for it. -/
theorem C30_square_layer_passes (x0 x1 x2 x3 : Dtype) (mem : Memory)
    (check_bottom top_data_id : Int) (element_wise : Bool)
    (hinput : square_bottom.cpu_data mem = [x0, x1, x2, x3])
    (h0 : 0 ≤ top_data_id) (h4 : top_data_id < 4)
    (hcb : check_bottom = -1 ∨ check_bottom = 0) :
    CheckGradientSingle square_checker square_layer [square_bottom] [square_top]
      check_bottom 0 top_data_id element_wise mem =
      .ok (square_state top_data_id element_wise mem 4) ∧
    (square_state top_data_id element_wise mem 4).2 = [] ∧
    square_bottom.cpu_data (square_state top_data_id element_wise mem 4).1 =
      [x0, x1, x2, x3] ∧
    (∀ feat_id, feat_id < 4 →
      square_bottom.cpu_data (square_state top_data_id element_wise mem feat_id).1 =
        [x0, x1, x2, x3] ∧
      (square_computed top_data_id mem).getD feat_id 0 =
        (if (feat_id : Int) = top_data_id then 4 * [x0, x1, x2, x3].getD feat_id 0 else 0) ∧
      (CheckGradientSingle.estimate square_checker square_layer [square_bottom] [square_top]
        0 top_data_id element_wise square_bottom feat_id
        (square_state top_data_id element_wise mem feat_id).1).1 =
        (square_computed top_data_id mem).getD feat_id 0 ∧
      abs ((square_computed top_data_id mem).getD feat_id 0 -
        (CheckGradientSingle.estimate square_checker square_layer [square_bottom]
          [square_top] 0 top_data_id element_wise square_bottom feat_id
          (square_state top_data_id element_wise mem feat_id).1).1) ≤
        square_checker.threshold_ *
          max (max (abs ((square_computed top_data_id mem).getD feat_id 0))
            (abs (CheckGradientSingle.estimate square_checker square_layer [square_bottom]
              [square_top] 0 top_data_id element_wise square_bottom feat_id
              (square_state top_data_id element_wise mem feat_id).1).1)) 1 ∧
      EXPECT_NEAR ((square_computed top_data_id mem).getD feat_id 0)
        (CheckGradientSingle.estimate square_checker square_layer [square_bottom]
          [square_top] 0 top_data_id element_wise square_bottom feat_id
          (square_state top_data_id element_wise mem feat_id).1).1
        (square_checker.threshold_ *
          max (max (abs ((square_computed top_data_id mem).getD feat_id 0))
            (abs (CheckGradientSingle.estimate square_checker square_layer [square_bottom]
              [square_top] 0 top_data_id element_wise square_bottom feat_id
              (square_state top_data_id element_wise mem feat_id).1).1)) 1) = true ∧
      (square_checker.kink_ - square_checker.kink_range_ >
          abs (square_bottom.data_at feat_id
            (CheckGradientSingle.estimate square_checker square_layer [square_bottom]
              [square_top] 0 top_data_id element_wise square_bottom feat_id
              (square_state top_data_id element_wise mem feat_id).1).2.2.2) ∨
        abs (square_bottom.data_at feat_id
            (CheckGradientSingle.estimate square_checker square_layer [square_bottom]
              [square_top] 0 top_data_id element_wise square_bottom feat_id
              (square_state top_data_id element_wise mem feat_id).1).2.2.2) >
          square_checker.kink_ + square_checker.kink_range_) ∧
      (square_state top_data_id element_wise mem (feat_id + 1)).2 = []) ∧
    ∀ f : Dtype, abs f > square_checker.kink_ + square_checker.kink_range_ := by
  obtain ⟨k, rfl⟩ := Int.eq_ofNat_of_zero_le h0
  have hk : k < 4 := by omega
  have hdata : mem.data 0 = [x0, x1, x2, x3] := hinput
  have hlen : (mem.data 0).length = 4 := by rw [hdata]; rfl
  have hkink : ∀ f : Dtype, abs f > square_checker.kink_ + square_checker.kink_range_ := by
    intro f
    show abs f > (0 : Dtype) + -1
    have := abs_nonneg f
    linarith
  obtain ⟨s1, s2⟩ := square_states k element_wise mem hlen hk 4 (Nat.le_refl _)
  refine ⟨square_run k mem check_bottom element_wise hk hcb, s1, ?_, ?_, hkink⟩
  · show Memory.data _ 0 = _
    rw [s2, hdata]
  · intro feat hfeat
    obtain ⟨_, t2⟩ := square_states k element_wise mem hlen hk feat (by omega)
    obtain ⟨u1, _⟩ := square_states k element_wise mem hlen hk (feat + 1) (by omega)
    have hc := square_computed_eq k feat mem hlen hk hfeat
    obtain ⟨he, _⟩ := square_estimate k feat element_wise
      (square_state (k : Int) element_wise mem feat).1
      (by rw [t2, hlen]; exact hk) (by rw [t2, hlen]; exact hfeat)
    rw [t2] at he
    have heq : (CheckGradientSingle.estimate square_checker square_layer [square_bottom]
        [square_top] 0 (k : Int) element_wise square_bottom feat
        (square_state (k : Int) element_wise mem feat).1).1 =
        (square_computed (k : Int) mem).getD feat 0 := by
      rw [he, hc]
    have hpos : (0 : Dtype) ≤ square_checker.threshold_ *
        max (max (abs ((square_computed (k : Int) mem).getD feat 0))
          (abs ((square_computed (k : Int) mem).getD feat 0))) 1 := by
      have h1 : (0 : Dtype) < square_checker.threshold_ := by
        show (0 : Dtype) < 1 / 100
        norm_num
      have h2 : (0 : Dtype) < max (max (abs ((square_computed (k : Int) mem).getD feat 0))
          (abs ((square_computed (k : Int) mem).getD feat 0))) 1 :=
        lt_of_lt_of_le one_pos (le_max_right _ _)
      exact le_of_lt (mul_pos h1 h2)
    refine ⟨?_, ?_, heq, ?_, ?_, Or.inr (hkink _), u1⟩
    · show Memory.data _ 0 = _
      rw [t2, hdata]
    · rw [hc, hdata]
      by_cases hfk : feat = k
      · subst hfk
        rw [if_pos rfl, if_pos rfl]
      · rw [if_neg hfk, if_neg (fun e => hfk (by exact_mod_cast e))]
    · rw [heq, sub_self, abs_zero]
      exact hpos
    · rw [heq]
      unfold EXPECT_NEAR
      rw [decide_eq_true_eq, sub_self, abs_zero]
      exact hpos

/-- C30 on the input 1, 2, 3, 4 with the third output element targeted,
checking all bottoms, not element-wise: the four elements are compared, the
analytic gradient and the estimate of the third element are both 12, those of
the other elements 0. -/
theorem C30_witness :
    (square_bottom.cpu_data (square_memory [1, 2, 3, 4]) = [1, 2, 3, 4] ∧
      (0 : Int) ≤ 2 ∧ (2 : Int) < 4 ∧ ((-1 : Int) = -1 ∨ (-1 : Int) = 0)) ∧
    CheckGradientSingle square_checker square_layer [square_bottom] [square_top]
      (-1) 0 2 false (square_memory [1, 2, 3, 4]) =
      .ok (square_state 2 false (square_memory [1, 2, 3, 4]) 4) ∧
    (square_state 2 false (square_memory [1, 2, 3, 4]) 4).2 = [] ∧
    (square_computed 2 (square_memory [1, 2, 3, 4])).getD 2 0 = 12 ∧
    (CheckGradientSingle.estimate square_checker square_layer [square_bottom] [square_top]
      0 2 false square_bottom 2 (square_state 2 false (square_memory [1, 2, 3, 4]) 2).1).1 =
      12 := by
  have h := C30_square_layer_passes 1 2 3 4 (square_memory [1, 2, 3, 4]) (-1) 2 false rfl
    (by decide) (by decide) (Or.inl rfl)
  obtain ⟨h1, h2, _, h4, _⟩ := h
  obtain ⟨_, c, e, _⟩ := h4 2 (by decide)
  have hc : (square_computed 2 (square_memory [1, 2, 3, 4])).getD 2 0 = 12 := by
    rw [c]
    norm_num
  refine ⟨⟨rfl, by decide, by decide, Or.inl rfl⟩, h1, h2, hc, ?_⟩
  rw [e, hc]

/-! ## `StateMeetsRule` field by field -/

/-- The inner loop of `StateMeetsRule` finds a stage exactly when it is among
the stages of the state. -/
theorem has_stage_iff (stages : List String) (stage : String) :
    StateMeetsRule.has_stage stages stage = true ↔ stage ∈ stages := by
  induction stages with
  | nil => simp [StateMeetsRule.has_stage]
  | cons s rest ih =>
    unfold StateMeetsRule.has_stage
    by_cases h : stage = s
    · simp [h]
    · rw [if_neg h, ih]
      simp [h]

/-- The loop over the stages of a rule returns true exactly when the state
has all of them. -/
theorem stages_iff (state : NetState) (stage : List String) :
    StateMeetsRule.stages state stage = true ↔ ∀ s, s ∈ stage → s ∈ state.stage := by
  induction stage with
  | nil => simp [StateMeetsRule.stages]
  | cons s rest ih =>
    unfold StateMeetsRule.stages
    by_cases h : StateMeetsRule.has_stage state.stage s = true
    · have hs := (has_stage_iff state.stage s).mp h
      simp only [h, Bool.not_true, Bool.false_eq_true, if_false, ih, List.mem_cons]
      constructor
      · intro hall x hx
        rcases hx with rfl | hx
        · exact hs
        · exact hall x hx
      · intro hall x hx
        exact hall x (Or.inr hx)
    · have hs : s ∉ state.stage := fun hm => h ((has_stage_iff state.stage s).mpr hm)
      have hf : StateMeetsRule.has_stage state.stage s = false := by simpa using h
      simp only [hf, Bool.not_false, if_true, Bool.false_eq_true, false_iff]
      intro hall
      exact hs (hall s (List.mem_cons_self _ _))

/-- The loop over the forbidden stages of a rule returns true exactly when
the state has none of them. -/
theorem not_stages_iff (state : NetState) (not_stage : List String) :
    StateMeetsRule.not_stages state not_stage = true ↔
      ∀ s, s ∈ not_stage → s ∉ state.stage := by
  induction not_stage with
  | nil => simp [StateMeetsRule.not_stages]
  | cons s rest ih =>
    unfold StateMeetsRule.not_stages
    by_cases h : StateMeetsRule.has_stage state.stage s = true
    · have hs := (has_stage_iff state.stage s).mp h
      simp only [h, if_true, Bool.false_eq_true, false_iff]
      intro hall
      exact hall s (List.mem_cons_self _ _) hs
    · have hs : s ∉ state.stage := fun hm => h ((has_stage_iff state.stage s).mpr hm)
      have hf : StateMeetsRule.has_stage state.stage s = false := by simpa using h
      simp only [hf, Bool.false_eq_true, if_false, ih, List.mem_cons]
      constructor
      · intro hall x hx
        rcases hx with rfl | hx
        · exact hs
        · exact hall x hx
      · intro hall x hx
        exact hall x (Or.inr hx)

/-- C32: `StateMeetsRule` returns true exactly when the rule has no phase or
the phase of the state, no `min_level` or one that is at most the level of the
state, no `max_level` or one that is at least the level of the state, only
stages that are among the stages of the state, and no `not_stage` that is
among them; the name of the layer plays no part. A rule with no field set is
met by every state. -/
theorem C32_StateMeetsRule_iff (state : NetState) (rule : NetStateRule) (layer_name : String) :
    (StateMeetsRule state rule layer_name = true ↔
      (rule.phase = none ∨ rule.phase = some state.phase) ∧
      (rule.min_level = none ∨ ∃ min_level, rule.min_level = some min_level ∧
        state.level ≥ min_level) ∧
      (rule.max_level = none ∨ ∃ max_level, rule.max_level = some max_level ∧
        state.level ≤ max_level) ∧
      (∀ s, s ∈ rule.stage → s ∈ state.stage) ∧
      (∀ s, s ∈ rule.not_stage → s ∉ state.stage)) ∧
    StateMeetsRule state empty_rule layer_name = true := by
  refine ⟨?_, rfl⟩
  unfold StateMeetsRule
  rw [← stages_iff, ← not_stages_iff]
  rcases rule with ⟨phase, min_level, max_level, stage, not_stage⟩
  cases phase with
  | none =>
    cases min_level with
    | none =>
      cases max_level with
      | none => simp
      | some b => simp [not_lt]
    | some a =>
      cases max_level with
      | none => simp [not_lt]
      | some b => simp [not_lt]
  | some p =>
    by_cases hp : p = state.phase
    · subst hp
      cases min_level with
      | none =>
        cases max_level with
        | none => simp
        | some b => simp [not_lt]
      | some a =>
        cases max_level with
        | none => simp [not_lt]
        | some b => simp [not_lt]
    · simp [hp]

/-- C32 at concrete inputs: a TEST state of level 2 with the stage "deploy"
meets `full_rule`, and does not meet it once it also has the stage "debug". -/
theorem C32_witness :
    StateMeetsRule { phase := .TEST, level := 2, stage := ["deploy"] } full_rule "l" = true ∧
    StateMeetsRule { phase := .TEST, level := 2, stage := ["deploy", "debug"] } full_rule "l" =
      false ∧
    ((some Phase.TEST = none ∨ some Phase.TEST = some Phase.TEST) ∧
      ((some (1 : Int)) = none ∨ ∃ min_level, some (1 : Int) = some min_level ∧
        (2 : Int) ≥ min_level) ∧
      ((some (3 : Int)) = none ∨ ∃ max_level, some (3 : Int) = some max_level ∧
        (2 : Int) ≤ max_level) ∧
      (∀ s, s ∈ ["deploy"] → s ∈ ["deploy"]) ∧
      (∀ s, s ∈ ["debug"] → s ∉ ["deploy"])) :=
  ⟨by decide, by decide,
    (C32_StateMeetsRule_iff { phase := .TEST, level := 2, stage := ["deploy"] } full_rule
      "l").1.mp (by decide)⟩

/-! ## The skip rule of the reverse walk -/

/-- The top loop of the reverse walk leaves `layer_skip_propagate_down` false
when it is false already or the name of one of the tops left is not in
`blobs_skip_backp`. -/
theorem scan_tops_not_skip (s : Walk) (l : Nat) (remaining top_id : Nat) (flags : Bool × Bool)
    (h : flags.2 = false ∨ ∃ t, top_id ≤ t ∧ t < top_id + remaining ∧
      s.net.top_name l t ∉ s.blobs_skip_backp) :
    (Init.scan_tops s l remaining top_id flags).2 = false := by
  induction remaining generalizing top_id flags with
  | zero =>
    rcases h with h | ⟨t, h1, h2, _⟩
    · exact h
    · omega
  | succ r ih =>
    have key : ∀ A B : Bool,
        (B = false ∨ ∃ t, top_id + 1 ≤ t ∧ t < top_id + 1 + r ∧
          s.net.top_name l t ∉ s.blobs_skip_backp) →
        (if (A && !B) = true then (A, B)
          else Init.scan_tops s l r (top_id + 1) (A, B)).2 = false := by
      intro A B hB
      by_cases hc : (A && !B) = true
      · rw [if_pos hc]
        rw [Bool.and_eq_true] at hc
        simpa using hc.2
      · rw [if_neg hc]
        exact ih _ _ hB
    unfold Init.scan_tops
    refine key _ _ ?_
    rcases h with h | ⟨t, h1, h2, h3⟩
    · left
      rw [h]
      split <;> rfl
    · by_cases ht : t = top_id
      · left
        subst ht
        have hc : StdSet.contains s.blobs_skip_backp
            (s.net.blob_names_.getD ((s.net.top_id_vecs_.getD l []).getD t 0) "") = false := by
          cases hq : StdSet.contains s.blobs_skip_backp
              (s.net.blob_names_.getD ((s.net.top_id_vecs_.getD l []).getD t 0) "") with
          | false => rfl
          | true => exact absurd ((StdSet.contains_iff _ _).1 hq) h3
        rw [hc]
        rfl
      · right
        exact ⟨t, by omega, by omega, h3⟩

/-- The two conditionals that clear flags, for a layer whose top loop left
`layer_skip_propagate_down` false: the first does nothing, and the flag of
the layer is cleared only when the layer contributes no loss. -/
theorem clear_layer_not_skip (l : Nat) (c : Bool) (net : Net) :
    Init.clear_layer l (c, false) net =
      if c then net
      else { net with layer_need_backward_ := net.layer_need_backward_.set l false } := by
  unfold Init.clear_layer
  cases c <;> simp

/-- C33: in the reverse walk of a wired net, the walk visits layer `layer_id`
after the layers that follow it. If the names of all tops of the layer (none,
for a layer without tops) are in `blobs_skip_backp` at that visit, then from
the visit to the end of the walk `layer_need_backward_` of the layer is false,
every entry of its row of `bottom_need_backward_` is false and the names of
all its bottoms are in `blobs_skip_backp`, whether or not the wiring marked
the layer. If the name of some top is not in the set, the top loop leaves
`layer_skip_propagate_down` false and the conditional of the rule does
nothing: the flag of the layer is cleared only when the layer contributes no
loss, by the other conditional. -/
theorem C33_skip_rule_of_reverse_walk (CreateLayer : LayerParameter → Layer)
    (param : NetParameter) (phase_ : Phase) (w : Wiring) (layer_id : Nat)
    (hw : Init.wire CreateLayer param phase_ = .ok w) (hl : layer_id < param.layer.length) :
    Init.walk w.net (param.layer.length - layer_id) =
      Init.walk_layer layer_id (Init.walk w.net (param.layer.length - 1 - layer_id)) ∧
    ((∀ t, t < (w.net.top_id_vecs_.getD layer_id []).length →
        w.net.top_name layer_id t ∈
          (Init.walk w.net (param.layer.length - 1 - layer_id)).blobs_skip_backp) →
      ∀ visited, param.layer.length - layer_id ≤ visited → visited ≤ param.layer.length →
        (Init.walk w.net visited).net.layer_need_backward_[layer_id]? = some false ∧
        ∀ b, b < num_bottom param layer_id →
          ((Init.walk w.net visited).net.bottom_need_backward_.getD layer_id [])[b]? =
            some false ∧
          w.net.bottom_name layer_id b ∈ (Init.walk w.net visited).blobs_skip_backp) ∧
    (∀ t, t < (w.net.top_id_vecs_.getD layer_id []).length →
      w.net.top_name layer_id t ∉
        (Init.walk w.net (param.layer.length - 1 - layer_id)).blobs_skip_backp →
      (Init.scan_tops (Init.walk w.net (param.layer.length - 1 - layer_id)) layer_id
        ((Init.walk w.net (param.layer.length - 1 - layer_id)).net.top_vecs_.getD
          layer_id []).length 0 (false, true)).2 = false ∧
      Init.clear_layer layer_id
          (Init.scan_tops (Init.walk w.net (param.layer.length - 1 - layer_id)) layer_id
            ((Init.walk w.net (param.layer.length - 1 - layer_id)).net.top_vecs_.getD
              layer_id []).length 0 (false, true))
          (Init.walk w.net (param.layer.length - 1 - layer_id)).net =
        if (Init.scan_tops (Init.walk w.net (param.layer.length - 1 - layer_id)) layer_id
            ((Init.walk w.net (param.layer.length - 1 - layer_id)).net.top_vecs_.getD
              layer_id []).length 0 (false, true)).1 then
          (Init.walk w.net (param.layer.length - 1 - layer_id)).net
        else
          { (Init.walk w.net (param.layer.length - 1 - layer_id)).net with
            layer_need_backward_ :=
              (Init.walk w.net (param.layer.length - 1 - layer_id)).net.layer_need_backward_.set
                layer_id false }) := by
  have hW := wire_inv _ _ _ _ hw
  have hF := wire_flags _ _ _ _ hw
  have hn : w.net.layers_.length = param.layer.length := hW.layers_len
  have hln : layer_id < w.net.layers_.length := by rw [hn]; exact hl
  have hbv : w.net.bottom_vecs_ = w.net.bottom_id_vecs_ := hW.inv.ptr_bottom
  have htv : w.net.top_vecs_ = w.net.top_id_vecs_ := hW.inv.ptr_top
  have hblen : (w.net.bottom_vecs_.getD layer_id []).length = num_bottom param layer_id := by
    rw [hbv]
    exact hW.stage.done_bottom layer_id hl
  have hrow : (w.net.bottom_need_backward_.getD layer_id []).length =
      (w.net.bottom_vecs_.getD layer_id []).length := by
    rw [hbv]
    exact hF.rows layer_id
  rw [← hn]
  have hvis : w.net.layers_.length - layer_id = (w.net.layers_.length - 1 - layer_id) + 1 := by
    omega
  obtain ⟨pg, _⟩ := graph_walk w.net (w.net.layers_.length - 1 - layer_id)
  obtain ⟨_, p2, p3, p4, p5, p6, _⟩ := graph_fields pg
  obtain ⟨s1, s2, s3⟩ := walk_shape w.net (w.net.layers_.length - 1 - layer_id)
  obtain ⟨b1, b2⟩ := walk_row_before w.net layer_id hln (w.net.layers_.length - 1 - layer_id)
    (Nat.le_refl _)
  have hstep : Init.walk w.net (w.net.layers_.length - layer_id) =
      Init.walk_layer layer_id (Init.walk w.net (w.net.layers_.length - 1 - layer_id)) := by
    rw [hvis, walk_succ]
    have : w.net.layers_.length - 1 - (w.net.layers_.length - 1 - layer_id) = layer_id := by
      omega
    rw [this]
  have hl1 : layer_id <
      (Init.walk w.net (w.net.layers_.length - 1 - layer_id)).net.layer_need_backward_.length := by
    rw [s1, hW.lnb_len]
    exact hl
  have htn : ∀ t, (Init.walk w.net (w.net.layers_.length - 1 - layer_id)).net.top_name
      layer_id t = w.net.top_name layer_id t := by
    intro t
    unfold Net.top_name
    rw [p2, p3]
  have hbn : ∀ b, (Init.walk w.net (w.net.layers_.length - 1 - layer_id)).net.bottom_name
      layer_id b = w.net.bottom_name layer_id b := by
    intro b
    unfold Net.bottom_name
    rw [p2, p5]
  refine ⟨hstep, ?_, ?_⟩
  · intro hskip visited hv hvn
    obtain ⟨a1, a2, a3⟩ := walk_row_after w.net layer_id hln visited hv hvn
    have hres : (Init.walk_layer layer_id
        (Init.walk w.net (w.net.layers_.length - 1 - layer_id))).net.layer_need_backward_[
          layer_id]? = some false := by
      refine walk_layer_all_skip layer_id _ hl1 ?_
      intro t ht
      rw [p4, htv] at ht
      rw [htn]
      exact hskip t ht
    refine ⟨by rw [a1, hstep]; exact hres, ?_⟩
    intro b hb
    have key := walk_layer_skipped layer_id
      (Init.walk w.net (w.net.layers_.length - 1 - layer_id))
      (by rw [s2, hF.outer]
          have : w.net.bottom_id_vecs_.length = param.layer.length := hW.stage.len_bottom
          rw [this]
          exact hl)
      (by rw [s3 layer_id, hrow, p6])
      (by
        intro h0 b'
        rw [b1] at h0
        rw [b2]
        exact hF.layer layer_id b' h0)
      hres b (by rw [p6, hblen]; exact hb)
    constructor
    · rw [a2, hstep]
      exact key.1
    · apply a3
      rw [hstep, ← hbn]
      exact key.2
  · intro t ht hnot
    have hscan : (Init.scan_tops (Init.walk w.net (w.net.layers_.length - 1 - layer_id)) layer_id
        ((Init.walk w.net (w.net.layers_.length - 1 - layer_id)).net.top_vecs_.getD
          layer_id []).length 0 (false, true)).2 = false := by
      refine scan_tops_not_skip _ layer_id _ 0 (false, true) (Or.inr ⟨t, Nat.zero_le _, ?_, ?_⟩)
      · rw [p4, htv]
        omega
      · rw [htn]
        exact hnot
    refine ⟨hscan, ?_⟩
    generalize Init.scan_tops (Init.walk w.net (w.net.layers_.length - 1 - layer_id)) layer_id
        ((Init.walk w.net (w.net.layers_.length - 1 - layer_id)).net.top_vecs_.getD
          layer_id []).length 0 (false, true) = f at hscan
    obtain ⟨f1, f2⟩ := f
    simp only at hscan
    subst hscan
    exact clear_layer_not_skip layer_id f1 _

/-- C33 on `blocked_example`: when the walk reaches layer 0 both its tops "x"
and "b" are in `blobs_skip_backp`; the wiring had marked the layer, and after
the visit its flag and the flag of its bottom are clear and the name "a" of
its bottom is in the set. -/
theorem C33_witness :
    ∃ w, Init.wire walk_factory blocked_example .TEST = .ok w ∧
      w.net.layer_need_backward_[0]? = some true ∧
      (Init.walk w.net 3).net.layer_need_backward_[0]? = some false ∧
      ((Init.walk w.net 3).net.bottom_need_backward_.getD 0 [])[0]? = some false ∧
      w.net.bottom_name 0 0 ∈ (Init.walk w.net 3).blobs_skip_backp := by
  obtain ⟨w, hw, hp⟩ := of_returns_with (Init.wire walk_factory blocked_example .TEST)
    (fun w => decide (w.net.layer_need_backward_[0]? = some true ∧
      ∀ t, t < (w.net.top_id_vecs_.getD 0 []).length →
        w.net.top_name 0 t ∈ (Init.walk w.net (3 - 1 - 0)).blobs_skip_backp))
    (by decide)
  obtain ⟨h1, h2⟩ := of_decide_eq_true hp
  obtain ⟨h3, h4⟩ := (C33_skip_rule_of_reverse_walk walk_factory blocked_example .TEST w 0 hw
    (by decide)).2.1 h2 3 (by decide) (by decide)
  exact ⟨w, hw, h1, h3, (h4 0 (by decide)).1, (h4 0 (by decide)).2⟩

/-! ## The layer loop stopped early -/

theorem wire_eq_wire_until (CreateLayer : LayerParameter → Layer) (param : NetParameter)
    (phase_ : Phase) :
    Init.wire CreateLayer param phase_ =
      Init.wire_until CreateLayer param phase_ param.layer.length := rfl

/-- One more iteration of the layer loop wires one more layer. -/
theorem wire_until_succ (CreateLayer : LayerParameter → Layer) (param : NetParameter)
    (phase_ : Phase) (k : Nat) :
    Init.wire_until CreateLayer param phase_ (k + 1) =
      (Init.wire_until CreateLayer param phase_ k).bind (Init.layer CreateLayer param k) := by
  unfold Init.wire_until
  split
  · rfl
  · split
    · rfl
    · split
      · rfl
      · dsimp only
        cases Init.inputs param
            { net := { Net.empty with phase_ := phase_, name_ := param.name }
              available_blobs := []
              blob_name_to_idx := [] } with
        | error e => rfl
        | ok w1 => rfl

/-- A wiring that returns has returned after every smaller number of
layers. -/
theorem wire_until_before (CreateLayer : LayerParameter → Layer) (param : NetParameter)
    (phase_ : Phase) (n : Nat) (w : Wiring)
    (h : Init.wire_until CreateLayer param phase_ n = .ok w) (k : Nat) (hk : k ≤ n) :
    ∃ wk, Init.wire_until CreateLayer param phase_ k = .ok wk := by
  induction n generalizing w with
  | zero =>
    have : k = 0 := by omega
    subst this
    exact ⟨w, h⟩
  | succ n ih =>
    by_cases hkn : k = n + 1
    · subst hkn
      exact ⟨w, h⟩
    · rw [wire_until_succ] at h
      obtain ⟨wn, hwn, _⟩ := Except.bind_eq_ok h
      exact ih wn hwn (by omega)

/-- The invariant of the layer loop holds after every number of layers. -/
theorem wire_until_inv (CreateLayer : LayerParameter → Layer) (param : NetParameter)
    (phase_ : Phase) (k : Nat) (w : Wiring) (hk : k ≤ param.layer.length)
    (h : Init.wire_until CreateLayer param phase_ k = .ok w) :
    WInv CreateLayer param phase_ k w := by
  unfold Init.wire_until at h
  split at h
  · cases h
  · split at h
    · cases h
    · split at h
      · cases h
      · dsimp only at h
        obtain ⟨w1, hw1, h⟩ := Except.bind_eq_ok h
        have he : ({ net := { Net.empty with phase_ := phase_, name_ := param.name }
                     available_blobs := []
                     blob_name_to_idx := [] } : Wiring).core = Core.empty := rfl
        obtain ⟨hI1, hS1, ha1⟩ :=
          inputs_inv param _ w1 (he ▸ (Inv.empty param).1) (he ▸ (Inv.empty param).2) hw1
        obtain ⟨hI2, hS2⟩ := Inv.resize hI1 hS1
        refine forRange_induction
          (fun (k : Nat) (s : Wiring) => WInv CreateLayer param phase_ k s)
          _ _ _ _ ?_ ?_ h
        · have hl : w1.net.layers_ = [] := congrArg (fun x => x.1) ha1
          have hn : w1.net.layer_need_backward_ = [] := congrArg (fun x => x.2.1) ha1
          have hp : w1.net.phase_ = phase_ := congrArg (fun x => x.2.2.1) ha1
          have ho : w1.net.net_output_blob_indices_ = [] :=
            congrArg (fun x => x.2.2.2.1) ha1
          have ho' : w1.net.net_output_blobs_ = [] := congrArg (fun x => x.2.2.2.2) ha1
          refine
            { inv := hI2, stage := hS2, layers_len := ?_, lnb_len := ?_, phase_eq := hp,
              traits := ?_, top_count := ?_, inputs_len := hS1.pos_input,
              no_outputs := ⟨ho, ho'⟩ }
          · show w1.net.layers_.length = 0
            rw [hl]
            rfl
          · show w1.net.layer_need_backward_.length = 0
            rw [hn]
            rfl
          · intro l hl
            omega
          · intro l hl
            omega
        · intro i t t' hi ht hstep
          exact layer_inv CreateLayer param phase_ i t t' (by omega) ht hstep

/-- The states of the layer loop around layer `k` of a wiring that returns:
the state in which the layer is wired and the state it leaves. -/
theorem wire_until_step (CreateLayer : LayerParameter → Layer) (param : NetParameter)
    (phase_ : Phase) (w : Wiring) (h : Init.wire CreateLayer param phase_ = .ok w) (k : Nat)
    (hk : k < param.layer.length) :
    ∃ wk wk', Init.wire_until CreateLayer param phase_ k = .ok wk ∧
      Init.layer CreateLayer param k wk = .ok wk' ∧
      Init.wire_until CreateLayer param phase_ (k + 1) = .ok wk' ∧
      WInv CreateLayer param phase_ k wk ∧ WInv CreateLayer param phase_ (k + 1) wk' := by
  rw [wire_eq_wire_until] at h
  obtain ⟨wk', hwk'⟩ := wire_until_before _ _ _ _ _ h (k + 1) (by omega)
  have h2 := hwk'
  rw [wire_until_succ] at h2
  obtain ⟨wk, hwk, hstep⟩ := Except.bind_eq_ok h2
  exact ⟨wk, wk', hwk, hstep, hwk', wire_until_inv _ _ _ _ _ (by omega) hwk,
    wire_until_inv _ _ _ _ _ (by omega) hwk'⟩

/-! ## What the layer loop records for a layer -/

/-- The bottom loop of a layer records, for every bottom, the flag of the blob
it reads as the loop starts and the `propagate_down` of the bottom; the local
`need_backward` is set exactly when some bottom reads a blob whose flag is
set; the flags of the blobs and the rows of the other layers stay. -/
theorem bottoms_record (param : NetParameter) (k : Nat) (s s' : Wiring × Bool)
    (hk1 : k < s.1.net.bottom_id_vecs_.length)
    (hk2 : k < s.1.net.bottom_need_backward_.length)
    (hrow1 : s.1.net.bottom_id_vecs_.getD k [] = [])
    (hrow2 : s.1.net.bottom_need_backward_.getD k [] = [])
    (hloc : s.2 = false)
    (h : Init.bottoms param k s = .ok s') :
    s'.1.net.blob_need_backward_ = s.1.net.blob_need_backward_ ∧
    (s'.1.net.bottom_need_backward_.getD k []).length = num_bottom param k ∧
    (∀ b, b < num_bottom param k →
      (s'.1.net.bottom_need_backward_.getD k [])[b]? =
        some (s.1.net.blob_need_backward_.getD
            ((s'.1.net.bottom_id_vecs_.getD k []).getD b 0) false &&
          AppendBottom.propagate_down param k b)) ∧
    (s'.2 = true ↔ ∃ b, b < num_bottom param k ∧
      s.1.net.blob_need_backward_.getD
        ((s'.1.net.bottom_id_vecs_.getD k []).getD b 0) false = true) ∧
    ∀ l, l ≠ k →
      s'.1.net.bottom_need_backward_.getD l [] = s.1.net.bottom_need_backward_.getD l [] := by
  unfold Init.bottoms at h
  have key := forRange_induction
    (fun (i : Nat) (t : Wiring × Bool) =>
      t.1.net.blob_need_backward_ = s.1.net.blob_need_backward_ ∧
      t.1.net.bottom_id_vecs_.length = s.1.net.bottom_id_vecs_.length ∧
      t.1.net.bottom_need_backward_.length = s.1.net.bottom_need_backward_.length ∧
      (t.1.net.bottom_id_vecs_.getD k []).length = i ∧
      (t.1.net.bottom_need_backward_.getD k []).length = i ∧
      (∀ b, b < i →
        (t.1.net.bottom_need_backward_.getD k [])[b]? =
          some (s.1.net.blob_need_backward_.getD
              ((t.1.net.bottom_id_vecs_.getD k []).getD b 0) false &&
            AppendBottom.propagate_down param k b)) ∧
      (t.2 = true ↔ ∃ b, b < i ∧
        s.1.net.blob_need_backward_.getD
          ((t.1.net.bottom_id_vecs_.getD k []).getD b 0) false = true) ∧
      ∀ l, l ≠ k →
        t.1.net.bottom_need_backward_.getD l [] = s.1.net.bottom_need_backward_.getD l [])
    _ _ _ _ ?_ ?_ h
  · obtain ⟨k1, _, _, _, k5, k6, k7, k8⟩ := key
    exact ⟨k1, k5, k6, k7, k8⟩
  · refine ⟨rfl, rfl, rfl, by rw [hrow1]; rfl, by rw [hrow2]; rfl, ?_, ?_, fun _ _ => rfl⟩
    · intro b hb
      omega
    · rw [hloc]
      constructor
      · intro h0
        cases h0
      · rintro ⟨b, hb, _⟩
        omega
  · intro i t t' _ ht hstep
    obtain ⟨t1, t2, t3, t4, t5, t6, t7, t8⟩ := ht
    obtain ⟨r, hr, rfl⟩ := Except.map_eq_ok hstep
    by_cases hmem : AppendBottom.blob_name param k i ∈ t.1.available_blobs
    · rw [AppendBottom_ok _ _ _ _ _ _ hmem] at hr
      injection hr with hr
      subst hr
      dsimp only
      have hk1' : k < t.1.net.bottom_id_vecs_.length := by rw [t2]; exact hk1
      have hk2' : k < t.1.net.bottom_need_backward_.length := by rw [t3]; exact hk2
      generalize (StdMap.index t.1.blob_name_to_idx (AppendBottom.blob_name param k i)).1 = x
      have hids : (pushAt t.1.net.bottom_id_vecs_ k x).getD k [] =
          t.1.net.bottom_id_vecs_.getD k [] ++ [x] := by
        rw [getD_pushAt _ _ _ _ hk1', if_pos rfl]
      have hrow : ∀ v : Bool, (pushAt t.1.net.bottom_need_backward_ k v).getD k [] =
          t.1.net.bottom_need_backward_.getD k [] ++ [v] := by
        intro v
        rw [getD_pushAt _ _ _ _ hk2', if_pos rfl]
      have hget : ∀ b, b < i → (t.1.net.bottom_id_vecs_.getD k [] ++ [x]).getD b 0 =
          (t.1.net.bottom_id_vecs_.getD k []).getD b 0 := by
        intro b hb
        exact getD_append_lt _ _ _ _ (by rw [t4]; exact hb)
      have hlast : (t.1.net.bottom_id_vecs_.getD k [] ++ [x]).getD i 0 = x :=
        getD_append_len _ _ _ _ t4
      refine ⟨t1, ?_, ?_, ?_, ?_, ?_, ?_, ?_⟩
      · show (pushAt _ _ _).length = _
        rw [length_pushAt]
        exact t2
      · show (pushAt _ _ _).length = _
        rw [length_pushAt]
        exact t3
      · show ((pushAt _ _ _).getD k []).length = i + 1
        rw [hids, List.length_append, t4]
        rfl
      · show ((pushAt _ _ _).getD k []).length = i + 1
        rw [hrow, List.length_append, t5]
        rfl
      · intro b hb
        show ((pushAt _ _ _).getD k [])[b]? =
          some (s.1.net.blob_need_backward_.getD (((pushAt _ _ _).getD k []).getD b 0) false &&
            AppendBottom.propagate_down param k b)
        rw [hrow, hids]
        by_cases hbi : b = i
        · subst hbi
          rw [getElem?_append_len _ _ _ t5, hlast, t1]
          rfl
        · have hb' : b < i := by omega
          rw [getElem?_append_lt _ _ _ (by rw [t5]; exact hb'), hget b hb']
          exact t6 b hb'
      · show (t.2 || t.1.net.blob_need_backward_.getD x false) = true ↔
          ∃ b, b < i + 1 ∧ s.1.net.blob_need_backward_.getD
            (((pushAt _ _ _).getD k []).getD b 0) false = true
        rw [hids, Bool.or_eq_true, t7, t1]
        constructor
        · rintro (⟨b, hb, hv⟩ | hv)
          · exact ⟨b, by omega, by rw [hget b hb]; exact hv⟩
          · exact ⟨i, by omega, by rw [hlast]; exact hv⟩
        · rintro ⟨b, hb, hv⟩
          by_cases hbi : b = i
          · subst hbi
            rw [hlast] at hv
            exact Or.inr hv
          · have hb' : b < i := by omega
            rw [hget b hb'] at hv
            exact Or.inl ⟨b, hb', hv⟩
      · intro l hl
        show (pushAt _ _ _).getD l [] = _
        rw [getD_pushAt _ _ _ _ hk2', if_neg hl]
        exact t8 l hl
    · rw [AppendBottom_error _ _ _ _ _ _ hmem] at hr
      cases hr

/-- The local `need_backward` after the first parameter loop: what it was, or
true when some parameter blob of the layer has a nonzero `lr_mult`. -/
theorem param_flags_snd (param : NetParameter) (l : Nat) (s : Net × Bool) :
    (Init.param_flags param l s).2 = true ↔
      s.2 = true ∨ ∃ param_id, param_id < (s.1.layers_.getD l default).blobs_.length ∧
        (AppendParam.param_spec (param.layer.getD l default) param_id).lr_mult_value ≠ 0 := by
  unfold Init.param_flags
  exact forUp_induction
    (fun (i : Nat) (t : Net × Bool) => t.2 = true ↔
      s.2 = true ∨ ∃ param_id, param_id < i ∧
        (AppendParam.param_spec (param.layer.getD l default) param_id).lr_mult_value ≠ 0)
    _ _ _
    (by
      constructor
      · intro h
        exact Or.inl h
      · rintro (h | ⟨p, hp, _⟩)
        · exact h
        · omega)
    (by
      intro i t _ ht
      show (t.2 || decide ((AppendParam.param_spec (param.layer.getD l default)
        i).lr_mult_value ≠ 0)) = true ↔ _
      rw [Bool.or_eq_true, ht, decide_eq_true_iff]
      constructor
      · rintro ((h | ⟨p, hp, hv⟩) | hv)
        · exact Or.inl h
        · exact Or.inr ⟨p, by omega, hv⟩
        · exact Or.inr ⟨i, by omega, hv⟩
      · rintro (h | ⟨p, hp, hv⟩)
        · exact Or.inl (Or.inl h)
        · by_cases hpi : p = i
          · subst hpi
            exact Or.inr hv
          · exact Or.inl (Or.inr ⟨p, by omega, hv⟩))

theorem aux_of_tops (param : NetParameter) (k : Nat) (w w' : Wiring)
    (h : Init.tops param k w = .ok w') : w'.net.aux = w.net.aux := by
  unfold Init.tops at h
  refine forRange_induction (fun (_ : Nat) (t : Wiring) => t.net.aux = w.net.aux)
    _ _ _ _ rfl ?_ h
  intro i t t' _ ht hstep
  exact (aux_call_AppendTop _ _ _ _ _ _ hstep).trans ht

theorem aux_of_auto_tops (param : NetParameter) (k : Nat) (w w' : Wiring)
    (h : Init.auto_tops param k w = .ok w') : w'.net.aux = w.net.aux := by
  unfold Init.auto_tops at h
  dsimp only at h
  split at h
  · refine forRange_induction (fun (_ : Nat) (t : Wiring) => t.net.aux = w.net.aux)
      _ _ _ _ rfl ?_ h
    intro i t t' _ ht hstep
    exact (aux_call_AppendTop _ _ _ _ _ _ hstep).trans ht
  · injection h with h
    subst h
    rfl

/-- One iteration of the layer loop, on the backward flags: the rows of the
other layers and the flags of the layers before stay; the row of layer `k`
holds, for every bottom, the flag of the blob it reads as the iteration starts
and the `propagate_down` of the bottom; and the flag of the layer is the local
`need_backward`. -/
theorem layer_record (CreateLayer : LayerParameter → Layer) (param : NetParameter)
    (phase_ : Phase) (k : Nat) (w w' : Wiring) (hk : k < param.layer.length)
    (hW : WInv CreateLayer param phase_ k w)
    (h : Init.layer CreateLayer param k w = .ok w') :
    (∀ l, l ≠ k →
      w'.net.bottom_need_backward_.getD l [] = w.net.bottom_need_backward_.getD l []) ∧
    (∀ l, l < k → w'.net.layer_need_backward_[l]? = w.net.layer_need_backward_[l]?) ∧
    (w'.net.bottom_need_backward_.getD k []).length = num_bottom param k ∧
    (∀ b, b < num_bottom param k →
      (w'.net.bottom_need_backward_.getD k [])[b]? =
        some (w.net.blob_need_backward_.getD
            ((w'.net.bottom_id_vecs_.getD k []).getD b 0) false &&
          AppendBottom.propagate_down param k b)) ∧
    ∃ need_backward, w'.net.layer_need_backward_[k]? = some need_backward ∧
      (need_backward = true ↔
        Init.need_backward CreateLayer param phase_ k w.net.blob_need_backward_
          (w'.net.bottom_id_vecs_.getD k [])) := by
  unfold Init.layer at h
  dsimp only at h
  split at h
  · cases h
  · obtain ⟨s2, hs2, h⟩ := Except.bind_eq_ok h
    obtain ⟨w3, hw3, h⟩ := Except.bind_eq_ok h
    obtain ⟨w4, hw4, h⟩ := Except.bind_eq_ok h
    split at h
    · cases h
    · obtain ⟨net7, hnet7, h⟩ := Except.bind_eq_ok h
      injection h with h
      have hlen1 : k < w.net.bottom_id_vecs_.length := by
        have : w.net.bottom_id_vecs_.length = param.layer.length := hW.stage.len_bottom
        rw [this]
        exact hk
      have hlen2 : k < w.net.bottom_need_backward_.length := by
        have : w.net.bottom_need_backward_.length = param.layer.length := hW.stage.len_bnb
        rw [this]
        exact hk
      have hrow1 : w.net.bottom_id_vecs_.getD k [] = [] :=
        List.eq_nil_of_length_eq_zero hW.stage.pos_bottom
      have hrow2 : w.net.bottom_need_backward_.getD k [] = [] := by
        apply List.eq_nil_of_length_eq_zero
        have := hW.inv.bnb_len k
        rw [hW.stage.pos_bottom] at this
        exact this
      obtain ⟨r1, r2, r3, r4, r5⟩ := bottoms_record param k _ s2 hlen1 hlen2 hrow1 hrow2 rfl hs2
      obtain ⟨_, _, ha2, _⟩ := bottoms_inv param k _ s2 hW.inv hW.stage hk hs2
      have ha3 := aux_of_tops param k _ w3 hw3
      have ha4 := aux_of_auto_tops param k _ w4 hw4
      obtain ⟨_, ha5⟩ := frame_loss_weights k w4.net w4.available_blobs w4.blob_name_to_idx
      have g3 := need_tops param k _ w3 hw3
      have g4 := need_auto_tops param k _ w4 hw4
      have g5 := need_loss_weights k w4.net
      have g6 := need_param_flags param k (Init.loss_weights k w4.net, s2.2)
      have g7 := need_params param k _ net7 hnet7
      obtain ⟨e1, e2, e3, _, _⟩ := set_need_backward_flags k
        (Init.param_flags param k (Init.loss_weights k w4.net, s2.2)).2 net7
      have g := Net.need_grows_trans (Net.need_grows_trans (Net.need_grows_trans
        (Net.need_grows_trans g3 g4) g5) g6) g7
      obtain ⟨q1, q2, q3, _⟩ := g
      have hbnb : w'.net.bottom_need_backward_ = s2.1.net.bottom_need_backward_ := by
        rw [← h]
        show (Init.set_need_backward k _ net7).bottom_need_backward_ = _
        rw [e2]
        exact q2
      have hids : w'.net.bottom_id_vecs_ = s2.1.net.bottom_id_vecs_ := by
        rw [← h]
        show (Init.set_need_backward k _ net7).bottom_id_vecs_ = _
        rw [e1]
        exact q1
      have hlnb : w'.net.layer_need_backward_ = w.net.layer_need_backward_ ++
          [(Init.param_flags param k (Init.loss_weights k w4.net, s2.2)).2] := by
        rw [← h]
        show (Init.set_need_backward k _ net7).layer_need_backward_ = _
        rw [e3, q3]
        have : s2.1.net.layer_need_backward_ = w.net.layer_need_backward_ :=
          congrArg (fun x => x.2.1) ha2
        rw [this]
      have hlay : (Init.loss_weights k w4.net).layers_.getD k default =
          CreateLayer (Init.inherit_phase (param.layer.getD k default) phase_) := by
        have h5 : (Init.loss_weights k w4.net).layers_ = w4.net.layers_ :=
          congrArg (fun x => x.1) ha5
        have h4 : w4.net.layers_ = w.net.layers_ ++
            [CreateLayer (Init.inherit_phase (param.layer.getD k default) w.net.phase_)] := by
          have : w4.net.aux = _ := ha4.trans (ha3.trans ha2)
          exact congrArg (fun x => x.1) this
        rw [h5, h4, getD_append_len _ _ _ _ hW.layers_len, hW.phase_eq]
      refine ⟨?_, ?_, ?_, ?_, ?_⟩
      · intro l hl
        rw [hbnb]
        exact r5 l hl
      · intro l hl
        rw [hlnb, getElem?_append_lt _ _ _ (by rw [hW.lnb_len]; exact hl)]
      · rw [hbnb]
        exact r2
      · intro b hb
        rw [hbnb, hids]
        exact r3 b hb
      · refine ⟨_, by rw [hlnb]; exact getElem?_append_len _ _ _ hW.lnb_len, ?_⟩
        rw [param_flags_snd, hids]
        show _ ↔ _ ∨ _
        rw [r4]
        show _ ∨ (∃ param_id, param_id <
            ((Init.loss_weights k w4.net).layers_.getD k default).blobs_.length ∧ _) ↔ _
        rw [hlay]

/-- One iteration of the layer loop leaves the net inputs and the rows of the
other layers alone. -/
theorem layer_rows (CreateLayer : LayerParameter → Layer) (param : NetParameter)
    (phase_ : Phase) (k : Nat) (w w' : Wiring) (hk : k < param.layer.length)
    (hW : WInv CreateLayer param phase_ k w)
    (h : Init.layer CreateLayer param k w = .ok w') :
    Core.same_rows_except k w.core w'.core := by
  unfold Init.layer at h
  dsimp only at h
  split at h
  · cases h
  · obtain ⟨s2, hs2, h⟩ := Except.bind_eq_ok h
    obtain ⟨w3, hw3, h⟩ := Except.bind_eq_ok h
    obtain ⟨w4, hw4, h⟩ := Except.bind_eq_ok h
    split at h
    · cases h
    · obtain ⟨net7, hnet7, h⟩ := Except.bind_eq_ok h
      injection h with h
      obtain ⟨hI2, hS2, ha2, hr2⟩ := bottoms_inv param k _ s2 hW.inv hW.stage hk hs2
      obtain ⟨hI3, hS3, ha3, hr3⟩ := tops_inv param k _ w3 hI2 hS2 hk hw3
      obtain ⟨w4', hw4', hI4, hS4, ha4, _, _, _, hr4⟩ :=
        auto_tops_inv param k (num_bottom param k) w3 hI3 hS3 hk
      rw [hw4'] at hw4
      injection hw4 with hw4
      subst hw4
      obtain ⟨hc5, _⟩ :=
        frame_loss_weights k w4'.net w4'.available_blobs w4'.blob_name_to_idx
      obtain ⟨hc6, _⟩ :=
        frame_param_flags param k (Init.loss_weights k w4'.net, s2.2)
          w4'.available_blobs w4'.blob_name_to_idx
      obtain ⟨hc7, _⟩ :=
        frame_params param k _ net7 w4'.available_blobs w4'.blob_name_to_idx hnet7
      obtain ⟨hc8, _⟩ :=
        frame_set_need_backward k
          (Init.param_flags param k (Init.loss_weights k w4'.net, s2.2)).2 net7
          w4'.available_blobs w4'.blob_name_to_idx
      have hcore : w'.core = w4'.core := by
        rw [← h]
        show (Init.set_need_backward k _ net7).core _ _ = _
        rw [hc8, hc7, hc6, hc5]
        rfl
      rw [hcore]
      exact Core.same_rows_except_trans (Core.same_rows_except_trans hr2 hr3) hr4

/-- The layers wired after layer `k` leave its backward flags, its bottoms
and its tops as they are. -/
theorem wire_until_keeps (CreateLayer : LayerParameter → Layer) (param : NetParameter)
    (phase_ : Phase) (k : Nat) (wk : Wiring)
    (hwk : Init.wire_until CreateLayer param phase_ (k + 1) = .ok wk) (m : Nat) (wm : Wiring)
    (hkm : k + 1 ≤ m) (hm : m ≤ param.layer.length)
    (hwm : Init.wire_until CreateLayer param phase_ m = .ok wm) :
    wm.net.bottom_need_backward_.getD k [] = wk.net.bottom_need_backward_.getD k [] ∧
    wm.net.layer_need_backward_[k]? = wk.net.layer_need_backward_[k]? ∧
    wm.net.bottom_id_vecs_.getD k [] = wk.net.bottom_id_vecs_.getD k [] ∧
    wm.net.top_id_vecs_.getD k [] = wk.net.top_id_vecs_.getD k [] := by
  induction m generalizing wm with
  | zero => omega
  | succ m ih =>
    by_cases hmk : m = k
    · subst hmk
      rw [hwk] at hwm
      injection hwm with hwm
      subst hwm
      exact ⟨rfl, rfl, rfl, rfl⟩
    · have h2 := hwm
      rw [wire_until_succ] at h2
      obtain ⟨wp, hwp, hstep⟩ := Except.bind_eq_ok h2
      obtain ⟨i1, i2, i3, i4⟩ := ih wp (by omega) (by omega) hwp
      have hW := wire_until_inv _ _ _ _ _ (by omega) hwp
      obtain ⟨r1, r2, _⟩ := layer_record _ _ _ _ _ _ (by omega) hW hstep
      obtain ⟨_, r3⟩ := layer_rows _ _ _ _ _ _ (by omega) hW hstep
      obtain ⟨t1, t2⟩ := r3 k (by omega)
      exact ⟨(r1 k (by omega)).trans i1, (r2 k (by omega)).trans i2, t2.trans i3, t1.trans i4⟩

/-- The backward flags a wiring that returns has recorded for layer `k`, read
off the state `wk` in which the layer was wired: for every bottom, the flag of
the blob it reads in `wk` and the `propagate_down` of the bottom; for the
layer, the local `need_backward`. -/
theorem wire_record (CreateLayer : LayerParameter → Layer) (param : NetParameter)
    (phase_ : Phase) (w : Wiring) (h : Init.wire CreateLayer param phase_ = .ok w) (k : Nat)
    (hk : k < param.layer.length) :
    ∃ wk, Init.wire_until CreateLayer param phase_ k = .ok wk ∧
      (w.net.bottom_need_backward_.getD k []).length = num_bottom param k ∧
      (∀ b, b < num_bottom param k →
        (w.net.bottom_need_backward_.getD k [])[b]? =
          some (wk.net.blob_need_backward_.getD
              ((w.net.bottom_id_vecs_.getD k []).getD b 0) false &&
            AppendBottom.propagate_down param k b)) ∧
      ∃ need_backward, w.net.layer_need_backward_[k]? = some need_backward ∧
        (need_backward = true ↔
          Init.need_backward CreateLayer param phase_ k wk.net.blob_need_backward_
            (w.net.bottom_id_vecs_.getD k [])) := by
  obtain ⟨wk, wk', hwk, hstep, hwk', hW, _⟩ := wire_until_step _ _ _ _ h k hk
  obtain ⟨_, _, r3, r4, nb, r5, r6⟩ := layer_record _ _ _ _ _ _ hk hW hstep
  obtain ⟨k1, k2, k3, _⟩ := wire_until_keeps _ _ _ k wk' hwk' param.layer.length w (by omega)
    (Nat.le_refl _) (by rw [← wire_eq_wire_until]; exact h)
  refine ⟨wk, hwk, by rw [k1]; exact r3, ?_, nb, by rw [k2]; exact r5, by rw [k3]; exact r6⟩
  intro b hb
  rw [k1, k3]
  exact r4 b hb

theorem set_false_true (xs : List Bool) (i j : Nat) (h : (xs.set j false)[i]? = some true) :
    xs[i]? = some true := by
  rw [List.getElem?_set] at h
  split at h
  · split at h
    · cases h
    · cases h
  · exact h

/-- The two conditionals of the reverse walk only clear layer flags. -/
theorem clear_layer_lnb (l : Nat) (flags : Bool × Bool) (net : Net) (i : Nat)
    (h : (Init.clear_layer l flags net).layer_need_backward_[i]? = some true) :
    net.layer_need_backward_[i]? = some true := by
  unfold Init.clear_layer at h
  dsimp only at h
  split at h
  · split at h
    · exact set_false_true _ _ _ (set_false_true _ _ _ h)
    · exact set_false_true _ _ _ h
  · split at h
    · exact set_false_true _ _ _ h
    · exact h

/-- The reverse walk only clears layer flags. -/
theorem walk_lnb_cleared (net : Net) (visited i : Nat)
    (h : (Init.walk net visited).net.layer_need_backward_[i]? = some true) :
    net.layer_need_backward_[i]? = some true := by
  induction visited with
  | zero => exact h
  | succ v ih =>
    apply ih
    rw [walk_succ] at h
    unfold Init.walk_layer at h
    dsimp only at h
    rw [(walk_bottoms_frame _ _ _).1] at h
    exact clear_layer_lnb _ _ _ _ h

theorem inherit_phase_fields (declared : LayerParameter) (phase_ : Phase) :
    (Init.inherit_phase declared phase_).propagate_down = declared.propagate_down ∧
    (Init.inherit_phase declared phase_).bottom = declared.bottom ∧
    (Init.inherit_phase declared phase_).top = declared.top ∧
    (Init.inherit_phase declared phase_).param = declared.param ∧
    (Init.inherit_phase declared phase_).name = declared.name := by
  unfold Init.inherit_phase
  split <;> exact ⟨rfl, rfl, rfl, rfl, rfl⟩

/-- The wiring aborts when one iteration of the layer loop aborts in every
state. -/
theorem wire_aborts_of_layer (CreateLayer : LayerParameter → Layer) (param : NetParameter)
    (phase_ : Phase) (j : Nat) (hj : j < param.layer.length)
    (h : ∀ w, ∃ e, Init.layer CreateLayer param j w = .error e) :
    ∃ e, Init.wire CreateLayer param phase_ = .error e := by
  unfold Init.wire
  split
  · exact ⟨_, rfl⟩
  · split
    · exact ⟨_, rfl⟩
    · split
      · exact ⟨_, rfl⟩
      · dsimp only
        cases Init.inputs param
            { net := { Net.empty with phase_ := phase_, name_ := param.name }
              available_blobs := []
              blob_name_to_idx := [] } with
        | error e => exact ⟨e, rfl⟩
        | ok w1 =>
          exact forRange_aborts param.layer.length j
            (fun layer_id w => Init.layer CreateLayer param layer_id w) _ hj h

/-- The iteration of the layer loop for a layer that declares `propagate_down`
flags, but not one per bottom, aborts. -/
theorem layer_propagate_down_size (CreateLayer : LayerParameter → Layer)
    (param : NetParameter) (layer_id : Nat) (w : Wiring)
    (h : (param.layer.getD layer_id default).propagate_down.length > 0 ∧
      (param.layer.getD layer_id default).propagate_down.length ≠
        (param.layer.getD layer_id default).bottom.length) :
    Init.layer CreateLayer param layer_id w = .error .propagate_down_size := by
  unfold Init.layer
  dsimp only
  obtain ⟨e1, e2, _⟩ := inherit_phase_fields (param.layer.getD layer_id default) w.net.phase_
  rw [e1, e2, if_pos h]

/-- C31: for a layer of the specification `Init` wires. If the layer declares
`propagate_down` flags and their number is not the number of its bottoms, the
iteration of the layer loop for it aborts with the check of lines 96-100 in
whatever state it starts, and `Init` aborts. In every net `Init` returns, the
layer declares no flag or one per bottom, and without `force_backward` every
bottom whose declared flag is false has its entry of `bottom_need_backward_`
false, whatever the flag of the blob it reads. -/
theorem C31_propagate_down_flags (CreateLayer : LayerParameter → Layer)
    (InsertSplits : NetParameter → NetParameter) (in_param filtered : NetParameter)
    (layer_id : Nat) (hf : FilterNet in_param = .ok filtered)
    (hl : layer_id < (InsertSplits filtered).layer.length) :
    ((((InsertSplits filtered).layer.getD layer_id default).propagate_down.length > 0 ∧
        ((InsertSplits filtered).layer.getD layer_id default).propagate_down.length ≠
          ((InsertSplits filtered).layer.getD layer_id default).bottom.length) →
      (∀ w, Init.layer CreateLayer (InsertSplits filtered) layer_id w =
        .error .propagate_down_size) ∧
      ∃ e, Init CreateLayer InsertSplits in_param = .error e) ∧
    ∀ result, Init CreateLayer InsertSplits in_param = .ok result →
      (((InsertSplits filtered).layer.getD layer_id default).propagate_down.length = 0 ∨
        ((InsertSplits filtered).layer.getD layer_id default).propagate_down.length =
          ((InsertSplits filtered).layer.getD layer_id default).bottom.length) ∧
      ((InsertSplits filtered).force_backward = false →
        ∀ b, b < num_bottom (InsertSplits filtered) layer_id →
          ((InsertSplits filtered).layer.getD layer_id default).propagate_down[b]? =
            some false →
          (result.bottom_need_backward_.getD layer_id [])[b]? = some false) := by
  have part1 : (((InsertSplits filtered).layer.getD layer_id default).propagate_down.length > 0 ∧
        ((InsertSplits filtered).layer.getD layer_id default).propagate_down.length ≠
          ((InsertSplits filtered).layer.getD layer_id default).bottom.length) →
      (∀ w, Init.layer CreateLayer (InsertSplits filtered) layer_id w =
        .error .propagate_down_size) ∧
      ∃ e, Init CreateLayer InsertSplits in_param = .error e := by
    intro hbad
    have hlayer := fun w => layer_propagate_down_size CreateLayer (InsertSplits filtered)
      layer_id w hbad
    refine ⟨hlayer, ?_⟩
    obtain ⟨e, he⟩ := wire_aborts_of_layer CreateLayer (InsertSplits filtered)
      in_param.state.phase layer_id hl (fun w => ⟨_, hlayer w⟩)
    refine ⟨e, ?_⟩
    unfold Init
    rw [hf]
    show (Init.wire CreateLayer (InsertSplits filtered) in_param.state.phase).bind _ = _
    rw [he]
    rfl
  refine ⟨part1, ?_⟩
  intro result hinit
  constructor
  · by_contra hnot
    have hbad : ((InsertSplits filtered).layer.getD layer_id default).propagate_down.length > 0 ∧
        ((InsertSplits filtered).layer.getD layer_id default).propagate_down.length ≠
          ((InsertSplits filtered).layer.getD layer_id default).bottom.length := by
      constructor <;> omega
    obtain ⟨_, e, he⟩ := part1 hbad
    rw [hinit] at he
    cases he
  · intro hfb b hb hpd
    obtain ⟨w, hw, _, hW, hg, _, _, _, hflags⟩ := Init_wired _ _ _ _ _ hf hinit
    have hfl := hflags hfb
    have f2 : result.bottom_need_backward_ =
        (Init.walk w.net w.net.layers_.length).net.bottom_need_backward_ :=
      congrArg (fun x => x.2.1) hfl
    obtain ⟨wk, _, r1, r2, _⟩ := wire_record _ _ _ _ hw layer_id hl
    have hpd' : AppendBottom.propagate_down (InsertSplits filtered) layer_id b = false := by
      unfold AppendBottom.propagate_down
      have hlt := (List.getElem?_eq_some_iff.1 hpd).1
      rw [if_pos (by omega), List.getD_eq_getElem?_getD, hpd]
      rfl
    have hwb := r2 b hb
    rw [hpd', Bool.and_false] at hwb
    obtain ⟨_, _, s3⟩ := walk_shape w.net w.net.layers_.length
    have hlen : b < (result.bottom_need_backward_.getD layer_id []).length := by
      rw [f2, s3 layer_id, r1]
      exact hb
    have hc := walk_cleared w.net w.net.layers_.length layer_id b
    rw [← f2] at hc
    rw [List.getElem?_eq_getElem hlen]
    cases hv : (result.bottom_need_backward_.getD layer_id [])[b] with
    | false => rfl
    | true =>
      have := hc (by rw [List.getElem?_eq_getElem hlen, hv])
      rw [hwb] at this
      cases this

/-- C31 on `skip_example`: the layer "tail" declares one flag, false, for its
one bottom, which reads the blob "a" whose flag is set; its entry of
`bottom_need_backward_` is false after `Init`. -/
theorem C31_witness :
    ∃ result, Init walk_factory id skip_example = .ok result ∧
      result.blob_need_backward_[0]? = some true ∧
      (result.bottom_id_vecs_.getD 1 [])[0]? = some 0 ∧
      (result.bottom_need_backward_.getD 1 [])[0]? = some false := by
  obtain ⟨result, hinit, hp⟩ := of_returns_with (Init walk_factory id skip_example)
    (fun r => decide (r.blob_need_backward_[0]? = some true ∧
      (r.bottom_id_vecs_.getD 1 [])[0]? = some 0)) (by decide)
  obtain ⟨h1, h2⟩ := of_decide_eq_true hp
  exact ⟨result, hinit, h1, h2,
    ((C31_propagate_down_flags walk_factory id skip_example skip_example 1 (by decide)
      (by decide)).2 result hinit).2 (by decide) 0 (by decide) (by decide)⟩

/-! ## The reverse walk only clears flags -/

/-- C34: without `force_backward` the reverse walk only clears flags. For a
layer of a net `Init` returns, with `w` the wired net and `wk` the state of
the layer loop in which the layer was wired: the wiring recorded for the layer
the local `need_backward` (some bottom reads a blob whose flag is set in `wk`,
or some parameter blob of the layer has a nonzero `lr_mult`) and for every
bottom the flag in `wk` of the blob it reads and the `propagate_down` of the
bottom; `layer_need_backward_` of the layer in the net returned implies the
first, and an entry of `bottom_need_backward_` in the net returned implies the
second. -/
theorem C34_reverse_walk_only_clears (CreateLayer : LayerParameter → Layer)
    (InsertSplits : NetParameter → NetParameter) (in_param filtered : NetParameter)
    (result : Net) (layer_id : Nat) (hf : FilterNet in_param = .ok filtered)
    (hinit : Init CreateLayer InsertSplits in_param = .ok result)
    (hfb : (InsertSplits filtered).force_backward = false)
    (hl : layer_id < (InsertSplits filtered).layer.length) :
    ∃ w wk, Init.wire CreateLayer (InsertSplits filtered) in_param.state.phase = .ok w ∧
      Init.wire_until CreateLayer (InsertSplits filtered) in_param.state.phase layer_id =
        .ok wk ∧
      (w.net.layer_need_backward_[layer_id]? = some true ↔
        Init.need_backward CreateLayer (InsertSplits filtered) in_param.state.phase layer_id
          wk.net.blob_need_backward_ (result.bottom_id_vecs_.getD layer_id [])) ∧
      (∀ b, b < num_bottom (InsertSplits filtered) layer_id →
        (w.net.bottom_need_backward_.getD layer_id [])[b]? =
          some (wk.net.blob_need_backward_.getD
              ((result.bottom_id_vecs_.getD layer_id []).getD b 0) false &&
            AppendBottom.propagate_down (InsertSplits filtered) layer_id b)) ∧
      (result.layer_need_backward_[layer_id]? = some true →
        w.net.layer_need_backward_[layer_id]? = some true ∧
        Init.need_backward CreateLayer (InsertSplits filtered) in_param.state.phase layer_id
          wk.net.blob_need_backward_ (result.bottom_id_vecs_.getD layer_id [])) ∧
      ∀ b, (result.bottom_need_backward_.getD layer_id [])[b]? = some true →
        b < num_bottom (InsertSplits filtered) layer_id ∧
        (w.net.bottom_need_backward_.getD layer_id [])[b]? = some true ∧
        wk.net.blob_need_backward_.getD
          ((result.bottom_id_vecs_.getD layer_id []).getD b 0) false = true ∧
        AppendBottom.propagate_down (InsertSplits filtered) layer_id b = true := by
  obtain ⟨w, hw, _, hW, hg, _, _, _, hflags⟩ := Init_wired _ _ _ _ _ hf hinit
  have hfl := hflags hfb
  have f1 : result.layer_need_backward_ =
      (Init.walk w.net w.net.layers_.length).net.layer_need_backward_ :=
    congrArg (fun x => x.1) hfl
  have f2 : result.bottom_need_backward_ =
      (Init.walk w.net w.net.layers_.length).net.bottom_need_backward_ :=
    congrArg (fun x => x.2.1) hfl
  obtain ⟨_, _, _, _, g5, _⟩ := graph_fields hg
  obtain ⟨wk, hwk, r1, r2, nb, r3, r4⟩ := wire_record _ _ _ _ hw layer_id hl
  rw [← g5] at r2 r4
  have hlayer : w.net.layer_need_backward_[layer_id]? = some true ↔
      Init.need_backward CreateLayer (InsertSplits filtered) in_param.state.phase layer_id
        wk.net.blob_need_backward_ (result.bottom_id_vecs_.getD layer_id []) := by
    rw [r3, ← r4]
    constructor
    · intro h
      injection h
    · intro h
      rw [h]
  refine ⟨w, wk, hw, hwk, hlayer, r2, ?_, ?_⟩
  · intro h
    rw [f1] at h
    have h' := walk_lnb_cleared _ _ _ h
    exact ⟨h', hlayer.1 h'⟩
  · intro b h
    rw [f2] at h
    have h' := walk_cleared w.net w.net.layers_.length layer_id b h
    have hb : b < num_bottom (InsertSplits filtered) layer_id := by
      rw [← r1]
      exact (List.getElem?_eq_some_iff.1 h').1
    have hv := r2 b hb
    rw [h'] at hv
    injection hv with hv
    have hv' := hv.symm
    rw [Bool.and_eq_true] at hv'
    exact ⟨hb, h', hv'.1, hv'.2⟩

/-- C34 on `skip_example`: "body" has a parameter blob with a nonzero
`lr_mult`, so the wiring marks it and its tops; "tail" reads the blob "a",
whose flag is set when it is wired, and is marked too. After the walk the
flag of "tail", which contributes no loss, is clear, and the flag of "body" is
still set. -/
theorem C34_witness :
    ∃ result w, Init walk_factory id skip_example = .ok result ∧
      Init.wire walk_factory skip_example .TEST = .ok w ∧
      w.net.layer_need_backward_ = [true, true] ∧
      result.layer_need_backward_ = [true, false] ∧
      Init.need_backward walk_factory skip_example .TEST 0 [false]
        (result.bottom_id_vecs_.getD 0 []) := by
  obtain ⟨w, hw, hp⟩ := of_returns_with (Init.wire walk_factory skip_example .TEST)
    (fun w => decide (w.net.layer_need_backward_ = [true, true]) &&
      returns_with (Init.wire_until walk_factory skip_example .TEST 0)
        (fun wk => decide (wk.net.blob_need_backward_ = [false])) &&
      returns_with (Init.finish skip_example w)
        (fun r => decide (r.layer_need_backward_ = [true, false])))
    (by decide)
  obtain ⟨hp12, hp3⟩ := Bool.and_eq_true_iff.1 hp
  obtain ⟨hp1, hp2⟩ := Bool.and_eq_true_iff.1 hp12
  obtain ⟨wk0, hwk0, hq0⟩ := of_returns_with _ _ hp2
  obtain ⟨result, hfin, hq⟩ := of_returns_with _ _ hp3
  have hinit : Init walk_factory id skip_example = .ok result :=
    Init_of_parts walk_factory id skip_example skip_example w result (by decide) hw hfin
  have hres : result.layer_need_backward_ = [true, false] := of_decide_eq_true hq
  obtain ⟨w', wk, hw', hwk, _, _, h3, _⟩ := C34_reverse_walk_only_clears walk_factory id
    skip_example skip_example result 0 (by decide) hinit (by decide) (by decide)
  have e : wk = wk0 := by
    have h0 : Init.wire_until walk_factory skip_example .TEST 0 = .ok wk := hwk
    rw [hwk0] at h0
    injection h0 with h0
    exact h0.symm
  have hB : wk.net.blob_need_backward_ = [false] := by
    rw [e]
    exact of_decide_eq_true hq0
  have := (h3 (by rw [hres]; rfl)).2
  rw [hB] at this
  exact ⟨result, w, hinit, hw, of_decide_eq_true hp1, hres, this⟩

/-! ## The wired graph -/

/-- The input loop on an empty net gives the declared inputs the blob indices
0, 1, ... in the order of their declaration. -/
theorem inputs_range (param : NetParameter) (w w' : Wiring)
    (h0 : w.net.net_input_blob_indices_ = []) (hb : w.net.blobs_.length = 0)
    (h : Init.inputs param w = .ok w') :
    w'.net.net_input_blob_indices_ = List.range param.input.length ∧
      w'.net.blobs_.length = param.input.length := by
  unfold Init.inputs at h
  refine forRange_induction
    (fun (j : Nat) (t : Wiring) => t.net.net_input_blob_indices_ = List.range j ∧
      t.net.blobs_.length = j)
    _ _ _ _ ⟨by rw [h0]; rfl, hb⟩ ?_ h
  intro j t t' _ ht hstep
  obtain ⟨_, hcore⟩ := core_input param j t t' hstep
  have e1 : t'.net.net_input_blob_indices_ = t.net.net_input_blob_indices_ ++
      [t.net.blobs_.length] := congrArg Core.net_input_blob_indices_ hcore
  have e2 : t'.net.blobs_.length = t.net.blobs_.length + 1 := congrArg Core.blob_count hcore
  rw [e1, e2, ht.1, ht.2, List.range_succ]
  exact ⟨rfl, rfl⟩

/-- At every point of the layer loop the net inputs are the blobs 0, 1, ... in
the order of the declared inputs. -/
theorem wire_until_inputs (CreateLayer : LayerParameter → Layer) (param : NetParameter)
    (phase_ : Phase) (k : Nat) (w : Wiring) (hk : k ≤ param.layer.length)
    (h : Init.wire_until CreateLayer param phase_ k = .ok w) :
    w.net.net_input_blob_indices_ = List.range param.input.length := by
  induction k generalizing w with
  | zero =>
    unfold Init.wire_until at h
    split at h
    · cases h
    · split at h
      · cases h
      · split at h
        · cases h
        · dsimp only at h
          obtain ⟨w1, hw1, h⟩ := Except.bind_eq_ok h
          injection h with h
          rw [← h]
          exact (inputs_range param
            { net := { Net.empty with phase_ := phase_, name_ := param.name }
              available_blobs := []
              blob_name_to_idx := [] } w1 rfl rfl hw1).1
  | succ k ih =>
    rw [wire_until_succ] at h
    obtain ⟨wk, hwk, hstep⟩ := Except.bind_eq_ok h
    have hW := wire_until_inv _ _ _ _ _ (by omega) hwk
    obtain ⟨r, _⟩ := layer_rows _ _ _ _ _ _ (by omega) hW hstep
    have r' : w.net.net_input_blob_indices_ = wk.net.net_input_blob_indices_ := r
    rw [r']
    exact ih wk (by omega) hwk

/-- One iteration of the layer loop, on the blob table: every bottom of the
layer is a blob that was there when the iteration started, and every top
position of the layer that allocates gets a blob that was not. -/
theorem layer_alloc (CreateLayer : LayerParameter → Layer) (param : NetParameter)
    (phase_ : Phase) (k : Nat) (w w' : Wiring) (hk : k < param.layer.length)
    (hW : WInv CreateLayer param phase_ k w)
    (h : Init.layer CreateLayer param k w = .ok w') :
    (∀ b i : Nat, (w'.core.bottoms k)[b]? = some i → i < w.net.blobs_.length) ∧
    (∀ t i : Nat, (w'.core.tops k)[t]? = some i → allocates param k t →
      w.net.blobs_.length ≤ i) := by
  have hW' := layer_inv _ _ _ _ _ _ hk hW h
  obtain ⟨rin, rrow⟩ := layer_rows _ _ _ _ _ _ hk hW h
  have htopk : ∀ t : Nat, (w.core.tops k)[t]? = none := by
    intro t
    apply List.getElem?_eq_none
    rw [hW.stage.pos_top]
    exact Nat.zero_le _
  -- every blob of the table before the iteration has an allocating declaration
  -- outside layer `k`
  have old : ∀ i, i < w.net.blobs_.length →
      (∃ j : Nat, w'.core.net_input_blob_indices_[j]? = some i) ∨
      ∃ l t : Nat, l ≠ k ∧ (w'.core.tops l)[t]? = some i ∧ allocates param l t := by
    intro i hi
    rcases hW.inv.cover i hi with ⟨n, hn⟩ | ⟨l, t, hge, ht⟩
    · rcases hW.inv.origin n i hn with ⟨j, hj⟩ | ⟨l, t, ht, hlt, hip⟩
      · left
        exact ⟨j, by rw [rin]; exact hj⟩
      · right
        have hlk : l ≠ k := by
          rintro rfl
          rw [htopk t] at ht
          cases ht
        exact ⟨l, t, hlk, by rw [(rrow l hlk).1]; exact ht, Or.inr hip⟩
    · right
      have hlk : l ≠ k := by
        rintro rfl
        rw [htopk t] at ht
        cases ht
      exact ⟨l, t, hlk, by rw [(rrow l hlk).1]; exact ht, Or.inl hge⟩
  constructor
  · intro b i hb
    by_contra hnot
    have hfind := hW'.inv.bottom_named k b i hb
    rcases hW'.inv.origin _ i hfind with ⟨j, hj⟩ | ⟨l, t, ht, hlt, hip⟩
    · rw [rin] at hj
      have := (hW.inv.map_sound _ i (hW.inv.input_named j i hj)).1
      exact hnot this
    · by_cases hlk : l = k
      · subst hlk
        exact absurd (hW'.inv.topo l b l t i hb ht (Or.inr hip)) (Nat.lt_irrefl _)
      · rw [(rrow l hlk).1] at ht
        exact hnot (hW.inv.top_lt l t i ht)
  · intro t i ht halloc
    by_contra hnot
    rcases old i (by omega) with ⟨j, hj⟩ | ⟨l, t', hlk, ht', halloc'⟩
    · exact hW'.inv.alloc_input_top j k t i hj ht halloc
    · exact hlk (hW'.inv.alloc_tops l t' k t i ht' ht halloc' halloc).1

/-- At every point of the layer loop, a bottom of a layer is a blob with a
smaller index than every blob that the layer or a later layer allocates. -/
theorem wire_until_topo (CreateLayer : LayerParameter → Layer) (param : NetParameter)
    (phase_ : Phase) (k : Nat) (w : Wiring) (hk : k ≤ param.layer.length)
    (h : Init.wire_until CreateLayer param phase_ k = .ok w) :
    ∀ l b i l' t i' : Nat, (w.core.bottoms l)[b]? = some i → (w.core.tops l')[t]? = some i' →
      allocates param l' t → l ≤ l' → i < i' := by
  induction k generalizing w with
  | zero =>
    intro l b i l' t i' _ ht _ _
    have hW := wire_until_inv _ _ _ _ _ hk h
    have hnone : (w.core.tops l')[t]? = none := by
      apply List.getElem?_eq_none
      by_cases hl : l' = 0
      · subst hl
        rw [hW.stage.pos_top]
        exact Nat.zero_le _
      · rw [(hW.stage.untouched l' (by omega)).1]
        exact Nat.zero_le _
    rw [hnone] at ht
    cases ht
  | succ k ih =>
    intro l b i l' t i' hb ht halloc hll
    have h2 := h
    rw [wire_until_succ] at h2
    obtain ⟨wk, hwk, hstep⟩ := Except.bind_eq_ok h2
    have hW := wire_until_inv _ _ _ _ _ (by omega) hwk
    have hW' := wire_until_inv _ _ _ _ _ hk h
    obtain ⟨_, rrow⟩ := layer_rows _ _ _ _ _ _ (by omega) hW hstep
    obtain ⟨a1, a2⟩ := layer_alloc _ _ _ _ _ _ (by omega) hW hstep
    by_cases hlt : l' < k
    · rw [(rrow l (by omega)).2] at hb
      rw [(rrow l' (by omega)).1] at ht
      exact ih wk (by omega) hwk l b i l' t i' hb ht halloc hll
    · by_cases hle : l' = k
      · subst hle
        have hi' := a2 t i' ht halloc
        have hi : i < wk.net.blobs_.length := by
          by_cases hl : l = l'
          · subst hl
            exact a1 b i hb
          · rw [(rrow l hl).2] at hb
            exact (hW.inv.map_sound _ i (hW.inv.bottom_named l b i hb)).1
        omega
      · have hnone : (w.core.tops l')[t]? = none := by
          apply List.getElem?_eq_none
          by_cases hl : l' = k + 1
          · subst hl
            rw [hW'.stage.pos_top]
            exact Nat.zero_le _
          · rw [(hW'.stage.untouched l' (by omega)).1]
            exact Nat.zero_le _
        rw [hnone] at ht
        cases ht

/-- The handling of `force_backward` keeps the number of blob flags. -/
theorem force_backward_blob_len (net : Net) (n : Nat) :
    (forUp n (fun layer_id net => Init.force_backward_layer layer_id net)
      net).blob_need_backward_.length = net.blob_need_backward_.length := by
  refine forUp_induction
    (fun (_ : Nat) (t : Net) => t.blob_need_backward_.length = net.blob_need_backward_.length)
    _ _ _ rfl ?_
  intro l t _ ht
  unfold Init.force_backward_layer
  dsimp only
  refine forUp_induction
    (fun (_ : Nat) (u : Net) => u.blob_need_backward_.length = net.blob_need_backward_.length)
    _ _ _ ?_ (fun _ _ _ hu => hu)
  refine forUp_induction
    (fun (_ : Nat) (u : Net) => u.blob_need_backward_.length = net.blob_need_backward_.length)
    _ _ _ ht ?_
  intro b u _ hu
  show (List.set _ _ _).length = _
  rw [List.length_set]
  exact hu

/-- C35: in every net `Init` returns, the blob table, the blob names and the
blob flags have one length `N`; for every layer the rows of `bottom_id_vecs_`,
`bottom_vecs_` and `bottom_need_backward_` have the length of the declared
bottoms, and the rows of `top_id_vecs_` and `top_vecs_` are one list; every
recorded bottom or top is below `N`; the declared inputs are the blobs
0, 1, ... in the order of their declaration, and bear their names; and a
bottom of a layer is a blob with a smaller index than every blob allocated by
a top position of that layer or of a later layer. -/
theorem C35_wired_graph_is_well_formed (CreateLayer : LayerParameter → Layer)
    (InsertSplits : NetParameter → NetParameter) (in_param filtered : NetParameter)
    (result : Net) (hf : FilterNet in_param = .ok filtered)
    (hinit : Init CreateLayer InsertSplits in_param = .ok result) :
    result.blob_names_.length = result.blobs_.length ∧
    result.blob_need_backward_.length = result.blobs_.length ∧
    (∀ l, l < (InsertSplits filtered).layer.length →
      (result.bottom_id_vecs_.getD l []).length = num_bottom (InsertSplits filtered) l ∧
      (result.bottom_vecs_.getD l []).length = num_bottom (InsertSplits filtered) l ∧
      (result.bottom_need_backward_.getD l []).length = num_bottom (InsertSplits filtered) l ∧
      result.top_vecs_.getD l [] = result.top_id_vecs_.getD l []) ∧
    (∀ l b i : Nat, (result.bottom_id_vecs_.getD l [])[b]? = some i →
      i < result.blobs_.length) ∧
    (∀ l t i : Nat, (result.top_id_vecs_.getD l [])[t]? = some i → i < result.blobs_.length) ∧
    result.net_input_blob_indices_ = List.range (InsertSplits filtered).input.length ∧
    (∀ j, j < (InsertSplits filtered).input.length →
      result.blob_names_[j]? = some ((InsertSplits filtered).input.getD j "")) ∧
    ∀ l b i l' t i' : Nat, (result.bottom_id_vecs_.getD l [])[b]? = some i →
      (result.top_id_vecs_.getD l' [])[t]? = some i' →
      allocates (InsertSplits filtered) l' t → l ≤ l' → i < i' := by
  obtain ⟨hN, w, hw, hW, hg, hflags, _⟩ := Init_need _ _ _ _ _ hf hinit
  obtain ⟨g1, g2, g3, g4, g5, g6, g7, _⟩ := graph_fields hg
  have hwu : Init.wire_until CreateLayer (InsertSplits filtered) in_param.state.phase
      (InsertSplits filtered).layer.length = .ok w := by
    rw [← wire_eq_wire_until]
    exact hw
  have hcount : w.core.blob_count = result.blobs_.length := by
    show w.net.blobs_.length = _
    rw [g1]
  have hin : result.net_input_blob_indices_ =
      List.range (InsertSplits filtered).input.length := by
    rw [g7]
    exact wire_until_inputs _ _ _ _ _ (Nat.le_refl _) hwu
  have hbnblen : result.blob_need_backward_.length = result.blobs_.length := by
    have e : result.blob_need_backward_ = _ := congrArg (fun x => x.2.2.1) hflags
    rw [e, ← hcount]
    have hwalk : (Init.walk w.net w.net.layers_.length).net.blob_need_backward_ =
        w.net.blob_need_backward_ :=
      congrArg (fun x => x.2.1) (graph_walk w.net w.net.layers_.length).2
    have hnb : w.net.blob_need_backward_.length = w.core.blob_count := hW.inv.nb_len
    split
    · show List.length (Net.blob_need_backward_ (forUp _ _ _)) = _
      rw [force_backward_blob_len, hwalk]
      exact hnb
    · show (Init.walk w.net w.net.layers_.length).net.blob_need_backward_.length = _
      rw [hwalk]
      exact hnb
  refine ⟨?_, hbnblen, ?_, ?_, ?_, hin, ?_, ?_⟩
  · rw [g1, g2]
    exact hW.inv.names_len
  · intro l hl
    have h1 : (result.bottom_id_vecs_.getD l []).length = num_bottom (InsertSplits filtered) l := by
      rw [g5]
      exact hW.stage.done_bottom l hl
    refine ⟨h1, ?_, ?_, ?_⟩
    · have hp : w.net.bottom_vecs_ = w.net.bottom_id_vecs_ := hW.inv.ptr_bottom
      rw [g6, hp, ← g5]
      exact h1
    · rw [hN.rows l]
      exact h1
    · have hp : w.net.top_vecs_ = w.net.top_id_vecs_ := hW.inv.ptr_top
      rw [g4, g3, hp]
  · intro l b i hb
    rw [g5] at hb
    rw [← hcount]
    exact (hW.inv.map_sound _ i (hW.inv.bottom_named l b i hb)).1
  · intro l t i ht
    rw [g3] at ht
    rw [← hcount]
    exact hW.inv.top_lt l t i ht
  · intro j hj
    have hjj : w.core.net_input_blob_indices_[j]? = some j := by
      show w.net.net_input_blob_indices_[j]? = some j
      rw [← g7, hin, List.getElem?_range hj]
    have := (hW.inv.map_sound _ j (hW.inv.input_named j j hjj)).2
    rw [AppendTop.name_input] at this
    rw [g2]
    exact this
  · intro l b i l' t i' hb ht halloc hll
    rw [g5] at hb
    rw [g3] at ht
    exact wire_until_topo _ _ _ _ _ (Nat.le_refl _) hwu l b i l' t i' hb ht halloc hll

/-- C35 on `in_place_example`: the input "a" is blob 0, the layer "relu"
works in place on it, and the top "b" of the layer "out" is blob 1, allocated
after the bottom 0 of both layers. -/
theorem C35_witness :
    ∃ result, Init plain_factory id in_place_example = .ok result ∧
      result.net_input_blob_indices_ = [0] ∧ result.bottom_id_vecs_ = [[0], [0]] ∧
      result.top_id_vecs_ = [[0], [1]] ∧ result.blob_names_ = ["a", "b"] ∧
      result.blob_need_backward_.length = 2 ∧ result.blobs_.length = 2 := by
  obtain ⟨result, hinit, hp⟩ := of_returns_with (Init plain_factory id in_place_example)
    (fun r => decide (r.bottom_id_vecs_ = [[0], [0]] ∧ r.top_id_vecs_ = [[0], [1]] ∧
      r.blob_names_ = ["a", "b"])) (by decide)
  obtain ⟨h1, h2, h3⟩ := of_decide_eq_true hp
  obtain ⟨c1, c2, _, _, _, c6, _⟩ := C35_wired_graph_is_well_formed plain_factory id
    in_place_example in_place_example result (by decide) hinit
  have hlen : result.blobs_.length = 2 := by
    rw [← c1, h3]
    rfl
  exact ⟨result, hinit, c6, h1, h2, h3, by rw [c2, hlen], hlen⟩

/-! ## The tables of parameters -/

theorem shown_normal_output (net : Net) (param : NetParameter) (layer_id : Int) (top_id : Nat)
    (blob_name : String) :
    (AppendTop.normal_output net param layer_id top_id blob_name).shown = net.shown := by
  unfold AppendTop.normal_output
  dsimp only
  split <;> rfl

theorem shown_AppendTop (net : Net) (param : NetParameter) (layer_id : Int) (top_id : Nat)
    (a : Option StdSet) (m : Option StdMap) (r : Net × Option StdSet × Option StdMap)
    (h : AppendTop net param layer_id top_id a m = .ok r) : r.1.shown = net.shown := by
  unfold AppendTop at h
  dsimp only at h
  split at h
  · split at h
    · injection h with h
      subst h
      rfl
    · split at h
      · cases h
      · injection h with h
        subst h
        exact shown_normal_output _ _ _ _ _
  · injection h with h
    subst h
    exact shown_normal_output _ _ _ _ _

theorem shown_call_AppendTop (param : NetParameter) (layer_id : Int) (top_id : Nat)
    (named : Bool) (w w' : Wiring)
    (h : Init.call_AppendTop param layer_id top_id named w = .ok w') :
    w'.net.shown = w.net.shown := by
  unfold Init.call_AppendTop at h
  obtain ⟨r, hr, rfl⟩ := Except.map_eq_ok h
  exact shown_AppendTop _ _ _ _ _ _ _ hr

theorem shown_AppendBottom (net : Net) (param : NetParameter) (l b : Nat) (a : StdSet)
    (m : StdMap) (r : Nat × Net × StdSet × StdMap)
    (h : AppendBottom net param l b a m = .ok r) : r.2.1.shown = net.shown := by
  by_cases hmem : AppendBottom.blob_name param l b ∈ a
  · rw [AppendBottom_ok _ _ _ _ _ _ hmem] at h
    injection h with h
    subst h
    rfl
  · rw [AppendBottom_error _ _ _ _ _ _ hmem] at h
    cases h

theorem shown_inputs (param : NetParameter) (w w' : Wiring)
    (h : Init.inputs param w = .ok w') : w'.net.shown = w.net.shown := by
  unfold Init.inputs at h
  refine forRange_induction (fun (_ : Nat) (t : Wiring) => t.net.shown = w.net.shown)
    _ _ _ _ rfl ?_ h
  intro i t t' _ ht hstep
  exact (shown_call_AppendTop _ _ _ _ _ _ hstep).trans ht

theorem shown_bottoms (param : NetParameter) (k : Nat) (s s' : Wiring × Bool)
    (h : Init.bottoms param k s = .ok s') : s'.1.net.shown = s.1.net.shown := by
  unfold Init.bottoms at h
  refine forRange_induction
    (fun (_ : Nat) (t : Wiring × Bool) => t.1.net.shown = s.1.net.shown)
    _ _ _ _ rfl ?_ h
  intro i t t' _ ht hstep
  obtain ⟨r, hr, rfl⟩ := Except.map_eq_ok hstep
  exact (shown_AppendBottom _ _ _ _ _ _ _ hr).trans ht

theorem shown_tops (param : NetParameter) (k : Nat) (w w' : Wiring)
    (h : Init.tops param k w = .ok w') : w'.net.shown = w.net.shown := by
  unfold Init.tops at h
  refine forRange_induction (fun (_ : Nat) (t : Wiring) => t.net.shown = w.net.shown)
    _ _ _ _ rfl ?_ h
  intro i t t' _ ht hstep
  exact (shown_call_AppendTop _ _ _ _ _ _ hstep).trans ht

theorem shown_auto_tops (param : NetParameter) (k : Nat) (w w' : Wiring)
    (h : Init.auto_tops param k w = .ok w') : w'.net.shown = w.net.shown := by
  unfold Init.auto_tops at h
  dsimp only at h
  split at h
  · refine forRange_induction (fun (_ : Nat) (t : Wiring) => t.net.shown = w.net.shown)
      _ _ _ _ rfl ?_ h
    intro i t t' _ ht hstep
    exact (shown_call_AppendTop _ _ _ _ _ _ hstep).trans ht
  · injection h with h
    subst h
    rfl

theorem shown_loss_weights (l : Nat) (net : Net) :
    (Init.loss_weights l net).shown = net.shown := by
  unfold Init.loss_weights
  exact forUp_induction (fun (_ : Nat) (s : Net) => s.shown = net.shown) _ _ _
    rfl (fun i t _ h => h)

theorem shown_param_flags (param : NetParameter) (l : Nat) (s : Net × Bool) :
    (Init.param_flags param l s).1.shown = s.1.shown := by
  unfold Init.param_flags
  exact forUp_induction (fun (_ : Nat) (t : Net × Bool) => t.1.shown = s.1.shown) _ _ _
    rfl (fun i t _ h => h)

theorem shown_set_need_backward (l : Nat) (nb : Bool) (net : Net) :
    (Init.set_need_backward l nb net).shown = net.shown := by
  unfold Init.set_need_backward
  dsimp only
  split
  · exact forUp_induction (fun (_ : Nat) (t : Net) => t.shown = net.shown) _ _ _
      rfl (fun i t _ h => h)
  · rfl

theorem shown_share_lr (net net' : Net) (n : String) (ps : ParamSpec) (i : Nat)
    (h : AppendParam.share_lr net n ps i = .ok net') : net'.shown = net.shown := by
  unfold AppendParam.share_lr at h
  split at h
  · split at h
    · split at h
      · cases h
      · injection h with h
        subst h
        rfl
    · injection h with h
      subst h
      rfl
  · injection h with h
    subst h
    rfl

theorem shown_share_decay (net net' : Net) (n : String) (ps : ParamSpec) (i : Nat)
    (h : AppendParam.share_decay net n ps i = .ok net') : net'.shown = net.shown := by
  unfold AppendParam.share_decay at h
  split at h
  · split at h
    · split at h
      · cases h
      · injection h with h
        subst h
        rfl
    · injection h with h
      subst h
      rfl
  · injection h with h
    subst h
    rfl

theorem shown_shares (net net' : Net) (lp : LayerParameter) (p : Nat) (n : String)
    (ps : ParamSpec) (b : Blob) (h : AppendParam.shares net lp p n ps b = .ok net') :
    net'.shown = net.shown := by
  unfold AppendParam.shares at h
  dsimp only at h
  split at h
  · cases h
  · split at h
    · cases h
    · obtain ⟨net3, h3, h4⟩ := Except.bind_eq_ok h
      have e3 := shown_share_lr _ _ _ _ _ h3
      have e4 := shown_share_decay _ _ _ _ _ h4
      exact e4.trans e3

/-- A call of `AppendParam` that returns has pushed one display name and one
blob. -/
theorem shown_AppendParam (net net' : Net) (param : NetParameter) (l p : Nat)
    (h : AppendParam net param l p = .ok net') :
    net'.shown = (net.shown.1 + 1, net.shown.2 + 1) := by
  have hpush : (AppendParam.push net l p).shown = (net.shown.1 + 1, net.shown.2 + 1) := by
    unfold AppendParam.push Net.shown
    simp
  unfold AppendParam at h
  dsimp only at h
  split at h
  · injection h with h
    subst h
    exact hpush
  · exact (shown_shares _ _ _ _ _ _ _ h).trans hpush

theorem shown_params (param : NetParameter) (l : Nat) (net net' : Net)
    (hD : net.shown.1 = net.shown.2) (h : Init.params param l net = .ok net') :
    net'.shown.1 = net'.shown.2 := by
  unfold Init.params at h
  refine forRange_induction (fun (_ : Nat) (s : Net) => s.shown.1 = s.shown.2)
    _ _ _ _ hD ?_ h
  intro i t t' _ ht hstep
  rw [shown_AppendParam _ _ _ _ _ hstep]
  show t.shown.1 + 1 = t.shown.2 + 1
  rw [ht]

theorem shown_layer (CreateLayer : LayerParameter → Layer) (param : NetParameter)
    (k : Nat) (w w' : Wiring) (hD : w.net.shown.1 = w.net.shown.2)
    (h : Init.layer CreateLayer param k w = .ok w') : w'.net.shown.1 = w'.net.shown.2 := by
  unfold Init.layer at h
  dsimp only at h
  split at h
  · cases h
  · obtain ⟨s2, h2, h⟩ := Except.bind_eq_ok h
    obtain ⟨w3, h3, h⟩ := Except.bind_eq_ok h
    obtain ⟨w4, h4, h⟩ := Except.bind_eq_ok h
    split at h
    · cases h
    · obtain ⟨net7, h7, h⟩ := Except.bind_eq_ok h
      injection h with h
      rw [← h]
      show (Init.set_need_backward k _ net7).shown.1 = (Init.set_need_backward k _ net7).shown.2
      rw [shown_set_need_backward]
      refine shown_params param k _ net7 ?_ h7
      rw [shown_param_flags]
      show (Init.loss_weights k w4.net).shown.1 = (Init.loss_weights k w4.net).shown.2
      rw [shown_loss_weights, shown_auto_tops _ _ _ _ h4, shown_tops _ _ _ _ h3,
        shown_bottoms _ _ _ _ h2]
      exact hD

theorem shown_wire (CreateLayer : LayerParameter → Layer) (param : NetParameter)
    (phase_ : Phase) (w : Wiring) (h : Init.wire CreateLayer param phase_ = .ok w) :
    w.net.shown.1 = w.net.shown.2 := by
  unfold Init.wire at h
  split at h
  · cases h
  · split at h
    · cases h
    · split at h
      · cases h
      · dsimp only at h
        obtain ⟨w1, h1, h⟩ := Except.bind_eq_ok h
        have g1 := shown_inputs _ _ _ h1
        refine forRange_induction
          (fun (_ : Nat) (t : Wiring) => t.net.shown.1 = t.net.shown.2)
          _ _ _ _ ?_ ?_ h
        · show w1.net.shown.1 = w1.net.shown.2
          rw [g1]
          rfl
        · intro k t t' _ ht hstep
          exact shown_layer CreateLayer param k t t' ht hstep

theorem shown_clear_layer (l : Nat) (flags : Bool × Bool) (net : Net) :
    (Init.clear_layer l flags net).shown = net.shown := by
  unfold Init.clear_layer
  dsimp only
  split <;> split <;> rfl

theorem shown_walk_bottoms (l : Nat) (c : Bool) (s : Walk) :
    (Init.walk_bottoms l c s).net.shown = s.net.shown := by
  unfold Init.walk_bottoms
  refine forUp_induction (fun (_ : Nat) (t : Walk) => t.net.shown = s.net.shown) _ _ _
    rfl ?_
  intro i t _ h
  dsimp only
  split <;> split <;> exact h

theorem shown_walk (net : Net) (visited : Nat) :
    (Init.walk net visited).net.shown = net.shown := by
  induction visited with
  | zero => rfl
  | succ v ih =>
    rw [walk_succ]
    unfold Init.walk_layer
    dsimp only
    rw [shown_walk_bottoms]
    exact (shown_clear_layer _ _ _).trans ih

theorem shown_force_backward (net : Net) (n : Nat) :
    (forUp n (fun layer_id net => Init.force_backward_layer layer_id net) net).shown =
      net.shown := by
  refine forUp_induction (fun (_ : Nat) (t : Net) => t.shown = net.shown) _ _ _ rfl ?_
  intro l t _ ht
  unfold Init.force_backward_layer
  dsimp only
  refine forUp_induction (fun (_ : Nat) (u : Net) => u.shown = net.shown) _ _ _ ?_
    (fun _ _ _ hu => hu)
  exact forUp_induction (fun (_ : Nat) (u : Net) => u.shown = net.shown) _ _ _ ht
    (fun _ _ _ hu => hu)

theorem shown_outputs (a : StdSet) (s : Net × StdMap) :
    (Init.outputs a s).1.shown = s.1.shown := by
  induction a generalizing s with
  | nil => rfl
  | cons x xs ih =>
    unfold Init.outputs
    dsimp only
    rw [ih]
    rfl

theorem shown_name_indices (net : Net) : (Init.name_indices net).shown = net.shown := by
  unfold Init.name_indices
  dsimp only
  refine forUp_induction (fun (_ : Nat) (t : Net) => t.shown = net.shown) _ _ _ ?_
    (fun i t _ h => h)
  exact forUp_induction (fun (_ : Nat) (t : Net) => t.shown = net.shown) _ _ _ rfl
    (fun i t _ h => h)

theorem shown_ShareWeights (net net' : Net) (h : ShareWeights net = .ok net') :
    net'.shown = net.shown := by
  unfold ShareWeights at h
  refine forRange_induction (fun (_ : Nat) (t : Net) => t.shown = net.shown)
    _ _ _ _ rfl ?_ h
  intro i t t' _ ht hstep
  dsimp only at hstep
  split at hstep
  · injection hstep with hstep
    subst hstep
    exact ht
  · obtain ⟨s1, _, hstep⟩ := Except.bind_eq_ok hstep
    obtain ⟨s2, _, hstep⟩ := Except.bind_eq_ok hstep
    injection hstep with hstep
    subst hstep
    rw [← ht]
    unfold Net.shown
    simp

/-- A net `Init` returns has one display name per parameter blob. -/
theorem shown_Init (CreateLayer : LayerParameter → Layer)
    (InsertSplits : NetParameter → NetParameter) (in_param : NetParameter) (result : Net)
    (hinit : Init CreateLayer InsertSplits in_param = .ok result) :
    result.param_display_names_.length = result.params_.length := by
  obtain ⟨filtered, w, _, hw, hfin⟩ := Init_ok _ _ _ _ hinit
  have hD := shown_wire _ _ _ _ hw
  unfold Init.finish at hfin
  dsimp only at hfin
  obtain ⟨net5, h5, hfin⟩ := Except.bind_eq_ok hfin
  injection hfin with hfin
  have e5 := shown_ShareWeights _ _ h5
  rw [shown_name_indices, shown_outputs] at e5
  have e : result.shown = w.net.shown := by
    rw [← hfin]
    show net5.shown = _
    rw [e5]
    split
    · rw [shown_force_backward]
      exact shown_walk _ _
    · exact shown_walk _ _
  have : result.shown.1 = result.shown.2 := by rw [e]; exact hD
  exact this

/-- C36: in every net `Init` returns, `params_`, `param_owners_`,
`param_layer_indices_`, `param_display_names_` and `learnable_param_ids_` have
one length; `learnable_params_`, `params_lr_`, `params_weight_decay_`,
`has_params_lr_` and `has_params_decay_` have one length; every entry of
`learnable_param_ids_` is a position of `learnable_params_`; every entry of
`param_owners_` is -1 or the index `o` of an earlier parameter whose own entry
is -1; and the blob of a parameter with owner `o` has the storage of the blob
of `o`, which is the storage `o` was registered with. -/
theorem C36_parameter_table_invariant (CreateLayer : LayerParameter → Layer)
    (InsertSplits : NetParameter → NetParameter) (in_param : NetParameter) (result : Net)
    (hinit : Init CreateLayer InsertSplits in_param = .ok result) :
    (result.param_owners_.length = result.params_.length ∧
      result.param_layer_indices_.length = result.params_.length ∧
      result.param_display_names_.length = result.params_.length ∧
      result.learnable_param_ids_.length = result.params_.length) ∧
    (result.params_lr_.length = result.learnable_params_.length ∧
      result.params_weight_decay_.length = result.learnable_params_.length ∧
      result.has_params_lr_.length = result.learnable_params_.length ∧
      result.has_params_decay_.length = result.learnable_params_.length) ∧
    (∀ i L : Nat, result.learnable_param_ids_[i]? = some L →
      L < result.learnable_params_.length) ∧
    (∀ (i : Nat) (o : Int), result.param_owners_[i]? = some o →
      o = -1 ∨ (0 ≤ o ∧ o.toNat < i ∧ result.param_owners_[o.toNat]? = some (-1))) ∧
    ∀ i o : Nat, result.param_owners_[i]? = some (o : Int) →
      ∃ bi bo : Blob, result.params_[i]? = some bi ∧ result.params_[o]? = some bo ∧
        bi.data_ = bo.data_ ∧ bi.diff_ = bo.diff_ ∧ bo.data_ = o ∧ bo.diff_ = o := by
  obtain ⟨r, ps, hI, hreg, hlen, hblob⟩ := Init_registry _ _ _ _ hinit
  have e_params : result.params_ = ps := congrArg Registry.params_ hreg
  have e_own : result.param_owners_ = r.param_owners_ := congrArg Registry.param_owners_ hreg
  have e_ind : result.param_layer_indices_ = r.param_layer_indices_ :=
    congrArg Registry.param_layer_indices_ hreg
  have e_ids : result.learnable_param_ids_ = r.learnable_param_ids_ :=
    congrArg Registry.learnable_param_ids_ hreg
  have e_learn : result.learnable_params_ = r.learnable_params_ :=
    congrArg Registry.learnable_params_ hreg
  have e_lr : result.params_lr_ = r.params_lr_ := congrArg Registry.params_lr_ hreg
  have e_hlr : result.has_params_lr_ = r.has_params_lr_ :=
    congrArg Registry.has_params_lr_ hreg
  have e_dc : result.params_weight_decay_ = r.params_weight_decay_ :=
    congrArg Registry.params_weight_decay_ hreg
  have e_hdc : result.has_params_decay_ = r.has_params_decay_ :=
    congrArg Registry.has_params_decay_ hreg
  have hcases : ∀ i : Nat, i < r.params_.length →
      r.param_owners_[i]? = some (-1) ∨ ∃ o : Nat, r.param_owners_[i]? = some (o : Int) := by
    intro i hi
    rcases hI.owner i hi with ⟨_, h⟩ | ⟨o, _, _, _, _, h⟩
    · exact Or.inl h
    · exact Or.inr ⟨o, h⟩
  refine ⟨⟨?_, ?_, shown_Init _ _ _ _ hinit, ?_⟩, ⟨?_, ?_, ?_, ?_⟩, ?_, ?_, ?_⟩
  · rw [e_own, e_params, hlen]
    exact hI.len_owners
  · rw [e_ind, e_params, hlen]
    exact hI.len_indices
  · rw [e_ids, e_params, hlen]
    exact hI.len_ids
  · rw [e_lr, e_learn]
    exact hI.len_lr
  · rw [e_dc, e_learn]
    exact hI.len_decay
  · rw [e_hlr, e_learn]
    exact hI.len_has_lr
  · rw [e_hdc, e_learn]
    exact hI.len_has_decay
  · intro i L hL
    rw [e_ids] at hL
    rw [e_learn]
    have hi : i < r.params_.length := by
      rw [← hI.len_ids]
      exact (List.getElem?_eq_some_iff.1 hL).1
    rcases hcases i hi with h | ⟨o, h⟩
    · obtain ⟨L', h1, h2⟩ := hI.ids_owner i h
      rw [hL] at h1
      injection h1 with h1
      subst h1
      exact (List.getElem?_eq_some_iff.1 h2).1
    · obtain ⟨L', h1, _, h2⟩ := hI.ids_shared i o h
      rw [hL] at h1
      injection h1 with h1
      subst h1
      exact (List.getElem?_eq_some_iff.1 h2).1
  · intro i o ho
    rw [e_own] at ho
    rw [e_own]
    have hi : i < r.params_.length := by
      rw [← hI.len_owners]
      exact (List.getElem?_eq_some_iff.1 ho).1
    rcases hcases i hi with h | ⟨o', h⟩
    · rw [ho] at h
      injection h with h
      exact Or.inl h
    · rw [ho] at h
      injection h with h
      subst h
      obtain ⟨_, h2, h3, _⟩ := hI.owner_owns i o' ho
      right
      exact ⟨Int.ofNat_nonneg _, by simpa using h2, by simpa using h3⟩
  · intro i o ho
    rw [e_own] at ho
    obtain ⟨hi, hoi, hoo, _, _⟩ := hI.owner_owns i o ho
    have hri : r.root i = o := root_of_shared ho
    have hro : r.root o = o := root_of_owner hoo
    refine ⟨_, _, by rw [e_params]; exact hblob i hi,
      by rw [e_params]; exact hblob o (Nat.lt_trans hoi hi), ?_, ?_, hro, hro⟩
    · show r.root i = r.root o
      rw [hri, hro]
    · show r.root i = r.root o
      rw [hri, hro]

/-- C36 on `shared_example`: four parameters, of which the second and the
third have the first as owner; every table has four entries, or two, and the
blobs of the shared parameters have the storage 0 of their owner. -/
theorem C36_witness :
    ∃ result, Init share_factory id shared_example = .ok result ∧
      result.param_owners_ = [-1, 0, 0, -1] ∧ result.params_.length = 4 ∧
      result.param_display_names_.length = 4 ∧ result.learnable_params_.length = 2 ∧
      result.params_lr_.length = 2 ∧
      ∃ bi bo : Blob, result.params_[2]? = some bi ∧ result.params_[0]? = some bo ∧
        bi.data_ = bo.data_ ∧ bi.diff_ = bo.diff_ ∧ bo.data_ = 0 ∧ bo.diff_ = 0 := by
  obtain ⟨result, hinit, hp⟩ := of_returns_with (Init share_factory id shared_example)
    (fun r => decide (r.param_owners_ = [-1, 0, 0, -1] ∧ r.learnable_params_ = [0, 3]))
    (by decide)
  obtain ⟨h1, h2⟩ := of_decide_eq_true hp
  obtain ⟨⟨c1, _, c3, _⟩, ⟨c5, _⟩, _, _, c9⟩ :=
    C36_parameter_table_invariant share_factory id shared_example result hinit
  have hlen : result.params_.length = 4 := by
    rw [← c1, h1]
    rfl
  have hl : result.learnable_params_.length = 2 := by
    rw [h2]
    rfl
  exact ⟨result, hinit, h1, hlen, by rw [c3, hlen], hl, by rw [c5, hl],
    c9 2 0 (by rw [h1]; rfl)⟩

/-! ## The order of the net outputs -/

theorem charsLt_trans (a b c : List Char) (h1 : charsLt a b = true) (h2 : charsLt b c = true) :
    charsLt a c = true := by
  induction a generalizing b c with
  | nil =>
    cases b with
    | nil => simp [charsLt] at h1
    | cons y ys =>
      cases c with
      | nil => simp [charsLt] at h2
      | cons z zs => simp [charsLt]
  | cons x xs ih =>
    cases b with
    | nil => simp [charsLt] at h1
    | cons y ys =>
      cases c with
      | nil => simp [charsLt] at h2
      | cons z zs =>
        unfold charsLt at h1 h2 ⊢
        by_cases hxy : x.toNat < y.toNat
        · by_cases hyz : y.toNat < z.toNat
          · rw [if_pos (by omega)]
          · rw [if_neg hyz] at h2
            by_cases hyz' : y.toNat = z.toNat
            · rw [if_pos (by omega)]
            · rw [if_neg hyz'] at h2
              cases h2
        · rw [if_neg hxy] at h1
          by_cases hxy' : x.toNat = y.toNat
          · rw [if_pos hxy'] at h1
            by_cases hyz : y.toNat < z.toNat
            · rw [if_pos (by omega)]
            · rw [if_neg hyz] at h2
              by_cases hyz' : y.toNat = z.toNat
              · rw [if_pos hyz'] at h2
                rw [if_neg (by omega), if_pos (by omega)]
                exact ih ys zs h1 h2
              · rw [if_neg hyz'] at h2
                cases h2
          · rw [if_neg hxy'] at h1
            cases h1

theorem charsLt_total (a b : List Char) (h : a ≠ b) :
    charsLt a b = true ∨ charsLt b a = true := by
  induction a generalizing b with
  | nil =>
    cases b with
    | nil => exact absurd rfl h
    | cons y ys => exact Or.inl (by simp [charsLt])
  | cons x xs ih =>
    cases b with
    | nil => exact Or.inr (by simp [charsLt])
    | cons y ys =>
      have e1 : charsLt (x :: xs) (y :: ys) =
          if x.toNat < y.toNat then true
          else if x.toNat = y.toNat then charsLt xs ys else false := by
        rw [charsLt]
      have e2 : charsLt (y :: ys) (x :: xs) =
          if y.toNat < x.toNat then true
          else if y.toNat = x.toNat then charsLt ys xs else false := by
        rw [charsLt]
      rw [e1, e2]
      by_cases hxy : x.toNat < y.toNat
      · exact Or.inl (by rw [if_pos hxy])
      · by_cases hyx : y.toNat < x.toNat
        · exact Or.inr (by rw [if_pos hyx])
        · have he : x.toNat = y.toNat := by omega
          have hc : x = y := by
            rw [← Char.ofNat_toNat x, ← Char.ofNat_toNat y, he]
          subst hc
          have hne : xs ≠ ys := fun e => h (by rw [e])
          rw [if_neg hxy, if_pos rfl, if_neg hyx, if_pos rfl]
          exact ih ys hne

theorem nameLt_trans (a b c : String) (h1 : nameLt a b = true) (h2 : nameLt b c = true) :
    nameLt a c = true := charsLt_trans _ _ _ h1 h2

theorem nameLt_total (a b : String) (h : a ≠ b) : nameLt a b = true ∨ nameLt b a = true :=
  charsLt_total _ _ (fun e => h (String.ext e))

/-- Inserting into a `std::set<string>` keeps the order of its elements. -/
theorem StdSet.ordered_insert (x : String) (s : StdSet) (h : StdSet.ordered s) :
    StdSet.ordered (StdSet.insert x s) := by
  induction s with
  | nil => exact List.pairwise_singleton _ _
  | cons y ys ih =>
    have hy := List.pairwise_cons.1 h
    unfold StdSet.insert
    by_cases hxy : x = y
    · rw [if_pos hxy]
      exact h
    · rw [if_neg hxy]
      by_cases hlt : nameLt x y = true
      · rw [if_pos hlt]
        refine List.pairwise_cons.2 ⟨?_, h⟩
        intro a ha
        rcases List.mem_cons.1 ha with rfl | ha
        · exact hlt
        · exact nameLt_trans _ _ _ hlt (hy.1 a ha)
      · rw [if_neg hlt]
        refine List.pairwise_cons.2 ⟨?_, ih hy.2⟩
        intro a ha
        rcases (StdSet.mem_insert x a ys).1 ha with rfl | ha
        · rcases nameLt_total a y hxy with h1 | h1
          · exact absurd h1 hlt
          · exact h1
        · exact hy.1 a ha

/-- Erasing from a `std::set<string>` keeps the order of its elements. -/
theorem StdSet.ordered_erase (x : String) (s : StdSet) (h : StdSet.ordered s) :
    StdSet.ordered (StdSet.erase x s) :=
  List.Pairwise.sublist (List.filter_sublist _) h

theorem nameLt_irrefl (a : String) : nameLt a a = false := by
  unfold nameLt
  generalize a.data = l
  induction l with
  | nil => rfl
  | cons x xs ih =>
    unfold charsLt
    rw [if_neg (Nat.lt_irrefl _), if_pos rfl]
    exact ih

/-- A `std::set<string>` in order holds every element once. -/
theorem StdSet.ordered_nodup (s : StdSet) (h : StdSet.ordered s) : s.Nodup := by
  refine List.Pairwise.imp ?_ h
  intro a b hab heq
  subst heq
  rw [nameLt_irrefl] at hab
  cases hab

/-- The input loop keeps the available set in order and puts the name of
every declared input into it. -/
theorem inputs_avail (param : NetParameter) (w w' : Wiring)
    (ho : StdSet.ordered w.available_blobs) (h : Init.inputs param w = .ok w') :
    StdSet.ordered w'.available_blobs ∧
      ∀ j, j < param.input.length → AppendTop.name param (-1) j ∈ w'.available_blobs := by
  unfold Init.inputs at h
  refine forRange_induction
    (fun (i : Nat) (t : Wiring) => StdSet.ordered t.available_blobs ∧
      ∀ j, j < i → AppendTop.name param (-1) j ∈ t.available_blobs)
    _ _ _ _ ⟨ho, fun j hj => absurd hj (Nat.not_lt_zero _)⟩ ?_ h
  intro i t t' _ ht hstep
  have e := call_AppendTop_available _ _ _ _ _ _ hstep
  rw [if_pos rfl] at e
  rw [e]
  refine ⟨StdSet.ordered_insert _ _ ht.1, ?_⟩
  intro j hj
  rw [StdSet.mem_insert]
  by_cases hji : j = i
  · subst hji
    exact Or.inl rfl
  · exact Or.inr (ht.2 j (by omega))

/-- The bottom loop of a layer keeps the available set in order and leaves in
it every name that is not the name of a bottom of the layer. -/
theorem bottoms_avail (param : NetParameter) (k : Nat) (s s' : Wiring × Bool)
    (ho : StdSet.ordered s.1.available_blobs) (h : Init.bottoms param k s = .ok s') :
    StdSet.ordered s'.1.available_blobs ∧
      ∀ n, n ∈ s.1.available_blobs →
        (∀ b, b < num_bottom param k → AppendBottom.blob_name param k b ≠ n) →
        n ∈ s'.1.available_blobs := by
  unfold Init.bottoms at h
  have key := forRange_induction
    (fun (i : Nat) (t : Wiring × Bool) => StdSet.ordered t.1.available_blobs ∧
      ∀ n, n ∈ s.1.available_blobs →
        (∀ b, b < i → AppendBottom.blob_name param k b ≠ n) → n ∈ t.1.available_blobs)
    _ _ _ _ ⟨ho, fun n hn _ => hn⟩ ?_ h
  · exact key
  · intro i t t' _ ht hstep
    obtain ⟨r, hr, rfl⟩ := Except.map_eq_ok hstep
    by_cases hmem : AppendBottom.blob_name param k i ∈ t.1.available_blobs
    · rw [AppendBottom_ok _ _ _ _ _ _ hmem] at hr
      injection hr with hr
      subst hr
      dsimp only
      refine ⟨StdSet.ordered_erase _ _ ht.1, ?_⟩
      intro n hn hne
      rw [StdSet.mem_erase]
      exact ⟨ht.2 n hn (fun b hb => hne b (by omega)), (hne i (by omega)).symm⟩
    · rw [AppendBottom_error _ _ _ _ _ _ hmem] at hr
      cases hr

/-- The top loop of a layer keeps the available set in order, takes nothing
out of it and puts the name of every declared top of the layer into it. -/
theorem tops_avail (param : NetParameter) (k : Nat) (w w' : Wiring)
    (ho : StdSet.ordered w.available_blobs) (h : Init.tops param k w = .ok w') :
    StdSet.ordered w'.available_blobs ∧
      (∀ n, n ∈ w.available_blobs → n ∈ w'.available_blobs) ∧
      ∀ t, t < num_top param k → AppendTop.name param k t ∈ w'.available_blobs := by
  unfold Init.tops at h
  have key := forRange_induction
    (fun (i : Nat) (s : Wiring) => StdSet.ordered s.available_blobs ∧
      (∀ n, n ∈ w.available_blobs → n ∈ s.available_blobs) ∧
      ∀ t, t < i → AppendTop.name param k t ∈ s.available_blobs)
    _ _ _ _ ⟨ho, fun n hn => hn, fun t ht => absurd ht (Nat.not_lt_zero _)⟩ ?_ h
  · exact key
  · intro i s s' _ hs hstep
    have e := call_AppendTop_available _ _ _ _ _ _ hstep
    rw [if_pos rfl] at e
    rw [e]
    refine ⟨StdSet.ordered_insert _ _ hs.1, ?_, ?_⟩
    · intro n hn
      rw [StdSet.mem_insert]
      exact Or.inr (hs.2.1 n hn)
    · intro t ht
      rw [StdSet.mem_insert]
      by_cases hti : t = i
      · subst hti
        exact Or.inl rfl
      · exact Or.inr (hs.2.2 t (by omega))

/-- The loop that adds anonymous tops leaves the available set alone. -/
theorem auto_tops_avail (param : NetParameter) (k : Nat) (w w' : Wiring)
    (h : Init.auto_tops param k w = .ok w') : w'.available_blobs = w.available_blobs := by
  unfold Init.auto_tops at h
  dsimp only at h
  split at h
  · refine forRange_induction
      (fun (_ : Nat) (t : Wiring) => t.available_blobs = w.available_blobs)
      _ _ _ _ rfl ?_ h
    intro i t t' _ ht hstep
    have e := call_AppendTop_available _ _ _ _ _ _ hstep
    rw [if_neg (by decide)] at e
    exact e.trans ht
  · injection h with h
    subst h
    rfl

/-- One iteration of the layer loop keeps the available set in order, leaves
in it every name that is not the name of a bottom of the layer, and puts the
name of every declared top of the layer into it. -/
theorem layer_avail (CreateLayer : LayerParameter → Layer) (param : NetParameter)
    (k : Nat) (w w' : Wiring) (ho : StdSet.ordered w.available_blobs)
    (h : Init.layer CreateLayer param k w = .ok w') :
    StdSet.ordered w'.available_blobs ∧
      (∀ n, n ∈ w.available_blobs →
        (∀ b, b < num_bottom param k → AppendBottom.blob_name param k b ≠ n) →
        n ∈ w'.available_blobs) ∧
      ∀ t, t < num_top param k → AppendTop.name param k t ∈ w'.available_blobs := by
  unfold Init.layer at h
  dsimp only at h
  split at h
  · cases h
  · obtain ⟨s2, h2, h⟩ := Except.bind_eq_ok h
    obtain ⟨w3, h3, h⟩ := Except.bind_eq_ok h
    obtain ⟨w4, h4, h⟩ := Except.bind_eq_ok h
    split at h
    · cases h
    · obtain ⟨net7, _, h⟩ := Except.bind_eq_ok h
      injection h with h
      obtain ⟨b1, b2⟩ := bottoms_avail param k _ s2 ho h2
      obtain ⟨t1, t2, t3⟩ := tops_avail param k _ w3 b1 h3
      have e4 := auto_tops_avail param k _ w4 h4
      have e : w'.available_blobs = w3.available_blobs := by
        rw [← h]
        exact e4
      rw [e]
      exact ⟨t1, fun n hn hne => t2 n (b2 n hn hne), t3⟩

/-- The available set at any point of the layer loop: it is in order, and it
holds the name of every declared input and of every declared top of a layer
wired so far that no layer wired afterwards has as a bottom. -/
theorem wire_until_avail (CreateLayer : LayerParameter → Layer) (param : NetParameter)
    (phase_ : Phase) (k : Nat) (w : Wiring)
    (h : Init.wire_until CreateLayer param phase_ k = .ok w) :
    StdSet.ordered w.available_blobs ∧
      (∀ j, j < param.input.length →
        (∀ l b, l < k → b < num_bottom param l →
          AppendBottom.blob_name param l b ≠ AppendTop.name param (-1) j) →
        AppendTop.name param (-1) j ∈ w.available_blobs) ∧
      ∀ l t, l < k → t < num_top param l →
        (∀ l' b, l < l' → l' < k → b < num_bottom param l' →
          AppendBottom.blob_name param l' b ≠ AppendTop.name param l t) →
        AppendTop.name param l t ∈ w.available_blobs := by
  induction k generalizing w with
  | zero =>
    unfold Init.wire_until at h
    split at h
    · cases h
    · split at h
      · cases h
      · split at h
        · cases h
        · dsimp only at h
          obtain ⟨w1, hw1, h⟩ := Except.bind_eq_ok h
          injection h with h
          obtain ⟨i1, i2⟩ := inputs_avail param
            { net := { Net.empty with phase_ := phase_, name_ := param.name }
              available_blobs := []
              blob_name_to_idx := [] } w1 List.Pairwise.nil hw1
          rw [← h]
          exact ⟨i1, fun j hj _ => i2 j hj, fun l t hl => absurd hl (Nat.not_lt_zero _)⟩
  | succ k ih =>
    rw [wire_until_succ] at h
    obtain ⟨wk, hwk, hstep⟩ := Except.bind_eq_ok h
    obtain ⟨i1, i2, i3⟩ := ih wk hwk
    obtain ⟨a1, a2, a3⟩ := layer_avail _ _ _ _ _ i1 hstep
    refine ⟨a1, ?_, ?_⟩
    · intro j hj hne
      exact a2 _ (i2 j hj (fun l b hl hb => hne l b (by omega) hb))
        (fun b hb => hne k b (by omega) hb)
    · intro l t hl ht hne
      by_cases hlk : l = k
      · subst hlk
        exact a3 t ht
      · exact a2 _ (i3 l t (by omega) ht (fun l' b h1 h2 hb => hne l' b h1 (by omega) hb))
          (fun b hb => hne k b (by omega) (by omega) hb)

/-- C37: in every net `Init` returns, with `w` the state in which the wiring
ends, `net_output_blob_indices_` lists, for the names left in the available
set and in the order of the set, the blob the name is mapped to, a blob of the
table that bears the name; the set holds its names in strictly ascending
order of `std::string` (so every name once, whatever the order in which the
blobs were produced). Hence a declared input that no layer has as a bottom is
a net output, and so is the blob of a declared top of a layer (in place or
not) whose name no later layer has as a bottom. -/
theorem C37_net_outputs_in_name_order (CreateLayer : LayerParameter → Layer)
    (InsertSplits : NetParameter → NetParameter) (in_param filtered : NetParameter)
    (result : Net) (hf : FilterNet in_param = .ok filtered)
    (hinit : Init CreateLayer InsertSplits in_param = .ok result) :
    ∃ w, Init.wire CreateLayer (InsertSplits filtered) in_param.state.phase = .ok w ∧
      result.net_output_blob_indices_ =
        w.available_blobs.map (fun n => (StdMap.find w.blob_name_to_idx n).getD 0) ∧
      (∀ n, n ∈ w.available_blobs →
        ∃ i, StdMap.find w.blob_name_to_idx n = some i ∧ i < result.blobs_.length ∧
          result.blob_names_[i]? = some n) ∧
      w.available_blobs.Pairwise (fun a b => nameLt a b = true) ∧
      w.available_blobs.Nodup ∧
      result.net_output_blob_indices_.length = w.available_blobs.length ∧
      (∀ j, j < (InsertSplits filtered).input.length →
        (∀ l b, l < (InsertSplits filtered).layer.length →
          b < num_bottom (InsertSplits filtered) l →
          AppendBottom.blob_name (InsertSplits filtered) l b ≠
            (InsertSplits filtered).input.getD j "") →
        (InsertSplits filtered).input.getD j "" ∈ w.available_blobs ∧
          j ∈ result.net_output_blob_indices_) ∧
      ∀ l t, l < (InsertSplits filtered).layer.length →
        t < num_top (InsertSplits filtered) l →
        (∀ l' b, l < l' → l' < (InsertSplits filtered).layer.length →
          b < num_bottom (InsertSplits filtered) l' →
          AppendBottom.blob_name (InsertSplits filtered) l' b ≠
            AppendTop.name (InsertSplits filtered) l t) →
        AppendTop.name (InsertSplits filtered) l t ∈ w.available_blobs ∧
          ∃ i, (result.top_id_vecs_.getD l [])[t]? = some i ∧
            i ∈ result.net_output_blob_indices_ := by
  obtain ⟨w, hw, _, hW, hg, _, hout, _, _⟩ := Init_wired _ _ _ _ _ hf hinit
  obtain ⟨g1, g2, g3, _, _, _, g7, _⟩ := graph_fields hg
  have hwu : Init.wire_until CreateLayer (InsertSplits filtered) in_param.state.phase
      (InsertSplits filtered).layer.length = .ok w := by
    rw [← wire_eq_wire_until]
    exact hw
  obtain ⟨a1, a2, a3⟩ := wire_until_avail _ _ _ _ _ hwu
  have hin := wire_until_inputs _ _ _ _ _ (Nat.le_refl _) hwu
  refine ⟨w, hw, hout, ?_, a1, StdSet.ordered_nodup _ a1, ?_, ?_, ?_⟩
  · intro n hn
    obtain ⟨i, hi⟩ := hW.inv.avail_map n hn
    obtain ⟨h1, h2⟩ := hW.inv.map_sound n i hi
    exact ⟨i, hi, by rw [g1]; exact h1, by rw [g2]; exact h2⟩
  · rw [hout, List.length_map]
  · intro j hj hne
    have hmem := a2 j hj (by
      intro l b hl hb
      rw [AppendTop.name_input]
      exact hne l b hl hb)
    rw [AppendTop.name_input] at hmem
    refine ⟨hmem, ?_⟩
    have hjj : w.core.net_input_blob_indices_[j]? = some j := by
      show w.net.net_input_blob_indices_[j]? = some j
      rw [hin, List.getElem?_range hj]
    have hfind : StdMap.find w.blob_name_to_idx
        (AppendTop.name (InsertSplits filtered) (-1) j) = some j :=
      hW.inv.input_named j j hjj
    rw [AppendTop.name_input] at hfind
    rw [hout, List.mem_map]
    exact ⟨_, hmem, by rw [hfind]; rfl⟩
  · intro l t hl ht hne
    have hmem := a3 l t hl ht hne
    refine ⟨hmem, ?_⟩
    have hlen : t < (w.core.tops l).length :=
      Nat.lt_of_lt_of_le ht (hW.stage.done_top l hl)
    have hti : (w.core.tops l)[t]? = some ((w.core.tops l)[t]) :=
      List.getElem?_eq_getElem hlen
    have hfind : StdMap.find w.blob_name_to_idx
        (AppendTop.name (InsertSplits filtered) l t) = some ((w.core.tops l)[t]) :=
      hW.inv.top_named l t _ hti ht
    refine ⟨(w.core.tops l)[t], by rw [g3]; exact hti, ?_⟩
    rw [hout, List.mem_map]
    exact ⟨_, hmem, by rw [hfind]; rfl⟩

/-- C37 on `two_inputs_example`: the inputs "b" and "a" are the blobs 0 and
1, nothing consumes them, and the net outputs are listed in the order of the
names, "a" first: 1, then 0. -/
theorem C37_witness :
    ∃ result, Init plain_factory id two_inputs_example = .ok result ∧
      result.blob_names_ = ["b", "a"] ∧ result.net_output_blob_indices_ = [1, 0] ∧
      0 ∈ result.net_output_blob_indices_ := by
  obtain ⟨result, hinit, hp⟩ := of_returns_with (Init plain_factory id two_inputs_example)
    (fun r => decide (r.blob_names_ = ["b", "a"] ∧ r.net_output_blob_indices_ = [1, 0]))
    (by decide)
  obtain ⟨h1, h2⟩ := of_decide_eq_true hp
  obtain ⟨w, _, _, _, _, _, _, c7, _⟩ := C37_net_outputs_in_name_order plain_factory id
    two_inputs_example two_inputs_example result (by decide) hinit
  exact ⟨result, hinit, h1, h2, (c7 0 (by decide) (by
    intro l b hl
    exact absurd hl (Nat.not_lt_zero l))).2⟩

/-! ## `SliceLayer::Reshape` -/

/-- A loop every iteration of which returns, returns; the invariant carries
what each iteration needs to return. -/
theorem forRange_returns {σ ε : Type} (I : Nat → σ → Prop) (n : Nat)
    (body : Nat → σ → Except ε σ) (s : σ) (h0 : I 0 s)
    (hstep : ∀ i t, i < n → I i t → ∃ t', body i t = .ok t' ∧ I (i + 1) t') :
    ∃ s', forRange n body s = .ok s' ∧ I n s' := by
  induction n with
  | zero => exact ⟨s, rfl, h0⟩
  | succ n ih =>
    obtain ⟨t, ht, hI⟩ := ih (fun i t hi => hstep i t (by omega))
    obtain ⟨t', ht', hI'⟩ := hstep n t (by omega) hI
    refine ⟨t', ?_, hI'⟩
    rw [forRange_succ, ht]
    exact ht'

theorem prod_take_drop_succ (l : List Int) (a : Nat) (h : a < l.length) :
    l.prod = (l.take a).prod * l.getD a 0 * (l.drop (a + 1)).prod := by
  have e : l = l.take a ++ l.getD a 0 :: l.drop (a + 1) := by
    rw [List.getD_eq_getElem _ _ h, List.getElem_cons_drop _ _ h, List.take_append_drop]
  conv_lhs => rw [e]
  rw [List.prod_append, List.prod_cons, mul_assoc]

theorem prod_set (l : List Int) (a : Nat) (e : Int) (h : a < l.length) :
    (l.set a e).prod = (l.take a).prod * e * (l.drop (a + 1)).prod := by
  rw [List.set_eq_take_append_cons_drop, if_pos h, List.prod_append, List.prod_cons, mul_assoc]

theorem Reshape_eq_ok (b b' : Blob) (shape : List Int) (h : b.Reshape shape = .ok b') :
    (∀ x, x ∈ shape → 0 ≤ x) ∧ b' = { b with shape_ := shape } := by
  unfold Blob.Reshape at h
  split at h
  · cases h
  · rename_i hany
    injection h with h
    refine ⟨?_, h.symm⟩
    intro x hx
    by_contra hneg
    apply hany
    rw [List.any_eq_true]
    exact ⟨x, hx, by simpa using hneg⟩

theorem sum_range_succ_map (f : Nat → Int) (i : Nat) :
    ((List.range (i + 1)).map f).sum = ((List.range i).map f).sum + f i := by
  rw [List.range_succ, List.map_append, List.sum_append]
  simp

/-- The loop of `Reshape` over the tops, when it returns: every top has the
shape of the bottom with its extent at the slice axis, no extent is negative,
and the counts add up to the product of the extents of the bottom before the
axis, the sum of the extents of the tops, and the product of the extents of
the bottom after the axis. -/
theorem tops_loop_ok (top_shape : List Int) (a : Int) (extent : Nat → Int) (top : List Blob)
    (ha : a.toNat < top_shape.length) (r : List Blob × Int)
    (h : SliceLayer.Reshape.tops top_shape a extent top = .ok r) :
    r.1.length = top.length ∧
    (∀ i, i < top.length → r.1.getD i default =
      { top.getD i default with shape_ := top_shape.set a.toNat (extent i) }) ∧
    (∀ i, i < top.length → 0 ≤ extent i) ∧
    r.2 = (top_shape.take a.toNat).prod * ((List.range top.length).map extent).sum *
      (top_shape.drop (a.toNat + 1)).prod := by
  unfold SliceLayer.Reshape.tops at h
  have key := forRange_induction
    (fun (i : Nat) (s : List Blob × Int) => s.1.length = top.length ∧
      (∀ j, j < i → s.1.getD j default =
        { top.getD j default with shape_ := top_shape.set a.toNat (extent j) }) ∧
      (∀ j, i ≤ j → s.1.getD j default = top.getD j default) ∧
      (∀ j, j < i → 0 ≤ extent j) ∧
      s.2 = (top_shape.take a.toNat).prod * ((List.range i).map extent).sum *
        (top_shape.drop (a.toNat + 1)).prod)
    _ _ _ _ ?_ ?_ h
  · exact ⟨key.1, key.2.1, key.2.2.2.1, key.2.2.2.2⟩
  · refine ⟨rfl, fun j hj => absurd hj (Nat.not_lt_zero _), fun _ _ => rfl,
      fun j hj => absurd hj (Nat.not_lt_zero _), ?_⟩
    simp
  · intro i s s' hi hs hstep
    obtain ⟨s1, s2, s3, s4, s5⟩ := hs
    obtain ⟨b, hb, hstep⟩ := Except.bind_eq_ok hstep
    injection hstep with hstep
    subst hstep
    obtain ⟨hnn, hb'⟩ := Reshape_eq_ok _ _ _ hb
    rw [s3 i (Nat.le_refl _)] at hb'
    have hei : 0 ≤ extent i := by
      apply hnn
      rw [List.mem_iff_getElem]
      exact ⟨a.toNat, by rw [List.length_set]; exact ha, by rw [List.getElem_set_self]⟩
    have hget : ∀ j, (s.1.set i b).getD j default = if j = i then b else s.1.getD j default := by
      intro j
      rw [List.getD_eq_getElem?_getD, List.getElem?_set]
      by_cases hji : i = j
      · subst hji
        rw [if_pos rfl, if_pos (by rw [s1]; exact hi), if_pos rfl]
        rfl
      · rw [if_neg hji, if_neg (fun e => hji e.symm), ← List.getD_eq_getElem?_getD]
    refine ⟨by rw [List.length_set]; exact s1, ?_, ?_, ?_, ?_⟩
    · intro j hj
      show (s.1.set i b).getD j default = _
      rw [hget]
      by_cases hji : j = i
      · rw [if_pos hji, hb', hji]
      · rw [if_neg hji]
        exact s2 j (by omega)
    · intro j hj
      show (s.1.set i b).getD j default = _
      rw [hget, if_neg (by omega)]
      exact s3 j (by omega)
    · intro j hj
      by_cases hji : j = i
      · rw [hji]
        exact hei
      · exact s4 j (by omega)
    · show s.2 + b.count = _
      rw [s5, sum_range_succ_map, hb']
      show _ + (top_shape.set a.toNat (extent i)).prod = _
      rw [prod_set _ _ _ ha]
      ring

/-- The loop of `Reshape` over the slice points, when it returns: every slice
point is above the one before it (the first above 0), the slices are the
differences of consecutive slice points, the last one what is left of the
extent of the bottom, and they add up to that extent. -/
theorem slices_ok (p : List Int) (B : Int) (slices : List Int)
    (h : SliceLayer.Reshape.slices p B = .ok slices) :
    (∀ i, i < p.length → ((0 : Int) :: p).getD i 0 < p.getD i 0) ∧
    slices.length = p.length + 1 ∧
    (∀ i, i < p.length + 1 →
      slices.getD i 0 = (p ++ [B]).getD i 0 - ((0 : Int) :: p).getD i 0) ∧
    slices.sum = B := by
  unfold SliceLayer.Reshape.slices at h
  obtain ⟨s, hs, h⟩ := Except.bind_eq_ok h
  injection h with h
  have key := forRange_induction
    (fun (i : Nat) (s : Int × List Int) => s.1 = ((0 : Int) :: p).getD i 0 ∧ s.2.length = i ∧
      (∀ j, j < i → s.2.getD j 0 = p.getD j 0 - ((0 : Int) :: p).getD j 0 ∧
        ((0 : Int) :: p).getD j 0 < p.getD j 0) ∧
      s.2.sum = s.1)
    _ _ _ _ ?_ ?_ hs
  · obtain ⟨k1, k2, k3, k4⟩ := key
    subst h
    refine ⟨fun i hi => (k3 i hi).2, by rw [List.length_append, k2]; rfl, ?_, ?_⟩
    · intro i hi
      by_cases hik : i = p.length
      · subst hik
        rw [getD_append_len _ _ _ _ k2, getD_append_len _ _ _ _ rfl, k1]
      · have hlt : i < p.length := by omega
        rw [getD_append_lt _ _ _ _ (by rw [k2]; exact hlt), getD_append_lt _ _ _ _ hlt]
        exact (k3 i hlt).1
    · rw [List.sum_append, k4]
      simp
  · exact ⟨rfl, rfl, fun j hj => absurd hj (Nat.not_lt_zero _), rfl⟩
  · intro i t t' hi ht hstep
    obtain ⟨t1, t2, t3, t4⟩ := ht
    split at hstep
    · cases hstep
    · rename_i hgt
      have hgt' : p.getD i 0 > t.1 := by
        by_contra hc
        exact hgt hc
      injection hstep with hstep
      subst hstep
      refine ⟨rfl, by rw [List.length_append, t2]; rfl, ?_, ?_⟩
      · intro j hj
        show (t.2 ++ [p.getD i 0 - t.1]).getD j 0 = _ ∧ _
        by_cases hji : j = i
        · subst hji
          rw [getD_append_len _ _ _ _ t2, t1]
          exact ⟨rfl, by rw [← t1]; exact hgt'⟩
        · have hlt : j < i := by omega
          rw [getD_append_lt _ _ _ _ (by rw [t2]; exact hlt)]
          exact t3 j hlt
      · show (t.2 ++ [p.getD i 0 - t.1]).sum = p.getD i 0
        rw [List.sum_append, t4]
        simp

/-- The loop of `Reshape` over the slice points returns when every slice
point is above the one before it, the first above 0. -/
theorem slices_returns (p : List Int) (B : Int)
    (h : ∀ i, i < p.length → ((0 : Int) :: p).getD i 0 < p.getD i 0) :
    ∃ slices, SliceLayer.Reshape.slices p B = .ok slices := by
  unfold SliceLayer.Reshape.slices
  obtain ⟨s, hs, _⟩ := forRange_returns
    (fun (i : Nat) (s : Int × List Int) => s.1 = ((0 : Int) :: p).getD i 0)
    p.length
    (fun i (s : Int × List Int) =>
      if ¬ (p.getD i 0 > s.1) then .error Fatal.check_gt_slice_point_prev
      else .ok (p.getD i 0, s.2 ++ [p.getD i 0 - s.1]))
    (0, []) rfl (by
      intro i t hi ht
      refine ⟨(p.getD i 0, t.2 ++ [p.getD i 0 - t.1]), ?_, rfl⟩
      dsimp only
      rw [if_neg]
      intro hc
      apply hc
      rw [ht]
      exact h i hi)
  rw [hs]
  exact ⟨_, rfl⟩

theorem to_size_t_natCast (n : Nat) (h : n < 2 ^ 64) : to_size_t (n : Int) = n := by
  unfold to_size_t
  have e : ((n : Int) % 2 ^ 64) = (n : Int) := by
    apply Int.emod_eq_of_lt (Int.ofNat_nonneg _)
    exact_mod_cast h
  rw [e]
  rfl

theorem range_map_getD (l : List Int) :
    (List.range l.length).map (fun i => l.getD i 0) = l := by
  apply List.ext_getElem
  · simp
  · intro i h1 h2
    simp [List.getD_eq_getElem?_getD, List.getElem?_eq_getElem h2]

theorem sum_map_congr (n : Nat) (f g : Nat → Int) (h : ∀ i, i < n → f i = g i) :
    ((List.range n).map f).sum = ((List.range n).map g).sum := by
  congr 1
  apply List.map_congr_left
  intro i hi
  exact h i (List.mem_range.1 hi)

theorem sum_map_const (n : Nat) (c : Int) :
    ((List.range n).map (fun _ => c)).sum = (n : Int) * c := by
  induction n with
  | zero => simp
  | succ n ih =>
    rw [sum_range_succ_map, ih]
    push_cast
    ring

/-- The product of the extents of a blob splits at an axis. -/
theorem count_split (b : Blob) (a : Int) (h0 : 0 ≤ a) (h1 : a < b.num_axes) :
    b.count = (b.shape_.take a.toNat).prod * b.shape_at a * (b.shape_.drop (a.toNat + 1)).prod ∧
      a.toNat < b.shape_.length := by
  have hlt : a.toNat < b.shape_.length := by
    unfold Blob.num_axes at h1
    omega
  exact ⟨prod_take_drop_succ _ _ hlt, hlt⟩

/-- The extents the specification gives the tops add up to the extent of the
bottom when its requirements are met. -/
theorem spec_extent_sum (p : List Int) (B T : Nat) (hT : 0 < T)
    (h : SliceLayer.spec_requires p B T) :
    ((List.range T).map (SliceLayer.spec_extent p B T)).sum = (B : Int) := by
  unfold SliceLayer.spec_requires at h
  by_cases hp : p = []
  · rw [if_pos hp] at h
    have e : SliceLayer.spec_extent p B T = fun _ => ((B / T : Nat) : Int) := by
      funext i
      unfold SliceLayer.spec_extent
      rw [if_pos hp]
    rw [e, sum_map_const]
    have hd : T * (B / T) = B := Nat.mul_div_cancel' (Nat.dvd_of_mod_eq_zero h)
    exact_mod_cast hd
  · rw [if_neg hp] at h
    obtain ⟨h1, _, _⟩ := h
    have hk : p.length ≠ 0 := fun e => hp (List.eq_nil_of_length_eq_zero e)
    have hT' : T = p.length + 1 := by omega
    have e : ∀ i, i < T → SliceLayer.spec_extent p B T i =
        (p ++ [(B : Int)]).getD i 0 - ((0 : Int) :: p).getD i 0 := by
      intro i _
      unfold SliceLayer.spec_extent
      rw [if_neg hp]
    rw [sum_map_congr _ _ _ e, hT']
    clear e h1 hT' hT hk hp
    have key : ∀ n, n ≤ p.length →
        ((List.range n).map (fun i => (p ++ [(B : Int)]).getD i 0 -
          ((0 : Int) :: p).getD i 0)).sum = ((0 : Int) :: p).getD n 0 := by
      intro n
      induction n with
      | zero => intro _; simp
      | succ n ih =>
        intro hn
        rw [sum_range_succ_map, ih (by omega), getD_append_lt _ _ _ _ (by omega)]
        rw [List.getD_cons_succ]
        ring
    rw [sum_range_succ_map, key p.length (Nat.le_refl _), getD_append_len _ _ _ _ rfl]
    ring

/-- The checks of `Reshape` on the slice points and the number of tops
(lines 42-67), whatever is done with the extents `X`: they pass exactly
under the requirements of the specification, and the extents handed on are
those of the specification. -/
theorem reshape_block {α : Type} (p : List Int) (B T : Nat) (hB64 : B < 2 ^ 64)
    (hT0 : 0 < T) (hT64 : T < 2 ^ 64) (X : (Nat → Int) → Except Fatal α) :
    (∀ r,
      (if p.length ≠ 0 then
        if p.length ≠ to_size_t ((T : Int) - 1) then
          .error .check_eq_slice_point_size_top_size
        else if ¬ (T ≤ to_size_t (B : Int)) then
          .error .check_le_top_size_bottom_slice_axis
        else
          (SliceLayer.Reshape.slices p (B : Int)).bind fun slices =>
          X (fun i => slices.getD i 0)
      else
        if to_size_t (B : Int) % T ≠ 0 then
          .error .top_blobs_should_evenly_divide
        else
          X (fun _ => ((to_size_t (B : Int) / T : Nat) : Int))) = .ok r →
      SliceLayer.spec_requires p B T ∧
        ∃ f, (∀ i, i < T → f i = SliceLayer.spec_extent p B T i) ∧ X f = .ok r) ∧
    (SliceLayer.spec_requires p B T →
      ∃ f, (∀ i, i < T → f i = SliceLayer.spec_extent p B T i) ∧
        (if p.length ≠ 0 then
          if p.length ≠ to_size_t ((T : Int) - 1) then
            .error .check_eq_slice_point_size_top_size
          else if ¬ (T ≤ to_size_t (B : Int)) then
            .error .check_le_top_size_bottom_slice_axis
          else
            (SliceLayer.Reshape.slices p (B : Int)).bind fun slices =>
            X (fun i => slices.getD i 0)
        else
          if to_size_t (B : Int) % T ≠ 0 then
            .error .top_blobs_should_evenly_divide
          else
            X (fun _ => ((to_size_t (B : Int) / T : Nat) : Int))) = X f) := by
  have eB : to_size_t (B : Int) = B := to_size_t_natCast B hB64
  have eT : to_size_t ((T : Int) - 1) = T - 1 := by
    have e : ((T : Int) - 1) = ((T - 1 : Nat) : Int) := by omega
    rw [e]
    exact to_size_t_natCast _ (by omega)
  rw [eB, eT]
  by_cases hp : p = []
  · have hk : ¬ p.length ≠ 0 := by simp [hp]
    rw [if_neg hk]
    constructor
    · intro r hr
      split at hr
      · cases hr
      · rename_i hmod
        have hmod : B % T = 0 := not_not.1 hmod
        refine ⟨?_, _, ?_, hr⟩
        · unfold SliceLayer.spec_requires
          rw [if_pos hp]
          exact hmod
        · intro i _
          unfold SliceLayer.spec_extent
          rw [if_pos hp]
    · intro hreq
      unfold SliceLayer.spec_requires at hreq
      rw [if_pos hp] at hreq
      refine ⟨fun _ => ((B / T : Nat) : Int), ?_, ?_⟩
      · intro i _
        unfold SliceLayer.spec_extent
        rw [if_pos hp]
      · rw [if_neg (not_not.2 hreq)]
  · have hk : p.length ≠ 0 := fun e => hp (List.eq_nil_of_length_eq_zero e)
    rw [if_pos hk]
    constructor
    · intro r hr
      split at hr
      · cases hr
      · rename_i h1
        have h1 : p.length = T - 1 := not_not.1 h1
        split at hr
        · cases hr
        · rename_i h2
          have h2 : T ≤ B := not_not.1 h2
          obtain ⟨slices, hs, hr⟩ := Except.bind_eq_ok hr
          obtain ⟨hinc, _, hget, _⟩ := slices_ok p B slices hs
          refine ⟨?_, _, ?_, hr⟩
          · unfold SliceLayer.spec_requires
            rw [if_neg hp]
            exact ⟨h1, h2, hinc⟩
          · intro i hi
            unfold SliceLayer.spec_extent
            rw [if_neg hp]
            exact hget i (by omega)
    · intro hreq
      unfold SliceLayer.spec_requires at hreq
      rw [if_neg hp] at hreq
      obtain ⟨h1, h2, hinc⟩ := hreq
      obtain ⟨slices, hs⟩ := slices_returns p B hinc
      obtain ⟨_, _, hget, _⟩ := slices_ok p B slices hs
      refine ⟨fun i => slices.getD i 0, ?_, ?_⟩
      · intro i hi
        unfold SliceLayer.spec_extent
        rw [if_neg hp]
        exact hget i (by omega)
      · rw [if_neg (not_not.2 h1), if_neg (not_not.2 h2), hs]
        rfl

/-- What `Reshape` leaves when its checks on the slice points pass and the
loop over the tops returns: the count check passes, and the tops have the
shapes of the specification. -/
theorem reshape_finish (layer1 : SliceLayer) (bottom0 : Blob) (top : List Blob) (a : Int)
    (B : Nat) (E f : Nat → Int) (ha0 : 0 ≤ a) (ha1 : a < bottom0.num_axes)
    (hB : bottom0.shape_at a = (B : Int))
    (hsum : ((List.range top.length).map E).sum = (B : Int))
    (hf : ∀ i, i < top.length → f i = E i) (r0 : List Blob × Int)
    (hX : SliceLayer.Reshape.tops bottom0.shape_ a f top = .ok r0) :
    ∃ r, (if r0.2 ≠ bottom0.count then .error .check_eq_count_bottom_count
      else if top.length = 1 then
        ((r0.1.getD 0 default).ShareData bottom0).bind fun shared =>
        (shared.ShareDiff bottom0).bind fun shared =>
        .ok (layer1, r0.1.set 0 shared)
      else .ok (layer1, r0.1)) = Except.ok r ∧
      r.1 = layer1 ∧ r.2.length = top.length ∧
      (∀ i, i < top.length → (r.2.getD i default).shape_ = bottom0.shape_.set a.toNat (E i)) ∧
      (∀ i, i < top.length → 0 ≤ E i) := by
  obtain ⟨hcnt, halt⟩ := count_split bottom0 a ha0 ha1
  obtain ⟨hlen, hshape, hnn, hcount⟩ := tops_loop_ok _ a f top halt r0 hX
  have hr02 : r0.2 = bottom0.count := by
    rw [hcount, hcnt, sum_map_congr _ _ _ hf, hsum, hB]
  have hnnE : ∀ i, i < top.length → 0 ≤ E i := by
    intro i hi
    rw [← hf i hi]
    exact hnn i hi
  rw [if_neg (not_not.2 hr02)]
  by_cases hT : top.length = 1
  · rw [if_pos hT]
    have h0 : r0.1.getD 0 default =
        { top.getD 0 default with shape_ := bottom0.shape_.set a.toNat (f 0) } :=
      hshape 0 (by omega)
    have hc0 : (r0.1.getD 0 default).count = bottom0.count := by
      rw [← hr02, hcount, h0]
      show (bottom0.shape_.set a.toNat (f 0)).prod = _
      rw [prod_set _ _ _ halt, hT]
      have e1 : ((List.range 1).map f).sum = f 0 := by
        rw [sum_range_succ_map f 0]
        exact zero_add _
      rw [e1]
    refine ⟨(layer1, r0.1.set 0
      { r0.1.getD 0 default with data_ := bottom0.data_, diff_ := bottom0.diff_ }), ?_, rfl, ?_,
      ?_, hnnE⟩
    · unfold Blob.ShareData
      rw [if_neg (not_not.2 hc0)]
      show (Blob.ShareDiff _ bottom0).bind _ = _
      unfold Blob.ShareDiff
      have hc1 : Blob.count { r0.1.getD 0 default with data_ := bottom0.data_ } =
          bottom0.count := hc0
      rw [if_neg (not_not.2 hc1)]
      rfl
    · show (r0.1.set 0 _).length = _
      rw [List.length_set, hlen]
    · intro i hi
      have hi0 : i = 0 := by omega
      subst hi0
      show ((r0.1.set 0 _).getD 0 default).shape_ = _
      rw [List.getD_eq_getElem _ _ (by rw [List.length_set, hlen]; exact hi),
        List.getElem_set_self]
      show (r0.1.getD 0 default).shape_ = _
      rw [h0, ← hf 0 hi]
  · rw [if_neg hT]
    refine ⟨(layer1, r0.1), rfl, rfl, hlen, ?_, hnnE⟩
    intro i hi
    show (r0.1.getD i default).shape_ = _
    rw [hshape i hi, ← hf i hi]

/-- The length of an array is kept by a copy into it that stays within both
arrays. -/
theorem length_caffe_cpu_copy_at (N : Nat) (X : List Dtype) (x_offset : Nat) (Y : List Dtype)
    (y_offset : Nat) (hX : x_offset + N ≤ X.length) (hY : y_offset + N ≤ Y.length) :
    (caffe_cpu_copy_at N X x_offset Y y_offset).length = Y.length := by
  unfold caffe_cpu_copy_at caffe_cpu_copy
  simp only [List.length_append, List.length_take, List.length_drop]
  omega

/-- The entries of an array after a copy into it that stays within both
arrays: the entries copied between `y_offset` and `y_offset + N`, the old
entries elsewhere. -/
theorem getD_caffe_cpu_copy_at (N : Nat) (X : List Dtype) (x_offset : Nat) (Y : List Dtype)
    (y_offset : Nat) (j : Nat) (hX : x_offset + N ≤ X.length) (hY : y_offset + N ≤ Y.length) :
    (caffe_cpu_copy_at N X x_offset Y y_offset).getD j 0 =
      if y_offset ≤ j ∧ j < y_offset + N then X.getD (x_offset + (j - y_offset)) 0
      else Y.getD j 0 := by
  unfold caffe_cpu_copy_at caffe_cpu_copy
  simp only [List.getD_eq_getElem?_getD]
  by_cases h1 : j < y_offset
  · rw [List.getElem?_append_left (by simp; omega), if_neg (by omega), List.getElem?_take_of_lt h1]
  · rw [List.getElem?_append_right (by simp; omega)]
    have e1 : (List.take y_offset Y).length = y_offset := by simp; omega
    rw [e1]
    by_cases h2 : j < y_offset + N
    · rw [if_pos ⟨by omega, h2⟩, List.getElem?_append_left (by simp; omega),
        List.getElem?_take_of_lt (by omega), List.getElem?_drop]
    · rw [if_neg (by omega), List.getElem?_append_right (by simp; omega)]
      have e2 : (List.take N (List.drop x_offset X)).length = N := by simp; omega
      rw [e2, List.getElem?_drop, List.getElem?_drop]
      congr 2
      omega

theorem offset_succ (T : Nat → Nat) (i : Nat) :
    SliceLayer.offset T (i + 1) = SliceLayer.offset T i + T i := by
  unfold SliceLayer.offset
  rw [List.range_succ, List.map_append, List.sum_append]
  simp

theorem offset_mono (T : Nat → Nat) (i j : Nat) (h : i ≤ j) :
    SliceLayer.offset T i ≤ SliceLayer.offset T j := by
  induction j with
  | zero =>
    have : i = 0 := by omega
    subst this
    exact Nat.le_refl _
  | succ j ih =>
    by_cases hij : i = j + 1
    · subst hij
      exact Nat.le_refl _
    · have := ih (by omega)
      rw [offset_succ]
      omega

/-- Every position below the sum of the extents lies in the range of exactly
one top. -/
theorem offset_find (T : Nat → Nat) (L v : Nat) (h : v < SliceLayer.offset T L) :
    ∃ i, i < L ∧ SliceLayer.offset T i ≤ v ∧ v < SliceLayer.offset T i + T i := by
  induction L with
  | zero =>
    unfold SliceLayer.offset at h
    simp at h
  | succ L ih =>
    by_cases hv : v < SliceLayer.offset T L
    · obtain ⟨i, hi, h1, h2⟩ := ih hv
      exact ⟨i, by omega, h1, h2⟩
    · rw [offset_succ] at h
      exact ⟨L, by omega, by omega, h⟩

theorem offset_unique (T : Nat → Nat) (i j v : Nat)
    (hi1 : SliceLayer.offset T i ≤ v) (hi2 : v < SliceLayer.offset T i + T i)
    (hj1 : SliceLayer.offset T j ≤ v) (hj2 : v < SliceLayer.offset T j + T j) : i = j := by
  by_contra hne
  rcases Nat.lt_or_gt_of_ne hne with h | h
  · have := offset_mono T (i + 1) j h
    rw [offset_succ] at this
    omega
  · have := offset_mono T (j + 1) i h
    rw [offset_succ] at this
    omega

/-- The positions of the bottom the loops touch, when the extents of the tops
sum to the extent of the bottom: every position below `N * B * S` is
`(n * B + off_i + k) * S + s` for exactly one top `i`, outer index `n < N`,
`k < T_i` and `s < S`. -/
theorem slice_positions (T : Nat → Nat) (L N B S : Nat)
    (hsum : SliceLayer.offset T L = B) (q : Nat) (hq : q < N * B * S) :
    ∃ i n k s, (i < L ∧ n < N ∧ k < T i ∧ s < S ∧
        q = (n * B + SliceLayer.offset T i + k) * S + s) ∧
      ∀ i' n' k' s', i' < L → n' < N → k' < T i' → s' < S →
        q = (n' * B + SliceLayer.offset T i' + k') * S + s' →
        i' = i ∧ n' = n ∧ k' = k ∧ s' = s := by
  have hS : 0 < S := by
    rcases Nat.eq_zero_or_pos S with h | h
    · subst h
      simp at hq
    · exact h
  have hB : 0 < B := by
    rcases Nat.eq_zero_or_pos B with h | h
    · subst h
      simp at hq
    · exact h
  have hu : q / S < N * B := by
    rw [Nat.div_lt_iff_lt_mul hS]
    exact hq
  have hn : q / S / B < N := by
    rw [Nat.div_lt_iff_lt_mul hB]
    exact hu
  have hv : q / S % B < SliceLayer.offset T L := by
    rw [hsum]
    exact Nat.mod_lt _ hB
  obtain ⟨i, hi, h1, h2⟩ := offset_find T L _ hv
  have key : ∀ i' n' k' s', i' < L → k' < T i' → s' < S →
      q = (n' * B + SliceLayer.offset T i' + k') * S + s' →
      q % S = s' ∧ q / S / B = n' ∧ q / S % B = SliceLayer.offset T i' + k' := by
    intro i' n' k' s' hi' hk' hs' e
    have hle : SliceLayer.offset T i' + k' < B := by
      have := offset_mono T (i' + 1) L hi'
      rw [offset_succ, hsum] at this
      omega
    have e1 : q % S = s' := by
      rw [e, Nat.add_comm, Nat.add_mul_mod_self_right, Nat.mod_eq_of_lt hs']
    have e2 : q / S = n' * B + SliceLayer.offset T i' + k' := by
      rw [e, Nat.add_comm, Nat.add_mul_div_right _ _ hS, Nat.div_eq_of_lt hs', Nat.zero_add]
    refine ⟨e1, ?_, ?_⟩
    · rw [e2, Nat.add_assoc, Nat.add_comm, Nat.add_mul_div_right _ _ hB,
        Nat.div_eq_of_lt hle, Nat.zero_add]
    · rw [e2, Nat.add_assoc, Nat.add_comm, Nat.add_mul_mod_self_right, Nat.mod_eq_of_lt hle]
  refine ⟨i, q / S / B, q / S % B - SliceLayer.offset T i, q % S,
    ⟨hi, hn, by omega, Nat.mod_lt _ hS, ?_⟩, ?_⟩
  · have e1 : q / S / B * B + SliceLayer.offset T i + (q / S % B - SliceLayer.offset T i) =
        q / S := by
      have := Nat.div_add_mod (q / S) B
      rw [Nat.mul_comm] at this
      omega
    rw [e1]
    have := Nat.div_add_mod q S
    rw [Nat.mul_comm] at this
    omega
  · intro i' n' k' s' hi' _ hk' hs' e
    obtain ⟨e1, e2, e3⟩ := key i' n' k' s' hi' hk' hs' e
    have hii : i' = i := offset_unique T i' i (q / S % B) (by omega) (by omega) h1 h2
    subst hii
    exact ⟨rfl, e2.symm, by omega, e1.symm⟩

/-- The loop of `Forward_cpu` over the outer index for one top, with the
offsets as natural numbers: it leaves the gradients and every other value
array alone, keeps the length of the top's array, and slab `n` of the top
holds the slab of the bottom at `(n * B + off) * S`. -/
theorem forward_inner (bottom0 top_i : Blob) (B Ti S off N : Nat) (mem : Memory)
    (hsep : top_i.data_ ≠ bottom0.data_)
    (hread : ∀ n, n < N → (n * B + off + Ti) * S ≤ (bottom0.cpu_data mem).length)
    (hwrite : N * Ti * S ≤ (top_i.cpu_data mem).length) :
    (forUp N (fun n mem =>
        top_i.set_cpu_data
          (caffe_cpu_copy_at (Ti * S) (bottom0.cpu_data mem) ((n * B + off) * S)
            (top_i.cpu_data mem) (n * Ti * S)) mem) mem).diff = mem.diff ∧
    (∀ h, h ≠ top_i.data_ →
      (forUp N (fun n mem =>
        top_i.set_cpu_data
          (caffe_cpu_copy_at (Ti * S) (bottom0.cpu_data mem) ((n * B + off) * S)
            (top_i.cpu_data mem) (n * Ti * S)) mem) mem).data h = mem.data h) ∧
    (top_i.cpu_data (forUp N (fun n mem =>
        top_i.set_cpu_data
          (caffe_cpu_copy_at (Ti * S) (bottom0.cpu_data mem) ((n * B + off) * S)
            (top_i.cpu_data mem) (n * Ti * S)) mem) mem)).length =
      (top_i.cpu_data mem).length ∧
    (∀ n r, n < N → r < Ti * S →
      (top_i.cpu_data (forUp N (fun n mem =>
        top_i.set_cpu_data
          (caffe_cpu_copy_at (Ti * S) (bottom0.cpu_data mem) ((n * B + off) * S)
            (top_i.cpu_data mem) (n * Ti * S)) mem) mem)).getD (n * Ti * S + r) 0 =
        (bottom0.cpu_data mem).getD ((n * B + off) * S + r) 0) := by
  have key := forUp_induction
    (fun (m : Nat) (s : Memory) => m ≤ N → (s.diff = mem.diff ∧
      (∀ h, h ≠ top_i.data_ → s.data h = mem.data h) ∧
      (top_i.cpu_data s).length = (top_i.cpu_data mem).length ∧
      (∀ n r, n < m → r < Ti * S →
        (top_i.cpu_data s).getD (n * Ti * S + r) 0 =
          (bottom0.cpu_data mem).getD ((n * B + off) * S + r) 0)))
    N
    (fun n mem =>
        top_i.set_cpu_data
          (caffe_cpu_copy_at (Ti * S) (bottom0.cpu_data mem) ((n * B + off) * S)
            (top_i.cpu_data mem) (n * Ti * S)) mem)
    mem
    (fun _ => ⟨rfl, fun _ _ => rfl, rfl, fun n r hn _ => absurd hn (Nat.not_lt_zero n)⟩)
    (by
      intro m s hm ih _
      obtain ⟨h1, h2, h3, h4⟩ := ih (by omega)
      have hb : bottom0.cpu_data s = bottom0.cpu_data mem := h2 _ (Ne.symm hsep)
      have hX : (m * B + off) * S + Ti * S ≤ (bottom0.cpu_data s).length := by
        rw [hb]
        have := hread m hm
        have e : (m * B + off) * S + Ti * S = (m * B + off + Ti) * S := by ring
        omega
      have hY : m * Ti * S + Ti * S ≤ (top_i.cpu_data s).length := by
        rw [h3]
        have e : m * Ti * S + Ti * S = (m + 1) * Ti * S := by ring
        have : (m + 1) * Ti * S ≤ N * Ti * S :=
          Nat.mul_le_mul_right _ (Nat.mul_le_mul_right _ (by omega))
        omega
      have hnew : top_i.cpu_data (top_i.set_cpu_data
          (caffe_cpu_copy_at (Ti * S) (bottom0.cpu_data s) ((m * B + off) * S)
            (top_i.cpu_data s) (m * Ti * S)) s) =
          caffe_cpu_copy_at (Ti * S) (bottom0.cpu_data s) ((m * B + off) * S)
            (top_i.cpu_data s) (m * Ti * S) := by
        unfold Blob.set_cpu_data
        show (if top_i.data_ = top_i.data_ then _ else _) = _
        rw [if_pos rfl]
      refine ⟨h1, ?_, ?_, ?_⟩
      · intro h hh
        show (if h = top_i.data_ then _ else s.data h) = _
        rw [if_neg hh]
        exact h2 h hh
      · rw [hnew, length_caffe_cpu_copy_at _ _ _ _ _ hX hY, h3]
      · intro n r hn hr
        rw [hnew, getD_caffe_cpu_copy_at _ _ _ _ _ _ hX hY]
        by_cases hnm : n < m
        · have hlt : n * Ti * S + r < m * Ti * S := by
            have : (n + 1) * Ti * S ≤ m * Ti * S :=
              Nat.mul_le_mul_right _ (Nat.mul_le_mul_right _ (by omega))
            have e : (n + 1) * Ti * S = n * Ti * S + Ti * S := by ring
            omega
          rw [if_neg (by omega)]
          exact h4 n r hnm hr
        · have e : n = m := by omega
          subst e
          rw [if_pos ⟨by omega, by omega⟩, hb]
          congr 2
          omega)
  exact key (Nat.le_refl _)

theorem toNat_mul3 (a b c : Nat) : ((a : Int) * (b : Int) * (c : Int)).toNat = a * b * c := by
  have e : ((a : Int) * (b : Int) * (c : Int)) = ((a * b * c : Nat) : Int) := by push_cast; ring
  rw [e, Int.toNat_ofNat]

theorem toNat_mul2 (a b : Nat) : ((a : Int) * (b : Int)).toNat = a * b := by
  have e : ((a : Int) * (b : Int)) = ((a * b : Nat) : Int) := by push_cast; ring
  rw [e, Int.toNat_ofNat]

theorem toNat_offset (n B off S : Nat) :
    (((n : Int) * (B : Int) + (off : Int)) * (S : Int)).toNat = (n * B + off) * S := by
  have e : (((n : Int) * (B : Int) + (off : Int)) * (S : Int)) =
      (((n * B + off) * S : Nat) : Int) := by push_cast; ring
  rw [e, Int.toNat_ofNat]

/-- What `Forward_cpu` leaves with other than one top, for tops whose value
arrays are pairwise distinct and distinct from the bottom's and hold every
position the loops touch: the gradients and every array that is not a top's
are as before, and slab `n` of top `i` holds the slab of the bottom at
`(n * B + off_i) * S`. -/
theorem forward_spec (layer : SliceLayer) (bottom top : List Blob) (mem : Memory)
    (B N S : Nat) (T : Nat → Nat) (hL : top.length ≠ 1)
    (hB : (bottom.getD 0 default).shape_at layer.slice_axis_ = (B : Int))
    (hT : ∀ i, i < top.length →
      (top.getD i default).shape_at layer.slice_axis_ = (T i : Int))
    (hS : layer.slice_size_ = (S : Int)) (hN : layer.num_slices_ = (N : Int))
    (hsep_b : ∀ i, i < top.length →
      (top.getD i default).data_ ≠ (bottom.getD 0 default).data_)
    (hsep_t : ∀ i j, i < top.length → j < top.length → i ≠ j →
      (top.getD i default).data_ ≠ (top.getD j default).data_)
    (hread : ∀ i n, i < top.length → n < N →
      (n * B + SliceLayer.offset T i + T i) * S ≤ ((bottom.getD 0 default).cpu_data mem).length)
    (hwrite : ∀ i, i < top.length →
      N * T i * S ≤ ((top.getD i default).cpu_data mem).length) :
    (SliceLayer.Forward_cpu layer bottom top mem).diff = mem.diff ∧
    (∀ h, (∀ i, i < top.length → h ≠ (top.getD i default).data_) →
      (SliceLayer.Forward_cpu layer bottom top mem).data h = mem.data h) ∧
    (∀ i, i < top.length →
      ((top.getD i default).cpu_data (SliceLayer.Forward_cpu layer bottom top mem)).length =
        ((top.getD i default).cpu_data mem).length ∧
      ∀ n r, n < N → r < T i * S →
        ((top.getD i default).cpu_data
          (SliceLayer.Forward_cpu layer bottom top mem)).getD (n * T i * S + r) 0 =
        ((bottom.getD 0 default).cpu_data mem).getD
          ((n * B + SliceLayer.offset T i) * S + r) 0) := by
  unfold SliceLayer.Forward_cpu
  rw [if_neg hL]
  have key := forUp_induction
    (fun (i : Nat) (s : Int × Memory) => i ≤ top.length →
      (s.1 = (SliceLayer.offset T i : Int) ∧ s.2.diff = mem.diff ∧
      (∀ h, (∀ j, j < i → h ≠ (top.getD j default).data_) → s.2.data h = mem.data h) ∧
      (∀ j, j < i →
        ((top.getD j default).cpu_data s.2).length = ((top.getD j default).cpu_data mem).length ∧
        ∀ n r, n < N → r < T j * S →
          ((top.getD j default).cpu_data s.2).getD (n * T j * S + r) 0 =
          ((bottom.getD 0 default).cpu_data mem).getD
            ((n * B + SliceLayer.offset T j) * S + r) 0)))
    top.length
    (fun i (s : Int × Memory) =>
      (s.1 + (top.getD i default).shape_at layer.slice_axis_,
        forUp layer.num_slices_.toNat
          (fun n mem =>
            (top.getD i default).set_cpu_data
              (caffe_cpu_copy_at
                ((top.getD i default).shape_at layer.slice_axis_ * layer.slice_size_).toNat
                ((bottom.getD 0 default).cpu_data mem)
                (((n : Int) * (bottom.getD 0 default).shape_at layer.slice_axis_ + s.1) *
                  layer.slice_size_).toNat
                ((top.getD i default).cpu_data mem)
                ((n : Int) * (top.getD i default).shape_at layer.slice_axis_ *
                  layer.slice_size_).toNat) mem)
          s.2))
    (0, mem)
    (fun _ => ⟨rfl, rfl, fun _ _ => rfl, fun j hj => absurd hj (Nat.not_lt_zero j)⟩)
    (by
      intro i s hi ih _
      obtain ⟨h1, h2, h3, h4⟩ := ih (by omega)
      have hbody : (fun (n : Nat) (mem : Memory) =>
            (top.getD i default).set_cpu_data
              (caffe_cpu_copy_at
                ((top.getD i default).shape_at layer.slice_axis_ * layer.slice_size_).toNat
                ((bottom.getD 0 default).cpu_data mem)
                (((n : Int) * (bottom.getD 0 default).shape_at layer.slice_axis_ + s.1) *
                  layer.slice_size_).toNat
                ((top.getD i default).cpu_data mem)
                ((n : Int) * (top.getD i default).shape_at layer.slice_axis_ *
                  layer.slice_size_).toNat) mem) =
          (fun (n : Nat) (mem : Memory) =>
            (top.getD i default).set_cpu_data
              (caffe_cpu_copy_at (T i * S) ((bottom.getD 0 default).cpu_data mem)
                ((n * B + SliceLayer.offset T i) * S)
                ((top.getD i default).cpu_data mem) (n * T i * S)) mem) := by
        funext n m
        rw [hT i hi, hS, hB, h1, toNat_mul2, toNat_mul3, toNat_offset]
      have hNn : layer.num_slices_.toNat = N := by
        rw [hN, Int.toNat_ofNat]
      have hdi : ∀ j, j < i → (top.getD i default).data_ ≠ (top.getD j default).data_ :=
        fun j hj => hsep_t i j hi (by omega) (by omega)
      have hti : (top.getD i default).cpu_data s.2 = (top.getD i default).cpu_data mem :=
        h3 _ hdi
      have hbi : (bottom.getD 0 default).cpu_data s.2 = (bottom.getD 0 default).cpu_data mem :=
        h3 _ (fun j hj => Ne.symm (hsep_b j (by omega)))
      obtain ⟨g1, g2, g3, g4⟩ := forward_inner (bottom.getD 0 default) (top.getD i default) B
        (T i) S (SliceLayer.offset T i) N s.2 (hsep_b i hi)
        (by rw [hbi]; exact fun n hn => hread i n hi hn) (by rw [hti]; exact hwrite i hi)
      show _ ∧ Memory.diff (forUp _ _ _) = _ ∧
        (∀ h, _ → Memory.data (forUp _ _ _) h = _) ∧
        ∀ j, j < i + 1 → (Blob.cpu_data _ (forUp _ _ _)).length = _ ∧
          ∀ n r, n < N → r < T j * S → (Blob.cpu_data _ (forUp _ _ _)).getD _ 0 = _
      rw [hbody, hNn]
      refine ⟨?_, g1.trans h2, ?_, ?_⟩
      · show s.1 + _ = _
        rw [h1, hT i hi, offset_succ]
        push_cast
        rfl
      · intro h hh
        rw [g2 h (hh i (by omega))]
        exact h3 h (fun j hj => hh j (by omega))
      · intro j hj
        by_cases hji : j < i
        · have hne : (top.getD j default).data_ ≠ (top.getD i default).data_ :=
            hsep_t j i (by omega) hi (by omega)
          have e : (top.getD j default).cpu_data (forUp N (fun n mem =>
              (top.getD i default).set_cpu_data
                (caffe_cpu_copy_at (T i * S) ((bottom.getD 0 default).cpu_data mem)
                  ((n * B + SliceLayer.offset T i) * S)
                  ((top.getD i default).cpu_data mem) (n * T i * S)) mem) s.2) =
              (top.getD j default).cpu_data s.2 := g2 _ hne
          rw [e]
          exact h4 j hji
        · have e : j = i := by omega
          subst e
          refine ⟨g3.trans (by rw [hti]), ?_⟩
          intro n r hn hr
          rw [g4 n r hn hr, hbi])
  obtain ⟨_, k2, k3, k4⟩ := key (Nat.le_refl _)
  exact ⟨k2, k3, k4⟩

theorem slab_lt (n N k K s S : Nat) (hn : n < N) (hk : k < K) (hs : s < S) :
    (n * K + k) * S + s < N * K * S := by
  have h1 : (n + 1) * K ≤ N * K := Nat.mul_le_mul_right _ (by omega)
  have h2 : n * K + k + 1 ≤ N * K := by
    have e : (n + 1) * K = n * K + K := by ring
    omega
  have h3 : (n * K + k + 1) * S ≤ N * K * S := Nat.mul_le_mul_right _ h2
  have e : (n * K + k + 1) * S = (n * K + k) * S + S := by ring
  omega

theorem slab_row (k K s S : Nat) (hk : k < K) (hs : s < S) : k * S + s < K * S := by
  have h := slab_lt 0 1 k K s S (by omega) hk hs
  simpa using h

/-- The layer and the tops of the examples are what `Reshape` leaves. -/
theorem slice_example_Reshape :
    SliceLayer.Reshape example_CanonicalAxisIndex (fun n => (n : Int)) slice_example
      [slice_bottom] slice_tops = .ok (slice_ready, slice_ready_tops) := by
  decide

/-- C39: `SliceLayer::Forward_cpu`. For a bottom of slice-axis extent `B`,
tops of slice-axis extents `T_i`, `N` slices of size `S`, tops whose value
arrays are pairwise distinct and distinct from the bottom's, and arrays that
hold every position the loops touch: with other than one top, for every top
`i`, `n < N`, `k < T_i` and `s < S`,
`top_i[(n * T_i + k) * S + s] = bottom[(n * B + off_i + k) * S + s]`, and
the bottom's values and gradient are not modified; when the `T_i` sum to `B`,
every position of the bottom is the source of exactly one `(i, n, k, s)`, and
all positions read and written are below the blobs' element counts. With
exactly one top the memory is left as it is. -/
theorem C39_slice_forward_copies (layer : SliceLayer) (bottom top : List Blob) (mem : Memory)
    (B N S : Nat) (T : Nat → Nat)
    (hB : (bottom.getD 0 default).shape_at layer.slice_axis_ = (B : Int))
    (hT : ∀ i, i < top.length →
      (top.getD i default).shape_at layer.slice_axis_ = (T i : Int))
    (hS : layer.slice_size_ = (S : Int)) (hN : layer.num_slices_ = (N : Int))
    (hcb : (bottom.getD 0 default).count = ((N * B * S : Nat) : Int))
    (hct : ∀ i, i < top.length → (top.getD i default).count = ((N * T i * S : Nat) : Int))
    (hsep_b : ∀ i, i < top.length →
      (top.getD i default).data_ ≠ (bottom.getD 0 default).data_)
    (hsep_t : ∀ i, i < top.length → ∀ j, j < top.length → i ≠ j →
      (top.getD i default).data_ ≠ (top.getD j default).data_)
    (hread : ∀ i, i < top.length → ∀ n, n < N →
      (n * B + SliceLayer.offset T i + T i) * S ≤ ((bottom.getD 0 default).cpu_data mem).length)
    (hwrite : ∀ i, i < top.length →
      N * T i * S ≤ ((top.getD i default).cpu_data mem).length) :
    (top.length ≠ 1 →
      (∀ i n k s, i < top.length → n < N → k < T i → s < S →
        ((top.getD i default).cpu_data
          (SliceLayer.Forward_cpu layer bottom top mem)).getD ((n * T i + k) * S + s) 0 =
        ((bottom.getD 0 default).cpu_data mem).getD
          ((n * B + SliceLayer.offset T i + k) * S + s) 0) ∧
      (bottom.getD 0 default).cpu_data (SliceLayer.Forward_cpu layer bottom top mem) =
        (bottom.getD 0 default).cpu_data mem ∧
      (bottom.getD 0 default).cpu_diff (SliceLayer.Forward_cpu layer bottom top mem) =
        (bottom.getD 0 default).cpu_diff mem ∧
      (SliceLayer.offset T top.length = B →
        (∀ q, q < N * B * S →
          ∃ i n k s, (i < top.length ∧ n < N ∧ k < T i ∧ s < S ∧
              q = (n * B + SliceLayer.offset T i + k) * S + s) ∧
            ∀ i' n' k' s', i' < top.length → n' < N → k' < T i' → s' < S →
              q = (n' * B + SliceLayer.offset T i' + k') * S + s' →
              i' = i ∧ n' = n ∧ k' = k ∧ s' = s) ∧
        ∀ i n k s, i < top.length → n < N → k < T i → s < S →
          ((((n * T i + k) * S + s : Nat) : Int) < (top.getD i default).count ∧
            (((n * B + SliceLayer.offset T i + k) * S + s : Nat) : Int) <
              (bottom.getD 0 default).count))) ∧
    (top.length = 1 → SliceLayer.Forward_cpu layer bottom top mem = mem) := by
  constructor
  · intro hL
    obtain ⟨f1, f2, f3⟩ := forward_spec layer bottom top mem B N S T hL hB hT hS hN hsep_b
      (fun i j hi hj hij => hsep_t i hi j hj hij) (fun i n hi hn => hread i hi n hn) hwrite
    refine ⟨?_, ?_, ?_, ?_⟩
    · intro i n k s hi hn hk hs
      have e1 : (n * T i + k) * S + s = n * T i * S + (k * S + s) := by ring
      have e2 : (n * B + SliceLayer.offset T i + k) * S + s =
          (n * B + SliceLayer.offset T i) * S + (k * S + s) := by ring
      rw [e1, e2]
      exact (f3 i hi).2 n (k * S + s) hn (slab_row k (T i) s S hk hs)
    · exact f2 _ (fun i hi => Ne.symm (hsep_b i hi))
    · show Memory.diff _ _ = Memory.diff _ _
      rw [f1]
    · intro hsum
      refine ⟨fun q hq => slice_positions T top.length N B S hsum q hq, ?_⟩
      intro i n k s hi hn hk hs
      rw [hct i hi, hcb]
      constructor
      · exact_mod_cast slab_lt n N k (T i) s S hn hk hs
      · have hle : SliceLayer.offset T i + k < B := by
          have := offset_mono T (i + 1) top.length hi
          rw [offset_succ, hsum] at this
          omega
        have := slab_lt n N (SliceLayer.offset T i + k) B s S hn hle hs
        rw [← Nat.add_assoc] at this
        exact_mod_cast this
  · intro hL
    unfold SliceLayer.Forward_cpu
    rw [if_pos hL]

/-- C39 on the bottom of shape 2 x 6 x 1 sliced into tops of extents 1, 2
and 3 along axis 1. -/
theorem C39_witness :
    (slice_ready_tops.length ≠ 1 →
      (∀ i n k s, i < slice_ready_tops.length → n < 2 → k < slice_extents i → s < 1 →
        ((slice_ready_tops.getD i default).cpu_data
          (SliceLayer.Forward_cpu slice_ready [slice_bottom] slice_ready_tops
            (slice_memory [] [] []))).getD ((n * slice_extents i + k) * 1 + s) 0 =
        ((([slice_bottom] : List Blob).getD 0 default).cpu_data (slice_memory [] [] [])).getD
          ((n * 6 + SliceLayer.offset slice_extents i + k) * 1 + s) 0) ∧
      (([slice_bottom] : List Blob).getD 0 default).cpu_data
          (SliceLayer.Forward_cpu slice_ready [slice_bottom] slice_ready_tops
            (slice_memory [] [] [])) =
        (([slice_bottom] : List Blob).getD 0 default).cpu_data (slice_memory [] [] []) ∧
      (([slice_bottom] : List Blob).getD 0 default).cpu_diff
          (SliceLayer.Forward_cpu slice_ready [slice_bottom] slice_ready_tops
            (slice_memory [] [] [])) =
        (([slice_bottom] : List Blob).getD 0 default).cpu_diff (slice_memory [] [] []) ∧
      (SliceLayer.offset slice_extents slice_ready_tops.length = 6 →
        (∀ q, q < 2 * 6 * 1 →
          ∃ i n k s, (i < slice_ready_tops.length ∧ n < 2 ∧ k < slice_extents i ∧ s < 1 ∧
              q = (n * 6 + SliceLayer.offset slice_extents i + k) * 1 + s) ∧
            ∀ i' n' k' s', i' < slice_ready_tops.length → n' < 2 → k' < slice_extents i' →
              s' < 1 → q = (n' * 6 + SliceLayer.offset slice_extents i' + k') * 1 + s' →
              i' = i ∧ n' = n ∧ k' = k ∧ s' = s) ∧
        ∀ i n k s, i < slice_ready_tops.length → n < 2 → k < slice_extents i → s < 1 →
          ((((n * slice_extents i + k) * 1 + s : Nat) : Int) <
              (slice_ready_tops.getD i default).count ∧
            (((n * 6 + SliceLayer.offset slice_extents i + k) * 1 + s : Nat) : Int) <
              (([slice_bottom] : List Blob).getD 0 default).count))) ∧
    (slice_ready_tops.length = 1 →
      SliceLayer.Forward_cpu slice_ready [slice_bottom] slice_ready_tops
        (slice_memory [] [] []) = slice_memory [] [] []) :=
  C39_slice_forward_copies slice_ready [slice_bottom] slice_ready_tops (slice_memory [] [] [])
    6 2 1 slice_extents (by decide) (by decide) (by decide) (by decide) (by decide) (by decide)
    (by decide) (by decide) (by decide) (by decide)

/-! ## `SliceLayer::Backward_cpu` -/

/-- The loop of `Backward_cpu` over the outer index for one top, with the
offsets as natural numbers, when slab `n` of the top's gradient holds the
slab of an array `D` at `(n * B + off) * S`: it leaves the values and every
other gradient array alone, keeps the length of the bottom's gradient, and
the bottom's gradient agrees with `D` wherever it did and at every position
of the slabs. -/
theorem backward_inner (bottom0 top_i : Blob) (B Ti S off N : Nat) (mem : Memory)
    (D : List Dtype) (P : Nat → Prop)
    (hsep : top_i.diff_ ≠ bottom0.diff_)
    (hwrite : ∀ n, n < N → (n * B + off + Ti) * S ≤ (bottom0.cpu_diff mem).length)
    (hread : N * Ti * S ≤ (top_i.cpu_diff mem).length)
    (hg : ∀ n r, n < N → r < Ti * S →
      (top_i.cpu_diff mem).getD (n * Ti * S + r) 0 = D.getD ((n * B + off) * S + r) 0)
    (hP : ∀ q, P q → (bottom0.cpu_diff mem).getD q 0 = D.getD q 0) :
    (forUp N (fun n mem =>
        bottom0.set_cpu_diff
          (caffe_cpu_copy_at (Ti * S) (top_i.cpu_diff mem) (n * Ti * S)
            (bottom0.cpu_diff mem) ((n * B + off) * S)) mem) mem).data = mem.data ∧
    (∀ h, h ≠ bottom0.diff_ →
      (forUp N (fun n mem =>
        bottom0.set_cpu_diff
          (caffe_cpu_copy_at (Ti * S) (top_i.cpu_diff mem) (n * Ti * S)
            (bottom0.cpu_diff mem) ((n * B + off) * S)) mem) mem).diff h = mem.diff h) ∧
    (bottom0.cpu_diff (forUp N (fun n mem =>
        bottom0.set_cpu_diff
          (caffe_cpu_copy_at (Ti * S) (top_i.cpu_diff mem) (n * Ti * S)
            (bottom0.cpu_diff mem) ((n * B + off) * S)) mem) mem)).length =
      (bottom0.cpu_diff mem).length ∧
    (∀ q, (P q ∨ ∃ n r, n < N ∧ r < Ti * S ∧ q = (n * B + off) * S + r) →
      (bottom0.cpu_diff (forUp N (fun n mem =>
        bottom0.set_cpu_diff
          (caffe_cpu_copy_at (Ti * S) (top_i.cpu_diff mem) (n * Ti * S)
            (bottom0.cpu_diff mem) ((n * B + off) * S)) mem) mem)).getD q 0 = D.getD q 0) := by
  have key := forUp_induction
    (fun (m : Nat) (s : Memory) => m ≤ N → (s.data = mem.data ∧
      (∀ h, h ≠ bottom0.diff_ → s.diff h = mem.diff h) ∧
      (bottom0.cpu_diff s).length = (bottom0.cpu_diff mem).length ∧
      (∀ q, (P q ∨ ∃ n r, n < m ∧ r < Ti * S ∧ q = (n * B + off) * S + r) →
        (bottom0.cpu_diff s).getD q 0 = D.getD q 0)))
    N
    (fun n mem =>
        bottom0.set_cpu_diff
          (caffe_cpu_copy_at (Ti * S) (top_i.cpu_diff mem) (n * Ti * S)
            (bottom0.cpu_diff mem) ((n * B + off) * S)) mem)
    mem
    (fun _ => ⟨rfl, fun _ _ => rfl, rfl, fun q hq => by
      rcases hq with hq | ⟨n, _, hn, _⟩
      · exact hP q hq
      · exact absurd hn (Nat.not_lt_zero n)⟩)
    (by
      intro m s hm ih _
      obtain ⟨h1, h2, h3, h4⟩ := ih (by omega)
      have ht : top_i.cpu_diff s = top_i.cpu_diff mem := h2 _ hsep
      have hY : (m * B + off) * S + Ti * S ≤ (bottom0.cpu_diff s).length := by
        rw [h3]
        have := hwrite m hm
        have e : (m * B + off) * S + Ti * S = (m * B + off + Ti) * S := by ring
        omega
      have hX : m * Ti * S + Ti * S ≤ (top_i.cpu_diff s).length := by
        rw [ht]
        have e : m * Ti * S + Ti * S = (m + 1) * Ti * S := by ring
        have : (m + 1) * Ti * S ≤ N * Ti * S :=
          Nat.mul_le_mul_right _ (Nat.mul_le_mul_right _ (by omega))
        omega
      have hnew : bottom0.cpu_diff (bottom0.set_cpu_diff
          (caffe_cpu_copy_at (Ti * S) (top_i.cpu_diff s) (m * Ti * S)
            (bottom0.cpu_diff s) ((m * B + off) * S)) s) =
          caffe_cpu_copy_at (Ti * S) (top_i.cpu_diff s) (m * Ti * S)
            (bottom0.cpu_diff s) ((m * B + off) * S) := by
        unfold Blob.set_cpu_diff
        show (if bottom0.diff_ = bottom0.diff_ then _ else _) = _
        rw [if_pos rfl]
      refine ⟨h1, ?_, ?_, ?_⟩
      · intro h hh
        show (if h = bottom0.diff_ then _ else s.diff h) = _
        rw [if_neg hh]
        exact h2 h hh
      · rw [hnew, length_caffe_cpu_copy_at _ _ _ _ _ hX hY, h3]
      · intro q hq
        rw [hnew, getD_caffe_cpu_copy_at _ _ _ _ _ _ hX hY]
        by_cases hin : (m * B + off) * S ≤ q ∧ q < (m * B + off) * S + Ti * S
        · rw [if_pos hin, ht, hg m (q - (m * B + off) * S) hm (by omega)]
          congr 1
          omega
        · rw [if_neg hin]
          apply h4
          rcases hq with hq | ⟨n, r, hn, hr, e⟩
          · exact Or.inl hq
          · by_cases hnm : n < m
            · exact Or.inr ⟨n, r, hnm, hr, e⟩
            · have e' : n = m := by omega
              subst e'
              exact absurd ⟨by omega, by omega⟩ hin)
  exact key (Nat.le_refl _)

/-- What `Backward_cpu` leaves with the flag of the bottom set and other than
one top, for tops whose gradient arrays are distinct from the bottom's, when
the arrays hold every position the loops touch and slab `n` of the gradient
of top `i` holds the slab of an array `D` at `(n * B + off_i) * S`: the
values and every other gradient array are as before, and the bottom's
gradient agrees with `D` at every position of the slabs. -/
theorem backward_spec (layer : SliceLayer) (top : List Blob) (propagate_down : List Bool)
    (bottom : List Blob) (mem : Memory) (D : List Dtype)
    (B N S : Nat) (T : Nat → Nat) (hpd : propagate_down.getD 0 false = true)
    (hL : top.length ≠ 1)
    (hB : (bottom.getD 0 default).shape_at layer.slice_axis_ = (B : Int))
    (hT : ∀ i, i < top.length →
      (top.getD i default).shape_at layer.slice_axis_ = (T i : Int))
    (hS : layer.slice_size_ = (S : Int)) (hN : layer.num_slices_ = (N : Int))
    (hsep : ∀ i, i < top.length →
      (top.getD i default).diff_ ≠ (bottom.getD 0 default).diff_)
    (hwrite : ∀ i n, i < top.length → n < N →
      (n * B + SliceLayer.offset T i + T i) * S ≤ ((bottom.getD 0 default).cpu_diff mem).length)
    (hread : ∀ i, i < top.length →
      N * T i * S ≤ ((top.getD i default).cpu_diff mem).length)
    (hg : ∀ i n r, i < top.length → n < N → r < T i * S →
      ((top.getD i default).cpu_diff mem).getD (n * T i * S + r) 0 =
        D.getD ((n * B + SliceLayer.offset T i) * S + r) 0) :
    (SliceLayer.Backward_cpu layer top propagate_down bottom mem).data = mem.data ∧
    (∀ h, h ≠ (bottom.getD 0 default).diff_ →
      (SliceLayer.Backward_cpu layer top propagate_down bottom mem).diff h = mem.diff h) ∧
    ((bottom.getD 0 default).cpu_diff
        (SliceLayer.Backward_cpu layer top propagate_down bottom mem)).length =
      ((bottom.getD 0 default).cpu_diff mem).length ∧
    (∀ q, (∃ i n r, i < top.length ∧ n < N ∧ r < T i * S ∧
        q = (n * B + SliceLayer.offset T i) * S + r) →
      ((bottom.getD 0 default).cpu_diff
        (SliceLayer.Backward_cpu layer top propagate_down bottom mem)).getD q 0 =
        D.getD q 0) := by
  unfold SliceLayer.Backward_cpu
  have hcond : ¬ ((!(propagate_down.getD 0 false) || decide (top.length = 1)) = true) := by
    rw [hpd]
    simp [hL]
  rw [if_neg hcond]
  have key := forUp_induction
    (fun (i : Nat) (s : Int × Memory) => i ≤ top.length →
      (s.1 = (SliceLayer.offset T i : Int) ∧ s.2.data = mem.data ∧
      (∀ h, h ≠ (bottom.getD 0 default).diff_ → s.2.diff h = mem.diff h) ∧
      ((bottom.getD 0 default).cpu_diff s.2).length =
        ((bottom.getD 0 default).cpu_diff mem).length ∧
      (∀ q, (∃ j n r, j < i ∧ n < N ∧ r < T j * S ∧
          q = (n * B + SliceLayer.offset T j) * S + r) →
        ((bottom.getD 0 default).cpu_diff s.2).getD q 0 = D.getD q 0)))
    top.length
    (fun i (s : Int × Memory) =>
      (s.1 + (top.getD i default).shape_at layer.slice_axis_,
        forUp layer.num_slices_.toNat
          (fun n mem =>
            (bottom.getD 0 default).set_cpu_diff
              (caffe_cpu_copy_at
                ((top.getD i default).shape_at layer.slice_axis_ * layer.slice_size_).toNat
                ((top.getD i default).cpu_diff mem)
                ((n : Int) * (top.getD i default).shape_at layer.slice_axis_ *
                  layer.slice_size_).toNat
                ((bottom.getD 0 default).cpu_diff mem)
                (((n : Int) * (bottom.getD 0 default).shape_at layer.slice_axis_ + s.1) *
                  layer.slice_size_).toNat) mem)
          s.2))
    (0, mem)
    (fun _ => ⟨rfl, rfl, fun _ _ => rfl, rfl, fun q hq => by
      obtain ⟨j, _, _, hj, _⟩ := hq
      exact absurd hj (Nat.not_lt_zero j)⟩)
    (by
      intro i s hi ih _
      obtain ⟨h1, h2, h3, h4, h5⟩ := ih (by omega)
      have hbody : (fun (n : Nat) (mem : Memory) =>
            (bottom.getD 0 default).set_cpu_diff
              (caffe_cpu_copy_at
                ((top.getD i default).shape_at layer.slice_axis_ * layer.slice_size_).toNat
                ((top.getD i default).cpu_diff mem)
                ((n : Int) * (top.getD i default).shape_at layer.slice_axis_ *
                  layer.slice_size_).toNat
                ((bottom.getD 0 default).cpu_diff mem)
                (((n : Int) * (bottom.getD 0 default).shape_at layer.slice_axis_ + s.1) *
                  layer.slice_size_).toNat) mem) =
          (fun (n : Nat) (mem : Memory) =>
            (bottom.getD 0 default).set_cpu_diff
              (caffe_cpu_copy_at (T i * S) ((top.getD i default).cpu_diff mem) (n * T i * S)
                ((bottom.getD 0 default).cpu_diff mem)
                ((n * B + SliceLayer.offset T i) * S)) mem) := by
        funext n m
        rw [hT i hi, hS, hB, h1, toNat_mul2, toNat_mul3, toNat_offset]
      have hNn : layer.num_slices_.toNat = N := by
        rw [hN, Int.toNat_ofNat]
      have hti : (top.getD i default).cpu_diff s.2 = (top.getD i default).cpu_diff mem :=
        h3 _ (hsep i hi)
      obtain ⟨g1, g2, g3, g4⟩ := backward_inner (bottom.getD 0 default) (top.getD i default) B
        (T i) S (SliceLayer.offset T i) N s.2 D
        (fun q => ∃ j n r, j < i ∧ n < N ∧ r < T j * S ∧
          q = (n * B + SliceLayer.offset T j) * S + r)
        (hsep i hi)
        (by rw [h4]; exact fun n hn => hwrite i n hi hn) (by rw [hti]; exact hread i hi)
        (by rw [hti]; exact fun n r hn hr => hg i n r hi hn hr) h5
      show _ ∧ Memory.data (forUp _ _ _) = _ ∧
        (∀ h, _ → Memory.diff (forUp _ _ _) h = _) ∧
        (Blob.cpu_diff _ (forUp _ _ _)).length = _ ∧
        ∀ q, _ → (Blob.cpu_diff _ (forUp _ _ _)).getD q 0 = _
      rw [hbody, hNn]
      refine ⟨?_, g1.trans h2, ?_, g3.trans h4, ?_⟩
      · show s.1 + _ = _
        rw [h1, hT i hi, offset_succ]
        push_cast
        rfl
      · intro h hh
        rw [g2 h hh]
        exact h3 h hh
      · intro q hq
        apply g4
        obtain ⟨j, n, r, hj, hn, hr, e⟩ := hq
        by_cases hji : j < i
        · exact Or.inl ⟨j, n, r, hji, hn, hr, e⟩
        · have e' : j = i := by omega
          subst e'
          exact Or.inr ⟨n, r, hn, hr, e⟩)
  obtain ⟨_, k2, k3, k4, k5⟩ := key (Nat.le_refl _)
  exact ⟨k2, k3, k4, k5⟩

theorem take_eq_of_getD (X Y : List Dtype) (n : Nat) (hX : n ≤ X.length) (hY : n ≤ Y.length)
    (h : ∀ q, q < n → X.getD q 0 = Y.getD q 0) : X.take n = Y.take n := by
  apply List.ext_getElem
  · simp [hX, hY]
  · intro q h1 h2
    have hq : q < n := by
      rw [List.length_take] at h1
      omega
    have := h q hq
    rw [List.getD_eq_getElem _ _ (by omega), List.getD_eq_getElem _ _ (by omega)] at this
    simpa using this

theorem slab_le (n N k K S : Nat) (hn : n < N) (hk : k ≤ K) : (n * K + k) * S ≤ N * K * S := by
  have h1 : (n + 1) * K ≤ N * K := Nat.mul_le_mul_right _ (by omega)
  have e : (n + 1) * K = n * K + K := by ring
  exact Nat.mul_le_mul_right _ (by omega)

/-- C40: backward of `SliceLayer` inverts forward. For a bottom of slice-axis
extent `B`, tops of slice-axis extents `T_i` that sum to `B`, `N` slices of
size `S`, any memory `mem` before `Forward_cpu` and any memory `mem1` before
`Backward_cpu` in which the gradient of every top holds what `Forward_cpu`
wrote into its values (with arrays that are distinct where the layer writes
and hold the blobs' element counts): with other than one top and
`propagate_down[0]` set, after `Backward_cpu` the gradient of the bottom is,
on its element count, the bottom's values in `mem`, its length and the values
are as in `mem1`, and every position of the bottom's gradient is written for
exactly one `(i, n, k, s)`; with `propagate_down[0]` not set `Backward_cpu`
leaves the memory as it is. -/
theorem C40_slice_backward_inverts_forward (layer : SliceLayer) (bottom top : List Blob)
    (propagate_down : List Bool) (mem mem1 : Memory) (B N S : Nat) (T : Nat → Nat)
    (hB : (bottom.getD 0 default).shape_at layer.slice_axis_ = (B : Int))
    (hT : ∀ i, i < top.length →
      (top.getD i default).shape_at layer.slice_axis_ = (T i : Int))
    (hS : layer.slice_size_ = (S : Int)) (hN : layer.num_slices_ = (N : Int))
    (hcb : (bottom.getD 0 default).count = ((N * B * S : Nat) : Int))
    (hsum : SliceLayer.offset T top.length = B)
    (hsep_b : ∀ i, i < top.length →
      (top.getD i default).data_ ≠ (bottom.getD 0 default).data_)
    (hsep_t : ∀ i, i < top.length → ∀ j, j < top.length → i ≠ j →
      (top.getD i default).data_ ≠ (top.getD j default).data_)
    (hsep_d : ∀ i, i < top.length →
      (top.getD i default).diff_ ≠ (bottom.getD 0 default).diff_)
    (hlen_b : N * B * S ≤ ((bottom.getD 0 default).cpu_data mem).length)
    (hlen_t : ∀ i, i < top.length →
      N * T i * S ≤ ((top.getD i default).cpu_data mem).length)
    (hlen_bd : N * B * S ≤ ((bottom.getD 0 default).cpu_diff mem1).length)
    (hlen_td : ∀ i, i < top.length →
      N * T i * S ≤ ((top.getD i default).cpu_diff mem1).length)
    (hg : ∀ i, i < top.length → ∀ j, j < N * T i * S →
      ((top.getD i default).cpu_diff mem1).getD j 0 =
        ((top.getD i default).cpu_data (SliceLayer.Forward_cpu layer bottom top mem)).getD j 0) :
    (top.length ≠ 1 → propagate_down.getD 0 false = true →
      ((bottom.getD 0 default).cpu_diff
          (SliceLayer.Backward_cpu layer top propagate_down bottom mem1)).take
          (bottom.getD 0 default).count.toNat =
        ((bottom.getD 0 default).cpu_data mem).take (bottom.getD 0 default).count.toNat ∧
      ((bottom.getD 0 default).cpu_diff
          (SliceLayer.Backward_cpu layer top propagate_down bottom mem1)).length =
        ((bottom.getD 0 default).cpu_diff mem1).length ∧
      (SliceLayer.Backward_cpu layer top propagate_down bottom mem1).data = mem1.data ∧
      ∀ q, q < N * B * S →
        ∃ i n k s, (i < top.length ∧ n < N ∧ k < T i ∧ s < S ∧
            q = (n * B + SliceLayer.offset T i + k) * S + s) ∧
          ∀ i' n' k' s', i' < top.length → n' < N → k' < T i' → s' < S →
            q = (n' * B + SliceLayer.offset T i' + k') * S + s' →
            i' = i ∧ n' = n ∧ k' = k ∧ s' = s) ∧
    (propagate_down.getD 0 false = false →
      SliceLayer.Backward_cpu layer top propagate_down bottom mem1 = mem1) := by
  constructor
  · intro hL hpd
    have hrange : ∀ i n, i < top.length → n < N →
        (n * B + SliceLayer.offset T i + T i) * S ≤ N * B * S := by
      intro i n hi hn
      have h1 := offset_mono T (i + 1) top.length hi
      rw [offset_succ, hsum] at h1
      rw [Nat.add_assoc]
      exact slab_le n N _ B S hn h1
    obtain ⟨_, _, f3⟩ := forward_spec layer bottom top mem B N S T hL hB hT hS hN hsep_b
      (fun i j hi hj hij => hsep_t i hi j hj hij)
      (fun i n hi hn => Nat.le_trans (hrange i n hi hn) hlen_b) hlen_t
    obtain ⟨b1, _, b3, b4⟩ := backward_spec layer top propagate_down bottom mem1
      ((bottom.getD 0 default).cpu_data mem) B N S T hpd hL hB hT hS hN hsep_d
      (fun i n hi hn => Nat.le_trans (hrange i n hi hn) hlen_bd) hlen_td
      (by
        intro i n r hi hn hr
        have hj : n * T i * S + r < N * T i * S := by
          have h1 : (n + 1) * T i * S ≤ N * T i * S :=
            Nat.mul_le_mul_right _ (Nat.mul_le_mul_right _ (by omega))
          have e : (n + 1) * T i * S = n * T i * S + T i * S := by ring
          omega
        rw [hg i hi _ hj]
        exact (f3 i hi).2 n r hn hr)
    have hc : (bottom.getD 0 default).count.toNat = N * B * S := by
      rw [hcb, Int.toNat_ofNat]
    refine ⟨?_, b3, b1, fun q hq => slice_positions T top.length N B S hsum q hq⟩
    rw [hc]
    apply take_eq_of_getD _ _ _ (by rw [b3]; exact hlen_bd) hlen_b
    intro q hq
    obtain ⟨⟨i, n, k, s, ⟨hi, hn, hk, hs, e⟩⟩, _⟩ :
        (∃ i n k s, i < top.length ∧ n < N ∧ k < T i ∧ s < S ∧
          q = (n * B + SliceLayer.offset T i + k) * S + s) ∧ True := by
      obtain ⟨i, n, k, s, h, _⟩ := slice_positions T top.length N B S hsum q hq
      exact ⟨⟨i, n, k, s, h⟩, trivial⟩
    apply b4
    refine ⟨i, n, k * S + s, hi, hn, slab_row k (T i) s S hk hs, ?_⟩
    rw [e]
    ring
  · intro hpd
    unfold SliceLayer.Backward_cpu
    rw [hpd]
    rfl

/-- C40 on the bottom of shape 2 x 6 x 1 sliced into tops of extents 1, 2
and 3 along axis 1, with the gradients of the tops holding the values
`Forward_cpu` writes. -/
theorem C40_witness :
    (slice_ready_tops.length ≠ 1 → ([true] : List Bool).getD 0 false = true →
      ((([slice_bottom] : List Blob).getD 0 default).cpu_diff
          (SliceLayer.Backward_cpu slice_ready slice_ready_tops [true] [slice_bottom]
            (slice_memory [10, 16] [11, 12, 17, 18] [13, 14, 15, 19, 20, 21]))).take
          (([slice_bottom] : List Blob).getD 0 default).count.toNat =
        ((([slice_bottom] : List Blob).getD 0 default).cpu_data (slice_memory [] [] [])).take
          (([slice_bottom] : List Blob).getD 0 default).count.toNat ∧
      ((([slice_bottom] : List Blob).getD 0 default).cpu_diff
          (SliceLayer.Backward_cpu slice_ready slice_ready_tops [true] [slice_bottom]
            (slice_memory [10, 16] [11, 12, 17, 18] [13, 14, 15, 19, 20, 21]))).length =
        ((([slice_bottom] : List Blob).getD 0 default).cpu_diff
          (slice_memory [10, 16] [11, 12, 17, 18] [13, 14, 15, 19, 20, 21])).length ∧
      (SliceLayer.Backward_cpu slice_ready slice_ready_tops [true] [slice_bottom]
          (slice_memory [10, 16] [11, 12, 17, 18] [13, 14, 15, 19, 20, 21])).data =
        (slice_memory [10, 16] [11, 12, 17, 18] [13, 14, 15, 19, 20, 21]).data ∧
      ∀ q, q < 2 * 6 * 1 →
        ∃ i n k s, (i < slice_ready_tops.length ∧ n < 2 ∧ k < slice_extents i ∧ s < 1 ∧
            q = (n * 6 + SliceLayer.offset slice_extents i + k) * 1 + s) ∧
          ∀ i' n' k' s', i' < slice_ready_tops.length → n' < 2 → k' < slice_extents i' →
            s' < 1 → q = (n' * 6 + SliceLayer.offset slice_extents i' + k') * 1 + s' →
            i' = i ∧ n' = n ∧ k' = k ∧ s' = s) ∧
    (([true] : List Bool).getD 0 false = false →
      SliceLayer.Backward_cpu slice_ready slice_ready_tops [true] [slice_bottom]
          (slice_memory [10, 16] [11, 12, 17, 18] [13, 14, 15, 19, 20, 21]) =
        slice_memory [10, 16] [11, 12, 17, 18] [13, 14, 15, 19, 20, 21]) :=
  C40_slice_backward_inverts_forward slice_ready [slice_bottom] slice_ready_tops [true]
    (slice_memory [] [] []) (slice_memory [10, 16] [11, 12, 17, 18] [13, 14, 15, 19, 20, 21])
    6 2 1 slice_extents (by decide) (by decide) (by decide) (by decide) (by decide) (by decide)
    (by decide) (by decide) (by decide) (by decide) (by decide) (by decide) (by decide)
    (by decide)

/-! ## The blob flags after `Init` -/

/-- The normal-output branch of `AppendTop` sets no blob flag. -/
theorem old_flag_normal_output (net : Net) (param : NetParameter) (layer_id : Int)
    (top_id : Nat) (blob_name : String) (i : Nat)
    (h : (AppendTop.normal_output net param layer_id top_id
      blob_name).blob_need_backward_[i]? = some true) :
    net.blob_need_backward_[i]? = some true := by
  rw [normal_output_blob_need_backward] at h
  rcases (getElem?_append_singleton _ _ _ _).1 h with h | ⟨_, e⟩
  · exact h
  · cases e

theorem old_flag_AppendTop (net : Net) (param : NetParameter) (layer_id : Int) (top_id : Nat)
    (a : Option StdSet) (m : Option StdMap) (r : Net × Option StdSet × Option StdMap)
    (h : AppendTop net param layer_id top_id a m = .ok r) (i : Nat)
    (hi : r.1.blob_need_backward_[i]? = some true) :
    net.blob_need_backward_[i]? = some true := by
  unfold AppendTop at h
  dsimp only at h
  split at h
  · split at h
    · injection h with h
      subst h
      exact hi
    · split at h
      · cases h
      · injection h with h
        subst h
        exact old_flag_normal_output _ _ _ _ _ _ hi
  · injection h with h
    subst h
    exact old_flag_normal_output _ _ _ _ _ _ hi

theorem old_flag_call_AppendTop (param : NetParameter) (layer_id : Int) (top_id : Nat)
    (named : Bool) (w w' : Wiring)
    (h : Init.call_AppendTop param layer_id top_id named w = .ok w') (i : Nat)
    (hi : w'.net.blob_need_backward_[i]? = some true) :
    w.net.blob_need_backward_[i]? = some true := by
  unfold Init.call_AppendTop at h
  obtain ⟨r, hr, rfl⟩ := Except.map_eq_ok h
  exact old_flag_AppendTop _ _ _ _ _ _ _ hr i hi

theorem old_flag_tops (param : NetParameter) (k : Nat) (w w' : Wiring)
    (h : Init.tops param k w = .ok w') (i : Nat)
    (hi : w'.net.blob_need_backward_[i]? = some true) :
    w.net.blob_need_backward_[i]? = some true := by
  unfold Init.tops at h
  exact forRange_induction
    (fun (_ : Nat) (t : Wiring) => t.net.blob_need_backward_[i]? = some true →
      w.net.blob_need_backward_[i]? = some true)
    _ _ _ _ (fun h => h)
    (fun j t t' _ ht hstep hi => ht (old_flag_call_AppendTop _ _ _ _ _ _ hstep i hi)) h hi

theorem old_flag_auto_tops (param : NetParameter) (k : Nat) (w w' : Wiring)
    (h : Init.auto_tops param k w = .ok w') (i : Nat)
    (hi : w'.net.blob_need_backward_[i]? = some true) :
    w.net.blob_need_backward_[i]? = some true := by
  unfold Init.auto_tops at h
  dsimp only at h
  split at h
  · exact forRange_induction
      (fun (_ : Nat) (t : Wiring) => t.net.blob_need_backward_[i]? = some true →
        w.net.blob_need_backward_[i]? = some true)
      _ _ _ _ (fun h => h)
      (fun j t t' _ ht hstep hi => ht (old_flag_call_AppendTop _ _ _ _ _ _ hstep i hi)) h hi
  · injection h with h
    subst h
    exact hi

/-- The input loop sets no blob flag. -/
theorem old_flag_inputs (param : NetParameter) (w w' : Wiring)
    (h : Init.inputs param w = .ok w') (i : Nat)
    (hi : w'.net.blob_need_backward_[i]? = some true) :
    w.net.blob_need_backward_[i]? = some true := by
  unfold Init.inputs at h
  exact forRange_induction
    (fun (_ : Nat) (t : Wiring) => t.net.blob_need_backward_[i]? = some true →
      w.net.blob_need_backward_[i]? = some true)
    _ _ _ _ (fun h => h)
    (fun j t t' _ ht hstep hi => ht (old_flag_call_AppendTop _ _ _ _ _ _ hstep i hi)) h hi

/-- A step that keeps the flags of the blobs there are and the number of
blob flags keeps the blob flags. -/
theorem flags_eq_of_grows (net net' : Net) (hg : net.need_grows net')
    (hlen : net'.blob_need_backward_.length = net.blob_need_backward_.length) :
    net'.blob_need_backward_ = net.blob_need_backward_ := by
  apply List.ext_getElem hlen
  intro i h1 h2
  have := hg.2.2.2 i _ (List.getElem?_eq_getElem h2)
  rw [List.getElem?_eq_getElem h1] at this
  injection this

/-- The end of the layer loop body on the blob flags: a blob flag is set
afterwards exactly when it was set, or the local `need_backward` is true and
the blob is a top of the layer. -/
theorem set_need_backward_blob (l : Nat) (nb : Bool) (net : Net)
    (htop : ∀ t i : Nat, (net.top_id_vecs_.getD l [])[t]? = some i →
      i < net.blob_need_backward_.length) :
    (Init.set_need_backward l nb net).top_id_vecs_ = net.top_id_vecs_ ∧
    ∀ i : Nat, (Init.set_need_backward l nb net).blob_need_backward_[i]? = some true ↔
      net.blob_need_backward_[i]? = some true ∨
        (nb = true ∧ ∃ t : Nat, (net.top_id_vecs_.getD l [])[t]? = some i) := by
  unfold Init.set_need_backward
  dsimp only
  split
  · rename_i hnb
    have key := forUp_induction
      (fun (n : Nat) (s : Net) => n ≤ (net.top_id_vecs_.getD l []).length →
        (s.top_id_vecs_ = net.top_id_vecs_ ∧
        s.blob_need_backward_.length = net.blob_need_backward_.length ∧
        ∀ i : Nat, s.blob_need_backward_[i]? = some true ↔
          net.blob_need_backward_[i]? = some true ∨
            ∃ t : Nat, t < n ∧ (net.top_id_vecs_.getD l [])[t]? = some i))
      (net.top_id_vecs_.getD l []).length
      (fun top_id (net : Net) =>
        { net with
          blob_need_backward_ :=
            net.blob_need_backward_.set ((net.top_id_vecs_.getD l []).getD top_id 0) true })
      { net with layer_need_backward_ := net.layer_need_backward_ ++ [nb] }
      (fun _ => ⟨rfl, rfl, fun i => ⟨fun h => Or.inl h, fun h => by
        rcases h with h | ⟨t, ht, _⟩
        · exact h
        · exact absurd ht (Nat.not_lt_zero t)⟩⟩)
      (by
        intro n s hn ih hle
        obtain ⟨i1, i2, i3⟩ := ih (by omega)
        have hrow : (net.top_id_vecs_.getD l [])[n]? =
            some ((s.top_id_vecs_.getD l []).getD n 0) := by
          rw [i1, List.getD_eq_getElem _ _ hn, List.getElem?_eq_getElem hn]
        have hlt := htop n _ hrow
        refine ⟨i1, ?_, ?_⟩
        · show (s.blob_need_backward_.set _ true).length = _
          rw [List.length_set]
          exact i2
        · intro i
          show (s.blob_need_backward_.set ((s.top_id_vecs_.getD l []).getD n 0) true)[i]? =
            some true ↔ _
          rw [List.getElem?_set]
          by_cases hi : (s.top_id_vecs_.getD l []).getD n 0 = i
          · rw [if_pos hi, if_pos (by rw [i2]; exact hlt)]
            constructor
            · intro _
              exact Or.inr ⟨n, by omega, by rw [← hi]; exact hrow⟩
            · intro _
              rfl
          · rw [if_neg hi, i3 i]
            constructor
            · rintro (h | ⟨t, ht, h⟩)
              · exact Or.inl h
              · exact Or.inr ⟨t, by omega, h⟩
            · rintro (h | ⟨t, ht, h⟩)
              · exact Or.inl h
              · by_cases htn : t < n
                · exact Or.inr ⟨t, htn, h⟩
                · have e : t = n := by omega
                  subst e
                  rw [hrow] at h
                  injection h with h
                  exact absurd h hi)
    obtain ⟨k1, _, k3⟩ := key (Nat.le_refl _)
    refine ⟨k1, ?_⟩
    intro i
    rw [k3 i]
    constructor
    · rintro (h | ⟨t, _, h⟩)
      · exact Or.inl h
      · exact Or.inr ⟨hnb, t, h⟩
    · rintro (h | ⟨_, t, h⟩)
      · exact Or.inl h
      · exact Or.inr ⟨t, (List.getElem?_eq_some_iff.1 h).1, h⟩
  · rename_i hnb
    refine ⟨rfl, ?_⟩
    intro i
    constructor
    · intro h
      exact Or.inl h
    · rintro (h | ⟨e, _⟩)
      · exact h
      · exact absurd e hnb

/-- One iteration of the layer loop, on the blob flags: a blob flag is set
afterwards exactly when it was set before, or the flag of the layer is set
and the blob is one of its tops. -/
theorem layer_blob_flags (CreateLayer : LayerParameter → Layer) (param : NetParameter)
    (phase_ : Phase) (k : Nat) (w w' : Wiring) (hk : k < param.layer.length)
    (hW : WInv CreateLayer param phase_ k w) (hW' : WInv CreateLayer param phase_ (k + 1) w')
    (h : Init.layer CreateLayer param k w = .ok w') (i : Nat) :
    w'.net.blob_need_backward_[i]? = some true ↔
      w.net.blob_need_backward_[i]? = some true ∨
        (w'.net.layer_need_backward_[k]? = some true ∧
          ∃ t : Nat, (w'.net.top_id_vecs_.getD k [])[t]? = some i) := by
  have htop' : ∀ t j : Nat, (w'.net.top_id_vecs_.getD k [])[t]? = some j →
      j < w'.net.blob_need_backward_.length := by
    intro t j hj
    have h1 : j < w'.net.blobs_.length := hW'.inv.top_lt k t j hj
    have h2 : w'.net.blob_need_backward_.length = w'.net.blobs_.length := hW'.inv.nb_len
    omega
  unfold Init.layer at h
  dsimp only at h
  split at h
  · cases h
  · obtain ⟨s2, hs2, h⟩ := Except.bind_eq_ok h
    obtain ⟨w3, hw3, h⟩ := Except.bind_eq_ok h
    obtain ⟨w4, hw4, h⟩ := Except.bind_eq_ok h
    split at h
    · cases h
    · obtain ⟨net7, hnet7, h⟩ := Except.bind_eq_ok h
      injection h with h
      have hlen1 : k < w.net.bottom_id_vecs_.length := by
        have : w.net.bottom_id_vecs_.length = param.layer.length := hW.stage.len_bottom
        rw [this]
        exact hk
      have hlen2 : k < w.net.bottom_need_backward_.length := by
        have : w.net.bottom_need_backward_.length = param.layer.length := hW.stage.len_bnb
        rw [this]
        exact hk
      have hrow1 : w.net.bottom_id_vecs_.getD k [] = [] :=
        List.eq_nil_of_length_eq_zero hW.stage.pos_bottom
      have hrow2 : w.net.bottom_need_backward_.getD k [] = [] := by
        apply List.eq_nil_of_length_eq_zero
        have := hW.inv.bnb_len k
        rw [hW.stage.pos_bottom] at this
        exact this
      obtain ⟨r1, _, _, _, _⟩ := bottoms_record param k _ s2 hlen1 hlen2 hrow1 hrow2 rfl hs2
      obtain ⟨_, _, ha2, _⟩ := bottoms_inv param k _ s2 hW.inv hW.stage hk hs2
      have g3 := need_tops param k _ w3 hw3
      have g4 := need_auto_tops param k _ w4 hw4
      have g5 := need_loss_weights k w4.net
      have g6 := need_param_flags param k (Init.loss_weights k w4.net, s2.2)
      have g7 := need_params param k _ net7 hnet7
      obtain ⟨c5, _⟩ := frame_loss_weights k w4.net w4.available_blobs w4.blob_name_to_idx
      obtain ⟨c6, _⟩ := frame_param_flags param k (Init.loss_weights k w4.net, s2.2)
        w4.available_blobs w4.blob_name_to_idx
      obtain ⟨c7, _⟩ := frame_params param k _ net7 w4.available_blobs w4.blob_name_to_idx hnet7
      have e5 := flags_eq_of_grows _ _ g5 (congrArg Core.blob_need_backward_len c5)
      have e6 := flags_eq_of_grows _ _ g6 (congrArg Core.blob_need_backward_len c6)
      have e7 := flags_eq_of_grows _ _ g7 (congrArg Core.blob_need_backward_len c7)
      have hflags7 : net7.blob_need_backward_ = w4.net.blob_need_backward_ :=
        e7.trans (e6.trans e5)
      have hlnb7 : net7.layer_need_backward_ = w.net.layer_need_backward_ := by
        have q := Net.need_grows_trans (Net.need_grows_trans (Net.need_grows_trans
          (Net.need_grows_trans g3 g4) g5) g6) g7
        rw [q.2.2.1]
        exact congrArg (fun x => x.2.1) ha2
      have hw' : w'.net = Init.set_need_backward k
          (Init.param_flags param k (Init.loss_weights k w4.net, s2.2)).2 net7 := by
        rw [← h]
      obtain ⟨_, _, e3, elen, _⟩ := set_need_backward_flags k
        (Init.param_flags param k (Init.loss_weights k w4.net, s2.2)).2 net7
      obtain ⟨c8, _, _⟩ := frame_set_need_backward k
        (Init.param_flags param k (Init.loss_weights k w4.net, s2.2)).2 net7
        w4.available_blobs w4.blob_name_to_idx
      have etop : w'.net.top_id_vecs_ = net7.top_id_vecs_ := by
        rw [hw']
        exact congrArg Core.top_id_vecs_ c8
      have htop7 : ∀ t j : Nat, (net7.top_id_vecs_.getD k [])[t]? = some j →
          j < net7.blob_need_backward_.length := by
        intro t j hj
        have := htop' t j (by rw [etop]; exact hj)
        rw [hw', elen] at this
        exact this
      obtain ⟨_, p2⟩ := set_need_backward_blob k
        (Init.param_flags param k (Init.loss_weights k w4.net, s2.2)).2 net7 htop7
      have hlnbk : w'.net.layer_need_backward_[k]? =
          some (Init.param_flags param k (Init.loss_weights k w4.net, s2.2)).2 := by
        rw [hw', e3, hlnb7]
        exact getElem?_append_len _ _ _ hW.lnb_len
      have hold : net7.blob_need_backward_[i]? = some true ↔
          w.net.blob_need_backward_[i]? = some true := by
        rw [hflags7]
        constructor
        · intro hi
          have h3 := old_flag_tops param k _ w3 hw3 i (old_flag_auto_tops param k _ w4 hw4 i hi)
          rw [r1] at h3
          exact h3
        · intro hi
          have h2 : s2.1.net.blob_need_backward_[i]? = some true := by
            rw [r1]
            exact hi
          exact g4.2.2.2 i _ (g3.2.2.2 i _ h2)
      rw [hw', p2 i, hold, ← hw', hlnbk, etop]
      constructor
      · rintro (hi | ⟨e, ht⟩)
        · exact Or.inl hi
        · exact Or.inr ⟨by rw [e], ht⟩
      · rintro (hi | ⟨e, ht⟩)
        · exact Or.inl hi
        · exact Or.inr ⟨by injection e, ht⟩

/-- At every point of the layer loop, the blob flags that are set are those
of the tops of the layers whose flag is set. -/
theorem wire_until_blob_flags (CreateLayer : LayerParameter → Layer) (param : NetParameter)
    (phase_ : Phase) (k : Nat) (w : Wiring) (hk : k ≤ param.layer.length)
    (h : Init.wire_until CreateLayer param phase_ k = .ok w) (i : Nat) :
    w.net.blob_need_backward_[i]? = some true ↔
      ∃ l t : Nat, w.net.layer_need_backward_[l]? = some true ∧
        (w.net.top_id_vecs_.getD l [])[t]? = some i := by
  induction k generalizing w with
  | zero =>
    have hW := wire_until_inv _ _ _ _ _ hk h
    constructor
    · intro hi
      exfalso
      unfold Init.wire_until at h
      split at h
      · cases h
      · split at h
        · cases h
        · split at h
          · cases h
          · dsimp only at h
            obtain ⟨w1, hw1, h⟩ := Except.bind_eq_ok h
            injection h with h
            rw [← h] at hi
            have hi1 : w1.net.blob_need_backward_[i]? = some true := hi
            have hi0 := old_flag_inputs param _ w1 hw1 i hi1
            cases hi0
    · rintro ⟨l, t, hl, _⟩
      have hlt := (List.getElem?_eq_some_iff.1 hl).1
      rw [hW.lnb_len] at hlt
      exact absurd hlt (Nat.not_lt_zero _)
  | succ k ih =>
    have h2 := h
    rw [wire_until_succ] at h2
    obtain ⟨wk, hwk, hstep⟩ := Except.bind_eq_ok h2
    have hW := wire_until_inv _ _ _ _ _ (by omega) hwk
    have hW' := wire_until_inv _ _ _ _ _ hk h
    obtain ⟨_, rrow⟩ := layer_rows _ _ _ _ _ _ (by omega) hW hstep
    obtain ⟨_, rl, _⟩ := layer_record _ _ _ _ _ _ (by omega) hW hstep
    have htops : ∀ l, l ≠ k → w.net.top_id_vecs_.getD l [] = wk.net.top_id_vecs_.getD l [] :=
      fun l hl => (rrow l hl).1
    rw [layer_blob_flags _ _ _ _ _ _ (by omega) hW hW' hstep i, ih wk (by omega) hwk]
    constructor
    · rintro (⟨l, t, hl, ht⟩ | ⟨hl, t, ht⟩)
      · have hlt := (List.getElem?_eq_some_iff.1 hl).1
        rw [hW.lnb_len] at hlt
        exact ⟨l, t, by rw [rl l hlt]; exact hl, by rw [htops l (by omega)]; exact ht⟩
      · exact ⟨k, t, hl, ht⟩
    · rintro ⟨l, t, hl, ht⟩
      have hlt := (List.getElem?_eq_some_iff.1 hl).1
      rw [hW'.lnb_len] at hlt
      by_cases hlk : l = k
      · subst hlk
        exact Or.inr ⟨hl, t, ht⟩
      · refine Or.inl ⟨l, t, ?_, ?_⟩
        · rw [← rl l (by omega)]
          exact hl
        · rw [← htops l hlk]
          exact ht

/-- The bottom loop of the handling of `force_backward` for layer `l`, run
for the first `n` bottoms: a blob flag that is set afterwards was set before,
or it is the flag of a blob that one of these bottoms reads and whose bottom
flag is set afterwards. -/
theorem force_bottoms_old (l n : Nat) (net : Net) (hI : NeedInv net)
    (hl : l < net.bottom_need_backward_.length)
    (hn : n ≤ (net.bottom_need_backward_.getD l []).length) (i' : Nat)
    (h : (forUp n
      (fun bottom_id net =>
        let flag :=
          (net.bottom_need_backward_.getD l []).getD bottom_id false ||
            (net.layers_.getD l default).AllowForceBackward bottom_id
        let blob_id := (net.bottom_id_vecs_.getD l []).getD bottom_id 0
        { net with
          bottom_need_backward_ :=
            net.bottom_need_backward_.set l
              ((net.bottom_need_backward_.getD l []).set bottom_id flag)
          blob_need_backward_ :=
            net.blob_need_backward_.set blob_id
              (net.blob_need_backward_.getD blob_id false || flag) })
      net).blob_need_backward_[i']? = some true) :
    net.blob_need_backward_[i']? = some true ∨
      ∃ b : Nat, b < n ∧ (net.bottom_id_vecs_.getD l [])[b]? = some i' ∧
        ((forUp n
          (fun bottom_id net =>
            let flag :=
              (net.bottom_need_backward_.getD l []).getD bottom_id false ||
                (net.layers_.getD l default).AllowForceBackward bottom_id
            let blob_id := (net.bottom_id_vecs_.getD l []).getD bottom_id 0
            { net with
              bottom_need_backward_ :=
                net.bottom_need_backward_.set l
                  ((net.bottom_need_backward_.getD l []).set bottom_id flag)
              blob_need_backward_ :=
                net.blob_need_backward_.set blob_id
                  (net.blob_need_backward_.getD blob_id false || flag) })
          net).bottom_need_backward_.getD l [])[b]? = some true := by
  induction n with
  | zero => exact Or.inl h
  | succ n ih =>
    obtain ⟨tI, bnb, bl, ht, e1, e2, e3, _, _, _⟩ := force_bottoms_need l n net hI hl (by omega)
    have hsucc : ∀ (body : Nat → Net → Net), forUp (n + 1) body net =
        body n (forUp n body net) := fun _ => rfl
    rw [hsucc] at h ⊢
    have ih' := ih (by omega)
    rw [ht] at h ih' ⊢
    rw [ht] at tI
    dsimp only at h ih' ⊢
    have hlt : l < bnb.length := by rw [e1]; exact hl
    have hirow : n < (bnb.getD l []).length := by rw [e2 l]; omega
    have hiid : n < (net.bottom_id_vecs_.getD l []).length := by
      have := tI.rows l
      simp only at this
      omega
    have hid : (net.bottom_id_vecs_.getD l [])[n]? =
        some ((net.bottom_id_vecs_.getD l []).getD n 0) := by
      rw [List.getD_eq_getElem _ _ hiid, List.getElem?_eq_getElem hiid]
    have hjlt : (net.bottom_id_vecs_.getD l []).getD n 0 < bl.length := tI.bound l n _ hid
    generalize (net.bottom_id_vecs_.getD l []).getD n 0 = j at hid hjlt h ⊢
    generalize hflag : ((bnb.getD l []).getD n false ||
      (net.layers_.getD l default).AllowForceBackward n) = flag at h ⊢
    have hrow : ∀ b' : Nat, ((bnb.set l ((bnb.getD l []).set n flag)).getD l [])[b']? =
        if b' = n then some flag else (bnb.getD l [])[b']? := by
      intro b'
      rw [getD_set_row, if_pos ⟨rfl, hlt⟩, List.getElem?_set]
      by_cases hbi : n = b'
      · subst hbi
        rw [if_pos rfl, if_pos hirow, if_pos rfl]
      · rw [if_neg hbi, if_neg (fun h => hbi h.symm)]
    have hkeep : bl[i']? = some true →
        net.blob_need_backward_[i']? = some true ∨
          ∃ b : Nat, b < n + 1 ∧ (net.bottom_id_vecs_.getD l [])[b]? = some i' ∧
            ((bnb.set l ((bnb.getD l []).set n flag)).getD l [])[b]? = some true := by
      intro hb
      rcases ih' hb with h0 | ⟨b, hb1, hb2, hb3⟩
      · exact Or.inl h0
      · refine Or.inr ⟨b, by omega, hb2, ?_⟩
        rw [hrow, if_neg (by omega)]
        exact hb3
    rw [List.getElem?_set] at h
    by_cases hji : j = i'
    · subst hji
      rw [if_pos rfl, if_pos hjlt] at h
      injection h with h
      by_cases hf : flag = true
      · refine Or.inr ⟨n, by omega, hid, ?_⟩
        rw [hrow, if_pos rfl, hf]
      · have hf' : flag = false := by
          cases flag
          · rfl
          · exact absurd rfl hf
        rw [hf', Bool.or_false] at h
        apply hkeep
        rw [List.getD_eq_getElem _ _ hjlt] at h
        rw [List.getElem?_eq_getElem hjlt, h]
    · rw [if_neg hji] at h
      exact hkeep h

/-- The handling of `force_backward` for layer `l`: a blob flag that is set
afterwards was set before, or it is the flag of a blob that a bottom of the
layer reads and whose bottom flag is set afterwards. -/
theorem force_backward_layer_old (l : Nat) (net : Net) (hI : NeedInv net)
    (hl : l < net.bottom_need_backward_.length) (hll : l < net.layers_.length) (i' : Nat)
    (h : (Init.force_backward_layer l net).blob_need_backward_[i']? = some true) :
    net.blob_need_backward_[i']? = some true ∨
      ∃ b : Nat, (net.bottom_id_vecs_.getD l [])[b]? = some i' ∧
        ((Init.force_backward_layer l net).bottom_need_backward_.getD l [])[b]? =
          some true := by
  have hI1 : NeedInv { net with layer_need_backward_ := net.layer_need_backward_.set l true } :=
    ⟨hI.outer, hI.rows, hI.blob, hI.bound⟩
  have hold := force_bottoms_old l (net.bottom_need_backward_.getD l []).length
    { net with layer_need_backward_ := net.layer_need_backward_.set l true } hI1 hl
    (Nat.le_refl _) i'
  obtain ⟨_, bnb, bl, h2, _⟩ := force_bottoms_need l
    (net.bottom_need_backward_.getD l []).length
    { net with layer_need_backward_ := net.layer_need_backward_.set l true } hI1 hl
    (Nat.le_refl _)
  unfold Init.force_backward_layer at h ⊢
  dsimp only at h ⊢
  dsimp only at h2 hold
  rw [h2] at h hold ⊢
  dsimp only at h hold ⊢
  obtain ⟨ls, h3, _⟩ := force_params_spec l (net.layers_.getD l default).blobs_.length
    { net with
      layer_need_backward_ := net.layer_need_backward_.set l true
      bottom_need_backward_ := bnb
      blob_need_backward_ := bl } hll
  dsimp only at h3
  rw [h3] at h ⊢
  rcases hold h with h0 | ⟨b, _, hb1, hb2⟩
  · exact Or.inl h0
  · exact Or.inr ⟨b, hb1, hb2⟩

/-- The handling of `force_backward` (lines 265-282): a blob flag that is set
afterwards was set before, or it is the flag of a blob that some bottom reads
whose bottom flag is set afterwards. -/
theorem force_backward_old (net : Net) (hI : NeedInv net)
    (hbnb : net.bottom_need_backward_.length = net.layers_.length) (i' : Nat)
    (h : (forUp net.layers_.length (fun layer_id net => Init.force_backward_layer layer_id net)
      net).blob_need_backward_[i']? = some true) :
    net.blob_need_backward_[i']? = some true ∨
      ∃ l b : Nat, (net.bottom_id_vecs_.getD l [])[b]? = some i' ∧
        ((forUp net.layers_.length
          (fun layer_id net => Init.force_backward_layer layer_id net)
            net).bottom_need_backward_.getD l [])[b]? = some true := by
  have key := forUp_induction
    (fun (_ : Nat) (t : Net) => NeedInv t ∧ t.bottom_id_vecs_ = net.bottom_id_vecs_ ∧
      t.bottom_need_backward_.length = net.bottom_need_backward_.length ∧
      t.layers_.length = net.layers_.length ∧
      (t.blob_need_backward_[i']? = some true →
        net.blob_need_backward_[i']? = some true ∨
          ∃ l b : Nat, (net.bottom_id_vecs_.getD l [])[b]? = some i' ∧
            (t.bottom_need_backward_.getD l [])[b]? = some true))
    net.layers_.length (fun layer_id net => Init.force_backward_layer layer_id net) net
    ⟨hI, rfl, rfl, rfl, fun h => Or.inl h⟩ (by
      intro k t hk ht
      obtain ⟨tI, t1, t3, t5, t7⟩ := ht
      have hkb : k < t.bottom_need_backward_.length := by rw [t3, hbnb]; exact hk
      have hkl : k < t.layers_.length := by rw [t5]; exact hk
      obtain ⟨r1, _, r3, r4, _, r6, _, r8, _⟩ := force_backward_layer_spec k t tI hkb hkl
      refine ⟨r1, r3.trans t1, r4.trans t3, r8.trans t5, ?_⟩
      intro hi
      rcases force_backward_layer_old k t tI hkb hkl i' hi with h0 | ⟨b, hb1, hb2⟩
      · rcases t7 h0 with h1 | ⟨l, b, hb1, hb2⟩
        · exact Or.inl h1
        · exact Or.inr ⟨l, b, hb1, r6 l b hb2⟩
      · exact Or.inr ⟨k, b, by rw [← t1]; exact hb1, hb2⟩)
  exact key.2.2.2.2 h

/-- The handling of `force_backward` for layer `l` keeps the blob flags that
are set. -/
theorem force_backward_layer_keeps (l : Nat) (net : Net) (hI : NeedInv net)
    (hl : l < net.bottom_need_backward_.length) (hll : l < net.layers_.length) (i' : Nat)
    (h : net.blob_need_backward_[i']? = some true) :
    (Init.force_backward_layer l net).blob_need_backward_[i']? = some true := by
  have hI1 : NeedInv { net with layer_need_backward_ := net.layer_need_backward_.set l true } :=
    ⟨hI.outer, hI.rows, hI.blob, hI.bound⟩
  obtain ⟨_, bnb, bl, h2, _, _, _, _, e5, _⟩ := force_bottoms_need l
    (net.bottom_need_backward_.getD l []).length
    { net with layer_need_backward_ := net.layer_need_backward_.set l true } hI1 hl
    (Nat.le_refl _)
  unfold Init.force_backward_layer
  dsimp only
  dsimp only at h2
  rw [h2]
  dsimp only
  obtain ⟨ls, h3, _⟩ := force_params_spec l (net.layers_.getD l default).blobs_.length
    { net with
      layer_need_backward_ := net.layer_need_backward_.set l true
      bottom_need_backward_ := bnb
      blob_need_backward_ := bl } hll
  dsimp only at h3
  rw [h3]
  exact e5 i' h

/-- The handling of `force_backward` keeps the blob flags that are set. -/
theorem force_backward_keeps (net : Net) (hI : NeedInv net)
    (hbnb : net.bottom_need_backward_.length = net.layers_.length) (i' : Nat)
    (h : net.blob_need_backward_[i']? = some true) :
    (forUp net.layers_.length (fun layer_id net => Init.force_backward_layer layer_id net)
      net).blob_need_backward_[i']? = some true := by
  have key := forUp_induction
    (fun (_ : Nat) (t : Net) => NeedInv t ∧
      t.bottom_need_backward_.length = net.bottom_need_backward_.length ∧
      t.layers_.length = net.layers_.length ∧ t.blob_need_backward_[i']? = some true)
    net.layers_.length (fun layer_id net => Init.force_backward_layer layer_id net) net
    ⟨hI, rfl, rfl, h⟩ (by
      intro k t hk ht
      obtain ⟨tI, t3, t5, t7⟩ := ht
      have hkb : k < t.bottom_need_backward_.length := by rw [t3, hbnb]; exact hk
      have hkl : k < t.layers_.length := by rw [t5]; exact hk
      obtain ⟨r1, _, _, r4, _, _, _, r8, _⟩ := force_backward_layer_spec k t tI hkb hkl
      exact ⟨r1, r4.trans t3, r8.trans t5, force_backward_layer_keeps k t tI hkb hkl i' t7⟩)
  exact key.2.2.2

/-- The blob flags of a net `Init` returns, from the wired net `w`: a blob
flag is set exactly when some layer whose flag is set in the net returned
has a bottom that reads the blob and whose flag is set, or the blob is a top
of a layer whose flag the layer loop set. -/
theorem blob_flags_of_parts (param : NetParameter) (w : Wiring) (result : Net)
    (hlayers : w.net.layers_.length = param.layer.length)
    (hbnb : w.net.bottom_need_backward_.length = param.layer.length)
    (hids : w.net.bottom_id_vecs_.length = param.layer.length)
    (hlnb : w.net.layer_need_backward_.length = param.layer.length)
    (hblob : ∀ i : Nat, w.net.blob_need_backward_[i]? = some true ↔
      ∃ l t : Nat, w.net.layer_need_backward_[l]? = some true ∧
        (w.net.top_id_vecs_.getD l [])[t]? = some i)
    (hR : NeedInv result) (hgraph : result.graph = w.net.graph)
    (hflags : result.flags =
      (if param.force_backward = true then
        forUp (Init.walk w.net w.net.layers_.length).net.layers_.length
          (fun layer_id net => Init.force_backward_layer layer_id net)
          (Init.walk w.net w.net.layers_.length).net
      else (Init.walk w.net w.net.layers_.length).net).flags)
    (hWI : NeedInv (Init.walk w.net w.net.layers_.length).net) (i : Nat) :
    result.blob_need_backward_[i]? = some true ↔
      (∃ l b : Nat, result.layer_need_backward_[l]? = some true ∧
        (result.bottom_id_vecs_.getD l [])[b]? = some i ∧
        (result.bottom_need_backward_.getD l [])[b]? = some true) ∨
      ∃ l t : Nat, w.net.layer_need_backward_[l]? = some true ∧
        (result.top_id_vecs_.getD l [])[t]? = some i := by
  obtain ⟨gw, uw⟩ := graph_walk w.net w.net.layers_.length
  obtain ⟨_, _, gtop, _, gbot, _⟩ := graph_fields hgraph
  obtain ⟨_, _, _, _, wbot, _⟩ := graph_fields gw
  have wblob : (Init.walk w.net w.net.layers_.length).net.blob_need_backward_ =
      w.net.blob_need_backward_ := congrArg (fun x => x.2.1) uw
  have wlayers : (Init.walk w.net w.net.layers_.length).net.layers_ = w.net.layers_ :=
    congrArg (fun x => x.1) uw
  have wshape := walk_shape w.net w.net.layers_.length
  have hWbnb : (Init.walk w.net w.net.layers_.length).net.bottom_need_backward_.length =
      (Init.walk w.net w.net.layers_.length).net.layers_.length := by
    rw [wshape.2.1, wlayers, hbnb, hlayers]
  have hWlnb : (Init.walk w.net w.net.layers_.length).net.layer_need_backward_.length =
      (Init.walk w.net w.net.layers_.length).net.layers_.length := by
    rw [wshape.1, wlayers, hlnb, hlayers]
  have eforce : param.force_backward = true →
      result.blob_need_backward_ =
        (forUp (Init.walk w.net w.net.layers_.length).net.layers_.length
          (fun layer_id net => Init.force_backward_layer layer_id net)
          (Init.walk w.net w.net.layers_.length).net).blob_need_backward_ ∧
      result.bottom_need_backward_ =
        (forUp (Init.walk w.net w.net.layers_.length).net.layers_.length
          (fun layer_id net => Init.force_backward_layer layer_id net)
          (Init.walk w.net w.net.layers_.length).net).bottom_need_backward_ ∧
      result.layer_need_backward_ =
        (forUp (Init.walk w.net w.net.layers_.length).net.layers_.length
          (fun layer_id net => Init.force_backward_layer layer_id net)
          (Init.walk w.net w.net.layers_.length).net).layer_need_backward_ := by
    intro hfb
    rw [if_pos hfb] at hflags
    exact ⟨congrArg (fun x => x.2.2.1) hflags, congrArg (fun x => x.2.1) hflags,
      congrArg (fun x => x.1) hflags⟩
  have eplain : ¬ param.force_backward = true →
      result.blob_need_backward_ = w.net.blob_need_backward_ := by
    intro hfb
    rw [if_neg hfb] at hflags
    have e : result.blob_need_backward_ =
        (Init.walk w.net w.net.layers_.length).net.blob_need_backward_ :=
      congrArg (fun x => x.2.2.1) hflags
    rw [e, wblob]
  rw [gtop]
  constructor
  · intro hi
    by_cases hfb : param.force_backward = true
    · obtain ⟨eblob, ebnb, elnb⟩ := eforce hfb
      rw [eblob] at hi
      rcases force_backward_old _ hWI hWbnb i hi with h0 | ⟨l, b, hb1, hb2⟩
      · rw [wblob] at h0
        exact Or.inr ((hblob i).1 h0)
      · refine Or.inl ⟨l, b, ?_, ?_, ?_⟩
        · rw [elnb]
          have hl : l < (Init.walk w.net w.net.layers_.length).net.layers_.length := by
            rw [wlayers, hlayers, ← hids, ← wbot]
            by_contra hge
            rw [List.getD_eq_default _ _ (by omega)] at hb1
            cases hb1
          exact ((force_backward_spec _ hWI hWbnb hWlnb).2.2.2 l hl).1
        · rw [gbot, ← wbot]
          exact hb1
        · rw [ebnb]
          exact hb2
    · rw [eplain hfb] at hi
      exact Or.inr ((hblob i).1 hi)
  · rintro (⟨l, b, _, hb1, hb2⟩ | hw)
    · exact hR.blob l b i hb1 hb2
    · have h0 := (hblob i).2 hw
      by_cases hfb : param.force_backward = true
      · rw [(eforce hfb).1]
        exact force_backward_keeps _ hWI hWbnb i (by rw [wblob]; exact h0)
      · rw [eplain hfb]
        exact h0

/-- C13, amended: in every net `Init` returns, with or without
`force_backward` and with `w` the net as the layer loop leaves it, a blob has
`blob_need_backward_` true if and only if at least one layer that needs
backward (`layer_need_backward_` true in the net returned) consumes it as a
bottom whose entry of `bottom_need_backward_` is true, or it is a top of a
layer for which the layer loop computed `need_backward` true (the flag the
loop pushed to `layer_need_backward_`, before the reverse walk: some bottom
of the layer read a blob whose flag was set then, or some parameter blob of
the layer has a nonzero `lr_mult`). For the first alternative the flag of the
bottom alone is enough. -/
theorem C13_blob_flag_iff_needed_bottom_or_wired_top (CreateLayer : LayerParameter → Layer)
    (InsertSplits : NetParameter → NetParameter) (in_param filtered : NetParameter)
    (result : Net) (hf : FilterNet in_param = .ok filtered)
    (hinit : Init CreateLayer InsertSplits in_param = .ok result) :
    ∃ w, Init.wire CreateLayer (InsertSplits filtered) in_param.state.phase = .ok w ∧
      (∀ i : Nat, result.blob_need_backward_[i]? = some true ↔
        (∃ l b : Nat, result.layer_need_backward_[l]? = some true ∧
          (result.bottom_id_vecs_.getD l [])[b]? = some i ∧
          (result.bottom_need_backward_.getD l [])[b]? = some true) ∨
        ∃ l t : Nat, w.net.layer_need_backward_[l]? = some true ∧
          (result.top_id_vecs_.getD l [])[t]? = some i) ∧
      (∀ l b i : Nat, (result.bottom_id_vecs_.getD l [])[b]? = some i →
        (result.bottom_need_backward_.getD l [])[b]? = some true →
        result.blob_need_backward_[i]? = some true) ∧
      ∀ l, l < (InsertSplits filtered).layer.length →
        ∃ wk, Init.wire_until CreateLayer (InsertSplits filtered) in_param.state.phase l =
            .ok wk ∧
          (w.net.layer_need_backward_[l]? = some true ↔
            Init.need_backward CreateLayer (InsertSplits filtered) in_param.state.phase l
              wk.net.blob_need_backward_ (result.bottom_id_vecs_.getD l [])) := by
  obtain ⟨hR, w, hw, hW, hgraph, hflags, hWI⟩ := Init_need _ _ _ _ _ hf hinit
  obtain ⟨_, _, _, _, gbot, _⟩ := graph_fields hgraph
  refine ⟨w, hw, ?_, hR.blob, ?_⟩
  · intro i
    exact blob_flags_of_parts (InsertSplits filtered) w result hW.layers_len hW.stage.len_bnb
      hW.stage.len_bottom hW.lnb_len
      (wire_until_blob_flags CreateLayer (InsertSplits filtered) in_param.state.phase
        (InsertSplits filtered).layer.length w (Nat.le_refl _) hw)
      hR hgraph hflags hWI i
  · intro l hl
    obtain ⟨wk, hwk, _, _, nb, hnb, hiff⟩ := wire_record CreateLayer (InsertSplits filtered)
      in_param.state.phase w hw l hl
    refine ⟨wk, hwk, ?_⟩
    rw [gbot, hnb]
    constructor
    · intro e
      injection e with e
      exact hiff.1 e
    · intro e
      rw [hiff.2 e]

/-- C13 on `walk_example`: the statement for the net `Init` returns, in which
the blob "d" is flagged as a top of the layer "side". -/
theorem C13_witness :
    ∃ result, Init param_factory id walk_example = .ok result ∧
      ∃ w, Init.wire param_factory (id walk_example) walk_example.state.phase = .ok w ∧
        (∀ i : Nat, result.blob_need_backward_[i]? = some true ↔
          (∃ l b : Nat, result.layer_need_backward_[l]? = some true ∧
            (result.bottom_id_vecs_.getD l [])[b]? = some i ∧
            (result.bottom_need_backward_.getD l [])[b]? = some true) ∨
          ∃ l t : Nat, w.net.layer_need_backward_[l]? = some true ∧
            (result.top_id_vecs_.getD l [])[t]? = some i) ∧
        (∀ l b i : Nat, (result.bottom_id_vecs_.getD l [])[b]? = some i →
          (result.bottom_need_backward_.getD l [])[b]? = some true →
          result.blob_need_backward_[i]? = some true) ∧
        ∀ l, l < (id walk_example).layer.length →
          ∃ wk, Init.wire_until param_factory (id walk_example) walk_example.state.phase l =
              .ok wk ∧
            (w.net.layer_need_backward_[l]? = some true ↔
              Init.need_backward param_factory (id walk_example) walk_example.state.phase l
                wk.net.blob_need_backward_ (result.bottom_id_vecs_.getD l [])) := by
  obtain ⟨result, hinit, _⟩ := of_returns_with (Init param_factory id walk_example)
    (fun _ => true) (by decide)
  exact ⟨result, hinit,
    C13_blob_flag_iff_needed_bottom_or_wired_top param_factory id walk_example walk_example
      result (by decide) hinit⟩

/-! ## What `Reshape` hands to `Forward_cpu` and `Backward_cpu` -/

/-- A loop of at least one iteration that returns has a first iteration that
returns. -/
theorem forRange_first {σ ε : Type} (n : Nat) (body : Nat → σ → Except ε σ) (s s' : σ)
    (h : forRange (n + 1) body s = .ok s') : ∃ t, body 0 s = .ok t := by
  induction n generalizing s' with
  | zero => exact ⟨s', h⟩
  | succ n ih =>
    rw [forRange_succ] at h
    obtain ⟨t, ht, _⟩ := Except.bind_eq_ok h
    exact ih t ht

theorem mem_set_of_ne (l : List Int) (n : Nat) (e x : Int) (j : Nat) (hj : j ≠ n)
    (h : l[j]? = some x) : x ∈ l.set n e := by
  rw [List.mem_iff_getElem?]
  exact ⟨j, by rw [List.getElem?_set_ne (fun e => hj e.symm)]; exact h⟩

/-- The extents before and after an axis are among the extents of the shape
with the extent at the axis replaced. -/
theorem prod_around_nonneg (l : List Int) (n : Nat) (e : Int)
    (h : ∀ x, x ∈ l.set n e → 0 ≤ x) :
    0 ≤ (l.take n).prod ∧ 0 ≤ (l.drop (n + 1)).prod := by
  constructor
  · apply List.prod_nonneg
    intro x hx
    obtain ⟨j, hj⟩ := List.mem_iff_getElem?.1 hx
    rw [List.getElem?_take] at hj
    split at hj
    · rename_i hlt
      exact h x (mem_set_of_ne l n e x j (by omega) hj)
    · cases hj
  · apply List.prod_nonneg
    intro x hx
    obtain ⟨j, hj⟩ := List.mem_iff_getElem?.1 hx
    rw [List.getElem?_drop] at hj
    exact h x (mem_set_of_ne l n e x (n + 1 + j) (by omega) hj)

/-- The loop of `Reshape` over at least one top returns only when no extent of
the bottom other than the one at the slice axis is negative. -/
theorem tops_loop_nonneg (top_shape : List Int) (a : Int) (extent : Nat → Int)
    (top : List Blob) (hT0 : 0 < top.length) (r : List Blob × Int)
    (h : SliceLayer.Reshape.tops top_shape a extent top = .ok r) :
    0 ≤ (top_shape.take a.toNat).prod ∧ 0 ≤ (top_shape.drop (a.toNat + 1)).prod := by
  unfold SliceLayer.Reshape.tops at h
  obtain ⟨n, hn⟩ : ∃ n, top.length = n + 1 := ⟨top.length - 1, by omega⟩
  rw [hn] at h
  obtain ⟨t, ht⟩ := forRange_first _ _ _ _ h
  obtain ⟨b, hb, _⟩ := Except.bind_eq_ok ht
  exact prod_around_nonneg _ _ _ (Reshape_eq_ok _ _ _ hb).1

theorem offset_cast (T : Nat → Nat) (n : Nat) :
    ((SliceLayer.offset T n : Nat) : Int) = ((List.range n).map (fun i => (T i : Int))).sum := by
  induction n with
  | zero => rfl
  | succ n ih =>
    rw [offset_succ, sum_range_succ_map, ← ih]
    push_cast
    rfl

/-- What `Reshape` hands to `Forward_cpu` and `Backward_cpu`. When `Reshape`
returns on a bottom whose extent along the slice axis `a` is `B`, the layer
and the tops it leaves are in the state the statements about `Forward_cpu`
and `Backward_cpu` start from: the slice axis is `a`; `num_slices_` and
`slice_size_` are natural numbers `N` and `S`, the products of the extents
of the bottom before and after the axis; top `i` has a natural number `T i`
as its extent along the axis, the extent of the shape rule; the bottom holds
`N * B * S` elements and top `i` holds `N * T i * S`; and the `T i` sum to
`B`. -/
theorem Reshape_entry_state
    (CanonicalAxisIndex : Blob → Int → Except Fatal Int) (cast_int_tp : Nat → Int)
    (layer : SliceLayer) (bottom top : List Blob) (a : Int) (B : Nat)
    (haxis : SliceLayer.Reshape.axis CanonicalAxisIndex cast_int_tp layer
      (bottom.getD 0 default) = .ok a)
    (ha0 : 0 ≤ a) (ha1 : a < (bottom.getD 0 default).num_axes)
    (hB : (bottom.getD 0 default).shape_at a = (B : Int)) (hB64 : B < 2 ^ 64)
    (hT0 : 0 < top.length) (hT64 : top.length < 2 ^ 64)
    (r : SliceLayer × List Blob)
    (hr : SliceLayer.Reshape CanonicalAxisIndex cast_int_tp layer bottom top = .ok r) :
    r.1.slice_axis_ = a ∧ r.2.length = top.length ∧
    (bottom.getD 0 default).shape_at r.1.slice_axis_ = (B : Int) ∧
    ∃ N S : Nat, ∃ T : Nat → Nat,
      r.1.num_slices_ = (N : Int) ∧ r.1.slice_size_ = (S : Int) ∧
      r.1.num_slices_ = (bottom.getD 0 default).count_range 0 a ∧
      r.1.slice_size_ = (bottom.getD 0 default).count_from (a + 1) ∧
      (∀ i, i < top.length →
        (r.2.getD i default).shape_at r.1.slice_axis_ = (T i : Int) ∧
        (T i : Int) = SliceLayer.spec_extent layer.slice_point_ B top.length i ∧
        (r.2.getD i default).count = ((N * T i * S : Nat) : Int)) ∧
      (bottom.getD 0 default).count = ((N * B * S : Nat) : Int) ∧
      SliceLayer.offset T top.length = B := by
  have hblock := reshape_block layer.slice_point_ B top.length hB64 hT0 hT64
    (fun f => SliceLayer.Reshape.tops (bottom.getD 0 default).shape_ a f top)
  have hunf : SliceLayer.Reshape CanonicalAxisIndex cast_int_tp layer bottom top =
      ((if layer.slice_point_.length ≠ 0 then
        if layer.slice_point_.length ≠ to_size_t ((top.length : Int) - 1) then
          .error .check_eq_slice_point_size_top_size
        else if ¬ (top.length ≤ to_size_t (B : Int)) then
          .error .check_le_top_size_bottom_slice_axis
        else
          (SliceLayer.Reshape.slices layer.slice_point_ (B : Int)).bind fun slices =>
          SliceLayer.Reshape.tops (bottom.getD 0 default).shape_ a
            (fun i => slices.getD i 0) top
      else
        if to_size_t (B : Int) % top.length ≠ 0 then
          .error .top_blobs_should_evenly_divide
        else
          SliceLayer.Reshape.tops (bottom.getD 0 default).shape_ a
            (fun _ => ((to_size_t (B : Int) / top.length : Nat) : Int)) top).bind fun r =>
      if r.2 ≠ (bottom.getD 0 default).count then .error .check_eq_count_bottom_count
      else if top.length = 1 then
        ((r.1.getD 0 default).ShareData (bottom.getD 0 default)).bind fun shared =>
        (shared.ShareDiff (bottom.getD 0 default)).bind fun shared =>
        .ok ({ layer with
          slice_axis_ := a
          num_slices_ := (bottom.getD 0 default).count_range 0 a
          slice_size_ := (bottom.getD 0 default).count_from (a + 1) }, r.1.set 0 shared)
      else .ok ({ layer with
          slice_axis_ := a
          num_slices_ := (bottom.getD 0 default).count_range 0 a
          slice_size_ := (bottom.getD 0 default).count_from (a + 1) }, r.1)) := by
    unfold SliceLayer.Reshape
    rw [← hB]
    dsimp only
    rw [haxis]
    rfl
  rw [hunf] at hr
  obtain ⟨r0, hr0, hr⟩ := Except.bind_eq_ok hr
  obtain ⟨hreq, f, hf, hX⟩ := hblock.1 r0 hr0
  obtain ⟨r', hr', h1, h2, h3, h4⟩ := reshape_finish
    { layer with
        slice_axis_ := a
        num_slices_ := (bottom.getD 0 default).count_range 0 a
        slice_size_ := (bottom.getD 0 default).count_from (a + 1) }
    (bottom.getD 0 default) top a B _ f ha0 ha1 hB
    (spec_extent_sum _ B top.length hT0 hreq) hf r0 hX
  have e : r = r' := by
    have := hr.symm.trans hr'
    injection this
  subst e
  obtain ⟨hcnt, halt⟩ := count_split (bottom.getD 0 default) a ha0 ha1
  obtain ⟨hpre, hpost⟩ := tops_loop_nonneg _ a f top hT0 r0 hX
  have hax : r.1.slice_axis_ = a := by rw [h1]
  have hns : r.1.num_slices_ = (bottom.getD 0 default).count_range 0 a := by rw [h1]
  have hss : r.1.slice_size_ = (bottom.getD 0 default).count_from (a + 1) := by rw [h1]
  have hN : (bottom.getD 0 default).count_range 0 a =
      ((((bottom.getD 0 default).shape_.take a.toNat).prod.toNat : Nat) : Int) := by
    rw [Int.toNat_of_nonneg hpre]
    rfl
  have hS : (bottom.getD 0 default).count_from (a + 1) =
      ((((bottom.getD 0 default).shape_.drop (a.toNat + 1)).prod.toNat : Nat) : Int) := by
    rw [Int.toNat_of_nonneg hpost]
    unfold Blob.count_from
    have e1 : (a + 1).toNat = a.toNat + 1 := by omega
    rw [e1]
  refine ⟨hax, h2, by rw [hax]; exact hB,
    ((bottom.getD 0 default).shape_.take a.toNat).prod.toNat,
    ((bottom.getD 0 default).shape_.drop (a.toNat + 1)).prod.toNat,
    fun i => (SliceLayer.spec_extent layer.slice_point_ B top.length i).toNat,
    hns.trans hN, hss.trans hS, hns, hss, ?_, ?_, ?_⟩
  · intro i hi
    have hE := Int.toNat_of_nonneg (h4 i hi)
    refine ⟨?_, hE, ?_⟩
    · rw [hax]
      unfold Blob.shape_at
      rw [h3 i hi, List.getD_eq_getElem _ _ (by rw [List.length_set]; exact halt),
        List.getElem_set_self, hE]
    · unfold Blob.count
      rw [h3 i hi, prod_set _ _ _ halt]
      push_cast
      rw [Int.toNat_of_nonneg hpre, Int.toNat_of_nonneg hpost, hE]
  · rw [hcnt, hB]
    push_cast
    rw [Int.toNat_of_nonneg hpre, Int.toNat_of_nonneg hpost]
  · have hc := offset_cast
      (fun i => (SliceLayer.spec_extent layer.slice_point_ B top.length i).toNat) top.length
    rw [sum_map_congr _ _ (SliceLayer.spec_extent layer.slice_point_ B top.length)
      (fun i hi => Int.toNat_of_nonneg (h4 i hi)),
      spec_extent_sum _ B top.length hT0 hreq] at hc
    exact_mod_cast hc

/-- The state `Reshape` leaves on the examples, as the statements about
`Forward_cpu` and `Backward_cpu` take it. -/
theorem slice_example_entry_state :
    slice_ready.slice_axis_ = 1 ∧ slice_ready_tops.length = slice_tops.length ∧
    (([slice_bottom] : List Blob).getD 0 default).shape_at slice_ready.slice_axis_ =
      ((6 : Nat) : Int) ∧
    ∃ N S : Nat, ∃ T : Nat → Nat,
      slice_ready.num_slices_ = (N : Int) ∧ slice_ready.slice_size_ = (S : Int) ∧
      slice_ready.num_slices_ = (([slice_bottom] : List Blob).getD 0 default).count_range 0 1 ∧
      slice_ready.slice_size_ =
        (([slice_bottom] : List Blob).getD 0 default).count_from (1 + 1) ∧
      (∀ i, i < slice_tops.length →
        (slice_ready_tops.getD i default).shape_at slice_ready.slice_axis_ = (T i : Int) ∧
        (T i : Int) = SliceLayer.spec_extent slice_example.slice_point_ 6 slice_tops.length i ∧
        (slice_ready_tops.getD i default).count = ((N * T i * S : Nat) : Int)) ∧
      (([slice_bottom] : List Blob).getD 0 default).count = ((N * 6 * S : Nat) : Int) ∧
      SliceLayer.offset T slice_tops.length = 6 :=
  Reshape_entry_state example_CanonicalAxisIndex (fun n => (n : Int)) slice_example
    [slice_bottom] slice_tops 1 6 (by decide) (by decide) (by decide) (by decide)
    (by norm_num) (by decide) (by norm_num [slice_tops]) (slice_ready, slice_ready_tops)
    slice_example_Reshape

end caffe
